import Mathlib

/-!
# multi-format-time: the `MultiFormatTime` JSON codec

A shallow embedding of `multi_format_time.go` together with the parts of the Go
standard library that decide its behaviour: `time.Parse`, `time.Time.Format`
(`time/format.go`) and the string case of `json.Marshal` (`encoding/json`).

Conventions.
* A Go `string` / `[]byte` is a list of bytes, `GoString := List Nat`; a byte is
  written as its numeric value, with the character in a comment.
* A `time.Time` is represented by what its accessors return: the civil date and
  clock reading in the value's own location (`Date`, `Clock`, `Nanosecond`) and
  that location's zone (`Zone`).  Locations are single-zone (fixed offset).
* `time.Local` is a parameter of `Parse` / `UnmarshalJSON`.
-/

namespace Mft

/-- A Go string: a sequence of bytes. -/
abbrev GoString := List Nat

/-- The bytes of an ASCII literal. -/
def B (s : String) : GoString := s.toList.map Char.toNat

/-! ## Layout constants of package `time` -/

def Layout : GoString := B "01/02 03:04:05PM '06 -0700"
def ANSIC : GoString := B "Mon Jan _2 15:04:05 2006"
def UnixDate : GoString := B "Mon Jan _2 15:04:05 MST 2006"
def RubyDate : GoString := B "Mon Jan 02 15:04:05 -0700 2006"
def RFC822 : GoString := B "02 Jan 06 15:04 MST"
def RFC822Z : GoString := B "02 Jan 06 15:04 -0700"
def RFC850 : GoString := B "Monday, 02-Jan-06 15:04:05 MST"
def RFC1123 : GoString := B "Mon, 02 Jan 2006 15:04:05 MST"
def RFC1123Z : GoString := B "Mon, 02 Jan 2006 15:04:05 -0700"
def RFC3339 : GoString := B "2006-01-02T15:04:05Z07:00"
def RFC3339Nano : GoString := B "2006-01-02T15:04:05.999999999Z07:00"
def Kitchen : GoString := B "3:04PM"
def Stamp : GoString := B "Jan _2 15:04:05"
def StampMilli : GoString := B "Jan _2 15:04:05.000"
def StampMicro : GoString := B "Jan _2 15:04:05.000000"
def StampNano : GoString := B "Jan _2 15:04:05.000000000"
def DateTime : GoString := B "2006-01-02 15:04:05"
def DateOnly : GoString := B "2006-01-02"
def TimeOnly : GoString := B "15:04:05"

/-! ## Layout elements (`std*` constants) and `nextStdChunk` -/

/-- The layout elements recognised by `nextStdChunk`.  The two fractional-second
elements carry their digit count and separator byte, which Go packs into the
upper bits of the `std` integer. -/
inductive Std where
  | stdLongMonth | stdMonth | stdNumMonth | stdZeroMonth
  | stdLongWeekDay | stdWeekDay
  | stdDay | stdUnderDay | stdZeroDay | stdUnderYearDay | stdZeroYearDay
  | stdHour | stdHour12 | stdZeroHour12
  | stdMinute | stdZeroMinute | stdSecond | stdZeroSecond
  | stdLongYear | stdYear
  | stdPM | stdpm
  | stdTZ
  | stdISO8601TZ | stdISO8601SecondsTZ | stdISO8601ShortTZ
  | stdISO8601ColonTZ | stdISO8601ColonSecondsTZ
  | stdNumTZ | stdNumSecondsTz | stdNumShortTZ | stdNumColonTZ | stdNumColonSecondsTZ
  | stdFracSecond0 (digits : Nat) (sep : Nat)
  | stdFracSecond9 (digits : Nat) (sep : Nat)
  deriving DecidableEq, Repr

open Std

/-- Go `startsWithLowerCase`. -/
def startsWithLowerCase : GoString → Bool
  | [] => false
  | c :: _ => decide (97 ≤ c) && decide (c ≤ 122)

/-- Go `isDigit(s, i)`: is there a decimal digit at index `i`. -/
def isDigit (s : GoString) (i : Nat) : Bool :=
  match s.drop i with
  | [] => false
  | c :: _ => decide (48 ≤ c) && decide (c ≤ 57)

/-- Does `s` start with the bytes `p` (Go: `len(s) >= len(p) && s[:len(p)] == p`). -/
def startsWith (p s : GoString) : Bool := p.isPrefixOf s

/-- The `std0x` table. -/
def std0x (k : Nat) : Std :=
  match k with
  | 0 => stdZeroMonth
  | 1 => stdZeroDay
  | 2 => stdZeroHour12
  | 3 => stdZeroMinute
  | 4 => stdZeroSecond
  | _ => stdYear

/-- One iteration of the scanning loop of `nextStdChunk`, at a position whose
remaining layout is `c :: rest`: `some (extra, std, k)` when an element starts
here, `none` when the byte is literal text.  `k` is the number of bytes of `rest`
that the element takes, so that Go's `suffix` is `rest.drop k`; `extra` is the
part of the match that still belongs to the literal text (non-empty only for
`_2006`). -/
def stdAtByte (c : Nat) (rest : GoString) : Option (GoString × Std × Nat) :=
  if c = 74 then -- 'J': January, Jan
    if startsWith (B "Jan") (c :: rest) then
      if startsWith (B "January") (c :: rest) then some ([], stdLongMonth, 6)
      else if !startsWithLowerCase (rest.drop 2) then some ([], stdMonth, 2)
      else none
    else none
  else if c = 77 then -- 'M': Monday, Mon, MST
    if 3 ≤ (c :: rest).length then
      if startsWith (B "Mon") (c :: rest) ∧ startsWith (B "Monday") (c :: rest) then
        some ([], stdLongWeekDay, 5)
      else if startsWith (B "Mon") (c :: rest) ∧ !startsWithLowerCase (rest.drop 2) then
        some ([], stdWeekDay, 2)
      else if startsWith (B "MST") (c :: rest) then some ([], stdTZ, 2)
      else none
    else none
  else if c = 48 then -- '0': 01, 02, 03, 04, 05, 06, 002
    if 49 ≤ rest.headD 0 ∧ rest.headD 0 ≤ 54 then some ([], std0x (rest.headD 0 - 49), 1)
    else if startsWith (B "002") (c :: rest) then some ([], stdZeroYearDay, 2)
    else none
  else if c = 49 then -- '1': 15, 1
    if startsWith (B "15") (c :: rest) then some ([], stdHour, 1)
    else some ([], stdNumMonth, 0)
  else if c = 50 then -- '2': 2006, 2
    if startsWith (B "2006") (c :: rest) then some ([], stdLongYear, 3)
    else some ([], stdDay, 0)
  else if c = 95 then -- '_': _2, _2006, __2
    if startsWith (B "_2") (c :: rest) then
      -- _2006 is really a literal _, followed by stdLongYear
      if startsWith (B "2006") rest then some ([95], stdLongYear, 4)
      else some ([], stdUnderDay, 1)
    else if startsWith (B "__2") (c :: rest) then some ([], stdUnderYearDay, 2)
    else none
  else if c = 51 then some ([], stdHour12, 0) -- '3'
  else if c = 52 then some ([], stdMinute, 0) -- '4'
  else if c = 53 then some ([], stdSecond, 0) -- '5'
  else if c = 80 then -- 'P': PM
    if startsWith (B "PM") (c :: rest) then some ([], stdPM, 1) else none
  else if c = 112 then -- 'p': pm
    if startsWith (B "pm") (c :: rest) then some ([], stdpm, 1) else none
  else if c = 45 then -- '-': -070000, -07:00:00, -0700, -07:00, -07
    if startsWith (B "-070000") (c :: rest) then some ([], stdNumSecondsTz, 6)
    else if startsWith (B "-07:00:00") (c :: rest) then some ([], stdNumColonSecondsTZ, 8)
    else if startsWith (B "-0700") (c :: rest) then some ([], stdNumTZ, 4)
    else if startsWith (B "-07:00") (c :: rest) then some ([], stdNumColonTZ, 5)
    else if startsWith (B "-07") (c :: rest) then some ([], stdNumShortTZ, 2)
    else none
  else if c = 90 then -- 'Z': Z070000, Z07:00:00, Z0700, Z07:00, Z07
    if startsWith (B "Z070000") (c :: rest) then some ([], stdISO8601SecondsTZ, 6)
    else if startsWith (B "Z07:00:00") (c :: rest) then some ([], stdISO8601ColonSecondsTZ, 8)
    else if startsWith (B "Z0700") (c :: rest) then some ([], stdISO8601TZ, 4)
    else if startsWith (B "Z07:00") (c :: rest) then some ([], stdISO8601ColonTZ, 5)
    else if startsWith (B "Z07") (c :: rest) then some ([], stdISO8601ShortTZ, 2)
    else none
  else if c = 46 ∨ c = 44 then -- '.', ',': fractional seconds .000 / .999
    if rest.headD 0 = 48 ∨ rest.headD 0 = 57 then
      -- the run of the digit, which must not be followed by another digit
      let n := (rest.takeWhile (fun x => x == rest.headD 0)).length
      if !isDigit rest n then
        some ([], (if rest.headD 0 = 57 then stdFracSecond9 (n % 4096) c
                    else stdFracSecond0 (n % 4096) c), n)
      else none
    else none
  else none

/-- Go `nextStdChunk`: the literal text before the first layout element, the
element (`none` is Go's `std == 0`), and the layout after it. -/
def nextStdChunk : GoString → GoString × Option Std × GoString
  | [] => ([], none, [])
  | c :: rest =>
    match stdAtByte c rest with
    | some (extra, std, k) => (extra, some std, rest.drop k)
    | none =>
      let r := nextStdChunk rest
      (c :: r.1, r.2.1, r.2.2)

/-- One step of the loops of `parse` and `appendFormat`: the literal text, the
element, and the element's own layout text (Go `stdstr`). -/
structure Chunk where
  lit : GoString
  std : Option Std
  text : GoString
  deriving DecidableEq, Repr

/-- The successive results of `nextStdChunk` on a layout, as the loops of `parse`
and `appendFormat` obtain them (`layout = suffix` after each element), up to and
including the final chunk without element.  Every element consumes at least one
byte, so `fuel > len(layout)` is never exhausted (`chunksFuel_stable`). -/
def chunksFuel : Nat → GoString → List Chunk
  | 0, _ => []
  | fuel + 1, layout =>
    match nextStdChunk layout with
    | (p, none, _) => [⟨p, none, []⟩]
    | (p, some s, suffix) =>
      ⟨p, some s, (layout.drop p.length).take (layout.length - p.length - suffix.length)⟩
        :: chunksFuel fuel suffix

/-- The chunks of a layout. -/
def layoutChunks (layout : GoString) : List Chunk := chunksFuel (layout.length + 1) layout

/-! ## Time values -/

/-- A `*time.Location` with a single zone: the zone abbreviation and its offset
in seconds east of UTC (what `Time.Zone` returns). -/
structure Location where
  name : GoString
  offset : Int
  deriving DecidableEq, Repr

/-- Go `time.UTC`. -/
def UTC : Location := ⟨B "UTC", 0⟩

/-- Go `time.FixedZone`. -/
def FixedZone (name : GoString) (offset : Int) : Location := ⟨name, offset⟩

/-- A `time.Time`, by its accessors: `Date()`, `Clock()`, `Nanosecond()` in the
value's location, and the location's zone. -/
structure Time where
  year : Int
  month : Nat
  day : Nat
  hour : Nat
  min : Nat
  sec : Nat
  nsec : Nat
  loc : Location
  deriving DecidableEq, Repr

/-- Go `isLeap`. -/
def isLeap (year : Int) : Bool := year % 4 == 0 && (year % 100 != 0 || year % 400 == 0)

/-- Go `daysBefore`: days in a non-leap year before month `m+1`. -/
def daysBefore (m : Nat) : Nat :=
  match m with
  | 0 => 0
  | 1 => 31
  | 2 => 59
  | 3 => 90
  | 4 => 120
  | 5 => 151
  | 6 => 181
  | 7 => 212
  | 8 => 243
  | 9 => 273
  | 10 => 304
  | 11 => 334
  | _ => 365

/-- Go `daysIn`. -/
def daysIn (m : Nat) (year : Int) : Nat :=
  if m = 2 ∧ isLeap year then 29 else daysBefore m - daysBefore (m - 1)

/-- Days from 1970-01-01 to January 1st of `year` in the proleptic Gregorian
calendar (Go `daysSinceEpoch`, rebased to the Unix epoch). -/
def daysSinceEpoch (year : Int) : Int :=
  365 * (year - 1970) + ((year - 1) / 4 - (year - 1) / 100 + (year - 1) / 400) - 477

/-- Days from 1970-01-01 to the given civil date (the day count inside Go `Date`). -/
def dateToDays (year : Int) (month day : Nat) : Int :=
  daysSinceEpoch year + daysBefore (month - 1)
    + (if isLeap year ∧ 3 ≤ month then 1 else 0) + ((day : Int) - 1)

/-- The valid values: fields in the ranges Go's accessors return. -/
def Time.Valid (t : Time) : Prop :=
  1 ≤ t.month ∧ t.month ≤ 12 ∧ 1 ≤ t.day ∧ t.day ≤ daysIn t.month t.year ∧
  t.hour < 24 ∧ t.min < 60 ∧ t.sec < 60 ∧ t.nsec < 1000000000

instance (t : Time) : Decidable t.Valid := by unfold Time.Valid; infer_instance

/-- Go `Time.Unix`: seconds since 1970-01-01T00:00:00Z. -/
def Time.Unix (t : Time) : Int :=
  dateToDays t.year t.month t.day * 86400 + t.hour * 3600 + t.min * 60 + t.sec - t.loc.offset

/-- Go `Time.Equal`: the same instant, whatever the location. -/
def Time.Equal (t u : Time) : Prop := t.Unix = u.Unix ∧ t.nsec = u.nsec

instance (t u : Time) : Decidable (t.Equal u) := by unfold Time.Equal; infer_instance

/-- Go `Time.Weekday` (0 = Sunday); 1970-01-01 was a Thursday. -/
def Time.Weekday (t : Time) : Nat := ((dateToDays t.year t.month t.day + 4) % 7).toNat

/-- The civil date of a day count: the inverse of `dateToDays` (Go `absDate`),
computed on years that start in March within 400-year eras. -/
def daysToDate (days : Int) : Int × Nat × Nat :=
  let z := days + 719468             -- days since 0000-03-01
  let era := z / 146097
  let doe := (z % 146097).toNat      -- day of era
  let yoe := (doe - doe / 1460 + doe / 36524 - doe / 146096) / 365
  let doy := doe - (365 * yoe + yoe / 4 - yoe / 100)   -- day of the March-based year
  let mp := (5 * doy + 2) / 153
  let d := doy - (153 * mp + 2) / 5 + 1
  let m := if mp < 10 then mp + 3 else mp - 9
  ((yoe : Int) + era * 400 + (if m ≤ 2 then 1 else 0), m, d)

/-- Go `Time.addSec` followed by re-reading the civil fields: the value `d`
seconds later, in the same location. -/
def Time.addSec (t : Time) (d : Int) : Time :=
  let total := dateToDays t.year t.month t.day * 86400 + t.hour * 3600 + t.min * 60 + t.sec + d
  let days := total / 86400
  let rem := (total % 86400).toNat
  let ymd := daysToDate days
  { t with year := ymd.1, month := ymd.2.1, day := ymd.2.2,
           hour := rem / 3600, min := rem % 3600 / 60, sec := rem % 60 }

/-! ## Formatting: `Time.Format` -/

/-- Decimal digits of `u`, most significant first (`fuel` bounds the digit count). -/
def utoaAux : Nat → Nat → GoString → GoString
  | 0, _, acc => acc
  | fuel + 1, u, acc =>
    if u < 10 then (48 + u) :: acc else utoaAux fuel (u / 10) ((48 + u % 10) :: acc)

/-- Decimal representation of a natural number. -/
def utoa (u : Nat) : GoString := utoaAux (u + 1) u []

/-- Go `appendInt`: decimal text of `x`, zero-padded to `width`, after a `-` for
negative values.  The two- and four-digit cases are Go's fast paths. -/
def appendInt (x : Int) (width : Nat) : GoString :=
  let u := x.natAbs
  let sign : GoString := if x < 0 then [45] else []
  if width = 2 ∧ u < 100 then sign ++ [48 + u / 10, 48 + u % 10]
  else if width = 4 ∧ u < 10000 then
    sign ++ [48 + u / 1000, 48 + u / 100 % 10, 48 + u / 10 % 10, 48 + u % 10]
  else sign ++ List.replicate (width - (utoa u).length) 48 ++ utoa u

/-- Drop trailing bytes equal to `c`. -/
def trimRight (c : Nat) (s : GoString) : GoString :=
  (s.reverse.dropWhile (fun x => x == c)).reverse

/-- Go `appendNano`: the fractional second with `n` digits after separator `sep`;
`trim` (the `.999` form) removes trailing zeros and a then-trailing separator. -/
def appendNano (nanosec : Nat) (n : Nat) (sep : Nat) (trim : Bool) : GoString :=
  if trim ∧ (n = 0 ∨ nanosec = 0) then []
  else
    let ds := (appendInt nanosec 9).take n
    if trim then
      match trimRight 48 ds with
      | [] => []
      | r => sep :: r
    else sep :: ds

def longDayNames : List GoString :=
  [B "Sunday", B "Monday", B "Tuesday", B "Wednesday", B "Thursday", B "Friday", B "Saturday"]

def shortDayNames : List GoString :=
  [B "Sun", B "Mon", B "Tue", B "Wed", B "Thu", B "Fri", B "Sat"]

def shortMonthNames : List GoString :=
  [B "Jan", B "Feb", B "Mar", B "Apr", B "May", B "Jun",
   B "Jul", B "Aug", B "Sep", B "Oct", B "Nov", B "Dec"]

def longMonthNames : List GoString :=
  [B "January", B "February", B "March", B "April", B "May", B "June",
   B "July", B "August", B "September", B "October", B "November", B "December"]

/-- Go `Month.String`. -/
def monthString (m : Nat) : GoString :=
  if 1 ≤ m ∧ m ≤ 12 then longMonthNames.getD (m - 1) []
  else B "%!Month(" ++ utoa m ++ B ")"

/-- Go `Weekday.String`. -/
def weekdayString (d : Nat) : GoString := longDayNames.getD d []

/-- The numeric zone `+hh[:]mm[[:]ss]` of `appendFormat`, for the `-07..` and
`Z07..` elements when `Z` does not apply. -/
def appendZone (offset : Int) (colon short seconds : Bool) : GoString :=
  let zone0 := Int.tdiv offset 60
  let absoffset0 := Int.tmod offset 60
  let sign : GoString := if zone0 < 0 then [45] else [43]
  let zone := if zone0 < 0 then -zone0 else zone0
  let absoffset := if zone0 < 0 then -absoffset0 else absoffset0
  sign ++ appendInt (Int.tdiv zone 60) 2
    ++ (if colon then [58] else [])
    ++ (if short then [] else appendInt (Int.tmod zone 60) 2)
    ++ (if seconds then (if colon then [58] else []) ++ appendInt absoffset 2 else [])

/-- The text `appendFormat` produces for one layout element. -/
def formatStd (t : Time) (std : Std) : GoString :=
  match std with
  | stdYear => appendInt ((if t.year < 0 then -t.year else t.year) % 100) 2
  | stdLongYear => appendInt t.year 4
  | stdMonth => (monthString t.month).take 3
  | stdLongMonth => monthString t.month
  | stdNumMonth => appendInt t.month 0
  | stdZeroMonth => appendInt t.month 2
  | stdWeekDay => (weekdayString t.Weekday).take 3
  | stdLongWeekDay => weekdayString t.Weekday
  | stdDay => appendInt t.day 0
  | stdUnderDay => (if t.day < 10 then [32] else []) ++ appendInt t.day 0
  | stdZeroDay => appendInt t.day 2
  | stdUnderYearDay =>
    let yday := daysBefore (t.month - 1) + (if isLeap t.year ∧ 3 ≤ t.month then 1 else 0) + t.day
    (if yday < 100 then 32 :: (if yday < 10 then [32] else []) else []) ++ appendInt yday 0
  | stdZeroYearDay =>
    let yday := daysBefore (t.month - 1) + (if isLeap t.year ∧ 3 ≤ t.month then 1 else 0) + t.day
    appendInt yday 3
  | stdHour => appendInt t.hour 2
  | stdHour12 => appendInt (if t.hour % 12 = 0 then 12 else t.hour % 12 : Nat) 0
  | stdZeroHour12 => appendInt (if t.hour % 12 = 0 then 12 else t.hour % 12 : Nat) 2
  | stdMinute => appendInt t.min 0
  | stdZeroMinute => appendInt t.min 2
  | stdSecond => appendInt t.sec 0
  | stdZeroSecond => appendInt t.sec 2
  | stdPM => if 12 ≤ t.hour then B "PM" else B "AM"
  | stdpm => if 12 ≤ t.hour then B "pm" else B "am"
  | stdISO8601TZ => if t.loc.offset = 0 then [90] else appendZone t.loc.offset false false false
  | stdISO8601ColonTZ => if t.loc.offset = 0 then [90] else appendZone t.loc.offset true false false
  | stdISO8601SecondsTZ =>
    if t.loc.offset = 0 then [90] else appendZone t.loc.offset false false true
  | stdISO8601ShortTZ => if t.loc.offset = 0 then [90] else appendZone t.loc.offset false true false
  | stdISO8601ColonSecondsTZ =>
    if t.loc.offset = 0 then [90] else appendZone t.loc.offset true false true
  | stdNumTZ => appendZone t.loc.offset false false false
  | stdNumColonTZ => appendZone t.loc.offset true false false
  | stdNumSecondsTz => appendZone t.loc.offset false false true
  | stdNumShortTZ => appendZone t.loc.offset false true false
  | stdNumColonSecondsTZ => appendZone t.loc.offset true false true
  | stdTZ =>
    if t.loc.name ≠ [] then t.loc.name
    else appendZone t.loc.offset false false false
  | stdFracSecond0 n sep => appendNano t.nsec n sep false
  | stdFracSecond9 n sep => appendNano t.nsec n sep true

/-- The loop of `appendFormat` over the chunks of the layout. -/
def formatChunks (t : Time) : List Chunk → GoString
  | [] => []
  | c :: rest =>
    match c.std with
    | none => c.lit
    | some std => c.lit ++ formatStd t std ++ formatChunks t rest

/-- Go `Time.appendFormat` (on an empty buffer). -/
def appendFormat (t : Time) (layout : GoString) : GoString :=
  if layout = [] then [] else formatChunks t (layoutChunks layout)

/-- Go `Time.appendFormatRFC3339`. -/
def appendFormatRFC3339 (t : Time) (nanos : Bool) : GoString :=
  appendInt t.year 4 ++ [45] ++ appendInt t.month 2 ++ [45] ++ appendInt t.day 2 ++ [84]
    ++ appendInt t.hour 2 ++ [58] ++ appendInt t.min 2 ++ [58] ++ appendInt t.sec 2
    ++ (if nanos then appendNano t.nsec 9 46 true else [])
    ++ (if t.loc.offset = 0 then [90]
        else
          let zone0 := Int.tdiv t.loc.offset 60
          let sign : GoString := if zone0 < 0 then [45] else [43]
          let zone := if zone0 < 0 then -zone0 else zone0
          sign ++ appendInt (Int.tdiv zone 60) 2 ++ [58] ++ appendInt (Int.tmod zone 60) 2)

/-- Go `Time.Format`: `AppendFormat` with its fast path for the two RFC 3339 layouts. -/
def Time.Format (t : Time) (layout : GoString) : GoString :=
  if layout = RFC3339 then appendFormatRFC3339 t false
  else if layout = RFC3339Nano then appendFormatRFC3339 t true
  else appendFormat t layout

/-! ## Parsing: `time.Parse` -/

/-- The message part of a `*time.ParseError`. -/
inductive ParseMsg where
  /-- The empty message. -/
  | plain
  /-- The message `": extra text: " + quote(value)`. -/
  | extraText (value : GoString)
  /-- The message `": " + what + " out of range"`. -/
  | outOfRange (what : GoString)
  /-- The message `": day-of-year does not match month"`. -/
  | ydayMonth
  /-- The message `": day-of-year does not match day"`. -/
  | ydayDay
  deriving DecidableEq, Repr

/-- Go `time.ParseError`. -/
structure ParseError where
  Layout : GoString
  Value : GoString
  LayoutElem : GoString
  ValueElem : GoString
  Message : ParseMsg
  deriving DecidableEq, Repr

/-- Go `cutspace`. -/
def cutspace : GoString → GoString
  | [] => []
  | c :: rest => if c = 32 then cutspace rest else c :: rest

/-- Go `skip`: remove the literal text `pre` from `value`, a run of spaces in
`pre` matching any run of spaces in `value`.  `inRun` holds while the rest of a run
of spaces of `pre` is being dropped (Go's `prefix = cutspace(prefix)`).  On
failure the error carries the value text that remained. -/
def skipAux : Bool → GoString → GoString → Except GoString GoString
  | _, [], value => .ok value
  | inRun, p :: ps, value =>
    if p = 32 then
      if inRun then skipAux true ps value
      else
        match value with
        | [] => skipAux true ps []
        | c :: vs => if c ≠ 32 then .error value else skipAux true ps (cutspace (c :: vs))
    else
      match value with
      | [] => .error value
      | c :: vs => if c ≠ p then .error value else skipAux false ps vs

/-- Go `skip`. -/
def skip (value pre : GoString) : Except GoString GoString := skipAux false pre value

/-- Is the byte a decimal digit. -/
def isDig (c : Nat) : Bool := decide (48 ≤ c) && decide (c ≤ 57)

/-- Go `getnum`: a one- or two-digit number (exactly two digits when `fixed`). -/
def getnum (s : GoString) (fixed : Bool) : Option (Nat × GoString) :=
  match s with
  | [] => none
  | [a] => if isDig a then (if fixed then none else some (a - 48, [])) else none
  | a :: b :: rest =>
    if isDig a then
      if isDig b then some ((a - 48) * 10 + (b - 48), rest)
      else if fixed then none
      else some (a - 48, b :: rest)
    else none

/-- Go `getnum3`: a number of up to three digits (exactly three when `fixed`). -/
def getnum3 (s : GoString) (fixed : Bool) : Option (Nat × GoString) :=
  let ds := (s.take 3).takeWhile isDig
  if ds.length = 0 ∨ (fixed ∧ ds.length ≠ 3) then none
  else some (ds.foldl (fun n c => n * 10 + (c - 48)) 0, s.drop ds.length)

/-- Go `leadingInt` (on an accumulator): the leading decimal digits and the rest,
or `none` on overflow past `1 << 63`. -/
def leadingIntAux (x : Nat) : GoString → Option (Nat × GoString)
  | [] => some (x, [])
  | c :: rest =>
    if c < 48 ∨ c > 57 then some (x, c :: rest)
    else if x > 2 ^ 63 / 10 then none
    else if x * 10 + c - 48 > 2 ^ 63 then none
    else leadingIntAux (x * 10 + c - 48) rest

/-- Go `leadingInt`. -/
def leadingInt (s : GoString) : Option (Nat × GoString) := leadingIntAux 0 s

/-- Go `atoi`: an optionally signed decimal number filling the whole string. -/
def atoi (s : GoString) : Option Int :=
  let neg := match s with
    | c :: _ => decide (c = 45)
    | [] => false
  let s1 := match s with
    | c :: rest => if c = 45 ∨ c = 43 then rest else s
    | [] => s
  match leadingInt s1 with
  | none => none
  | some (q, rem) =>
    if rem ≠ [] then none
    else
      let x : Int := if q < 2 ^ 63 then (q : Int) else (q : Int) - 2 ^ 64  -- int(q)
      some (if neg then -x else x)

/-- Go `match`: equality of same-length strings ignoring ASCII case. -/
def matchFold : GoString → GoString → Bool
  | c1 :: r1, c2 :: r2 =>
    if c1 ≠ c2 then
      if (c1 ||| 32) ≠ (c2 ||| 32) ∨ (c1 ||| 32) < 97 ∨ (c1 ||| 32) > 122 then false
      else matchFold r1 r2
    else matchFold r1 r2
  | _, _ => true

/-- Go `lookup` from index `i`: the index of the first table entry that `val`
starts with (ignoring case), and the rest of `val`. -/
def lookupFrom (i : Nat) : List GoString → GoString → Option (Nat × GoString)
  | [], _ => none
  | v :: tab, val =>
    if v.length ≤ val.length ∧ matchFold (val.take v.length) v then some (i, val.drop v.length)
    else lookupFrom (i + 1) tab val

/-- Go `lookup`. -/
def lookup (tab : List GoString) (val : GoString) : Option (Nat × GoString) :=
  lookupFrom 0 tab val

/-- Go `commaOrPeriod`. -/
def commaOrPeriod (c : Nat) : Bool := decide (c = 46) || decide (c = 44)

/-- Go `parseNanoseconds(value, nbytes)`: the nanoseconds, the range error text
(empty when none) and whether `err != nil`. -/
def parseNanoseconds (value : GoString) (nbytes : Nat) : Int × GoString × Bool :=
  if !commaOrPeriod (value.headD 0) then (0, [], true)
  else
    let nb := if nbytes > 10 then 10 else nbytes
    let v := if nbytes > 10 then value.take 10 else value
    match atoi ((v.take nb).drop 1) with
    | none => (0, [], true)
    | some ns =>
      if ns < 0 then (ns, B "fractional second", false)
      else (ns * 10 ^ (10 - nb), [], false)

/-- Go `parseSignedOffset`. -/
def parseSignedOffset (value : GoString) : Nat :=
  match value with
  | [] => 0
  | sign :: rest =>
    if sign ≠ 45 ∧ sign ≠ 43 then 0
    else
      match leadingInt rest with
      | none => 0
      | some (x, rem) =>
        if rest = rem then 0
        else if x > 23 then 0
        else value.length - rem.length

/-- Go `parseGMT`. -/
def parseGMT (value : GoString) : Nat :=
  let v := value.drop 3
  if v.length = 0 then 3 else 3 + parseSignedOffset v

/-- Go `parseTimeZone`: the length of the time-zone abbreviation that `value`
starts with, if any. -/
def parseTimeZone (value : GoString) : Nat × Bool :=
  if value.length < 3 then (0, false)
  else if startsWith (B "ChST") value ∨ startsWith (B "MeST") value then (4, true)
  else if startsWith (B "GMT") value then (parseGMT value, true)
  else if value.headD 0 = 43 ∨ value.headD 0 = 45 then
    (parseSignedOffset value, decide (0 < parseSignedOffset value))
  else
    let nUpper := ((value.take 6).takeWhile (fun c => decide (65 ≤ c) && decide (c ≤ 90))).length
    if nUpper = 5 then (if value.getD 4 0 = 84 then (5, true) else (0, false))
    else if nUpper = 4 then
      (if value.getD 3 0 = 84 ∨ startsWith (B "WITA") value then (4, true) else (0, false))
    else if nUpper = 3 then (3, true)
    else (0, false)

/-- The local variables of Go `parse`.  `month`, `day` and `yday` are `none`
until seen (Go: `-1`); `z` is `nil` or `UTC`. -/
structure PState where
  year : Int := 0
  month : Option Nat := none
  day : Option Nat := none
  yday : Option Nat := none
  hour : Nat := 0
  min : Nat := 0
  sec : Nat := 0
  nsec : Nat := 0
  z : Option Location := none
  zoneOffset : Int := -1
  zoneName : GoString := []
  amSet : Bool := false
  pmSet : Bool := false
  deriving DecidableEq, Repr

/-- The outcome of the `switch std & stdMask` of one iteration of `parse`. -/
structure StepOut where
  st : PState
  value : GoString
  rangeErr : GoString := []
  err : Bool := false
  deriving DecidableEq, Repr

/-- The numeric time-zone cases of `parse`: split `value` into sign, hour,
minute and second texts after the length checks, then read them. -/
def parseZoneOffset (std : Std) (value : GoString) (st : PState) : StepOut :=
  let isoZ := decide (std = stdISO8601TZ ∨ std = stdISO8601ShortTZ ∨ std = stdISO8601ColonTZ)
  if isoZ ∧ value.headD 0 = 90 ∧ 1 ≤ value.length then
    { st := { st with z := some UTC }, value := value.drop 1 }
  else
    let bad : StepOut := { st := st, value := value, err := true }
    -- (sign, hour, min, seconds, rest), or none for errBad
    let parts : Option (GoString × GoString × GoString × GoString × GoString) :=
      if std = stdISO8601ColonTZ ∨ std = stdNumColonTZ then
        if value.length < 6 then none
        else if value.getD 3 0 ≠ 58 then none
        else some (value.take 1, (value.take 3).drop 1, (value.take 6).drop 4, B "00", value.drop 6)
      else if std = stdNumShortTZ ∨ std = stdISO8601ShortTZ then
        if value.length < 3 then none
        else some (value.take 1, (value.take 3).drop 1, B "00", B "00", value.drop 3)
      else if std = stdISO8601ColonSecondsTZ ∨ std = stdNumColonSecondsTZ then
        if value.length < 9 then none
        else if value.getD 3 0 ≠ 58 ∨ value.getD 6 0 ≠ 58 then none
        else some (value.take 1, (value.take 3).drop 1, (value.take 6).drop 4,
                   (value.take 9).drop 7, value.drop 9)
      else if std = stdISO8601SecondsTZ ∨ std = stdNumSecondsTz then
        if value.length < 7 then none
        else some (value.take 1, (value.take 3).drop 1, (value.take 5).drop 3,
                   (value.take 7).drop 5, value.drop 7)
      else
        if value.length < 5 then none
        else some (value.take 1, (value.take 3).drop 1, (value.take 5).drop 3, B "00", value.drop 5)
    match parts with
    | none => bad
    | some (sign, hour, min, seconds, rest) =>
      let hr := getnum hour true
      let mm := if hr.isSome then getnum min true else none
      let ss := if hr.isSome ∧ mm.isSome then getnum seconds true else none
      let hrv := (hr.map (·.1)).getD 0
      let mmv := (mm.map (·.1)).getD 0
      let ssv := (ss.map (·.1)).getD 0
      let err1 := !(hr.isSome && mm.isSome && ss.isSome)
      let rangeErr : GoString :=
        if ssv > 60 then B "time zone offset second"
        else if mmv > 60 then B "time zone offset minute"
        else if hrv > 24 then B "time zone offset hour"
        else []
      let off : Int := ((hrv * 60 + mmv) * 60 + ssv : Nat)
      let s0 := sign.headD 0
      { st := { st with zoneOffset := if s0 = 45 then -off else off }
        value := rest
        rangeErr := rangeErr
        err := err1 || decide (s0 ≠ 43 ∧ s0 ≠ 45) }

/-- The `switch std & stdMask` of `parse` for one element; `next` is the element
that follows in the layout (for the fractional-second special case). -/
def parseStd (std : Std) (next : Option Std) (value : GoString) (st : PState) : StepOut :=
  let bad : StepOut := { st := st, value := value, err := true }
  match std with
  | stdYear =>
    if value.length < 2 then bad
    else
      match atoi (value.take 2) with
      | none => { st := st, value := value.drop 2, err := true }
      | some y =>
        { st := { st with year := if y ≥ 69 then y + 1900 else y + 2000 }, value := value.drop 2 }
  | stdLongYear =>
    if value.length < 4 ∨ !isDigit value 0 then bad
    else
      match atoi (value.take 4) with
      | none => { st := st, value := value.drop 4, err := true }
      | some y => { st := { st with year := y }, value := value.drop 4 }
  | stdMonth =>
    match lookup shortMonthNames value with
    | none => bad
    | some (i, rest) => { st := { st with month := some (i + 1) }, value := rest }
  | stdLongMonth =>
    match lookup longMonthNames value with
    | none => bad
    | some (i, rest) => { st := { st with month := some (i + 1) }, value := rest }
  | stdNumMonth | stdZeroMonth =>
    match getnum value (std = stdZeroMonth) with
    | none => bad
    | some (m, rest) =>
      { st := { st with month := some m }, value := rest,
        rangeErr := if m = 0 ∨ 12 < m then B "month" else [] }
  | stdWeekDay =>
    match lookup shortDayNames value with
    | none => bad
    | some (_, rest) => { st := st, value := rest }
  | stdLongWeekDay =>
    match lookup longDayNames value with
    | none => bad
    | some (_, rest) => { st := st, value := rest }
  | stdDay | stdUnderDay | stdZeroDay =>
    let value1 := if std = stdUnderDay ∧ value.headD 0 = 32 ∧ 0 < value.length
      then value.drop 1 else value
    match getnum value1 (std = stdZeroDay) with
    | none => { st := st, value := value1, err := true }
    | some (d, rest) => { st := { st with day := some d }, value := rest }
  | stdUnderYearDay | stdZeroYearDay =>
    let cut := fun (v : GoString) =>
      if std = stdUnderYearDay ∧ v.headD 0 = 32 ∧ 0 < v.length then v.drop 1 else v
    let value1 := cut (cut value)
    match getnum3 value1 (std = stdZeroYearDay) with
    | none => { st := st, value := value1, err := true }
    | some (d, rest) => { st := { st with yday := some d }, value := rest }
  | stdHour =>
    match getnum value false with
    | none => bad
    | some (h, rest) =>
      { st := { st with hour := h }, value := rest, rangeErr := if 24 ≤ h then B "hour" else [] }
  | stdHour12 | stdZeroHour12 =>
    match getnum value (std = stdZeroHour12) with
    | none => bad
    | some (h, rest) =>
      { st := { st with hour := h }, value := rest, rangeErr := if 12 < h then B "hour" else [] }
  | stdMinute | stdZeroMinute =>
    match getnum value (std = stdZeroMinute) with
    | none => bad
    | some (m, rest) =>
      { st := { st with min := m }, value := rest, rangeErr := if 60 ≤ m then B "minute" else [] }
  | stdSecond | stdZeroSecond =>
    match getnum value (std = stdZeroSecond) with
    | none => bad
    | some (sec, rest) =>
      if 60 ≤ sec then { st := { st with sec := sec }, value := rest, rangeErr := B "second" }
      else
        -- Special case: a fractional second in the input but none in the layout.
        if 2 ≤ rest.length ∧ commaOrPeriod (rest.headD 0) ∧ isDigit rest 1 then
          match next with
          | some (stdFracSecond0 _ _) => { st := { st with sec := sec }, value := rest }
          | some (stdFracSecond9 _ _) => { st := { st with sec := sec }, value := rest }
          | _ =>
            let n := 2 + ((rest.drop 2).takeWhile isDig).length
            let r := parseNanoseconds rest n
            { st := { st with sec := sec, nsec := r.1.toNat }, value := rest.drop n,
              rangeErr := r.2.1, err := r.2.2 }
        else { st := { st with sec := sec }, value := rest }
  | stdPM =>
    if value.length < 2 then bad
    else if value.take 2 = B "PM" then { st := { st with pmSet := true }, value := value.drop 2 }
    else if value.take 2 = B "AM" then { st := { st with amSet := true }, value := value.drop 2 }
    else { st := st, value := value.drop 2, err := true }
  | stdpm =>
    if value.length < 2 then bad
    else if value.take 2 = B "pm" then { st := { st with pmSet := true }, value := value.drop 2 }
    else if value.take 2 = B "am" then { st := { st with amSet := true }, value := value.drop 2 }
    else { st := st, value := value.drop 2, err := true }
  | stdISO8601TZ | stdISO8601ColonTZ | stdISO8601SecondsTZ | stdISO8601ShortTZ
  | stdISO8601ColonSecondsTZ | stdNumTZ | stdNumShortTZ | stdNumColonTZ | stdNumSecondsTz
  | stdNumColonSecondsTZ => parseZoneOffset std value st
  | stdTZ =>
    -- Does it look like a time zone?
    if startsWith (B "UTC") value then { st := { st with z := some UTC }, value := value.drop 3 }
    else
      let r := parseTimeZone value
      if !r.2 then bad
      else { st := { st with zoneName := value.take r.1 }, value := value.drop r.1 }
  | stdFracSecond0 digits _ =>
    -- stdFracSecond0 requires the exact number of digits as specified in the layout.
    let ndigit := 1 + digits
    if value.length < ndigit then bad
    else
      let r := parseNanoseconds value ndigit
      { st := { st with nsec := r.1.toNat }, value := value.drop ndigit,
        rangeErr := r.2.1, err := r.2.2 }
  | stdFracSecond9 _ _ =>
    if value.length < 2 ∨ !commaOrPeriod (value.headD 0) ∨ !isDigit value 1 then
      -- Fractional second omitted.
      { st := st, value := value }
    else
      -- Take any number of digits, even more than asked for.
      let i := ((value.drop 1).takeWhile isDig).length
      let r := parseNanoseconds value (1 + i)
      { st := { st with nsec := r.1.toNat }, value := value.drop (1 + i),
        rangeErr := r.2.1, err := r.2.2 }

/-- Go `Date`, for fields already in range (as `parse` has checked them): the
value with these civil fields in `loc`. -/
def Date (year : Int) (month day hour min sec nsec : Nat) (loc : Location) : Time :=
  ⟨year, month, day, hour, min, sec, nsec, loc⟩

/-- The end of Go `parse`, first part: month and day, from the day of year when
the layout had one (which must agree with a month and day also seen), else from
the month and day seen or their default 1.  The error is the message of the
`ParseError` returned. -/
def finishDate (st : PState) : Except ParseMsg (Nat × Nat) :=
  match st.yday with
  | some yday0 =>
    let feb29 := decide (isLeap st.year ∧ yday0 = 31 + 29)
    let yday := if isLeap st.year ∧ yday0 > 31 + 29 then yday0 - 1 else yday0
    if yday < 1 ∨ yday > 365 then .error (.outOfRange (B "day-of-year"))
    else
      let m0 := (yday - 1) / 31 + 1
      let m := if feb29 then 2 else if daysBefore m0 < yday then m0 + 1 else m0
      let d := if feb29 then 29 else yday - daysBefore (m - 1)
      if st.month.isSome ∧ st.month ≠ some m then .error .ydayMonth
      else if st.day.isSome ∧ st.day ≠ some d then .error .ydayDay
      else .ok (m, d)
  | none => .ok (st.month.getD 1, st.day.getD 1)

/-- The end of Go `parse`, last part: the value returned for the fields read,
in the location chosen from `z`, the numeric offset, or the zone abbreviation. -/
def finishTime (loc : Location) (st : PState) (month day : Nat) : Time :=
  let hour := if st.pmSet ∧ st.hour < 12 then st.hour + 12
    else if st.amSet ∧ st.hour = 12 then 0 else st.hour
  match st.z with
  | some z => Date st.year month day hour st.min st.sec st.nsec z
  | none =>
    if st.zoneOffset ≠ -1 then
      -- Look for local zone with the given offset.  If a match is found, use it.
      if loc.offset = st.zoneOffset ∧ (st.zoneName = [] ∨ loc.name = st.zoneName) then
        Date st.year month day hour st.min st.sec st.nsec loc
      else
        -- Otherwise create fake zone.
        Date st.year month day hour st.min st.sec st.nsec (FixedZone st.zoneName st.zoneOffset)
    else if st.zoneName ≠ [] then
      -- Look for local zone with the given name.
      if loc.name = st.zoneName then
        Date st.year month day hour st.min st.sec st.nsec loc
      else
        -- Otherwise, create fake zone with unknown offset.
        -- The fields are read as UTC and the zone is attached afterwards, so the
        -- civil reading moves by the offset (non-zero only for `GMT+n`).
        if 3 < st.zoneName.length ∧ st.zoneName.take 3 = B "GMT" then
          (Date st.year month day hour st.min st.sec st.nsec
            (FixedZone st.zoneName ((atoi (st.zoneName.drop 3)).getD 0 * 3600))).addSec
              ((atoi (st.zoneName.drop 3)).getD 0 * 3600)
        else
          Date st.year month day hour st.min st.sec st.nsec (FixedZone st.zoneName 0)
    else
      -- Otherwise, fall back to default.
      Date st.year month day hour st.min st.sec st.nsec UTC

/-- The end of Go `parse`, after the loop: AM/PM, day of year, validation of the
day of the month, and the choice of location. -/
def parseFinish (loc : Location) (alayout avalue value : GoString) (st : PState) :
    Except ParseError Time :=
  match finishDate st with
  | .error msg => .error ⟨alayout, avalue, [], value, msg⟩
  | .ok (month, day) =>
    -- Validate the day of the month.
    if day < 1 ∨ day > daysIn month st.year then
      .error ⟨alayout, avalue, [], value, .outOfRange (B "day")⟩
    else .ok (finishTime loc st month day)

/-- The loop of Go `parse` over the chunks of the layout. -/
def parseChunks (loc : Location) (alayout avalue : GoString) :
    List Chunk → GoString → PState → Except ParseError Time
  | [], value, _ => .error ⟨alayout, avalue, [], value, .plain⟩
  | c :: rest, value, st =>
    match skip value c.lit with
    | .error v => .error ⟨alayout, avalue, c.lit, v, .plain⟩
    | .ok value1 =>
      match c.std with
      | none =>
        if value1 ≠ [] then .error ⟨alayout, avalue, [], value1, .extraText value1⟩
        else parseFinish loc alayout avalue value1 st
      | some std =>
        let out := parseStd std ((rest.head?).bind (·.std)) value1 st
        if out.rangeErr ≠ [] then
          .error ⟨alayout, avalue, c.text, out.value, .outOfRange out.rangeErr⟩
        else if out.err then .error ⟨alayout, avalue, c.text, value1, .plain⟩
        else parseChunks loc alayout avalue rest out.value out.st

/-- Go `time.Parse(layout, value)` with `time.Local = loc`, for layouts other
than the bare `RFC3339` / `RFC3339Nano` constants (which have a fast path in Go;
`UnmarshalJSON` only passes layouts wrapped in double quotes). -/
def Parse (loc : Location) (layout value : GoString) : Except ParseError Time :=
  parseChunks loc layout value (layoutChunks layout) value {}

/-! ## `json.Marshal` of a string -/

/-- The table `hex = "0123456789abcdef"`. -/
def hexDigit (n : Nat) : Nat := if n < 10 then 48 + n else 87 + n

/-- Go `htmlSafeSet`: the ASCII bytes that `json.Marshal` copies unescaped. -/
def htmlSafe (b : Nat) : Bool :=
  decide (32 ≤ b) && decide (b < 128) && decide (b ≠ 34) && decide (b ≠ 38)
    && decide (b ≠ 60) && decide (b ≠ 62) && decide (b ≠ 92)

/-- The escape sequence for an ASCII byte outside `htmlSafeSet`. -/
def escapeByte (b : Nat) : GoString :=
  if b = 92 ∨ b = 34 then [92, b]
  else if b = 8 then [92, 98]
  else if b = 12 then [92, 102]
  else if b = 10 then [92, 110]
  else if b = 13 then [92, 114]
  else if b = 9 then [92, 116]
  else [92, 117, 48, 48, hexDigit (b / 16), hexDigit (b % 16)]

/-- The size of the UTF-8 encoding that starts `s` (first byte `>= 0x80`), as
`utf8.DecodeRuneInString` finds it; `0` when the bytes are not valid UTF-8. -/
def runeLen (s : GoString) : Nat :=
  let cont := fun (b : Nat) => decide (128 ≤ b) && decide (b ≤ 191)
  match s with
  | b0 :: b1 :: rest =>
    let lo := if b0 = 224 then 160 else if b0 = 240 then 144 else 128
    let hi := if b0 = 237 then 159 else if b0 = 244 then 143 else 191
    if b1 < lo ∨ hi < b1 then 0
    else if 194 ≤ b0 ∧ b0 ≤ 223 then 2
    else if 224 ≤ b0 ∧ b0 ≤ 239 then (if cont (rest.headD 0) then 3 else 0)
    else if 240 ≤ b0 ∧ b0 ≤ 244 then
      (if cont (rest.headD 0) ∧ cont ((rest.drop 1).headD 0) then 4 else 0)
    else 0
  | _ => 0

/-- The body of Go `appendString` with `escapeHTML = true`.  `k` counts the
remaining bytes of a multi-byte rune already decoded, which are copied when
`keep` and dropped otherwise (after the escape written for U+2028 / U+2029).
A byte that starts no valid UTF-8 sequence is replaced by U+FFFD, written as its
three bytes `EF BF BD`. -/
def appendStringAux : Nat → Bool → GoString → GoString
  | _, _, [] => []
  | k + 1, keep, b :: rest => (if keep then [b] else []) ++ appendStringAux k keep rest
  | 0, _, b :: rest =>
    if b < 128 then
      (if htmlSafe b then [b] else escapeByte b) ++ appendStringAux 0 true rest
    else
      let size := runeLen (b :: rest)
      if size = 0 then [239, 191, 189] ++ appendStringAux 0 true rest
      else if b = 226 ∧ rest.headD 0 = 128 ∧ ((rest.drop 1).headD 0 = 168 ∨ (rest.drop 1).headD 0 = 169)
      then B "\\u202" ++ [hexDigit ((rest.drop 1).headD 0 % 16)] ++ appendStringAux (size - 1) false rest
      else b :: appendStringAux (size - 1) true rest

/-- Go `json.Marshal(v)` for a string `v`: the quoted, escaped text and a nil
error (encoding a string cannot fail). -/
def jsonMarshal (v : GoString) : GoString × Option Unit :=
  ([34] ++ appendStringAux 0 true v ++ [34], none)

/-! ## `multi_format_time.go` -/

/-- The struct `MultiFormatTime`: the embedded `time.Time` and the layout it was
parsed with. -/
structure MultiFormatTime where
  Time : Time
  Format : GoString
  deriving DecidableEq, Repr

/-- Layout used when no format was recorded. -/
def DEFAULT_FORMAT : GoString := RFC3339

/-- The registry of layouts, in the order of the source. -/
def formats : List GoString :=
  [Layout, ANSIC, RubyDate, UnixDate, RFC822Z, RFC822, RFC850, RFC1123Z, RFC1123,
   RFC3339, RFC3339Nano, Kitchen, StampNano, StampMicro, StampMilli, Stamp,
   DateTime, DateOnly, TimeOnly]

/-- The layout wrapped in double quotes, as `UnmarshalJSON` passes it to `time.Parse`. -/
def quoted (format : GoString) : GoString := [34] ++ format ++ [34]

/-- Go `strings.Contains(s, ".")`. -/
def containsDot (s : GoString) : Bool := s.contains 46

/-- The body of `if err == nil { ... }` in the loop of `UnmarshalJSON`, entered
when `format` parsed `s` to `t`: the RFC 3339 disambiguation, then the two
assignments to the receiver.  The result is the receiver after the call and the
returned error. -/
def onMatch (loc : Location) (mt : MultiFormatTime) (s format : GoString) (t : Time) :
    MultiFormatTime × Option ParseError :=
  if format = RFC3339 then
    if containsDot s then
      match Parse loc (quoted RFC3339Nano) s with
      | .error e => (mt, some e)
      | .ok t2 => ({ Time := t2, Format := RFC3339Nano }, none)
    else ({ Time := t, Format := format }, none)
  else ({ Time := t, Format := format }, none)

/-- The `for _, format := range formats` loop of `UnmarshalJSON` over the entries
still to try; `err` is the variable `err` on entry.  The result is the receiver
after the call and the returned error. -/
def unmarshalLoop (loc : Location) (mt : MultiFormatTime) (s : GoString) :
    List GoString → Option ParseError → MultiFormatTime × Option ParseError
  | [], err => (mt, err)
  | format :: rest, _ =>
    match Parse loc (quoted format) s with
    | .ok t => onMatch loc mt s format t
    | .error e => unmarshalLoop loc mt s rest (some e)

/-- The method `(mt *MultiFormatTime) UnmarshalJSON(b []byte) error`, with
`time.Local = loc`: the receiver after the call and the returned error. -/
def UnmarshalJSON (loc : Location) (mt : MultiFormatTime) (b : GoString) :
    MultiFormatTime × Option ParseError :=
  unmarshalLoop loc mt b formats none

/-- The method `(mt MultiFormatTime) MarshalJSON() ([]byte, error)`. -/
def MarshalJSON (mt : MultiFormatTime) : GoString × Option Unit :=
  if mt.Format ≠ [] then jsonMarshal (mt.Time.Format mt.Format)
  else jsonMarshal (mt.Time.Format DEFAULT_FORMAT)

/-! ## Vocabulary of the properties -/

/-- Does `time.Parse` accept `s` under the quoted layout `format`. -/
def parses (loc : Location) (format s : GoString) : Bool :=
  match Parse loc (quoted format) s with
  | .ok _ => true
  | .error _ => false

/-- The zero value `MultiFormatTime{}`: January 1, year 1, 00:00:00 UTC and no format. -/
def zeroValue : MultiFormatTime := ⟨⟨1, 1, 1, 0, 0, 0, 0, UTC⟩, []⟩

/-- Two runs of `parse` that agree on success (their errors may differ). -/
def OkEq (r r' : Except ParseError Time) : Prop := ∀ t, r = .ok t ↔ r' = .ok t

/-- A sign or a decimal digit. -/
def isNumByte (b : Nat) : Prop := b = 45 ∨ (48 ≤ b ∧ b ≤ 57)

/-! ## Vocabulary of the round-trip proofs -/

/-- A run of `parse` that ends in an error. -/
def IsErr (r : Except ParseError Time) : Prop := ∃ e, r = .error e

/-- Two decimal digits. -/
def d2 (n : Nat) : GoString := [48 + n / 10, 48 + n % 10]

/-- Four decimal digits. -/
def d4 (n : Nat) : GoString := [48 + n / 1000, 48 + n / 100 % 10, 48 + n / 10 % 10, 48 + n % 10]

/-- The last `k` decimal digits of `u`, most significant first. -/
def digs : Nat → Nat → GoString
  | 0, _ => []
  | k + 1, u => digs k (u / 10) ++ [48 + u % 10]

/-- The text of `appendInt` with width 0 for a number below 100. -/
def nd (n : Nat) : GoString := if n < 10 then [48 + n] else d2 n

/-- The digits of the `.000` element of width `n` for `ns` nanoseconds. -/
def frac0 (n ns : Nat) : GoString := 46 :: digs n (ns / 10 ^ (9 - n))

/-- The digits of `u` at width `k` without trailing zeros. -/
def trimDigs : Nat → Nat → GoString
  | 0, _ => []
  | k + 1, u => if u % 10 = 0 then trimDigs k (u / 10) else digs (k + 1) u

/-- The text of the `_2` element. -/
def ud (n : Nat) : GoString := (if n < 10 then [32] else []) ++ nd n

/-- The year that `parse` gives a two-digit year. -/
def y2k (yy : Nat) : Nat := if yy ≥ 69 then yy + 1900 else yy + 2000

/-- The hour on the 12-hour clock. -/
def h12 (h : Nat) : Nat := if h % 12 = 0 then 12 else h % 12

/-- The text of the `PM` element. -/
def ampm (h : Nat) : GoString := if 12 ≤ h then [80, 77] else [65, 77]

/-- The text of the `.999999999` element. -/
def f9 (ns : Nat) : GoString := if ns = 0 then [] else 46 :: trimDigs 9 ns

/-- The day of the week of a civil date (0 = Sunday). -/
def wk (y m d : Nat) : Nat := (⟨(y : Int), m, d, 0, 0, 0, 0, UTC⟩ : Time).Weekday

/-- The location `parse` gives a time read with the numeric zone `+0000`: the
local one when its offset is zero, else a nameless zone of offset zero. -/
def locN (loc : Location) : Location := if loc.offset = 0 then loc else FixedZone [] 0

/-- The length of the fractional second that the seconds element of `parse` takes
with it when the layout has none: zero unless the text starts with a period or
comma and a digit. -/
def fracLen (r : GoString) : Nat :=
  if 2 ≤ r.length ∧ commaOrPeriod (r.headD 0) = true ∧ isDigit r 1 = true
  then 2 + ((r.drop 2).takeWhile isDig).length else 0

/-- The next element is one of the two fractional-second elements. -/
def isFracStd : Option Std → Bool
  | some (stdFracSecond0 _ _) => true
  | some (stdFracSecond9 _ _) => true
  | _ => false

/-- Every byte of the text is copied unescaped by `json.Marshal`. -/
def Safe (v : GoString) : Prop := ∀ b ∈ v, htmlSafe b = true

/-- The text has no period. -/
def NoDot (v : GoString) : Prop := ∀ b ∈ v, b ≠ 46

/-- The text starts with a byte between `lo` and `hi`. -/
def HeadIn (v : GoString) (lo hi : Nat) : Prop := ∃ c r, v = c :: r ∧ lo ≤ c ∧ c ≤ hi

/-- The element `std` is refused on the text `v`, whatever was read before. -/
def Fails (std : Std) (nx : Option Std) (v : GoString) : Prop :=
  ∀ st, (parseStd std nx v st).rangeErr ≠ [] ∨ (parseStd std nx v st).err = true

/-- The element `std` is refused on the text `v`, or leaves the text `v2`. -/
def Eats (std : Std) (nx : Option Std) (v v2 : GoString) : Prop :=
  ∀ st, ((parseStd std nx v st).rangeErr ≠ [] ∨ (parseStd std nx v st).err = true)
    ∨ (parseStd std nx v st).value = v2

/-! ## Vocabulary of the comparison of layouts -/

/-- The first three bytes of a text, in lower case (as Go `match` compares them). -/
def key3 (v : GoString) : GoString := (v.take 3).map (· ||| 32)

/-- After its opening quote the text starts with a number of one or two digits,
and the byte after the number lies between `lo` and `hi`. -/
def NumThen (s : GoString) (lo hi : Nat) : Prop :=
  ∃ v0 n r, s = 34 :: v0 ∧ getnum v0 false = some (n, r) ∧ HeadIn r lo hi

/-- After its opening quote the text starts with three letters that are, up to
case, the first three of an entry of `tab`, and the byte after them lies between
`lo` and `hi`. -/
def NameThen (s : GoString) (tab : List GoString) (lo hi : Nat) : Prop :=
  ∃ v0 name, s = 34 :: v0 ∧ name ∈ tab ∧ 3 ≤ v0.length ∧ key3 v0 = key3 name ∧
    HeadIn (v0.drop 3) lo hi

/-- From the text `v` that follows a month name, `parse` reads a space, the day,
a space, the hour, a colon, two digits of minutes, a colon and two digits of
seconds, and is left with the text `r`. -/
def ClockPos (v r : GoString) : Prop :=
  ∃ v1 d r1 v2 h0 v3 mi v4 sec, skip v [32] = .ok v1 ∧ getnum v1 false = some (d, r1) ∧
    skip r1 [32] = .ok v2 ∧ getnum v2 false = some (h0, 58 :: v3) ∧
    getnum v3 true = some (mi, 58 :: v4) ∧ getnum v4 true = some (sec, r)

/-- The text `s` starts with a quote and a month name, and `parse` is left with
`r` after the seconds (the start of `Stamp` and its variants). -/
def StampPos (s r : GoString) : Prop :=
  ∃ v0 i r0, s = 34 :: v0 ∧ lookup shortMonthNames v0 = some (i, r0) ∧ ClockPos r0 r

/-- The text `s` starts with a quote, a day name, a space and a month name, and
`parse` is left with `r` after the seconds (the start of `ANSIC`, `RubyDate` and
`UnixDate`). -/
def WeekdayPos (s r : GoString) : Prop :=
  ∃ v0 i r0 v1 j r1, s = 34 :: v0 ∧ lookup shortDayNames v0 = some (i, r0) ∧
    skip r0 [32] = .ok v1 ∧ lookup shortMonthNames v1 = some (j, r1) ∧ ClockPos r1 r

/-- The ranges of the fields that `Format` prints, with a four-digit year. -/
structure Rng (y m d h mi s ns : Nat) : Prop where
  hy : y < 10000
  hm1 : 1 ≤ m
  hm2 : m ≤ 12
  hd1 : 1 ≤ d
  hd3 : d ≤ 31
  hh : h < 24
  hmi : mi < 60
  hs : s < 60
  hns : ns < 1000000000

/-- The fields of a valid time with a four-digit year. -/
structure Ok (y m d h mi s ns : Nat) : Prop where
  rng : Rng y m d h mi s ns
  hd2 : d ≤ daysIn m (y : Int)

end Mft

namespace Mft

/-! ## UTF-8 text that `json.Marshal` writes as it is -/

/-- Go `utf8.AppendRune` for a Unicode scalar value: its UTF-8 encoding. -/
def encodeRune (r : Nat) : GoString :=
  if r < 128 then [r]
  else if r < 2048 then [192 + r / 64, 128 + r % 64]
  else if r < 65536 then [224 + r / 4096, 128 + r / 64 % 64, 128 + r % 64]
  else [240 + r / 262144, 128 + r / 4096 % 64, 128 + r / 64 % 64, 128 + r % 64]

/-- The UTF-8 text of a list of code points. -/
def utf8Text : List Nat → GoString
  | [] => []
  | r :: rs => encodeRune r ++ utf8Text rs

/-- The code points `json.Marshal` copies unescaped: the Unicode scalar values
(up to U+10FFFF, no surrogates) other than the control characters below U+0020,
`"`, `&`, `<`, `>`, `\`, U+2028 and U+2029. -/
def plainRune (r : Nat) : Bool :=
  decide (32 ≤ r) && decide (r ≠ 34) && decide (r ≠ 38) && decide (r ≠ 60) && decide (r ≠ 62)
    && decide (r ≠ 92) && decide (r ≠ 8232) && decide (r ≠ 8233) && decide (r ≤ 1114111)
    && !(decide (55296 ≤ r) && decide (r ≤ 57343))

/-! ## Zones as a layout writes them -/

/-- The whole minutes of a zone offset, as `Format` writes them after the sign. -/
def zoneMinutes (o : Int) : Nat := (Int.tdiv o 60).natAbs

/-- The sign `Format` writes for a zone offset: `-` or `+`. -/
def zoneSign (o : Int) : Nat := if Int.tdiv o 60 < 0 then 45 else 43

/-- The offset that the text of a numeric zone stands for: the whole minutes of
the offset, in seconds. -/
def zoneRound (o : Int) : Int := Int.tdiv o 60 * 60

/-- The location `parse` gives a value read with the numeric zone offset `zo`:
`time.Local` when it has that offset, else a fabricated zone without name. -/
def locOff (loc : Location) (zo : Int) : Location :=
  if loc.offset = zo then loc else FixedZone [] zo

/-- The location `parse` gives a value read with the zone abbreviation `N`:
`time.Local` when it has that abbreviation, else a fabricated zone with offset 0. -/
def locName (loc : Location) (N : GoString) : Location :=
  if loc.name = N then loc else FixedZone N 0

/-- An upper-case ASCII letter. -/
def isUpper (c : Nat) : Bool := decide (65 ≤ c) && decide (c ≤ 90)

/-- The alphabetic zone abbreviations that `parseTimeZone` recognises, `UTC` and
the `GMT` with an hour offset aside: `ChST`, `MeST`, `GMT`, and the names of
three upper-case letters, of four that end in `T` or are `WITA`, and of five
that end in `T`, which do not start with `UTC` or `GMT`. -/
def zoneAbbr (N : GoString) : Bool :=
  decide (N = B "ChST") || decide (N = B "MeST") || decide (N = B "GMT") ||
  (N.all isUpper && !startsWith (B "UTC") N && !startsWith (B "GMT") N &&
    (decide (N.length = 3)
      || (decide (N.length = 4) && (decide (N.getD 3 0 = 84) || decide (N = B "WITA")))
      || (decide (N.length = 5) && decide (N.getD 4 0 = 84))))

end Mft

namespace Mft

/-! ## What a layout of the registry writes of a time -/

/-- The layouts of the registry that write the zone as a numeric offset `-0700`. -/
def numZoneLayouts : List GoString := [Layout, RubyDate, RFC822Z, RFC1123Z]

/-- The layouts of the registry that write the zone as `Z` or `-07:00`. -/
def isoZoneLayouts : List GoString := [RFC3339, RFC3339Nano]

/-- The layouts of the registry that write the zone as an abbreviation `MST`. -/
def abbrZoneLayouts : List GoString := [UnixDate, RFC822, RFC850, RFC1123]

/-- The layouts of the registry that write no year. -/
def yearlessLayouts : List GoString :=
  [Kitchen, StampNano, StampMicro, StampMilli, Stamp, TimeOnly]

/-- The layouts of the registry that write the year with two digits. -/
def shortYearLayouts : List GoString := [Layout, RFC822Z, RFC822, RFC850]

/-- The text `Format` writes under the element `MST` for a zone without
abbreviation: the numeric offset `+hhmm`. -/
def zoneText (o : Int) : GoString :=
  zoneSign o :: (d2 (zoneMinutes o / 60) ++ d2 (zoneMinutes o % 60))

/-- A numeric zone abbreviation that `parseTimeZone` reads: a sign and two digits,
from 00 to 23 (such as `+03` or `-04`). -/
def zoneSigned (N : GoString) : Bool :=
  decide (N.length = 3) && (decide (N.getD 0 0 = 43) || decide (N.getD 0 0 = 45))
    && isDig (N.getD 1 0) && isDig (N.getD 2 0)
    && decide ((N.getD 1 0 - 48) * 10 + (N.getD 2 0 - 48) ≤ 23)

/-- The offset, in seconds, that a numeric zone text `+hhmm` or `-hhmm` spells. -/
def zoneValue (N : GoString) : Int :=
  (if N.getD 0 0 = 45 then -1 else 1)
    * ((((N.getD 1 0 - 48) * 10 + (N.getD 2 0 - 48)) * 60
        + ((N.getD 3 0 - 48) * 10 + (N.getD 4 0 - 48)) : Nat) : Int) * 60

/-- The element `MST` writes a numeric offset for the zone: the zone has no
abbreviation, or its abbreviation is itself the numeric text of an offset. -/
def zoneNumeric (Z : Location) : Bool :=
  decide (Z.name = []) || decide (Z.name = zoneText (zoneValue Z.name))

/-- The offset that the element `MST` writes for a zone with `zoneNumeric`. -/
def zoneWritten (Z : Location) : Int := if Z.name = [] then Z.offset else zoneValue Z.name

/-- The zone of `t` is one that `UnmarshalJSON` reads back, from the text of `t`
under `L`, to a zone with the same text.  A numeric zone: below 25 hours.  An RFC
3339 zone: offset 0, or at least a minute and below 25 hours.  An abbreviation:
`UTC`, or an alphabetic abbreviation (`zoneAbbr`), or a sign and two digits
(`zoneSigned`), or a numeric offset (the zone has no abbreviation, or one that
spells an offset), which is read back below 25 hours under `RFC822`, `RFC1123`
and, from the tenth day of the month on, `UnixDate`, and only below 24 minutes
under `RFC850` and, before the tenth day, `UnixDate`.  The other layouts write no
zone. -/
def zoneReturns (L : GoString) (t : Time) : Bool :=
  if L ∈ numZoneLayouts then decide (zoneMinutes t.loc.offset < 1500)
  else if L ∈ isoZoneLayouts then
    decide (t.loc.offset = 0)
      || (decide (0 < zoneMinutes t.loc.offset) && decide (zoneMinutes t.loc.offset < 1500))
  else if L ∈ abbrZoneLayouts then
    decide (t.loc.name = B "UTC") || zoneAbbr t.loc.name || zoneSigned t.loc.name
      || (zoneNumeric t.loc
          && (if L = RFC822 ∨ L = RFC1123 ∨ (L = UnixDate ∧ 10 ≤ t.day)
              then decide (zoneMinutes (zoneWritten t.loc) < 1500)
              else decide (zoneMinutes (zoneWritten t.loc) < 24)))
  else true

/-- The zone of `t` is written by `L` without loss, so that `parse` (with
`time.Local = loc`) gives the same offset back.  A numeric or RFC 3339 zone: whole
minutes, below 25 hours.  An abbreviation: `UTC` with offset 0; or an alphabetic
abbreviation, or a sign and two digits, with the offset `parse` gives it (that of
`time.Local` when it carries the abbreviation, else 0); or, under `RFC850` and,
before the tenth day of the month, `UnixDate`, a numeric offset below 24 minutes,
with the offset `parse` gives the numeric text read as an abbreviation.  A layout
that writes no zone: offset 0. -/
def zoneExact (loc : Location) (L : GoString) (t : Time) : Bool :=
  if L ∈ numZoneLayouts ∨ L ∈ isoZoneLayouts then
    decide (t.loc.offset % 60 = 0) && decide (zoneMinutes t.loc.offset < 1500)
  else if L ∈ abbrZoneLayouts then
    (decide (t.loc.name = B "UTC") && decide (t.loc.offset = 0))
      || ((zoneAbbr t.loc.name || zoneSigned t.loc.name)
          && decide (t.loc.offset = (locName loc t.loc.name).offset))
      || (zoneNumeric t.loc && decide (L = RFC850 ∨ (L = UnixDate ∧ t.day < 10))
          && decide (zoneMinutes (zoneWritten t.loc) < 24)
          && decide (t.loc.offset = (locName loc (zoneText (zoneWritten t.loc))).offset))
  else decide (t.loc.offset = 0)

/-- The fields of `t` are written by `L` without loss: the fraction of a second
to the digits of the layout, the seconds, the clock, the day and month, and the
year (0 when the layout writes none, from 1969 to 2068 with two digits, from 0 to
9999 with four). -/
def fieldsExact (L : GoString) (t : Time) : Bool :=
  (if L = RFC3339Nano ∨ L = StampNano then true
   else if L = StampMicro then decide (t.nsec % 1000 = 0)
   else if L = StampMilli then decide (t.nsec % 1000000 = 0)
   else decide (t.nsec = 0))
  && (if L ∈ [Kitchen, RFC822Z, RFC822, DateOnly] then decide (t.sec = 0) else true)
  && (if L = DateOnly then decide (t.hour = 0) && decide (t.min = 0) else true)
  && (if L ∈ [Kitchen, TimeOnly] then decide (t.month = 1) && decide (t.day = 1) else true)
  && (if L ∈ yearlessLayouts then decide (t.year = 0)
      else if L ∈ shortYearLayouts then decide (1969 ≤ t.year) && decide (t.year ≤ 2068)
      else decide (0 ≤ t.year) && decide (t.year ≤ 9999))

/-- The time `t` is exactly representable under the layout `L` of the registry:
`L` writes its fields and its zone without loss. -/
def exactUnder (loc : Location) (L : GoString) (t : Time) : Bool :=
  fieldsExact L t && zoneExact loc L t

end Mft

namespace Mft
open Std

/-- The year of `t` is read back from the text of `t` under the layout `L` of the
registry, or replaced by a year with the same text: `L` writes no year; or two
digits and no weekday; or, under `RFC850`, two digits and a weekday, and the year
differs by a multiple of 400 from the year of the window 1969 to 2068 with the
same two digits; or four digits and the year is from 0 to 9999. -/
def yearReturns (L : GoString) (t : Time) : Bool :=
  if L ∈ yearlessLayouts ∨ L ∈ [Layout, RFC822Z, RFC822] then true
  else if L = RFC850 then
    decide ((t.year - ((y2k (t.year.natAbs % 100) : Nat) : Int)) % 400 = 0)
  else decide (0 ≤ t.year) && decide (t.year ≤ 9999)

end Mft

namespace Mft
open Std

/-! ## The scan of the registry -/

theorem parses_false_iff (loc : Location) (f s : GoString) :
    parses loc f s = false ↔ ∃ e, Parse loc (quoted f) s = .error e := by
  unfold parses
  cases h : Parse loc (quoted f) s <;> simp

theorem parses_true_iff (loc : Location) (f s : GoString) :
    parses loc f s = true ↔ ∃ t, Parse loc (quoted f) s = .ok t := by
  unfold parses
  cases h : Parse loc (quoted f) s <;> simp

/-- When every entry fails the loop returns the receiver untouched and the error
of the last entry (or the incoming `err` when there is no entry). -/
theorem unmarshalLoop_all_fail (loc : Location) (mt : MultiFormatTime) (s : GoString) :
    ∀ (fs : List GoString) (err : Option ParseError),
      (∀ f ∈ fs, parses loc f s = false) →
      (unmarshalLoop loc mt s fs err).1 = mt ∧
      (fs = [] → (unmarshalLoop loc mt s fs err).2 = err) ∧
      (∀ h : fs ≠ [], ∃ e, Parse loc (quoted (fs.getLast h)) s = .error e ∧
          (unmarshalLoop loc mt s fs err).2 = some e) := by
  intro fs
  induction fs with
  | nil => intro err _; simp [unmarshalLoop]
  | cons f rest ih =>
    intro err hall
    have hf : parses loc f s = false := hall f (List.mem_cons_self _ _)
    obtain ⟨e, he⟩ := (parses_false_iff loc f s).1 hf
    have hrest : ∀ g ∈ rest, parses loc g s = false :=
      fun g hg => hall g (List.mem_cons_of_mem _ hg)
    obtain ⟨h1, h2, h3⟩ := ih (some e) hrest
    refine ⟨?_, ?_, ?_⟩
    · simp only [unmarshalLoop, he]; exact h1
    · intro h; cases h
    · intro _
      simp only [unmarshalLoop, he]
      cases rest with
      | nil => exact ⟨e, by simpa using he, by simp [unmarshalLoop]⟩
      | cons g rest2 =>
        obtain ⟨e2, he2, hr⟩ := h3 (List.cons_ne_nil _ _)
        exact ⟨e2, by simpa [List.getLast_cons] using he2, hr⟩

/-- The loop stops at the first entry that parses and runs `onMatch` there. -/
theorem unmarshalLoop_hit (loc : Location) (mt : MultiFormatTime) (s : GoString)
    (f : GoString) (post : List GoString) (t : Time) :
    ∀ (pre : List GoString) (err : Option ParseError),
      (∀ g ∈ pre, parses loc g s = false) → Parse loc (quoted f) s = .ok t →
      unmarshalLoop loc mt s (pre ++ f :: post) err = onMatch loc mt s f t := by
  intro pre
  induction pre with
  | nil => intro err _ hf; simp [unmarshalLoop, hf]
  | cons g rest ih =>
    intro err hall hf
    obtain ⟨e, he⟩ := (parses_false_iff loc g s).1 (hall g (List.mem_cons_self _ _))
    simp only [List.cons_append, unmarshalLoop, he]
    exact ih (some e) (fun x hx => hall x (List.mem_cons_of_mem _ hx)) hf

/-- Every run of the loop is one of the two above. -/
theorem unmarshalLoop_cases (loc : Location) (mt : MultiFormatTime) (s : GoString) :
    ∀ (fs : List GoString) (err : Option ParseError),
      (∀ f ∈ fs, parses loc f s = false) ∨
      (∃ pre f post t, fs = pre ++ f :: post ∧ (∀ g ∈ pre, parses loc g s = false) ∧
        Parse loc (quoted f) s = .ok t ∧
        unmarshalLoop loc mt s fs err = onMatch loc mt s f t) := by
  intro fs
  induction fs with
  | nil => intro err; left; simp
  | cons f rest ih =>
    intro err
    cases hp : Parse loc (quoted f) s with
    | ok t =>
      right
      exact ⟨[], f, rest, t, rfl, by simp, hp, by simp [unmarshalLoop, hp]⟩
    | error e =>
      have hf : parses loc f s = false := (parses_false_iff loc f s).2 ⟨e, hp⟩
      rcases ih (some e) with hall | ⟨pre, g, post, t, hfs, hpre, hg, hr⟩
      · left
        intro x hx
        rcases List.mem_cons.1 hx with rfl | hx
        · exact hf
        · exact hall x hx
      · right
        refine ⟨f :: pre, g, post, t, by simp [hfs], ?_, hg, ?_⟩
        · intro x hx
          rcases List.mem_cons.1 hx with rfl | hx
          · exact hf
          · exact hpre x hx
        · simp only [unmarshalLoop, hp]; exact hr

/-- The receiver is assigned only by a successful `onMatch`. -/
theorem onMatch_cases (loc : Location) (mt : MultiFormatTime) (s f : GoString) (t : Time) :
    (onMatch loc mt s f t = (⟨t, f⟩, none) ∧ ¬ (f = RFC3339 ∧ containsDot s = true)) ∨
    (f = RFC3339 ∧ containsDot s = true ∧
      ((∃ t2, Parse loc (quoted RFC3339Nano) s = .ok t2 ∧
          onMatch loc mt s f t = (⟨t2, RFC3339Nano⟩, none)) ∨
       (∃ e, Parse loc (quoted RFC3339Nano) s = .error e ∧
          onMatch loc mt s f t = (mt, some e)))) := by
  unfold onMatch
  by_cases h1 : f = RFC3339
  · by_cases h2 : containsDot s = true
    · right
      refine ⟨h1, h2, ?_⟩
      cases hp : Parse loc (quoted RFC3339Nano) s with
      | ok t2 => left; exact ⟨t2, rfl, by simp [h1, h2]⟩
      | error e => right; exact ⟨e, rfl, by simp [h1, h2]⟩
    · left
      simp [h1, h2]
  · left
    simp [h1]

end Mft

namespace Mft
open Std

/-! ## The two RFC 3339 layouts accept the same inputs -/

/-- Only the seconds elements look at the element that follows. -/
theorem parseStd_next (std : Std) (n n' : Option Std) (value : GoString) (st : PState)
    (h1 : std ≠ stdSecond) (h2 : std ≠ stdZeroSecond) :
    parseStd std n value st = parseStd std n' value st := by
  cases std <;> first | rfl | exact absurd rfl h1 | exact absurd rfl h2

theorem OkEq.error_error (e e' : ParseError) : OkEq (.error e) (.error e') := by
  intro t; simp

theorem OkEq.refl (r : Except ParseError Time) : OkEq r r := fun _ => Iff.rfl

theorem OkEq.trans {r1 r2 r3 : Except ParseError Time} (h1 : OkEq r1 r2) (h2 : OkEq r2 r3) :
    OkEq r1 r3 := fun t => (h1 t).trans (h2 t)

theorem parseFinish_okEq (loc : Location) (A A' av value : GoString) (st : PState) :
    OkEq (parseFinish loc A av value st) (parseFinish loc A' av value st) := by
  intro t
  unfold parseFinish
  cases finishDate st with
  | error msg => simp
  | ok md =>
    simp only []
    split
    · simp
    · exact Iff.rfl

theorem parseChunks_cons (loc : Location) (A av : GoString) (c : Chunk) (rest : List Chunk)
    (value : GoString) (st : PState) :
    parseChunks loc A av (c :: rest) value st =
      match skip value c.lit with
      | .error v => .error ⟨A, av, c.lit, v, .plain⟩
      | .ok value1 =>
        match c.std with
        | none =>
          if value1 ≠ [] then .error ⟨A, av, [], value1, .extraText value1⟩
          else parseFinish loc A av value1 st
        | some std =>
          if (parseStd std ((rest.head?).bind (·.std)) value1 st).rangeErr ≠ [] then
            .error ⟨A, av, c.text, (parseStd std ((rest.head?).bind (·.std)) value1 st).value,
              .outOfRange (parseStd std ((rest.head?).bind (·.std)) value1 st).rangeErr⟩
          else if (parseStd std ((rest.head?).bind (·.std)) value1 st).err then
            .error ⟨A, av, c.text, value1, .plain⟩
          else parseChunks loc A av rest (parseStd std ((rest.head?).bind (·.std)) value1 st).value
                (parseStd std ((rest.head?).bind (·.std)) value1 st).st := by
  rfl

theorem parseChunks_layout_okEq (loc : Location) (A A' av : GoString) :
    ∀ (cs : List Chunk) (value : GoString) (st : PState),
      OkEq (parseChunks loc A av cs value st) (parseChunks loc A' av cs value st) := by
  intro cs
  induction cs with
  | nil => intro value st; simp only [parseChunks]; exact OkEq.error_error _ _
  | cons c rest ih =>
    intro value st
    rw [parseChunks_cons, parseChunks_cons]
    cases skip value c.lit with
    | error v => exact OkEq.error_error _ _
    | ok value1 =>
      simp only []
      cases c.std with
      | none =>
        simp only []
        split
        · exact OkEq.error_error _ _
        · exact parseFinish_okEq _ _ _ _ _ _
      | some std =>
        simp only []
        split
        · exact OkEq.error_error _ _
        · split
          · exact OkEq.error_error _ _
          · exact ih _ _

/-- A common leading chunk (not a seconds element) preserves agreement of the
rest of two layouts. -/
theorem parseChunks_cons_okEq (loc : Location) (A A' av : GoString) (c : Chunk)
    (rest rest' : List Chunk) (std : Std) (hc : c.std = some std)
    (h1 : std ≠ stdSecond) (h2 : std ≠ stdZeroSecond)
    (ih : ∀ value st, OkEq (parseChunks loc A av rest value st)
                           (parseChunks loc A' av rest' value st)) :
    ∀ value st, OkEq (parseChunks loc A av (c :: rest) value st)
                     (parseChunks loc A' av (c :: rest') value st) := by
  intro value st
  rw [parseChunks_cons, parseChunks_cons, hc]
  cases hs : skip value c.lit with
  | error v => exact OkEq.error_error _ _
  | ok value1 =>
    simp only []
    rw [parseStd_next std ((rest.head?).bind (·.std)) ((rest'.head?).bind (·.std)) value1 st h1 h2]
    split
    · exact OkEq.error_error _ _
    · split
      · exact OkEq.error_error _ _
      · exact ih _ _

theorem chunks_RFC3339 : layoutChunks (quoted RFC3339) =
    [⟨[34], some stdLongYear, B "2006"⟩, ⟨[45], some stdZeroMonth, B "01"⟩,
     ⟨[45], some stdZeroDay, B "02"⟩, ⟨[84], some stdHour, B "15"⟩,
     ⟨[58], some stdZeroMinute, B "04"⟩, ⟨[58], some stdZeroSecond, B "05"⟩,
     ⟨[], some stdISO8601ColonTZ, B "Z07:00"⟩, ⟨[34], none, []⟩] := by
  decide

theorem chunks_RFC3339Nano : layoutChunks (quoted RFC3339Nano) =
    [⟨[34], some stdLongYear, B "2006"⟩, ⟨[45], some stdZeroMonth, B "01"⟩,
     ⟨[45], some stdZeroDay, B "02"⟩, ⟨[84], some stdHour, B "15"⟩,
     ⟨[58], some stdZeroMinute, B "04"⟩, ⟨[58], some stdZeroSecond, B "05"⟩,
     ⟨[], some (stdFracSecond9 9 46), B ".999999999"⟩,
     ⟨[], some stdISO8601ColonTZ, B "Z07:00"⟩, ⟨[34], none, []⟩] := by
  decide

theorem isDigit_one_drop (rest : GoString) (h : isDigit rest 1 = true) :
    2 + ((rest.drop 2).takeWhile isDig).length = 1 + ((rest.drop 1).takeWhile isDig).length := by
  match rest, h with
  | [], h => simp [isDigit] at h
  | [_], h => simp [isDigit] at h
  | _ :: d :: r, h =>
    have hd : isDig d = true := by simpa [isDigit, isDig] using h
    simp [List.takeWhile, hd]
    omega

/-- From the seconds element on, the layout with and without `.999999999` run
alike: the fractional second is read by the special case of the seconds element
in one and by the fractional element in the other. -/
theorem seconds_tail_okEq (loc : Location) (A A' av : GoString) (tz : Chunk) (fin : List Chunk)
    (htz : tz.std = some stdISO8601ColonTZ) (text text9 : GoString) (lit : GoString) :
    ∀ value st,
      OkEq (parseChunks loc A av (⟨lit, some stdZeroSecond, text⟩ :: tz :: fin) value st)
           (parseChunks loc A' av
              (⟨lit, some stdZeroSecond, text⟩ :: ⟨[], some (stdFracSecond9 9 46), text9⟩
                :: tz :: fin) value st) := by
  intro value st
  have key : ∀ v' st', OkEq (parseChunks loc A av (tz :: fin) v' st')
      (parseChunks loc A' av (tz :: fin) v' st') :=
    fun v' st' => parseChunks_layout_okEq loc A A' av _ v' st'
  rw [parseChunks_cons, parseChunks_cons]
  simp only [List.head?_cons, Option.some_bind, htz]
  cases hs : skip value lit with
  | error v => exact OkEq.error_error _ _
  | ok value1 =>
    simp only []
    cases hg : getnum value1 true with
    | none =>
      have e1 : ∀ n, parseStd stdZeroSecond n value1 st =
          { st := st, value := value1, err := true } := by
        intro n; simp only [parseStd, decide_True, hg]
      simp only [e1]
      exact OkEq.error_error _ _
    | some p =>
      obtain ⟨sec, rest⟩ := p
      by_cases hsec : 60 ≤ sec
      · have e1 : ∀ n, parseStd stdZeroSecond n value1 st =
            { st := { st with sec := sec }, value := rest, rangeErr := B "second" } := by
          intro n; simp only [parseStd, decide_True, hg, if_pos hsec]
        simp only [e1]
        have : (B "second") ≠ [] := by decide
        simp only [this, not_false_eq_true, ne_eq, if_true]
        exact OkEq.error_error _ _
      · by_cases hfrac : 2 ≤ rest.length ∧ commaOrPeriod (rest.headD 0) = true
            ∧ isDigit rest 1 = true
        · -- a fractional second is present
          have e9 : parseStd stdZeroSecond (some (stdFracSecond9 9 46)) value1 st =
              { st := { st with sec := sec }, value := rest } := by
            simp only [parseStd, decide_True, hg, if_neg hsec, if_pos hfrac]
          have e1 : parseStd stdZeroSecond (some stdISO8601ColonTZ) value1 st =
              { st := { st with sec := sec,
                                nsec := (parseNanoseconds rest
                                  (2 + ((rest.drop 2).takeWhile isDig).length)).1.toNat },
                value := rest.drop (2 + ((rest.drop 2).takeWhile isDig).length),
                rangeErr := (parseNanoseconds rest
                                  (2 + ((rest.drop 2).takeWhile isDig).length)).2.1,
                err := (parseNanoseconds rest
                                  (2 + ((rest.drop 2).takeWhile isDig).length)).2.2 } := by
            simp only [parseStd, decide_True, hg, if_neg hsec, if_pos hfrac]
          have hcond : ¬ (rest.length < 2 ∨ (!commaOrPeriod (rest.headD 0)) = true
              ∨ (!isDigit rest 1) = true) := by
            obtain ⟨h1, h2, h3⟩ := hfrac
            simp only [h2, h3, Bool.not_true, Bool.false_eq_true, or_false, not_lt]
            exact h1
          have ef : parseStd (stdFracSecond9 9 46) (some stdISO8601ColonTZ) rest
                { st with sec := sec } =
              { st := { st with sec := sec,
                                nsec := (parseNanoseconds rest
                                  (2 + ((rest.drop 2).takeWhile isDig).length)).1.toNat },
                value := rest.drop (2 + ((rest.drop 2).takeWhile isDig).length),
                rangeErr := (parseNanoseconds rest
                                  (2 + ((rest.drop 2).takeWhile isDig).length)).2.1,
                err := (parseNanoseconds rest
                                  (2 + ((rest.drop 2).takeWhile isDig).length)).2.2 } := by
            simp only [parseStd, if_neg hcond, isDigit_one_drop rest hfrac.2.2]
          rw [e1, e9]
          simp only [ne_eq, not_true_eq_false, if_false, Bool.false_eq_true]
          rw [parseChunks_cons loc A' av ⟨[], some (stdFracSecond9 9 46), text9⟩ (tz :: fin)]
          simp only [skip, skipAux, List.head?_cons, Option.some_bind, htz, ef]
          split
          · exact OkEq.error_error _ _
          · split
            · exact OkEq.error_error _ _
            · exact key _ _
        · -- no fractional second
          have e1 : ∀ n, parseStd stdZeroSecond n value1 st =
              { st := { st with sec := sec }, value := rest } := by
            intro n; simp only [parseStd, decide_True, hg, if_neg hsec, if_neg hfrac]
          have hcond : rest.length < 2 ∨ (!commaOrPeriod (rest.headD 0)) = true
              ∨ (!isDigit rest 1) = true := by
            by_cases a : rest.length < 2
            · exact Or.inl a
            · by_cases b : commaOrPeriod (rest.headD 0) = true
              · by_cases c : isDigit rest 1 = true
                · exact absurd ⟨by omega, b, c⟩ hfrac
                · exact Or.inr (Or.inr (by simpa using c))
              · exact Or.inr (Or.inl (by simpa using b))
          have ef : parseStd (stdFracSecond9 9 46) (some stdISO8601ColonTZ) rest
                { st with sec := sec } = { st := { st with sec := sec }, value := rest } := by
            simp only [parseStd, if_pos hcond]
          rw [e1, e1]
          simp only [ne_eq, not_true_eq_false, if_false, Bool.false_eq_true]
          rw [parseChunks_cons loc A' av ⟨[], some (stdFracSecond9 9 46), text9⟩ (tz :: fin)]
          simp only [skip, skipAux, List.head?_cons, Option.some_bind, htz, ef,
            ne_eq, not_true_eq_false, if_false, Bool.false_eq_true]
          exact key _ _

/-- The quoted `RFC3339` and `RFC3339Nano` layouts parse the same inputs, to the
same value. -/
theorem parse_RFC3339_iff_Nano (loc : Location) (s : GoString) (t : Time) :
    Parse loc (quoted RFC3339) s = .ok t ↔ Parse loc (quoted RFC3339Nano) s = .ok t := by
  unfold Parse
  rw [chunks_RFC3339, chunks_RFC3339Nano]
  refine parseChunks_cons_okEq loc _ _ s _ _ _ stdLongYear rfl (by decide) (by decide) ?_ s {} t
  refine parseChunks_cons_okEq loc _ _ s _ _ _ stdZeroMonth rfl (by decide) (by decide) ?_
  refine parseChunks_cons_okEq loc _ _ s _ _ _ stdZeroDay rfl (by decide) (by decide) ?_
  refine parseChunks_cons_okEq loc _ _ s _ _ _ stdHour rfl (by decide) (by decide) ?_
  refine parseChunks_cons_okEq loc _ _ s _ _ _ stdZeroMinute rfl (by decide) (by decide) ?_
  exact seconds_tail_okEq loc _ _ s _ _ rfl _ _ _

end Mft

namespace Mft
open Std

/-! ## `nextStdChunk` consumes input: the fuel of `layoutChunks` suffices -/

theorem nextStdChunk_length :
    ∀ (l : GoString) (std : Std), (nextStdChunk l).2.1 = some std →
      (nextStdChunk l).2.2.length < l.length := by
  intro l
  induction l with
  | nil => intro std h; simp [nextStdChunk] at h
  | cons c rest ih =>
    intro std h
    unfold nextStdChunk at h ⊢
    cases hs : stdAtByte c rest with
    | some r =>
      obtain ⟨extra, s, k⟩ := r
      simp only [List.length_drop, List.length_cons]
      omega
    | none =>
      simp only [hs] at h ⊢
      have := ih std h
      simp only [List.length_cons]
      omega

/-- More fuel than the length of the layout never changes the chunks: the
loops of `parse` and `appendFormat` always reach their last chunk. -/
theorem chunksFuel_stable :
    ∀ (n : Nat) (layout : GoString), layout.length < n →
      chunksFuel n layout = chunksFuel (layout.length + 1) layout := by
  intro n
  induction n using Nat.strong_induction_on with
  | _ n ih =>
    intro layout hlen
    cases n with
    | zero => omega
    | succ m =>
      simp only [chunksFuel]
      cases hn : nextStdChunk layout with
      | mk p r =>
        obtain ⟨o, suffix⟩ := r
        cases o with
        | none => rfl
        | some s =>
          simp only []
          have hlt : suffix.length < layout.length := by
            have := nextStdChunk_length layout s (by rw [hn])
            rw [hn] at this
            exact this
          rw [ih m (Nat.lt_succ_self m) suffix (by omega)]
          rw [ih layout.length (by omega) suffix hlt]

theorem chunksFuel_eq_layoutChunks (n : Nat) (layout : GoString) (h : layout.length < n) :
    chunksFuel n layout = layoutChunks layout :=
  chunksFuel_stable n layout h

/-! ## `json.Marshal` on text without bytes to escape -/

theorem appendStringAux_safe :
    ∀ (v : GoString), (∀ b ∈ v, htmlSafe b = true) → appendStringAux 0 true v = v := by
  intro v
  induction v with
  | nil => intro _; rfl
  | cons b rest ih =>
    intro h
    have hb : htmlSafe b = true := h b (List.mem_cons_self _ _)
    have hlt : b < 128 := by
      simp only [htmlSafe, Bool.and_eq_true, decide_eq_true_eq] at hb
      exact hb.1.1.1.1.1.2
    simp only [appendStringAux, hlt, if_true, hb, List.singleton_append]
    rw [ih (fun x hx => h x (List.mem_cons_of_mem _ hx))]

theorem jsonMarshal_safe (v : GoString) (h : ∀ b ∈ v, htmlSafe b = true) :
    jsonMarshal v = (quoted v, none) := by
  simp only [jsonMarshal, quoted, appendStringAux_safe v h]

/-! ## The bytes of `appendInt` -/

theorem utoaAux_bytes :
    ∀ (fuel u : Nat) (acc : GoString), (∀ b ∈ acc, isNumByte b) →
      ∀ b ∈ utoaAux fuel u acc, isNumByte b := by
  intro fuel
  induction fuel with
  | zero => intro u acc h; simpa [utoaAux] using h
  | succ n ih =>
    intro u acc h
    simp only [utoaAux]
    split
    · intro b hb
      rcases List.mem_cons.1 hb with rfl | hb
      · right; omega
      · exact h b hb
    · apply ih
      intro b hb
      rcases List.mem_cons.1 hb with rfl | hb
      · right; omega
      · exact h b hb

theorem appendInt_bytes (x : Int) (w : Nat) : ∀ b ∈ appendInt x w, isNumByte b := by
  intro b hb
  unfold appendInt at hb
  have hsign : ∀ c ∈ (if x < 0 then [45] else ([] : GoString)), isNumByte c := by
    intro c hc
    split at hc
    · simp at hc; left; exact hc
    · simp at hc
  simp only [] at hb
  split at hb
  · rename_i h
    rcases List.mem_append.1 hb with h1 | h1
    · exact hsign b h1
    · simp only [List.mem_cons, List.mem_singleton, List.not_mem_nil, or_false] at h1
      right
      rcases h1 with rfl | rfl <;> omega
  · split at hb
    · rename_i h
      rcases List.mem_append.1 hb with h1 | h1
      · exact hsign b h1
      · simp only [List.mem_cons, List.mem_singleton, List.not_mem_nil, or_false] at h1
        right
        rcases h1 with rfl | rfl | rfl | rfl <;> omega
    · rcases List.mem_append.1 hb with h1 | h1
      · rcases List.mem_append.1 h1 with h2 | h2
        · exact hsign b h2
        · right
          have := List.eq_of_mem_replicate h2
          omega
      · exact utoaAux_bytes _ _ [] (by simp) b h1

theorem isNumByte_safe (b : Nat) (h : isNumByte b) : htmlSafe b = true := by
  unfold isNumByte at h
  simp only [htmlSafe, Bool.and_eq_true, decide_eq_true_eq]
  omega

theorem appendFormatRFC3339_false_safe (t : Time) :
    ∀ b ∈ appendFormatRFC3339 t false, htmlSafe b = true := by
  intro b hb
  unfold appendFormatRFC3339 at hb
  simp only [Bool.false_eq_true, if_false, List.append_assoc, List.mem_append, List.mem_singleton,
    List.append_nil] at hb
  have num : ∀ x w, b ∈ appendInt x w → htmlSafe b = true :=
    fun x w h => isNumByte_safe b (appendInt_bytes x w b h)
  have lit : ∀ c : Nat, htmlSafe c = true → b = c → htmlSafe b = true := fun c h e => e ▸ h
  rcases hb with h | h | h | h | h | h | h | h | h | h | h | h
  · exact num _ _ h
  · exact lit 45 (by decide) h
  · exact num _ _ h
  · exact lit 45 (by decide) h
  · exact num _ _ h
  · exact lit 84 (by decide) h
  · exact num _ _ h
  · exact lit 58 (by decide) h
  · exact num _ _ h
  · exact lit 58 (by decide) h
  · exact num _ _ h
  · split at h
    · simp only [List.mem_singleton] at h
      exact lit 90 (by decide) h
    · simp only [List.mem_append, List.mem_singleton] at h
      rcases h with h | h | h | h
      · split at h
        · simp only [List.mem_singleton] at h; exact lit 45 (by decide) h
        · simp only [List.mem_singleton] at h; exact lit 43 (by decide) h
      · exact num _ _ h
      · exact lit 58 (by decide) h
      · exact num _ _ h

theorem formats_split_RFC3339 :
    formats = formats.takeWhile (fun g => decide (g ≠ RFC3339)) ++ RFC3339 ::
      [RFC3339Nano, Kitchen, StampNano, StampMicro, StampMilli, Stamp, DateTime, DateOnly,
       TimeOnly] := by
  decide

end Mft

namespace Mft
open Std

/-! ## Stepping `parse` through a text -/

/-- One successful iteration of the loop of `parse`. -/
theorem parseChunks_step (loc : Location) (A av : GoString) (c : Chunk) (rest : List Chunk)
    (value v1 v' : GoString) (st st' : PState) (std : Std)
    (hc : c.std = some std) (hs : skip value c.lit = .ok v1)
    (hp : parseStd std ((rest.head?).bind (·.std)) v1 st = { st := st', value := v' }) :
    parseChunks loc A av (c :: rest) value st = parseChunks loc A av rest v' st' := by
  rw [parseChunks_cons, hs]
  simp only [hc, hp, ne_eq, not_true_eq_false, if_false, Bool.false_eq_true]

/-- The last iteration of the loop of `parse`, on a text that ends with the layout. -/
theorem parseChunks_last (loc : Location) (A av : GoString) (c : Chunk) (rest : List Chunk)
    (value : GoString) (st : PState)
    (hc : c.std = none) (hs : skip value c.lit = .ok []) :
    parseChunks loc A av (c :: rest) value st = parseFinish loc A av [] st := by
  rw [parseChunks_cons, hs]
  simp only [hc, ne_eq, not_true_eq_false, if_false]

theorem isErr_skip (loc : Location) (A av : GoString) (c : Chunk) (rest : List Chunk)
    (value v1 : GoString) (st : PState) (hs : skip value c.lit = .error v1) :
    IsErr (parseChunks loc A av (c :: rest) value st) := by
  rw [parseChunks_cons, hs]
  exact ⟨_, rfl⟩

theorem isErr_std (loc : Location) (A av : GoString) (c : Chunk) (rest : List Chunk)
    (value v1 : GoString) (st : PState) (std : Std)
    (hc : c.std = some std) (hs : skip value c.lit = .ok v1)
    (hp : (parseStd std ((rest.head?).bind (·.std)) v1 st).rangeErr ≠ [] ∨
          (parseStd std ((rest.head?).bind (·.std)) v1 st).err = true) :
    IsErr (parseChunks loc A av (c :: rest) value st) := by
  rw [parseChunks_cons, hs]
  simp only [hc]
  split
  · exact ⟨_, rfl⟩
  · split
    · exact ⟨_, rfl⟩
    · rename_i h1 h2
      rcases hp with h | h
      · exact absurd h h1
      · exact absurd h h2

/-- An iteration after which the rest of the run fails, if this one does not. -/
theorem isErr_next (loc : Location) (A av : GoString) (c : Chunk) (rest : List Chunk)
    (value v1 : GoString) (st : PState) (std : Std)
    (hc : c.std = some std) (hs : skip value c.lit = .ok v1)
    (hp : IsErr (parseChunks loc A av rest
            (parseStd std ((rest.head?).bind (·.std)) v1 st).value
            (parseStd std ((rest.head?).bind (·.std)) v1 st).st)) :
    IsErr (parseChunks loc A av (c :: rest) value st) := by
  rw [parseChunks_cons, hs]
  simp only [hc]
  split
  · exact ⟨_, rfl⟩
  · split
    · exact ⟨_, rfl⟩
    · exact hp

theorem isErr_last (loc : Location) (A av : GoString) (c : Chunk) (rest : List Chunk)
    (value v1 : GoString) (st : PState)
    (hc : c.std = none) (hs : skip value c.lit = .ok v1) (hv : v1 ≠ []) :
    IsErr (parseChunks loc A av (c :: rest) value st) := by
  rw [parseChunks_cons, hs]
  simp only [hc, hv, ne_eq, not_false_eq_true, if_true]
  exact ⟨_, rfl⟩

theorem parses_false_of_isErr (loc : Location) (f s : GoString)
    (h : IsErr (parseChunks loc (quoted f) s (layoutChunks (quoted f)) s {})) :
    parses loc f s = false :=
  (parses_false_iff loc f s).2 h

/-! ## `skip` on literal bytes -/

theorem skip_nil (v : GoString) : skip v [] = .ok v := rfl

theorem skip_byte (c : Nat) (rest : GoString) (h : c ≠ 32) : skip (c :: rest) [c] = .ok rest := by
  simp only [skip, skipAux, h, if_false, ne_eq, not_true_eq_false]

theorem skip_byte_ne (c p : Nat) (rest : GoString) (hp : p ≠ 32) (h : c ≠ p) (ps : GoString) :
    skip (c :: rest) (p :: ps) = .error (c :: rest) := by
  simp only [skip, skipAux, hp, if_false, ne_eq, h, not_false_eq_true, if_true]

theorem skip_space (rest : GoString) : skip (32 :: rest) [32] = .ok (cutspace rest) := by
  simp only [skip, skipAux, if_true, ne_eq, not_true_eq_false, if_false, cutspace,
    Bool.false_eq_true]

theorem skip_space_ne (c : Nat) (rest ps : GoString) (h : c ≠ 32) :
    skip (c :: rest) (32 :: ps) = .error (c :: rest) := by
  simp only [skip, skipAux, if_true, ne_eq, h, not_false_eq_true, Bool.false_eq_true, if_false]

theorem cutspace_cons (c : Nat) (rest : GoString) (h : c ≠ 32) : cutspace (c :: rest) = c :: rest := by
  simp only [cutspace, h, if_false]

/-! ## Digits -/

theorem appendInt_two (n : Nat) (h : n < 100) : appendInt (n : Int) 2 = d2 n := by
  have h0 : ¬ ((n : Int) < 0) := by omega
  simp only [appendInt, Int.natAbs_ofNat, h0, if_false, true_and, h, if_true, List.nil_append, d2]

theorem appendInt_four (n : Nat) (h : n < 10000) : appendInt (n : Int) 4 = d4 n := by
  have h0 : ¬ ((n : Int) < 0) := by omega
  have h2 : ¬ ((4 : Nat) = 2 ∧ n < 100) := by omega
  simp only [appendInt, Int.natAbs_ofNat, h0, if_false, h2, true_and, h, if_true,
    List.nil_append, d4]

theorem isDig_digit (k : Nat) (h : k < 10) : isDig (48 + k) = true := by
  simp only [isDig, Bool.and_eq_true, decide_eq_true_eq]; omega

theorem getnum_d2 (n : Nat) (h : n < 100) (rest : GoString) (fixed : Bool) :
    getnum (d2 n ++ rest) fixed = some (n, rest) := by
  have h1 : isDig (48 + n / 10) = true := isDig_digit _ (by omega)
  have h2 : isDig (48 + n % 10) = true := isDig_digit _ (by omega)
  simp only [d2, List.cons_append, List.nil_append, getnum, h1, h2, if_true]
  congr 2
  omega

theorem leadingIntAux_digit (x c : Nat) (rest : GoString) (h1 : 48 ≤ c) (h2 : c ≤ 57)
    (hx : x ≤ 100000000000000000) :
    leadingIntAux x (c :: rest) = leadingIntAux (x * 10 + c - 48) rest := by
  have a : ¬ (c < 48 ∨ c > 57) := by omega
  have b : ¬ (x > 2 ^ 63 / 10) := by norm_num; omega
  have d : ¬ (x * 10 + c - 48 > 2 ^ 63) := by norm_num; omega
  simp only [leadingIntAux, a, b, d, if_false]

theorem atoi_d4 (y : Nat) (h : y < 10000) : atoi (d4 y) = some (y : Int) := by
  have e2 : ¬ (48 + y / 1000 = 43) := by omega
  have e1 : ¬ (48 + y / 1000 = 45) := by omega
  simp only [atoi, d4, e2, if_false, leadingInt, e1, decide_False, or_self]
  rw [leadingIntAux_digit _ _ _ (by omega) (by omega) (by omega),
      leadingIntAux_digit _ _ _ (by omega) (by omega) (by omega),
      leadingIntAux_digit _ _ _ (by omega) (by omega) (by omega),
      leadingIntAux_digit _ _ _ (by omega) (by omega) (by omega)]
  simp only [leadingIntAux, ne_eq, not_true_eq_false, if_false, Bool.false_eq_true]
  have hv : (((0 * 10 + (48 + y / 1000) - 48) * 10 + (48 + y / 100 % 10) - 48) * 10
      + (48 + y / 10 % 10) - 48) * 10 + (48 + y % 10) - 48 = y := by omega
  rw [hv]
  have : y < 2 ^ 63 := by norm_num; omega
  simp only [this, if_true]

theorem atoi_d2 (y : Nat) (h : y < 100) : atoi (d2 y) = some (y : Int) := by
  have e2 : ¬ (48 + y / 10 = 43) := by omega
  have e1 : ¬ (48 + y / 10 = 45) := by omega
  simp only [atoi, d2, e2, if_false, leadingInt, e1, decide_False, or_self]
  rw [leadingIntAux_digit _ _ _ (by omega) (by omega) (by omega),
      leadingIntAux_digit _ _ _ (by omega) (by omega) (by omega)]
  simp only [leadingIntAux, ne_eq, not_true_eq_false, if_false, Bool.false_eq_true]
  have hv : (0 * 10 + (48 + y / 10) - 48) * 10 + (48 + y % 10) - 48 = y := by omega
  rw [hv]
  have : y < 2 ^ 63 := by norm_num; omega
  simp only [this, if_true]

/-! ## The steps of `parse` on formatted elements -/

theorem parseStd_longYear (y : Nat) (h : y < 10000) (rest : GoString) (n : Option Std)
    (st : PState) :
    parseStd stdLongYear n (d4 y ++ rest) st
      = { st := { st with year := (y : Int) }, value := rest } := by
  have hlen : ¬ ((d4 y ++ rest).length < 4 ∨ (!isDigit (d4 y ++ rest) 0) = true) := by
    have : isDigit (d4 y ++ rest) 0 = true := by
      simp only [isDigit, d4, List.drop, List.cons_append, Bool.and_eq_true, decide_eq_true_eq]
      omega
    simp only [this, Bool.not_true, Bool.false_eq_true, or_false, not_lt, List.length_append]
    simp [d4]
  have htake : (d4 y ++ rest).take 4 = d4 y := by simp [d4]
  have hdrop : (d4 y ++ rest).drop 4 = rest := by simp [d4]
  simp only [parseStd, if_neg hlen, htake, hdrop, atoi_d4 y h]

theorem parseStd_year (y : Nat) (h : y < 100) (rest : GoString) (n : Option Std)
    (st : PState) :
    parseStd stdYear n (d2 y ++ rest) st
      = { st := { st with year := if (y : Int) ≥ 69 then (y : Int) + 1900 else (y : Int) + 2000 },
          value := rest } := by
  have hlen : ¬ ((d2 y ++ rest).length < 2) := by simp [d2]
  have htake : (d2 y ++ rest).take 2 = d2 y := by simp [d2]
  have hdrop : (d2 y ++ rest).drop 2 = rest := by simp [d2]
  simp only [parseStd, if_neg hlen, htake, hdrop, atoi_d2 y h]

theorem parseStd_zeroMonth (m : Nat) (h1 : 1 ≤ m) (h2 : m ≤ 12) (rest : GoString)
    (n : Option Std) (st : PState) :
    parseStd stdZeroMonth n (d2 m ++ rest) st
      = { st := { st with month := some m }, value := rest } := by
  have hr : ¬ (m = 0 ∨ 12 < m) := by omega
  simp only [parseStd, decide_True, getnum_d2 m (by omega), if_neg hr]

theorem parseStd_zeroDay (d : Nat) (h : d < 100) (rest : GoString)
    (n : Option Std) (st : PState) :
    parseStd stdZeroDay n (d2 d ++ rest) st
      = { st := { st with day := some d }, value := rest } := by
  have hne : ¬ (stdZeroDay = stdUnderDay ∧ (d2 d ++ rest).headD 0 = 32
      ∧ 0 < (d2 d ++ rest).length) := by
    intro h; exact absurd h.1 (by decide)
  simp only [parseStd, if_neg hne, decide_True, getnum_d2 d h]

theorem parseStd_hour (x : Nat) (h : x < 24) (rest : GoString)
    (n : Option Std) (st : PState) :
    parseStd stdHour n (d2 x ++ rest) st
      = { st := { st with hour := x }, value := rest } := by
  have hr : ¬ (24 ≤ x) := by omega
  simp only [parseStd, getnum_d2 x (by omega), if_neg hr]

theorem parseStd_zeroHour12 (x : Nat) (h : x ≤ 12) (rest : GoString)
    (n : Option Std) (st : PState) :
    parseStd stdZeroHour12 n (d2 x ++ rest) st
      = { st := { st with hour := x }, value := rest } := by
  have hr : ¬ (12 < x) := by omega
  simp only [parseStd, decide_True, getnum_d2 x (by omega), if_neg hr]

theorem parseStd_zeroMinute (x : Nat) (h : x < 60) (rest : GoString)
    (n : Option Std) (st : PState) :
    parseStd stdZeroMinute n (d2 x ++ rest) st
      = { st := { st with min := x }, value := rest } := by
  have hr : ¬ (60 ≤ x) := by omega
  simp only [parseStd, decide_True, getnum_d2 x (by omega), if_neg hr]

/-- The seconds step when the text that follows is not a fractional second. -/
theorem parseStd_zeroSecond (x : Nat) (h : x < 60) (rest : GoString)
    (n : Option Std) (st : PState)
    (hrest : ¬ (2 ≤ rest.length ∧ commaOrPeriod (rest.headD 0) = true
      ∧ isDigit rest 1 = true)) :
    parseStd stdZeroSecond n (d2 x ++ rest) st
      = { st := { st with sec := x }, value := rest } := by
  have hr : ¬ (60 ≤ x) := by omega
  simp only [parseStd, decide_True, getnum_d2 x (by omega), if_neg hr, if_neg hrest]

/-- The seconds step when the layout continues with a fractional-second element. -/
theorem parseStd_zeroSecond_frac0 (x : Nat) (h : x < 60) (rest : GoString)
    (a b : Nat) (st : PState) :
    parseStd stdZeroSecond (some (stdFracSecond0 a b)) (d2 x ++ rest) st
      = { st := { st with sec := x }, value := rest } := by
  have hr : ¬ (60 ≤ x) := by omega
  simp only [parseStd, decide_True, getnum_d2 x (by omega), if_neg hr]
  split <;> rfl

theorem parseStd_zeroSecond_frac9 (x : Nat) (h : x < 60) (rest : GoString)
    (a b : Nat) (st : PState) :
    parseStd stdZeroSecond (some (stdFracSecond9 a b)) (d2 x ++ rest) st
      = { st := { st with sec := x }, value := rest } := by
  have hr : ¬ (60 ≤ x) := by omega
  simp only [parseStd, decide_True, getnum_d2 x (by omega), if_neg hr]
  split <;> rfl

end Mft

namespace Mft
open Std

/-! ## Decimal digits of any width -/

theorem digs_length (k u : Nat) : (digs k u).length = k := by
  induction k generalizing u with
  | zero => rfl
  | succ n ih => simp [digs, ih]

theorem digs_zero (k : Nat) : digs k 0 = List.replicate k 48 := by
  induction k with
  | zero => rfl
  | succ n ih =>
    simp only [digs, Nat.zero_div, ih, Nat.zero_mod, Nat.add_zero]
    exact (List.replicate_succ' n 48).symm

theorem digs_isDig (k u : Nat) : ∀ b ∈ digs k u, isDig b = true := by
  induction k generalizing u with
  | zero => intro b hb; simp [digs] at hb
  | succ n ih =>
    intro b hb
    simp only [digs, List.mem_append, List.mem_singleton] at hb
    rcases hb with hb | rfl
    · exact ih _ b hb
    · exact isDig_digit _ (Nat.mod_lt _ (by decide))

theorem d2_eq_digs (n : Nat) (h : n < 100) : d2 n = digs 2 n := by
  simp only [d2, digs, List.nil_append, List.cons_append, List.cons.injEq, and_true,
    Nat.add_left_cancel_iff]
  omega

theorem utoaAux_acc (fuel : Nat) : ∀ (u : Nat) (acc : GoString),
    utoaAux fuel u acc = utoaAux fuel u [] ++ acc := by
  induction fuel with
  | zero => intro u acc; rfl
  | succ n ih =>
    intro u acc
    simp only [utoaAux]
    split
    · rfl
    · rw [ih (u / 10) ((48 + u % 10) :: acc), ih (u / 10) [48 + u % 10]]
      simp

theorem utoaAux_digs (fuel : Nat) : ∀ (u k : Nat), u < 10 ^ (fuel + 1) → u < 10 ^ (k + 1) →
    (utoaAux (fuel + 1) u []).length ≤ k + 1 ∧
    List.replicate (k + 1 - (utoaAux (fuel + 1) u []).length) 48 ++ utoaAux (fuel + 1) u []
      = digs (k + 1) u := by
  induction fuel with
  | zero =>
    intro u k h1 _
    have hu : u < 10 := by simpa using h1
    simp only [utoaAux, hu, if_true, List.length_singleton]
    refine ⟨by omega, ?_⟩
    have e1 : u / 10 = 0 := by omega
    have e2 : u % 10 = u := by omega
    simp only [digs, e1, e2, digs_zero, Nat.add_sub_cancel]
  | succ n ih =>
    intro u k h1 h2
    by_cases hu : u < 10
    · simp only [utoaAux, hu, if_true, List.length_singleton]
      refine ⟨by omega, ?_⟩
      have e1 : u / 10 = 0 := by omega
      have e2 : u % 10 = u := by omega
      simp only [digs, e1, e2, digs_zero, Nat.add_sub_cancel]
    · have hk : 1 ≤ k := by
        rcases k with _ | k
        · simp at h2; omega
        · omega
      obtain ⟨k', rfl⟩ : ∃ k', k = k' + 1 := ⟨k - 1, by omega⟩
      have h1' : u / 10 < 10 ^ (n + 1) := by
        rw [Nat.div_lt_iff_lt_mul (by decide)]
        rw [pow_succ] at h1; exact h1
      have h2' : u / 10 < 10 ^ (k' + 1) := by
        rw [Nat.div_lt_iff_lt_mul (by decide)]
        rw [pow_succ] at h2; exact h2
      obtain ⟨i1, i2⟩ := ih (u / 10) k' h1' h2'
      have e : utoaAux (n + 1 + 1) u [] = utoaAux (n + 1) (u / 10) [] ++ [48 + u % 10] := by
        conv_lhs => rw [utoaAux]
        rw [if_neg hu, utoaAux_acc]
      rw [e]
      refine ⟨by simp; omega, ?_⟩
      have e3 : k' + 1 + 1 - (utoaAux (n + 1) (u / 10) [] ++ [48 + u % 10]).length
          = k' + 1 - (utoaAux (n + 1) (u / 10) []).length := by
        simp only [List.length_append, List.length_singleton]; omega
      rw [e3, ← List.append_assoc, i2]
      rfl

/-- The general path of `appendInt`: zero-padded digits. -/
theorem appendInt_digs (u k : Nat) (hk2 : k + 1 ≠ 2) (hk4 : k + 1 ≠ 4) (h : u < 10 ^ (k + 1)) :
    appendInt (u : Int) (k + 1) = digs (k + 1) u := by
  have h0 : ¬ ((u : Int) < 0) := by omega
  have hfuel : u < 10 ^ (u + 1) :=
    Nat.lt_trans (Nat.lt_succ_self u) (Nat.lt_pow_self (by decide : 1 < 10) (u + 1))
  obtain ⟨-, hd⟩ := utoaAux_digs u u k hfuel h
  simp only [appendInt, Int.natAbs_ofNat, h0, if_false, hk2, false_and, hk4, List.nil_append, utoa]
  exact hd

theorem appendInt_zero (n : Nat) (h : n < 100) : appendInt (n : Int) 0 = nd n := by
  have h0 : ¬ ((n : Int) < 0) := by omega
  simp only [appendInt, Int.natAbs_ofNat, h0, if_false, List.nil_append, utoa, nd,
    Nat.zero_sub, List.replicate_zero]
  have e2 : ¬ ((0 : Nat) = 2 ∧ n < 100) := by omega
  have e4 : ¬ ((0 : Nat) = 4 ∧ n < 10000) := by omega
  rw [if_neg e2, if_neg e4]
  by_cases hn : n < 10
  · simp only [utoaAux, hn, if_true]
  · obtain ⟨n', rfl⟩ : ∃ n', n = n' + 1 := ⟨n - 1, by omega⟩
    have h3 : (n' + 1) / 10 < 10 := by omega
    simp only [utoaAux, hn, if_false, h3, if_true, d2]

/-! ## Reading digits back -/

theorem leadingIntAux_digs (k : Nat) : ∀ (u x : Nat) (rest : GoString),
    u < 10 ^ k → k ≤ 9 → x ≤ 10000000 →
    leadingIntAux x (digs k u ++ rest) = leadingIntAux (x * 10 ^ k + u) rest := by
  induction k with
  | zero => intro u x rest h _ _; simp at h; subst h; simp [digs]
  | succ n ih =>
    intro u x rest h hk hx
    have h' : u / 10 < 10 ^ n := by
      rw [Nat.div_lt_iff_lt_mul (by decide)]
      rw [pow_succ] at h; exact h
    have hp : 10 ^ n ≤ 10 ^ 8 := Nat.pow_le_pow_right (by decide) (by omega)
    have hq : x * 10 ^ n ≤ 10000000 * 10 ^ 8 := Nat.mul_le_mul hx hp
    simp only [digs, List.append_assoc, List.singleton_append]
    rw [ih (u / 10) x _ h' (by omega) hx]
    rw [leadingIntAux_digit _ _ _ (by omega) (by omega) (by norm_num at hq hp; omega)]
    congr 1
    rw [pow_succ, ← Nat.mul_assoc]
    generalize x * 10 ^ n = q
    omega

theorem leadingIntAux_stop (x c : Nat) (rest : GoString) (h : isDig c = false) :
    leadingIntAux x (c :: rest) = some (x, c :: rest) := by
  have : c < 48 ∨ c > 57 := by
    simp only [isDig, Bool.and_eq_false_iff, decide_eq_false_iff_not] at h
    omega
  simp only [leadingIntAux, this, if_true]

/-- `atoi` on `k` digits. -/
theorem atoi_digs (k u : Nat) (h : u < 10 ^ (k + 1)) (hk : k + 1 ≤ 9) :
    atoi (digs (k + 1) u) = some (u : Int) := by
  have hne : ∃ c r, digs (k + 1) u = c :: r ∧ isDig c = true := by
    have hl := digs_length (k + 1) u
    match hd : digs (k + 1) u with
    | [] => rw [hd] at hl; cases hl
    | c :: r => exact ⟨c, r, rfl, digs_isDig (k + 1) u c (by rw [hd]; simp)⟩
  obtain ⟨c, r, hcr, hc⟩ := hne
  have hc' : 48 ≤ c ∧ c ≤ 57 := by simpa [isDig] using hc
  have e1 : ¬ (c = 45) := by omega
  have e2 : ¬ (c = 43) := by omega
  have hli : leadingInt (digs (k + 1) u) = some (u, []) := by
    have := leadingIntAux_digs (k + 1) u 0 [] h hk (by omega)
    simpa [leadingInt, leadingIntAux] using this
  have hu : u < 2 ^ 63 := by
    have : 10 ^ (k + 1) ≤ 10 ^ 9 := Nat.pow_le_pow_right (by decide) hk
    norm_num at this ⊢; omega
  unfold atoi
  simp only [hcr, e1, e2, if_false, decide_False, or_self]
  rw [← hcr, hli]
  simp only [ne_eq, not_true_eq_false, if_false, hu, if_true, Bool.false_eq_true]

theorem digs_take (b : Nat) : ∀ (a u : Nat), (digs (a + b) u).take a = digs a (u / 10 ^ b) := by
  induction b with
  | zero =>
    intro a u
    rw [Nat.add_zero, pow_zero, Nat.div_one]
    exact List.take_of_length_le (by rw [digs_length])
  | succ n ih =>
    intro a u
    have : a + (n + 1) = (a + n) + 1 := by omega
    rw [this, digs, List.take_append_of_le_length (by rw [digs_length]; omega), ih a (u / 10)]
    rw [Nat.div_div_eq_div_mul, pow_succ, Nat.mul_comm]

end Mft

namespace Mft
open Std

/-! ## Fractional seconds -/

theorem parseNanoseconds_digs (j v : Nat) (rest : GoString) (hj : j ≤ 8)
    (hv : v < 10 ^ (j + 1)) :
    parseNanoseconds (46 :: (digs (j + 1) v ++ rest)) (1 + (j + 1))
      = (((v * 10 ^ (8 - j) : Nat) : Int), [], false) := by
  have h1 : commaOrPeriod ((46 :: (digs (j + 1) v ++ rest)).headD 0) = true := rfl
  have h2 : ¬ (1 + (j + 1) > 10) := by omega
  have h3 : ((46 :: (digs (j + 1) v ++ rest)).take (1 + (j + 1))).drop 1 = digs (j + 1) v := by
    have : 1 + (j + 1) = (j + 1) + 1 := by omega
    rw [this, List.take_succ_cons, List.drop_one, List.tail_cons]
    rw [List.take_append_of_le_length (by rw [digs_length])]
    exact List.take_of_length_le (by rw [digs_length])
  unfold parseNanoseconds
  simp only [h1, Bool.not_true, Bool.false_eq_true, if_false, h2, h3,
    atoi_digs j v hv (by omega)]
  have hneg : ¬ ((v : Int) < 0) := by omega
  rw [if_neg hneg]
  have e : 10 - (1 + (j + 1)) = 8 - j := by omega
  rw [e]
  push_cast
  rfl

theorem takeWhile_digs (k u : Nat) (c : Nat) (rest : GoString) (hc : isDig c = false) :
    ((digs k u ++ c :: rest).takeWhile isDig).length = k := by
  have h := digs_isDig k u
  have hl := digs_length k u
  generalize digs k u = l at h hl
  subst hl
  induction l with
  | nil => simp [List.takeWhile, hc]
  | cons a l ih =>
    have ha : isDig a = true := h a (List.mem_cons_self _ _)
    simp only [List.cons_append, List.takeWhile_cons, ha, if_true, List.length_cons]
    rw [ih (fun b hb => h b (List.mem_cons_of_mem _ hb))]

theorem appendNano_frac0 (n ns : Nat) (hn : n ≤ 9) (hns : ns < 1000000000) :
    appendNano ns n 46 false = frac0 n ns := by
  have h : appendInt (ns : Int) 9 = digs 9 ns :=
    appendInt_digs ns 8 (by decide) (by decide) (by norm_num; exact hns)
  have e : 9 = n + (9 - n) := by omega
  simp only [appendNano, Bool.false_eq_true, false_and, if_false, h, frac0]
  congr 1
  conv_lhs => rw [e]
  exact digs_take (9 - n) n ns

/-- The step of `parse` for a `.000` element of width `n + 1` on its formatted text:
the nanoseconds are read back truncated to that width. -/
theorem parseStd_frac0 (n ns : Nat) (hn : n ≤ 8) (hns : ns < 1000000000) (rest : GoString)
    (nx : Option Std) (st : PState) (sep : Nat) :
    parseStd (stdFracSecond0 (n + 1) sep) nx (frac0 (n + 1) ns ++ rest) st
      = { st := { st with nsec := ns / 10 ^ (8 - n) * 10 ^ (8 - n) }, value := rest } := by
  have hw : ns / 10 ^ (9 - (n + 1)) < 10 ^ (n + 1) := by
    rw [Nat.div_lt_iff_lt_mul (Nat.pos_pow_of_pos _ (by decide)), ← pow_add]
    have : n + 1 + (9 - (n + 1)) = 9 := by omega
    rw [this]; norm_num; exact hns
  have hlen : ¬ ((frac0 (n + 1) ns ++ rest).length < 1 + (n + 1)) := by
    simp only [frac0, List.cons_append, List.length_cons, List.length_append, digs_length]
    omega
  have hdrop : (frac0 (n + 1) ns ++ rest).drop (1 + (n + 1)) = rest := by
    exact List.drop_left' (by simp [frac0, digs_length]; omega)
  have hpn := parseNanoseconds_digs n (ns / 10 ^ (9 - (n + 1))) rest hn hw
  have e9 : 9 - (n + 1) = 8 - n := by omega
  simp only [parseStd, if_neg hlen, hdrop]
  simp only [frac0, List.cons_append] at hpn ⊢
  rw [hpn]
  simp only [Int.toNat_ofNat, e9]

theorem trimRight_snoc (c x : Nat) (l : GoString) :
    trimRight c (l ++ [x]) = if x = c then trimRight c l else l ++ [x] := by
  unfold trimRight
  simp only [List.reverse_append, List.reverse_cons, List.reverse_nil, List.nil_append,
    List.singleton_append, List.dropWhile_cons, beq_iff_eq]
  split
  · rfl
  · simp

theorem trimRight_digs (k : Nat) : ∀ u, trimRight 48 (digs k u) = trimDigs k u := by
  induction k with
  | zero => intro u; rfl
  | succ n ih =>
    intro u
    simp only [digs, trimRight_snoc, trimDigs, ih]
    by_cases h : u % 10 = 0
    · simp [h]
    · have : ¬ (48 + u % 10 = 48) := by omega
      simp [h, this]

/-- The trimmed digits are the `j` digits of `v` with `u = v * 10 ^ (k - j)`. -/
theorem trimDigs_spec (k : Nat) : ∀ u, 0 < u → u < 10 ^ k →
    ∃ j v, trimDigs k u = digs (j + 1) v ∧ j + 1 ≤ k ∧ v < 10 ^ (j + 1)
      ∧ v * 10 ^ (k - (j + 1)) = u := by
  induction k with
  | zero => intro u h0 h1; simp at h1; omega
  | succ n ih =>
    intro u h0 h1
    by_cases h : u % 10 = 0
    · have h0' : 0 < u / 10 := by omega
      have h1' : u / 10 < 10 ^ n := by
        rw [Nat.div_lt_iff_lt_mul (by decide)]
        rw [pow_succ] at h1; exact h1
      obtain ⟨j, v, e1, e2, e3, e4⟩ := ih (u / 10) h0' h1'
      refine ⟨j, v, by simp only [trimDigs, h, if_true, e1], by omega, e3, ?_⟩
      have : n + 1 - (j + 1) = (n - (j + 1)) + 1 := by omega
      rw [this, pow_succ, ← Nat.mul_assoc, e4]
      omega
    · refine ⟨n, u, by simp only [trimDigs, h, if_false], le_refl _, h1, ?_⟩
      simp

/-- The text of the `.999999999` element. -/
theorem appendNano_frac9 (ns : Nat) (hns : ns < 1000000000) :
    appendNano ns 9 46 true = if ns = 0 then [] else 46 :: trimDigs 9 ns := by
  have h : appendInt (ns : Int) 9 = digs 9 ns :=
    appendInt_digs ns 8 (by decide) (by decide) (by norm_num; exact hns)
  by_cases h0 : ns = 0
  · simp [appendNano, h0]
  · have hc : ¬ (True ∧ ((9 : Nat) = 0 ∨ ns = 0)) := by simp [h0]
    simp only [appendNano, hc, if_false, h, if_true, h0]
    have ht : (digs 9 ns).take 9 = digs 9 ns := List.take_of_length_le (by rw [digs_length])
    rw [ht, trimRight_digs]
    obtain ⟨j, v, e1, -, -, -⟩ := trimDigs_spec 9 ns (by omega) (by norm_num; exact hns)
    rw [e1]
    have hl := digs_length (j + 1) v
    match hd : digs (j + 1) v with
    | [] => rw [hd] at hl; cases hl
    | c :: r => rfl

/-- The step of `parse` for the `.999999999` element on a formatted non-zero
fraction followed by a byte that is not a digit: the nanoseconds are read back. -/
theorem parseStd_frac9 (ns : Nat) (h0 : 0 < ns) (hns : ns < 1000000000) (c : Nat)
    (rest : GoString) (hc : isDig c = false) (nx : Option Std) (st : PState) (a b : Nat) :
    parseStd (stdFracSecond9 a b) nx (46 :: (trimDigs 9 ns ++ c :: rest)) st
      = { st := { st with nsec := ns }, value := c :: rest } := by
  obtain ⟨j, v, e1, e2, e3, e4⟩ := trimDigs_spec 9 ns h0 (by norm_num; exact hns)
  rw [e1]
  have hd1 : isDigit (46 :: (digs (j + 1) v ++ c :: rest)) 1 = true := by
    have hl := digs_length (j + 1) v
    match hd : digs (j + 1) v with
    | [] => rw [hd] at hl; cases hl
    | x :: r =>
      have := digs_isDig (j + 1) v x (by rw [hd]; simp)
      simpa [isDigit, isDig] using this
  have hcond : ¬ ((46 :: (digs (j + 1) v ++ c :: rest)).length < 2
      ∨ (!commaOrPeriod ((46 :: (digs (j + 1) v ++ c :: rest)).headD 0)) = true
      ∨ (!isDigit (46 :: (digs (j + 1) v ++ c :: rest)) 1) = true) := by
    simp only [hd1, Bool.not_true, Bool.false_eq_true, or_false, List.length_cons,
      List.length_append, digs_length, List.headD_cons]
    have : commaOrPeriod 46 = true := by decide
    simp only [this, Bool.not_true, Bool.false_eq_true, or_false, not_lt]
    omega
  have hi : (((46 :: (digs (j + 1) v ++ c :: rest)).drop 1).takeWhile isDig).length = j + 1 := by
    rw [List.drop_one, List.tail_cons]
    exact takeWhile_digs _ _ _ _ hc
  have hdrop : (46 :: (digs (j + 1) v ++ c :: rest)).drop (1 + (j + 1)) = c :: rest := by
    have : 1 + (j + 1) = (j + 1) + 1 := by omega
    rw [this, List.drop_succ_cons]
    exact List.drop_left' (digs_length (j + 1) v)
  have hpn := parseNanoseconds_digs j v (c :: rest) (by omega) e3
  simp only [parseStd, if_neg hcond, hi, hdrop, hpn, Int.toNat_ofNat]
  have : 8 - j = 9 - (j + 1) := by omega
  rw [this, e4]

/-- The `.999999999` element is skipped on a text without fraction. -/
theorem parseStd_frac9_none (c : Nat) (rest : GoString) (hc : commaOrPeriod c = false)
    (nx : Option Std) (st : PState) (a b : Nat) :
    parseStd (stdFracSecond9 a b) nx (c :: rest) st = { st := st, value := c :: rest } := by
  have hcond : (c :: rest).length < 2 ∨ (!commaOrPeriod ((c :: rest).headD 0)) = true
      ∨ (!isDigit (c :: rest) 1) = true := by
    right; left
    simp [hc]
  simp only [parseStd, if_pos hcond]

end Mft

namespace Mft
open Std

/-! ## Names of months and days -/

theorem shortMonthNames_eq : shortMonthNames =
    [[74, 97, 110], [70, 101, 98], [77, 97, 114], [65, 112, 114], [77, 97, 121], [74, 117, 110],
     [74, 117, 108], [65, 117, 103], [83, 101, 112], [79, 99, 116], [78, 111, 118],
     [68, 101, 99]] := by decide

theorem shortDayNames_eq : shortDayNames =
    [[83, 117, 110], [77, 111, 110], [84, 117, 101], [87, 101, 100], [84, 104, 117],
     [70, 114, 105], [83, 97, 116]] := by decide

theorem longDayNames_eq : longDayNames =
    [[83, 117, 110, 100, 97, 121], [77, 111, 110, 100, 97, 121], [84, 117, 101, 115, 100, 97, 121],
     [87, 101, 100, 110, 101, 115, 100, 97, 121], [84, 104, 117, 114, 115, 100, 97, 121],
     [70, 114, 105, 100, 97, 121], [83, 97, 116, 117, 114, 100, 97, 121]] := by decide

theorem matchFold_self : ∀ l : GoString, matchFold l l = true := by
  intro l
  induction l with
  | nil => rfl
  | cons a l ih => simp [matchFold, ih]

theorem lookupFrom_hit (i : Nat) (v : GoString) (tab : List GoString) (rest : GoString) :
    lookupFrom i (v :: tab) (v ++ rest) = some (i, rest) := by
  simp [lookupFrom, matchFold_self]

theorem lookupFrom_miss (i : Nat) (v : GoString) (tab : List GoString) (val : GoString)
    (h : matchFold (val.take v.length) v = false) :
    lookupFrom i (v :: tab) val = lookupFrom (i + 1) tab val := by
  simp [lookupFrom, h]

/-- The three-letter month name. -/
theorem mon3_cases (m : Nat) (h1 : 1 ≤ m) (h2 : m ≤ 12) :
    (monthString m).take 3 ∈ shortMonthNames := by
  have : m = 1 ∨ m = 2 ∨ m = 3 ∨ m = 4 ∨ m = 5 ∨ m = 6 ∨ m = 7 ∨ m = 8 ∨ m = 9 ∨ m = 10
      ∨ m = 11 ∨ m = 12 := by omega
  rcases this with h | h | h | h | h | h | h | h | h | h | h | h <;> subst h <;> decide

theorem lookup_mon3 (m : Nat) (h1 : 1 ≤ m) (h2 : m ≤ 12) (rest : GoString) :
    lookup shortMonthNames ((monthString m).take 3 ++ rest) = some (m - 1, rest) := by
  have : m = 1 ∨ m = 2 ∨ m = 3 ∨ m = 4 ∨ m = 5 ∨ m = 6 ∨ m = 7 ∨ m = 8 ∨ m = 9 ∨ m = 10
      ∨ m = 11 ∨ m = 12 := by omega
  unfold lookup
  rw [shortMonthNames_eq]
  rcases this with h | h | h | h | h | h | h | h | h | h | h | h <;> subst h
  · rw [show (monthString 1).take 3 = [74, 97, 110] by decide]
    exact lookupFrom_hit _ _ _ _
  · rw [show (monthString 2).take 3 = [70, 101, 98] by decide]
    repeat (first | exact lookupFrom_hit _ _ _ _ | rw [lookupFrom_miss _ _ _ _ (by rfl)])
  · rw [show (monthString 3).take 3 = [77, 97, 114] by decide]
    repeat (first | exact lookupFrom_hit _ _ _ _ | rw [lookupFrom_miss _ _ _ _ (by rfl)])
  · rw [show (monthString 4).take 3 = [65, 112, 114] by decide]
    repeat (first | exact lookupFrom_hit _ _ _ _ | rw [lookupFrom_miss _ _ _ _ (by rfl)])
  · rw [show (monthString 5).take 3 = [77, 97, 121] by decide]
    repeat (first | exact lookupFrom_hit _ _ _ _ | rw [lookupFrom_miss _ _ _ _ (by rfl)])
  · rw [show (monthString 6).take 3 = [74, 117, 110] by decide]
    repeat (first | exact lookupFrom_hit _ _ _ _ | rw [lookupFrom_miss _ _ _ _ (by rfl)])
  · rw [show (monthString 7).take 3 = [74, 117, 108] by decide]
    repeat (first | exact lookupFrom_hit _ _ _ _ | rw [lookupFrom_miss _ _ _ _ (by rfl)])
  · rw [show (monthString 8).take 3 = [65, 117, 103] by decide]
    repeat (first | exact lookupFrom_hit _ _ _ _ | rw [lookupFrom_miss _ _ _ _ (by rfl)])
  · rw [show (monthString 9).take 3 = [83, 101, 112] by decide]
    repeat (first | exact lookupFrom_hit _ _ _ _ | rw [lookupFrom_miss _ _ _ _ (by rfl)])
  · rw [show (monthString 10).take 3 = [79, 99, 116] by decide]
    repeat (first | exact lookupFrom_hit _ _ _ _ | rw [lookupFrom_miss _ _ _ _ (by rfl)])
  · rw [show (monthString 11).take 3 = [78, 111, 118] by decide]
    repeat (first | exact lookupFrom_hit _ _ _ _ | rw [lookupFrom_miss _ _ _ _ (by rfl)])
  · rw [show (monthString 12).take 3 = [68, 101, 99] by decide]
    repeat (first | exact lookupFrom_hit _ _ _ _ | rw [lookupFrom_miss _ _ _ _ (by rfl)])

theorem lookup_wd3 (w : Nat) (h : w < 7) (rest : GoString) :
    lookup shortDayNames ((weekdayString w).take 3 ++ rest) = some (w, rest) := by
  have : w = 0 ∨ w = 1 ∨ w = 2 ∨ w = 3 ∨ w = 4 ∨ w = 5 ∨ w = 6 := by omega
  unfold lookup
  rw [shortDayNames_eq]
  rcases this with h | h | h | h | h | h | h <;> subst h
  · rw [show (weekdayString 0).take 3 = [83, 117, 110] by decide]
    exact lookupFrom_hit _ _ _ _
  · rw [show (weekdayString 1).take 3 = [77, 111, 110] by decide]
    repeat (first | exact lookupFrom_hit _ _ _ _ | rw [lookupFrom_miss _ _ _ _ (by rfl)])
  · rw [show (weekdayString 2).take 3 = [84, 117, 101] by decide]
    repeat (first | exact lookupFrom_hit _ _ _ _ | rw [lookupFrom_miss _ _ _ _ (by rfl)])
  · rw [show (weekdayString 3).take 3 = [87, 101, 100] by decide]
    repeat (first | exact lookupFrom_hit _ _ _ _ | rw [lookupFrom_miss _ _ _ _ (by rfl)])
  · rw [show (weekdayString 4).take 3 = [84, 104, 117] by decide]
    repeat (first | exact lookupFrom_hit _ _ _ _ | rw [lookupFrom_miss _ _ _ _ (by rfl)])
  · rw [show (weekdayString 5).take 3 = [70, 114, 105] by decide]
    repeat (first | exact lookupFrom_hit _ _ _ _ | rw [lookupFrom_miss _ _ _ _ (by rfl)])
  · rw [show (weekdayString 6).take 3 = [83, 97, 116] by decide]
    repeat (first | exact lookupFrom_hit _ _ _ _ | rw [lookupFrom_miss _ _ _ _ (by rfl)])

theorem lookup_wdLong (w : Nat) (h : w < 7) (rest : GoString) :
    lookup longDayNames (weekdayString w ++ rest) = some (w, rest) := by
  have : w = 0 ∨ w = 1 ∨ w = 2 ∨ w = 3 ∨ w = 4 ∨ w = 5 ∨ w = 6 := by omega
  unfold lookup
  rw [longDayNames_eq]
  rcases this with h | h | h | h | h | h | h <;> subst h
  · rw [show weekdayString 0 = [83, 117, 110, 100, 97, 121] by decide]
    exact lookupFrom_hit _ _ _ _
  · rw [show weekdayString 1 = [77, 111, 110, 100, 97, 121] by decide]
    repeat (first | exact lookupFrom_hit _ _ _ _ | rw [lookupFrom_miss _ _ _ _ (by rfl)])
  · rw [show weekdayString 2 = [84, 117, 101, 115, 100, 97, 121] by decide]
    exact lookupFrom_hit _ _ _ _
  · rw [show weekdayString 3 = [87, 101, 100, 110, 101, 115, 100, 97, 121] by decide]
    exact lookupFrom_hit _ _ _ _
  · rw [show weekdayString 4 = [84, 104, 117, 114, 115, 100, 97, 121] by decide]
    repeat (first | exact lookupFrom_hit _ _ _ _ | rw [lookupFrom_miss _ _ _ _ (by rfl)])
  · rw [show weekdayString 5 = [70, 114, 105, 100, 97, 121] by decide]
    repeat (first | exact lookupFrom_hit _ _ _ _ | rw [lookupFrom_miss _ _ _ _ (by rfl)])
  · rw [show weekdayString 6 = [83, 97, 116, 117, 114, 100, 97, 121] by decide]
    repeat (first | exact lookupFrom_hit _ _ _ _ | rw [lookupFrom_miss _ _ _ _ (by rfl)])

theorem weekday_lt (t : Time) : t.Weekday < 7 := by
  unfold Time.Weekday
  omega

/-! ## More steps of `parse` on formatted elements -/

theorem parseStd_month (m : Nat) (h1 : 1 ≤ m) (h2 : m ≤ 12) (rest : GoString)
    (nx : Option Std) (st : PState) :
    parseStd stdMonth nx ((monthString m).take 3 ++ rest) st
      = { st := { st with month := some m }, value := rest } := by
  have e : m - 1 + 1 = m := by omega
  simp only [parseStd, lookup_mon3 m h1 h2, e]

theorem parseStd_weekDay (w : Nat) (h : w < 7) (rest : GoString)
    (nx : Option Std) (st : PState) :
    parseStd stdWeekDay nx ((weekdayString w).take 3 ++ rest) st
      = { st := st, value := rest } := by
  simp only [parseStd, lookup_wd3 w h]

theorem parseStd_longWeekDay (w : Nat) (h : w < 7) (rest : GoString)
    (nx : Option Std) (st : PState) :
    parseStd stdLongWeekDay nx (weekdayString w ++ rest) st
      = { st := st, value := rest } := by
  simp only [parseStd, lookup_wdLong w h]

theorem getnum_nd (n : Nat) (h : n < 100) (c : Nat) (rest : GoString) (hc : isDig c = false) :
    getnum (nd n ++ c :: rest) false = some (n, c :: rest) := by
  unfold nd
  split
  · rename_i h10
    have h1 : isDig (48 + n) = true := isDig_digit _ h10
    simp only [List.cons_append, List.nil_append, getnum, h1, if_true, hc, Bool.false_eq_true,
      if_false, Nat.add_sub_cancel_left]
  · exact getnum_d2 n h _ _

theorem nd_head (n : Nat) (h : n < 100) (rest : GoString) : (nd n ++ rest).headD 0 ≠ 32 := by
  unfold nd
  split
  · simp only [List.cons_append, List.headD_cons]; omega
  · simp only [d2, List.cons_append, List.headD_cons]; omega

theorem parseStd_underDay (d : Nat) (h : d < 100) (c : Nat) (rest : GoString)
    (hc : isDig c = false) (nx : Option Std) (st : PState) :
    parseStd stdUnderDay nx (nd d ++ c :: rest) st
      = { st := { st with day := some d }, value := c :: rest } := by
  have hne : ¬ ((nd d ++ c :: rest).headD 0 = 32 ∧ 0 < (nd d ++ c :: rest).length) := by
    intro h'; exact nd_head d h _ h'.1
  have hf : decide (stdUnderDay = stdZeroDay) = false := by decide
  simp only [parseStd, true_and, if_neg hne, hf, getnum_nd d h c rest hc]

theorem parseStd_hour12 (x : Nat) (h : x ≤ 12) (c : Nat) (rest : GoString)
    (hc : isDig c = false) (nx : Option Std) (st : PState) :
    parseStd stdHour12 nx (nd x ++ c :: rest) st
      = { st := { st with hour := x }, value := c :: rest } := by
  have hr : ¬ (12 < x) := by omega
  have hf : decide (stdHour12 = stdZeroHour12) = false := by decide
  simp only [parseStd, hf, getnum_nd x (by omega) c rest hc, if_neg hr]

theorem parseStd_numTZ_utc (rest : GoString) (nx : Option Std) (st : PState) :
    parseStd stdNumTZ nx (43 :: 48 :: 48 :: 48 :: 48 :: rest) st
      = { st := { st with zoneOffset := 0 }, value := rest } := by
  have hlen : ¬ (List.length rest + 1 + 1 + 1 + 1 + 1 < 5) := by omega
  simp [parseStd, parseZoneOffset, getnum, isDig, B, hlen]

theorem parseStd_TZ_utc (rest : GoString) (nx : Option Std) (st : PState) :
    parseStd stdTZ nx (85 :: 84 :: 67 :: rest) st
      = { st := { st with z := some UTC }, value := rest } := by
  have : startsWith (B "UTC") (85 :: 84 :: 67 :: rest) = true := by
    simp [startsWith, B, List.isPrefixOf]
  simp only [parseStd, this, if_true, List.drop_succ_cons, List.drop_zero]

theorem parseStd_isoZ (rest : GoString) (nx : Option Std) (st : PState) :
    parseStd stdISO8601ColonTZ nx (90 :: rest) st
      = { st := { st with z := some UTC }, value := rest } := by
  simp [parseStd, parseZoneOffset]

theorem parseStd_PM (rest : GoString) (nx : Option Std) (st : PState) :
    parseStd stdPM nx (80 :: 77 :: rest) st
      = { st := { st with pmSet := true }, value := rest } := by
  simp [parseStd, B]

theorem parseStd_AM (rest : GoString) (nx : Option Std) (st : PState) :
    parseStd stdPM nx (65 :: 77 :: rest) st
      = { st := { st with amSet := true }, value := rest } := by
  simp [parseStd, B]

end Mft

namespace Mft
open Std

/-! ## The text of each layout element for a time with fields in range -/

section FormatStd

theorem fmt_longYear {y m d h mi s ns : Nat} (r : Rng y m d h mi s ns) (loc : Location) :
    formatStd ⟨(y : Int), m, d, h, mi, s, ns, loc⟩ stdLongYear = d4 y := by
  simp only [formatStd, appendInt_four y r.hy]

theorem fmt_year {y m d h mi s ns : Nat} (_r : Rng y m d h mi s ns) (loc : Location) :
    formatStd ⟨(y : Int), m, d, h, mi, s, ns, loc⟩ stdYear = d2 (y % 100) := by
  have h0 : ¬ ((y : Int) < 0) := by omega
  have e : (y : Int) % 100 = ((y % 100 : Nat) : Int) := by omega
  simp only [formatStd, h0, if_false, e, appendInt_two (y % 100) (Nat.mod_lt _ (by decide))]

theorem fmt_zeroMonth {y m d h mi s ns : Nat} (r : Rng y m d h mi s ns) (loc : Location) :
    formatStd ⟨(y : Int), m, d, h, mi, s, ns, loc⟩ stdZeroMonth = d2 m := by
  simp only [formatStd, appendInt_two m (by have := r.hm2; omega)]

theorem fmt_month {y m d h mi s ns : Nat} (_r : Rng y m d h mi s ns) (loc : Location) :
    formatStd ⟨(y : Int), m, d, h, mi, s, ns, loc⟩ stdMonth
    = (monthString m).take 3 := rfl

theorem fmt_zeroDay {y m d h mi s ns : Nat} (r : Rng y m d h mi s ns) (loc : Location) :
    formatStd ⟨(y : Int), m, d, h, mi, s, ns, loc⟩ stdZeroDay = d2 d := by
  simp only [formatStd, appendInt_two d (by have := r.hd3; omega)]

theorem fmt_underDay {y m d h mi s ns : Nat} (r : Rng y m d h mi s ns) (loc : Location) :
    formatStd ⟨(y : Int), m, d, h, mi, s, ns, loc⟩ stdUnderDay = ud d := by
  simp only [formatStd, appendInt_zero d (by have := r.hd3; omega), ud]

theorem fmt_weekDay {y m d h mi s ns : Nat} (_r : Rng y m d h mi s ns) (loc : Location) :
    formatStd ⟨(y : Int), m, d, h, mi, s, ns, loc⟩ stdWeekDay
    = (weekdayString (wk y m d)).take 3 := rfl

theorem fmt_longWeekDay {y m d h mi s ns : Nat} (_r : Rng y m d h mi s ns) (loc : Location) :
    formatStd ⟨(y : Int), m, d, h, mi, s, ns, loc⟩ stdLongWeekDay
    = weekdayString (wk y m d) := rfl

theorem fmt_hour {y m d h mi s ns : Nat} (r : Rng y m d h mi s ns) (loc : Location) :
    formatStd ⟨(y : Int), m, d, h, mi, s, ns, loc⟩ stdHour = d2 h := by
  simp only [formatStd, appendInt_two h (by have := r.hh; omega)]

theorem h12_le (x : Nat) : h12 x ≤ 12 := by
  unfold h12; split <;> omega

theorem h12_pos (x : Nat) : 1 ≤ h12 x := by
  unfold h12; split <;> omega

theorem fmt_zeroHour12 {y m d h mi s ns : Nat} (_r : Rng y m d h mi s ns) (loc : Location) :
    formatStd ⟨(y : Int), m, d, h, mi, s, ns, loc⟩ stdZeroHour12
    = d2 (h12 h) := by
  have := h12_le h
  simp only [formatStd]
  exact appendInt_two (h12 h) (by omega)

theorem fmt_hour12 {y m d h mi s ns : Nat} (_r : Rng y m d h mi s ns) (loc : Location) :
    formatStd ⟨(y : Int), m, d, h, mi, s, ns, loc⟩ stdHour12 = nd (h12 h) := by
  have := h12_le h
  simp only [formatStd]
  exact appendInt_zero (h12 h) (by omega)

theorem fmt_zeroMinute {y m d h mi s ns : Nat} (r : Rng y m d h mi s ns) (loc : Location) :
    formatStd ⟨(y : Int), m, d, h, mi, s, ns, loc⟩ stdZeroMinute = d2 mi := by
  simp only [formatStd, appendInt_two mi (by have := r.hmi; omega)]

theorem fmt_zeroSecond {y m d h mi s ns : Nat} (r : Rng y m d h mi s ns) (loc : Location) :
    formatStd ⟨(y : Int), m, d, h, mi, s, ns, loc⟩ stdZeroSecond = d2 s := by
  simp only [formatStd, appendInt_two s (by have := r.hs; omega)]

theorem fmt_PM {y m d h mi s ns : Nat} (_r : Rng y m d h mi s ns) (loc : Location) :
    formatStd ⟨(y : Int), m, d, h, mi, s, ns, loc⟩ stdPM = ampm h := by
  simp only [formatStd, ampm]
  split <;> rfl

theorem fmt_numTZ {y m d h mi s ns : Nat} (_r : Rng y m d h mi s ns) (loc : Location) (hl : loc.offset = 0) :
    formatStd ⟨(y : Int), m, d, h, mi, s, ns, loc⟩ stdNumTZ = [43, 48, 48, 48, 48] := by
  simp only [formatStd, hl]
  rfl

theorem fmt_TZ {y m d h mi s ns : Nat} (_r : Rng y m d h mi s ns) (loc : Location) (hl : loc.name = [85, 84, 67]) :
    formatStd ⟨(y : Int), m, d, h, mi, s, ns, loc⟩ stdTZ = [85, 84, 67] := by
  simp [formatStd, hl]

theorem fmt_isoZ {y m d h mi s ns : Nat} (_r : Rng y m d h mi s ns) (loc : Location) (hl : loc.offset = 0) :
    formatStd ⟨(y : Int), m, d, h, mi, s, ns, loc⟩ stdISO8601ColonTZ = [90] := by
  simp [formatStd, hl]

theorem fmt_frac0 {y m d h mi s ns : Nat} (r : Rng y m d h mi s ns) (loc : Location) (n : Nat) (hn : n ≤ 9) (sep : Nat) (hsep : sep = 46) :
    formatStd ⟨(y : Int), m, d, h, mi, s, ns, loc⟩ (stdFracSecond0 n sep) = frac0 n ns := by
  subst hsep
  simp only [formatStd, appendNano_frac0 n ns hn r.hns]

theorem fmt_frac9 {y m d h mi s ns : Nat} (r : Rng y m d h mi s ns) (loc : Location) :
   
    formatStd ⟨(y : Int), m, d, h, mi, s, ns, loc⟩ (stdFracSecond9 9 46) = f9 ns := by
  simp only [formatStd, appendNano_frac9 ns r.hns, f9]

end FormatStd

/-! ## `skip` before formatted elements -/

theorem cutspace_of_head (v : GoString) (h : v.headD 0 ≠ 32) : cutspace v = v := by
  cases v with
  | nil => rfl
  | cons c r =>
    have : c ≠ 32 := by simpa using h
    simp only [cutspace, this, if_false]

theorem skip_sp (v : GoString) (h : v.headD 0 ≠ 32) : skip (32 :: v) [32] = .ok v := by
  rw [skip_space, cutspace_of_head v h]

theorem d2_head (n : Nat) (rest : GoString) : (d2 n ++ rest).headD 0 ≠ 32 := by
  simp only [d2, List.cons_append, List.headD_cons]; omega

theorem d4_head (n : Nat) (rest : GoString) : (d4 n ++ rest).headD 0 ≠ 32 := by
  simp only [d4, List.cons_append, List.headD_cons]; omega

theorem mon3_head (m : Nat) (h1 : 1 ≤ m) (h2 : m ≤ 12) (rest : GoString) :
    ((monthString m).take 3 ++ rest).headD 0 ≠ 32 := by
  have : m = 1 ∨ m = 2 ∨ m = 3 ∨ m = 4 ∨ m = 5 ∨ m = 6 ∨ m = 7 ∨ m = 8 ∨ m = 9 ∨ m = 10
      ∨ m = 11 ∨ m = 12 := by omega
  rcases this with h | h | h | h | h | h | h | h | h | h | h | h <;> subst h
  · rw [show (monthString 1).take 3 = [74, 97, 110] by decide]; simp
  · rw [show (monthString 2).take 3 = [70, 101, 98] by decide]; simp
  · rw [show (monthString 3).take 3 = [77, 97, 114] by decide]; simp
  · rw [show (monthString 4).take 3 = [65, 112, 114] by decide]; simp
  · rw [show (monthString 5).take 3 = [77, 97, 121] by decide]; simp
  · rw [show (monthString 6).take 3 = [74, 117, 110] by decide]; simp
  · rw [show (monthString 7).take 3 = [74, 117, 108] by decide]; simp
  · rw [show (monthString 8).take 3 = [65, 117, 103] by decide]; simp
  · rw [show (monthString 9).take 3 = [83, 101, 112] by decide]; simp
  · rw [show (monthString 10).take 3 = [79, 99, 116] by decide]; simp
  · rw [show (monthString 11).take 3 = [78, 111, 118] by decide]; simp
  · rw [show (monthString 12).take 3 = [68, 101, 99] by decide]; simp

/-- The literal space before a `_2` element takes the padding of the day with it. -/
theorem skip_sp_ud (d : Nat) (h : d < 100) (rest : GoString) :
    skip (32 :: (ud d ++ rest)) [32] = .ok (nd d ++ rest) := by
  rw [skip_space]
  have e := cutspace_of_head _ (nd_head d h rest)
  unfold ud
  split
  · show Except.ok (cutspace (32 :: (nd d ++ rest))) = _
    rw [show cutspace (32 :: (nd d ++ rest)) = cutspace (nd d ++ rest) by
      simp only [cutspace, if_true], e]
  · show Except.ok (cutspace (nd d ++ rest)) = _
    rw [e]

theorem skip_sp_quote (rest : GoString) : skip (32 :: 39 :: rest) [32, 39] = .ok rest := by
  simp [skip, skipAux, cutspace]

theorem skip_comma_sp (v : GoString) (h : v.headD 0 ≠ 32) :
    skip (44 :: 32 :: v) [44, 32] = .ok v := by
  have : skip (44 :: 32 :: v) [44, 32] = .ok (cutspace v) := by
    simp [skip, skipAux, cutspace]
  rw [this, cutspace_of_head v h]

/-! ## Steps whose outcome depends on the text that follows -/

theorem parseStd_zeroSecond_head (x : Nat) (h : x < 60) (c : Nat) (rest : GoString)
    (hc : commaOrPeriod c = false) (n : Option Std) (st : PState) :
    parseStd stdZeroSecond n (d2 x ++ c :: rest) st
      = { st := { st with sec := x }, value := c :: rest } := by
  apply parseStd_zeroSecond x h
  intro h'
  have := h'.2.1
  simp only [List.headD_cons] at this
  rw [hc] at this
  cases this

theorem parseStd_zeroSecond_ampm (x : Nat) (h : x < 60) (hr : Nat) (rest : GoString)
    (n : Option Std) (st : PState) :
    parseStd stdZeroSecond n (d2 x ++ (ampm hr ++ rest)) st
      = { st := { st with sec := x }, value := ampm hr ++ rest } := by
  unfold ampm
  split
  · exact parseStd_zeroSecond_head x h 80 _ (by decide) n st
  · exact parseStd_zeroSecond_head x h 65 _ (by decide) n st

theorem parseStd_ampm (hr : Nat) (rest : GoString) (nx : Option Std) (st : PState) :
    parseStd stdPM nx (ampm hr ++ rest) st
      = { st := { st with amSet := if 12 ≤ hr then st.amSet else true,
                          pmSet := if 12 ≤ hr then true else st.pmSet }, value := rest } := by
  unfold ampm
  split
  · rename_i h
    simp only [List.cons_append, List.nil_append, parseStd_PM, if_pos h]
  · rename_i h
    simp only [List.cons_append, List.nil_append, parseStd_AM, if_neg h]

theorem parseStd_f9 (ns : Nat) (hns : ns < 1000000000) (c : Nat) (rest : GoString)
    (hc : isDig c = false) (hc2 : commaOrPeriod c = false) (nx : Option Std) (st : PState)
    (a b : Nat) :
    parseStd (stdFracSecond9 a b) nx (f9 ns ++ c :: rest) st
      = { st := { st with nsec := if ns = 0 then st.nsec else ns }, value := c :: rest } := by
  unfold f9
  split
  · rename_i h
    simp only [List.nil_append]
    exact parseStd_frac9_none c rest hc2 nx st a b
  · rename_i h
    simp only [List.cons_append]
    exact parseStd_frac9 ns (by omega) hns c rest hc nx st a b

/-! ## The end of `parse` -/

theorem parseFinish_ok (loc : Location) (A av v : GoString) (st : PState)
    (hy : st.yday = none) (h1 : 1 ≤ st.day.getD 1)
    (h2 : st.day.getD 1 ≤ daysIn (st.month.getD 1) st.year) :
    parseFinish loc A av v st = .ok (finishTime loc st (st.month.getD 1) (st.day.getD 1)) := by
  have hc : ¬ (st.day.getD 1 < 1 ∨ st.day.getD 1 > daysIn (st.month.getD 1) st.year) := by omega
  simp only [parseFinish, finishDate, hy, if_neg hc]

theorem isLeap_iff (y : Int) : isLeap y = true ↔ (y % 4 = 0 ∧ (y % 100 ≠ 0 ∨ y % 400 = 0)) := by
  simp [isLeap]

theorem daysIn_mono (m : Nat) (y y' : Int) (h : isLeap y = true → isLeap y' = true) :
    daysIn m y ≤ daysIn m y' := by
  unfold daysIn
  by_cases hm : m = 2
  · subst hm
    by_cases hl : isLeap y = true
    · simp [hl, h hl]
    · by_cases hl' : isLeap y' = true
      · simp [hl, hl', daysBefore]
      · simp [hl, hl']
  · simp [hm]

theorem daysIn_zero (m : Nat) (y : Int) : daysIn m y ≤ daysIn m 0 :=
  daysIn_mono m y 0 (fun _ => by decide)

theorem daysIn_y2k (m y : Nat) : daysIn m (y : Int) ≤ daysIn m ((y2k (y % 100) : Nat) : Int) := by
  apply daysIn_mono
  rw [isLeap_iff, isLeap_iff]
  unfold y2k
  split <;> omega

theorem daysIn_one (y : Int) : daysIn 1 y = 31 := by
  simp [daysIn, daysBefore]

/-- The hour that `parse` computes from the 12-hour clock and the AM/PM mark. -/
theorem hour_of_h12 (h : Nat) (hh : h < 24) :
    (if (if 12 ≤ h then true else false) = true ∧ h12 h < 12 then h12 h + 12
     else if (if 12 ≤ h then false else true) = true ∧ h12 h = 12 then 0 else h12 h) = h := by
  unfold h12
  by_cases h1 : 12 ≤ h
  · by_cases h2 : h % 12 = 0
    · have e : h = 12 := by omega
      subst e; decide
    · have e : h % 12 < 12 := Nat.mod_lt _ (by decide)
      simp only [h1, h2, if_true, if_false, true_and, e]
      omega
  · have e : h % 12 = h := by omega
    by_cases h2 : h = 0
    · subst h2; decide
    · have e3 : ¬ (h = 12) := by omega
      simp only [h1, e, h2, if_false, false_and, true_and, e3]
      simp

end Mft

namespace Mft
open Std

/-! # Each layout of the registry on its own text

For a time with fields in range and each of the 19 layouts: the chunks of the
layout (quoted as `UnmarshalJSON` passes it, and bare as `Format` receives it),
the text `Format` prints, the same text between double quotes, and the value
`Parse` reads back from it under the quoted layout. -/

theorem wk_lt (y m d : Nat) : wk y m d < 7 := weekday_lt _

theorem cons_head (c : Nat) (rest : GoString) (h : c ≠ 32) : (c :: rest).headD 0 ≠ 32 := h

theorem y2k_mod (yy : Nat) (h : yy < 100) : y2k yy % 100 = yy := by
  unfold y2k; split <;> omega

theorem y2k_lt (yy : Nat) (h : yy < 100) : y2k yy < 10000 := by
  unfold y2k; split <;> omega

theorem parseStd_year2 (yy : Nat) (h : yy < 100) (rest : GoString) (n : Option Std)
    (st : PState) :
    parseStd stdYear n (d2 yy ++ rest) st
      = { st := { st with year := ((y2k yy : Nat) : Int) }, value := rest } := by
  rw [parseStd_year yy h]
  have e : (if (yy : Int) ≥ 69 then (yy : Int) + 1900 else (yy : Int) + 2000)
      = ((y2k yy : Nat) : Int) := by
    unfold y2k
    split
    · rw [if_pos (by omega)]; push_cast; rfl
    · rw [if_neg (by omega)]; push_cast; rfl
  rw [e]

/-- One iteration of the loop of `parse`, on a chunk given by its fields. -/
theorem pstep {loc : Location} {A av lit text : GoString} {std : Std} {rest : List Chunk}
    {value v1 v2 : GoString} {st st2 : PState}
    (hs : skip value lit = .ok v1)
    (hp : parseStd std ((rest.head?).bind (·.std)) v1 st = { st := st2, value := v2 }) :
    parseChunks loc A av (⟨lit, some std, text⟩ :: rest) value st
      = parseChunks loc A av rest v2 st2 :=
  parseChunks_step loc A av ⟨lit, some std, text⟩ rest value v1 v2 st st2 std rfl hs hp

/-- The last iteration of the loop of `parse`, on a chunk given by its fields. -/
theorem plast {loc : Location} {A av lit text : GoString} {rest : List Chunk}
    {value : GoString} {st : PState} (hs : skip value lit = .ok []) :
    parseChunks loc A av (⟨lit, none, text⟩ :: rest) value st = parseFinish loc A av [] st :=
  parseChunks_last loc A av ⟨lit, none, text⟩ rest value st rfl hs

theorem ite_nsec (ns : Nat) : (if ns = 0 then 0 else ns) = ns := by
  split
  · omega
  · rfl


/-! ## Layout -/

theorem qchunks_Layout : layoutChunks (quoted Layout) =
    [⟨[34], some stdZeroMonth, B "01"⟩,
     ⟨[47], some stdZeroDay, B "02"⟩,
     ⟨[32], some stdZeroHour12, B "03"⟩,
     ⟨[58], some stdZeroMinute, B "04"⟩,
     ⟨[58], some stdZeroSecond, B "05"⟩,
     ⟨[], some stdPM, B "PM"⟩,
     ⟨[32, 39], some stdYear, B "06"⟩,
     ⟨[32], some stdNumTZ, B "-0700"⟩,
     ⟨[34], none, []⟩] := by
  decide

theorem uchunks_Layout : layoutChunks Layout =
    [⟨[], some stdZeroMonth, B "01"⟩,
     ⟨[47], some stdZeroDay, B "02"⟩,
     ⟨[32], some stdZeroHour12, B "03"⟩,
     ⟨[58], some stdZeroMinute, B "04"⟩,
     ⟨[58], some stdZeroSecond, B "05"⟩,
     ⟨[], some stdPM, B "PM"⟩,
     ⟨[32, 39], some stdYear, B "06"⟩,
     ⟨[32], some stdNumTZ, B "-0700"⟩,
     ⟨[], none, []⟩] := by
  decide

theorem format_Layout {y m d h mi s ns : Nat} (r : Rng y m d h mi s ns) (loc : Location)
    (hl : loc.offset = 0) :
    (⟨(y : Int), m, d, h, mi, s, ns, loc⟩ : Time).Format Layout =
      d2 m ++ 47 :: (d2 d ++ 32 :: (d2 (h12 h) ++ 58 :: (d2 mi ++ 58 :: (d2 s ++
          (ampm h ++ 32 :: 39 :: (d2 (y % 100) ++ [32, 43, 48, 48, 48, 48])))))) := by
  have h1 : Layout ≠ RFC3339 := by decide
  have h2 : Layout ≠ RFC3339Nano := by decide
  have h3 : Layout ≠ [] := by decide
  unfold Time.Format appendFormat
  rw [if_neg h1, if_neg h2, if_neg h3, uchunks_Layout]
  simp only [formatChunks, fmt_zeroMonth r loc, fmt_zeroDay r loc, fmt_zeroHour12 r loc,
      fmt_zeroMinute r loc, fmt_zeroSecond r loc, fmt_PM r loc, fmt_year r loc, fmt_numTZ r loc hl,
    List.nil_append, List.append_nil, List.append_assoc, List.singleton_append, List.cons_append]

theorem qformat_Layout {y m d h mi s ns : Nat} (r : Rng y m d h mi s ns) (loc : Location)
    (hl : loc.offset = 0) :
    quoted ((⟨(y : Int), m, d, h, mi, s, ns, loc⟩ : Time).Format Layout) =
      34 :: (d2 m ++ 47 :: (d2 d ++ 32 :: (d2 (h12 h) ++ 58 :: (d2 mi ++ 58 :: (d2 s ++
          (ampm h ++ 32 :: 39 :: (d2 (y % 100) ++ [32, 43, 48, 48, 48, 48, 34]))))))) := by
  rw [format_Layout r loc hl]
  simp only [quoted, List.nil_append, List.append_nil, List.append_assoc, List.singleton_append,
    List.cons_append]

theorem parse_Layout {y m d h mi s ns : Nat} (o : Ok y m d h mi s ns) (loc : Location) :
    Parse loc (quoted Layout)
      (34 :: (d2 m ++ 47 :: (d2 d ++ 32 :: (d2 (h12 h) ++ 58 :: (d2 mi ++ 58 :: (d2 s ++
          (ampm h ++ 32 :: 39 :: (d2 (y % 100) ++ [32, 43, 48, 48, 48, 48, 34]))))))))
      = .ok ⟨((y2k (y % 100) : Nat) : Int), m, d, h, mi, s, 0, locN loc⟩ := by
  have r := o.rng
  unfold Parse
  rw [qchunks_Layout]
  refine Eq.trans (pstep (skip_byte 34 _ (by decide))
    (parseStd_zeroMonth m r.hm1 r.hm2 _ _ _)) ?_
  dsimp only
  refine Eq.trans (pstep (skip_byte 47 _ (by decide))
    (parseStd_zeroDay d (by have := r.hd3; omega) _ _ _)) ?_
  dsimp only
  refine Eq.trans (pstep (skip_sp _ (d2_head _ _))
    (parseStd_zeroHour12 (h12 h) (h12_le h) _ _ _)) ?_
  dsimp only
  refine Eq.trans (pstep (skip_byte 58 _ (by decide))
    (parseStd_zeroMinute mi r.hmi _ _ _)) ?_
  dsimp only
  refine Eq.trans (pstep (skip_byte 58 _ (by decide))
    (parseStd_zeroSecond_ampm s r.hs h _ _ _)) ?_
  dsimp only
  refine Eq.trans (pstep (skip_nil _)
    (parseStd_ampm h _ _ _)) ?_
  dsimp only
  refine Eq.trans (pstep (skip_sp_quote _)
    (parseStd_year2 (y % 100) (Nat.mod_lt _ (by decide)) _ _ _)) ?_
  dsimp only
  refine Eq.trans (pstep (skip_sp _ (cons_head 43 _ (by decide)))
    (parseStd_numTZ_utc _ _ _)) ?_
  dsimp only
  refine Eq.trans (plast (skip_byte 34 [] (by decide))) ?_
  refine Eq.trans (parseFinish_ok _ _ _ _ _ rfl ?_ ?_) ?_
  · exact r.hd1
  · exact (le_trans o.hd2 (daysIn_y2k m y))
  have hh := hour_of_h12 h r.hh
  by_cases hl : loc.offset = 0 <;> by_cases h12 : 12 ≤ h <;>
    simp [finishTime, Date, locN, hl, h12] at hh ⊢ <;> omega

/-! ## ANSIC -/

theorem qchunks_ANSIC : layoutChunks (quoted ANSIC) =
    [⟨[34], some stdWeekDay, B "Mon"⟩,
     ⟨[32], some stdMonth, B "Jan"⟩,
     ⟨[32], some stdUnderDay, B "_2"⟩,
     ⟨[32], some stdHour, B "15"⟩,
     ⟨[58], some stdZeroMinute, B "04"⟩,
     ⟨[58], some stdZeroSecond, B "05"⟩,
     ⟨[32], some stdLongYear, B "2006"⟩,
     ⟨[34], none, []⟩] := by
  decide

theorem uchunks_ANSIC : layoutChunks ANSIC =
    [⟨[], some stdWeekDay, B "Mon"⟩,
     ⟨[32], some stdMonth, B "Jan"⟩,
     ⟨[32], some stdUnderDay, B "_2"⟩,
     ⟨[32], some stdHour, B "15"⟩,
     ⟨[58], some stdZeroMinute, B "04"⟩,
     ⟨[58], some stdZeroSecond, B "05"⟩,
     ⟨[32], some stdLongYear, B "2006"⟩,
     ⟨[], none, []⟩] := by
  decide

theorem format_ANSIC {y m d h mi s ns : Nat} (r : Rng y m d h mi s ns) (loc : Location) :
    (⟨(y : Int), m, d, h, mi, s, ns, loc⟩ : Time).Format ANSIC =
      (weekdayString (wk y m d)).take 3 ++ 32 :: ((monthString m).take 3 ++ 32 :: (ud d ++ 32 ::
          (d2 h ++ 58 :: (d2 mi ++ 58 :: (d2 s ++ 32 :: (d4 y)))))) := by
  have h1 : ANSIC ≠ RFC3339 := by decide
  have h2 : ANSIC ≠ RFC3339Nano := by decide
  have h3 : ANSIC ≠ [] := by decide
  unfold Time.Format appendFormat
  rw [if_neg h1, if_neg h2, if_neg h3, uchunks_ANSIC]
  simp only [formatChunks, fmt_weekDay r loc, fmt_month r loc, fmt_underDay r loc, fmt_hour r loc,
      fmt_zeroMinute r loc, fmt_zeroSecond r loc, fmt_longYear r loc,
    List.nil_append, List.append_nil, List.append_assoc, List.singleton_append, List.cons_append]

theorem qformat_ANSIC {y m d h mi s ns : Nat} (r : Rng y m d h mi s ns) (loc : Location) :
    quoted ((⟨(y : Int), m, d, h, mi, s, ns, loc⟩ : Time).Format ANSIC) =
      34 :: ((weekdayString (wk y m d)).take 3 ++ 32 :: ((monthString m).take 3 ++ 32 ::
          (ud d ++ 32 :: (d2 h ++ 58 :: (d2 mi ++ 58 :: (d2 s ++ 32 :: (d4 y ++ [34]))))))) := by
  rw [format_ANSIC r loc]
  simp only [quoted, List.nil_append, List.append_nil, List.append_assoc, List.singleton_append,
    List.cons_append]

theorem parse_ANSIC {y m d h mi s ns : Nat} (o : Ok y m d h mi s ns) (loc : Location) :
    Parse loc (quoted ANSIC)
      (34 :: ((weekdayString (wk y m d)).take 3 ++ 32 :: ((monthString m).take 3 ++ 32 ::
          (ud d ++ 32 :: (d2 h ++ 58 :: (d2 mi ++ 58 :: (d2 s ++ 32 :: (d4 y ++ [34]))))))))
      = .ok ⟨(y : Int), m, d, h, mi, s, 0, UTC⟩ := by
  have r := o.rng
  unfold Parse
  rw [qchunks_ANSIC]
  refine Eq.trans (pstep (skip_byte 34 _ (by decide))
    (parseStd_weekDay (wk y m d) (wk_lt y m d) _ _ _)) ?_
  dsimp only
  refine Eq.trans (pstep (skip_sp _ (mon3_head m r.hm1 r.hm2 _))
    (parseStd_month m r.hm1 r.hm2 _ _ _)) ?_
  dsimp only
  refine Eq.trans (pstep (skip_sp_ud d (by have := r.hd3; omega) _)
    (parseStd_underDay d (by have := r.hd3; omega) 32 _ rfl _ _)) ?_
  dsimp only
  refine Eq.trans (pstep (skip_sp _ (d2_head _ _))
    (parseStd_hour h r.hh _ _ _)) ?_
  dsimp only
  refine Eq.trans (pstep (skip_byte 58 _ (by decide))
    (parseStd_zeroMinute mi r.hmi _ _ _)) ?_
  dsimp only
  refine Eq.trans (pstep (skip_byte 58 _ (by decide))
    (parseStd_zeroSecond_head s r.hs 32 _ rfl _ _)) ?_
  dsimp only
  refine Eq.trans (pstep (skip_sp _ (d4_head _ _))
    (parseStd_longYear y r.hy _ _ _)) ?_
  dsimp only
  refine Eq.trans (plast (skip_byte 34 [] (by decide))) ?_
  refine Eq.trans (parseFinish_ok _ _ _ _ _ rfl ?_ ?_) ?_
  · exact r.hd1
  · exact o.hd2
  simp [finishTime, Date]

/-! ## RubyDate -/

theorem qchunks_RubyDate : layoutChunks (quoted RubyDate) =
    [⟨[34], some stdWeekDay, B "Mon"⟩,
     ⟨[32], some stdMonth, B "Jan"⟩,
     ⟨[32], some stdZeroDay, B "02"⟩,
     ⟨[32], some stdHour, B "15"⟩,
     ⟨[58], some stdZeroMinute, B "04"⟩,
     ⟨[58], some stdZeroSecond, B "05"⟩,
     ⟨[32], some stdNumTZ, B "-0700"⟩,
     ⟨[32], some stdLongYear, B "2006"⟩,
     ⟨[34], none, []⟩] := by
  decide

theorem uchunks_RubyDate : layoutChunks RubyDate =
    [⟨[], some stdWeekDay, B "Mon"⟩,
     ⟨[32], some stdMonth, B "Jan"⟩,
     ⟨[32], some stdZeroDay, B "02"⟩,
     ⟨[32], some stdHour, B "15"⟩,
     ⟨[58], some stdZeroMinute, B "04"⟩,
     ⟨[58], some stdZeroSecond, B "05"⟩,
     ⟨[32], some stdNumTZ, B "-0700"⟩,
     ⟨[32], some stdLongYear, B "2006"⟩,
     ⟨[], none, []⟩] := by
  decide

theorem format_RubyDate {y m d h mi s ns : Nat} (r : Rng y m d h mi s ns) (loc : Location)
    (hl : loc.offset = 0) :
    (⟨(y : Int), m, d, h, mi, s, ns, loc⟩ : Time).Format RubyDate =
      (weekdayString (wk y m d)).take 3 ++ 32 :: ((monthString m).take 3 ++ 32 :: (d2 d ++ 32 ::
          (d2 h ++ 58 :: (d2 mi ++ 58 :: (d2 s ++ 32 :: 43 :: 48 :: 48 :: 48 :: 48 :: 32 ::
          (d4 y)))))) := by
  have h1 : RubyDate ≠ RFC3339 := by decide
  have h2 : RubyDate ≠ RFC3339Nano := by decide
  have h3 : RubyDate ≠ [] := by decide
  unfold Time.Format appendFormat
  rw [if_neg h1, if_neg h2, if_neg h3, uchunks_RubyDate]
  simp only [formatChunks, fmt_weekDay r loc, fmt_month r loc, fmt_zeroDay r loc, fmt_hour r loc,
      fmt_zeroMinute r loc, fmt_zeroSecond r loc, fmt_numTZ r loc hl, fmt_longYear r loc,
    List.nil_append, List.append_nil, List.append_assoc, List.singleton_append, List.cons_append]

theorem qformat_RubyDate {y m d h mi s ns : Nat} (r : Rng y m d h mi s ns) (loc : Location)
    (hl : loc.offset = 0) :
    quoted ((⟨(y : Int), m, d, h, mi, s, ns, loc⟩ : Time).Format RubyDate) =
      34 :: ((weekdayString (wk y m d)).take 3 ++ 32 :: ((monthString m).take 3 ++ 32 ::
          (d2 d ++ 32 :: (d2 h ++ 58 :: (d2 mi ++ 58 :: (d2 s ++ 32 :: 43 :: 48 :: 48 :: 48 :: 48 ::
          32 :: (d4 y ++ [34]))))))) := by
  rw [format_RubyDate r loc hl]
  simp only [quoted, List.nil_append, List.append_nil, List.append_assoc, List.singleton_append,
    List.cons_append]

theorem parse_RubyDate {y m d h mi s ns : Nat} (o : Ok y m d h mi s ns) (loc : Location) :
    Parse loc (quoted RubyDate)
      (34 :: ((weekdayString (wk y m d)).take 3 ++ 32 :: ((monthString m).take 3 ++ 32 ::
          (d2 d ++ 32 :: (d2 h ++ 58 :: (d2 mi ++ 58 :: (d2 s ++ 32 :: 43 :: 48 :: 48 :: 48 :: 48 ::
          32 :: (d4 y ++ [34]))))))))
      = .ok ⟨(y : Int), m, d, h, mi, s, 0, locN loc⟩ := by
  have r := o.rng
  unfold Parse
  rw [qchunks_RubyDate]
  refine Eq.trans (pstep (skip_byte 34 _ (by decide))
    (parseStd_weekDay (wk y m d) (wk_lt y m d) _ _ _)) ?_
  dsimp only
  refine Eq.trans (pstep (skip_sp _ (mon3_head m r.hm1 r.hm2 _))
    (parseStd_month m r.hm1 r.hm2 _ _ _)) ?_
  dsimp only
  refine Eq.trans (pstep (skip_sp _ (d2_head _ _))
    (parseStd_zeroDay d (by have := r.hd3; omega) _ _ _)) ?_
  dsimp only
  refine Eq.trans (pstep (skip_sp _ (d2_head _ _))
    (parseStd_hour h r.hh _ _ _)) ?_
  dsimp only
  refine Eq.trans (pstep (skip_byte 58 _ (by decide))
    (parseStd_zeroMinute mi r.hmi _ _ _)) ?_
  dsimp only
  refine Eq.trans (pstep (skip_byte 58 _ (by decide))
    (parseStd_zeroSecond_head s r.hs 32 _ rfl _ _)) ?_
  dsimp only
  refine Eq.trans (pstep (skip_sp _ (cons_head 43 _ (by decide)))
    (parseStd_numTZ_utc _ _ _)) ?_
  dsimp only
  refine Eq.trans (pstep (skip_sp _ (d4_head _ _))
    (parseStd_longYear y r.hy _ _ _)) ?_
  dsimp only
  refine Eq.trans (plast (skip_byte 34 [] (by decide))) ?_
  refine Eq.trans (parseFinish_ok _ _ _ _ _ rfl ?_ ?_) ?_
  · exact r.hd1
  · exact o.hd2
  by_cases hl : loc.offset = 0 <;> simp [finishTime, Date, locN, hl]

/-! ## UnixDate -/

theorem qchunks_UnixDate : layoutChunks (quoted UnixDate) =
    [⟨[34], some stdWeekDay, B "Mon"⟩,
     ⟨[32], some stdMonth, B "Jan"⟩,
     ⟨[32], some stdUnderDay, B "_2"⟩,
     ⟨[32], some stdHour, B "15"⟩,
     ⟨[58], some stdZeroMinute, B "04"⟩,
     ⟨[58], some stdZeroSecond, B "05"⟩,
     ⟨[32], some stdTZ, B "MST"⟩,
     ⟨[32], some stdLongYear, B "2006"⟩,
     ⟨[34], none, []⟩] := by
  decide

theorem uchunks_UnixDate : layoutChunks UnixDate =
    [⟨[], some stdWeekDay, B "Mon"⟩,
     ⟨[32], some stdMonth, B "Jan"⟩,
     ⟨[32], some stdUnderDay, B "_2"⟩,
     ⟨[32], some stdHour, B "15"⟩,
     ⟨[58], some stdZeroMinute, B "04"⟩,
     ⟨[58], some stdZeroSecond, B "05"⟩,
     ⟨[32], some stdTZ, B "MST"⟩,
     ⟨[32], some stdLongYear, B "2006"⟩,
     ⟨[], none, []⟩] := by
  decide

theorem format_UnixDate {y m d h mi s ns : Nat} (r : Rng y m d h mi s ns) (loc : Location)
    (hn : loc.name = [85, 84, 67]) :
    (⟨(y : Int), m, d, h, mi, s, ns, loc⟩ : Time).Format UnixDate =
      (weekdayString (wk y m d)).take 3 ++ 32 :: ((monthString m).take 3 ++ 32 :: (ud d ++ 32 ::
          (d2 h ++ 58 :: (d2 mi ++ 58 :: (d2 s ++ 32 :: 85 :: 84 :: 67 :: 32 :: (d4 y)))))) := by
  have h1 : UnixDate ≠ RFC3339 := by decide
  have h2 : UnixDate ≠ RFC3339Nano := by decide
  have h3 : UnixDate ≠ [] := by decide
  unfold Time.Format appendFormat
  rw [if_neg h1, if_neg h2, if_neg h3, uchunks_UnixDate]
  simp only [formatChunks, fmt_weekDay r loc, fmt_month r loc, fmt_underDay r loc, fmt_hour r loc,
      fmt_zeroMinute r loc, fmt_zeroSecond r loc, fmt_TZ r loc hn, fmt_longYear r loc,
    List.nil_append, List.append_nil, List.append_assoc, List.singleton_append, List.cons_append]

theorem qformat_UnixDate {y m d h mi s ns : Nat} (r : Rng y m d h mi s ns) (loc : Location)
    (hn : loc.name = [85, 84, 67]) :
    quoted ((⟨(y : Int), m, d, h, mi, s, ns, loc⟩ : Time).Format UnixDate) =
      34 :: ((weekdayString (wk y m d)).take 3 ++ 32 :: ((monthString m).take 3 ++ 32 ::
          (ud d ++ 32 :: (d2 h ++ 58 :: (d2 mi ++ 58 :: (d2 s ++ 32 :: 85 :: 84 :: 67 :: 32 ::
          (d4 y ++ [34]))))))) := by
  rw [format_UnixDate r loc hn]
  simp only [quoted, List.nil_append, List.append_nil, List.append_assoc, List.singleton_append,
    List.cons_append]

theorem parse_UnixDate {y m d h mi s ns : Nat} (o : Ok y m d h mi s ns) (loc : Location) :
    Parse loc (quoted UnixDate)
      (34 :: ((weekdayString (wk y m d)).take 3 ++ 32 :: ((monthString m).take 3 ++ 32 ::
          (ud d ++ 32 :: (d2 h ++ 58 :: (d2 mi ++ 58 :: (d2 s ++ 32 :: 85 :: 84 :: 67 :: 32 ::
          (d4 y ++ [34]))))))))
      = .ok ⟨(y : Int), m, d, h, mi, s, 0, UTC⟩ := by
  have r := o.rng
  unfold Parse
  rw [qchunks_UnixDate]
  refine Eq.trans (pstep (skip_byte 34 _ (by decide))
    (parseStd_weekDay (wk y m d) (wk_lt y m d) _ _ _)) ?_
  dsimp only
  refine Eq.trans (pstep (skip_sp _ (mon3_head m r.hm1 r.hm2 _))
    (parseStd_month m r.hm1 r.hm2 _ _ _)) ?_
  dsimp only
  refine Eq.trans (pstep (skip_sp_ud d (by have := r.hd3; omega) _)
    (parseStd_underDay d (by have := r.hd3; omega) 32 _ rfl _ _)) ?_
  dsimp only
  refine Eq.trans (pstep (skip_sp _ (d2_head _ _))
    (parseStd_hour h r.hh _ _ _)) ?_
  dsimp only
  refine Eq.trans (pstep (skip_byte 58 _ (by decide))
    (parseStd_zeroMinute mi r.hmi _ _ _)) ?_
  dsimp only
  refine Eq.trans (pstep (skip_byte 58 _ (by decide))
    (parseStd_zeroSecond_head s r.hs 32 _ rfl _ _)) ?_
  dsimp only
  refine Eq.trans (pstep (skip_sp _ (cons_head 85 _ (by decide)))
    (parseStd_TZ_utc _ _ _)) ?_
  dsimp only
  refine Eq.trans (pstep (skip_sp _ (d4_head _ _))
    (parseStd_longYear y r.hy _ _ _)) ?_
  dsimp only
  refine Eq.trans (plast (skip_byte 34 [] (by decide))) ?_
  refine Eq.trans (parseFinish_ok _ _ _ _ _ rfl ?_ ?_) ?_
  · exact r.hd1
  · exact o.hd2
  simp [finishTime, Date]

/-! ## RFC822Z -/

theorem qchunks_RFC822Z : layoutChunks (quoted RFC822Z) =
    [⟨[34], some stdZeroDay, B "02"⟩,
     ⟨[32], some stdMonth, B "Jan"⟩,
     ⟨[32], some stdYear, B "06"⟩,
     ⟨[32], some stdHour, B "15"⟩,
     ⟨[58], some stdZeroMinute, B "04"⟩,
     ⟨[32], some stdNumTZ, B "-0700"⟩,
     ⟨[34], none, []⟩] := by
  decide

theorem uchunks_RFC822Z : layoutChunks RFC822Z =
    [⟨[], some stdZeroDay, B "02"⟩,
     ⟨[32], some stdMonth, B "Jan"⟩,
     ⟨[32], some stdYear, B "06"⟩,
     ⟨[32], some stdHour, B "15"⟩,
     ⟨[58], some stdZeroMinute, B "04"⟩,
     ⟨[32], some stdNumTZ, B "-0700"⟩,
     ⟨[], none, []⟩] := by
  decide

theorem format_RFC822Z {y m d h mi s ns : Nat} (r : Rng y m d h mi s ns) (loc : Location)
    (hl : loc.offset = 0) :
    (⟨(y : Int), m, d, h, mi, s, ns, loc⟩ : Time).Format RFC822Z =
      d2 d ++ 32 :: ((monthString m).take 3 ++ 32 :: (d2 (y % 100) ++ 32 :: (d2 h ++ 58 ::
          (d2 mi ++ [32, 43, 48, 48, 48, 48])))) := by
  have h1 : RFC822Z ≠ RFC3339 := by decide
  have h2 : RFC822Z ≠ RFC3339Nano := by decide
  have h3 : RFC822Z ≠ [] := by decide
  unfold Time.Format appendFormat
  rw [if_neg h1, if_neg h2, if_neg h3, uchunks_RFC822Z]
  simp only [formatChunks, fmt_zeroDay r loc, fmt_month r loc, fmt_year r loc, fmt_hour r loc,
      fmt_zeroMinute r loc, fmt_numTZ r loc hl,
    List.nil_append, List.append_nil, List.append_assoc, List.singleton_append, List.cons_append]

theorem qformat_RFC822Z {y m d h mi s ns : Nat} (r : Rng y m d h mi s ns) (loc : Location)
    (hl : loc.offset = 0) :
    quoted ((⟨(y : Int), m, d, h, mi, s, ns, loc⟩ : Time).Format RFC822Z) =
      34 :: (d2 d ++ 32 :: ((monthString m).take 3 ++ 32 :: (d2 (y % 100) ++ 32 :: (d2 h ++ 58 ::
          (d2 mi ++ [32, 43, 48, 48, 48, 48, 34]))))) := by
  rw [format_RFC822Z r loc hl]
  simp only [quoted, List.nil_append, List.append_nil, List.append_assoc, List.singleton_append,
    List.cons_append]

theorem parse_RFC822Z {y m d h mi s ns : Nat} (o : Ok y m d h mi s ns) (loc : Location) :
    Parse loc (quoted RFC822Z)
      (34 :: (d2 d ++ 32 :: ((monthString m).take 3 ++ 32 :: (d2 (y % 100) ++ 32 :: (d2 h ++ 58 ::
          (d2 mi ++ [32, 43, 48, 48, 48, 48, 34]))))))
      = .ok ⟨((y2k (y % 100) : Nat) : Int), m, d, h, mi, 0, 0, locN loc⟩ := by
  have r := o.rng
  unfold Parse
  rw [qchunks_RFC822Z]
  refine Eq.trans (pstep (skip_byte 34 _ (by decide))
    (parseStd_zeroDay d (by have := r.hd3; omega) _ _ _)) ?_
  dsimp only
  refine Eq.trans (pstep (skip_sp _ (mon3_head m r.hm1 r.hm2 _))
    (parseStd_month m r.hm1 r.hm2 _ _ _)) ?_
  dsimp only
  refine Eq.trans (pstep (skip_sp _ (d2_head _ _))
    (parseStd_year2 (y % 100) (Nat.mod_lt _ (by decide)) _ _ _)) ?_
  dsimp only
  refine Eq.trans (pstep (skip_sp _ (d2_head _ _))
    (parseStd_hour h r.hh _ _ _)) ?_
  dsimp only
  refine Eq.trans (pstep (skip_byte 58 _ (by decide))
    (parseStd_zeroMinute mi r.hmi _ _ _)) ?_
  dsimp only
  refine Eq.trans (pstep (skip_sp _ (cons_head 43 _ (by decide)))
    (parseStd_numTZ_utc _ _ _)) ?_
  dsimp only
  refine Eq.trans (plast (skip_byte 34 [] (by decide))) ?_
  refine Eq.trans (parseFinish_ok _ _ _ _ _ rfl ?_ ?_) ?_
  · exact r.hd1
  · exact (le_trans o.hd2 (daysIn_y2k m y))
  by_cases hl : loc.offset = 0 <;> simp [finishTime, Date, locN, hl]

/-! ## RFC822 -/

theorem qchunks_RFC822 : layoutChunks (quoted RFC822) =
    [⟨[34], some stdZeroDay, B "02"⟩,
     ⟨[32], some stdMonth, B "Jan"⟩,
     ⟨[32], some stdYear, B "06"⟩,
     ⟨[32], some stdHour, B "15"⟩,
     ⟨[58], some stdZeroMinute, B "04"⟩,
     ⟨[32], some stdTZ, B "MST"⟩,
     ⟨[34], none, []⟩] := by
  decide

theorem uchunks_RFC822 : layoutChunks RFC822 =
    [⟨[], some stdZeroDay, B "02"⟩,
     ⟨[32], some stdMonth, B "Jan"⟩,
     ⟨[32], some stdYear, B "06"⟩,
     ⟨[32], some stdHour, B "15"⟩,
     ⟨[58], some stdZeroMinute, B "04"⟩,
     ⟨[32], some stdTZ, B "MST"⟩,
     ⟨[], none, []⟩] := by
  decide

theorem format_RFC822 {y m d h mi s ns : Nat} (r : Rng y m d h mi s ns) (loc : Location)
    (hn : loc.name = [85, 84, 67]) :
    (⟨(y : Int), m, d, h, mi, s, ns, loc⟩ : Time).Format RFC822 =
      d2 d ++ 32 :: ((monthString m).take 3 ++ 32 :: (d2 (y % 100) ++ 32 :: (d2 h ++ 58 ::
          (d2 mi ++ [32, 85, 84, 67])))) := by
  have h1 : RFC822 ≠ RFC3339 := by decide
  have h2 : RFC822 ≠ RFC3339Nano := by decide
  have h3 : RFC822 ≠ [] := by decide
  unfold Time.Format appendFormat
  rw [if_neg h1, if_neg h2, if_neg h3, uchunks_RFC822]
  simp only [formatChunks, fmt_zeroDay r loc, fmt_month r loc, fmt_year r loc, fmt_hour r loc,
      fmt_zeroMinute r loc, fmt_TZ r loc hn,
    List.nil_append, List.append_nil, List.append_assoc, List.singleton_append, List.cons_append]

theorem qformat_RFC822 {y m d h mi s ns : Nat} (r : Rng y m d h mi s ns) (loc : Location)
    (hn : loc.name = [85, 84, 67]) :
    quoted ((⟨(y : Int), m, d, h, mi, s, ns, loc⟩ : Time).Format RFC822) =
      34 :: (d2 d ++ 32 :: ((monthString m).take 3 ++ 32 :: (d2 (y % 100) ++ 32 :: (d2 h ++ 58 ::
          (d2 mi ++ [32, 85, 84, 67, 34]))))) := by
  rw [format_RFC822 r loc hn]
  simp only [quoted, List.nil_append, List.append_nil, List.append_assoc, List.singleton_append,
    List.cons_append]

theorem parse_RFC822 {y m d h mi s ns : Nat} (o : Ok y m d h mi s ns) (loc : Location) :
    Parse loc (quoted RFC822)
      (34 :: (d2 d ++ 32 :: ((monthString m).take 3 ++ 32 :: (d2 (y % 100) ++ 32 :: (d2 h ++ 58 ::
          (d2 mi ++ [32, 85, 84, 67, 34]))))))
      = .ok ⟨((y2k (y % 100) : Nat) : Int), m, d, h, mi, 0, 0, UTC⟩ := by
  have r := o.rng
  unfold Parse
  rw [qchunks_RFC822]
  refine Eq.trans (pstep (skip_byte 34 _ (by decide))
    (parseStd_zeroDay d (by have := r.hd3; omega) _ _ _)) ?_
  dsimp only
  refine Eq.trans (pstep (skip_sp _ (mon3_head m r.hm1 r.hm2 _))
    (parseStd_month m r.hm1 r.hm2 _ _ _)) ?_
  dsimp only
  refine Eq.trans (pstep (skip_sp _ (d2_head _ _))
    (parseStd_year2 (y % 100) (Nat.mod_lt _ (by decide)) _ _ _)) ?_
  dsimp only
  refine Eq.trans (pstep (skip_sp _ (d2_head _ _))
    (parseStd_hour h r.hh _ _ _)) ?_
  dsimp only
  refine Eq.trans (pstep (skip_byte 58 _ (by decide))
    (parseStd_zeroMinute mi r.hmi _ _ _)) ?_
  dsimp only
  refine Eq.trans (pstep (skip_sp _ (cons_head 85 _ (by decide)))
    (parseStd_TZ_utc _ _ _)) ?_
  dsimp only
  refine Eq.trans (plast (skip_byte 34 [] (by decide))) ?_
  refine Eq.trans (parseFinish_ok _ _ _ _ _ rfl ?_ ?_) ?_
  · exact r.hd1
  · exact (le_trans o.hd2 (daysIn_y2k m y))
  simp [finishTime, Date]

/-! ## RFC850 -/

theorem qchunks_RFC850 : layoutChunks (quoted RFC850) =
    [⟨[34], some stdLongWeekDay, B "Monday"⟩,
     ⟨[44, 32], some stdZeroDay, B "02"⟩,
     ⟨[45], some stdMonth, B "Jan"⟩,
     ⟨[45], some stdYear, B "06"⟩,
     ⟨[32], some stdHour, B "15"⟩,
     ⟨[58], some stdZeroMinute, B "04"⟩,
     ⟨[58], some stdZeroSecond, B "05"⟩,
     ⟨[32], some stdTZ, B "MST"⟩,
     ⟨[34], none, []⟩] := by
  decide

theorem uchunks_RFC850 : layoutChunks RFC850 =
    [⟨[], some stdLongWeekDay, B "Monday"⟩,
     ⟨[44, 32], some stdZeroDay, B "02"⟩,
     ⟨[45], some stdMonth, B "Jan"⟩,
     ⟨[45], some stdYear, B "06"⟩,
     ⟨[32], some stdHour, B "15"⟩,
     ⟨[58], some stdZeroMinute, B "04"⟩,
     ⟨[58], some stdZeroSecond, B "05"⟩,
     ⟨[32], some stdTZ, B "MST"⟩,
     ⟨[], none, []⟩] := by
  decide

theorem format_RFC850 {y m d h mi s ns : Nat} (r : Rng y m d h mi s ns) (loc : Location)
    (hn : loc.name = [85, 84, 67]) :
    (⟨(y : Int), m, d, h, mi, s, ns, loc⟩ : Time).Format RFC850 =
      weekdayString (wk y m d) ++ 44 :: 32 :: (d2 d ++ 45 :: ((monthString m).take 3 ++ 45 :: (d2
          (y % 100) ++ 32 :: (d2 h ++ 58 :: (d2 mi ++ 58 :: (d2 s ++ [32, 85, 84, 67])))))) := by
  have h1 : RFC850 ≠ RFC3339 := by decide
  have h2 : RFC850 ≠ RFC3339Nano := by decide
  have h3 : RFC850 ≠ [] := by decide
  unfold Time.Format appendFormat
  rw [if_neg h1, if_neg h2, if_neg h3, uchunks_RFC850]
  simp only [formatChunks, fmt_longWeekDay r loc, fmt_zeroDay r loc, fmt_month r loc, fmt_year r
      loc, fmt_hour r loc, fmt_zeroMinute r loc, fmt_zeroSecond r loc, fmt_TZ r loc hn,
    List.nil_append, List.append_nil, List.append_assoc, List.singleton_append, List.cons_append]

theorem qformat_RFC850 {y m d h mi s ns : Nat} (r : Rng y m d h mi s ns) (loc : Location)
    (hn : loc.name = [85, 84, 67]) :
    quoted ((⟨(y : Int), m, d, h, mi, s, ns, loc⟩ : Time).Format RFC850) =
      34 :: (weekdayString (wk y m d) ++ 44 :: 32 :: (d2 d ++ 45 :: ((monthString m).take 3 ++ 45 ::
          (d2 (y % 100) ++ 32 :: (d2 h ++ 58 :: (d2 mi ++ 58 :: (d2 s ++ [32, 85, 84, 67, 34])))))))
          := by
  rw [format_RFC850 r loc hn]
  simp only [quoted, List.nil_append, List.append_nil, List.append_assoc, List.singleton_append,
    List.cons_append]

theorem parse_RFC850 {y m d h mi s ns : Nat} (o : Ok y m d h mi s ns) (loc : Location) :
    Parse loc (quoted RFC850)
      (34 :: (weekdayString (wk y m d) ++ 44 :: 32 :: (d2 d ++ 45 ::
          ((monthString m).take 3 ++ 45 :: (d2 (y % 100) ++ 32 :: (d2 h ++ 58 :: (d2 mi ++ 58 ::
          (d2 s ++ [32, 85, 84, 67, 34]))))))))
      = .ok ⟨((y2k (y % 100) : Nat) : Int), m, d, h, mi, s, 0, UTC⟩ := by
  have r := o.rng
  unfold Parse
  rw [qchunks_RFC850]
  refine Eq.trans (pstep (skip_byte 34 _ (by decide))
    (parseStd_longWeekDay (wk y m d) (wk_lt y m d) _ _ _)) ?_
  dsimp only
  refine Eq.trans (pstep (skip_comma_sp _ (d2_head _ _))
    (parseStd_zeroDay d (by have := r.hd3; omega) _ _ _)) ?_
  dsimp only
  refine Eq.trans (pstep (skip_byte 45 _ (by decide))
    (parseStd_month m r.hm1 r.hm2 _ _ _)) ?_
  dsimp only
  refine Eq.trans (pstep (skip_byte 45 _ (by decide))
    (parseStd_year2 (y % 100) (Nat.mod_lt _ (by decide)) _ _ _)) ?_
  dsimp only
  refine Eq.trans (pstep (skip_sp _ (d2_head _ _))
    (parseStd_hour h r.hh _ _ _)) ?_
  dsimp only
  refine Eq.trans (pstep (skip_byte 58 _ (by decide))
    (parseStd_zeroMinute mi r.hmi _ _ _)) ?_
  dsimp only
  refine Eq.trans (pstep (skip_byte 58 _ (by decide))
    (parseStd_zeroSecond_head s r.hs 32 _ rfl _ _)) ?_
  dsimp only
  refine Eq.trans (pstep (skip_sp _ (cons_head 85 _ (by decide)))
    (parseStd_TZ_utc _ _ _)) ?_
  dsimp only
  refine Eq.trans (plast (skip_byte 34 [] (by decide))) ?_
  refine Eq.trans (parseFinish_ok _ _ _ _ _ rfl ?_ ?_) ?_
  · exact r.hd1
  · exact (le_trans o.hd2 (daysIn_y2k m y))
  simp [finishTime, Date]

/-! ## RFC1123Z -/

theorem qchunks_RFC1123Z : layoutChunks (quoted RFC1123Z) =
    [⟨[34], some stdWeekDay, B "Mon"⟩,
     ⟨[44, 32], some stdZeroDay, B "02"⟩,
     ⟨[32], some stdMonth, B "Jan"⟩,
     ⟨[32], some stdLongYear, B "2006"⟩,
     ⟨[32], some stdHour, B "15"⟩,
     ⟨[58], some stdZeroMinute, B "04"⟩,
     ⟨[58], some stdZeroSecond, B "05"⟩,
     ⟨[32], some stdNumTZ, B "-0700"⟩,
     ⟨[34], none, []⟩] := by
  decide

theorem uchunks_RFC1123Z : layoutChunks RFC1123Z =
    [⟨[], some stdWeekDay, B "Mon"⟩,
     ⟨[44, 32], some stdZeroDay, B "02"⟩,
     ⟨[32], some stdMonth, B "Jan"⟩,
     ⟨[32], some stdLongYear, B "2006"⟩,
     ⟨[32], some stdHour, B "15"⟩,
     ⟨[58], some stdZeroMinute, B "04"⟩,
     ⟨[58], some stdZeroSecond, B "05"⟩,
     ⟨[32], some stdNumTZ, B "-0700"⟩,
     ⟨[], none, []⟩] := by
  decide

theorem format_RFC1123Z {y m d h mi s ns : Nat} (r : Rng y m d h mi s ns) (loc : Location)
    (hl : loc.offset = 0) :
    (⟨(y : Int), m, d, h, mi, s, ns, loc⟩ : Time).Format RFC1123Z =
      (weekdayString (wk y m d)).take 3 ++ 44 :: 32 :: (d2 d ++ 32 ::
          ((monthString m).take 3 ++ 32 :: (d4 y ++ 32 :: (d2 h ++ 58 :: (d2 mi ++ 58 ::
          (d2 s ++ [32, 43, 48, 48, 48, 48])))))) := by
  have h1 : RFC1123Z ≠ RFC3339 := by decide
  have h2 : RFC1123Z ≠ RFC3339Nano := by decide
  have h3 : RFC1123Z ≠ [] := by decide
  unfold Time.Format appendFormat
  rw [if_neg h1, if_neg h2, if_neg h3, uchunks_RFC1123Z]
  simp only [formatChunks, fmt_weekDay r loc, fmt_zeroDay r loc, fmt_month r loc, fmt_longYear r
      loc, fmt_hour r loc, fmt_zeroMinute r loc, fmt_zeroSecond r loc, fmt_numTZ r loc hl,
    List.nil_append, List.append_nil, List.append_assoc, List.singleton_append, List.cons_append]

theorem qformat_RFC1123Z {y m d h mi s ns : Nat} (r : Rng y m d h mi s ns) (loc : Location)
    (hl : loc.offset = 0) :
    quoted ((⟨(y : Int), m, d, h, mi, s, ns, loc⟩ : Time).Format RFC1123Z) =
      34 :: ((weekdayString (wk y m d)).take 3 ++ 44 :: 32 :: (d2 d ++ 32 ::
          ((monthString m).take 3 ++ 32 :: (d4 y ++ 32 :: (d2 h ++ 58 :: (d2 mi ++ 58 ::
          (d2 s ++ [32, 43, 48, 48, 48, 48, 34]))))))) := by
  rw [format_RFC1123Z r loc hl]
  simp only [quoted, List.nil_append, List.append_nil, List.append_assoc, List.singleton_append,
    List.cons_append]

theorem parse_RFC1123Z {y m d h mi s ns : Nat} (o : Ok y m d h mi s ns) (loc : Location) :
    Parse loc (quoted RFC1123Z)
      (34 :: ((weekdayString (wk y m d)).take 3 ++ 44 :: 32 :: (d2 d ++ 32 ::
          ((monthString m).take 3 ++ 32 :: (d4 y ++ 32 :: (d2 h ++ 58 :: (d2 mi ++ 58 ::
          (d2 s ++ [32, 43, 48, 48, 48, 48, 34]))))))))
      = .ok ⟨(y : Int), m, d, h, mi, s, 0, locN loc⟩ := by
  have r := o.rng
  unfold Parse
  rw [qchunks_RFC1123Z]
  refine Eq.trans (pstep (skip_byte 34 _ (by decide))
    (parseStd_weekDay (wk y m d) (wk_lt y m d) _ _ _)) ?_
  dsimp only
  refine Eq.trans (pstep (skip_comma_sp _ (d2_head _ _))
    (parseStd_zeroDay d (by have := r.hd3; omega) _ _ _)) ?_
  dsimp only
  refine Eq.trans (pstep (skip_sp _ (mon3_head m r.hm1 r.hm2 _))
    (parseStd_month m r.hm1 r.hm2 _ _ _)) ?_
  dsimp only
  refine Eq.trans (pstep (skip_sp _ (d4_head _ _))
    (parseStd_longYear y r.hy _ _ _)) ?_
  dsimp only
  refine Eq.trans (pstep (skip_sp _ (d2_head _ _))
    (parseStd_hour h r.hh _ _ _)) ?_
  dsimp only
  refine Eq.trans (pstep (skip_byte 58 _ (by decide))
    (parseStd_zeroMinute mi r.hmi _ _ _)) ?_
  dsimp only
  refine Eq.trans (pstep (skip_byte 58 _ (by decide))
    (parseStd_zeroSecond_head s r.hs 32 _ rfl _ _)) ?_
  dsimp only
  refine Eq.trans (pstep (skip_sp _ (cons_head 43 _ (by decide)))
    (parseStd_numTZ_utc _ _ _)) ?_
  dsimp only
  refine Eq.trans (plast (skip_byte 34 [] (by decide))) ?_
  refine Eq.trans (parseFinish_ok _ _ _ _ _ rfl ?_ ?_) ?_
  · exact r.hd1
  · exact o.hd2
  by_cases hl : loc.offset = 0 <;> simp [finishTime, Date, locN, hl]

/-! ## RFC1123 -/

theorem qchunks_RFC1123 : layoutChunks (quoted RFC1123) =
    [⟨[34], some stdWeekDay, B "Mon"⟩,
     ⟨[44, 32], some stdZeroDay, B "02"⟩,
     ⟨[32], some stdMonth, B "Jan"⟩,
     ⟨[32], some stdLongYear, B "2006"⟩,
     ⟨[32], some stdHour, B "15"⟩,
     ⟨[58], some stdZeroMinute, B "04"⟩,
     ⟨[58], some stdZeroSecond, B "05"⟩,
     ⟨[32], some stdTZ, B "MST"⟩,
     ⟨[34], none, []⟩] := by
  decide

theorem uchunks_RFC1123 : layoutChunks RFC1123 =
    [⟨[], some stdWeekDay, B "Mon"⟩,
     ⟨[44, 32], some stdZeroDay, B "02"⟩,
     ⟨[32], some stdMonth, B "Jan"⟩,
     ⟨[32], some stdLongYear, B "2006"⟩,
     ⟨[32], some stdHour, B "15"⟩,
     ⟨[58], some stdZeroMinute, B "04"⟩,
     ⟨[58], some stdZeroSecond, B "05"⟩,
     ⟨[32], some stdTZ, B "MST"⟩,
     ⟨[], none, []⟩] := by
  decide

theorem format_RFC1123 {y m d h mi s ns : Nat} (r : Rng y m d h mi s ns) (loc : Location)
    (hn : loc.name = [85, 84, 67]) :
    (⟨(y : Int), m, d, h, mi, s, ns, loc⟩ : Time).Format RFC1123 =
      (weekdayString (wk y m d)).take 3 ++ 44 :: 32 :: (d2 d ++ 32 ::
          ((monthString m).take 3 ++ 32 :: (d4 y ++ 32 :: (d2 h ++ 58 :: (d2 mi ++ 58 ::
          (d2 s ++ [32, 85, 84, 67])))))) := by
  have h1 : RFC1123 ≠ RFC3339 := by decide
  have h2 : RFC1123 ≠ RFC3339Nano := by decide
  have h3 : RFC1123 ≠ [] := by decide
  unfold Time.Format appendFormat
  rw [if_neg h1, if_neg h2, if_neg h3, uchunks_RFC1123]
  simp only [formatChunks, fmt_weekDay r loc, fmt_zeroDay r loc, fmt_month r loc, fmt_longYear r
      loc, fmt_hour r loc, fmt_zeroMinute r loc, fmt_zeroSecond r loc, fmt_TZ r loc hn,
    List.nil_append, List.append_nil, List.append_assoc, List.singleton_append, List.cons_append]

theorem qformat_RFC1123 {y m d h mi s ns : Nat} (r : Rng y m d h mi s ns) (loc : Location)
    (hn : loc.name = [85, 84, 67]) :
    quoted ((⟨(y : Int), m, d, h, mi, s, ns, loc⟩ : Time).Format RFC1123) =
      34 :: ((weekdayString (wk y m d)).take 3 ++ 44 :: 32 :: (d2 d ++ 32 ::
          ((monthString m).take 3 ++ 32 :: (d4 y ++ 32 :: (d2 h ++ 58 :: (d2 mi ++ 58 ::
          (d2 s ++ [32, 85, 84, 67, 34]))))))) := by
  rw [format_RFC1123 r loc hn]
  simp only [quoted, List.nil_append, List.append_nil, List.append_assoc, List.singleton_append,
    List.cons_append]

theorem parse_RFC1123 {y m d h mi s ns : Nat} (o : Ok y m d h mi s ns) (loc : Location) :
    Parse loc (quoted RFC1123)
      (34 :: ((weekdayString (wk y m d)).take 3 ++ 44 :: 32 :: (d2 d ++ 32 ::
          ((monthString m).take 3 ++ 32 :: (d4 y ++ 32 :: (d2 h ++ 58 :: (d2 mi ++ 58 ::
          (d2 s ++ [32, 85, 84, 67, 34]))))))))
      = .ok ⟨(y : Int), m, d, h, mi, s, 0, UTC⟩ := by
  have r := o.rng
  unfold Parse
  rw [qchunks_RFC1123]
  refine Eq.trans (pstep (skip_byte 34 _ (by decide))
    (parseStd_weekDay (wk y m d) (wk_lt y m d) _ _ _)) ?_
  dsimp only
  refine Eq.trans (pstep (skip_comma_sp _ (d2_head _ _))
    (parseStd_zeroDay d (by have := r.hd3; omega) _ _ _)) ?_
  dsimp only
  refine Eq.trans (pstep (skip_sp _ (mon3_head m r.hm1 r.hm2 _))
    (parseStd_month m r.hm1 r.hm2 _ _ _)) ?_
  dsimp only
  refine Eq.trans (pstep (skip_sp _ (d4_head _ _))
    (parseStd_longYear y r.hy _ _ _)) ?_
  dsimp only
  refine Eq.trans (pstep (skip_sp _ (d2_head _ _))
    (parseStd_hour h r.hh _ _ _)) ?_
  dsimp only
  refine Eq.trans (pstep (skip_byte 58 _ (by decide))
    (parseStd_zeroMinute mi r.hmi _ _ _)) ?_
  dsimp only
  refine Eq.trans (pstep (skip_byte 58 _ (by decide))
    (parseStd_zeroSecond_head s r.hs 32 _ rfl _ _)) ?_
  dsimp only
  refine Eq.trans (pstep (skip_sp _ (cons_head 85 _ (by decide)))
    (parseStd_TZ_utc _ _ _)) ?_
  dsimp only
  refine Eq.trans (plast (skip_byte 34 [] (by decide))) ?_
  refine Eq.trans (parseFinish_ok _ _ _ _ _ rfl ?_ ?_) ?_
  · exact r.hd1
  · exact o.hd2
  simp [finishTime, Date]

/-! ## RFC3339 -/

theorem qchunks_RFC3339 : layoutChunks (quoted RFC3339) =
    [⟨[34], some stdLongYear, B "2006"⟩,
     ⟨[45], some stdZeroMonth, B "01"⟩,
     ⟨[45], some stdZeroDay, B "02"⟩,
     ⟨[84], some stdHour, B "15"⟩,
     ⟨[58], some stdZeroMinute, B "04"⟩,
     ⟨[58], some stdZeroSecond, B "05"⟩,
     ⟨[], some stdISO8601ColonTZ, B "Z07:00"⟩,
     ⟨[34], none, []⟩] := by
  decide

theorem format_RFC3339 {y m d h mi s ns : Nat} (r : Rng y m d h mi s ns) (loc : Location)
    (hl : loc.offset = 0) :
    (⟨(y : Int), m, d, h, mi, s, ns, loc⟩ : Time).Format RFC3339 =
      d4 y ++ 45 :: (d2 m ++ 45 :: (d2 d ++ 84 :: (d2 h ++ 58 :: (d2 mi ++ 58 ::
          (d2 s ++ [90]))))) := by
  have hd : d < 100 := by have := r.hd3; omega
  have hm : m < 100 := by have := r.hm2; omega
  have hh : h < 100 := by have := r.hh; omega
  have hmi : mi < 100 := by have := r.hmi; omega
  have hs : s < 100 := by have := r.hs; omega
  unfold Time.Format
  rw [if_pos rfl]
  simp only [appendFormatRFC3339, appendInt_four y r.hy, appendInt_two m hm, appendInt_two d hd,
    appendInt_two h hh, appendInt_two mi hmi, appendInt_two s hs, hl, if_true,
    Bool.false_eq_true, if_false, List.append_nil, List.append_assoc, List.singleton_append,
    List.cons_append, List.nil_append]

theorem qformat_RFC3339 {y m d h mi s ns : Nat} (r : Rng y m d h mi s ns) (loc : Location)
    (hl : loc.offset = 0) :
    quoted ((⟨(y : Int), m, d, h, mi, s, ns, loc⟩ : Time).Format RFC3339) =
      34 :: (d4 y ++ 45 :: (d2 m ++ 45 :: (d2 d ++ 84 :: (d2 h ++ 58 :: (d2 mi ++ 58 ::
          (d2 s ++ [90, 34])))))) := by
  rw [format_RFC3339 r loc hl]
  simp only [quoted, List.nil_append, List.append_nil, List.append_assoc, List.singleton_append,
    List.cons_append]

theorem parse_RFC3339 {y m d h mi s ns : Nat} (o : Ok y m d h mi s ns) (loc : Location) :
    Parse loc (quoted RFC3339)
      (34 :: (d4 y ++ 45 :: (d2 m ++ 45 :: (d2 d ++ 84 :: (d2 h ++ 58 :: (d2 mi ++ 58 ::
          (d2 s ++ [90, 34])))))))
      = .ok ⟨(y : Int), m, d, h, mi, s, 0, UTC⟩ := by
  have r := o.rng
  unfold Parse
  rw [qchunks_RFC3339]
  refine Eq.trans (pstep (skip_byte 34 _ (by decide))
    (parseStd_longYear y r.hy _ _ _)) ?_
  dsimp only
  refine Eq.trans (pstep (skip_byte 45 _ (by decide))
    (parseStd_zeroMonth m r.hm1 r.hm2 _ _ _)) ?_
  dsimp only
  refine Eq.trans (pstep (skip_byte 45 _ (by decide))
    (parseStd_zeroDay d (by have := r.hd3; omega) _ _ _)) ?_
  dsimp only
  refine Eq.trans (pstep (skip_byte 84 _ (by decide))
    (parseStd_hour h r.hh _ _ _)) ?_
  dsimp only
  refine Eq.trans (pstep (skip_byte 58 _ (by decide))
    (parseStd_zeroMinute mi r.hmi _ _ _)) ?_
  dsimp only
  refine Eq.trans (pstep (skip_byte 58 _ (by decide))
    (parseStd_zeroSecond_head s r.hs 90 _ rfl _ _)) ?_
  dsimp only
  refine Eq.trans (pstep (skip_nil _)
    (parseStd_isoZ _ _ _)) ?_
  dsimp only
  refine Eq.trans (plast (skip_byte 34 [] (by decide))) ?_
  refine Eq.trans (parseFinish_ok _ _ _ _ _ rfl ?_ ?_) ?_
  · exact r.hd1
  · exact o.hd2
  simp [finishTime, Date]

/-! ## RFC3339Nano -/

theorem qchunks_RFC3339Nano : layoutChunks (quoted RFC3339Nano) =
    [⟨[34], some stdLongYear, B "2006"⟩,
     ⟨[45], some stdZeroMonth, B "01"⟩,
     ⟨[45], some stdZeroDay, B "02"⟩,
     ⟨[84], some stdHour, B "15"⟩,
     ⟨[58], some stdZeroMinute, B "04"⟩,
     ⟨[58], some stdZeroSecond, B "05"⟩,
     ⟨[], some (stdFracSecond9 9 46), B ".999999999"⟩,
     ⟨[], some stdISO8601ColonTZ, B "Z07:00"⟩,
     ⟨[34], none, []⟩] := by
  decide

theorem format_RFC3339Nano {y m d h mi s ns : Nat} (r : Rng y m d h mi s ns) (loc : Location)
    (hl : loc.offset = 0) :
    (⟨(y : Int), m, d, h, mi, s, ns, loc⟩ : Time).Format RFC3339Nano =
      d4 y ++ 45 :: (d2 m ++ 45 :: (d2 d ++ 84 :: (d2 h ++ 58 :: (d2 mi ++ 58 :: (d2 s ++
          (f9 ns ++ [90])))))) := by
  have hd : d < 100 := by have := r.hd3; omega
  have hm : m < 100 := by have := r.hm2; omega
  have hh : h < 100 := by have := r.hh; omega
  have hmi : mi < 100 := by have := r.hmi; omega
  have hs : s < 100 := by have := r.hs; omega
  have h1 : RFC3339Nano ≠ RFC3339 := by decide
  unfold Time.Format
  rw [if_neg h1, if_pos rfl]
  simp only [appendFormatRFC3339, appendInt_four y r.hy, appendInt_two m hm, appendInt_two d hd,
    appendInt_two h hh, appendInt_two mi hmi, appendInt_two s hs, hl, if_true,
    appendNano_frac9 ns r.hns, ← f9.eq_1, List.append_nil, List.append_assoc,
    List.singleton_append, List.cons_append, List.nil_append]

theorem qformat_RFC3339Nano {y m d h mi s ns : Nat} (r : Rng y m d h mi s ns) (loc : Location)
    (hl : loc.offset = 0) :
    quoted ((⟨(y : Int), m, d, h, mi, s, ns, loc⟩ : Time).Format RFC3339Nano) =
      34 :: (d4 y ++ 45 :: (d2 m ++ 45 :: (d2 d ++ 84 :: (d2 h ++ 58 :: (d2 mi ++ 58 :: (d2 s ++
          (f9 ns ++ [90, 34]))))))) := by
  rw [format_RFC3339Nano r loc hl]
  simp only [quoted, List.nil_append, List.append_nil, List.append_assoc, List.singleton_append,
    List.cons_append]

theorem parse_RFC3339Nano {y m d h mi s ns : Nat} (o : Ok y m d h mi s ns) (loc : Location) :
    Parse loc (quoted RFC3339Nano)
      (34 :: (d4 y ++ 45 :: (d2 m ++ 45 :: (d2 d ++ 84 :: (d2 h ++ 58 :: (d2 mi ++ 58 :: (d2 s ++
          (f9 ns ++ [90, 34]))))))))
      = .ok ⟨(y : Int), m, d, h, mi, s, ns, UTC⟩ := by
  have r := o.rng
  unfold Parse
  rw [qchunks_RFC3339Nano]
  refine Eq.trans (pstep (skip_byte 34 _ (by decide))
    (parseStd_longYear y r.hy _ _ _)) ?_
  dsimp only
  refine Eq.trans (pstep (skip_byte 45 _ (by decide))
    (parseStd_zeroMonth m r.hm1 r.hm2 _ _ _)) ?_
  dsimp only
  refine Eq.trans (pstep (skip_byte 45 _ (by decide))
    (parseStd_zeroDay d (by have := r.hd3; omega) _ _ _)) ?_
  dsimp only
  refine Eq.trans (pstep (skip_byte 84 _ (by decide))
    (parseStd_hour h r.hh _ _ _)) ?_
  dsimp only
  refine Eq.trans (pstep (skip_byte 58 _ (by decide))
    (parseStd_zeroMinute mi r.hmi _ _ _)) ?_
  dsimp only
  refine Eq.trans (pstep (skip_byte 58 _ (by decide))
    (parseStd_zeroSecond_frac9 s r.hs _ _ _ _)) ?_
  dsimp only
  refine Eq.trans (pstep (skip_nil _)
    (parseStd_f9 ns r.hns 90 _ rfl rfl _ _ _ _)) ?_
  dsimp only
  refine Eq.trans (pstep (skip_nil _)
    (parseStd_isoZ _ _ _)) ?_
  dsimp only
  refine Eq.trans (plast (skip_byte 34 [] (by decide))) ?_
  refine Eq.trans (parseFinish_ok _ _ _ _ _ rfl ?_ ?_) ?_
  · exact r.hd1
  · exact o.hd2
  simp [finishTime, Date, ite_nsec]

/-! ## Kitchen -/

theorem qchunks_Kitchen : layoutChunks (quoted Kitchen) =
    [⟨[34], some stdHour12, B "3"⟩,
     ⟨[58], some stdZeroMinute, B "04"⟩,
     ⟨[], some stdPM, B "PM"⟩,
     ⟨[34], none, []⟩] := by
  decide

theorem uchunks_Kitchen : layoutChunks Kitchen =
    [⟨[], some stdHour12, B "3"⟩,
     ⟨[58], some stdZeroMinute, B "04"⟩,
     ⟨[], some stdPM, B "PM"⟩,
     ⟨[], none, []⟩] := by
  decide

theorem format_Kitchen {y m d h mi s ns : Nat} (r : Rng y m d h mi s ns) (loc : Location) :
    (⟨(y : Int), m, d, h, mi, s, ns, loc⟩ : Time).Format Kitchen =
      nd (h12 h) ++ 58 :: (d2 mi ++ (ampm h)) := by
  have h1 : Kitchen ≠ RFC3339 := by decide
  have h2 : Kitchen ≠ RFC3339Nano := by decide
  have h3 : Kitchen ≠ [] := by decide
  unfold Time.Format appendFormat
  rw [if_neg h1, if_neg h2, if_neg h3, uchunks_Kitchen]
  simp only [formatChunks, fmt_hour12 r loc, fmt_zeroMinute r loc, fmt_PM r loc,
    List.nil_append, List.append_nil, List.append_assoc, List.singleton_append, List.cons_append]

theorem qformat_Kitchen {y m d h mi s ns : Nat} (r : Rng y m d h mi s ns) (loc : Location) :
    quoted ((⟨(y : Int), m, d, h, mi, s, ns, loc⟩ : Time).Format Kitchen) =
      34 :: (nd (h12 h) ++ 58 :: (d2 mi ++ (ampm h ++ [34]))) := by
  rw [format_Kitchen r loc]
  simp only [quoted, List.nil_append, List.append_nil, List.append_assoc, List.singleton_append,
    List.cons_append]

theorem parse_Kitchen {y m d h mi s ns : Nat} (o : Ok y m d h mi s ns) (loc : Location) :
    Parse loc (quoted Kitchen)
      (34 :: (nd (h12 h) ++ 58 :: (d2 mi ++ (ampm h ++ [34]))))
      = .ok ⟨((0 : Nat) : Int), 1, 1, h, mi, 0, 0, UTC⟩ := by
  have r := o.rng
  unfold Parse
  rw [qchunks_Kitchen]
  refine Eq.trans (pstep (skip_byte 34 _ (by decide))
    (parseStd_hour12 (h12 h) (h12_le h) 58 _ rfl _ _)) ?_
  dsimp only
  refine Eq.trans (pstep (skip_byte 58 _ (by decide))
    (parseStd_zeroMinute mi r.hmi _ _ _)) ?_
  dsimp only
  refine Eq.trans (pstep (skip_nil _)
    (parseStd_ampm h _ _ _)) ?_
  dsimp only
  refine Eq.trans (plast (skip_byte 34 [] (by decide))) ?_
  refine Eq.trans (parseFinish_ok _ _ _ _ _ rfl ?_ ?_) ?_
  · exact (Nat.le_refl 1)
  · exact (show (1 : Nat) ≤ daysIn 1 (0 : Int) by decide)
  have hh := hour_of_h12 h r.hh
  by_cases hl : loc.offset = 0 <;> by_cases h12 : 12 ≤ h <;>
    simp [finishTime, Date, locN, hl, h12] at hh ⊢ <;> omega

/-! ## StampNano -/

theorem qchunks_StampNano : layoutChunks (quoted StampNano) =
    [⟨[34], some stdMonth, B "Jan"⟩,
     ⟨[32], some stdUnderDay, B "_2"⟩,
     ⟨[32], some stdHour, B "15"⟩,
     ⟨[58], some stdZeroMinute, B "04"⟩,
     ⟨[58], some stdZeroSecond, B "05"⟩,
     ⟨[], some (stdFracSecond0 9 46), B ".000000000"⟩,
     ⟨[34], none, []⟩] := by
  decide

theorem uchunks_StampNano : layoutChunks StampNano =
    [⟨[], some stdMonth, B "Jan"⟩,
     ⟨[32], some stdUnderDay, B "_2"⟩,
     ⟨[32], some stdHour, B "15"⟩,
     ⟨[58], some stdZeroMinute, B "04"⟩,
     ⟨[58], some stdZeroSecond, B "05"⟩,
     ⟨[], some (stdFracSecond0 9 46), B ".000000000"⟩,
     ⟨[], none, []⟩] := by
  decide

theorem format_StampNano {y m d h mi s ns : Nat} (r : Rng y m d h mi s ns) (loc : Location) :
    (⟨(y : Int), m, d, h, mi, s, ns, loc⟩ : Time).Format StampNano =
      (monthString m).take 3 ++ 32 :: (ud d ++ 32 :: (d2 h ++ 58 :: (d2 mi ++ 58 :: (d2 s ++
          (frac0 9 ns))))) := by
  have h1 : StampNano ≠ RFC3339 := by decide
  have h2 : StampNano ≠ RFC3339Nano := by decide
  have h3 : StampNano ≠ [] := by decide
  unfold Time.Format appendFormat
  rw [if_neg h1, if_neg h2, if_neg h3, uchunks_StampNano]
  simp only [formatChunks, fmt_month r loc, fmt_underDay r loc, fmt_hour r loc, fmt_zeroMinute r
      loc, fmt_zeroSecond r loc, fmt_frac0 r loc 9 (by decide) 46 rfl,
    List.nil_append, List.append_nil, List.append_assoc, List.singleton_append, List.cons_append]

theorem qformat_StampNano {y m d h mi s ns : Nat} (r : Rng y m d h mi s ns) (loc : Location) :
    quoted ((⟨(y : Int), m, d, h, mi, s, ns, loc⟩ : Time).Format StampNano) =
      34 :: ((monthString m).take 3 ++ 32 :: (ud d ++ 32 :: (d2 h ++ 58 :: (d2 mi ++ 58 :: (d2 s ++
          (frac0 9 ns ++ [34])))))) := by
  rw [format_StampNano r loc]
  simp only [quoted, List.nil_append, List.append_nil, List.append_assoc, List.singleton_append,
    List.cons_append]

theorem parse_StampNano {y m d h mi s ns : Nat} (o : Ok y m d h mi s ns) (loc : Location) :
    Parse loc (quoted StampNano)
      (34 :: ((monthString m).take 3 ++ 32 :: (ud d ++ 32 :: (d2 h ++ 58 :: (d2 mi ++ 58 :: (d2 s ++
          (frac0 9 ns ++ [34])))))))
      = .ok ⟨((0 : Nat) : Int), m, d, h, mi, s, ns, UTC⟩ := by
  have r := o.rng
  unfold Parse
  rw [qchunks_StampNano]
  refine Eq.trans (pstep (skip_byte 34 _ (by decide))
    (parseStd_month m r.hm1 r.hm2 _ _ _)) ?_
  dsimp only
  refine Eq.trans (pstep (skip_sp_ud d (by have := r.hd3; omega) _)
    (parseStd_underDay d (by have := r.hd3; omega) 32 _ rfl _ _)) ?_
  dsimp only
  refine Eq.trans (pstep (skip_sp _ (d2_head _ _))
    (parseStd_hour h r.hh _ _ _)) ?_
  dsimp only
  refine Eq.trans (pstep (skip_byte 58 _ (by decide))
    (parseStd_zeroMinute mi r.hmi _ _ _)) ?_
  dsimp only
  refine Eq.trans (pstep (skip_byte 58 _ (by decide))
    (parseStd_zeroSecond_frac0 s r.hs _ _ _ _)) ?_
  dsimp only
  refine Eq.trans (pstep (skip_nil _)
    (parseStd_frac0 8 ns (by decide) r.hns _ _ _ _)) ?_
  dsimp only
  refine Eq.trans (plast (skip_byte 34 [] (by decide))) ?_
  refine Eq.trans (parseFinish_ok _ _ _ _ _ rfl ?_ ?_) ?_
  · exact r.hd1
  · exact (le_trans o.hd2 (daysIn_zero m y))
  simp [finishTime, Date]

/-! ## StampMicro -/

theorem qchunks_StampMicro : layoutChunks (quoted StampMicro) =
    [⟨[34], some stdMonth, B "Jan"⟩,
     ⟨[32], some stdUnderDay, B "_2"⟩,
     ⟨[32], some stdHour, B "15"⟩,
     ⟨[58], some stdZeroMinute, B "04"⟩,
     ⟨[58], some stdZeroSecond, B "05"⟩,
     ⟨[], some (stdFracSecond0 6 46), B ".000000"⟩,
     ⟨[34], none, []⟩] := by
  decide

theorem uchunks_StampMicro : layoutChunks StampMicro =
    [⟨[], some stdMonth, B "Jan"⟩,
     ⟨[32], some stdUnderDay, B "_2"⟩,
     ⟨[32], some stdHour, B "15"⟩,
     ⟨[58], some stdZeroMinute, B "04"⟩,
     ⟨[58], some stdZeroSecond, B "05"⟩,
     ⟨[], some (stdFracSecond0 6 46), B ".000000"⟩,
     ⟨[], none, []⟩] := by
  decide

theorem format_StampMicro {y m d h mi s ns : Nat} (r : Rng y m d h mi s ns) (loc : Location) :
    (⟨(y : Int), m, d, h, mi, s, ns, loc⟩ : Time).Format StampMicro =
      (monthString m).take 3 ++ 32 :: (ud d ++ 32 :: (d2 h ++ 58 :: (d2 mi ++ 58 :: (d2 s ++
          (frac0 6 ns))))) := by
  have h1 : StampMicro ≠ RFC3339 := by decide
  have h2 : StampMicro ≠ RFC3339Nano := by decide
  have h3 : StampMicro ≠ [] := by decide
  unfold Time.Format appendFormat
  rw [if_neg h1, if_neg h2, if_neg h3, uchunks_StampMicro]
  simp only [formatChunks, fmt_month r loc, fmt_underDay r loc, fmt_hour r loc, fmt_zeroMinute r
      loc, fmt_zeroSecond r loc, fmt_frac0 r loc 6 (by decide) 46 rfl,
    List.nil_append, List.append_nil, List.append_assoc, List.singleton_append, List.cons_append]

theorem qformat_StampMicro {y m d h mi s ns : Nat} (r : Rng y m d h mi s ns) (loc : Location) :
    quoted ((⟨(y : Int), m, d, h, mi, s, ns, loc⟩ : Time).Format StampMicro) =
      34 :: ((monthString m).take 3 ++ 32 :: (ud d ++ 32 :: (d2 h ++ 58 :: (d2 mi ++ 58 :: (d2 s ++
          (frac0 6 ns ++ [34])))))) := by
  rw [format_StampMicro r loc]
  simp only [quoted, List.nil_append, List.append_nil, List.append_assoc, List.singleton_append,
    List.cons_append]

theorem parse_StampMicro {y m d h mi s ns : Nat} (o : Ok y m d h mi s ns) (loc : Location) :
    Parse loc (quoted StampMicro)
      (34 :: ((monthString m).take 3 ++ 32 :: (ud d ++ 32 :: (d2 h ++ 58 :: (d2 mi ++ 58 :: (d2 s ++
          (frac0 6 ns ++ [34])))))))
      = .ok ⟨((0 : Nat) : Int), m, d, h, mi, s, ns / 1000 * 1000, UTC⟩ := by
  have r := o.rng
  unfold Parse
  rw [qchunks_StampMicro]
  refine Eq.trans (pstep (skip_byte 34 _ (by decide))
    (parseStd_month m r.hm1 r.hm2 _ _ _)) ?_
  dsimp only
  refine Eq.trans (pstep (skip_sp_ud d (by have := r.hd3; omega) _)
    (parseStd_underDay d (by have := r.hd3; omega) 32 _ rfl _ _)) ?_
  dsimp only
  refine Eq.trans (pstep (skip_sp _ (d2_head _ _))
    (parseStd_hour h r.hh _ _ _)) ?_
  dsimp only
  refine Eq.trans (pstep (skip_byte 58 _ (by decide))
    (parseStd_zeroMinute mi r.hmi _ _ _)) ?_
  dsimp only
  refine Eq.trans (pstep (skip_byte 58 _ (by decide))
    (parseStd_zeroSecond_frac0 s r.hs _ _ _ _)) ?_
  dsimp only
  refine Eq.trans (pstep (skip_nil _)
    (parseStd_frac0 5 ns (by decide) r.hns _ _ _ _)) ?_
  dsimp only
  refine Eq.trans (plast (skip_byte 34 [] (by decide))) ?_
  refine Eq.trans (parseFinish_ok _ _ _ _ _ rfl ?_ ?_) ?_
  · exact r.hd1
  · exact (le_trans o.hd2 (daysIn_zero m y))
  simp [finishTime, Date]

/-! ## StampMilli -/

theorem qchunks_StampMilli : layoutChunks (quoted StampMilli) =
    [⟨[34], some stdMonth, B "Jan"⟩,
     ⟨[32], some stdUnderDay, B "_2"⟩,
     ⟨[32], some stdHour, B "15"⟩,
     ⟨[58], some stdZeroMinute, B "04"⟩,
     ⟨[58], some stdZeroSecond, B "05"⟩,
     ⟨[], some (stdFracSecond0 3 46), B ".000"⟩,
     ⟨[34], none, []⟩] := by
  decide

theorem uchunks_StampMilli : layoutChunks StampMilli =
    [⟨[], some stdMonth, B "Jan"⟩,
     ⟨[32], some stdUnderDay, B "_2"⟩,
     ⟨[32], some stdHour, B "15"⟩,
     ⟨[58], some stdZeroMinute, B "04"⟩,
     ⟨[58], some stdZeroSecond, B "05"⟩,
     ⟨[], some (stdFracSecond0 3 46), B ".000"⟩,
     ⟨[], none, []⟩] := by
  decide

theorem format_StampMilli {y m d h mi s ns : Nat} (r : Rng y m d h mi s ns) (loc : Location) :
    (⟨(y : Int), m, d, h, mi, s, ns, loc⟩ : Time).Format StampMilli =
      (monthString m).take 3 ++ 32 :: (ud d ++ 32 :: (d2 h ++ 58 :: (d2 mi ++ 58 :: (d2 s ++
          (frac0 3 ns))))) := by
  have h1 : StampMilli ≠ RFC3339 := by decide
  have h2 : StampMilli ≠ RFC3339Nano := by decide
  have h3 : StampMilli ≠ [] := by decide
  unfold Time.Format appendFormat
  rw [if_neg h1, if_neg h2, if_neg h3, uchunks_StampMilli]
  simp only [formatChunks, fmt_month r loc, fmt_underDay r loc, fmt_hour r loc, fmt_zeroMinute r
      loc, fmt_zeroSecond r loc, fmt_frac0 r loc 3 (by decide) 46 rfl,
    List.nil_append, List.append_nil, List.append_assoc, List.singleton_append, List.cons_append]

theorem qformat_StampMilli {y m d h mi s ns : Nat} (r : Rng y m d h mi s ns) (loc : Location) :
    quoted ((⟨(y : Int), m, d, h, mi, s, ns, loc⟩ : Time).Format StampMilli) =
      34 :: ((monthString m).take 3 ++ 32 :: (ud d ++ 32 :: (d2 h ++ 58 :: (d2 mi ++ 58 :: (d2 s ++
          (frac0 3 ns ++ [34])))))) := by
  rw [format_StampMilli r loc]
  simp only [quoted, List.nil_append, List.append_nil, List.append_assoc, List.singleton_append,
    List.cons_append]

theorem parse_StampMilli {y m d h mi s ns : Nat} (o : Ok y m d h mi s ns) (loc : Location) :
    Parse loc (quoted StampMilli)
      (34 :: ((monthString m).take 3 ++ 32 :: (ud d ++ 32 :: (d2 h ++ 58 :: (d2 mi ++ 58 :: (d2 s ++
          (frac0 3 ns ++ [34])))))))
      = .ok ⟨((0 : Nat) : Int), m, d, h, mi, s, ns / 1000000 * 1000000, UTC⟩ := by
  have r := o.rng
  unfold Parse
  rw [qchunks_StampMilli]
  refine Eq.trans (pstep (skip_byte 34 _ (by decide))
    (parseStd_month m r.hm1 r.hm2 _ _ _)) ?_
  dsimp only
  refine Eq.trans (pstep (skip_sp_ud d (by have := r.hd3; omega) _)
    (parseStd_underDay d (by have := r.hd3; omega) 32 _ rfl _ _)) ?_
  dsimp only
  refine Eq.trans (pstep (skip_sp _ (d2_head _ _))
    (parseStd_hour h r.hh _ _ _)) ?_
  dsimp only
  refine Eq.trans (pstep (skip_byte 58 _ (by decide))
    (parseStd_zeroMinute mi r.hmi _ _ _)) ?_
  dsimp only
  refine Eq.trans (pstep (skip_byte 58 _ (by decide))
    (parseStd_zeroSecond_frac0 s r.hs _ _ _ _)) ?_
  dsimp only
  refine Eq.trans (pstep (skip_nil _)
    (parseStd_frac0 2 ns (by decide) r.hns _ _ _ _)) ?_
  dsimp only
  refine Eq.trans (plast (skip_byte 34 [] (by decide))) ?_
  refine Eq.trans (parseFinish_ok _ _ _ _ _ rfl ?_ ?_) ?_
  · exact r.hd1
  · exact (le_trans o.hd2 (daysIn_zero m y))
  simp [finishTime, Date]

/-! ## Stamp -/

theorem qchunks_Stamp : layoutChunks (quoted Stamp) =
    [⟨[34], some stdMonth, B "Jan"⟩,
     ⟨[32], some stdUnderDay, B "_2"⟩,
     ⟨[32], some stdHour, B "15"⟩,
     ⟨[58], some stdZeroMinute, B "04"⟩,
     ⟨[58], some stdZeroSecond, B "05"⟩,
     ⟨[34], none, []⟩] := by
  decide

theorem uchunks_Stamp : layoutChunks Stamp =
    [⟨[], some stdMonth, B "Jan"⟩,
     ⟨[32], some stdUnderDay, B "_2"⟩,
     ⟨[32], some stdHour, B "15"⟩,
     ⟨[58], some stdZeroMinute, B "04"⟩,
     ⟨[58], some stdZeroSecond, B "05"⟩,
     ⟨[], none, []⟩] := by
  decide

theorem format_Stamp {y m d h mi s ns : Nat} (r : Rng y m d h mi s ns) (loc : Location) :
    (⟨(y : Int), m, d, h, mi, s, ns, loc⟩ : Time).Format Stamp =
      (monthString m).take 3 ++ 32 :: (ud d ++ 32 :: (d2 h ++ 58 :: (d2 mi ++ 58 :: (d2 s)))) := by
  have h1 : Stamp ≠ RFC3339 := by decide
  have h2 : Stamp ≠ RFC3339Nano := by decide
  have h3 : Stamp ≠ [] := by decide
  unfold Time.Format appendFormat
  rw [if_neg h1, if_neg h2, if_neg h3, uchunks_Stamp]
  simp only [formatChunks, fmt_month r loc, fmt_underDay r loc, fmt_hour r loc, fmt_zeroMinute r
      loc, fmt_zeroSecond r loc,
    List.nil_append, List.append_nil, List.append_assoc, List.singleton_append, List.cons_append]

theorem qformat_Stamp {y m d h mi s ns : Nat} (r : Rng y m d h mi s ns) (loc : Location) :
    quoted ((⟨(y : Int), m, d, h, mi, s, ns, loc⟩ : Time).Format Stamp) =
      34 :: ((monthString m).take 3 ++ 32 :: (ud d ++ 32 :: (d2 h ++ 58 :: (d2 mi ++ 58 ::
          (d2 s ++ [34]))))) := by
  rw [format_Stamp r loc]
  simp only [quoted, List.nil_append, List.append_nil, List.append_assoc, List.singleton_append,
    List.cons_append]

theorem parse_Stamp {y m d h mi s ns : Nat} (o : Ok y m d h mi s ns) (loc : Location) :
    Parse loc (quoted Stamp)
      (34 :: ((monthString m).take 3 ++ 32 :: (ud d ++ 32 :: (d2 h ++ 58 :: (d2 mi ++ 58 ::
          (d2 s ++ [34]))))))
      = .ok ⟨((0 : Nat) : Int), m, d, h, mi, s, 0, UTC⟩ := by
  have r := o.rng
  unfold Parse
  rw [qchunks_Stamp]
  refine Eq.trans (pstep (skip_byte 34 _ (by decide))
    (parseStd_month m r.hm1 r.hm2 _ _ _)) ?_
  dsimp only
  refine Eq.trans (pstep (skip_sp_ud d (by have := r.hd3; omega) _)
    (parseStd_underDay d (by have := r.hd3; omega) 32 _ rfl _ _)) ?_
  dsimp only
  refine Eq.trans (pstep (skip_sp _ (d2_head _ _))
    (parseStd_hour h r.hh _ _ _)) ?_
  dsimp only
  refine Eq.trans (pstep (skip_byte 58 _ (by decide))
    (parseStd_zeroMinute mi r.hmi _ _ _)) ?_
  dsimp only
  refine Eq.trans (pstep (skip_byte 58 _ (by decide))
    (parseStd_zeroSecond_head s r.hs 34 _ rfl _ _)) ?_
  dsimp only
  refine Eq.trans (plast (skip_byte 34 [] (by decide))) ?_
  refine Eq.trans (parseFinish_ok _ _ _ _ _ rfl ?_ ?_) ?_
  · exact r.hd1
  · exact (le_trans o.hd2 (daysIn_zero m y))
  simp [finishTime, Date]

/-! ## DateTime -/

theorem qchunks_DateTime : layoutChunks (quoted DateTime) =
    [⟨[34], some stdLongYear, B "2006"⟩,
     ⟨[45], some stdZeroMonth, B "01"⟩,
     ⟨[45], some stdZeroDay, B "02"⟩,
     ⟨[32], some stdHour, B "15"⟩,
     ⟨[58], some stdZeroMinute, B "04"⟩,
     ⟨[58], some stdZeroSecond, B "05"⟩,
     ⟨[34], none, []⟩] := by
  decide

theorem uchunks_DateTime : layoutChunks DateTime =
    [⟨[], some stdLongYear, B "2006"⟩,
     ⟨[45], some stdZeroMonth, B "01"⟩,
     ⟨[45], some stdZeroDay, B "02"⟩,
     ⟨[32], some stdHour, B "15"⟩,
     ⟨[58], some stdZeroMinute, B "04"⟩,
     ⟨[58], some stdZeroSecond, B "05"⟩,
     ⟨[], none, []⟩] := by
  decide

theorem format_DateTime {y m d h mi s ns : Nat} (r : Rng y m d h mi s ns) (loc : Location) :
    (⟨(y : Int), m, d, h, mi, s, ns, loc⟩ : Time).Format DateTime =
      d4 y ++ 45 :: (d2 m ++ 45 :: (d2 d ++ 32 :: (d2 h ++ 58 :: (d2 mi ++ 58 :: (d2 s))))) := by
  have h1 : DateTime ≠ RFC3339 := by decide
  have h2 : DateTime ≠ RFC3339Nano := by decide
  have h3 : DateTime ≠ [] := by decide
  unfold Time.Format appendFormat
  rw [if_neg h1, if_neg h2, if_neg h3, uchunks_DateTime]
  simp only [formatChunks, fmt_longYear r loc, fmt_zeroMonth r loc, fmt_zeroDay r loc, fmt_hour r
      loc, fmt_zeroMinute r loc, fmt_zeroSecond r loc,
    List.nil_append, List.append_nil, List.append_assoc, List.singleton_append, List.cons_append]

theorem qformat_DateTime {y m d h mi s ns : Nat} (r : Rng y m d h mi s ns) (loc : Location) :
    quoted ((⟨(y : Int), m, d, h, mi, s, ns, loc⟩ : Time).Format DateTime) =
      34 :: (d4 y ++ 45 :: (d2 m ++ 45 :: (d2 d ++ 32 :: (d2 h ++ 58 :: (d2 mi ++ 58 ::
          (d2 s ++ [34])))))) := by
  rw [format_DateTime r loc]
  simp only [quoted, List.nil_append, List.append_nil, List.append_assoc, List.singleton_append,
    List.cons_append]

theorem parse_DateTime {y m d h mi s ns : Nat} (o : Ok y m d h mi s ns) (loc : Location) :
    Parse loc (quoted DateTime)
      (34 :: (d4 y ++ 45 :: (d2 m ++ 45 :: (d2 d ++ 32 :: (d2 h ++ 58 :: (d2 mi ++ 58 ::
          (d2 s ++ [34])))))))
      = .ok ⟨(y : Int), m, d, h, mi, s, 0, UTC⟩ := by
  have r := o.rng
  unfold Parse
  rw [qchunks_DateTime]
  refine Eq.trans (pstep (skip_byte 34 _ (by decide))
    (parseStd_longYear y r.hy _ _ _)) ?_
  dsimp only
  refine Eq.trans (pstep (skip_byte 45 _ (by decide))
    (parseStd_zeroMonth m r.hm1 r.hm2 _ _ _)) ?_
  dsimp only
  refine Eq.trans (pstep (skip_byte 45 _ (by decide))
    (parseStd_zeroDay d (by have := r.hd3; omega) _ _ _)) ?_
  dsimp only
  refine Eq.trans (pstep (skip_sp _ (d2_head _ _))
    (parseStd_hour h r.hh _ _ _)) ?_
  dsimp only
  refine Eq.trans (pstep (skip_byte 58 _ (by decide))
    (parseStd_zeroMinute mi r.hmi _ _ _)) ?_
  dsimp only
  refine Eq.trans (pstep (skip_byte 58 _ (by decide))
    (parseStd_zeroSecond_head s r.hs 34 _ rfl _ _)) ?_
  dsimp only
  refine Eq.trans (plast (skip_byte 34 [] (by decide))) ?_
  refine Eq.trans (parseFinish_ok _ _ _ _ _ rfl ?_ ?_) ?_
  · exact r.hd1
  · exact o.hd2
  simp [finishTime, Date]

/-! ## DateOnly -/

theorem qchunks_DateOnly : layoutChunks (quoted DateOnly) =
    [⟨[34], some stdLongYear, B "2006"⟩,
     ⟨[45], some stdZeroMonth, B "01"⟩,
     ⟨[45], some stdZeroDay, B "02"⟩,
     ⟨[34], none, []⟩] := by
  decide

theorem uchunks_DateOnly : layoutChunks DateOnly =
    [⟨[], some stdLongYear, B "2006"⟩,
     ⟨[45], some stdZeroMonth, B "01"⟩,
     ⟨[45], some stdZeroDay, B "02"⟩,
     ⟨[], none, []⟩] := by
  decide

theorem format_DateOnly {y m d h mi s ns : Nat} (r : Rng y m d h mi s ns) (loc : Location) :
    (⟨(y : Int), m, d, h, mi, s, ns, loc⟩ : Time).Format DateOnly =
      d4 y ++ 45 :: (d2 m ++ 45 :: (d2 d)) := by
  have h1 : DateOnly ≠ RFC3339 := by decide
  have h2 : DateOnly ≠ RFC3339Nano := by decide
  have h3 : DateOnly ≠ [] := by decide
  unfold Time.Format appendFormat
  rw [if_neg h1, if_neg h2, if_neg h3, uchunks_DateOnly]
  simp only [formatChunks, fmt_longYear r loc, fmt_zeroMonth r loc, fmt_zeroDay r loc,
    List.nil_append, List.append_nil, List.append_assoc, List.singleton_append, List.cons_append]

theorem qformat_DateOnly {y m d h mi s ns : Nat} (r : Rng y m d h mi s ns) (loc : Location) :
    quoted ((⟨(y : Int), m, d, h, mi, s, ns, loc⟩ : Time).Format DateOnly) =
      34 :: (d4 y ++ 45 :: (d2 m ++ 45 :: (d2 d ++ [34]))) := by
  rw [format_DateOnly r loc]
  simp only [quoted, List.nil_append, List.append_nil, List.append_assoc, List.singleton_append,
    List.cons_append]

theorem parse_DateOnly {y m d h mi s ns : Nat} (o : Ok y m d h mi s ns) (loc : Location) :
    Parse loc (quoted DateOnly)
      (34 :: (d4 y ++ 45 :: (d2 m ++ 45 :: (d2 d ++ [34]))))
      = .ok ⟨(y : Int), m, d, 0, 0, 0, 0, UTC⟩ := by
  have r := o.rng
  unfold Parse
  rw [qchunks_DateOnly]
  refine Eq.trans (pstep (skip_byte 34 _ (by decide))
    (parseStd_longYear y r.hy _ _ _)) ?_
  dsimp only
  refine Eq.trans (pstep (skip_byte 45 _ (by decide))
    (parseStd_zeroMonth m r.hm1 r.hm2 _ _ _)) ?_
  dsimp only
  refine Eq.trans (pstep (skip_byte 45 _ (by decide))
    (parseStd_zeroDay d (by have := r.hd3; omega) _ _ _)) ?_
  dsimp only
  refine Eq.trans (plast (skip_byte 34 [] (by decide))) ?_
  refine Eq.trans (parseFinish_ok _ _ _ _ _ rfl ?_ ?_) ?_
  · exact r.hd1
  · exact o.hd2
  simp [finishTime, Date]

/-! ## TimeOnly -/

theorem qchunks_TimeOnly : layoutChunks (quoted TimeOnly) =
    [⟨[34], some stdHour, B "15"⟩,
     ⟨[58], some stdZeroMinute, B "04"⟩,
     ⟨[58], some stdZeroSecond, B "05"⟩,
     ⟨[34], none, []⟩] := by
  decide

theorem uchunks_TimeOnly : layoutChunks TimeOnly =
    [⟨[], some stdHour, B "15"⟩,
     ⟨[58], some stdZeroMinute, B "04"⟩,
     ⟨[58], some stdZeroSecond, B "05"⟩,
     ⟨[], none, []⟩] := by
  decide

theorem format_TimeOnly {y m d h mi s ns : Nat} (r : Rng y m d h mi s ns) (loc : Location) :
    (⟨(y : Int), m, d, h, mi, s, ns, loc⟩ : Time).Format TimeOnly =
      d2 h ++ 58 :: (d2 mi ++ 58 :: (d2 s)) := by
  have h1 : TimeOnly ≠ RFC3339 := by decide
  have h2 : TimeOnly ≠ RFC3339Nano := by decide
  have h3 : TimeOnly ≠ [] := by decide
  unfold Time.Format appendFormat
  rw [if_neg h1, if_neg h2, if_neg h3, uchunks_TimeOnly]
  simp only [formatChunks, fmt_hour r loc, fmt_zeroMinute r loc, fmt_zeroSecond r loc,
    List.nil_append, List.append_nil, List.append_assoc, List.singleton_append, List.cons_append]

theorem qformat_TimeOnly {y m d h mi s ns : Nat} (r : Rng y m d h mi s ns) (loc : Location) :
    quoted ((⟨(y : Int), m, d, h, mi, s, ns, loc⟩ : Time).Format TimeOnly) =
      34 :: (d2 h ++ 58 :: (d2 mi ++ 58 :: (d2 s ++ [34]))) := by
  rw [format_TimeOnly r loc]
  simp only [quoted, List.nil_append, List.append_nil, List.append_assoc, List.singleton_append,
    List.cons_append]

theorem parse_TimeOnly {y m d h mi s ns : Nat} (o : Ok y m d h mi s ns) (loc : Location) :
    Parse loc (quoted TimeOnly)
      (34 :: (d2 h ++ 58 :: (d2 mi ++ 58 :: (d2 s ++ [34]))))
      = .ok ⟨((0 : Nat) : Int), 1, 1, h, mi, s, 0, UTC⟩ := by
  have r := o.rng
  unfold Parse
  rw [qchunks_TimeOnly]
  refine Eq.trans (pstep (skip_byte 34 _ (by decide))
    (parseStd_hour h r.hh _ _ _)) ?_
  dsimp only
  refine Eq.trans (pstep (skip_byte 58 _ (by decide))
    (parseStd_zeroMinute mi r.hmi _ _ _)) ?_
  dsimp only
  refine Eq.trans (pstep (skip_byte 58 _ (by decide))
    (parseStd_zeroSecond_head s r.hs 34 _ rfl _ _)) ?_
  dsimp only
  refine Eq.trans (plast (skip_byte 34 [] (by decide))) ?_
  refine Eq.trans (parseFinish_ok _ _ _ _ _ rfl ?_ ?_) ?_
  · exact (Nat.le_refl 1)
  · exact (show (1 : Nat) ≤ daysIn 1 (0 : Int) by decide)
  simp [finishTime, Date]

end Mft

namespace Mft
open Std

/-! # Texts that a layout refuses

The loop of `parse` fails as soon as a literal of the layout is not found or an
element is refused; what was read before does not matter.  `Fails` and `Eats`
describe one element on a text for every parse state, and the lemmas `rj_*` chain
them along the chunks of a layout. -/

/-! ## Runs of `parse` that fail -/

theorem rj_skip {loc : Location} {A av lit text : GoString} {std : Option Std}
    {rest : List Chunk} {value v1 : GoString} (hs : skip value lit = .error v1) :
    ∀ st, IsErr (parseChunks loc A av (⟨lit, std, text⟩ :: rest) value st) :=
  fun st => isErr_skip loc A av ⟨lit, std, text⟩ rest value v1 st hs

theorem rj_fail {loc : Location} {A av lit text : GoString} {std : Std}
    {rest : List Chunk} {value v1 : GoString} (hs : skip value lit = .ok v1)
    (hf : Fails std ((rest.head?).bind (·.std)) v1) :
    ∀ st, IsErr (parseChunks loc A av (⟨lit, some std, text⟩ :: rest) value st) :=
  fun st => isErr_std loc A av ⟨lit, some std, text⟩ rest value v1 st std rfl hs (hf st)

theorem rj_eat {loc : Location} {A av lit text : GoString} {std : Std}
    {rest : List Chunk} {value v1 v2 : GoString} (hs : skip value lit = .ok v1)
    (he : Eats std ((rest.head?).bind (·.std)) v1 v2)
    (hr : ∀ st, IsErr (parseChunks loc A av rest v2 st)) :
    ∀ st, IsErr (parseChunks loc A av (⟨lit, some std, text⟩ :: rest) value st) := by
  intro st
  rcases he st with h | h
  · exact isErr_std loc A av ⟨lit, some std, text⟩ rest value v1 st std rfl hs h
  · apply isErr_next loc A av ⟨lit, some std, text⟩ rest value v1 st std rfl hs
    rw [h]
    exact hr _

theorem eats_of_eq {std : Std} {nx : Option Std} {v v2 : GoString}
    (h : ∀ st, ∃ st2, parseStd std nx v st = { st := st2, value := v2 }) : Eats std nx v v2 := by
  intro st
  obtain ⟨st2, e⟩ := h st
  right
  rw [e]

/-! ## The first byte of a text -/

theorem headIn_cons (c : Nat) (rest : GoString) : HeadIn (c :: rest) c c :=
  ⟨c, rest, rfl, Nat.le_refl _, Nat.le_refl _⟩

theorem headIn_d2 (n : Nat) (h : n < 100) (rest : GoString) : HeadIn (d2 n ++ rest) 48 57 :=
  ⟨48 + n / 10, (48 + n % 10) :: rest, rfl, by omega, by omega⟩

theorem headIn_d4 (y : Nat) (h : y < 10000) (rest : GoString) : HeadIn (d4 y ++ rest) 48 57 :=
  ⟨48 + y / 1000, _, rfl, by omega, by omega⟩

theorem headIn_nd (n : Nat) (h : n < 100) (rest : GoString) : HeadIn (nd n ++ rest) 48 57 := by
  unfold nd
  split
  · exact ⟨48 + n, rest, rfl, by omega, by omega⟩
  · exact headIn_d2 n h rest

theorem headIn_mon3 (m : Nat) (h1 : 1 ≤ m) (h2 : m ≤ 12) (rest : GoString) :
    HeadIn ((monthString m).take 3 ++ rest) 65 90 := by
  have : m = 1 ∨ m = 2 ∨ m = 3 ∨ m = 4 ∨ m = 5 ∨ m = 6 ∨ m = 7 ∨ m = 8 ∨ m = 9 ∨ m = 10
      ∨ m = 11 ∨ m = 12 := by omega
  rcases this with h | h | h | h | h | h | h | h | h | h | h | h <;> subst h <;>
    exact ⟨_, _, rfl, by decide, by decide⟩

theorem headIn_wd3 (w : Nat) (h : w < 7) (rest : GoString) :
    HeadIn ((weekdayString w).take 3 ++ rest) 65 90 := by
  have : w = 0 ∨ w = 1 ∨ w = 2 ∨ w = 3 ∨ w = 4 ∨ w = 5 ∨ w = 6 := by omega
  rcases this with h | h | h | h | h | h | h <;> subst h <;>
    exact ⟨_, _, rfl, by decide, by decide⟩

theorem headIn_wdL (w : Nat) (h : w < 7) (rest : GoString) :
    HeadIn (weekdayString w ++ rest) 65 90 := by
  have : w = 0 ∨ w = 1 ∨ w = 2 ∨ w = 3 ∨ w = 4 ∨ w = 5 ∨ w = 6 := by omega
  rcases this with h | h | h | h | h | h | h <;> subst h <;>
    exact ⟨_, _, rfl, by decide, by decide⟩

theorem headIn_wdR (w : Nat) (h : w < 7) (rest : GoString) :
    HeadIn ((weekdayString w).drop 3 ++ rest) 97 122 := by
  have : w = 0 ∨ w = 1 ∨ w = 2 ∨ w = 3 ∨ w = 4 ∨ w = 5 ∨ w = 6 := by omega
  rcases this with h | h | h | h | h | h | h <;> subst h <;>
    exact ⟨_, _, rfl, by decide, by decide⟩

theorem headIn_ampm (h : Nat) (rest : GoString) : HeadIn (ampm h ++ rest) 65 80 := by
  unfold ampm
  split
  · exact ⟨80, _, rfl, by decide, by decide⟩
  · exact ⟨65, _, rfl, by decide, by decide⟩

theorem headIn_frac0 (n ns : Nat) (rest : GoString) : HeadIn (frac0 n ns ++ rest) 46 46 :=
  ⟨46, _, rfl, Nat.le_refl _, Nat.le_refl _⟩

theorem headD_of_headIn {v : GoString} {lo hi : Nat} (hv : HeadIn v lo hi) (h : 32 < lo) :
    v.headD 0 ≠ 32 := by
  obtain ⟨c, r, rfl, h1, _⟩ := hv
  simp only [List.headD_cons]
  omega

theorem skip_sp_head (v ps : GoString) (lo hi : Nat) (hv : HeadIn v lo hi) (h : 32 < lo) :
    skip v (32 :: ps) = .error v := by
  obtain ⟨c, r, rfl, h1, _⟩ := hv
  exact skip_space_ne c r ps (by omega)

theorem skip_ne_head (v : GoString) (p : Nat) (ps : GoString) (lo hi : Nat) (hp : p ≠ 32)
    (hv : HeadIn v lo hi) (h : p < lo ∨ hi < p) : skip v (p :: ps) = .error v := by
  obtain ⟨c, r, rfl, h1, h2⟩ := hv
  exact skip_byte_ne c p r hp (by omega) ps

theorem d4_split (y : Nat) (_h : y < 10000) : d4 y = d2 (y / 100) ++ d2 (y % 100) := by
  simp only [d4, d2, List.cons_append, List.nil_append]
  have e1 : y / 100 / 10 = y / 1000 := by omega
  have e2 : y / 100 % 10 = y / 100 % 10 := rfl
  have e3 : y % 100 / 10 = y / 10 % 10 := by omega
  have e4 : y % 100 % 10 = y % 10 := by omega
  rw [e1, e3, e4]

/-! ## Numbers -/

theorem isDig_false_of (c lo hi : Nat) (h1 : lo ≤ c) (h2 : c ≤ hi) (h : hi < 48 ∨ 57 < lo) :
    isDig c = false := by
  simp only [isDig, Bool.and_eq_false_iff, decide_eq_false_iff_not]
  omega

theorem getnum_nondig (c : Nat) (r : GoString) (fixed : Bool) (h : isDig c = false) :
    getnum (c :: r) fixed = none := by
  cases r <;> simp [getnum, h]

theorem getnum_head_none {v : GoString} {lo hi : Nat} (fixed : Bool) (hv : HeadIn v lo hi)
    (h : hi < 48 ∨ 57 < lo) : getnum v fixed = none := by
  obtain ⟨c, r, rfl, h1, h2⟩ := hv
  exact getnum_nondig c r fixed (isDig_false_of c lo hi h1 h2 h)

theorem getnum_nd_fixed (n : Nat) (h : n < 100) (c : Nat) (rest : GoString)
    (hc : isDig c = false) :
    getnum (nd n ++ c :: rest) true = none ∨ getnum (nd n ++ c :: rest) true = some (n, c :: rest) := by
  unfold nd
  split
  · left
    have h1 : isDig (48 + n) = true := isDig_digit _ (by omega)
    simp [getnum, h1, hc]
  · right
    exact getnum_d2 n h _ _

theorem eats_ZM_d2 (n : Nat) (h : n < 100) (rest : GoString) (nx : Option Std) :
    Eats stdZeroMonth nx (d2 n ++ rest) rest := by
  intro st; right
  simp only [parseStd, getnum_d2 n h]

theorem eats_ZD_d2 (n : Nat) (h : n < 100) (rest : GoString) (nx : Option Std) :
    Eats stdZeroDay nx (d2 n ++ rest) rest := by
  intro st; right
  have hne : ¬ (stdZeroDay = stdUnderDay ∧ (d2 n ++ rest).headD 0 = 32
      ∧ 0 < (d2 n ++ rest).length) := by
    intro h; exact absurd h.1 (by decide)
  simp only [parseStd, if_neg hne, getnum_d2 n h]

theorem eats_UD_d2 (n : Nat) (h : n < 100) (rest : GoString) (nx : Option Std) :
    Eats stdUnderDay nx (d2 n ++ rest) rest := by
  intro st; right
  have hne : ¬ ((d2 n ++ rest).headD 0 = 32 ∧ 0 < (d2 n ++ rest).length) := by
    intro h'; exact d2_head n rest h'.1
  simp only [parseStd, true_and, if_neg hne, getnum_d2 n h]

theorem eats_H_d2 (n : Nat) (h : n < 100) (rest : GoString) (nx : Option Std) :
    Eats stdHour nx (d2 n ++ rest) rest := by
  intro st; right
  simp only [parseStd, getnum_d2 n h]

theorem eats_H12_d2 (n : Nat) (h : n < 100) (rest : GoString) (nx : Option Std) :
    Eats stdHour12 nx (d2 n ++ rest) rest := by
  intro st; right
  simp only [parseStd, getnum_d2 n h]

theorem eats_ZH12_d2 (n : Nat) (h : n < 100) (rest : GoString) (nx : Option Std) :
    Eats stdZeroHour12 nx (d2 n ++ rest) rest := by
  intro st; right
  simp only [parseStd, getnum_d2 n h]

theorem eats_MI_d2 (n : Nat) (h : n < 100) (rest : GoString) (nx : Option Std) :
    Eats stdZeroMinute nx (d2 n ++ rest) rest := by
  intro st; right
  simp only [parseStd, getnum_d2 n h]

theorem eats_Y2_d2 (n : Nat) (h : n < 100) (rest : GoString) (nx : Option Std) :
    Eats stdYear nx (d2 n ++ rest) rest :=
  eats_of_eq (fun st => ⟨_, parseStd_year2 n h rest nx st⟩)

theorem eats_S_frac0 (n : Nat) (h : n < 100) (rest : GoString) (a b : Nat) :
    Eats stdZeroSecond (some (stdFracSecond0 a b)) (d2 n ++ rest) rest := by
  intro st; right
  simp only [parseStd, getnum_d2 n h]
  split
  · rfl
  · split <;> rfl

theorem eats_S_frac9 (n : Nat) (h : n < 100) (rest : GoString) (a b : Nat) :
    Eats stdZeroSecond (some (stdFracSecond9 a b)) (d2 n ++ rest) rest := by
  intro st; right
  simp only [parseStd, getnum_d2 n h]
  split
  · rfl
  · split <;> rfl

theorem eats_S_head (n : Nat) (h : n < 100) (c : Nat) (rest : GoString)
    (hc : commaOrPeriod c = false) (nx : Option Std) :
    Eats stdZeroSecond nx (d2 n ++ c :: rest) (c :: rest) := by
  intro st; right
  have hrest : ¬ (2 ≤ (c :: rest).length ∧ commaOrPeriod ((c :: rest).headD 0) = true
      ∧ isDigit (c :: rest) 1 = true) := by
    intro h'
    have := h'.2.1
    simp only [List.headD_cons] at this
    rw [hc] at this
    cases this
  simp only [parseStd, getnum_d2 n h, if_neg hrest]
  split <;> rfl

theorem eats_S_ampm (n : Nat) (h : n < 100) (hr : Nat) (rest : GoString) (nx : Option Std) :
    Eats stdZeroSecond nx (d2 n ++ (ampm hr ++ rest)) (ampm hr ++ rest) := by
  unfold ampm
  split
  · exact eats_S_head n h 80 _ (by decide) nx
  · exact eats_S_head n h 65 _ (by decide) nx

theorem eats_UD_nd (n : Nat) (h : n < 100) (c : Nat) (rest : GoString)
    (hc : isDig c = false) (nx : Option Std) :
    Eats stdUnderDay nx (nd n ++ c :: rest) (c :: rest) :=
  eats_of_eq (fun st => ⟨_, parseStd_underDay n h c rest hc nx st⟩)

theorem eats_ZD_nd (n : Nat) (h : n < 100) (c : Nat) (rest : GoString)
    (hc : isDig c = false) (nx : Option Std) :
    Eats stdZeroDay nx (nd n ++ c :: rest) (c :: rest) := by
  intro st
  have hne : ¬ (stdZeroDay = stdUnderDay ∧ (nd n ++ c :: rest).headD 0 = 32
      ∧ 0 < (nd n ++ c :: rest).length) := by
    intro h; exact absurd h.1 (by decide)
  rcases getnum_nd_fixed n h c rest hc with e | e
  · left; right
    simp only [parseStd, if_neg hne, decide_True, e]
  · right
    simp only [parseStd, if_neg hne, decide_True, e]

theorem eats_ZM_nd (n : Nat) (h : n < 100) (c : Nat) (rest : GoString)
    (hc : isDig c = false) (nx : Option Std) :
    Eats stdZeroMonth nx (nd n ++ c :: rest) (c :: rest) := by
  intro st
  rcases getnum_nd_fixed n h c rest hc with e | e
  · left; right
    simp only [parseStd, decide_True, e]
  · right
    simp only [parseStd, decide_True, e]

theorem fails_ZM_head (v : GoString) (nx : Option Std) (lo hi : Nat) (hv : HeadIn v lo hi)
    (h : hi < 48 ∨ 57 < lo) : Fails stdZeroMonth nx v := by
  intro st; right
  simp only [parseStd, getnum_head_none _ hv h]

theorem fails_ZD_head (v : GoString) (nx : Option Std) (lo hi : Nat) (hv : HeadIn v lo hi)
    (h : hi < 48 ∨ 57 < lo) : Fails stdZeroDay nx v := by
  intro st; right
  have hne : ¬ (stdZeroDay = stdUnderDay ∧ v.headD 0 = 32 ∧ 0 < v.length) := by
    intro h; exact absurd h.1 (by decide)
  simp only [parseStd, if_neg hne, getnum_head_none _ hv h]

theorem fails_H12_head (v : GoString) (nx : Option Std) (lo hi : Nat) (hv : HeadIn v lo hi)
    (h : hi < 48 ∨ 57 < lo) : Fails stdHour12 nx v := by
  intro st; right
  simp only [parseStd, getnum_head_none _ hv h]

theorem fails_LY_head (v : GoString) (nx : Option Std) (lo hi : Nat) (hv : HeadIn v lo hi)
    (h : hi < 48 ∨ 57 < lo) : Fails stdLongYear nx v := by
  intro st; right
  obtain ⟨c, r, rfl, h1, h2⟩ := hv
  have hd : isDigit (c :: r) 0 = false := by
    have := isDig_false_of c lo hi h1 h2 h
    simpa [isDigit, isDig] using this
  simp only [parseStd, hd, Bool.not_false, or_true, if_true]

end Mft

namespace Mft
open Std

/-! ## Years -/

theorem atoi_dig_nondig (k : Nat) (hk : k < 10) (c : Nat) (tl : GoString) (hc : isDig c = false) :
    atoi ((48 + k) :: c :: tl) = none := by
  have e2 : ¬ (48 + k = 43) := by omega
  have e1 : ¬ (48 + k = 45) := by omega
  have hc2 : c < 48 ∨ c > 57 := by
    simp only [isDig, Bool.and_eq_false_iff, decide_eq_false_iff_not] at hc
    omega
  simp only [atoi, e2, if_false, leadingInt, e1, decide_False, or_self]
  rw [leadingIntAux_digit _ _ _ (by omega) (by omega) (by omega)]
  simp [leadingIntAux, hc2]

theorem atoi_d2_nondig (n : Nat) (hn : n < 100) (c : Nat) (tl : GoString)
    (hc : isDig c = false) : atoi (d2 n ++ c :: tl) = none := by
  have e2 : ¬ (48 + n / 10 = 43) := by omega
  have e1 : ¬ (48 + n / 10 = 45) := by omega
  have hc2 : c < 48 ∨ c > 57 := by
    simp only [isDig, Bool.and_eq_false_iff, decide_eq_false_iff_not] at hc
    omega
  simp only [atoi, d2, List.cons_append, List.nil_append, e2, if_false, leadingInt, e1,
    decide_False, or_self]
  rw [leadingIntAux_digit _ _ _ (by omega) (by omega) (by omega),
      leadingIntAux_digit _ _ _ (by omega) (by omega) (by omega)]
  simp [leadingIntAux, hc2]

theorem fails_LY_d2 (n : Nat) (hn : n < 100) (c : Nat) (rest : GoString)
    (hc : isDig c = false) (nx : Option Std) :
    Fails stdLongYear nx (d2 n ++ c :: rest) := by
  intro st; right
  cases rest with
  | nil => simp [parseStd, d2]
  | cons x r =>
    have ht : (d2 n ++ c :: x :: r).take 4 = d2 n ++ c :: [x] := rfl
    simp only [parseStd, ht, atoi_d2_nondig n hn c [x] hc]
    split <;> rfl

theorem fails_LY_nd (n : Nat) (hn : n < 100) (c : Nat) (rest : GoString)
    (hc : isDig c = false) (nx : Option Std) :
    Fails stdLongYear nx (nd n ++ c :: rest) := by
  unfold nd
  split
  · intro st; right
    match rest with
    | [] => simp [parseStd]
    | [x] => simp [parseStd]
    | x :: x2 :: r =>
      have ht : ([48 + n] ++ c :: x :: x2 :: r).take 4 = (48 + n) :: c :: [x, x2] := rfl
      simp only [parseStd, ht, atoi_dig_nondig n (by omega) c [x, x2] hc]
      split <;> rfl
  · exact fails_LY_d2 n hn c rest hc nx

/-! ## Names -/

theorem matchFold_pre : ∀ (x t v : GoString), matchFold x v = false →
    matchFold (x ++ t) v = false := by
  intro x
  induction x with
  | nil => intro t v h; cases v <;> simp [matchFold] at h
  | cons a x ih =>
    intro t v h
    cases v with
    | nil => simp [matchFold] at h
    | cons b v =>
      simp only [List.cons_append, matchFold] at h ⊢
      split
      · rename_i h1
        rw [if_pos h1] at h
        split
        · rfl
        · rename_i h2
          rw [if_neg h2] at h
          exact ih t v h
      · rename_i h1
        rw [if_neg h1] at h
        exact ih t v h

/-- No entry of the table is found in a text whose start already differs from each. -/
theorem lookupFrom_none_pre (x rest : GoString) :
    ∀ (tab : List GoString) (i : Nat),
      (∀ v ∈ tab, x.length ≤ v.length ∧ matchFold x v = false) →
      lookupFrom i tab (x ++ rest) = none := by
  intro tab
  induction tab with
  | nil => intro i _; rfl
  | cons v tab ih =>
    intro i h
    have hv := h v (List.mem_cons_self _ _)
    have ht : (x ++ rest).take v.length = x ++ rest.take (v.length - x.length) := by
      rw [List.take_append_eq_append_take, List.take_of_length_le hv.1]
    rw [lookupFrom_miss i v tab (x ++ rest) (by rw [ht]; exact matchFold_pre _ _ _ hv.2)]
    exact ih (i + 1) (fun w hw => h w (List.mem_cons_of_mem _ hw))

theorem lookup_dig (tab : List GoString) (v : GoString) (hv : HeadIn v 48 57)
    (h : ∀ k < 10, ∀ w ∈ tab, [48 + k].length ≤ w.length ∧ matchFold [48 + k] w = false) :
    lookup tab v = none := by
  obtain ⟨c, r, rfl, h1, h2⟩ := hv
  obtain ⟨k, rfl⟩ : ∃ k, c = 48 + k := ⟨c - 48, by omega⟩
  exact lookupFrom_none_pre [48 + k] r tab 0 (h k (by omega))

theorem fails_WD_dig (v : GoString) (nx : Option Std) (hv : HeadIn v 48 57) :
    Fails stdWeekDay nx v := by
  intro st; right
  simp only [parseStd, lookup_dig shortDayNames v hv (by decide)]

theorem fails_LWD_dig (v : GoString) (nx : Option Std) (hv : HeadIn v 48 57) :
    Fails stdLongWeekDay nx v := by
  intro st; right
  simp only [parseStd, lookup_dig longDayNames v hv (by decide)]

theorem fails_MON_dig (v : GoString) (nx : Option Std) (hv : HeadIn v 48 57) :
    Fails stdMonth nx v := by
  intro st; right
  simp only [parseStd, lookup_dig shortMonthNames v hv (by decide)]

theorem lookup_mon3_none (tab : List GoString)
    (h : ∀ m, 1 ≤ m → m ≤ 12 → ∀ w ∈ tab, ((monthString m).take 3).length ≤ w.length
      ∧ matchFold ((monthString m).take 3) w = false)
    (m : Nat) (h1 : 1 ≤ m) (h2 : m ≤ 12) (rest : GoString) :
    lookup tab ((monthString m).take 3 ++ rest) = none :=
  lookupFrom_none_pre _ rest tab 0 (h m h1 h2)

theorem mon3_all (P : Nat → Prop) (h : ∀ k < 12, P (k + 1)) : ∀ m, 1 ≤ m → m ≤ 12 → P m := by
  intro m h1 h2
  have := h (m - 1) (by omega)
  rwa [Nat.sub_add_cancel h1] at this

theorem fails_WD_mon3 (m : Nat) (h1 : 1 ≤ m) (h2 : m ≤ 12) (rest : GoString) (nx : Option Std) :
    Fails stdWeekDay nx ((monthString m).take 3 ++ rest) := by
  intro st; right
  simp only [parseStd, lookup_mon3_none shortDayNames (mon3_all _ (by decide)) m h1 h2 rest]

theorem fails_LWD_mon3 (m : Nat) (h1 : 1 ≤ m) (h2 : m ≤ 12) (rest : GoString) (nx : Option Std) :
    Fails stdLongWeekDay nx ((monthString m).take 3 ++ rest) := by
  intro st; right
  simp only [parseStd, lookup_mon3_none longDayNames (mon3_all _ (by decide)) m h1 h2 rest]

theorem fails_LWD_wd3 (w : Nat) (hw : w < 7) (c : Nat) (rest : GoString) (hc : c = 44)
    (nx : Option Std) :
    Fails stdLongWeekDay nx ((weekdayString w).take 3 ++ c :: rest) := by
  intro st; right
  subst hc
  have e : (weekdayString w).take 3 ++ 44 :: rest = ((weekdayString w).take 3 ++ [44]) ++ rest := by
    simp
  have hall : ∀ w < 7, ∀ v ∈ longDayNames,
      ((weekdayString w).take 3 ++ [44]).length ≤ v.length
        ∧ matchFold ((weekdayString w).take 3 ++ [44]) v = false := by decide
  have : lookup longDayNames ((weekdayString w).take 3 ++ 44 :: rest) = none := by
    rw [e]
    exact lookupFrom_none_pre _ rest longDayNames 0 (hall w hw)
  simp only [parseStd, this]

theorem eats_WD_long (w : Nat) (hw : w < 7) (rest : GoString) (nx : Option Std) :
    Eats stdWeekDay nx (weekdayString w ++ rest) ((weekdayString w).drop 3 ++ rest) := by
  have e : weekdayString w ++ rest
      = (weekdayString w).take 3 ++ ((weekdayString w).drop 3 ++ rest) := by
    rw [← List.append_assoc, List.take_append_drop]
  rw [e]
  exact eats_of_eq (fun st => ⟨_, parseStd_weekDay w hw _ nx st⟩)

/-! ## Marks, zones and fractions -/

theorem fails_PM_head (c : Nat) (rest : GoString) (hc : c ≠ 65 ∧ c ≠ 80) (nx : Option Std) :
    Fails stdPM nx (c :: rest) := by
  intro st; right
  cases rest with
  | nil => simp [parseStd]
  | cons x r =>
    simp [parseStd, B, hc.1, hc.2]
    split <;> rfl

theorem fails_NTZ_head (v : GoString) (nx : Option Std) (lo hi : Nat) (hv : HeadIn v lo hi)
    (h : 45 < lo) : Fails stdNumTZ nx v := by
  intro st; right
  obtain ⟨c, r, rfl, h1, h2⟩ := hv
  have e1 : ¬ (c = 43) := by omega
  have e2 : ¬ (c = 45) := by omega
  by_cases hl : r.length + 1 < 5
  · simp [parseStd, parseZoneOffset, hl]
  · simp [parseStd, parseZoneOffset, hl, e1, e2]

theorem fails_F0_short (n k ns : Nat) (h : k + 2 < 1 + n) (nx : Option Std) {sep : Nat} :
    Fails (stdFracSecond0 n sep) nx (frac0 k ns ++ [34]) := by
  intro st; right
  have hl : (frac0 k ns ++ [34]).length < 1 + n := by
    simp only [frac0, List.cons_append, List.length_cons, List.length_append, digs_length,
      List.length_nil]
    omega
  simp only [parseStd, if_pos hl]

theorem fails_F0_end (n : Nat) (h : 1 ≤ n) (nx : Option Std) {sep : Nat} :
    Fails (stdFracSecond0 n sep) nx [34] := by
  intro st; right
  have hl : ([34] : GoString).length < 1 + n := by
    simp only [List.length_cons, List.length_nil]; omega
  simp only [parseStd, if_pos hl]

end Mft

namespace Mft
open Std

/-! # The registry order

For each layout of the registry, every entry before it refuses the quoted text
that the layout prints for a time with fields in range (the one exception,
`RFC3339` on the text of `RFC3339Nano`, is accepted and handled by the
disambiguation branch). -/

/-! ## The layouts before Layout on its text -/

/-! ## The layouts before ANSIC on its text -/

theorem rej_Layout_ANSIC {y m d h mi s ns : Nat} (_r : Rng y m d h mi s ns) (loc : Location) :
    parses loc Layout
      (34 :: ((weekdayString (wk y m d)).take 3 ++ 32 :: ((monthString m).take 3 ++ 32 ::
          (ud d ++ 32 :: (d2 h ++ 58 :: (d2 mi ++ 58 :: (d2 s ++ 32 ::
          (d4 y ++ [34])))))))) = false := by
  apply parses_false_of_isErr
  rw [qchunks_Layout]
  refine (?_ : ∀ st, IsErr (parseChunks loc _ _ _ _ st)) _
  exact rj_fail (skip_byte 34 _ (by decide))
    (fails_ZM_head _ _ _ _ (headIn_wd3 (wk y m d) (wk_lt y m d) _) (by decide))

theorem rejAll_ANSIC {y m d h mi s ns : Nat} (r : Rng y m d h mi s ns) (loc : Location) :
    ∀ g ∈ [Layout], parses loc g
      (34 :: ((weekdayString (wk y m d)).take 3 ++ 32 :: ((monthString m).take 3 ++ 32 ::
          (ud d ++ 32 :: (d2 h ++ 58 :: (d2 mi ++ 58 :: (d2 s ++ 32 ::
          (d4 y ++ [34])))))))) = false := by
  intro g hg
  simp only [List.mem_cons, List.mem_singleton, List.not_mem_nil, or_false] at hg
  rcases hg with rfl
  · exact rej_Layout_ANSIC r loc

/-! ## The layouts before RubyDate on its text -/

theorem rej_Layout_RubyDate {y m d h mi s ns : Nat} (_r : Rng y m d h mi s ns) (loc : Location) :
    parses loc Layout
      (34 :: ((weekdayString (wk y m d)).take 3 ++ 32 :: ((monthString m).take 3 ++ 32 ::
          (d2 d ++ 32 :: (d2 h ++ 58 :: (d2 mi ++ 58 :: (d2 s ++ 32 :: 43 :: 48 :: 48 :: 48 :: 48 ::
          32 :: (d4 y ++ [34])))))))) = false := by
  apply parses_false_of_isErr
  rw [qchunks_Layout]
  refine (?_ : ∀ st, IsErr (parseChunks loc _ _ _ _ st)) _
  exact rj_fail (skip_byte 34 _ (by decide))
    (fails_ZM_head _ _ _ _ (headIn_wd3 (wk y m d) (wk_lt y m d) _) (by decide))

theorem rej_ANSIC_RubyDate {y m d h mi s ns : Nat} (r : Rng y m d h mi s ns) (loc : Location) :
    parses loc ANSIC
      (34 :: ((weekdayString (wk y m d)).take 3 ++ 32 :: ((monthString m).take 3 ++ 32 ::
          (d2 d ++ 32 :: (d2 h ++ 58 :: (d2 mi ++ 58 :: (d2 s ++ 32 :: 43 :: 48 :: 48 :: 48 :: 48 ::
          32 :: (d4 y ++ [34])))))))) = false := by
  apply parses_false_of_isErr
  rw [qchunks_ANSIC]
  refine (?_ : ∀ st, IsErr (parseChunks loc _ _ _ _ st)) _
  refine rj_eat (skip_byte 34 _ (by decide))
    (eats_of_eq (fun st => ⟨_, parseStd_weekDay (wk y m d) (wk_lt y m d) _ _ st⟩)) ?_
  refine rj_eat (skip_sp _ (headD_of_headIn (headIn_mon3 m r.hm1 r.hm2 _) (by decide)))
    (eats_of_eq (fun st => ⟨_, parseStd_month m r.hm1 r.hm2 _ _ st⟩)) ?_
  refine rj_eat (skip_sp _ (headD_of_headIn (headIn_d2 (d) (by have := r.hd3; omega) _)
      (by decide)))
    (eats_UD_d2 (d) (by have := r.hd3; omega) _ _) ?_
  refine rj_eat (skip_sp _ (headD_of_headIn (headIn_d2 (h) (by have := r.hh; omega) _) (by decide)))
    (eats_H_d2 (h) (by have := r.hh; omega) _ _) ?_
  refine rj_eat (skip_byte 58 _ (by decide))
    (eats_MI_d2 (mi) (by have := r.hmi; omega) _ _) ?_
  refine rj_eat (skip_byte 58 _ (by decide))
    (eats_S_head (s) (by have := r.hs; omega) 32 _ rfl _) ?_
  exact rj_fail (skip_sp _ (headD_of_headIn (headIn_cons 43 _) (by decide)))
    (fails_LY_head _ _ _ _ (headIn_cons 43 _) (by decide))

theorem rejAll_RubyDate {y m d h mi s ns : Nat} (r : Rng y m d h mi s ns) (loc : Location) :
    ∀ g ∈ [Layout, ANSIC], parses loc g
      (34 :: ((weekdayString (wk y m d)).take 3 ++ 32 :: ((monthString m).take 3 ++ 32 ::
          (d2 d ++ 32 :: (d2 h ++ 58 :: (d2 mi ++ 58 :: (d2 s ++ 32 :: 43 :: 48 :: 48 :: 48 :: 48 ::
          32 :: (d4 y ++ [34])))))))) = false := by
  intro g hg
  simp only [List.mem_cons, List.mem_singleton, List.not_mem_nil, or_false] at hg
  rcases hg with rfl | rfl
  · exact rej_Layout_RubyDate r loc
  · exact rej_ANSIC_RubyDate r loc

/-! ## The layouts before UnixDate on its text -/

theorem rej_Layout_UnixDate {y m d h mi s ns : Nat} (_r : Rng y m d h mi s ns) (loc : Location) :
    parses loc Layout
      (34 :: ((weekdayString (wk y m d)).take 3 ++ 32 :: ((monthString m).take 3 ++ 32 ::
          (ud d ++ 32 :: (d2 h ++ 58 :: (d2 mi ++ 58 :: (d2 s ++ 32 :: 85 :: 84 :: 67 :: 32 ::
          (d4 y ++ [34])))))))) = false := by
  apply parses_false_of_isErr
  rw [qchunks_Layout]
  refine (?_ : ∀ st, IsErr (parseChunks loc _ _ _ _ st)) _
  exact rj_fail (skip_byte 34 _ (by decide))
    (fails_ZM_head _ _ _ _ (headIn_wd3 (wk y m d) (wk_lt y m d) _) (by decide))

theorem rej_ANSIC_UnixDate {y m d h mi s ns : Nat} (r : Rng y m d h mi s ns) (loc : Location) :
    parses loc ANSIC
      (34 :: ((weekdayString (wk y m d)).take 3 ++ 32 :: ((monthString m).take 3 ++ 32 ::
          (ud d ++ 32 :: (d2 h ++ 58 :: (d2 mi ++ 58 :: (d2 s ++ 32 :: 85 :: 84 :: 67 :: 32 ::
          (d4 y ++ [34])))))))) = false := by
  apply parses_false_of_isErr
  rw [qchunks_ANSIC]
  refine (?_ : ∀ st, IsErr (parseChunks loc _ _ _ _ st)) _
  refine rj_eat (skip_byte 34 _ (by decide))
    (eats_of_eq (fun st => ⟨_, parseStd_weekDay (wk y m d) (wk_lt y m d) _ _ st⟩)) ?_
  refine rj_eat (skip_sp _ (headD_of_headIn (headIn_mon3 m r.hm1 r.hm2 _) (by decide)))
    (eats_of_eq (fun st => ⟨_, parseStd_month m r.hm1 r.hm2 _ _ st⟩)) ?_
  refine rj_eat (skip_sp_ud d (by have := r.hd3; omega) _)
    (eats_UD_nd (d) (by have := r.hd3; omega) 32 _ rfl _) ?_
  refine rj_eat (skip_sp _ (headD_of_headIn (headIn_d2 (h) (by have := r.hh; omega) _) (by decide)))
    (eats_H_d2 (h) (by have := r.hh; omega) _ _) ?_
  refine rj_eat (skip_byte 58 _ (by decide))
    (eats_MI_d2 (mi) (by have := r.hmi; omega) _ _) ?_
  refine rj_eat (skip_byte 58 _ (by decide))
    (eats_S_head (s) (by have := r.hs; omega) 32 _ rfl _) ?_
  exact rj_fail (skip_sp _ (headD_of_headIn (headIn_cons 85 _) (by decide)))
    (fails_LY_head _ _ _ _ (headIn_cons 85 _) (by decide))

theorem rej_RubyDate_UnixDate {y m d h mi s ns : Nat} (r : Rng y m d h mi s ns) (loc : Location) :
    parses loc RubyDate
      (34 :: ((weekdayString (wk y m d)).take 3 ++ 32 :: ((monthString m).take 3 ++ 32 ::
          (ud d ++ 32 :: (d2 h ++ 58 :: (d2 mi ++ 58 :: (d2 s ++ 32 :: 85 :: 84 :: 67 :: 32 ::
          (d4 y ++ [34])))))))) = false := by
  apply parses_false_of_isErr
  rw [qchunks_RubyDate]
  refine (?_ : ∀ st, IsErr (parseChunks loc _ _ _ _ st)) _
  refine rj_eat (skip_byte 34 _ (by decide))
    (eats_of_eq (fun st => ⟨_, parseStd_weekDay (wk y m d) (wk_lt y m d) _ _ st⟩)) ?_
  refine rj_eat (skip_sp _ (headD_of_headIn (headIn_mon3 m r.hm1 r.hm2 _) (by decide)))
    (eats_of_eq (fun st => ⟨_, parseStd_month m r.hm1 r.hm2 _ _ st⟩)) ?_
  refine rj_eat (skip_sp_ud d (by have := r.hd3; omega) _)
    (eats_ZD_nd (d) (by have := r.hd3; omega) 32 _ rfl _) ?_
  refine rj_eat (skip_sp _ (headD_of_headIn (headIn_d2 (h) (by have := r.hh; omega) _) (by decide)))
    (eats_H_d2 (h) (by have := r.hh; omega) _ _) ?_
  refine rj_eat (skip_byte 58 _ (by decide))
    (eats_MI_d2 (mi) (by have := r.hmi; omega) _ _) ?_
  refine rj_eat (skip_byte 58 _ (by decide))
    (eats_S_head (s) (by have := r.hs; omega) 32 _ rfl _) ?_
  exact rj_fail (skip_sp _ (headD_of_headIn (headIn_cons 85 _) (by decide)))
    (fails_NTZ_head _ _ _ _ (headIn_cons 85 _) (by decide))

theorem rejAll_UnixDate {y m d h mi s ns : Nat} (r : Rng y m d h mi s ns) (loc : Location) :
    ∀ g ∈ [Layout, ANSIC, RubyDate], parses loc g
      (34 :: ((weekdayString (wk y m d)).take 3 ++ 32 :: ((monthString m).take 3 ++ 32 ::
          (ud d ++ 32 :: (d2 h ++ 58 :: (d2 mi ++ 58 :: (d2 s ++ 32 :: 85 :: 84 :: 67 :: 32 ::
          (d4 y ++ [34])))))))) = false := by
  intro g hg
  simp only [List.mem_cons, List.mem_singleton, List.not_mem_nil, or_false] at hg
  rcases hg with rfl | rfl | rfl
  · exact rej_Layout_UnixDate r loc
  · exact rej_ANSIC_UnixDate r loc
  · exact rej_RubyDate_UnixDate r loc

/-! ## The layouts before RFC822Z on its text -/

theorem rej_Layout_RFC822Z {y m d h mi s ns : Nat} (r : Rng y m d h mi s ns) (loc : Location) :
    parses loc Layout
      (34 :: (d2 d ++ 32 :: ((monthString m).take 3 ++ 32 :: (d2 (y % 100) ++ 32 :: (d2 h ++ 58 ::
          (d2 mi ++ [32, 43, 48, 48, 48, 48, 34])))))) = false := by
  apply parses_false_of_isErr
  rw [qchunks_Layout]
  refine (?_ : ∀ st, IsErr (parseChunks loc _ _ _ _ st)) _
  refine rj_eat (skip_byte 34 _ (by decide))
    (eats_ZM_d2 (d) (by have := r.hd3; omega) _ _) ?_
  exact rj_skip (skip_ne_head _ 47 _ _ _ (by decide) (headIn_cons 32 _) (by decide))

theorem rej_ANSIC_RFC822Z {y m d h mi s ns : Nat} (r : Rng y m d h mi s ns) (loc : Location) :
    parses loc ANSIC
      (34 :: (d2 d ++ 32 :: ((monthString m).take 3 ++ 32 :: (d2 (y % 100) ++ 32 :: (d2 h ++ 58 ::
          (d2 mi ++ [32, 43, 48, 48, 48, 48, 34])))))) = false := by
  apply parses_false_of_isErr
  rw [qchunks_ANSIC]
  refine (?_ : ∀ st, IsErr (parseChunks loc _ _ _ _ st)) _
  exact rj_fail (skip_byte 34 _ (by decide))
    (fails_WD_dig _ _ (headIn_d2 (d) (by have := r.hd3; omega) _))

theorem rej_RubyDate_RFC822Z {y m d h mi s ns : Nat} (r : Rng y m d h mi s ns) (loc : Location) :
    parses loc RubyDate
      (34 :: (d2 d ++ 32 :: ((monthString m).take 3 ++ 32 :: (d2 (y % 100) ++ 32 :: (d2 h ++ 58 ::
          (d2 mi ++ [32, 43, 48, 48, 48, 48, 34])))))) = false := by
  apply parses_false_of_isErr
  rw [qchunks_RubyDate]
  refine (?_ : ∀ st, IsErr (parseChunks loc _ _ _ _ st)) _
  exact rj_fail (skip_byte 34 _ (by decide))
    (fails_WD_dig _ _ (headIn_d2 (d) (by have := r.hd3; omega) _))

theorem rej_UnixDate_RFC822Z {y m d h mi s ns : Nat} (r : Rng y m d h mi s ns) (loc : Location) :
    parses loc UnixDate
      (34 :: (d2 d ++ 32 :: ((monthString m).take 3 ++ 32 :: (d2 (y % 100) ++ 32 :: (d2 h ++ 58 ::
          (d2 mi ++ [32, 43, 48, 48, 48, 48, 34])))))) = false := by
  apply parses_false_of_isErr
  rw [qchunks_UnixDate]
  refine (?_ : ∀ st, IsErr (parseChunks loc _ _ _ _ st)) _
  exact rj_fail (skip_byte 34 _ (by decide))
    (fails_WD_dig _ _ (headIn_d2 (d) (by have := r.hd3; omega) _))

theorem rejAll_RFC822Z {y m d h mi s ns : Nat} (r : Rng y m d h mi s ns) (loc : Location) :
    ∀ g ∈ [Layout, ANSIC, RubyDate, UnixDate], parses loc g
      (34 :: (d2 d ++ 32 :: ((monthString m).take 3 ++ 32 :: (d2 (y % 100) ++ 32 :: (d2 h ++ 58 ::
          (d2 mi ++ [32, 43, 48, 48, 48, 48, 34])))))) = false := by
  intro g hg
  simp only [List.mem_cons, List.mem_singleton, List.not_mem_nil, or_false] at hg
  rcases hg with rfl | rfl | rfl | rfl
  · exact rej_Layout_RFC822Z r loc
  · exact rej_ANSIC_RFC822Z r loc
  · exact rej_RubyDate_RFC822Z r loc
  · exact rej_UnixDate_RFC822Z r loc

/-! ## The layouts before RFC822 on its text -/

theorem rej_Layout_RFC822 {y m d h mi s ns : Nat} (r : Rng y m d h mi s ns) (loc : Location) :
    parses loc Layout
      (34 :: (d2 d ++ 32 :: ((monthString m).take 3 ++ 32 :: (d2 (y % 100) ++ 32 :: (d2 h ++ 58 ::
          (d2 mi ++ [32, 85, 84, 67, 34])))))) = false := by
  apply parses_false_of_isErr
  rw [qchunks_Layout]
  refine (?_ : ∀ st, IsErr (parseChunks loc _ _ _ _ st)) _
  refine rj_eat (skip_byte 34 _ (by decide))
    (eats_ZM_d2 (d) (by have := r.hd3; omega) _ _) ?_
  exact rj_skip (skip_ne_head _ 47 _ _ _ (by decide) (headIn_cons 32 _) (by decide))

theorem rej_ANSIC_RFC822 {y m d h mi s ns : Nat} (r : Rng y m d h mi s ns) (loc : Location) :
    parses loc ANSIC
      (34 :: (d2 d ++ 32 :: ((monthString m).take 3 ++ 32 :: (d2 (y % 100) ++ 32 :: (d2 h ++ 58 ::
          (d2 mi ++ [32, 85, 84, 67, 34])))))) = false := by
  apply parses_false_of_isErr
  rw [qchunks_ANSIC]
  refine (?_ : ∀ st, IsErr (parseChunks loc _ _ _ _ st)) _
  exact rj_fail (skip_byte 34 _ (by decide))
    (fails_WD_dig _ _ (headIn_d2 (d) (by have := r.hd3; omega) _))

theorem rej_RubyDate_RFC822 {y m d h mi s ns : Nat} (r : Rng y m d h mi s ns) (loc : Location) :
    parses loc RubyDate
      (34 :: (d2 d ++ 32 :: ((monthString m).take 3 ++ 32 :: (d2 (y % 100) ++ 32 :: (d2 h ++ 58 ::
          (d2 mi ++ [32, 85, 84, 67, 34])))))) = false := by
  apply parses_false_of_isErr
  rw [qchunks_RubyDate]
  refine (?_ : ∀ st, IsErr (parseChunks loc _ _ _ _ st)) _
  exact rj_fail (skip_byte 34 _ (by decide))
    (fails_WD_dig _ _ (headIn_d2 (d) (by have := r.hd3; omega) _))

theorem rej_UnixDate_RFC822 {y m d h mi s ns : Nat} (r : Rng y m d h mi s ns) (loc : Location) :
    parses loc UnixDate
      (34 :: (d2 d ++ 32 :: ((monthString m).take 3 ++ 32 :: (d2 (y % 100) ++ 32 :: (d2 h ++ 58 ::
          (d2 mi ++ [32, 85, 84, 67, 34])))))) = false := by
  apply parses_false_of_isErr
  rw [qchunks_UnixDate]
  refine (?_ : ∀ st, IsErr (parseChunks loc _ _ _ _ st)) _
  exact rj_fail (skip_byte 34 _ (by decide))
    (fails_WD_dig _ _ (headIn_d2 (d) (by have := r.hd3; omega) _))

theorem rej_RFC822Z_RFC822 {y m d h mi s ns : Nat} (r : Rng y m d h mi s ns) (loc : Location) :
    parses loc RFC822Z
      (34 :: (d2 d ++ 32 :: ((monthString m).take 3 ++ 32 :: (d2 (y % 100) ++ 32 :: (d2 h ++ 58 ::
          (d2 mi ++ [32, 85, 84, 67, 34])))))) = false := by
  apply parses_false_of_isErr
  rw [qchunks_RFC822Z]
  refine (?_ : ∀ st, IsErr (parseChunks loc _ _ _ _ st)) _
  refine rj_eat (skip_byte 34 _ (by decide))
    (eats_ZD_d2 (d) (by have := r.hd3; omega) _ _) ?_
  refine rj_eat (skip_sp _ (headD_of_headIn (headIn_mon3 m r.hm1 r.hm2 _) (by decide)))
    (eats_of_eq (fun st => ⟨_, parseStd_month m r.hm1 r.hm2 _ _ st⟩)) ?_
  refine rj_eat (skip_sp _ (headD_of_headIn (headIn_d2 (y % 100) (by omega) _) (by decide)))
    (eats_Y2_d2 (y % 100) (by omega) _ _) ?_
  refine rj_eat (skip_sp _ (headD_of_headIn (headIn_d2 (h) (by have := r.hh; omega) _) (by decide)))
    (eats_H_d2 (h) (by have := r.hh; omega) _ _) ?_
  refine rj_eat (skip_byte 58 _ (by decide))
    (eats_MI_d2 (mi) (by have := r.hmi; omega) _ _) ?_
  exact rj_fail (skip_sp _ (headD_of_headIn (headIn_cons 85 _) (by decide)))
    (fails_NTZ_head _ _ _ _ (headIn_cons 85 _) (by decide))

theorem rejAll_RFC822 {y m d h mi s ns : Nat} (r : Rng y m d h mi s ns) (loc : Location) :
    ∀ g ∈ [Layout, ANSIC, RubyDate, UnixDate, RFC822Z], parses loc g
      (34 :: (d2 d ++ 32 :: ((monthString m).take 3 ++ 32 :: (d2 (y % 100) ++ 32 :: (d2 h ++ 58 ::
          (d2 mi ++ [32, 85, 84, 67, 34])))))) = false := by
  intro g hg
  simp only [List.mem_cons, List.mem_singleton, List.not_mem_nil, or_false] at hg
  rcases hg with rfl | rfl | rfl | rfl | rfl
  · exact rej_Layout_RFC822 r loc
  · exact rej_ANSIC_RFC822 r loc
  · exact rej_RubyDate_RFC822 r loc
  · exact rej_UnixDate_RFC822 r loc
  · exact rej_RFC822Z_RFC822 r loc

/-! ## The layouts before RFC850 on its text -/

theorem rej_Layout_RFC850 {y m d h mi s ns : Nat} (_r : Rng y m d h mi s ns) (loc : Location) :
    parses loc Layout
      (34 :: (weekdayString (wk y m d) ++ 44 :: 32 :: (d2 d ++ 45 ::
          ((monthString m).take 3 ++ 45 :: (d2 (y % 100) ++ 32 :: (d2 h ++ 58 :: (d2 mi ++ 58 ::
          (d2 s ++ [32, 85, 84, 67, 34])))))))) = false := by
  apply parses_false_of_isErr
  rw [qchunks_Layout]
  refine (?_ : ∀ st, IsErr (parseChunks loc _ _ _ _ st)) _
  exact rj_fail (skip_byte 34 _ (by decide))
    (fails_ZM_head _ _ _ _ (headIn_wdL (wk y m d) (wk_lt y m d) _) (by decide))

theorem rej_ANSIC_RFC850 {y m d h mi s ns : Nat} (_r : Rng y m d h mi s ns) (loc : Location) :
    parses loc ANSIC
      (34 :: (weekdayString (wk y m d) ++ 44 :: 32 :: (d2 d ++ 45 ::
          ((monthString m).take 3 ++ 45 :: (d2 (y % 100) ++ 32 :: (d2 h ++ 58 :: (d2 mi ++ 58 ::
          (d2 s ++ [32, 85, 84, 67, 34])))))))) = false := by
  apply parses_false_of_isErr
  rw [qchunks_ANSIC]
  refine (?_ : ∀ st, IsErr (parseChunks loc _ _ _ _ st)) _
  refine rj_eat (skip_byte 34 _ (by decide))
    (eats_WD_long (wk y m d) (wk_lt y m d) _ _) ?_
  exact rj_skip (skip_sp_head _ _ _ _ (headIn_wdR (wk y m d) (wk_lt y m d) _) (by decide))

theorem rej_RubyDate_RFC850 {y m d h mi s ns : Nat} (_r : Rng y m d h mi s ns) (loc : Location) :
    parses loc RubyDate
      (34 :: (weekdayString (wk y m d) ++ 44 :: 32 :: (d2 d ++ 45 ::
          ((monthString m).take 3 ++ 45 :: (d2 (y % 100) ++ 32 :: (d2 h ++ 58 :: (d2 mi ++ 58 ::
          (d2 s ++ [32, 85, 84, 67, 34])))))))) = false := by
  apply parses_false_of_isErr
  rw [qchunks_RubyDate]
  refine (?_ : ∀ st, IsErr (parseChunks loc _ _ _ _ st)) _
  refine rj_eat (skip_byte 34 _ (by decide))
    (eats_WD_long (wk y m d) (wk_lt y m d) _ _) ?_
  exact rj_skip (skip_sp_head _ _ _ _ (headIn_wdR (wk y m d) (wk_lt y m d) _) (by decide))

theorem rej_UnixDate_RFC850 {y m d h mi s ns : Nat} (_r : Rng y m d h mi s ns) (loc : Location) :
    parses loc UnixDate
      (34 :: (weekdayString (wk y m d) ++ 44 :: 32 :: (d2 d ++ 45 ::
          ((monthString m).take 3 ++ 45 :: (d2 (y % 100) ++ 32 :: (d2 h ++ 58 :: (d2 mi ++ 58 ::
          (d2 s ++ [32, 85, 84, 67, 34])))))))) = false := by
  apply parses_false_of_isErr
  rw [qchunks_UnixDate]
  refine (?_ : ∀ st, IsErr (parseChunks loc _ _ _ _ st)) _
  refine rj_eat (skip_byte 34 _ (by decide))
    (eats_WD_long (wk y m d) (wk_lt y m d) _ _) ?_
  exact rj_skip (skip_sp_head _ _ _ _ (headIn_wdR (wk y m d) (wk_lt y m d) _) (by decide))

theorem rej_RFC822Z_RFC850 {y m d h mi s ns : Nat} (_r : Rng y m d h mi s ns) (loc : Location) :
    parses loc RFC822Z
      (34 :: (weekdayString (wk y m d) ++ 44 :: 32 :: (d2 d ++ 45 ::
          ((monthString m).take 3 ++ 45 :: (d2 (y % 100) ++ 32 :: (d2 h ++ 58 :: (d2 mi ++ 58 ::
          (d2 s ++ [32, 85, 84, 67, 34])))))))) = false := by
  apply parses_false_of_isErr
  rw [qchunks_RFC822Z]
  refine (?_ : ∀ st, IsErr (parseChunks loc _ _ _ _ st)) _
  exact rj_fail (skip_byte 34 _ (by decide))
    (fails_ZD_head _ _ _ _ (headIn_wdL (wk y m d) (wk_lt y m d) _) (by decide))

theorem rej_RFC822_RFC850 {y m d h mi s ns : Nat} (_r : Rng y m d h mi s ns) (loc : Location) :
    parses loc RFC822
      (34 :: (weekdayString (wk y m d) ++ 44 :: 32 :: (d2 d ++ 45 ::
          ((monthString m).take 3 ++ 45 :: (d2 (y % 100) ++ 32 :: (d2 h ++ 58 :: (d2 mi ++ 58 ::
          (d2 s ++ [32, 85, 84, 67, 34])))))))) = false := by
  apply parses_false_of_isErr
  rw [qchunks_RFC822]
  refine (?_ : ∀ st, IsErr (parseChunks loc _ _ _ _ st)) _
  exact rj_fail (skip_byte 34 _ (by decide))
    (fails_ZD_head _ _ _ _ (headIn_wdL (wk y m d) (wk_lt y m d) _) (by decide))

theorem rejAll_RFC850 {y m d h mi s ns : Nat} (r : Rng y m d h mi s ns) (loc : Location) :
    ∀ g ∈ [Layout, ANSIC, RubyDate, UnixDate, RFC822Z, RFC822], parses loc g
      (34 :: (weekdayString (wk y m d) ++ 44 :: 32 :: (d2 d ++ 45 ::
          ((monthString m).take 3 ++ 45 :: (d2 (y % 100) ++ 32 :: (d2 h ++ 58 :: (d2 mi ++ 58 ::
          (d2 s ++ [32, 85, 84, 67, 34])))))))) = false := by
  intro g hg
  simp only [List.mem_cons, List.mem_singleton, List.not_mem_nil, or_false] at hg
  rcases hg with rfl | rfl | rfl | rfl | rfl | rfl
  · exact rej_Layout_RFC850 r loc
  · exact rej_ANSIC_RFC850 r loc
  · exact rej_RubyDate_RFC850 r loc
  · exact rej_UnixDate_RFC850 r loc
  · exact rej_RFC822Z_RFC850 r loc
  · exact rej_RFC822_RFC850 r loc

/-! ## The layouts before RFC1123Z on its text -/

theorem rej_Layout_RFC1123Z {y m d h mi s ns : Nat} (_r : Rng y m d h mi s ns) (loc : Location) :
    parses loc Layout
      (34 :: ((weekdayString (wk y m d)).take 3 ++ 44 :: 32 :: (d2 d ++ 32 ::
          ((monthString m).take 3 ++ 32 :: (d4 y ++ 32 :: (d2 h ++ 58 :: (d2 mi ++ 58 ::
          (d2 s ++ [32, 43, 48, 48, 48, 48, 34])))))))) = false := by
  apply parses_false_of_isErr
  rw [qchunks_Layout]
  refine (?_ : ∀ st, IsErr (parseChunks loc _ _ _ _ st)) _
  exact rj_fail (skip_byte 34 _ (by decide))
    (fails_ZM_head _ _ _ _ (headIn_wd3 (wk y m d) (wk_lt y m d) _) (by decide))

theorem rej_ANSIC_RFC1123Z {y m d h mi s ns : Nat} (_r : Rng y m d h mi s ns) (loc : Location) :
    parses loc ANSIC
      (34 :: ((weekdayString (wk y m d)).take 3 ++ 44 :: 32 :: (d2 d ++ 32 ::
          ((monthString m).take 3 ++ 32 :: (d4 y ++ 32 :: (d2 h ++ 58 :: (d2 mi ++ 58 ::
          (d2 s ++ [32, 43, 48, 48, 48, 48, 34])))))))) = false := by
  apply parses_false_of_isErr
  rw [qchunks_ANSIC]
  refine (?_ : ∀ st, IsErr (parseChunks loc _ _ _ _ st)) _
  refine rj_eat (skip_byte 34 _ (by decide))
    (eats_of_eq (fun st => ⟨_, parseStd_weekDay (wk y m d) (wk_lt y m d) _ _ st⟩)) ?_
  exact rj_skip (skip_sp_head _ _ _ _ (headIn_cons 44 _) (by decide))

theorem rej_RubyDate_RFC1123Z {y m d h mi s ns : Nat} (_r : Rng y m d h mi s ns) (loc : Location) :
    parses loc RubyDate
      (34 :: ((weekdayString (wk y m d)).take 3 ++ 44 :: 32 :: (d2 d ++ 32 ::
          ((monthString m).take 3 ++ 32 :: (d4 y ++ 32 :: (d2 h ++ 58 :: (d2 mi ++ 58 ::
          (d2 s ++ [32, 43, 48, 48, 48, 48, 34])))))))) = false := by
  apply parses_false_of_isErr
  rw [qchunks_RubyDate]
  refine (?_ : ∀ st, IsErr (parseChunks loc _ _ _ _ st)) _
  refine rj_eat (skip_byte 34 _ (by decide))
    (eats_of_eq (fun st => ⟨_, parseStd_weekDay (wk y m d) (wk_lt y m d) _ _ st⟩)) ?_
  exact rj_skip (skip_sp_head _ _ _ _ (headIn_cons 44 _) (by decide))

theorem rej_UnixDate_RFC1123Z {y m d h mi s ns : Nat} (_r : Rng y m d h mi s ns) (loc : Location) :
    parses loc UnixDate
      (34 :: ((weekdayString (wk y m d)).take 3 ++ 44 :: 32 :: (d2 d ++ 32 ::
          ((monthString m).take 3 ++ 32 :: (d4 y ++ 32 :: (d2 h ++ 58 :: (d2 mi ++ 58 ::
          (d2 s ++ [32, 43, 48, 48, 48, 48, 34])))))))) = false := by
  apply parses_false_of_isErr
  rw [qchunks_UnixDate]
  refine (?_ : ∀ st, IsErr (parseChunks loc _ _ _ _ st)) _
  refine rj_eat (skip_byte 34 _ (by decide))
    (eats_of_eq (fun st => ⟨_, parseStd_weekDay (wk y m d) (wk_lt y m d) _ _ st⟩)) ?_
  exact rj_skip (skip_sp_head _ _ _ _ (headIn_cons 44 _) (by decide))

theorem rej_RFC822Z_RFC1123Z {y m d h mi s ns : Nat} (_r : Rng y m d h mi s ns) (loc : Location) :
    parses loc RFC822Z
      (34 :: ((weekdayString (wk y m d)).take 3 ++ 44 :: 32 :: (d2 d ++ 32 ::
          ((monthString m).take 3 ++ 32 :: (d4 y ++ 32 :: (d2 h ++ 58 :: (d2 mi ++ 58 ::
          (d2 s ++ [32, 43, 48, 48, 48, 48, 34])))))))) = false := by
  apply parses_false_of_isErr
  rw [qchunks_RFC822Z]
  refine (?_ : ∀ st, IsErr (parseChunks loc _ _ _ _ st)) _
  exact rj_fail (skip_byte 34 _ (by decide))
    (fails_ZD_head _ _ _ _ (headIn_wd3 (wk y m d) (wk_lt y m d) _) (by decide))

theorem rej_RFC822_RFC1123Z {y m d h mi s ns : Nat} (_r : Rng y m d h mi s ns) (loc : Location) :
    parses loc RFC822
      (34 :: ((weekdayString (wk y m d)).take 3 ++ 44 :: 32 :: (d2 d ++ 32 ::
          ((monthString m).take 3 ++ 32 :: (d4 y ++ 32 :: (d2 h ++ 58 :: (d2 mi ++ 58 ::
          (d2 s ++ [32, 43, 48, 48, 48, 48, 34])))))))) = false := by
  apply parses_false_of_isErr
  rw [qchunks_RFC822]
  refine (?_ : ∀ st, IsErr (parseChunks loc _ _ _ _ st)) _
  exact rj_fail (skip_byte 34 _ (by decide))
    (fails_ZD_head _ _ _ _ (headIn_wd3 (wk y m d) (wk_lt y m d) _) (by decide))

theorem rej_RFC850_RFC1123Z {y m d h mi s ns : Nat} (_r : Rng y m d h mi s ns) (loc : Location) :
    parses loc RFC850
      (34 :: ((weekdayString (wk y m d)).take 3 ++ 44 :: 32 :: (d2 d ++ 32 ::
          ((monthString m).take 3 ++ 32 :: (d4 y ++ 32 :: (d2 h ++ 58 :: (d2 mi ++ 58 ::
          (d2 s ++ [32, 43, 48, 48, 48, 48, 34])))))))) = false := by
  apply parses_false_of_isErr
  rw [qchunks_RFC850]
  refine (?_ : ∀ st, IsErr (parseChunks loc _ _ _ _ st)) _
  exact rj_fail (skip_byte 34 _ (by decide))
    (fails_LWD_wd3 (wk y m d) (wk_lt y m d) 44 _ rfl _)

theorem rejAll_RFC1123Z {y m d h mi s ns : Nat} (r : Rng y m d h mi s ns) (loc : Location) :
    ∀ g ∈ [Layout, ANSIC, RubyDate, UnixDate, RFC822Z, RFC822, RFC850], parses loc g
      (34 :: ((weekdayString (wk y m d)).take 3 ++ 44 :: 32 :: (d2 d ++ 32 ::
          ((monthString m).take 3 ++ 32 :: (d4 y ++ 32 :: (d2 h ++ 58 :: (d2 mi ++ 58 ::
          (d2 s ++ [32, 43, 48, 48, 48, 48, 34])))))))) = false := by
  intro g hg
  simp only [List.mem_cons, List.mem_singleton, List.not_mem_nil, or_false] at hg
  rcases hg with rfl | rfl | rfl | rfl | rfl | rfl | rfl
  · exact rej_Layout_RFC1123Z r loc
  · exact rej_ANSIC_RFC1123Z r loc
  · exact rej_RubyDate_RFC1123Z r loc
  · exact rej_UnixDate_RFC1123Z r loc
  · exact rej_RFC822Z_RFC1123Z r loc
  · exact rej_RFC822_RFC1123Z r loc
  · exact rej_RFC850_RFC1123Z r loc

/-! ## The layouts before RFC1123 on its text -/

theorem rej_Layout_RFC1123 {y m d h mi s ns : Nat} (_r : Rng y m d h mi s ns) (loc : Location) :
    parses loc Layout
      (34 :: ((weekdayString (wk y m d)).take 3 ++ 44 :: 32 :: (d2 d ++ 32 ::
          ((monthString m).take 3 ++ 32 :: (d4 y ++ 32 :: (d2 h ++ 58 :: (d2 mi ++ 58 ::
          (d2 s ++ [32, 85, 84, 67, 34])))))))) = false := by
  apply parses_false_of_isErr
  rw [qchunks_Layout]
  refine (?_ : ∀ st, IsErr (parseChunks loc _ _ _ _ st)) _
  exact rj_fail (skip_byte 34 _ (by decide))
    (fails_ZM_head _ _ _ _ (headIn_wd3 (wk y m d) (wk_lt y m d) _) (by decide))

theorem rej_ANSIC_RFC1123 {y m d h mi s ns : Nat} (_r : Rng y m d h mi s ns) (loc : Location) :
    parses loc ANSIC
      (34 :: ((weekdayString (wk y m d)).take 3 ++ 44 :: 32 :: (d2 d ++ 32 ::
          ((monthString m).take 3 ++ 32 :: (d4 y ++ 32 :: (d2 h ++ 58 :: (d2 mi ++ 58 ::
          (d2 s ++ [32, 85, 84, 67, 34])))))))) = false := by
  apply parses_false_of_isErr
  rw [qchunks_ANSIC]
  refine (?_ : ∀ st, IsErr (parseChunks loc _ _ _ _ st)) _
  refine rj_eat (skip_byte 34 _ (by decide))
    (eats_of_eq (fun st => ⟨_, parseStd_weekDay (wk y m d) (wk_lt y m d) _ _ st⟩)) ?_
  exact rj_skip (skip_sp_head _ _ _ _ (headIn_cons 44 _) (by decide))

theorem rej_RubyDate_RFC1123 {y m d h mi s ns : Nat} (_r : Rng y m d h mi s ns) (loc : Location) :
    parses loc RubyDate
      (34 :: ((weekdayString (wk y m d)).take 3 ++ 44 :: 32 :: (d2 d ++ 32 ::
          ((monthString m).take 3 ++ 32 :: (d4 y ++ 32 :: (d2 h ++ 58 :: (d2 mi ++ 58 ::
          (d2 s ++ [32, 85, 84, 67, 34])))))))) = false := by
  apply parses_false_of_isErr
  rw [qchunks_RubyDate]
  refine (?_ : ∀ st, IsErr (parseChunks loc _ _ _ _ st)) _
  refine rj_eat (skip_byte 34 _ (by decide))
    (eats_of_eq (fun st => ⟨_, parseStd_weekDay (wk y m d) (wk_lt y m d) _ _ st⟩)) ?_
  exact rj_skip (skip_sp_head _ _ _ _ (headIn_cons 44 _) (by decide))

theorem rej_UnixDate_RFC1123 {y m d h mi s ns : Nat} (_r : Rng y m d h mi s ns) (loc : Location) :
    parses loc UnixDate
      (34 :: ((weekdayString (wk y m d)).take 3 ++ 44 :: 32 :: (d2 d ++ 32 ::
          ((monthString m).take 3 ++ 32 :: (d4 y ++ 32 :: (d2 h ++ 58 :: (d2 mi ++ 58 ::
          (d2 s ++ [32, 85, 84, 67, 34])))))))) = false := by
  apply parses_false_of_isErr
  rw [qchunks_UnixDate]
  refine (?_ : ∀ st, IsErr (parseChunks loc _ _ _ _ st)) _
  refine rj_eat (skip_byte 34 _ (by decide))
    (eats_of_eq (fun st => ⟨_, parseStd_weekDay (wk y m d) (wk_lt y m d) _ _ st⟩)) ?_
  exact rj_skip (skip_sp_head _ _ _ _ (headIn_cons 44 _) (by decide))

theorem rej_RFC822Z_RFC1123 {y m d h mi s ns : Nat} (_r : Rng y m d h mi s ns) (loc : Location) :
    parses loc RFC822Z
      (34 :: ((weekdayString (wk y m d)).take 3 ++ 44 :: 32 :: (d2 d ++ 32 ::
          ((monthString m).take 3 ++ 32 :: (d4 y ++ 32 :: (d2 h ++ 58 :: (d2 mi ++ 58 ::
          (d2 s ++ [32, 85, 84, 67, 34])))))))) = false := by
  apply parses_false_of_isErr
  rw [qchunks_RFC822Z]
  refine (?_ : ∀ st, IsErr (parseChunks loc _ _ _ _ st)) _
  exact rj_fail (skip_byte 34 _ (by decide))
    (fails_ZD_head _ _ _ _ (headIn_wd3 (wk y m d) (wk_lt y m d) _) (by decide))

theorem rej_RFC822_RFC1123 {y m d h mi s ns : Nat} (_r : Rng y m d h mi s ns) (loc : Location) :
    parses loc RFC822
      (34 :: ((weekdayString (wk y m d)).take 3 ++ 44 :: 32 :: (d2 d ++ 32 ::
          ((monthString m).take 3 ++ 32 :: (d4 y ++ 32 :: (d2 h ++ 58 :: (d2 mi ++ 58 ::
          (d2 s ++ [32, 85, 84, 67, 34])))))))) = false := by
  apply parses_false_of_isErr
  rw [qchunks_RFC822]
  refine (?_ : ∀ st, IsErr (parseChunks loc _ _ _ _ st)) _
  exact rj_fail (skip_byte 34 _ (by decide))
    (fails_ZD_head _ _ _ _ (headIn_wd3 (wk y m d) (wk_lt y m d) _) (by decide))

theorem rej_RFC850_RFC1123 {y m d h mi s ns : Nat} (_r : Rng y m d h mi s ns) (loc : Location) :
    parses loc RFC850
      (34 :: ((weekdayString (wk y m d)).take 3 ++ 44 :: 32 :: (d2 d ++ 32 ::
          ((monthString m).take 3 ++ 32 :: (d4 y ++ 32 :: (d2 h ++ 58 :: (d2 mi ++ 58 ::
          (d2 s ++ [32, 85, 84, 67, 34])))))))) = false := by
  apply parses_false_of_isErr
  rw [qchunks_RFC850]
  refine (?_ : ∀ st, IsErr (parseChunks loc _ _ _ _ st)) _
  exact rj_fail (skip_byte 34 _ (by decide))
    (fails_LWD_wd3 (wk y m d) (wk_lt y m d) 44 _ rfl _)

theorem rej_RFC1123Z_RFC1123 {y m d h mi s ns : Nat} (r : Rng y m d h mi s ns) (loc : Location) :
    parses loc RFC1123Z
      (34 :: ((weekdayString (wk y m d)).take 3 ++ 44 :: 32 :: (d2 d ++ 32 ::
          ((monthString m).take 3 ++ 32 :: (d4 y ++ 32 :: (d2 h ++ 58 :: (d2 mi ++ 58 ::
          (d2 s ++ [32, 85, 84, 67, 34])))))))) = false := by
  apply parses_false_of_isErr
  rw [qchunks_RFC1123Z]
  refine (?_ : ∀ st, IsErr (parseChunks loc _ _ _ _ st)) _
  refine rj_eat (skip_byte 34 _ (by decide))
    (eats_of_eq (fun st => ⟨_, parseStd_weekDay (wk y m d) (wk_lt y m d) _ _ st⟩)) ?_
  refine rj_eat (skip_comma_sp _ (headD_of_headIn (headIn_d2 (d) (by have := r.hd3; omega) _)
      (by decide)))
    (eats_ZD_d2 (d) (by have := r.hd3; omega) _ _) ?_
  refine rj_eat (skip_sp _ (headD_of_headIn (headIn_mon3 m r.hm1 r.hm2 _) (by decide)))
    (eats_of_eq (fun st => ⟨_, parseStd_month m r.hm1 r.hm2 _ _ st⟩)) ?_
  refine rj_eat (skip_sp _ (headD_of_headIn (headIn_d4 y r.hy _) (by decide)))
    (eats_of_eq (fun st => ⟨_, parseStd_longYear y r.hy _ _ st⟩)) ?_
  refine rj_eat (skip_sp _ (headD_of_headIn (headIn_d2 (h) (by have := r.hh; omega) _) (by decide)))
    (eats_H_d2 (h) (by have := r.hh; omega) _ _) ?_
  refine rj_eat (skip_byte 58 _ (by decide))
    (eats_MI_d2 (mi) (by have := r.hmi; omega) _ _) ?_
  refine rj_eat (skip_byte 58 _ (by decide))
    (eats_S_head (s) (by have := r.hs; omega) 32 _ rfl _) ?_
  exact rj_fail (skip_sp _ (headD_of_headIn (headIn_cons 85 _) (by decide)))
    (fails_NTZ_head _ _ _ _ (headIn_cons 85 _) (by decide))

theorem rejAll_RFC1123 {y m d h mi s ns : Nat} (r : Rng y m d h mi s ns) (loc : Location) :
    ∀ g ∈ [Layout, ANSIC, RubyDate, UnixDate, RFC822Z, RFC822, RFC850, RFC1123Z], parses loc g
      (34 :: ((weekdayString (wk y m d)).take 3 ++ 44 :: 32 :: (d2 d ++ 32 ::
          ((monthString m).take 3 ++ 32 :: (d4 y ++ 32 :: (d2 h ++ 58 :: (d2 mi ++ 58 ::
          (d2 s ++ [32, 85, 84, 67, 34])))))))) = false := by
  intro g hg
  simp only [List.mem_cons, List.mem_singleton, List.not_mem_nil, or_false] at hg
  rcases hg with rfl | rfl | rfl | rfl | rfl | rfl | rfl | rfl
  · exact rej_Layout_RFC1123 r loc
  · exact rej_ANSIC_RFC1123 r loc
  · exact rej_RubyDate_RFC1123 r loc
  · exact rej_UnixDate_RFC1123 r loc
  · exact rej_RFC822Z_RFC1123 r loc
  · exact rej_RFC822_RFC1123 r loc
  · exact rej_RFC850_RFC1123 r loc
  · exact rej_RFC1123Z_RFC1123 r loc

/-! ## The layouts before RFC3339 on its text -/

theorem rej_Layout_RFC3339 {y m d h mi s ns : Nat} (r : Rng y m d h mi s ns) (loc : Location) :
    parses loc Layout
      (34 :: (d4 y ++ 45 :: (d2 m ++ 45 :: (d2 d ++ 84 :: (d2 h ++ 58 :: (d2 mi ++ 58 ::
          (d2 s ++ [90, 34]))))))) = false := by
  apply parses_false_of_isErr
  rw [qchunks_Layout]
  rw [d4_split y r.hy, List.append_assoc]
  refine (?_ : ∀ st, IsErr (parseChunks loc _ _ _ _ st)) _
  refine rj_eat (skip_byte 34 _ (by decide))
    (eats_ZM_d2 (y / 100) (by have := r.hy; omega) _ _) ?_
  exact rj_skip (skip_ne_head _ 47 _ _ _ (by decide) (headIn_d2 (y % 100) (by omega) _) (by decide))

theorem rej_ANSIC_RFC3339 {y m d h mi s ns : Nat} (r : Rng y m d h mi s ns) (loc : Location) :
    parses loc ANSIC
      (34 :: (d4 y ++ 45 :: (d2 m ++ 45 :: (d2 d ++ 84 :: (d2 h ++ 58 :: (d2 mi ++ 58 ::
          (d2 s ++ [90, 34]))))))) = false := by
  apply parses_false_of_isErr
  rw [qchunks_ANSIC]
  refine (?_ : ∀ st, IsErr (parseChunks loc _ _ _ _ st)) _
  exact rj_fail (skip_byte 34 _ (by decide))
    (fails_WD_dig _ _ (headIn_d4 y r.hy _))

theorem rej_RubyDate_RFC3339 {y m d h mi s ns : Nat} (r : Rng y m d h mi s ns) (loc : Location) :
    parses loc RubyDate
      (34 :: (d4 y ++ 45 :: (d2 m ++ 45 :: (d2 d ++ 84 :: (d2 h ++ 58 :: (d2 mi ++ 58 ::
          (d2 s ++ [90, 34]))))))) = false := by
  apply parses_false_of_isErr
  rw [qchunks_RubyDate]
  refine (?_ : ∀ st, IsErr (parseChunks loc _ _ _ _ st)) _
  exact rj_fail (skip_byte 34 _ (by decide))
    (fails_WD_dig _ _ (headIn_d4 y r.hy _))

theorem rej_UnixDate_RFC3339 {y m d h mi s ns : Nat} (r : Rng y m d h mi s ns) (loc : Location) :
    parses loc UnixDate
      (34 :: (d4 y ++ 45 :: (d2 m ++ 45 :: (d2 d ++ 84 :: (d2 h ++ 58 :: (d2 mi ++ 58 ::
          (d2 s ++ [90, 34]))))))) = false := by
  apply parses_false_of_isErr
  rw [qchunks_UnixDate]
  refine (?_ : ∀ st, IsErr (parseChunks loc _ _ _ _ st)) _
  exact rj_fail (skip_byte 34 _ (by decide))
    (fails_WD_dig _ _ (headIn_d4 y r.hy _))

theorem rej_RFC822Z_RFC3339 {y m d h mi s ns : Nat} (r : Rng y m d h mi s ns) (loc : Location) :
    parses loc RFC822Z
      (34 :: (d4 y ++ 45 :: (d2 m ++ 45 :: (d2 d ++ 84 :: (d2 h ++ 58 :: (d2 mi ++ 58 ::
          (d2 s ++ [90, 34]))))))) = false := by
  apply parses_false_of_isErr
  rw [qchunks_RFC822Z]
  rw [d4_split y r.hy, List.append_assoc]
  refine (?_ : ∀ st, IsErr (parseChunks loc _ _ _ _ st)) _
  refine rj_eat (skip_byte 34 _ (by decide))
    (eats_ZD_d2 (y / 100) (by have := r.hy; omega) _ _) ?_
  exact rj_skip (skip_sp_head _ _ _ _ (headIn_d2 (y % 100) (by omega) _) (by decide))

theorem rej_RFC822_RFC3339 {y m d h mi s ns : Nat} (r : Rng y m d h mi s ns) (loc : Location) :
    parses loc RFC822
      (34 :: (d4 y ++ 45 :: (d2 m ++ 45 :: (d2 d ++ 84 :: (d2 h ++ 58 :: (d2 mi ++ 58 ::
          (d2 s ++ [90, 34]))))))) = false := by
  apply parses_false_of_isErr
  rw [qchunks_RFC822]
  rw [d4_split y r.hy, List.append_assoc]
  refine (?_ : ∀ st, IsErr (parseChunks loc _ _ _ _ st)) _
  refine rj_eat (skip_byte 34 _ (by decide))
    (eats_ZD_d2 (y / 100) (by have := r.hy; omega) _ _) ?_
  exact rj_skip (skip_sp_head _ _ _ _ (headIn_d2 (y % 100) (by omega) _) (by decide))

theorem rej_RFC850_RFC3339 {y m d h mi s ns : Nat} (r : Rng y m d h mi s ns) (loc : Location) :
    parses loc RFC850
      (34 :: (d4 y ++ 45 :: (d2 m ++ 45 :: (d2 d ++ 84 :: (d2 h ++ 58 :: (d2 mi ++ 58 ::
          (d2 s ++ [90, 34]))))))) = false := by
  apply parses_false_of_isErr
  rw [qchunks_RFC850]
  refine (?_ : ∀ st, IsErr (parseChunks loc _ _ _ _ st)) _
  exact rj_fail (skip_byte 34 _ (by decide))
    (fails_LWD_dig _ _ (headIn_d4 y r.hy _))

theorem rej_RFC1123Z_RFC3339 {y m d h mi s ns : Nat} (r : Rng y m d h mi s ns) (loc : Location) :
    parses loc RFC1123Z
      (34 :: (d4 y ++ 45 :: (d2 m ++ 45 :: (d2 d ++ 84 :: (d2 h ++ 58 :: (d2 mi ++ 58 ::
          (d2 s ++ [90, 34]))))))) = false := by
  apply parses_false_of_isErr
  rw [qchunks_RFC1123Z]
  refine (?_ : ∀ st, IsErr (parseChunks loc _ _ _ _ st)) _
  exact rj_fail (skip_byte 34 _ (by decide))
    (fails_WD_dig _ _ (headIn_d4 y r.hy _))

theorem rej_RFC1123_RFC3339 {y m d h mi s ns : Nat} (r : Rng y m d h mi s ns) (loc : Location) :
    parses loc RFC1123
      (34 :: (d4 y ++ 45 :: (d2 m ++ 45 :: (d2 d ++ 84 :: (d2 h ++ 58 :: (d2 mi ++ 58 ::
          (d2 s ++ [90, 34]))))))) = false := by
  apply parses_false_of_isErr
  rw [qchunks_RFC1123]
  refine (?_ : ∀ st, IsErr (parseChunks loc _ _ _ _ st)) _
  exact rj_fail (skip_byte 34 _ (by decide))
    (fails_WD_dig _ _ (headIn_d4 y r.hy _))

theorem rejAll_RFC3339 {y m d h mi s ns : Nat} (r : Rng y m d h mi s ns) (loc : Location) :
    ∀ g ∈ [Layout, ANSIC, RubyDate, UnixDate, RFC822Z, RFC822, RFC850, RFC1123Z, RFC1123], parses
        loc g
      (34 :: (d4 y ++ 45 :: (d2 m ++ 45 :: (d2 d ++ 84 :: (d2 h ++ 58 :: (d2 mi ++ 58 ::
          (d2 s ++ [90, 34]))))))) = false := by
  intro g hg
  simp only [List.mem_cons, List.mem_singleton, List.not_mem_nil, or_false] at hg
  rcases hg with rfl | rfl | rfl | rfl | rfl | rfl | rfl | rfl | rfl
  · exact rej_Layout_RFC3339 r loc
  · exact rej_ANSIC_RFC3339 r loc
  · exact rej_RubyDate_RFC3339 r loc
  · exact rej_UnixDate_RFC3339 r loc
  · exact rej_RFC822Z_RFC3339 r loc
  · exact rej_RFC822_RFC3339 r loc
  · exact rej_RFC850_RFC3339 r loc
  · exact rej_RFC1123Z_RFC3339 r loc
  · exact rej_RFC1123_RFC3339 r loc

/-! ## The layouts before RFC3339Nano on its text -/

theorem rej_Layout_RFC3339Nano {y m d h mi s ns : Nat} (r : Rng y m d h mi s ns) (loc : Location) :
    parses loc Layout
      (34 :: (d4 y ++ 45 :: (d2 m ++ 45 :: (d2 d ++ 84 :: (d2 h ++ 58 :: (d2 mi ++ 58 :: (d2 s ++
          (f9 ns ++ [90, 34])))))))) = false := by
  apply parses_false_of_isErr
  rw [qchunks_Layout]
  rw [d4_split y r.hy, List.append_assoc]
  refine (?_ : ∀ st, IsErr (parseChunks loc _ _ _ _ st)) _
  refine rj_eat (skip_byte 34 _ (by decide))
    (eats_ZM_d2 (y / 100) (by have := r.hy; omega) _ _) ?_
  exact rj_skip (skip_ne_head _ 47 _ _ _ (by decide) (headIn_d2 (y % 100) (by omega) _) (by decide))

theorem rej_ANSIC_RFC3339Nano {y m d h mi s ns : Nat} (r : Rng y m d h mi s ns) (loc : Location) :
    parses loc ANSIC
      (34 :: (d4 y ++ 45 :: (d2 m ++ 45 :: (d2 d ++ 84 :: (d2 h ++ 58 :: (d2 mi ++ 58 :: (d2 s ++
          (f9 ns ++ [90, 34])))))))) = false := by
  apply parses_false_of_isErr
  rw [qchunks_ANSIC]
  refine (?_ : ∀ st, IsErr (parseChunks loc _ _ _ _ st)) _
  exact rj_fail (skip_byte 34 _ (by decide))
    (fails_WD_dig _ _ (headIn_d4 y r.hy _))

theorem rej_RubyDate_RFC3339Nano {y m d h mi s ns : Nat} (r : Rng y m d h mi s ns)
    (loc : Location) :
    parses loc RubyDate
      (34 :: (d4 y ++ 45 :: (d2 m ++ 45 :: (d2 d ++ 84 :: (d2 h ++ 58 :: (d2 mi ++ 58 :: (d2 s ++
          (f9 ns ++ [90, 34])))))))) = false := by
  apply parses_false_of_isErr
  rw [qchunks_RubyDate]
  refine (?_ : ∀ st, IsErr (parseChunks loc _ _ _ _ st)) _
  exact rj_fail (skip_byte 34 _ (by decide))
    (fails_WD_dig _ _ (headIn_d4 y r.hy _))

theorem rej_UnixDate_RFC3339Nano {y m d h mi s ns : Nat} (r : Rng y m d h mi s ns)
    (loc : Location) :
    parses loc UnixDate
      (34 :: (d4 y ++ 45 :: (d2 m ++ 45 :: (d2 d ++ 84 :: (d2 h ++ 58 :: (d2 mi ++ 58 :: (d2 s ++
          (f9 ns ++ [90, 34])))))))) = false := by
  apply parses_false_of_isErr
  rw [qchunks_UnixDate]
  refine (?_ : ∀ st, IsErr (parseChunks loc _ _ _ _ st)) _
  exact rj_fail (skip_byte 34 _ (by decide))
    (fails_WD_dig _ _ (headIn_d4 y r.hy _))

theorem rej_RFC822Z_RFC3339Nano {y m d h mi s ns : Nat} (r : Rng y m d h mi s ns) (loc : Location) :
    parses loc RFC822Z
      (34 :: (d4 y ++ 45 :: (d2 m ++ 45 :: (d2 d ++ 84 :: (d2 h ++ 58 :: (d2 mi ++ 58 :: (d2 s ++
          (f9 ns ++ [90, 34])))))))) = false := by
  apply parses_false_of_isErr
  rw [qchunks_RFC822Z]
  rw [d4_split y r.hy, List.append_assoc]
  refine (?_ : ∀ st, IsErr (parseChunks loc _ _ _ _ st)) _
  refine rj_eat (skip_byte 34 _ (by decide))
    (eats_ZD_d2 (y / 100) (by have := r.hy; omega) _ _) ?_
  exact rj_skip (skip_sp_head _ _ _ _ (headIn_d2 (y % 100) (by omega) _) (by decide))

theorem rej_RFC822_RFC3339Nano {y m d h mi s ns : Nat} (r : Rng y m d h mi s ns) (loc : Location) :
    parses loc RFC822
      (34 :: (d4 y ++ 45 :: (d2 m ++ 45 :: (d2 d ++ 84 :: (d2 h ++ 58 :: (d2 mi ++ 58 :: (d2 s ++
          (f9 ns ++ [90, 34])))))))) = false := by
  apply parses_false_of_isErr
  rw [qchunks_RFC822]
  rw [d4_split y r.hy, List.append_assoc]
  refine (?_ : ∀ st, IsErr (parseChunks loc _ _ _ _ st)) _
  refine rj_eat (skip_byte 34 _ (by decide))
    (eats_ZD_d2 (y / 100) (by have := r.hy; omega) _ _) ?_
  exact rj_skip (skip_sp_head _ _ _ _ (headIn_d2 (y % 100) (by omega) _) (by decide))

theorem rej_RFC850_RFC3339Nano {y m d h mi s ns : Nat} (r : Rng y m d h mi s ns) (loc : Location) :
    parses loc RFC850
      (34 :: (d4 y ++ 45 :: (d2 m ++ 45 :: (d2 d ++ 84 :: (d2 h ++ 58 :: (d2 mi ++ 58 :: (d2 s ++
          (f9 ns ++ [90, 34])))))))) = false := by
  apply parses_false_of_isErr
  rw [qchunks_RFC850]
  refine (?_ : ∀ st, IsErr (parseChunks loc _ _ _ _ st)) _
  exact rj_fail (skip_byte 34 _ (by decide))
    (fails_LWD_dig _ _ (headIn_d4 y r.hy _))

theorem rej_RFC1123Z_RFC3339Nano {y m d h mi s ns : Nat} (r : Rng y m d h mi s ns)
    (loc : Location) :
    parses loc RFC1123Z
      (34 :: (d4 y ++ 45 :: (d2 m ++ 45 :: (d2 d ++ 84 :: (d2 h ++ 58 :: (d2 mi ++ 58 :: (d2 s ++
          (f9 ns ++ [90, 34])))))))) = false := by
  apply parses_false_of_isErr
  rw [qchunks_RFC1123Z]
  refine (?_ : ∀ st, IsErr (parseChunks loc _ _ _ _ st)) _
  exact rj_fail (skip_byte 34 _ (by decide))
    (fails_WD_dig _ _ (headIn_d4 y r.hy _))

theorem rej_RFC1123_RFC3339Nano {y m d h mi s ns : Nat} (r : Rng y m d h mi s ns) (loc : Location) :
    parses loc RFC1123
      (34 :: (d4 y ++ 45 :: (d2 m ++ 45 :: (d2 d ++ 84 :: (d2 h ++ 58 :: (d2 mi ++ 58 :: (d2 s ++
          (f9 ns ++ [90, 34])))))))) = false := by
  apply parses_false_of_isErr
  rw [qchunks_RFC1123]
  refine (?_ : ∀ st, IsErr (parseChunks loc _ _ _ _ st)) _
  exact rj_fail (skip_byte 34 _ (by decide))
    (fails_WD_dig _ _ (headIn_d4 y r.hy _))

theorem rejAll_RFC3339Nano {y m d h mi s ns : Nat} (r : Rng y m d h mi s ns) (loc : Location) :
    ∀ g ∈ [Layout, ANSIC, RubyDate, UnixDate, RFC822Z, RFC822, RFC850, RFC1123Z, RFC1123], parses
        loc g
      (34 :: (d4 y ++ 45 :: (d2 m ++ 45 :: (d2 d ++ 84 :: (d2 h ++ 58 :: (d2 mi ++ 58 :: (d2 s ++
          (f9 ns ++ [90, 34])))))))) = false := by
  intro g hg
  simp only [List.mem_cons, List.mem_singleton, List.not_mem_nil, or_false] at hg
  rcases hg with rfl | rfl | rfl | rfl | rfl | rfl | rfl | rfl | rfl
  · exact rej_Layout_RFC3339Nano r loc
  · exact rej_ANSIC_RFC3339Nano r loc
  · exact rej_RubyDate_RFC3339Nano r loc
  · exact rej_UnixDate_RFC3339Nano r loc
  · exact rej_RFC822Z_RFC3339Nano r loc
  · exact rej_RFC822_RFC3339Nano r loc
  · exact rej_RFC850_RFC3339Nano r loc
  · exact rej_RFC1123Z_RFC3339Nano r loc
  · exact rej_RFC1123_RFC3339Nano r loc

/-! ## The layouts before Kitchen on its text -/

theorem rej_Layout_Kitchen {y m d h mi s ns : Nat} (_r : Rng y m d h mi s ns) (loc : Location) :
    parses loc Layout
      (34 :: (nd (h12 h) ++ 58 :: (d2 mi ++ (ampm h ++ [34])))) = false := by
  apply parses_false_of_isErr
  rw [qchunks_Layout]
  refine (?_ : ∀ st, IsErr (parseChunks loc _ _ _ _ st)) _
  refine rj_eat (skip_byte 34 _ (by decide))
    (eats_ZM_nd (h12 h) (by have := h12_le h; omega) 58 _ rfl _) ?_
  exact rj_skip (skip_ne_head _ 47 _ _ _ (by decide) (headIn_cons 58 _) (by decide))

theorem rej_ANSIC_Kitchen {y m d h mi s ns : Nat} (_r : Rng y m d h mi s ns) (loc : Location) :
    parses loc ANSIC
      (34 :: (nd (h12 h) ++ 58 :: (d2 mi ++ (ampm h ++ [34])))) = false := by
  apply parses_false_of_isErr
  rw [qchunks_ANSIC]
  refine (?_ : ∀ st, IsErr (parseChunks loc _ _ _ _ st)) _
  exact rj_fail (skip_byte 34 _ (by decide))
    (fails_WD_dig _ _ (headIn_nd (h12 h) (by have := h12_le h; omega) _))

theorem rej_RubyDate_Kitchen {y m d h mi s ns : Nat} (_r : Rng y m d h mi s ns) (loc : Location) :
    parses loc RubyDate
      (34 :: (nd (h12 h) ++ 58 :: (d2 mi ++ (ampm h ++ [34])))) = false := by
  apply parses_false_of_isErr
  rw [qchunks_RubyDate]
  refine (?_ : ∀ st, IsErr (parseChunks loc _ _ _ _ st)) _
  exact rj_fail (skip_byte 34 _ (by decide))
    (fails_WD_dig _ _ (headIn_nd (h12 h) (by have := h12_le h; omega) _))

theorem rej_UnixDate_Kitchen {y m d h mi s ns : Nat} (_r : Rng y m d h mi s ns) (loc : Location) :
    parses loc UnixDate
      (34 :: (nd (h12 h) ++ 58 :: (d2 mi ++ (ampm h ++ [34])))) = false := by
  apply parses_false_of_isErr
  rw [qchunks_UnixDate]
  refine (?_ : ∀ st, IsErr (parseChunks loc _ _ _ _ st)) _
  exact rj_fail (skip_byte 34 _ (by decide))
    (fails_WD_dig _ _ (headIn_nd (h12 h) (by have := h12_le h; omega) _))

theorem rej_RFC822Z_Kitchen {y m d h mi s ns : Nat} (_r : Rng y m d h mi s ns) (loc : Location) :
    parses loc RFC822Z
      (34 :: (nd (h12 h) ++ 58 :: (d2 mi ++ (ampm h ++ [34])))) = false := by
  apply parses_false_of_isErr
  rw [qchunks_RFC822Z]
  refine (?_ : ∀ st, IsErr (parseChunks loc _ _ _ _ st)) _
  refine rj_eat (skip_byte 34 _ (by decide))
    (eats_ZD_nd (h12 h) (by have := h12_le h; omega) 58 _ rfl _) ?_
  exact rj_skip (skip_sp_head _ _ _ _ (headIn_cons 58 _) (by decide))

theorem rej_RFC822_Kitchen {y m d h mi s ns : Nat} (_r : Rng y m d h mi s ns) (loc : Location) :
    parses loc RFC822
      (34 :: (nd (h12 h) ++ 58 :: (d2 mi ++ (ampm h ++ [34])))) = false := by
  apply parses_false_of_isErr
  rw [qchunks_RFC822]
  refine (?_ : ∀ st, IsErr (parseChunks loc _ _ _ _ st)) _
  refine rj_eat (skip_byte 34 _ (by decide))
    (eats_ZD_nd (h12 h) (by have := h12_le h; omega) 58 _ rfl _) ?_
  exact rj_skip (skip_sp_head _ _ _ _ (headIn_cons 58 _) (by decide))

theorem rej_RFC850_Kitchen {y m d h mi s ns : Nat} (_r : Rng y m d h mi s ns) (loc : Location) :
    parses loc RFC850
      (34 :: (nd (h12 h) ++ 58 :: (d2 mi ++ (ampm h ++ [34])))) = false := by
  apply parses_false_of_isErr
  rw [qchunks_RFC850]
  refine (?_ : ∀ st, IsErr (parseChunks loc _ _ _ _ st)) _
  exact rj_fail (skip_byte 34 _ (by decide))
    (fails_LWD_dig _ _ (headIn_nd (h12 h) (by have := h12_le h; omega) _))

theorem rej_RFC1123Z_Kitchen {y m d h mi s ns : Nat} (_r : Rng y m d h mi s ns) (loc : Location) :
    parses loc RFC1123Z
      (34 :: (nd (h12 h) ++ 58 :: (d2 mi ++ (ampm h ++ [34])))) = false := by
  apply parses_false_of_isErr
  rw [qchunks_RFC1123Z]
  refine (?_ : ∀ st, IsErr (parseChunks loc _ _ _ _ st)) _
  exact rj_fail (skip_byte 34 _ (by decide))
    (fails_WD_dig _ _ (headIn_nd (h12 h) (by have := h12_le h; omega) _))

theorem rej_RFC1123_Kitchen {y m d h mi s ns : Nat} (_r : Rng y m d h mi s ns) (loc : Location) :
    parses loc RFC1123
      (34 :: (nd (h12 h) ++ 58 :: (d2 mi ++ (ampm h ++ [34])))) = false := by
  apply parses_false_of_isErr
  rw [qchunks_RFC1123]
  refine (?_ : ∀ st, IsErr (parseChunks loc _ _ _ _ st)) _
  exact rj_fail (skip_byte 34 _ (by decide))
    (fails_WD_dig _ _ (headIn_nd (h12 h) (by have := h12_le h; omega) _))

theorem rej_RFC3339_Kitchen {y m d h mi s ns : Nat} (_r : Rng y m d h mi s ns) (loc : Location) :
    parses loc RFC3339
      (34 :: (nd (h12 h) ++ 58 :: (d2 mi ++ (ampm h ++ [34])))) = false := by
  apply parses_false_of_isErr
  rw [qchunks_RFC3339]
  refine (?_ : ∀ st, IsErr (parseChunks loc _ _ _ _ st)) _
  exact rj_fail (skip_byte 34 _ (by decide))
    (fails_LY_nd (h12 h) (by have := h12_le h; omega) 58 _ rfl _)

theorem rej_RFC3339Nano_Kitchen {y m d h mi s ns : Nat} (_r : Rng y m d h mi s ns)
    (loc : Location) :
    parses loc RFC3339Nano
      (34 :: (nd (h12 h) ++ 58 :: (d2 mi ++ (ampm h ++ [34])))) = false := by
  apply parses_false_of_isErr
  rw [qchunks_RFC3339Nano]
  refine (?_ : ∀ st, IsErr (parseChunks loc _ _ _ _ st)) _
  exact rj_fail (skip_byte 34 _ (by decide))
    (fails_LY_nd (h12 h) (by have := h12_le h; omega) 58 _ rfl _)

theorem rejAll_Kitchen {y m d h mi s ns : Nat} (r : Rng y m d h mi s ns) (loc : Location) :
    ∀ g ∈ [Layout, ANSIC, RubyDate, UnixDate, RFC822Z, RFC822, RFC850, RFC1123Z, RFC1123, RFC3339,
        RFC3339Nano], parses loc g
      (34 :: (nd (h12 h) ++ 58 :: (d2 mi ++ (ampm h ++ [34])))) = false := by
  intro g hg
  simp only [List.mem_cons, List.mem_singleton, List.not_mem_nil, or_false] at hg
  rcases hg with rfl | rfl | rfl | rfl | rfl | rfl | rfl | rfl | rfl | rfl | rfl
  · exact rej_Layout_Kitchen r loc
  · exact rej_ANSIC_Kitchen r loc
  · exact rej_RubyDate_Kitchen r loc
  · exact rej_UnixDate_Kitchen r loc
  · exact rej_RFC822Z_Kitchen r loc
  · exact rej_RFC822_Kitchen r loc
  · exact rej_RFC850_Kitchen r loc
  · exact rej_RFC1123Z_Kitchen r loc
  · exact rej_RFC1123_Kitchen r loc
  · exact rej_RFC3339_Kitchen r loc
  · exact rej_RFC3339Nano_Kitchen r loc

/-! ## The layouts before StampNano on its text -/

theorem rej_Layout_StampNano {y m d h mi s ns : Nat} (r : Rng y m d h mi s ns) (loc : Location) :
    parses loc Layout
      (34 :: ((monthString m).take 3 ++ 32 :: (ud d ++ 32 :: (d2 h ++ 58 :: (d2 mi ++ 58 :: (d2 s ++
          (frac0 9 ns ++ [34]))))))) = false := by
  apply parses_false_of_isErr
  rw [qchunks_Layout]
  refine (?_ : ∀ st, IsErr (parseChunks loc _ _ _ _ st)) _
  exact rj_fail (skip_byte 34 _ (by decide))
    (fails_ZM_head _ _ _ _ (headIn_mon3 m r.hm1 r.hm2 _) (by decide))

theorem rej_ANSIC_StampNano {y m d h mi s ns : Nat} (r : Rng y m d h mi s ns) (loc : Location) :
    parses loc ANSIC
      (34 :: ((monthString m).take 3 ++ 32 :: (ud d ++ 32 :: (d2 h ++ 58 :: (d2 mi ++ 58 :: (d2 s ++
          (frac0 9 ns ++ [34]))))))) = false := by
  apply parses_false_of_isErr
  rw [qchunks_ANSIC]
  refine (?_ : ∀ st, IsErr (parseChunks loc _ _ _ _ st)) _
  exact rj_fail (skip_byte 34 _ (by decide))
    (fails_WD_mon3 m r.hm1 r.hm2 _ _)

theorem rej_RubyDate_StampNano {y m d h mi s ns : Nat} (r : Rng y m d h mi s ns) (loc : Location) :
    parses loc RubyDate
      (34 :: ((monthString m).take 3 ++ 32 :: (ud d ++ 32 :: (d2 h ++ 58 :: (d2 mi ++ 58 :: (d2 s ++
          (frac0 9 ns ++ [34]))))))) = false := by
  apply parses_false_of_isErr
  rw [qchunks_RubyDate]
  refine (?_ : ∀ st, IsErr (parseChunks loc _ _ _ _ st)) _
  exact rj_fail (skip_byte 34 _ (by decide))
    (fails_WD_mon3 m r.hm1 r.hm2 _ _)

theorem rej_UnixDate_StampNano {y m d h mi s ns : Nat} (r : Rng y m d h mi s ns) (loc : Location) :
    parses loc UnixDate
      (34 :: ((monthString m).take 3 ++ 32 :: (ud d ++ 32 :: (d2 h ++ 58 :: (d2 mi ++ 58 :: (d2 s ++
          (frac0 9 ns ++ [34]))))))) = false := by
  apply parses_false_of_isErr
  rw [qchunks_UnixDate]
  refine (?_ : ∀ st, IsErr (parseChunks loc _ _ _ _ st)) _
  exact rj_fail (skip_byte 34 _ (by decide))
    (fails_WD_mon3 m r.hm1 r.hm2 _ _)

theorem rej_RFC822Z_StampNano {y m d h mi s ns : Nat} (r : Rng y m d h mi s ns) (loc : Location) :
    parses loc RFC822Z
      (34 :: ((monthString m).take 3 ++ 32 :: (ud d ++ 32 :: (d2 h ++ 58 :: (d2 mi ++ 58 :: (d2 s ++
          (frac0 9 ns ++ [34]))))))) = false := by
  apply parses_false_of_isErr
  rw [qchunks_RFC822Z]
  refine (?_ : ∀ st, IsErr (parseChunks loc _ _ _ _ st)) _
  exact rj_fail (skip_byte 34 _ (by decide))
    (fails_ZD_head _ _ _ _ (headIn_mon3 m r.hm1 r.hm2 _) (by decide))

theorem rej_RFC822_StampNano {y m d h mi s ns : Nat} (r : Rng y m d h mi s ns) (loc : Location) :
    parses loc RFC822
      (34 :: ((monthString m).take 3 ++ 32 :: (ud d ++ 32 :: (d2 h ++ 58 :: (d2 mi ++ 58 :: (d2 s ++
          (frac0 9 ns ++ [34]))))))) = false := by
  apply parses_false_of_isErr
  rw [qchunks_RFC822]
  refine (?_ : ∀ st, IsErr (parseChunks loc _ _ _ _ st)) _
  exact rj_fail (skip_byte 34 _ (by decide))
    (fails_ZD_head _ _ _ _ (headIn_mon3 m r.hm1 r.hm2 _) (by decide))

theorem rej_RFC850_StampNano {y m d h mi s ns : Nat} (r : Rng y m d h mi s ns) (loc : Location) :
    parses loc RFC850
      (34 :: ((monthString m).take 3 ++ 32 :: (ud d ++ 32 :: (d2 h ++ 58 :: (d2 mi ++ 58 :: (d2 s ++
          (frac0 9 ns ++ [34]))))))) = false := by
  apply parses_false_of_isErr
  rw [qchunks_RFC850]
  refine (?_ : ∀ st, IsErr (parseChunks loc _ _ _ _ st)) _
  exact rj_fail (skip_byte 34 _ (by decide))
    (fails_LWD_mon3 m r.hm1 r.hm2 _ _)

theorem rej_RFC1123Z_StampNano {y m d h mi s ns : Nat} (r : Rng y m d h mi s ns) (loc : Location) :
    parses loc RFC1123Z
      (34 :: ((monthString m).take 3 ++ 32 :: (ud d ++ 32 :: (d2 h ++ 58 :: (d2 mi ++ 58 :: (d2 s ++
          (frac0 9 ns ++ [34]))))))) = false := by
  apply parses_false_of_isErr
  rw [qchunks_RFC1123Z]
  refine (?_ : ∀ st, IsErr (parseChunks loc _ _ _ _ st)) _
  exact rj_fail (skip_byte 34 _ (by decide))
    (fails_WD_mon3 m r.hm1 r.hm2 _ _)

theorem rej_RFC1123_StampNano {y m d h mi s ns : Nat} (r : Rng y m d h mi s ns) (loc : Location) :
    parses loc RFC1123
      (34 :: ((monthString m).take 3 ++ 32 :: (ud d ++ 32 :: (d2 h ++ 58 :: (d2 mi ++ 58 :: (d2 s ++
          (frac0 9 ns ++ [34]))))))) = false := by
  apply parses_false_of_isErr
  rw [qchunks_RFC1123]
  refine (?_ : ∀ st, IsErr (parseChunks loc _ _ _ _ st)) _
  exact rj_fail (skip_byte 34 _ (by decide))
    (fails_WD_mon3 m r.hm1 r.hm2 _ _)

theorem rej_RFC3339_StampNano {y m d h mi s ns : Nat} (r : Rng y m d h mi s ns) (loc : Location) :
    parses loc RFC3339
      (34 :: ((monthString m).take 3 ++ 32 :: (ud d ++ 32 :: (d2 h ++ 58 :: (d2 mi ++ 58 :: (d2 s ++
          (frac0 9 ns ++ [34]))))))) = false := by
  apply parses_false_of_isErr
  rw [qchunks_RFC3339]
  refine (?_ : ∀ st, IsErr (parseChunks loc _ _ _ _ st)) _
  exact rj_fail (skip_byte 34 _ (by decide))
    (fails_LY_head _ _ _ _ (headIn_mon3 m r.hm1 r.hm2 _) (by decide))

theorem rej_RFC3339Nano_StampNano {y m d h mi s ns : Nat} (r : Rng y m d h mi s ns)
    (loc : Location) :
    parses loc RFC3339Nano
      (34 :: ((monthString m).take 3 ++ 32 :: (ud d ++ 32 :: (d2 h ++ 58 :: (d2 mi ++ 58 :: (d2 s ++
          (frac0 9 ns ++ [34]))))))) = false := by
  apply parses_false_of_isErr
  rw [qchunks_RFC3339Nano]
  refine (?_ : ∀ st, IsErr (parseChunks loc _ _ _ _ st)) _
  exact rj_fail (skip_byte 34 _ (by decide))
    (fails_LY_head _ _ _ _ (headIn_mon3 m r.hm1 r.hm2 _) (by decide))

theorem rej_Kitchen_StampNano {y m d h mi s ns : Nat} (r : Rng y m d h mi s ns) (loc : Location) :
    parses loc Kitchen
      (34 :: ((monthString m).take 3 ++ 32 :: (ud d ++ 32 :: (d2 h ++ 58 :: (d2 mi ++ 58 :: (d2 s ++
          (frac0 9 ns ++ [34]))))))) = false := by
  apply parses_false_of_isErr
  rw [qchunks_Kitchen]
  refine (?_ : ∀ st, IsErr (parseChunks loc _ _ _ _ st)) _
  exact rj_fail (skip_byte 34 _ (by decide))
    (fails_H12_head _ _ _ _ (headIn_mon3 m r.hm1 r.hm2 _) (by decide))

theorem rejAll_StampNano {y m d h mi s ns : Nat} (r : Rng y m d h mi s ns) (loc : Location) :
    ∀ g ∈ [Layout, ANSIC, RubyDate, UnixDate, RFC822Z, RFC822, RFC850, RFC1123Z, RFC1123, RFC3339,
        RFC3339Nano, Kitchen], parses loc g
      (34 :: ((monthString m).take 3 ++ 32 :: (ud d ++ 32 :: (d2 h ++ 58 :: (d2 mi ++ 58 :: (d2 s ++
          (frac0 9 ns ++ [34]))))))) = false := by
  intro g hg
  simp only [List.mem_cons, List.mem_singleton, List.not_mem_nil, or_false] at hg
  rcases hg with rfl | rfl | rfl | rfl | rfl | rfl | rfl | rfl | rfl | rfl | rfl | rfl
  · exact rej_Layout_StampNano r loc
  · exact rej_ANSIC_StampNano r loc
  · exact rej_RubyDate_StampNano r loc
  · exact rej_UnixDate_StampNano r loc
  · exact rej_RFC822Z_StampNano r loc
  · exact rej_RFC822_StampNano r loc
  · exact rej_RFC850_StampNano r loc
  · exact rej_RFC1123Z_StampNano r loc
  · exact rej_RFC1123_StampNano r loc
  · exact rej_RFC3339_StampNano r loc
  · exact rej_RFC3339Nano_StampNano r loc
  · exact rej_Kitchen_StampNano r loc

/-! ## The layouts before StampMicro on its text -/

theorem rej_Layout_StampMicro {y m d h mi s ns : Nat} (r : Rng y m d h mi s ns) (loc : Location) :
    parses loc Layout
      (34 :: ((monthString m).take 3 ++ 32 :: (ud d ++ 32 :: (d2 h ++ 58 :: (d2 mi ++ 58 :: (d2 s ++
          (frac0 6 ns ++ [34]))))))) = false := by
  apply parses_false_of_isErr
  rw [qchunks_Layout]
  refine (?_ : ∀ st, IsErr (parseChunks loc _ _ _ _ st)) _
  exact rj_fail (skip_byte 34 _ (by decide))
    (fails_ZM_head _ _ _ _ (headIn_mon3 m r.hm1 r.hm2 _) (by decide))

theorem rej_ANSIC_StampMicro {y m d h mi s ns : Nat} (r : Rng y m d h mi s ns) (loc : Location) :
    parses loc ANSIC
      (34 :: ((monthString m).take 3 ++ 32 :: (ud d ++ 32 :: (d2 h ++ 58 :: (d2 mi ++ 58 :: (d2 s ++
          (frac0 6 ns ++ [34]))))))) = false := by
  apply parses_false_of_isErr
  rw [qchunks_ANSIC]
  refine (?_ : ∀ st, IsErr (parseChunks loc _ _ _ _ st)) _
  exact rj_fail (skip_byte 34 _ (by decide))
    (fails_WD_mon3 m r.hm1 r.hm2 _ _)

theorem rej_RubyDate_StampMicro {y m d h mi s ns : Nat} (r : Rng y m d h mi s ns) (loc : Location) :
    parses loc RubyDate
      (34 :: ((monthString m).take 3 ++ 32 :: (ud d ++ 32 :: (d2 h ++ 58 :: (d2 mi ++ 58 :: (d2 s ++
          (frac0 6 ns ++ [34]))))))) = false := by
  apply parses_false_of_isErr
  rw [qchunks_RubyDate]
  refine (?_ : ∀ st, IsErr (parseChunks loc _ _ _ _ st)) _
  exact rj_fail (skip_byte 34 _ (by decide))
    (fails_WD_mon3 m r.hm1 r.hm2 _ _)

theorem rej_UnixDate_StampMicro {y m d h mi s ns : Nat} (r : Rng y m d h mi s ns) (loc : Location) :
    parses loc UnixDate
      (34 :: ((monthString m).take 3 ++ 32 :: (ud d ++ 32 :: (d2 h ++ 58 :: (d2 mi ++ 58 :: (d2 s ++
          (frac0 6 ns ++ [34]))))))) = false := by
  apply parses_false_of_isErr
  rw [qchunks_UnixDate]
  refine (?_ : ∀ st, IsErr (parseChunks loc _ _ _ _ st)) _
  exact rj_fail (skip_byte 34 _ (by decide))
    (fails_WD_mon3 m r.hm1 r.hm2 _ _)

theorem rej_RFC822Z_StampMicro {y m d h mi s ns : Nat} (r : Rng y m d h mi s ns) (loc : Location) :
    parses loc RFC822Z
      (34 :: ((monthString m).take 3 ++ 32 :: (ud d ++ 32 :: (d2 h ++ 58 :: (d2 mi ++ 58 :: (d2 s ++
          (frac0 6 ns ++ [34]))))))) = false := by
  apply parses_false_of_isErr
  rw [qchunks_RFC822Z]
  refine (?_ : ∀ st, IsErr (parseChunks loc _ _ _ _ st)) _
  exact rj_fail (skip_byte 34 _ (by decide))
    (fails_ZD_head _ _ _ _ (headIn_mon3 m r.hm1 r.hm2 _) (by decide))

theorem rej_RFC822_StampMicro {y m d h mi s ns : Nat} (r : Rng y m d h mi s ns) (loc : Location) :
    parses loc RFC822
      (34 :: ((monthString m).take 3 ++ 32 :: (ud d ++ 32 :: (d2 h ++ 58 :: (d2 mi ++ 58 :: (d2 s ++
          (frac0 6 ns ++ [34]))))))) = false := by
  apply parses_false_of_isErr
  rw [qchunks_RFC822]
  refine (?_ : ∀ st, IsErr (parseChunks loc _ _ _ _ st)) _
  exact rj_fail (skip_byte 34 _ (by decide))
    (fails_ZD_head _ _ _ _ (headIn_mon3 m r.hm1 r.hm2 _) (by decide))

theorem rej_RFC850_StampMicro {y m d h mi s ns : Nat} (r : Rng y m d h mi s ns) (loc : Location) :
    parses loc RFC850
      (34 :: ((monthString m).take 3 ++ 32 :: (ud d ++ 32 :: (d2 h ++ 58 :: (d2 mi ++ 58 :: (d2 s ++
          (frac0 6 ns ++ [34]))))))) = false := by
  apply parses_false_of_isErr
  rw [qchunks_RFC850]
  refine (?_ : ∀ st, IsErr (parseChunks loc _ _ _ _ st)) _
  exact rj_fail (skip_byte 34 _ (by decide))
    (fails_LWD_mon3 m r.hm1 r.hm2 _ _)

theorem rej_RFC1123Z_StampMicro {y m d h mi s ns : Nat} (r : Rng y m d h mi s ns) (loc : Location) :
    parses loc RFC1123Z
      (34 :: ((monthString m).take 3 ++ 32 :: (ud d ++ 32 :: (d2 h ++ 58 :: (d2 mi ++ 58 :: (d2 s ++
          (frac0 6 ns ++ [34]))))))) = false := by
  apply parses_false_of_isErr
  rw [qchunks_RFC1123Z]
  refine (?_ : ∀ st, IsErr (parseChunks loc _ _ _ _ st)) _
  exact rj_fail (skip_byte 34 _ (by decide))
    (fails_WD_mon3 m r.hm1 r.hm2 _ _)

theorem rej_RFC1123_StampMicro {y m d h mi s ns : Nat} (r : Rng y m d h mi s ns) (loc : Location) :
    parses loc RFC1123
      (34 :: ((monthString m).take 3 ++ 32 :: (ud d ++ 32 :: (d2 h ++ 58 :: (d2 mi ++ 58 :: (d2 s ++
          (frac0 6 ns ++ [34]))))))) = false := by
  apply parses_false_of_isErr
  rw [qchunks_RFC1123]
  refine (?_ : ∀ st, IsErr (parseChunks loc _ _ _ _ st)) _
  exact rj_fail (skip_byte 34 _ (by decide))
    (fails_WD_mon3 m r.hm1 r.hm2 _ _)

theorem rej_RFC3339_StampMicro {y m d h mi s ns : Nat} (r : Rng y m d h mi s ns) (loc : Location) :
    parses loc RFC3339
      (34 :: ((monthString m).take 3 ++ 32 :: (ud d ++ 32 :: (d2 h ++ 58 :: (d2 mi ++ 58 :: (d2 s ++
          (frac0 6 ns ++ [34]))))))) = false := by
  apply parses_false_of_isErr
  rw [qchunks_RFC3339]
  refine (?_ : ∀ st, IsErr (parseChunks loc _ _ _ _ st)) _
  exact rj_fail (skip_byte 34 _ (by decide))
    (fails_LY_head _ _ _ _ (headIn_mon3 m r.hm1 r.hm2 _) (by decide))

theorem rej_RFC3339Nano_StampMicro {y m d h mi s ns : Nat} (r : Rng y m d h mi s ns)
    (loc : Location) :
    parses loc RFC3339Nano
      (34 :: ((monthString m).take 3 ++ 32 :: (ud d ++ 32 :: (d2 h ++ 58 :: (d2 mi ++ 58 :: (d2 s ++
          (frac0 6 ns ++ [34]))))))) = false := by
  apply parses_false_of_isErr
  rw [qchunks_RFC3339Nano]
  refine (?_ : ∀ st, IsErr (parseChunks loc _ _ _ _ st)) _
  exact rj_fail (skip_byte 34 _ (by decide))
    (fails_LY_head _ _ _ _ (headIn_mon3 m r.hm1 r.hm2 _) (by decide))

theorem rej_Kitchen_StampMicro {y m d h mi s ns : Nat} (r : Rng y m d h mi s ns) (loc : Location) :
    parses loc Kitchen
      (34 :: ((monthString m).take 3 ++ 32 :: (ud d ++ 32 :: (d2 h ++ 58 :: (d2 mi ++ 58 :: (d2 s ++
          (frac0 6 ns ++ [34]))))))) = false := by
  apply parses_false_of_isErr
  rw [qchunks_Kitchen]
  refine (?_ : ∀ st, IsErr (parseChunks loc _ _ _ _ st)) _
  exact rj_fail (skip_byte 34 _ (by decide))
    (fails_H12_head _ _ _ _ (headIn_mon3 m r.hm1 r.hm2 _) (by decide))

theorem rej_StampNano_StampMicro {y m d h mi s ns : Nat} (r : Rng y m d h mi s ns)
    (loc : Location) :
    parses loc StampNano
      (34 :: ((monthString m).take 3 ++ 32 :: (ud d ++ 32 :: (d2 h ++ 58 :: (d2 mi ++ 58 :: (d2 s ++
          (frac0 6 ns ++ [34]))))))) = false := by
  apply parses_false_of_isErr
  rw [qchunks_StampNano]
  refine (?_ : ∀ st, IsErr (parseChunks loc _ _ _ _ st)) _
  refine rj_eat (skip_byte 34 _ (by decide))
    (eats_of_eq (fun st => ⟨_, parseStd_month m r.hm1 r.hm2 _ _ st⟩)) ?_
  refine rj_eat (skip_sp_ud d (by have := r.hd3; omega) _)
    (eats_UD_nd (d) (by have := r.hd3; omega) 32 _ rfl _) ?_
  refine rj_eat (skip_sp _ (headD_of_headIn (headIn_d2 (h) (by have := r.hh; omega) _) (by decide)))
    (eats_H_d2 (h) (by have := r.hh; omega) _ _) ?_
  refine rj_eat (skip_byte 58 _ (by decide))
    (eats_MI_d2 (mi) (by have := r.hmi; omega) _ _) ?_
  refine rj_eat (skip_byte 58 _ (by decide))
    (eats_S_frac0 (s) (by have := r.hs; omega) _ _ _) ?_
  exact rj_fail (skip_nil _)
    (fails_F0_short 9 6 ns (by decide) _)

theorem rejAll_StampMicro {y m d h mi s ns : Nat} (r : Rng y m d h mi s ns) (loc : Location) :
    ∀ g ∈ [Layout, ANSIC, RubyDate, UnixDate, RFC822Z, RFC822, RFC850, RFC1123Z, RFC1123, RFC3339,
        RFC3339Nano, Kitchen, StampNano], parses loc g
      (34 :: ((monthString m).take 3 ++ 32 :: (ud d ++ 32 :: (d2 h ++ 58 :: (d2 mi ++ 58 :: (d2 s ++
          (frac0 6 ns ++ [34]))))))) = false := by
  intro g hg
  simp only [List.mem_cons, List.mem_singleton, List.not_mem_nil, or_false] at hg
  rcases hg with rfl | rfl | rfl | rfl | rfl | rfl | rfl | rfl | rfl | rfl | rfl | rfl | rfl
  · exact rej_Layout_StampMicro r loc
  · exact rej_ANSIC_StampMicro r loc
  · exact rej_RubyDate_StampMicro r loc
  · exact rej_UnixDate_StampMicro r loc
  · exact rej_RFC822Z_StampMicro r loc
  · exact rej_RFC822_StampMicro r loc
  · exact rej_RFC850_StampMicro r loc
  · exact rej_RFC1123Z_StampMicro r loc
  · exact rej_RFC1123_StampMicro r loc
  · exact rej_RFC3339_StampMicro r loc
  · exact rej_RFC3339Nano_StampMicro r loc
  · exact rej_Kitchen_StampMicro r loc
  · exact rej_StampNano_StampMicro r loc

/-! ## The layouts before StampMilli on its text -/

theorem rej_Layout_StampMilli {y m d h mi s ns : Nat} (r : Rng y m d h mi s ns) (loc : Location) :
    parses loc Layout
      (34 :: ((monthString m).take 3 ++ 32 :: (ud d ++ 32 :: (d2 h ++ 58 :: (d2 mi ++ 58 :: (d2 s ++
          (frac0 3 ns ++ [34]))))))) = false := by
  apply parses_false_of_isErr
  rw [qchunks_Layout]
  refine (?_ : ∀ st, IsErr (parseChunks loc _ _ _ _ st)) _
  exact rj_fail (skip_byte 34 _ (by decide))
    (fails_ZM_head _ _ _ _ (headIn_mon3 m r.hm1 r.hm2 _) (by decide))

theorem rej_ANSIC_StampMilli {y m d h mi s ns : Nat} (r : Rng y m d h mi s ns) (loc : Location) :
    parses loc ANSIC
      (34 :: ((monthString m).take 3 ++ 32 :: (ud d ++ 32 :: (d2 h ++ 58 :: (d2 mi ++ 58 :: (d2 s ++
          (frac0 3 ns ++ [34]))))))) = false := by
  apply parses_false_of_isErr
  rw [qchunks_ANSIC]
  refine (?_ : ∀ st, IsErr (parseChunks loc _ _ _ _ st)) _
  exact rj_fail (skip_byte 34 _ (by decide))
    (fails_WD_mon3 m r.hm1 r.hm2 _ _)

theorem rej_RubyDate_StampMilli {y m d h mi s ns : Nat} (r : Rng y m d h mi s ns) (loc : Location) :
    parses loc RubyDate
      (34 :: ((monthString m).take 3 ++ 32 :: (ud d ++ 32 :: (d2 h ++ 58 :: (d2 mi ++ 58 :: (d2 s ++
          (frac0 3 ns ++ [34]))))))) = false := by
  apply parses_false_of_isErr
  rw [qchunks_RubyDate]
  refine (?_ : ∀ st, IsErr (parseChunks loc _ _ _ _ st)) _
  exact rj_fail (skip_byte 34 _ (by decide))
    (fails_WD_mon3 m r.hm1 r.hm2 _ _)

theorem rej_UnixDate_StampMilli {y m d h mi s ns : Nat} (r : Rng y m d h mi s ns) (loc : Location) :
    parses loc UnixDate
      (34 :: ((monthString m).take 3 ++ 32 :: (ud d ++ 32 :: (d2 h ++ 58 :: (d2 mi ++ 58 :: (d2 s ++
          (frac0 3 ns ++ [34]))))))) = false := by
  apply parses_false_of_isErr
  rw [qchunks_UnixDate]
  refine (?_ : ∀ st, IsErr (parseChunks loc _ _ _ _ st)) _
  exact rj_fail (skip_byte 34 _ (by decide))
    (fails_WD_mon3 m r.hm1 r.hm2 _ _)

theorem rej_RFC822Z_StampMilli {y m d h mi s ns : Nat} (r : Rng y m d h mi s ns) (loc : Location) :
    parses loc RFC822Z
      (34 :: ((monthString m).take 3 ++ 32 :: (ud d ++ 32 :: (d2 h ++ 58 :: (d2 mi ++ 58 :: (d2 s ++
          (frac0 3 ns ++ [34]))))))) = false := by
  apply parses_false_of_isErr
  rw [qchunks_RFC822Z]
  refine (?_ : ∀ st, IsErr (parseChunks loc _ _ _ _ st)) _
  exact rj_fail (skip_byte 34 _ (by decide))
    (fails_ZD_head _ _ _ _ (headIn_mon3 m r.hm1 r.hm2 _) (by decide))

theorem rej_RFC822_StampMilli {y m d h mi s ns : Nat} (r : Rng y m d h mi s ns) (loc : Location) :
    parses loc RFC822
      (34 :: ((monthString m).take 3 ++ 32 :: (ud d ++ 32 :: (d2 h ++ 58 :: (d2 mi ++ 58 :: (d2 s ++
          (frac0 3 ns ++ [34]))))))) = false := by
  apply parses_false_of_isErr
  rw [qchunks_RFC822]
  refine (?_ : ∀ st, IsErr (parseChunks loc _ _ _ _ st)) _
  exact rj_fail (skip_byte 34 _ (by decide))
    (fails_ZD_head _ _ _ _ (headIn_mon3 m r.hm1 r.hm2 _) (by decide))

theorem rej_RFC850_StampMilli {y m d h mi s ns : Nat} (r : Rng y m d h mi s ns) (loc : Location) :
    parses loc RFC850
      (34 :: ((monthString m).take 3 ++ 32 :: (ud d ++ 32 :: (d2 h ++ 58 :: (d2 mi ++ 58 :: (d2 s ++
          (frac0 3 ns ++ [34]))))))) = false := by
  apply parses_false_of_isErr
  rw [qchunks_RFC850]
  refine (?_ : ∀ st, IsErr (parseChunks loc _ _ _ _ st)) _
  exact rj_fail (skip_byte 34 _ (by decide))
    (fails_LWD_mon3 m r.hm1 r.hm2 _ _)

theorem rej_RFC1123Z_StampMilli {y m d h mi s ns : Nat} (r : Rng y m d h mi s ns) (loc : Location) :
    parses loc RFC1123Z
      (34 :: ((monthString m).take 3 ++ 32 :: (ud d ++ 32 :: (d2 h ++ 58 :: (d2 mi ++ 58 :: (d2 s ++
          (frac0 3 ns ++ [34]))))))) = false := by
  apply parses_false_of_isErr
  rw [qchunks_RFC1123Z]
  refine (?_ : ∀ st, IsErr (parseChunks loc _ _ _ _ st)) _
  exact rj_fail (skip_byte 34 _ (by decide))
    (fails_WD_mon3 m r.hm1 r.hm2 _ _)

theorem rej_RFC1123_StampMilli {y m d h mi s ns : Nat} (r : Rng y m d h mi s ns) (loc : Location) :
    parses loc RFC1123
      (34 :: ((monthString m).take 3 ++ 32 :: (ud d ++ 32 :: (d2 h ++ 58 :: (d2 mi ++ 58 :: (d2 s ++
          (frac0 3 ns ++ [34]))))))) = false := by
  apply parses_false_of_isErr
  rw [qchunks_RFC1123]
  refine (?_ : ∀ st, IsErr (parseChunks loc _ _ _ _ st)) _
  exact rj_fail (skip_byte 34 _ (by decide))
    (fails_WD_mon3 m r.hm1 r.hm2 _ _)

theorem rej_RFC3339_StampMilli {y m d h mi s ns : Nat} (r : Rng y m d h mi s ns) (loc : Location) :
    parses loc RFC3339
      (34 :: ((monthString m).take 3 ++ 32 :: (ud d ++ 32 :: (d2 h ++ 58 :: (d2 mi ++ 58 :: (d2 s ++
          (frac0 3 ns ++ [34]))))))) = false := by
  apply parses_false_of_isErr
  rw [qchunks_RFC3339]
  refine (?_ : ∀ st, IsErr (parseChunks loc _ _ _ _ st)) _
  exact rj_fail (skip_byte 34 _ (by decide))
    (fails_LY_head _ _ _ _ (headIn_mon3 m r.hm1 r.hm2 _) (by decide))

theorem rej_RFC3339Nano_StampMilli {y m d h mi s ns : Nat} (r : Rng y m d h mi s ns)
    (loc : Location) :
    parses loc RFC3339Nano
      (34 :: ((monthString m).take 3 ++ 32 :: (ud d ++ 32 :: (d2 h ++ 58 :: (d2 mi ++ 58 :: (d2 s ++
          (frac0 3 ns ++ [34]))))))) = false := by
  apply parses_false_of_isErr
  rw [qchunks_RFC3339Nano]
  refine (?_ : ∀ st, IsErr (parseChunks loc _ _ _ _ st)) _
  exact rj_fail (skip_byte 34 _ (by decide))
    (fails_LY_head _ _ _ _ (headIn_mon3 m r.hm1 r.hm2 _) (by decide))

theorem rej_Kitchen_StampMilli {y m d h mi s ns : Nat} (r : Rng y m d h mi s ns) (loc : Location) :
    parses loc Kitchen
      (34 :: ((monthString m).take 3 ++ 32 :: (ud d ++ 32 :: (d2 h ++ 58 :: (d2 mi ++ 58 :: (d2 s ++
          (frac0 3 ns ++ [34]))))))) = false := by
  apply parses_false_of_isErr
  rw [qchunks_Kitchen]
  refine (?_ : ∀ st, IsErr (parseChunks loc _ _ _ _ st)) _
  exact rj_fail (skip_byte 34 _ (by decide))
    (fails_H12_head _ _ _ _ (headIn_mon3 m r.hm1 r.hm2 _) (by decide))

theorem rej_StampNano_StampMilli {y m d h mi s ns : Nat} (r : Rng y m d h mi s ns)
    (loc : Location) :
    parses loc StampNano
      (34 :: ((monthString m).take 3 ++ 32 :: (ud d ++ 32 :: (d2 h ++ 58 :: (d2 mi ++ 58 :: (d2 s ++
          (frac0 3 ns ++ [34]))))))) = false := by
  apply parses_false_of_isErr
  rw [qchunks_StampNano]
  refine (?_ : ∀ st, IsErr (parseChunks loc _ _ _ _ st)) _
  refine rj_eat (skip_byte 34 _ (by decide))
    (eats_of_eq (fun st => ⟨_, parseStd_month m r.hm1 r.hm2 _ _ st⟩)) ?_
  refine rj_eat (skip_sp_ud d (by have := r.hd3; omega) _)
    (eats_UD_nd (d) (by have := r.hd3; omega) 32 _ rfl _) ?_
  refine rj_eat (skip_sp _ (headD_of_headIn (headIn_d2 (h) (by have := r.hh; omega) _) (by decide)))
    (eats_H_d2 (h) (by have := r.hh; omega) _ _) ?_
  refine rj_eat (skip_byte 58 _ (by decide))
    (eats_MI_d2 (mi) (by have := r.hmi; omega) _ _) ?_
  refine rj_eat (skip_byte 58 _ (by decide))
    (eats_S_frac0 (s) (by have := r.hs; omega) _ _ _) ?_
  exact rj_fail (skip_nil _)
    (fails_F0_short 9 3 ns (by decide) _)

theorem rej_StampMicro_StampMilli {y m d h mi s ns : Nat} (r : Rng y m d h mi s ns)
    (loc : Location) :
    parses loc StampMicro
      (34 :: ((monthString m).take 3 ++ 32 :: (ud d ++ 32 :: (d2 h ++ 58 :: (d2 mi ++ 58 :: (d2 s ++
          (frac0 3 ns ++ [34]))))))) = false := by
  apply parses_false_of_isErr
  rw [qchunks_StampMicro]
  refine (?_ : ∀ st, IsErr (parseChunks loc _ _ _ _ st)) _
  refine rj_eat (skip_byte 34 _ (by decide))
    (eats_of_eq (fun st => ⟨_, parseStd_month m r.hm1 r.hm2 _ _ st⟩)) ?_
  refine rj_eat (skip_sp_ud d (by have := r.hd3; omega) _)
    (eats_UD_nd (d) (by have := r.hd3; omega) 32 _ rfl _) ?_
  refine rj_eat (skip_sp _ (headD_of_headIn (headIn_d2 (h) (by have := r.hh; omega) _) (by decide)))
    (eats_H_d2 (h) (by have := r.hh; omega) _ _) ?_
  refine rj_eat (skip_byte 58 _ (by decide))
    (eats_MI_d2 (mi) (by have := r.hmi; omega) _ _) ?_
  refine rj_eat (skip_byte 58 _ (by decide))
    (eats_S_frac0 (s) (by have := r.hs; omega) _ _ _) ?_
  exact rj_fail (skip_nil _)
    (fails_F0_short 6 3 ns (by decide) _)

theorem rejAll_StampMilli {y m d h mi s ns : Nat} (r : Rng y m d h mi s ns) (loc : Location) :
    ∀ g ∈ [Layout, ANSIC, RubyDate, UnixDate, RFC822Z, RFC822, RFC850, RFC1123Z, RFC1123, RFC3339,
        RFC3339Nano, Kitchen, StampNano, StampMicro], parses loc g
      (34 :: ((monthString m).take 3 ++ 32 :: (ud d ++ 32 :: (d2 h ++ 58 :: (d2 mi ++ 58 :: (d2 s ++
          (frac0 3 ns ++ [34]))))))) = false := by
  intro g hg
  simp only [List.mem_cons, List.mem_singleton, List.not_mem_nil, or_false] at hg
  rcases hg with rfl | rfl | rfl | rfl | rfl | rfl | rfl | rfl | rfl | rfl | rfl | rfl | rfl | rfl
  · exact rej_Layout_StampMilli r loc
  · exact rej_ANSIC_StampMilli r loc
  · exact rej_RubyDate_StampMilli r loc
  · exact rej_UnixDate_StampMilli r loc
  · exact rej_RFC822Z_StampMilli r loc
  · exact rej_RFC822_StampMilli r loc
  · exact rej_RFC850_StampMilli r loc
  · exact rej_RFC1123Z_StampMilli r loc
  · exact rej_RFC1123_StampMilli r loc
  · exact rej_RFC3339_StampMilli r loc
  · exact rej_RFC3339Nano_StampMilli r loc
  · exact rej_Kitchen_StampMilli r loc
  · exact rej_StampNano_StampMilli r loc
  · exact rej_StampMicro_StampMilli r loc

/-! ## The layouts before Stamp on its text -/

theorem rej_Layout_Stamp {y m d h mi s ns : Nat} (r : Rng y m d h mi s ns) (loc : Location) :
    parses loc Layout
      (34 :: ((monthString m).take 3 ++ 32 :: (ud d ++ 32 :: (d2 h ++ 58 :: (d2 mi ++ 58 ::
          (d2 s ++ [34])))))) = false := by
  apply parses_false_of_isErr
  rw [qchunks_Layout]
  refine (?_ : ∀ st, IsErr (parseChunks loc _ _ _ _ st)) _
  exact rj_fail (skip_byte 34 _ (by decide))
    (fails_ZM_head _ _ _ _ (headIn_mon3 m r.hm1 r.hm2 _) (by decide))

theorem rej_ANSIC_Stamp {y m d h mi s ns : Nat} (r : Rng y m d h mi s ns) (loc : Location) :
    parses loc ANSIC
      (34 :: ((monthString m).take 3 ++ 32 :: (ud d ++ 32 :: (d2 h ++ 58 :: (d2 mi ++ 58 ::
          (d2 s ++ [34])))))) = false := by
  apply parses_false_of_isErr
  rw [qchunks_ANSIC]
  refine (?_ : ∀ st, IsErr (parseChunks loc _ _ _ _ st)) _
  exact rj_fail (skip_byte 34 _ (by decide))
    (fails_WD_mon3 m r.hm1 r.hm2 _ _)

theorem rej_RubyDate_Stamp {y m d h mi s ns : Nat} (r : Rng y m d h mi s ns) (loc : Location) :
    parses loc RubyDate
      (34 :: ((monthString m).take 3 ++ 32 :: (ud d ++ 32 :: (d2 h ++ 58 :: (d2 mi ++ 58 ::
          (d2 s ++ [34])))))) = false := by
  apply parses_false_of_isErr
  rw [qchunks_RubyDate]
  refine (?_ : ∀ st, IsErr (parseChunks loc _ _ _ _ st)) _
  exact rj_fail (skip_byte 34 _ (by decide))
    (fails_WD_mon3 m r.hm1 r.hm2 _ _)

theorem rej_UnixDate_Stamp {y m d h mi s ns : Nat} (r : Rng y m d h mi s ns) (loc : Location) :
    parses loc UnixDate
      (34 :: ((monthString m).take 3 ++ 32 :: (ud d ++ 32 :: (d2 h ++ 58 :: (d2 mi ++ 58 ::
          (d2 s ++ [34])))))) = false := by
  apply parses_false_of_isErr
  rw [qchunks_UnixDate]
  refine (?_ : ∀ st, IsErr (parseChunks loc _ _ _ _ st)) _
  exact rj_fail (skip_byte 34 _ (by decide))
    (fails_WD_mon3 m r.hm1 r.hm2 _ _)

theorem rej_RFC822Z_Stamp {y m d h mi s ns : Nat} (r : Rng y m d h mi s ns) (loc : Location) :
    parses loc RFC822Z
      (34 :: ((monthString m).take 3 ++ 32 :: (ud d ++ 32 :: (d2 h ++ 58 :: (d2 mi ++ 58 ::
          (d2 s ++ [34])))))) = false := by
  apply parses_false_of_isErr
  rw [qchunks_RFC822Z]
  refine (?_ : ∀ st, IsErr (parseChunks loc _ _ _ _ st)) _
  exact rj_fail (skip_byte 34 _ (by decide))
    (fails_ZD_head _ _ _ _ (headIn_mon3 m r.hm1 r.hm2 _) (by decide))

theorem rej_RFC822_Stamp {y m d h mi s ns : Nat} (r : Rng y m d h mi s ns) (loc : Location) :
    parses loc RFC822
      (34 :: ((monthString m).take 3 ++ 32 :: (ud d ++ 32 :: (d2 h ++ 58 :: (d2 mi ++ 58 ::
          (d2 s ++ [34])))))) = false := by
  apply parses_false_of_isErr
  rw [qchunks_RFC822]
  refine (?_ : ∀ st, IsErr (parseChunks loc _ _ _ _ st)) _
  exact rj_fail (skip_byte 34 _ (by decide))
    (fails_ZD_head _ _ _ _ (headIn_mon3 m r.hm1 r.hm2 _) (by decide))

theorem rej_RFC850_Stamp {y m d h mi s ns : Nat} (r : Rng y m d h mi s ns) (loc : Location) :
    parses loc RFC850
      (34 :: ((monthString m).take 3 ++ 32 :: (ud d ++ 32 :: (d2 h ++ 58 :: (d2 mi ++ 58 ::
          (d2 s ++ [34])))))) = false := by
  apply parses_false_of_isErr
  rw [qchunks_RFC850]
  refine (?_ : ∀ st, IsErr (parseChunks loc _ _ _ _ st)) _
  exact rj_fail (skip_byte 34 _ (by decide))
    (fails_LWD_mon3 m r.hm1 r.hm2 _ _)

theorem rej_RFC1123Z_Stamp {y m d h mi s ns : Nat} (r : Rng y m d h mi s ns) (loc : Location) :
    parses loc RFC1123Z
      (34 :: ((monthString m).take 3 ++ 32 :: (ud d ++ 32 :: (d2 h ++ 58 :: (d2 mi ++ 58 ::
          (d2 s ++ [34])))))) = false := by
  apply parses_false_of_isErr
  rw [qchunks_RFC1123Z]
  refine (?_ : ∀ st, IsErr (parseChunks loc _ _ _ _ st)) _
  exact rj_fail (skip_byte 34 _ (by decide))
    (fails_WD_mon3 m r.hm1 r.hm2 _ _)

theorem rej_RFC1123_Stamp {y m d h mi s ns : Nat} (r : Rng y m d h mi s ns) (loc : Location) :
    parses loc RFC1123
      (34 :: ((monthString m).take 3 ++ 32 :: (ud d ++ 32 :: (d2 h ++ 58 :: (d2 mi ++ 58 ::
          (d2 s ++ [34])))))) = false := by
  apply parses_false_of_isErr
  rw [qchunks_RFC1123]
  refine (?_ : ∀ st, IsErr (parseChunks loc _ _ _ _ st)) _
  exact rj_fail (skip_byte 34 _ (by decide))
    (fails_WD_mon3 m r.hm1 r.hm2 _ _)

theorem rej_RFC3339_Stamp {y m d h mi s ns : Nat} (r : Rng y m d h mi s ns) (loc : Location) :
    parses loc RFC3339
      (34 :: ((monthString m).take 3 ++ 32 :: (ud d ++ 32 :: (d2 h ++ 58 :: (d2 mi ++ 58 ::
          (d2 s ++ [34])))))) = false := by
  apply parses_false_of_isErr
  rw [qchunks_RFC3339]
  refine (?_ : ∀ st, IsErr (parseChunks loc _ _ _ _ st)) _
  exact rj_fail (skip_byte 34 _ (by decide))
    (fails_LY_head _ _ _ _ (headIn_mon3 m r.hm1 r.hm2 _) (by decide))

theorem rej_RFC3339Nano_Stamp {y m d h mi s ns : Nat} (r : Rng y m d h mi s ns) (loc : Location) :
    parses loc RFC3339Nano
      (34 :: ((monthString m).take 3 ++ 32 :: (ud d ++ 32 :: (d2 h ++ 58 :: (d2 mi ++ 58 ::
          (d2 s ++ [34])))))) = false := by
  apply parses_false_of_isErr
  rw [qchunks_RFC3339Nano]
  refine (?_ : ∀ st, IsErr (parseChunks loc _ _ _ _ st)) _
  exact rj_fail (skip_byte 34 _ (by decide))
    (fails_LY_head _ _ _ _ (headIn_mon3 m r.hm1 r.hm2 _) (by decide))

theorem rej_Kitchen_Stamp {y m d h mi s ns : Nat} (r : Rng y m d h mi s ns) (loc : Location) :
    parses loc Kitchen
      (34 :: ((monthString m).take 3 ++ 32 :: (ud d ++ 32 :: (d2 h ++ 58 :: (d2 mi ++ 58 ::
          (d2 s ++ [34])))))) = false := by
  apply parses_false_of_isErr
  rw [qchunks_Kitchen]
  refine (?_ : ∀ st, IsErr (parseChunks loc _ _ _ _ st)) _
  exact rj_fail (skip_byte 34 _ (by decide))
    (fails_H12_head _ _ _ _ (headIn_mon3 m r.hm1 r.hm2 _) (by decide))

theorem rej_StampNano_Stamp {y m d h mi s ns : Nat} (r : Rng y m d h mi s ns) (loc : Location) :
    parses loc StampNano
      (34 :: ((monthString m).take 3 ++ 32 :: (ud d ++ 32 :: (d2 h ++ 58 :: (d2 mi ++ 58 ::
          (d2 s ++ [34])))))) = false := by
  apply parses_false_of_isErr
  rw [qchunks_StampNano]
  refine (?_ : ∀ st, IsErr (parseChunks loc _ _ _ _ st)) _
  refine rj_eat (skip_byte 34 _ (by decide))
    (eats_of_eq (fun st => ⟨_, parseStd_month m r.hm1 r.hm2 _ _ st⟩)) ?_
  refine rj_eat (skip_sp_ud d (by have := r.hd3; omega) _)
    (eats_UD_nd (d) (by have := r.hd3; omega) 32 _ rfl _) ?_
  refine rj_eat (skip_sp _ (headD_of_headIn (headIn_d2 (h) (by have := r.hh; omega) _) (by decide)))
    (eats_H_d2 (h) (by have := r.hh; omega) _ _) ?_
  refine rj_eat (skip_byte 58 _ (by decide))
    (eats_MI_d2 (mi) (by have := r.hmi; omega) _ _) ?_
  refine rj_eat (skip_byte 58 _ (by decide))
    (eats_S_frac0 (s) (by have := r.hs; omega) _ _ _) ?_
  exact rj_fail (skip_nil _)
    (fails_F0_end 9 (by decide) _)

theorem rej_StampMicro_Stamp {y m d h mi s ns : Nat} (r : Rng y m d h mi s ns) (loc : Location) :
    parses loc StampMicro
      (34 :: ((monthString m).take 3 ++ 32 :: (ud d ++ 32 :: (d2 h ++ 58 :: (d2 mi ++ 58 ::
          (d2 s ++ [34])))))) = false := by
  apply parses_false_of_isErr
  rw [qchunks_StampMicro]
  refine (?_ : ∀ st, IsErr (parseChunks loc _ _ _ _ st)) _
  refine rj_eat (skip_byte 34 _ (by decide))
    (eats_of_eq (fun st => ⟨_, parseStd_month m r.hm1 r.hm2 _ _ st⟩)) ?_
  refine rj_eat (skip_sp_ud d (by have := r.hd3; omega) _)
    (eats_UD_nd (d) (by have := r.hd3; omega) 32 _ rfl _) ?_
  refine rj_eat (skip_sp _ (headD_of_headIn (headIn_d2 (h) (by have := r.hh; omega) _) (by decide)))
    (eats_H_d2 (h) (by have := r.hh; omega) _ _) ?_
  refine rj_eat (skip_byte 58 _ (by decide))
    (eats_MI_d2 (mi) (by have := r.hmi; omega) _ _) ?_
  refine rj_eat (skip_byte 58 _ (by decide))
    (eats_S_frac0 (s) (by have := r.hs; omega) _ _ _) ?_
  exact rj_fail (skip_nil _)
    (fails_F0_end 6 (by decide) _)

theorem rej_StampMilli_Stamp {y m d h mi s ns : Nat} (r : Rng y m d h mi s ns) (loc : Location) :
    parses loc StampMilli
      (34 :: ((monthString m).take 3 ++ 32 :: (ud d ++ 32 :: (d2 h ++ 58 :: (d2 mi ++ 58 ::
          (d2 s ++ [34])))))) = false := by
  apply parses_false_of_isErr
  rw [qchunks_StampMilli]
  refine (?_ : ∀ st, IsErr (parseChunks loc _ _ _ _ st)) _
  refine rj_eat (skip_byte 34 _ (by decide))
    (eats_of_eq (fun st => ⟨_, parseStd_month m r.hm1 r.hm2 _ _ st⟩)) ?_
  refine rj_eat (skip_sp_ud d (by have := r.hd3; omega) _)
    (eats_UD_nd (d) (by have := r.hd3; omega) 32 _ rfl _) ?_
  refine rj_eat (skip_sp _ (headD_of_headIn (headIn_d2 (h) (by have := r.hh; omega) _) (by decide)))
    (eats_H_d2 (h) (by have := r.hh; omega) _ _) ?_
  refine rj_eat (skip_byte 58 _ (by decide))
    (eats_MI_d2 (mi) (by have := r.hmi; omega) _ _) ?_
  refine rj_eat (skip_byte 58 _ (by decide))
    (eats_S_frac0 (s) (by have := r.hs; omega) _ _ _) ?_
  exact rj_fail (skip_nil _)
    (fails_F0_end 3 (by decide) _)

theorem rejAll_Stamp {y m d h mi s ns : Nat} (r : Rng y m d h mi s ns) (loc : Location) :
    ∀ g ∈ [Layout, ANSIC, RubyDate, UnixDate, RFC822Z, RFC822, RFC850, RFC1123Z, RFC1123, RFC3339,
        RFC3339Nano, Kitchen, StampNano, StampMicro, StampMilli], parses loc g
      (34 :: ((monthString m).take 3 ++ 32 :: (ud d ++ 32 :: (d2 h ++ 58 :: (d2 mi ++ 58 ::
          (d2 s ++ [34])))))) = false := by
  intro g hg
  simp only [List.mem_cons, List.mem_singleton, List.not_mem_nil, or_false] at hg
  rcases hg with rfl | rfl | rfl | rfl | rfl | rfl | rfl | rfl | rfl | rfl | rfl | rfl | rfl | rfl |
      rfl
  · exact rej_Layout_Stamp r loc
  · exact rej_ANSIC_Stamp r loc
  · exact rej_RubyDate_Stamp r loc
  · exact rej_UnixDate_Stamp r loc
  · exact rej_RFC822Z_Stamp r loc
  · exact rej_RFC822_Stamp r loc
  · exact rej_RFC850_Stamp r loc
  · exact rej_RFC1123Z_Stamp r loc
  · exact rej_RFC1123_Stamp r loc
  · exact rej_RFC3339_Stamp r loc
  · exact rej_RFC3339Nano_Stamp r loc
  · exact rej_Kitchen_Stamp r loc
  · exact rej_StampNano_Stamp r loc
  · exact rej_StampMicro_Stamp r loc
  · exact rej_StampMilli_Stamp r loc

/-! ## The layouts before DateTime on its text -/

theorem rej_Layout_DateTime {y m d h mi s ns : Nat} (r : Rng y m d h mi s ns) (loc : Location) :
    parses loc Layout
      (34 :: (d4 y ++ 45 :: (d2 m ++ 45 :: (d2 d ++ 32 :: (d2 h ++ 58 :: (d2 mi ++ 58 ::
          (d2 s ++ [34]))))))) = false := by
  apply parses_false_of_isErr
  rw [qchunks_Layout]
  rw [d4_split y r.hy, List.append_assoc]
  refine (?_ : ∀ st, IsErr (parseChunks loc _ _ _ _ st)) _
  refine rj_eat (skip_byte 34 _ (by decide))
    (eats_ZM_d2 (y / 100) (by have := r.hy; omega) _ _) ?_
  exact rj_skip (skip_ne_head _ 47 _ _ _ (by decide) (headIn_d2 (y % 100) (by omega) _) (by decide))

theorem rej_ANSIC_DateTime {y m d h mi s ns : Nat} (r : Rng y m d h mi s ns) (loc : Location) :
    parses loc ANSIC
      (34 :: (d4 y ++ 45 :: (d2 m ++ 45 :: (d2 d ++ 32 :: (d2 h ++ 58 :: (d2 mi ++ 58 ::
          (d2 s ++ [34]))))))) = false := by
  apply parses_false_of_isErr
  rw [qchunks_ANSIC]
  refine (?_ : ∀ st, IsErr (parseChunks loc _ _ _ _ st)) _
  exact rj_fail (skip_byte 34 _ (by decide))
    (fails_WD_dig _ _ (headIn_d4 y r.hy _))

theorem rej_RubyDate_DateTime {y m d h mi s ns : Nat} (r : Rng y m d h mi s ns) (loc : Location) :
    parses loc RubyDate
      (34 :: (d4 y ++ 45 :: (d2 m ++ 45 :: (d2 d ++ 32 :: (d2 h ++ 58 :: (d2 mi ++ 58 ::
          (d2 s ++ [34]))))))) = false := by
  apply parses_false_of_isErr
  rw [qchunks_RubyDate]
  refine (?_ : ∀ st, IsErr (parseChunks loc _ _ _ _ st)) _
  exact rj_fail (skip_byte 34 _ (by decide))
    (fails_WD_dig _ _ (headIn_d4 y r.hy _))

theorem rej_UnixDate_DateTime {y m d h mi s ns : Nat} (r : Rng y m d h mi s ns) (loc : Location) :
    parses loc UnixDate
      (34 :: (d4 y ++ 45 :: (d2 m ++ 45 :: (d2 d ++ 32 :: (d2 h ++ 58 :: (d2 mi ++ 58 ::
          (d2 s ++ [34]))))))) = false := by
  apply parses_false_of_isErr
  rw [qchunks_UnixDate]
  refine (?_ : ∀ st, IsErr (parseChunks loc _ _ _ _ st)) _
  exact rj_fail (skip_byte 34 _ (by decide))
    (fails_WD_dig _ _ (headIn_d4 y r.hy _))

theorem rej_RFC822Z_DateTime {y m d h mi s ns : Nat} (r : Rng y m d h mi s ns) (loc : Location) :
    parses loc RFC822Z
      (34 :: (d4 y ++ 45 :: (d2 m ++ 45 :: (d2 d ++ 32 :: (d2 h ++ 58 :: (d2 mi ++ 58 ::
          (d2 s ++ [34]))))))) = false := by
  apply parses_false_of_isErr
  rw [qchunks_RFC822Z]
  rw [d4_split y r.hy, List.append_assoc]
  refine (?_ : ∀ st, IsErr (parseChunks loc _ _ _ _ st)) _
  refine rj_eat (skip_byte 34 _ (by decide))
    (eats_ZD_d2 (y / 100) (by have := r.hy; omega) _ _) ?_
  exact rj_skip (skip_sp_head _ _ _ _ (headIn_d2 (y % 100) (by omega) _) (by decide))

theorem rej_RFC822_DateTime {y m d h mi s ns : Nat} (r : Rng y m d h mi s ns) (loc : Location) :
    parses loc RFC822
      (34 :: (d4 y ++ 45 :: (d2 m ++ 45 :: (d2 d ++ 32 :: (d2 h ++ 58 :: (d2 mi ++ 58 ::
          (d2 s ++ [34]))))))) = false := by
  apply parses_false_of_isErr
  rw [qchunks_RFC822]
  rw [d4_split y r.hy, List.append_assoc]
  refine (?_ : ∀ st, IsErr (parseChunks loc _ _ _ _ st)) _
  refine rj_eat (skip_byte 34 _ (by decide))
    (eats_ZD_d2 (y / 100) (by have := r.hy; omega) _ _) ?_
  exact rj_skip (skip_sp_head _ _ _ _ (headIn_d2 (y % 100) (by omega) _) (by decide))

theorem rej_RFC850_DateTime {y m d h mi s ns : Nat} (r : Rng y m d h mi s ns) (loc : Location) :
    parses loc RFC850
      (34 :: (d4 y ++ 45 :: (d2 m ++ 45 :: (d2 d ++ 32 :: (d2 h ++ 58 :: (d2 mi ++ 58 ::
          (d2 s ++ [34]))))))) = false := by
  apply parses_false_of_isErr
  rw [qchunks_RFC850]
  refine (?_ : ∀ st, IsErr (parseChunks loc _ _ _ _ st)) _
  exact rj_fail (skip_byte 34 _ (by decide))
    (fails_LWD_dig _ _ (headIn_d4 y r.hy _))

theorem rej_RFC1123Z_DateTime {y m d h mi s ns : Nat} (r : Rng y m d h mi s ns) (loc : Location) :
    parses loc RFC1123Z
      (34 :: (d4 y ++ 45 :: (d2 m ++ 45 :: (d2 d ++ 32 :: (d2 h ++ 58 :: (d2 mi ++ 58 ::
          (d2 s ++ [34]))))))) = false := by
  apply parses_false_of_isErr
  rw [qchunks_RFC1123Z]
  refine (?_ : ∀ st, IsErr (parseChunks loc _ _ _ _ st)) _
  exact rj_fail (skip_byte 34 _ (by decide))
    (fails_WD_dig _ _ (headIn_d4 y r.hy _))

theorem rej_RFC1123_DateTime {y m d h mi s ns : Nat} (r : Rng y m d h mi s ns) (loc : Location) :
    parses loc RFC1123
      (34 :: (d4 y ++ 45 :: (d2 m ++ 45 :: (d2 d ++ 32 :: (d2 h ++ 58 :: (d2 mi ++ 58 ::
          (d2 s ++ [34]))))))) = false := by
  apply parses_false_of_isErr
  rw [qchunks_RFC1123]
  refine (?_ : ∀ st, IsErr (parseChunks loc _ _ _ _ st)) _
  exact rj_fail (skip_byte 34 _ (by decide))
    (fails_WD_dig _ _ (headIn_d4 y r.hy _))

theorem rej_RFC3339_DateTime {y m d h mi s ns : Nat} (r : Rng y m d h mi s ns) (loc : Location) :
    parses loc RFC3339
      (34 :: (d4 y ++ 45 :: (d2 m ++ 45 :: (d2 d ++ 32 :: (d2 h ++ 58 :: (d2 mi ++ 58 ::
          (d2 s ++ [34]))))))) = false := by
  apply parses_false_of_isErr
  rw [qchunks_RFC3339]
  refine (?_ : ∀ st, IsErr (parseChunks loc _ _ _ _ st)) _
  refine rj_eat (skip_byte 34 _ (by decide))
    (eats_of_eq (fun st => ⟨_, parseStd_longYear y r.hy _ _ st⟩)) ?_
  refine rj_eat (skip_byte 45 _ (by decide))
    (eats_ZM_d2 (m) (by have := r.hm2; omega) _ _) ?_
  refine rj_eat (skip_byte 45 _ (by decide))
    (eats_ZD_d2 (d) (by have := r.hd3; omega) _ _) ?_
  exact rj_skip (skip_ne_head _ 84 _ _ _ (by decide) (headIn_cons 32 _) (by decide))

theorem rej_RFC3339Nano_DateTime {y m d h mi s ns : Nat} (r : Rng y m d h mi s ns)
    (loc : Location) :
    parses loc RFC3339Nano
      (34 :: (d4 y ++ 45 :: (d2 m ++ 45 :: (d2 d ++ 32 :: (d2 h ++ 58 :: (d2 mi ++ 58 ::
          (d2 s ++ [34]))))))) = false := by
  apply parses_false_of_isErr
  rw [qchunks_RFC3339Nano]
  refine (?_ : ∀ st, IsErr (parseChunks loc _ _ _ _ st)) _
  refine rj_eat (skip_byte 34 _ (by decide))
    (eats_of_eq (fun st => ⟨_, parseStd_longYear y r.hy _ _ st⟩)) ?_
  refine rj_eat (skip_byte 45 _ (by decide))
    (eats_ZM_d2 (m) (by have := r.hm2; omega) _ _) ?_
  refine rj_eat (skip_byte 45 _ (by decide))
    (eats_ZD_d2 (d) (by have := r.hd3; omega) _ _) ?_
  exact rj_skip (skip_ne_head _ 84 _ _ _ (by decide) (headIn_cons 32 _) (by decide))

theorem rej_Kitchen_DateTime {y m d h mi s ns : Nat} (r : Rng y m d h mi s ns) (loc : Location) :
    parses loc Kitchen
      (34 :: (d4 y ++ 45 :: (d2 m ++ 45 :: (d2 d ++ 32 :: (d2 h ++ 58 :: (d2 mi ++ 58 ::
          (d2 s ++ [34]))))))) = false := by
  apply parses_false_of_isErr
  rw [qchunks_Kitchen]
  rw [d4_split y r.hy, List.append_assoc]
  refine (?_ : ∀ st, IsErr (parseChunks loc _ _ _ _ st)) _
  refine rj_eat (skip_byte 34 _ (by decide))
    (eats_H12_d2 (y / 100) (by have := r.hy; omega) _ _) ?_
  exact rj_skip (skip_ne_head _ 58 _ _ _ (by decide) (headIn_d2 (y % 100) (by omega) _) (by decide))

theorem rej_StampNano_DateTime {y m d h mi s ns : Nat} (r : Rng y m d h mi s ns) (loc : Location) :
    parses loc StampNano
      (34 :: (d4 y ++ 45 :: (d2 m ++ 45 :: (d2 d ++ 32 :: (d2 h ++ 58 :: (d2 mi ++ 58 ::
          (d2 s ++ [34]))))))) = false := by
  apply parses_false_of_isErr
  rw [qchunks_StampNano]
  refine (?_ : ∀ st, IsErr (parseChunks loc _ _ _ _ st)) _
  exact rj_fail (skip_byte 34 _ (by decide))
    (fails_MON_dig _ _ (headIn_d4 y r.hy _))

theorem rej_StampMicro_DateTime {y m d h mi s ns : Nat} (r : Rng y m d h mi s ns) (loc : Location) :
    parses loc StampMicro
      (34 :: (d4 y ++ 45 :: (d2 m ++ 45 :: (d2 d ++ 32 :: (d2 h ++ 58 :: (d2 mi ++ 58 ::
          (d2 s ++ [34]))))))) = false := by
  apply parses_false_of_isErr
  rw [qchunks_StampMicro]
  refine (?_ : ∀ st, IsErr (parseChunks loc _ _ _ _ st)) _
  exact rj_fail (skip_byte 34 _ (by decide))
    (fails_MON_dig _ _ (headIn_d4 y r.hy _))

theorem rej_StampMilli_DateTime {y m d h mi s ns : Nat} (r : Rng y m d h mi s ns) (loc : Location) :
    parses loc StampMilli
      (34 :: (d4 y ++ 45 :: (d2 m ++ 45 :: (d2 d ++ 32 :: (d2 h ++ 58 :: (d2 mi ++ 58 ::
          (d2 s ++ [34]))))))) = false := by
  apply parses_false_of_isErr
  rw [qchunks_StampMilli]
  refine (?_ : ∀ st, IsErr (parseChunks loc _ _ _ _ st)) _
  exact rj_fail (skip_byte 34 _ (by decide))
    (fails_MON_dig _ _ (headIn_d4 y r.hy _))

theorem rej_Stamp_DateTime {y m d h mi s ns : Nat} (r : Rng y m d h mi s ns) (loc : Location) :
    parses loc Stamp
      (34 :: (d4 y ++ 45 :: (d2 m ++ 45 :: (d2 d ++ 32 :: (d2 h ++ 58 :: (d2 mi ++ 58 ::
          (d2 s ++ [34]))))))) = false := by
  apply parses_false_of_isErr
  rw [qchunks_Stamp]
  refine (?_ : ∀ st, IsErr (parseChunks loc _ _ _ _ st)) _
  exact rj_fail (skip_byte 34 _ (by decide))
    (fails_MON_dig _ _ (headIn_d4 y r.hy _))

theorem rejAll_DateTime {y m d h mi s ns : Nat} (r : Rng y m d h mi s ns) (loc : Location) :
    ∀ g ∈ [Layout, ANSIC, RubyDate, UnixDate, RFC822Z, RFC822, RFC850, RFC1123Z, RFC1123, RFC3339,
        RFC3339Nano, Kitchen, StampNano, StampMicro, StampMilli, Stamp], parses loc g
      (34 :: (d4 y ++ 45 :: (d2 m ++ 45 :: (d2 d ++ 32 :: (d2 h ++ 58 :: (d2 mi ++ 58 ::
          (d2 s ++ [34]))))))) = false := by
  intro g hg
  simp only [List.mem_cons, List.mem_singleton, List.not_mem_nil, or_false] at hg
  rcases hg with rfl | rfl | rfl | rfl | rfl | rfl | rfl | rfl | rfl | rfl | rfl | rfl | rfl | rfl |
      rfl | rfl
  · exact rej_Layout_DateTime r loc
  · exact rej_ANSIC_DateTime r loc
  · exact rej_RubyDate_DateTime r loc
  · exact rej_UnixDate_DateTime r loc
  · exact rej_RFC822Z_DateTime r loc
  · exact rej_RFC822_DateTime r loc
  · exact rej_RFC850_DateTime r loc
  · exact rej_RFC1123Z_DateTime r loc
  · exact rej_RFC1123_DateTime r loc
  · exact rej_RFC3339_DateTime r loc
  · exact rej_RFC3339Nano_DateTime r loc
  · exact rej_Kitchen_DateTime r loc
  · exact rej_StampNano_DateTime r loc
  · exact rej_StampMicro_DateTime r loc
  · exact rej_StampMilli_DateTime r loc
  · exact rej_Stamp_DateTime r loc

/-! ## The layouts before DateOnly on its text -/

theorem rej_Layout_DateOnly {y m d h mi s ns : Nat} (r : Rng y m d h mi s ns) (loc : Location) :
    parses loc Layout
      (34 :: (d4 y ++ 45 :: (d2 m ++ 45 :: (d2 d ++ [34])))) = false := by
  apply parses_false_of_isErr
  rw [qchunks_Layout]
  rw [d4_split y r.hy, List.append_assoc]
  refine (?_ : ∀ st, IsErr (parseChunks loc _ _ _ _ st)) _
  refine rj_eat (skip_byte 34 _ (by decide))
    (eats_ZM_d2 (y / 100) (by have := r.hy; omega) _ _) ?_
  exact rj_skip (skip_ne_head _ 47 _ _ _ (by decide) (headIn_d2 (y % 100) (by omega) _) (by decide))

theorem rej_ANSIC_DateOnly {y m d h mi s ns : Nat} (r : Rng y m d h mi s ns) (loc : Location) :
    parses loc ANSIC
      (34 :: (d4 y ++ 45 :: (d2 m ++ 45 :: (d2 d ++ [34])))) = false := by
  apply parses_false_of_isErr
  rw [qchunks_ANSIC]
  refine (?_ : ∀ st, IsErr (parseChunks loc _ _ _ _ st)) _
  exact rj_fail (skip_byte 34 _ (by decide))
    (fails_WD_dig _ _ (headIn_d4 y r.hy _))

theorem rej_RubyDate_DateOnly {y m d h mi s ns : Nat} (r : Rng y m d h mi s ns) (loc : Location) :
    parses loc RubyDate
      (34 :: (d4 y ++ 45 :: (d2 m ++ 45 :: (d2 d ++ [34])))) = false := by
  apply parses_false_of_isErr
  rw [qchunks_RubyDate]
  refine (?_ : ∀ st, IsErr (parseChunks loc _ _ _ _ st)) _
  exact rj_fail (skip_byte 34 _ (by decide))
    (fails_WD_dig _ _ (headIn_d4 y r.hy _))

theorem rej_UnixDate_DateOnly {y m d h mi s ns : Nat} (r : Rng y m d h mi s ns) (loc : Location) :
    parses loc UnixDate
      (34 :: (d4 y ++ 45 :: (d2 m ++ 45 :: (d2 d ++ [34])))) = false := by
  apply parses_false_of_isErr
  rw [qchunks_UnixDate]
  refine (?_ : ∀ st, IsErr (parseChunks loc _ _ _ _ st)) _
  exact rj_fail (skip_byte 34 _ (by decide))
    (fails_WD_dig _ _ (headIn_d4 y r.hy _))

theorem rej_RFC822Z_DateOnly {y m d h mi s ns : Nat} (r : Rng y m d h mi s ns) (loc : Location) :
    parses loc RFC822Z
      (34 :: (d4 y ++ 45 :: (d2 m ++ 45 :: (d2 d ++ [34])))) = false := by
  apply parses_false_of_isErr
  rw [qchunks_RFC822Z]
  rw [d4_split y r.hy, List.append_assoc]
  refine (?_ : ∀ st, IsErr (parseChunks loc _ _ _ _ st)) _
  refine rj_eat (skip_byte 34 _ (by decide))
    (eats_ZD_d2 (y / 100) (by have := r.hy; omega) _ _) ?_
  exact rj_skip (skip_sp_head _ _ _ _ (headIn_d2 (y % 100) (by omega) _) (by decide))

theorem rej_RFC822_DateOnly {y m d h mi s ns : Nat} (r : Rng y m d h mi s ns) (loc : Location) :
    parses loc RFC822
      (34 :: (d4 y ++ 45 :: (d2 m ++ 45 :: (d2 d ++ [34])))) = false := by
  apply parses_false_of_isErr
  rw [qchunks_RFC822]
  rw [d4_split y r.hy, List.append_assoc]
  refine (?_ : ∀ st, IsErr (parseChunks loc _ _ _ _ st)) _
  refine rj_eat (skip_byte 34 _ (by decide))
    (eats_ZD_d2 (y / 100) (by have := r.hy; omega) _ _) ?_
  exact rj_skip (skip_sp_head _ _ _ _ (headIn_d2 (y % 100) (by omega) _) (by decide))

theorem rej_RFC850_DateOnly {y m d h mi s ns : Nat} (r : Rng y m d h mi s ns) (loc : Location) :
    parses loc RFC850
      (34 :: (d4 y ++ 45 :: (d2 m ++ 45 :: (d2 d ++ [34])))) = false := by
  apply parses_false_of_isErr
  rw [qchunks_RFC850]
  refine (?_ : ∀ st, IsErr (parseChunks loc _ _ _ _ st)) _
  exact rj_fail (skip_byte 34 _ (by decide))
    (fails_LWD_dig _ _ (headIn_d4 y r.hy _))

theorem rej_RFC1123Z_DateOnly {y m d h mi s ns : Nat} (r : Rng y m d h mi s ns) (loc : Location) :
    parses loc RFC1123Z
      (34 :: (d4 y ++ 45 :: (d2 m ++ 45 :: (d2 d ++ [34])))) = false := by
  apply parses_false_of_isErr
  rw [qchunks_RFC1123Z]
  refine (?_ : ∀ st, IsErr (parseChunks loc _ _ _ _ st)) _
  exact rj_fail (skip_byte 34 _ (by decide))
    (fails_WD_dig _ _ (headIn_d4 y r.hy _))

theorem rej_RFC1123_DateOnly {y m d h mi s ns : Nat} (r : Rng y m d h mi s ns) (loc : Location) :
    parses loc RFC1123
      (34 :: (d4 y ++ 45 :: (d2 m ++ 45 :: (d2 d ++ [34])))) = false := by
  apply parses_false_of_isErr
  rw [qchunks_RFC1123]
  refine (?_ : ∀ st, IsErr (parseChunks loc _ _ _ _ st)) _
  exact rj_fail (skip_byte 34 _ (by decide))
    (fails_WD_dig _ _ (headIn_d4 y r.hy _))

theorem rej_RFC3339_DateOnly {y m d h mi s ns : Nat} (r : Rng y m d h mi s ns) (loc : Location) :
    parses loc RFC3339
      (34 :: (d4 y ++ 45 :: (d2 m ++ 45 :: (d2 d ++ [34])))) = false := by
  apply parses_false_of_isErr
  rw [qchunks_RFC3339]
  refine (?_ : ∀ st, IsErr (parseChunks loc _ _ _ _ st)) _
  refine rj_eat (skip_byte 34 _ (by decide))
    (eats_of_eq (fun st => ⟨_, parseStd_longYear y r.hy _ _ st⟩)) ?_
  refine rj_eat (skip_byte 45 _ (by decide))
    (eats_ZM_d2 (m) (by have := r.hm2; omega) _ _) ?_
  refine rj_eat (skip_byte 45 _ (by decide))
    (eats_ZD_d2 (d) (by have := r.hd3; omega) _ _) ?_
  exact rj_skip (skip_ne_head _ 84 _ _ _ (by decide) (headIn_cons 34 _) (by decide))

theorem rej_RFC3339Nano_DateOnly {y m d h mi s ns : Nat} (r : Rng y m d h mi s ns)
    (loc : Location) :
    parses loc RFC3339Nano
      (34 :: (d4 y ++ 45 :: (d2 m ++ 45 :: (d2 d ++ [34])))) = false := by
  apply parses_false_of_isErr
  rw [qchunks_RFC3339Nano]
  refine (?_ : ∀ st, IsErr (parseChunks loc _ _ _ _ st)) _
  refine rj_eat (skip_byte 34 _ (by decide))
    (eats_of_eq (fun st => ⟨_, parseStd_longYear y r.hy _ _ st⟩)) ?_
  refine rj_eat (skip_byte 45 _ (by decide))
    (eats_ZM_d2 (m) (by have := r.hm2; omega) _ _) ?_
  refine rj_eat (skip_byte 45 _ (by decide))
    (eats_ZD_d2 (d) (by have := r.hd3; omega) _ _) ?_
  exact rj_skip (skip_ne_head _ 84 _ _ _ (by decide) (headIn_cons 34 _) (by decide))

theorem rej_Kitchen_DateOnly {y m d h mi s ns : Nat} (r : Rng y m d h mi s ns) (loc : Location) :
    parses loc Kitchen
      (34 :: (d4 y ++ 45 :: (d2 m ++ 45 :: (d2 d ++ [34])))) = false := by
  apply parses_false_of_isErr
  rw [qchunks_Kitchen]
  rw [d4_split y r.hy, List.append_assoc]
  refine (?_ : ∀ st, IsErr (parseChunks loc _ _ _ _ st)) _
  refine rj_eat (skip_byte 34 _ (by decide))
    (eats_H12_d2 (y / 100) (by have := r.hy; omega) _ _) ?_
  exact rj_skip (skip_ne_head _ 58 _ _ _ (by decide) (headIn_d2 (y % 100) (by omega) _) (by decide))

theorem rej_StampNano_DateOnly {y m d h mi s ns : Nat} (r : Rng y m d h mi s ns) (loc : Location) :
    parses loc StampNano
      (34 :: (d4 y ++ 45 :: (d2 m ++ 45 :: (d2 d ++ [34])))) = false := by
  apply parses_false_of_isErr
  rw [qchunks_StampNano]
  refine (?_ : ∀ st, IsErr (parseChunks loc _ _ _ _ st)) _
  exact rj_fail (skip_byte 34 _ (by decide))
    (fails_MON_dig _ _ (headIn_d4 y r.hy _))

theorem rej_StampMicro_DateOnly {y m d h mi s ns : Nat} (r : Rng y m d h mi s ns) (loc : Location) :
    parses loc StampMicro
      (34 :: (d4 y ++ 45 :: (d2 m ++ 45 :: (d2 d ++ [34])))) = false := by
  apply parses_false_of_isErr
  rw [qchunks_StampMicro]
  refine (?_ : ∀ st, IsErr (parseChunks loc _ _ _ _ st)) _
  exact rj_fail (skip_byte 34 _ (by decide))
    (fails_MON_dig _ _ (headIn_d4 y r.hy _))

theorem rej_StampMilli_DateOnly {y m d h mi s ns : Nat} (r : Rng y m d h mi s ns) (loc : Location) :
    parses loc StampMilli
      (34 :: (d4 y ++ 45 :: (d2 m ++ 45 :: (d2 d ++ [34])))) = false := by
  apply parses_false_of_isErr
  rw [qchunks_StampMilli]
  refine (?_ : ∀ st, IsErr (parseChunks loc _ _ _ _ st)) _
  exact rj_fail (skip_byte 34 _ (by decide))
    (fails_MON_dig _ _ (headIn_d4 y r.hy _))

theorem rej_Stamp_DateOnly {y m d h mi s ns : Nat} (r : Rng y m d h mi s ns) (loc : Location) :
    parses loc Stamp
      (34 :: (d4 y ++ 45 :: (d2 m ++ 45 :: (d2 d ++ [34])))) = false := by
  apply parses_false_of_isErr
  rw [qchunks_Stamp]
  refine (?_ : ∀ st, IsErr (parseChunks loc _ _ _ _ st)) _
  exact rj_fail (skip_byte 34 _ (by decide))
    (fails_MON_dig _ _ (headIn_d4 y r.hy _))

theorem rej_DateTime_DateOnly {y m d h mi s ns : Nat} (r : Rng y m d h mi s ns) (loc : Location) :
    parses loc DateTime
      (34 :: (d4 y ++ 45 :: (d2 m ++ 45 :: (d2 d ++ [34])))) = false := by
  apply parses_false_of_isErr
  rw [qchunks_DateTime]
  refine (?_ : ∀ st, IsErr (parseChunks loc _ _ _ _ st)) _
  refine rj_eat (skip_byte 34 _ (by decide))
    (eats_of_eq (fun st => ⟨_, parseStd_longYear y r.hy _ _ st⟩)) ?_
  refine rj_eat (skip_byte 45 _ (by decide))
    (eats_ZM_d2 (m) (by have := r.hm2; omega) _ _) ?_
  refine rj_eat (skip_byte 45 _ (by decide))
    (eats_ZD_d2 (d) (by have := r.hd3; omega) _ _) ?_
  exact rj_skip (skip_sp_head _ _ _ _ (headIn_cons 34 _) (by decide))

theorem rejAll_DateOnly {y m d h mi s ns : Nat} (r : Rng y m d h mi s ns) (loc : Location) :
    ∀ g ∈ [Layout, ANSIC, RubyDate, UnixDate, RFC822Z, RFC822, RFC850, RFC1123Z, RFC1123, RFC3339,
        RFC3339Nano, Kitchen, StampNano, StampMicro, StampMilli, Stamp, DateTime], parses loc g
      (34 :: (d4 y ++ 45 :: (d2 m ++ 45 :: (d2 d ++ [34])))) = false := by
  intro g hg
  simp only [List.mem_cons, List.mem_singleton, List.not_mem_nil, or_false] at hg
  rcases hg with rfl | rfl | rfl | rfl | rfl | rfl | rfl | rfl | rfl | rfl | rfl | rfl | rfl | rfl |
      rfl | rfl | rfl
  · exact rej_Layout_DateOnly r loc
  · exact rej_ANSIC_DateOnly r loc
  · exact rej_RubyDate_DateOnly r loc
  · exact rej_UnixDate_DateOnly r loc
  · exact rej_RFC822Z_DateOnly r loc
  · exact rej_RFC822_DateOnly r loc
  · exact rej_RFC850_DateOnly r loc
  · exact rej_RFC1123Z_DateOnly r loc
  · exact rej_RFC1123_DateOnly r loc
  · exact rej_RFC3339_DateOnly r loc
  · exact rej_RFC3339Nano_DateOnly r loc
  · exact rej_Kitchen_DateOnly r loc
  · exact rej_StampNano_DateOnly r loc
  · exact rej_StampMicro_DateOnly r loc
  · exact rej_StampMilli_DateOnly r loc
  · exact rej_Stamp_DateOnly r loc
  · exact rej_DateTime_DateOnly r loc

/-! ## The layouts before TimeOnly on its text -/

theorem rej_Layout_TimeOnly {y m d h mi s ns : Nat} (r : Rng y m d h mi s ns) (loc : Location) :
    parses loc Layout
      (34 :: (d2 h ++ 58 :: (d2 mi ++ 58 :: (d2 s ++ [34])))) = false := by
  apply parses_false_of_isErr
  rw [qchunks_Layout]
  refine (?_ : ∀ st, IsErr (parseChunks loc _ _ _ _ st)) _
  refine rj_eat (skip_byte 34 _ (by decide))
    (eats_ZM_d2 (h) (by have := r.hh; omega) _ _) ?_
  exact rj_skip (skip_ne_head _ 47 _ _ _ (by decide) (headIn_cons 58 _) (by decide))

theorem rej_ANSIC_TimeOnly {y m d h mi s ns : Nat} (r : Rng y m d h mi s ns) (loc : Location) :
    parses loc ANSIC
      (34 :: (d2 h ++ 58 :: (d2 mi ++ 58 :: (d2 s ++ [34])))) = false := by
  apply parses_false_of_isErr
  rw [qchunks_ANSIC]
  refine (?_ : ∀ st, IsErr (parseChunks loc _ _ _ _ st)) _
  exact rj_fail (skip_byte 34 _ (by decide))
    (fails_WD_dig _ _ (headIn_d2 (h) (by have := r.hh; omega) _))

theorem rej_RubyDate_TimeOnly {y m d h mi s ns : Nat} (r : Rng y m d h mi s ns) (loc : Location) :
    parses loc RubyDate
      (34 :: (d2 h ++ 58 :: (d2 mi ++ 58 :: (d2 s ++ [34])))) = false := by
  apply parses_false_of_isErr
  rw [qchunks_RubyDate]
  refine (?_ : ∀ st, IsErr (parseChunks loc _ _ _ _ st)) _
  exact rj_fail (skip_byte 34 _ (by decide))
    (fails_WD_dig _ _ (headIn_d2 (h) (by have := r.hh; omega) _))

theorem rej_UnixDate_TimeOnly {y m d h mi s ns : Nat} (r : Rng y m d h mi s ns) (loc : Location) :
    parses loc UnixDate
      (34 :: (d2 h ++ 58 :: (d2 mi ++ 58 :: (d2 s ++ [34])))) = false := by
  apply parses_false_of_isErr
  rw [qchunks_UnixDate]
  refine (?_ : ∀ st, IsErr (parseChunks loc _ _ _ _ st)) _
  exact rj_fail (skip_byte 34 _ (by decide))
    (fails_WD_dig _ _ (headIn_d2 (h) (by have := r.hh; omega) _))

theorem rej_RFC822Z_TimeOnly {y m d h mi s ns : Nat} (r : Rng y m d h mi s ns) (loc : Location) :
    parses loc RFC822Z
      (34 :: (d2 h ++ 58 :: (d2 mi ++ 58 :: (d2 s ++ [34])))) = false := by
  apply parses_false_of_isErr
  rw [qchunks_RFC822Z]
  refine (?_ : ∀ st, IsErr (parseChunks loc _ _ _ _ st)) _
  refine rj_eat (skip_byte 34 _ (by decide))
    (eats_ZD_d2 (h) (by have := r.hh; omega) _ _) ?_
  exact rj_skip (skip_sp_head _ _ _ _ (headIn_cons 58 _) (by decide))

theorem rej_RFC822_TimeOnly {y m d h mi s ns : Nat} (r : Rng y m d h mi s ns) (loc : Location) :
    parses loc RFC822
      (34 :: (d2 h ++ 58 :: (d2 mi ++ 58 :: (d2 s ++ [34])))) = false := by
  apply parses_false_of_isErr
  rw [qchunks_RFC822]
  refine (?_ : ∀ st, IsErr (parseChunks loc _ _ _ _ st)) _
  refine rj_eat (skip_byte 34 _ (by decide))
    (eats_ZD_d2 (h) (by have := r.hh; omega) _ _) ?_
  exact rj_skip (skip_sp_head _ _ _ _ (headIn_cons 58 _) (by decide))

theorem rej_RFC850_TimeOnly {y m d h mi s ns : Nat} (r : Rng y m d h mi s ns) (loc : Location) :
    parses loc RFC850
      (34 :: (d2 h ++ 58 :: (d2 mi ++ 58 :: (d2 s ++ [34])))) = false := by
  apply parses_false_of_isErr
  rw [qchunks_RFC850]
  refine (?_ : ∀ st, IsErr (parseChunks loc _ _ _ _ st)) _
  exact rj_fail (skip_byte 34 _ (by decide))
    (fails_LWD_dig _ _ (headIn_d2 (h) (by have := r.hh; omega) _))

theorem rej_RFC1123Z_TimeOnly {y m d h mi s ns : Nat} (r : Rng y m d h mi s ns) (loc : Location) :
    parses loc RFC1123Z
      (34 :: (d2 h ++ 58 :: (d2 mi ++ 58 :: (d2 s ++ [34])))) = false := by
  apply parses_false_of_isErr
  rw [qchunks_RFC1123Z]
  refine (?_ : ∀ st, IsErr (parseChunks loc _ _ _ _ st)) _
  exact rj_fail (skip_byte 34 _ (by decide))
    (fails_WD_dig _ _ (headIn_d2 (h) (by have := r.hh; omega) _))

theorem rej_RFC1123_TimeOnly {y m d h mi s ns : Nat} (r : Rng y m d h mi s ns) (loc : Location) :
    parses loc RFC1123
      (34 :: (d2 h ++ 58 :: (d2 mi ++ 58 :: (d2 s ++ [34])))) = false := by
  apply parses_false_of_isErr
  rw [qchunks_RFC1123]
  refine (?_ : ∀ st, IsErr (parseChunks loc _ _ _ _ st)) _
  exact rj_fail (skip_byte 34 _ (by decide))
    (fails_WD_dig _ _ (headIn_d2 (h) (by have := r.hh; omega) _))

theorem rej_RFC3339_TimeOnly {y m d h mi s ns : Nat} (r : Rng y m d h mi s ns) (loc : Location) :
    parses loc RFC3339
      (34 :: (d2 h ++ 58 :: (d2 mi ++ 58 :: (d2 s ++ [34])))) = false := by
  apply parses_false_of_isErr
  rw [qchunks_RFC3339]
  refine (?_ : ∀ st, IsErr (parseChunks loc _ _ _ _ st)) _
  exact rj_fail (skip_byte 34 _ (by decide))
    (fails_LY_d2 (h) (by have := r.hh; omega) 58 _ rfl _)

theorem rej_RFC3339Nano_TimeOnly {y m d h mi s ns : Nat} (r : Rng y m d h mi s ns)
    (loc : Location) :
    parses loc RFC3339Nano
      (34 :: (d2 h ++ 58 :: (d2 mi ++ 58 :: (d2 s ++ [34])))) = false := by
  apply parses_false_of_isErr
  rw [qchunks_RFC3339Nano]
  refine (?_ : ∀ st, IsErr (parseChunks loc _ _ _ _ st)) _
  exact rj_fail (skip_byte 34 _ (by decide))
    (fails_LY_d2 (h) (by have := r.hh; omega) 58 _ rfl _)

theorem rej_Kitchen_TimeOnly {y m d h mi s ns : Nat} (r : Rng y m d h mi s ns) (loc : Location) :
    parses loc Kitchen
      (34 :: (d2 h ++ 58 :: (d2 mi ++ 58 :: (d2 s ++ [34])))) = false := by
  apply parses_false_of_isErr
  rw [qchunks_Kitchen]
  refine (?_ : ∀ st, IsErr (parseChunks loc _ _ _ _ st)) _
  refine rj_eat (skip_byte 34 _ (by decide))
    (eats_H12_d2 (h) (by have := r.hh; omega) _ _) ?_
  refine rj_eat (skip_byte 58 _ (by decide))
    (eats_MI_d2 (mi) (by have := r.hmi; omega) _ _) ?_
  exact rj_fail (skip_nil _)
    (fails_PM_head 58 _ (by decide) _)

theorem rej_StampNano_TimeOnly {y m d h mi s ns : Nat} (r : Rng y m d h mi s ns) (loc : Location) :
    parses loc StampNano
      (34 :: (d2 h ++ 58 :: (d2 mi ++ 58 :: (d2 s ++ [34])))) = false := by
  apply parses_false_of_isErr
  rw [qchunks_StampNano]
  refine (?_ : ∀ st, IsErr (parseChunks loc _ _ _ _ st)) _
  exact rj_fail (skip_byte 34 _ (by decide))
    (fails_MON_dig _ _ (headIn_d2 (h) (by have := r.hh; omega) _))

theorem rej_StampMicro_TimeOnly {y m d h mi s ns : Nat} (r : Rng y m d h mi s ns) (loc : Location) :
    parses loc StampMicro
      (34 :: (d2 h ++ 58 :: (d2 mi ++ 58 :: (d2 s ++ [34])))) = false := by
  apply parses_false_of_isErr
  rw [qchunks_StampMicro]
  refine (?_ : ∀ st, IsErr (parseChunks loc _ _ _ _ st)) _
  exact rj_fail (skip_byte 34 _ (by decide))
    (fails_MON_dig _ _ (headIn_d2 (h) (by have := r.hh; omega) _))

theorem rej_StampMilli_TimeOnly {y m d h mi s ns : Nat} (r : Rng y m d h mi s ns) (loc : Location) :
    parses loc StampMilli
      (34 :: (d2 h ++ 58 :: (d2 mi ++ 58 :: (d2 s ++ [34])))) = false := by
  apply parses_false_of_isErr
  rw [qchunks_StampMilli]
  refine (?_ : ∀ st, IsErr (parseChunks loc _ _ _ _ st)) _
  exact rj_fail (skip_byte 34 _ (by decide))
    (fails_MON_dig _ _ (headIn_d2 (h) (by have := r.hh; omega) _))

theorem rej_Stamp_TimeOnly {y m d h mi s ns : Nat} (r : Rng y m d h mi s ns) (loc : Location) :
    parses loc Stamp
      (34 :: (d2 h ++ 58 :: (d2 mi ++ 58 :: (d2 s ++ [34])))) = false := by
  apply parses_false_of_isErr
  rw [qchunks_Stamp]
  refine (?_ : ∀ st, IsErr (parseChunks loc _ _ _ _ st)) _
  exact rj_fail (skip_byte 34 _ (by decide))
    (fails_MON_dig _ _ (headIn_d2 (h) (by have := r.hh; omega) _))

theorem rej_DateTime_TimeOnly {y m d h mi s ns : Nat} (r : Rng y m d h mi s ns) (loc : Location) :
    parses loc DateTime
      (34 :: (d2 h ++ 58 :: (d2 mi ++ 58 :: (d2 s ++ [34])))) = false := by
  apply parses_false_of_isErr
  rw [qchunks_DateTime]
  refine (?_ : ∀ st, IsErr (parseChunks loc _ _ _ _ st)) _
  exact rj_fail (skip_byte 34 _ (by decide))
    (fails_LY_d2 (h) (by have := r.hh; omega) 58 _ rfl _)

theorem rej_DateOnly_TimeOnly {y m d h mi s ns : Nat} (r : Rng y m d h mi s ns) (loc : Location) :
    parses loc DateOnly
      (34 :: (d2 h ++ 58 :: (d2 mi ++ 58 :: (d2 s ++ [34])))) = false := by
  apply parses_false_of_isErr
  rw [qchunks_DateOnly]
  refine (?_ : ∀ st, IsErr (parseChunks loc _ _ _ _ st)) _
  exact rj_fail (skip_byte 34 _ (by decide))
    (fails_LY_d2 (h) (by have := r.hh; omega) 58 _ rfl _)

theorem rejAll_TimeOnly {y m d h mi s ns : Nat} (r : Rng y m d h mi s ns) (loc : Location) :
    ∀ g ∈ [Layout, ANSIC, RubyDate, UnixDate, RFC822Z, RFC822, RFC850, RFC1123Z, RFC1123, RFC3339,
        RFC3339Nano, Kitchen, StampNano, StampMicro, StampMilli, Stamp, DateTime, DateOnly], parses
        loc g
      (34 :: (d2 h ++ 58 :: (d2 mi ++ 58 :: (d2 s ++ [34])))) = false := by
  intro g hg
  simp only [List.mem_cons, List.mem_singleton, List.not_mem_nil, or_false] at hg
  rcases hg with rfl | rfl | rfl | rfl | rfl | rfl | rfl | rfl | rfl | rfl | rfl | rfl | rfl | rfl |
      rfl | rfl | rfl | rfl
  · exact rej_Layout_TimeOnly r loc
  · exact rej_ANSIC_TimeOnly r loc
  · exact rej_RubyDate_TimeOnly r loc
  · exact rej_UnixDate_TimeOnly r loc
  · exact rej_RFC822Z_TimeOnly r loc
  · exact rej_RFC822_TimeOnly r loc
  · exact rej_RFC850_TimeOnly r loc
  · exact rej_RFC1123Z_TimeOnly r loc
  · exact rej_RFC1123_TimeOnly r loc
  · exact rej_RFC3339_TimeOnly r loc
  · exact rej_RFC3339Nano_TimeOnly r loc
  · exact rej_Kitchen_TimeOnly r loc
  · exact rej_StampNano_TimeOnly r loc
  · exact rej_StampMicro_TimeOnly r loc
  · exact rej_StampMilli_TimeOnly r loc
  · exact rej_Stamp_TimeOnly r loc
  · exact rej_DateTime_TimeOnly r loc
  · exact rej_DateOnly_TimeOnly r loc

end Mft

namespace Mft
open Std

/-! ## The bytes of a formatted text -/

theorem htmlSafe_of (b : Nat) (h : (39 ≤ b ∧ b ≤ 59) ∨ (63 ≤ b ∧ b ≤ 91) ∨ (93 ≤ b ∧ b ≤ 127)
    ∨ b = 32) : htmlSafe b = true := by
  simp only [htmlSafe, Bool.and_eq_true, decide_eq_true_eq]
  omega

theorem safe_nil : Safe [] := fun b hb => absurd hb (List.not_mem_nil b)

theorem safe_cons {c : Nat} {r : GoString} (hc : htmlSafe c = true) (hr : Safe r) :
    Safe (c :: r) := by
  intro b hb
  rcases List.mem_cons.1 hb with h | h
  · rw [h]; exact hc
  · exact hr b h

theorem safe_append {a r : GoString} (ha : Safe a) (hr : Safe r) : Safe (a ++ r) := by
  intro b hb
  rcases List.mem_append.1 hb with h | h
  · exact ha b h
  · exact hr b h

theorem safe_d2 (n : Nat) (h : n < 100) : Safe (d2 n) :=
  safe_cons (htmlSafe_of _ (by omega)) (safe_cons (htmlSafe_of _ (by omega)) safe_nil)

theorem safe_d4 (n : Nat) (h : n < 10000) : Safe (d4 n) :=
  safe_cons (htmlSafe_of _ (by omega)) (safe_cons (htmlSafe_of _ (by omega))
    (safe_cons (htmlSafe_of _ (by omega)) (safe_cons (htmlSafe_of _ (by omega)) safe_nil)))

theorem safe_nd (n : Nat) (h : n < 100) : Safe (nd n) := by
  unfold nd
  split
  · exact safe_cons (htmlSafe_of _ (by omega)) safe_nil
  · exact safe_d2 n h

theorem safe_ud (n : Nat) (h : n < 100) : Safe (ud n) := by
  unfold ud
  split
  · exact safe_append (safe_cons (by decide) safe_nil) (safe_nd n h)
  · exact safe_append safe_nil (safe_nd n h)

theorem safe_digs : ∀ (k u : Nat), Safe (digs k u) := by
  intro k
  induction k with
  | zero => intro u; exact safe_nil
  | succ n ih =>
    intro u
    exact safe_append (ih _) (safe_cons (htmlSafe_of _ (by omega)) safe_nil)

theorem safe_trimDigs : ∀ (k u : Nat), Safe (trimDigs k u) := by
  intro k
  induction k with
  | zero => intro u; exact safe_nil
  | succ n ih =>
    intro u
    unfold trimDigs
    split
    · exact ih _
    · exact safe_digs _ _

theorem safe_frac0 (n ns : Nat) : Safe (frac0 n ns) :=
  safe_cons (by decide) (safe_digs _ _)

theorem safe_f9 (ns : Nat) : Safe (f9 ns) := by
  unfold f9
  split
  · exact safe_nil
  · exact safe_cons (by decide) (safe_trimDigs _ _)

theorem safe_ampm (h : Nat) : Safe (ampm h) := by
  unfold ampm
  split <;> exact safe_cons (by decide) (safe_cons (by decide) safe_nil)

theorem safe_mon3 (m : Nat) (h1 : 1 ≤ m) (h2 : m ≤ 12) : Safe ((monthString m).take 3) := by
  have hall : ∀ k < 12, ∀ b ∈ (monthString (k + 1)).take 3, htmlSafe b = true := by decide
  exact mon3_all (fun m => Safe ((monthString m).take 3)) hall m h1 h2

theorem safe_wd3 (w : Nat) (h : w < 7) : Safe ((weekdayString w).take 3) := by
  have hall : ∀ k < 7, ∀ b ∈ (weekdayString k).take 3, htmlSafe b = true := by decide
  exact hall w h

theorem safe_wdL (w : Nat) (h : w < 7) : Safe (weekdayString w) := by
  have hall : ∀ k < 7, ∀ b ∈ weekdayString k, htmlSafe b = true := by decide
  exact hall w h

/-! ## Periods -/

theorem containsDot_false (v : GoString) (h : NoDot v) : containsDot v = false := by
  unfold containsDot
  cases hc : v.contains 46
  · rfl
  · have : (46 : Nat) ∈ v := by simpa using hc
    exact absurd rfl (h 46 this)

theorem containsDot_true (a r : GoString) : containsDot (a ++ 46 :: r) = true := by
  unfold containsDot
  simp

theorem nodot_nil : NoDot [] := fun b hb => absurd hb (List.not_mem_nil b)

theorem nodot_cons {c : Nat} {r : GoString} (hc : c ≠ 46) (hr : NoDot r) : NoDot (c :: r) := by
  intro b hb
  rcases List.mem_cons.1 hb with h | h
  · rw [h]; exact hc
  · exact hr b h

theorem nodot_append {a r : GoString} (ha : NoDot a) (hr : NoDot r) : NoDot (a ++ r) := by
  intro b hb
  rcases List.mem_append.1 hb with h | h
  · exact ha b h
  · exact hr b h

theorem nodot_d2 (n : Nat) : NoDot (d2 n) :=
  nodot_cons (by omega) (nodot_cons (by omega) nodot_nil)

theorem nodot_d4 (n : Nat) : NoDot (d4 n) :=
  nodot_cons (by omega) (nodot_cons (by omega) (nodot_cons (by omega)
    (nodot_cons (by omega) nodot_nil)))

/-! ## What a second formatting prints -/

theorem y2k_id (y : Nat) (h1 : 1969 ≤ y) (h2 : y ≤ 2068) : y2k (y % 100) = y := by
  unfold y2k; split <;> omega

theorem frac0_trunc (n ns : Nat) (_hn : n ≤ 9) :
    frac0 n (ns / 10 ^ (9 - n) * 10 ^ (9 - n)) = frac0 n ns := by
  unfold frac0
  rw [Nat.mul_div_cancel _ (Nat.pos_pow_of_pos _ (by decide))]

theorem locN_offset (loc : Location) : (locN loc).offset = 0 := by
  unfold locN
  split
  · assumption
  · rfl

theorem onMatch_ne (loc : Location) (mt : MultiFormatTime) (s f : GoString) (t : Time)
    (h : f ≠ RFC3339) : onMatch loc mt s f t = (⟨t, f⟩, none) := by
  simp only [onMatch, if_neg h]

theorem onMatch_nodot (loc : Location) (mt : MultiFormatTime) (s : GoString) (t : Time)
    (h : containsDot s = false) : onMatch loc mt s RFC3339 t = (⟨t, RFC3339⟩, none) := by
  simp [onMatch, h]

theorem onMatch_dot (loc : Location) (mt : MultiFormatTime) (s : GoString) (t t2 : Time)
    (h : containsDot s = true) (hp : Parse loc (quoted RFC3339Nano) s = .ok t2) :
    onMatch loc mt s RFC3339 t = (⟨t2, RFC3339Nano⟩, none) := by
  simp [onMatch, h, hp]

end Mft

namespace Mft
open Std

/-! # The round trip, layout by layout

For each layout: its text needs no JSON escaping; `UnmarshalJSON` of the quoted
text stores the value parsed under that layout, tagged with it; and formatting
the stored value with the tag prints the same text. -/

/-! ## Layout -/

theorem safe_Layout {y m d h mi s ns : Nat} (r : Rng y m d h mi s ns) (loc : Location)
    (hl : loc.offset = 0) :
    Safe ((⟨(y : Int), m, d, h, mi, s, ns, loc⟩ : Time).Format Layout) := by
  rw [format_Layout r loc hl]
  exact safe_append (safe_d2 m (by have := r.hm2; omega)) (safe_cons (by decide) (safe_append
      (safe_d2 d (by have := r.hd3; omega)) (safe_cons (by decide) (safe_append (safe_d2 (h12 h)
      (by have := h12_le h; omega)) (safe_cons (by decide) (safe_append (safe_d2 mi
      (by have := r.hmi; omega)) (safe_cons (by decide) (safe_append (safe_d2 s
      (by have := r.hs; omega)) (safe_append (safe_ampm h) (safe_cons (by decide) (safe_cons
      (by decide) (safe_append (safe_d2 (y % 100) (by omega)) (safe_cons (by decide) (safe_cons
      (by decide) (safe_cons (by decide) (safe_cons (by decide) (safe_cons (by decide) (safe_cons
      (by decide) (safe_nil)))))))))))))))))))

theorem all_Layout {y m d h mi s ns : Nat} (o : Ok y m d h mi s ns) (loc : Location)
    (mt : MultiFormatTime) :
    ∃ P, Parse loc (quoted Layout) (quoted ((⟨(y : Int), m, d, h, mi, s, ns, UTC⟩ : Time).Format
        Layout)) = .ok P ∧
      UnmarshalJSON loc mt (quoted ((⟨(y : Int), m, d, h, mi, s, ns, UTC⟩ : Time).Format Layout))
        = (⟨P, if Layout = RFC3339Nano ∧ ns = 0 then RFC3339 else Layout⟩, none) ∧
      ((Layout = RFC850 → 1969 ≤ y ∧ y ≤ 2068) →
        P.Format (if Layout = RFC3339Nano ∧ ns = 0 then RFC3339 else Layout) =
            (⟨(y : Int), m, d, h, mi, s, ns, UTC⟩ : Time).Format Layout) := by
  have r := o.rng
  have htag : (if Layout = RFC3339Nano ∧ ns = 0 then RFC3339 else Layout) = Layout :=
    if_neg (fun h => absurd h.1 (by decide))
  have hq := qformat_Layout r UTC rfl
  have hp := parse_Layout o loc
  refine ⟨⟨((y2k (y % 100) : Nat) : Int), m, d, h, mi, s, 0, locN loc⟩, ?_, ?_, ?_⟩
  · rw [hq]; exact hp
  · rw [htag, hq]
    unfold UnmarshalJSON
    have hf : formats = [] ++ Layout :: [ANSIC, RubyDate, UnixDate, RFC822Z, RFC822, RFC850,
        RFC1123Z, RFC1123, RFC3339, RFC3339Nano, Kitchen, StampNano, StampMicro, StampMilli, Stamp,
        DateTime, DateOnly, TimeOnly] := rfl
    rw [hf, unmarshalLoop_hit loc mt _ Layout _ _ _ none (fun g hg => absurd hg
        (List.not_mem_nil g)) hp]
    exact onMatch_ne loc mt _ Layout _ (by decide)
  · intro h850
    rw [htag]
    have r2 : Rng (y2k (y % 100)) m d h mi s (0) := ⟨y2k_lt _ (Nat.mod_lt _
        (by decide)), r.hm1, r.hm2, r.hd1, r.hd3, r.hh, r.hmi, r.hs, by decide⟩
    rw [format_Layout r2 (locN loc) (locN_offset loc), format_Layout r UTC rfl]
    rw [y2k_mod (y % 100) (Nat.mod_lt _ (by decide))]

/-! ## ANSIC -/

theorem safe_ANSIC {y m d h mi s ns : Nat} (r : Rng y m d h mi s ns) (loc : Location) :
    Safe ((⟨(y : Int), m, d, h, mi, s, ns, loc⟩ : Time).Format ANSIC) := by
  rw [format_ANSIC r loc]
  exact safe_append (safe_wd3 (wk y m d) (wk_lt y m d)) (safe_cons (by decide) (safe_append
      (safe_mon3 m r.hm1 r.hm2) (safe_cons (by decide) (safe_append (safe_ud d
      (by have := r.hd3; omega)) (safe_cons (by decide) (safe_append (safe_d2 h
      (by have := r.hh; omega)) (safe_cons (by decide) (safe_append (safe_d2 mi
      (by have := r.hmi; omega)) (safe_cons (by decide) (safe_append (safe_d2 s
      (by have := r.hs; omega)) (safe_cons (by decide) (safe_d4 y r.hy))))))))))))

theorem all_ANSIC {y m d h mi s ns : Nat} (o : Ok y m d h mi s ns) (loc : Location)
    (mt : MultiFormatTime) :
    ∃ P, Parse loc (quoted ANSIC) (quoted ((⟨(y : Int), m, d, h, mi, s, ns, UTC⟩ : Time).Format
        ANSIC)) = .ok P ∧
      UnmarshalJSON loc mt (quoted ((⟨(y : Int), m, d, h, mi, s, ns, UTC⟩ : Time).Format ANSIC))
        = (⟨P, if ANSIC = RFC3339Nano ∧ ns = 0 then RFC3339 else ANSIC⟩, none) ∧
      ((ANSIC = RFC850 → 1969 ≤ y ∧ y ≤ 2068) →
        P.Format (if ANSIC = RFC3339Nano ∧ ns = 0 then RFC3339 else ANSIC) =
            (⟨(y : Int), m, d, h, mi, s, ns, UTC⟩ : Time).Format ANSIC) := by
  have r := o.rng
  have htag : (if ANSIC = RFC3339Nano ∧ ns = 0 then RFC3339 else ANSIC) = ANSIC :=
    if_neg (fun h => absurd h.1 (by decide))
  have hq := qformat_ANSIC r UTC
  have hp := parse_ANSIC o loc
  refine ⟨⟨((y : Nat) : Int), m, d, h, mi, s, 0, UTC⟩, ?_, ?_, ?_⟩
  · rw [hq]; exact hp
  · rw [htag, hq]
    unfold UnmarshalJSON
    have hf : formats = [Layout] ++ ANSIC :: [RubyDate, UnixDate, RFC822Z, RFC822, RFC850, RFC1123Z,
        RFC1123, RFC3339, RFC3339Nano, Kitchen, StampNano, StampMicro, StampMilli, Stamp, DateTime,
        DateOnly, TimeOnly] := rfl
    rw [hf, unmarshalLoop_hit loc mt _ ANSIC _ _ _ none (rejAll_ANSIC r loc) hp]
    exact onMatch_ne loc mt _ ANSIC _ (by decide)
  · intro h850
    rw [htag]
    have r2 : Rng (y) m d h mi s (0) := ⟨r.hy, r.hm1, r.hm2, r.hd1, r.hd3, r.hh, r.hmi, r.hs, by
        decide⟩
    rw [format_ANSIC r2 (UTC), format_ANSIC r UTC]

/-! ## RubyDate -/

theorem safe_RubyDate {y m d h mi s ns : Nat} (r : Rng y m d h mi s ns) (loc : Location)
    (hl : loc.offset = 0) :
    Safe ((⟨(y : Int), m, d, h, mi, s, ns, loc⟩ : Time).Format RubyDate) := by
  rw [format_RubyDate r loc hl]
  exact safe_append (safe_wd3 (wk y m d) (wk_lt y m d)) (safe_cons (by decide) (safe_append
      (safe_mon3 m r.hm1 r.hm2) (safe_cons (by decide) (safe_append (safe_d2 d
      (by have := r.hd3; omega)) (safe_cons (by decide) (safe_append (safe_d2 h
      (by have := r.hh; omega)) (safe_cons (by decide) (safe_append (safe_d2 mi
      (by have := r.hmi; omega)) (safe_cons (by decide) (safe_append (safe_d2 s
      (by have := r.hs; omega)) (safe_cons (by decide) (safe_cons (by decide) (safe_cons (by decide)
      (safe_cons (by decide) (safe_cons (by decide) (safe_cons (by decide) (safe_cons (by decide)
      (safe_d4 y r.hy))))))))))))))))))

theorem all_RubyDate {y m d h mi s ns : Nat} (o : Ok y m d h mi s ns) (loc : Location)
    (mt : MultiFormatTime) :
    ∃ P, Parse loc (quoted RubyDate) (quoted ((⟨(y : Int), m, d, h, mi, s, ns, UTC⟩ : Time).Format
        RubyDate)) = .ok P ∧
      UnmarshalJSON loc mt (quoted ((⟨(y : Int), m, d, h, mi, s, ns, UTC⟩ : Time).Format RubyDate))
        = (⟨P, if RubyDate = RFC3339Nano ∧ ns = 0 then RFC3339 else RubyDate⟩, none) ∧
      ((RubyDate = RFC850 → 1969 ≤ y ∧ y ≤ 2068) →
        P.Format (if RubyDate = RFC3339Nano ∧ ns = 0 then RFC3339 else RubyDate) =
            (⟨(y : Int), m, d, h, mi, s, ns, UTC⟩ : Time).Format RubyDate) := by
  have r := o.rng
  have htag : (if RubyDate = RFC3339Nano ∧ ns = 0 then RFC3339 else RubyDate) = RubyDate :=
    if_neg (fun h => absurd h.1 (by decide))
  have hq := qformat_RubyDate r UTC rfl
  have hp := parse_RubyDate o loc
  refine ⟨⟨((y : Nat) : Int), m, d, h, mi, s, 0, locN loc⟩, ?_, ?_, ?_⟩
  · rw [hq]; exact hp
  · rw [htag, hq]
    unfold UnmarshalJSON
    have hf : formats = [Layout, ANSIC] ++ RubyDate :: [UnixDate, RFC822Z, RFC822, RFC850, RFC1123Z,
        RFC1123, RFC3339, RFC3339Nano, Kitchen, StampNano, StampMicro, StampMilli, Stamp, DateTime,
        DateOnly, TimeOnly] := rfl
    rw [hf, unmarshalLoop_hit loc mt _ RubyDate _ _ _ none (rejAll_RubyDate r loc) hp]
    exact onMatch_ne loc mt _ RubyDate _ (by decide)
  · intro h850
    rw [htag]
    have r2 : Rng (y) m d h mi s (0) := ⟨r.hy, r.hm1, r.hm2, r.hd1, r.hd3, r.hh, r.hmi, r.hs, by
        decide⟩
    rw [format_RubyDate r2 (locN loc) (locN_offset loc), format_RubyDate r UTC rfl]

/-! ## UnixDate -/

theorem safe_UnixDate {y m d h mi s ns : Nat} (r : Rng y m d h mi s ns) (loc : Location)
    (hn : loc.name = [85, 84, 67]) :
    Safe ((⟨(y : Int), m, d, h, mi, s, ns, loc⟩ : Time).Format UnixDate) := by
  rw [format_UnixDate r loc hn]
  exact safe_append (safe_wd3 (wk y m d) (wk_lt y m d)) (safe_cons (by decide) (safe_append
      (safe_mon3 m r.hm1 r.hm2) (safe_cons (by decide) (safe_append (safe_ud d
      (by have := r.hd3; omega)) (safe_cons (by decide) (safe_append (safe_d2 h
      (by have := r.hh; omega)) (safe_cons (by decide) (safe_append (safe_d2 mi
      (by have := r.hmi; omega)) (safe_cons (by decide) (safe_append (safe_d2 s
      (by have := r.hs; omega)) (safe_cons (by decide) (safe_cons (by decide) (safe_cons (by decide)
      (safe_cons (by decide) (safe_cons (by decide) (safe_d4 y r.hy))))))))))))))))

theorem all_UnixDate {y m d h mi s ns : Nat} (o : Ok y m d h mi s ns) (loc : Location)
    (mt : MultiFormatTime) :
    ∃ P, Parse loc (quoted UnixDate) (quoted ((⟨(y : Int), m, d, h, mi, s, ns, UTC⟩ : Time).Format
        UnixDate)) = .ok P ∧
      UnmarshalJSON loc mt (quoted ((⟨(y : Int), m, d, h, mi, s, ns, UTC⟩ : Time).Format UnixDate))
        = (⟨P, if UnixDate = RFC3339Nano ∧ ns = 0 then RFC3339 else UnixDate⟩, none) ∧
      ((UnixDate = RFC850 → 1969 ≤ y ∧ y ≤ 2068) →
        P.Format (if UnixDate = RFC3339Nano ∧ ns = 0 then RFC3339 else UnixDate) =
            (⟨(y : Int), m, d, h, mi, s, ns, UTC⟩ : Time).Format UnixDate) := by
  have r := o.rng
  have htag : (if UnixDate = RFC3339Nano ∧ ns = 0 then RFC3339 else UnixDate) = UnixDate :=
    if_neg (fun h => absurd h.1 (by decide))
  have hq := qformat_UnixDate r UTC rfl
  have hp := parse_UnixDate o loc
  refine ⟨⟨((y : Nat) : Int), m, d, h, mi, s, 0, UTC⟩, ?_, ?_, ?_⟩
  · rw [hq]; exact hp
  · rw [htag, hq]
    unfold UnmarshalJSON
    have hf : formats = [Layout, ANSIC, RubyDate] ++ UnixDate :: [RFC822Z, RFC822, RFC850, RFC1123Z,
        RFC1123, RFC3339, RFC3339Nano, Kitchen, StampNano, StampMicro, StampMilli, Stamp, DateTime,
        DateOnly, TimeOnly] := rfl
    rw [hf, unmarshalLoop_hit loc mt _ UnixDate _ _ _ none (rejAll_UnixDate r loc) hp]
    exact onMatch_ne loc mt _ UnixDate _ (by decide)
  · intro h850
    rw [htag]
    have r2 : Rng (y) m d h mi s (0) := ⟨r.hy, r.hm1, r.hm2, r.hd1, r.hd3, r.hh, r.hmi, r.hs, by
        decide⟩
    rw [format_UnixDate r2 (UTC) rfl, format_UnixDate r UTC rfl]

/-! ## RFC822Z -/

theorem safe_RFC822Z {y m d h mi s ns : Nat} (r : Rng y m d h mi s ns) (loc : Location)
    (hl : loc.offset = 0) :
    Safe ((⟨(y : Int), m, d, h, mi, s, ns, loc⟩ : Time).Format RFC822Z) := by
  rw [format_RFC822Z r loc hl]
  exact safe_append (safe_d2 d (by have := r.hd3; omega)) (safe_cons (by decide) (safe_append
      (safe_mon3 m r.hm1 r.hm2) (safe_cons (by decide) (safe_append (safe_d2 (y % 100) (by omega))
      (safe_cons (by decide) (safe_append (safe_d2 h (by have := r.hh; omega)) (safe_cons
      (by decide) (safe_append (safe_d2 mi (by have := r.hmi; omega)) (safe_cons (by decide)
      (safe_cons (by decide) (safe_cons (by decide) (safe_cons (by decide) (safe_cons (by decide)
      (safe_cons (by decide) (safe_nil)))))))))))))))

theorem all_RFC822Z {y m d h mi s ns : Nat} (o : Ok y m d h mi s ns) (loc : Location)
    (mt : MultiFormatTime) :
    ∃ P, Parse loc (quoted RFC822Z) (quoted ((⟨(y : Int), m, d, h, mi, s, ns, UTC⟩ : Time).Format
        RFC822Z)) = .ok P ∧
      UnmarshalJSON loc mt (quoted ((⟨(y : Int), m, d, h, mi, s, ns, UTC⟩ : Time).Format RFC822Z))
        = (⟨P, if RFC822Z = RFC3339Nano ∧ ns = 0 then RFC3339 else RFC822Z⟩, none) ∧
      ((RFC822Z = RFC850 → 1969 ≤ y ∧ y ≤ 2068) →
        P.Format (if RFC822Z = RFC3339Nano ∧ ns = 0 then RFC3339 else RFC822Z) =
            (⟨(y : Int), m, d, h, mi, s, ns, UTC⟩ : Time).Format RFC822Z) := by
  have r := o.rng
  have htag : (if RFC822Z = RFC3339Nano ∧ ns = 0 then RFC3339 else RFC822Z) = RFC822Z :=
    if_neg (fun h => absurd h.1 (by decide))
  have hq := qformat_RFC822Z r UTC rfl
  have hp := parse_RFC822Z o loc
  refine ⟨⟨((y2k (y % 100) : Nat) : Int), m, d, h, mi, 0, 0, locN loc⟩, ?_, ?_, ?_⟩
  · rw [hq]; exact hp
  · rw [htag, hq]
    unfold UnmarshalJSON
    have hf : formats = [Layout, ANSIC, RubyDate, UnixDate] ++ RFC822Z :: [RFC822, RFC850, RFC1123Z,
        RFC1123, RFC3339, RFC3339Nano, Kitchen, StampNano, StampMicro, StampMilli, Stamp, DateTime,
        DateOnly, TimeOnly] := rfl
    rw [hf, unmarshalLoop_hit loc mt _ RFC822Z _ _ _ none (rejAll_RFC822Z r loc) hp]
    exact onMatch_ne loc mt _ RFC822Z _ (by decide)
  · intro h850
    rw [htag]
    have r2 : Rng (y2k (y % 100)) m d h mi 0 (0) := ⟨y2k_lt _ (Nat.mod_lt _
        (by decide)), r.hm1, r.hm2, r.hd1, r.hd3, r.hh, r.hmi, by decide, by decide⟩
    rw [format_RFC822Z r2 (locN loc) (locN_offset loc), format_RFC822Z r UTC rfl]
    rw [y2k_mod (y % 100) (Nat.mod_lt _ (by decide))]

/-! ## RFC822 -/

theorem safe_RFC822 {y m d h mi s ns : Nat} (r : Rng y m d h mi s ns) (loc : Location)
    (hn : loc.name = [85, 84, 67]) :
    Safe ((⟨(y : Int), m, d, h, mi, s, ns, loc⟩ : Time).Format RFC822) := by
  rw [format_RFC822 r loc hn]
  exact safe_append (safe_d2 d (by have := r.hd3; omega)) (safe_cons (by decide) (safe_append
      (safe_mon3 m r.hm1 r.hm2) (safe_cons (by decide) (safe_append (safe_d2 (y % 100) (by omega))
      (safe_cons (by decide) (safe_append (safe_d2 h (by have := r.hh; omega)) (safe_cons
      (by decide) (safe_append (safe_d2 mi (by have := r.hmi; omega)) (safe_cons (by decide)
      (safe_cons (by decide) (safe_cons (by decide) (safe_cons (by decide) (safe_nil)))))))))))))

theorem all_RFC822 {y m d h mi s ns : Nat} (o : Ok y m d h mi s ns) (loc : Location)
    (mt : MultiFormatTime) :
    ∃ P, Parse loc (quoted RFC822) (quoted ((⟨(y : Int), m, d, h, mi, s, ns, UTC⟩ : Time).Format
        RFC822)) = .ok P ∧
      UnmarshalJSON loc mt (quoted ((⟨(y : Int), m, d, h, mi, s, ns, UTC⟩ : Time).Format RFC822))
        = (⟨P, if RFC822 = RFC3339Nano ∧ ns = 0 then RFC3339 else RFC822⟩, none) ∧
      ((RFC822 = RFC850 → 1969 ≤ y ∧ y ≤ 2068) →
        P.Format (if RFC822 = RFC3339Nano ∧ ns = 0 then RFC3339 else RFC822) =
            (⟨(y : Int), m, d, h, mi, s, ns, UTC⟩ : Time).Format RFC822) := by
  have r := o.rng
  have htag : (if RFC822 = RFC3339Nano ∧ ns = 0 then RFC3339 else RFC822) = RFC822 :=
    if_neg (fun h => absurd h.1 (by decide))
  have hq := qformat_RFC822 r UTC rfl
  have hp := parse_RFC822 o loc
  refine ⟨⟨((y2k (y % 100) : Nat) : Int), m, d, h, mi, 0, 0, UTC⟩, ?_, ?_, ?_⟩
  · rw [hq]; exact hp
  · rw [htag, hq]
    unfold UnmarshalJSON
    have hf : formats = [Layout, ANSIC, RubyDate, UnixDate, RFC822Z] ++ RFC822 :: [RFC850, RFC1123Z,
        RFC1123, RFC3339, RFC3339Nano, Kitchen, StampNano, StampMicro, StampMilli, Stamp, DateTime,
        DateOnly, TimeOnly] := rfl
    rw [hf, unmarshalLoop_hit loc mt _ RFC822 _ _ _ none (rejAll_RFC822 r loc) hp]
    exact onMatch_ne loc mt _ RFC822 _ (by decide)
  · intro h850
    rw [htag]
    have r2 : Rng (y2k (y % 100)) m d h mi 0 (0) := ⟨y2k_lt _ (Nat.mod_lt _
        (by decide)), r.hm1, r.hm2, r.hd1, r.hd3, r.hh, r.hmi, by decide, by decide⟩
    rw [format_RFC822 r2 (UTC) rfl, format_RFC822 r UTC rfl]
    rw [y2k_mod (y % 100) (Nat.mod_lt _ (by decide))]

/-! ## RFC850 -/

theorem safe_RFC850 {y m d h mi s ns : Nat} (r : Rng y m d h mi s ns) (loc : Location)
    (hn : loc.name = [85, 84, 67]) :
    Safe ((⟨(y : Int), m, d, h, mi, s, ns, loc⟩ : Time).Format RFC850) := by
  rw [format_RFC850 r loc hn]
  exact safe_append (safe_wdL (wk y m d) (wk_lt y m d)) (safe_cons (by decide) (safe_cons
      (by decide) (safe_append (safe_d2 d (by have := r.hd3; omega)) (safe_cons (by decide)
      (safe_append (safe_mon3 m r.hm1 r.hm2) (safe_cons (by decide) (safe_append (safe_d2 (y % 100)
      (by omega)) (safe_cons (by decide) (safe_append (safe_d2 h (by have := r.hh; omega))
      (safe_cons (by decide) (safe_append (safe_d2 mi (by have := r.hmi; omega)) (safe_cons
      (by decide) (safe_append (safe_d2 s (by have := r.hs; omega)) (safe_cons (by decide)
      (safe_cons (by decide) (safe_cons (by decide) (safe_cons (by decide)
      (safe_nil))))))))))))))))))

theorem all_RFC850 {y m d h mi s ns : Nat} (o : Ok y m d h mi s ns) (loc : Location)
    (mt : MultiFormatTime) :
    ∃ P, Parse loc (quoted RFC850) (quoted ((⟨(y : Int), m, d, h, mi, s, ns, UTC⟩ : Time).Format
        RFC850)) = .ok P ∧
      UnmarshalJSON loc mt (quoted ((⟨(y : Int), m, d, h, mi, s, ns, UTC⟩ : Time).Format RFC850))
        = (⟨P, if RFC850 = RFC3339Nano ∧ ns = 0 then RFC3339 else RFC850⟩, none) ∧
      ((RFC850 = RFC850 → 1969 ≤ y ∧ y ≤ 2068) →
        P.Format (if RFC850 = RFC3339Nano ∧ ns = 0 then RFC3339 else RFC850) =
            (⟨(y : Int), m, d, h, mi, s, ns, UTC⟩ : Time).Format RFC850) := by
  have r := o.rng
  have htag : (if RFC850 = RFC3339Nano ∧ ns = 0 then RFC3339 else RFC850) = RFC850 :=
    if_neg (fun h => absurd h.1 (by decide))
  have hq := qformat_RFC850 r UTC rfl
  have hp := parse_RFC850 o loc
  refine ⟨⟨((y2k (y % 100) : Nat) : Int), m, d, h, mi, s, 0, UTC⟩, ?_, ?_, ?_⟩
  · rw [hq]; exact hp
  · rw [htag, hq]
    unfold UnmarshalJSON
    have hf : formats = [Layout, ANSIC, RubyDate, UnixDate, RFC822Z, RFC822] ++ RFC850 :: [RFC1123Z,
        RFC1123, RFC3339, RFC3339Nano, Kitchen, StampNano, StampMicro, StampMilli, Stamp, DateTime,
        DateOnly, TimeOnly] := rfl
    rw [hf, unmarshalLoop_hit loc mt _ RFC850 _ _ _ none (rejAll_RFC850 r loc) hp]
    exact onMatch_ne loc mt _ RFC850 _ (by decide)
  · intro h850
    rw [htag]
    have r2 : Rng (y2k (y % 100)) m d h mi s (0) := ⟨y2k_lt _ (Nat.mod_lt _
        (by decide)), r.hm1, r.hm2, r.hd1, r.hd3, r.hh, r.hmi, r.hs, by decide⟩
    rw [format_RFC850 r2 (UTC) rfl, format_RFC850 r UTC rfl]
    have e := y2k_id y (h850 rfl).1 (h850 rfl).2
    rw [e]

/-! ## RFC1123Z -/

theorem safe_RFC1123Z {y m d h mi s ns : Nat} (r : Rng y m d h mi s ns) (loc : Location)
    (hl : loc.offset = 0) :
    Safe ((⟨(y : Int), m, d, h, mi, s, ns, loc⟩ : Time).Format RFC1123Z) := by
  rw [format_RFC1123Z r loc hl]
  exact safe_append (safe_wd3 (wk y m d) (wk_lt y m d)) (safe_cons (by decide) (safe_cons
      (by decide) (safe_append (safe_d2 d (by have := r.hd3; omega)) (safe_cons (by decide)
      (safe_append (safe_mon3 m r.hm1 r.hm2) (safe_cons (by decide) (safe_append (safe_d4 y r.hy)
      (safe_cons (by decide) (safe_append (safe_d2 h (by have := r.hh; omega)) (safe_cons
      (by decide) (safe_append (safe_d2 mi (by have := r.hmi; omega)) (safe_cons (by decide)
      (safe_append (safe_d2 s (by have := r.hs; omega)) (safe_cons (by decide) (safe_cons
      (by decide) (safe_cons (by decide) (safe_cons (by decide) (safe_cons (by decide) (safe_cons
      (by decide) (safe_nil))))))))))))))))))))

theorem all_RFC1123Z {y m d h mi s ns : Nat} (o : Ok y m d h mi s ns) (loc : Location)
    (mt : MultiFormatTime) :
    ∃ P, Parse loc (quoted RFC1123Z) (quoted ((⟨(y : Int), m, d, h, mi, s, ns, UTC⟩ : Time).Format
        RFC1123Z)) = .ok P ∧
      UnmarshalJSON loc mt (quoted ((⟨(y : Int), m, d, h, mi, s, ns, UTC⟩ : Time).Format RFC1123Z))
        = (⟨P, if RFC1123Z = RFC3339Nano ∧ ns = 0 then RFC3339 else RFC1123Z⟩, none) ∧
      ((RFC1123Z = RFC850 → 1969 ≤ y ∧ y ≤ 2068) →
        P.Format (if RFC1123Z = RFC3339Nano ∧ ns = 0 then RFC3339 else RFC1123Z) =
            (⟨(y : Int), m, d, h, mi, s, ns, UTC⟩ : Time).Format RFC1123Z) := by
  have r := o.rng
  have htag : (if RFC1123Z = RFC3339Nano ∧ ns = 0 then RFC3339 else RFC1123Z) = RFC1123Z :=
    if_neg (fun h => absurd h.1 (by decide))
  have hq := qformat_RFC1123Z r UTC rfl
  have hp := parse_RFC1123Z o loc
  refine ⟨⟨((y : Nat) : Int), m, d, h, mi, s, 0, locN loc⟩, ?_, ?_, ?_⟩
  · rw [hq]; exact hp
  · rw [htag, hq]
    unfold UnmarshalJSON
    have hf : formats = [Layout, ANSIC, RubyDate, UnixDate, RFC822Z, RFC822, RFC850] ++ RFC1123Z ::
        [RFC1123, RFC3339, RFC3339Nano, Kitchen, StampNano, StampMicro, StampMilli, Stamp, DateTime,
        DateOnly, TimeOnly] := rfl
    rw [hf, unmarshalLoop_hit loc mt _ RFC1123Z _ _ _ none (rejAll_RFC1123Z r loc) hp]
    exact onMatch_ne loc mt _ RFC1123Z _ (by decide)
  · intro h850
    rw [htag]
    have r2 : Rng (y) m d h mi s (0) := ⟨r.hy, r.hm1, r.hm2, r.hd1, r.hd3, r.hh, r.hmi, r.hs, by
        decide⟩
    rw [format_RFC1123Z r2 (locN loc) (locN_offset loc), format_RFC1123Z r UTC rfl]

/-! ## RFC1123 -/

theorem safe_RFC1123 {y m d h mi s ns : Nat} (r : Rng y m d h mi s ns) (loc : Location)
    (hn : loc.name = [85, 84, 67]) :
    Safe ((⟨(y : Int), m, d, h, mi, s, ns, loc⟩ : Time).Format RFC1123) := by
  rw [format_RFC1123 r loc hn]
  exact safe_append (safe_wd3 (wk y m d) (wk_lt y m d)) (safe_cons (by decide) (safe_cons
      (by decide) (safe_append (safe_d2 d (by have := r.hd3; omega)) (safe_cons (by decide)
      (safe_append (safe_mon3 m r.hm1 r.hm2) (safe_cons (by decide) (safe_append (safe_d4 y r.hy)
      (safe_cons (by decide) (safe_append (safe_d2 h (by have := r.hh; omega)) (safe_cons
      (by decide) (safe_append (safe_d2 mi (by have := r.hmi; omega)) (safe_cons (by decide)
      (safe_append (safe_d2 s (by have := r.hs; omega)) (safe_cons (by decide) (safe_cons
      (by decide) (safe_cons (by decide) (safe_cons (by decide) (safe_nil))))))))))))))))))

theorem all_RFC1123 {y m d h mi s ns : Nat} (o : Ok y m d h mi s ns) (loc : Location)
    (mt : MultiFormatTime) :
    ∃ P, Parse loc (quoted RFC1123) (quoted ((⟨(y : Int), m, d, h, mi, s, ns, UTC⟩ : Time).Format
        RFC1123)) = .ok P ∧
      UnmarshalJSON loc mt (quoted ((⟨(y : Int), m, d, h, mi, s, ns, UTC⟩ : Time).Format RFC1123))
        = (⟨P, if RFC1123 = RFC3339Nano ∧ ns = 0 then RFC3339 else RFC1123⟩, none) ∧
      ((RFC1123 = RFC850 → 1969 ≤ y ∧ y ≤ 2068) →
        P.Format (if RFC1123 = RFC3339Nano ∧ ns = 0 then RFC3339 else RFC1123) =
            (⟨(y : Int), m, d, h, mi, s, ns, UTC⟩ : Time).Format RFC1123) := by
  have r := o.rng
  have htag : (if RFC1123 = RFC3339Nano ∧ ns = 0 then RFC3339 else RFC1123) = RFC1123 :=
    if_neg (fun h => absurd h.1 (by decide))
  have hq := qformat_RFC1123 r UTC rfl
  have hp := parse_RFC1123 o loc
  refine ⟨⟨((y : Nat) : Int), m, d, h, mi, s, 0, UTC⟩, ?_, ?_, ?_⟩
  · rw [hq]; exact hp
  · rw [htag, hq]
    unfold UnmarshalJSON
    have hf : formats = [Layout, ANSIC, RubyDate, UnixDate, RFC822Z, RFC822, RFC850, RFC1123Z] ++
        RFC1123 :: [RFC3339, RFC3339Nano, Kitchen, StampNano, StampMicro, StampMilli, Stamp,
        DateTime, DateOnly, TimeOnly] := rfl
    rw [hf, unmarshalLoop_hit loc mt _ RFC1123 _ _ _ none (rejAll_RFC1123 r loc) hp]
    exact onMatch_ne loc mt _ RFC1123 _ (by decide)
  · intro h850
    rw [htag]
    have r2 : Rng (y) m d h mi s (0) := ⟨r.hy, r.hm1, r.hm2, r.hd1, r.hd3, r.hh, r.hmi, r.hs, by
        decide⟩
    rw [format_RFC1123 r2 (UTC) rfl, format_RFC1123 r UTC rfl]

/-! ## RFC3339 -/

theorem safe_RFC3339 {y m d h mi s ns : Nat} (r : Rng y m d h mi s ns) (loc : Location)
    (hl : loc.offset = 0) :
    Safe ((⟨(y : Int), m, d, h, mi, s, ns, loc⟩ : Time).Format RFC3339) := by
  rw [format_RFC3339 r loc hl]
  exact safe_append (safe_d4 y r.hy) (safe_cons (by decide) (safe_append (safe_d2 m
      (by have := r.hm2; omega)) (safe_cons (by decide) (safe_append (safe_d2 d
      (by have := r.hd3; omega)) (safe_cons (by decide) (safe_append (safe_d2 h
      (by have := r.hh; omega)) (safe_cons (by decide) (safe_append (safe_d2 mi
      (by have := r.hmi; omega)) (safe_cons (by decide) (safe_append (safe_d2 s
      (by have := r.hs; omega)) (safe_cons (by decide) (safe_nil))))))))))))

/-! ## RFC3339Nano -/

theorem safe_RFC3339Nano {y m d h mi s ns : Nat} (r : Rng y m d h mi s ns) (loc : Location)
    (hl : loc.offset = 0) :
    Safe ((⟨(y : Int), m, d, h, mi, s, ns, loc⟩ : Time).Format RFC3339Nano) := by
  rw [format_RFC3339Nano r loc hl]
  exact safe_append (safe_d4 y r.hy) (safe_cons (by decide) (safe_append (safe_d2 m
      (by have := r.hm2; omega)) (safe_cons (by decide) (safe_append (safe_d2 d
      (by have := r.hd3; omega)) (safe_cons (by decide) (safe_append (safe_d2 h
      (by have := r.hh; omega)) (safe_cons (by decide) (safe_append (safe_d2 mi
      (by have := r.hmi; omega)) (safe_cons (by decide) (safe_append (safe_d2 s
      (by have := r.hs; omega)) (safe_append (safe_f9 ns) (safe_cons (by decide)
      (safe_nil)))))))))))))

/-! ## Kitchen -/

theorem safe_Kitchen {y m d h mi s ns : Nat} (r : Rng y m d h mi s ns) (loc : Location) :
    Safe ((⟨(y : Int), m, d, h, mi, s, ns, loc⟩ : Time).Format Kitchen) := by
  rw [format_Kitchen r loc]
  exact safe_append (safe_nd (h12 h) (by have := h12_le h; omega)) (safe_cons (by decide)
      (safe_append (safe_d2 mi (by have := r.hmi; omega)) (safe_ampm h)))

theorem all_Kitchen {y m d h mi s ns : Nat} (o : Ok y m d h mi s ns) (loc : Location)
    (mt : MultiFormatTime) :
    ∃ P, Parse loc (quoted Kitchen) (quoted ((⟨(y : Int), m, d, h, mi, s, ns, UTC⟩ : Time).Format
        Kitchen)) = .ok P ∧
      UnmarshalJSON loc mt (quoted ((⟨(y : Int), m, d, h, mi, s, ns, UTC⟩ : Time).Format Kitchen))
        = (⟨P, if Kitchen = RFC3339Nano ∧ ns = 0 then RFC3339 else Kitchen⟩, none) ∧
      ((Kitchen = RFC850 → 1969 ≤ y ∧ y ≤ 2068) →
        P.Format (if Kitchen = RFC3339Nano ∧ ns = 0 then RFC3339 else Kitchen) =
            (⟨(y : Int), m, d, h, mi, s, ns, UTC⟩ : Time).Format Kitchen) := by
  have r := o.rng
  have htag : (if Kitchen = RFC3339Nano ∧ ns = 0 then RFC3339 else Kitchen) = Kitchen :=
    if_neg (fun h => absurd h.1 (by decide))
  have hq := qformat_Kitchen r UTC
  have hp := parse_Kitchen o loc
  refine ⟨⟨((0 : Nat) : Int), 1, 1, h, mi, 0, 0, UTC⟩, ?_, ?_, ?_⟩
  · rw [hq]; exact hp
  · rw [htag, hq]
    unfold UnmarshalJSON
    have hf : formats = [Layout, ANSIC, RubyDate, UnixDate, RFC822Z, RFC822, RFC850, RFC1123Z,
        RFC1123, RFC3339, RFC3339Nano] ++ Kitchen :: [StampNano, StampMicro, StampMilli, Stamp,
        DateTime, DateOnly, TimeOnly] := rfl
    rw [hf, unmarshalLoop_hit loc mt _ Kitchen _ _ _ none (rejAll_Kitchen r loc) hp]
    exact onMatch_ne loc mt _ Kitchen _ (by decide)
  · intro h850
    rw [htag]
    have r2 : Rng (0) 1 1 h mi 0 (0) := ⟨by decide, by decide, by decide, by decide, by decide,
        r.hh, r.hmi, by decide, by decide⟩
    rw [format_Kitchen r2 (UTC), format_Kitchen r UTC]

/-! ## StampNano -/

theorem safe_StampNano {y m d h mi s ns : Nat} (r : Rng y m d h mi s ns) (loc : Location) :
    Safe ((⟨(y : Int), m, d, h, mi, s, ns, loc⟩ : Time).Format StampNano) := by
  rw [format_StampNano r loc]
  exact safe_append (safe_mon3 m r.hm1 r.hm2) (safe_cons (by decide) (safe_append (safe_ud d
      (by have := r.hd3; omega)) (safe_cons (by decide) (safe_append (safe_d2 h
      (by have := r.hh; omega)) (safe_cons (by decide) (safe_append (safe_d2 mi
      (by have := r.hmi; omega)) (safe_cons (by decide) (safe_append (safe_d2 s
      (by have := r.hs; omega)) (safe_frac0 9 ns)))))))))

theorem all_StampNano {y m d h mi s ns : Nat} (o : Ok y m d h mi s ns) (loc : Location)
    (mt : MultiFormatTime) :
    ∃ P, Parse loc (quoted StampNano) (quoted ((⟨(y : Int), m, d, h, mi, s, ns, UTC⟩ : Time).Format
        StampNano)) = .ok P ∧
      UnmarshalJSON loc mt (quoted ((⟨(y : Int), m, d, h, mi, s, ns, UTC⟩ : Time).Format StampNano))
        = (⟨P, if StampNano = RFC3339Nano ∧ ns = 0 then RFC3339 else StampNano⟩, none) ∧
      ((StampNano = RFC850 → 1969 ≤ y ∧ y ≤ 2068) →
        P.Format (if StampNano = RFC3339Nano ∧ ns = 0 then RFC3339 else StampNano) =
            (⟨(y : Int), m, d, h, mi, s, ns, UTC⟩ : Time).Format StampNano) := by
  have r := o.rng
  have htag : (if StampNano = RFC3339Nano ∧ ns = 0 then RFC3339 else StampNano) = StampNano :=
    if_neg (fun h => absurd h.1 (by decide))
  have hq := qformat_StampNano r UTC
  have hp := parse_StampNano o loc
  refine ⟨⟨((0 : Nat) : Int), m, d, h, mi, s, ns, UTC⟩, ?_, ?_, ?_⟩
  · rw [hq]; exact hp
  · rw [htag, hq]
    unfold UnmarshalJSON
    have hf : formats = [Layout, ANSIC, RubyDate, UnixDate, RFC822Z, RFC822, RFC850, RFC1123Z,
        RFC1123, RFC3339, RFC3339Nano, Kitchen] ++ StampNano :: [StampMicro, StampMilli, Stamp,
        DateTime, DateOnly, TimeOnly] := rfl
    rw [hf, unmarshalLoop_hit loc mt _ StampNano _ _ _ none (rejAll_StampNano r loc) hp]
    exact onMatch_ne loc mt _ StampNano _ (by decide)
  · intro h850
    rw [htag]
    have r2 : Rng (0) m d h mi s (ns) := ⟨by decide, r.hm1, r.hm2, r.hd1, r.hd3, r.hh, r.hmi, r.hs,
        r.hns⟩
    rw [format_StampNano r2 (UTC), format_StampNano r UTC]

/-! ## StampMicro -/

theorem safe_StampMicro {y m d h mi s ns : Nat} (r : Rng y m d h mi s ns) (loc : Location) :
    Safe ((⟨(y : Int), m, d, h, mi, s, ns, loc⟩ : Time).Format StampMicro) := by
  rw [format_StampMicro r loc]
  exact safe_append (safe_mon3 m r.hm1 r.hm2) (safe_cons (by decide) (safe_append (safe_ud d
      (by have := r.hd3; omega)) (safe_cons (by decide) (safe_append (safe_d2 h
      (by have := r.hh; omega)) (safe_cons (by decide) (safe_append (safe_d2 mi
      (by have := r.hmi; omega)) (safe_cons (by decide) (safe_append (safe_d2 s
      (by have := r.hs; omega)) (safe_frac0 6 ns)))))))))

theorem all_StampMicro {y m d h mi s ns : Nat} (o : Ok y m d h mi s ns) (loc : Location)
    (mt : MultiFormatTime) :
    ∃ P, Parse loc (quoted StampMicro) (quoted ((⟨(y : Int), m, d, h, mi, s, ns, UTC⟩ : Time).Format
        StampMicro)) = .ok P ∧
      UnmarshalJSON loc mt (quoted ((⟨(y : Int), m, d, h, mi, s, ns, UTC⟩ : Time).Format
          StampMicro))
        = (⟨P, if StampMicro = RFC3339Nano ∧ ns = 0 then RFC3339 else StampMicro⟩, none) ∧
      ((StampMicro = RFC850 → 1969 ≤ y ∧ y ≤ 2068) →
        P.Format (if StampMicro = RFC3339Nano ∧ ns = 0 then RFC3339 else StampMicro) =
            (⟨(y : Int), m, d, h, mi, s, ns, UTC⟩ : Time).Format StampMicro) := by
  have r := o.rng
  have htag : (if StampMicro = RFC3339Nano ∧ ns = 0 then RFC3339 else StampMicro) = StampMicro :=
    if_neg (fun h => absurd h.1 (by decide))
  have hq := qformat_StampMicro r UTC
  have hp := parse_StampMicro o loc
  refine ⟨⟨((0 : Nat) : Int), m, d, h, mi, s, ns / 1000 * 1000, UTC⟩, ?_, ?_, ?_⟩
  · rw [hq]; exact hp
  · rw [htag, hq]
    unfold UnmarshalJSON
    have hf : formats = [Layout, ANSIC, RubyDate, UnixDate, RFC822Z, RFC822, RFC850, RFC1123Z,
        RFC1123, RFC3339, RFC3339Nano, Kitchen, StampNano] ++ StampMicro :: [StampMilli, Stamp,
        DateTime, DateOnly, TimeOnly] := rfl
    rw [hf, unmarshalLoop_hit loc mt _ StampMicro _ _ _ none (rejAll_StampMicro r loc) hp]
    exact onMatch_ne loc mt _ StampMicro _ (by decide)
  · intro h850
    rw [htag]
    have r2 : Rng (0) m d h mi s (ns / 1000 * 1000) := ⟨by decide, r.hm1, r.hm2, r.hd1, r.hd3, r.hh,
        r.hmi, r.hs, by have := r.hns; have := Nat.div_mul_le_self ns 1000; omega⟩
    rw [format_StampMicro r2 (UTC), format_StampMicro r UTC]
    have e := frac0_trunc 6 ns (by decide)
    norm_num at e
    rw [e]

/-! ## StampMilli -/

theorem safe_StampMilli {y m d h mi s ns : Nat} (r : Rng y m d h mi s ns) (loc : Location) :
    Safe ((⟨(y : Int), m, d, h, mi, s, ns, loc⟩ : Time).Format StampMilli) := by
  rw [format_StampMilli r loc]
  exact safe_append (safe_mon3 m r.hm1 r.hm2) (safe_cons (by decide) (safe_append (safe_ud d
      (by have := r.hd3; omega)) (safe_cons (by decide) (safe_append (safe_d2 h
      (by have := r.hh; omega)) (safe_cons (by decide) (safe_append (safe_d2 mi
      (by have := r.hmi; omega)) (safe_cons (by decide) (safe_append (safe_d2 s
      (by have := r.hs; omega)) (safe_frac0 3 ns)))))))))

theorem all_StampMilli {y m d h mi s ns : Nat} (o : Ok y m d h mi s ns) (loc : Location)
    (mt : MultiFormatTime) :
    ∃ P, Parse loc (quoted StampMilli) (quoted ((⟨(y : Int), m, d, h, mi, s, ns, UTC⟩ : Time).Format
        StampMilli)) = .ok P ∧
      UnmarshalJSON loc mt (quoted ((⟨(y : Int), m, d, h, mi, s, ns, UTC⟩ : Time).Format
          StampMilli))
        = (⟨P, if StampMilli = RFC3339Nano ∧ ns = 0 then RFC3339 else StampMilli⟩, none) ∧
      ((StampMilli = RFC850 → 1969 ≤ y ∧ y ≤ 2068) →
        P.Format (if StampMilli = RFC3339Nano ∧ ns = 0 then RFC3339 else StampMilli) =
            (⟨(y : Int), m, d, h, mi, s, ns, UTC⟩ : Time).Format StampMilli) := by
  have r := o.rng
  have htag : (if StampMilli = RFC3339Nano ∧ ns = 0 then RFC3339 else StampMilli) = StampMilli :=
    if_neg (fun h => absurd h.1 (by decide))
  have hq := qformat_StampMilli r UTC
  have hp := parse_StampMilli o loc
  refine ⟨⟨((0 : Nat) : Int), m, d, h, mi, s, ns / 1000000 * 1000000, UTC⟩, ?_, ?_, ?_⟩
  · rw [hq]; exact hp
  · rw [htag, hq]
    unfold UnmarshalJSON
    have hf : formats = [Layout, ANSIC, RubyDate, UnixDate, RFC822Z, RFC822, RFC850, RFC1123Z,
        RFC1123, RFC3339, RFC3339Nano, Kitchen, StampNano, StampMicro] ++ StampMilli :: [Stamp,
        DateTime, DateOnly, TimeOnly] := rfl
    rw [hf, unmarshalLoop_hit loc mt _ StampMilli _ _ _ none (rejAll_StampMilli r loc) hp]
    exact onMatch_ne loc mt _ StampMilli _ (by decide)
  · intro h850
    rw [htag]
    have r2 : Rng (0) m d h mi s (ns / 1000000 * 1000000) := ⟨by decide, r.hm1, r.hm2, r.hd1, r.hd3,
        r.hh, r.hmi, r.hs, by have := r.hns; have := Nat.div_mul_le_self ns 1000000; omega⟩
    rw [format_StampMilli r2 (UTC), format_StampMilli r UTC]
    have e := frac0_trunc 3 ns (by decide)
    norm_num at e
    rw [e]

/-! ## Stamp -/

theorem safe_Stamp {y m d h mi s ns : Nat} (r : Rng y m d h mi s ns) (loc : Location) :
    Safe ((⟨(y : Int), m, d, h, mi, s, ns, loc⟩ : Time).Format Stamp) := by
  rw [format_Stamp r loc]
  exact safe_append (safe_mon3 m r.hm1 r.hm2) (safe_cons (by decide) (safe_append (safe_ud d
      (by have := r.hd3; omega)) (safe_cons (by decide) (safe_append (safe_d2 h
      (by have := r.hh; omega)) (safe_cons (by decide) (safe_append (safe_d2 mi
      (by have := r.hmi; omega)) (safe_cons (by decide) (safe_d2 s (by have := r.hs; omega)))))))))

theorem all_Stamp {y m d h mi s ns : Nat} (o : Ok y m d h mi s ns) (loc : Location)
    (mt : MultiFormatTime) :
    ∃ P, Parse loc (quoted Stamp) (quoted ((⟨(y : Int), m, d, h, mi, s, ns, UTC⟩ : Time).Format
        Stamp)) = .ok P ∧
      UnmarshalJSON loc mt (quoted ((⟨(y : Int), m, d, h, mi, s, ns, UTC⟩ : Time).Format Stamp))
        = (⟨P, if Stamp = RFC3339Nano ∧ ns = 0 then RFC3339 else Stamp⟩, none) ∧
      ((Stamp = RFC850 → 1969 ≤ y ∧ y ≤ 2068) →
        P.Format (if Stamp = RFC3339Nano ∧ ns = 0 then RFC3339 else Stamp) =
            (⟨(y : Int), m, d, h, mi, s, ns, UTC⟩ : Time).Format Stamp) := by
  have r := o.rng
  have htag : (if Stamp = RFC3339Nano ∧ ns = 0 then RFC3339 else Stamp) = Stamp :=
    if_neg (fun h => absurd h.1 (by decide))
  have hq := qformat_Stamp r UTC
  have hp := parse_Stamp o loc
  refine ⟨⟨((0 : Nat) : Int), m, d, h, mi, s, 0, UTC⟩, ?_, ?_, ?_⟩
  · rw [hq]; exact hp
  · rw [htag, hq]
    unfold UnmarshalJSON
    have hf : formats = [Layout, ANSIC, RubyDate, UnixDate, RFC822Z, RFC822, RFC850, RFC1123Z,
        RFC1123, RFC3339, RFC3339Nano, Kitchen, StampNano, StampMicro, StampMilli] ++ Stamp ::
        [DateTime, DateOnly, TimeOnly] := rfl
    rw [hf, unmarshalLoop_hit loc mt _ Stamp _ _ _ none (rejAll_Stamp r loc) hp]
    exact onMatch_ne loc mt _ Stamp _ (by decide)
  · intro h850
    rw [htag]
    have r2 : Rng (0) m d h mi s (0) := ⟨by decide, r.hm1, r.hm2, r.hd1, r.hd3, r.hh, r.hmi, r.hs,
        by decide⟩
    rw [format_Stamp r2 (UTC), format_Stamp r UTC]

/-! ## DateTime -/

theorem safe_DateTime {y m d h mi s ns : Nat} (r : Rng y m d h mi s ns) (loc : Location) :
    Safe ((⟨(y : Int), m, d, h, mi, s, ns, loc⟩ : Time).Format DateTime) := by
  rw [format_DateTime r loc]
  exact safe_append (safe_d4 y r.hy) (safe_cons (by decide) (safe_append (safe_d2 m
      (by have := r.hm2; omega)) (safe_cons (by decide) (safe_append (safe_d2 d
      (by have := r.hd3; omega)) (safe_cons (by decide) (safe_append (safe_d2 h
      (by have := r.hh; omega)) (safe_cons (by decide) (safe_append (safe_d2 mi
      (by have := r.hmi; omega)) (safe_cons (by decide) (safe_d2 s
      (by have := r.hs; omega)))))))))))

theorem all_DateTime {y m d h mi s ns : Nat} (o : Ok y m d h mi s ns) (loc : Location)
    (mt : MultiFormatTime) :
    ∃ P, Parse loc (quoted DateTime) (quoted ((⟨(y : Int), m, d, h, mi, s, ns, UTC⟩ : Time).Format
        DateTime)) = .ok P ∧
      UnmarshalJSON loc mt (quoted ((⟨(y : Int), m, d, h, mi, s, ns, UTC⟩ : Time).Format DateTime))
        = (⟨P, if DateTime = RFC3339Nano ∧ ns = 0 then RFC3339 else DateTime⟩, none) ∧
      ((DateTime = RFC850 → 1969 ≤ y ∧ y ≤ 2068) →
        P.Format (if DateTime = RFC3339Nano ∧ ns = 0 then RFC3339 else DateTime) =
            (⟨(y : Int), m, d, h, mi, s, ns, UTC⟩ : Time).Format DateTime) := by
  have r := o.rng
  have htag : (if DateTime = RFC3339Nano ∧ ns = 0 then RFC3339 else DateTime) = DateTime :=
    if_neg (fun h => absurd h.1 (by decide))
  have hq := qformat_DateTime r UTC
  have hp := parse_DateTime o loc
  refine ⟨⟨((y : Nat) : Int), m, d, h, mi, s, 0, UTC⟩, ?_, ?_, ?_⟩
  · rw [hq]; exact hp
  · rw [htag, hq]
    unfold UnmarshalJSON
    have hf : formats = [Layout, ANSIC, RubyDate, UnixDate, RFC822Z, RFC822, RFC850, RFC1123Z,
        RFC1123, RFC3339, RFC3339Nano, Kitchen, StampNano, StampMicro, StampMilli, Stamp] ++
        DateTime :: [DateOnly, TimeOnly] := rfl
    rw [hf, unmarshalLoop_hit loc mt _ DateTime _ _ _ none (rejAll_DateTime r loc) hp]
    exact onMatch_ne loc mt _ DateTime _ (by decide)
  · intro h850
    rw [htag]
    have r2 : Rng (y) m d h mi s (0) := ⟨r.hy, r.hm1, r.hm2, r.hd1, r.hd3, r.hh, r.hmi, r.hs, by
        decide⟩
    rw [format_DateTime r2 (UTC), format_DateTime r UTC]

/-! ## DateOnly -/

theorem safe_DateOnly {y m d h mi s ns : Nat} (r : Rng y m d h mi s ns) (loc : Location) :
    Safe ((⟨(y : Int), m, d, h, mi, s, ns, loc⟩ : Time).Format DateOnly) := by
  rw [format_DateOnly r loc]
  exact safe_append (safe_d4 y r.hy) (safe_cons (by decide) (safe_append (safe_d2 m
      (by have := r.hm2; omega)) (safe_cons (by decide) (safe_d2 d (by have := r.hd3; omega)))))

theorem all_DateOnly {y m d h mi s ns : Nat} (o : Ok y m d h mi s ns) (loc : Location)
    (mt : MultiFormatTime) :
    ∃ P, Parse loc (quoted DateOnly) (quoted ((⟨(y : Int), m, d, h, mi, s, ns, UTC⟩ : Time).Format
        DateOnly)) = .ok P ∧
      UnmarshalJSON loc mt (quoted ((⟨(y : Int), m, d, h, mi, s, ns, UTC⟩ : Time).Format DateOnly))
        = (⟨P, if DateOnly = RFC3339Nano ∧ ns = 0 then RFC3339 else DateOnly⟩, none) ∧
      ((DateOnly = RFC850 → 1969 ≤ y ∧ y ≤ 2068) →
        P.Format (if DateOnly = RFC3339Nano ∧ ns = 0 then RFC3339 else DateOnly) =
            (⟨(y : Int), m, d, h, mi, s, ns, UTC⟩ : Time).Format DateOnly) := by
  have r := o.rng
  have htag : (if DateOnly = RFC3339Nano ∧ ns = 0 then RFC3339 else DateOnly) = DateOnly :=
    if_neg (fun h => absurd h.1 (by decide))
  have hq := qformat_DateOnly r UTC
  have hp := parse_DateOnly o loc
  refine ⟨⟨((y : Nat) : Int), m, d, 0, 0, 0, 0, UTC⟩, ?_, ?_, ?_⟩
  · rw [hq]; exact hp
  · rw [htag, hq]
    unfold UnmarshalJSON
    have hf : formats = [Layout, ANSIC, RubyDate, UnixDate, RFC822Z, RFC822, RFC850, RFC1123Z,
        RFC1123, RFC3339, RFC3339Nano, Kitchen, StampNano, StampMicro, StampMilli, Stamp, DateTime]
        ++ DateOnly :: [TimeOnly] := rfl
    rw [hf, unmarshalLoop_hit loc mt _ DateOnly _ _ _ none (rejAll_DateOnly r loc) hp]
    exact onMatch_ne loc mt _ DateOnly _ (by decide)
  · intro h850
    rw [htag]
    have r2 : Rng (y) m d 0 0 0 (0) := ⟨r.hy, r.hm1, r.hm2, r.hd1, r.hd3, by decide, by decide, by
        decide, by decide⟩
    rw [format_DateOnly r2 (UTC), format_DateOnly r UTC]

/-! ## TimeOnly -/

theorem safe_TimeOnly {y m d h mi s ns : Nat} (r : Rng y m d h mi s ns) (loc : Location) :
    Safe ((⟨(y : Int), m, d, h, mi, s, ns, loc⟩ : Time).Format TimeOnly) := by
  rw [format_TimeOnly r loc]
  exact safe_append (safe_d2 h (by have := r.hh; omega)) (safe_cons (by decide) (safe_append
      (safe_d2 mi (by have := r.hmi; omega)) (safe_cons (by decide) (safe_d2 s
      (by have := r.hs; omega)))))

theorem all_TimeOnly {y m d h mi s ns : Nat} (o : Ok y m d h mi s ns) (loc : Location)
    (mt : MultiFormatTime) :
    ∃ P, Parse loc (quoted TimeOnly) (quoted ((⟨(y : Int), m, d, h, mi, s, ns, UTC⟩ : Time).Format
        TimeOnly)) = .ok P ∧
      UnmarshalJSON loc mt (quoted ((⟨(y : Int), m, d, h, mi, s, ns, UTC⟩ : Time).Format TimeOnly))
        = (⟨P, if TimeOnly = RFC3339Nano ∧ ns = 0 then RFC3339 else TimeOnly⟩, none) ∧
      ((TimeOnly = RFC850 → 1969 ≤ y ∧ y ≤ 2068) →
        P.Format (if TimeOnly = RFC3339Nano ∧ ns = 0 then RFC3339 else TimeOnly) =
            (⟨(y : Int), m, d, h, mi, s, ns, UTC⟩ : Time).Format TimeOnly) := by
  have r := o.rng
  have htag : (if TimeOnly = RFC3339Nano ∧ ns = 0 then RFC3339 else TimeOnly) = TimeOnly :=
    if_neg (fun h => absurd h.1 (by decide))
  have hq := qformat_TimeOnly r UTC
  have hp := parse_TimeOnly o loc
  refine ⟨⟨((0 : Nat) : Int), 1, 1, h, mi, s, 0, UTC⟩, ?_, ?_, ?_⟩
  · rw [hq]; exact hp
  · rw [htag, hq]
    unfold UnmarshalJSON
    have hf : formats = [Layout, ANSIC, RubyDate, UnixDate, RFC822Z, RFC822, RFC850, RFC1123Z,
        RFC1123, RFC3339, RFC3339Nano, Kitchen, StampNano, StampMicro, StampMilli, Stamp, DateTime,
        DateOnly] ++ TimeOnly :: [] := rfl
    rw [hf, unmarshalLoop_hit loc mt _ TimeOnly _ _ _ none (rejAll_TimeOnly r loc) hp]
    exact onMatch_ne loc mt _ TimeOnly _ (by decide)
  · intro h850
    rw [htag]
    have r2 : Rng (0) 1 1 h mi s (0) := ⟨by decide, by decide, by decide, by decide, by decide,
        r.hh, r.hmi, r.hs, by decide⟩
    rw [format_TimeOnly r2 (UTC), format_TimeOnly r UTC]

end Mft

namespace Mft
open Std

/-! ## RFC3339 and RFC3339Nano -/

theorem all_RFC3339 {y m d h mi s ns : Nat} (o : Ok y m d h mi s ns) (loc : Location)
    (mt : MultiFormatTime) :
    ∃ P, Parse loc (quoted RFC3339)
        (quoted ((⟨(y : Int), m, d, h, mi, s, ns, UTC⟩ : Time).Format RFC3339)) = .ok P ∧
      UnmarshalJSON loc mt (quoted ((⟨(y : Int), m, d, h, mi, s, ns, UTC⟩ : Time).Format RFC3339))
        = (⟨P, if RFC3339 = RFC3339Nano ∧ ns = 0 then RFC3339 else RFC3339⟩, none) ∧
      ((RFC3339 = RFC850 → 1969 ≤ y ∧ y ≤ 2068) →
        P.Format (if RFC3339 = RFC3339Nano ∧ ns = 0 then RFC3339 else RFC3339)
          = (⟨(y : Int), m, d, h, mi, s, ns, UTC⟩ : Time).Format RFC3339) := by
  have r := o.rng
  have htag : (if RFC3339 = RFC3339Nano ∧ ns = 0 then RFC3339 else RFC3339) = RFC3339 :=
    if_neg (fun h => absurd h.1 (by decide))
  have hq := qformat_RFC3339 r UTC rfl
  have hp := parse_RFC3339 o loc
  refine ⟨⟨(y : Int), m, d, h, mi, s, 0, UTC⟩, ?_, ?_, ?_⟩
  · rw [hq]; exact hp
  · rw [htag, hq]
    unfold UnmarshalJSON
    have hf : formats = [Layout, ANSIC, RubyDate, UnixDate, RFC822Z, RFC822, RFC850, RFC1123Z,
        RFC1123] ++ RFC3339 :: [RFC3339Nano, Kitchen, StampNano, StampMicro, StampMilli, Stamp,
        DateTime, DateOnly, TimeOnly] := rfl
    rw [hf, unmarshalLoop_hit loc mt _ RFC3339 _ _ _ none (rejAll_RFC3339 r loc) hp]
    apply onMatch_nodot
    apply containsDot_false
    exact nodot_cons (by decide) (nodot_append (nodot_d4 y) (nodot_cons (by decide) (nodot_append
        (nodot_d2 m) (nodot_cons (by decide) (nodot_append (nodot_d2 d) (nodot_cons (by decide)
        (nodot_append (nodot_d2 h) (nodot_cons (by decide) (nodot_append (nodot_d2 mi) (nodot_cons
        (by decide) (nodot_append (nodot_d2 s) (nodot_cons (by decide) (nodot_cons (by decide)
        (nodot_nil))))))))))))))
  · intro _
    rw [htag]
    have r2 : Rng y m d h mi s 0 := ⟨r.hy, r.hm1, r.hm2, r.hd1, r.hd3, r.hh, r.hmi, r.hs, by decide⟩
    rw [format_RFC3339 r2 UTC rfl, format_RFC3339 r UTC rfl]

theorem all_RFC3339Nano {y m d h mi s ns : Nat} (o : Ok y m d h mi s ns) (loc : Location)
    (mt : MultiFormatTime) :
    ∃ P, Parse loc (quoted RFC3339Nano)
        (quoted ((⟨(y : Int), m, d, h, mi, s, ns, UTC⟩ : Time).Format RFC3339Nano)) = .ok P ∧
      UnmarshalJSON loc mt
          (quoted ((⟨(y : Int), m, d, h, mi, s, ns, UTC⟩ : Time).Format RFC3339Nano))
        = (⟨P, if RFC3339Nano = RFC3339Nano ∧ ns = 0 then RFC3339 else RFC3339Nano⟩, none) ∧
      ((RFC3339Nano = RFC850 → 1969 ≤ y ∧ y ≤ 2068) →
        P.Format (if RFC3339Nano = RFC3339Nano ∧ ns = 0 then RFC3339 else RFC3339Nano)
          = (⟨(y : Int), m, d, h, mi, s, ns, UTC⟩ : Time).Format RFC3339Nano) := by
  have r := o.rng
  have hq := qformat_RFC3339Nano r UTC rfl
  have hp := parse_RFC3339Nano o loc
  have hp3 := (parse_RFC3339_iff_Nano loc _ _).2 hp
  refine ⟨⟨(y : Int), m, d, h, mi, s, ns, UTC⟩, ?_, ?_, ?_⟩
  · rw [hq]; exact hp
  · rw [hq]
    unfold UnmarshalJSON
    have hf : formats = [Layout, ANSIC, RubyDate, UnixDate, RFC822Z, RFC822, RFC850, RFC1123Z,
        RFC1123] ++ RFC3339 :: [RFC3339Nano, Kitchen, StampNano, StampMicro, StampMilli, Stamp,
        DateTime, DateOnly, TimeOnly] := rfl
    rw [hf, unmarshalLoop_hit loc mt _ RFC3339 _ _ _ none (rejAll_RFC3339Nano r loc) hp3]
    by_cases hns : ns = 0
    · rw [if_pos ⟨rfl, hns⟩]
      apply onMatch_nodot
      apply containsDot_false
      have hf9 : NoDot (f9 ns) := by rw [hns]; exact nodot_nil
      exact nodot_cons (by decide) (nodot_append (nodot_d4 y) (nodot_cons (by decide) (nodot_append
          (nodot_d2 m) (nodot_cons (by decide) (nodot_append (nodot_d2 d) (nodot_cons (by decide)
          (nodot_append (nodot_d2 h) (nodot_cons (by decide) (nodot_append (nodot_d2 mi) (nodot_cons
          (by decide) (nodot_append (nodot_d2 s) (nodot_append (hf9) (nodot_cons (by decide)
          (nodot_cons (by decide) (nodot_nil)))))))))))))))
    · rw [if_neg (fun h => hns h.2)]
      apply onMatch_dot loc mt _ _ _ _ hp
      have e9 : f9 ns = 46 :: trimDigs 9 ns := by simp only [f9, if_neg hns]
      rw [e9]
      have e : ∀ (a b c e f g : GoString) (x1 x2 x3 x4 x5 x6 : Nat) (tl : GoString),
          (34 :: (a ++ x1 :: (b ++ x2 :: (c ++ x3 :: (e ++ x4 :: (f ++ x5 :: (g ++
            ((46 :: tl) ++ [x6, 34]))))))))
          = (34 :: (a ++ x1 :: (b ++ x2 :: (c ++ x3 :: (e ++ x4 :: (f ++ x5 :: g))))))
            ++ 46 :: (tl ++ [x6, 34]) := by
        intros; simp
      have e' := e (d4 y) (d2 m) (d2 d) (d2 h) (d2 mi) (d2 s) 45 45 84 58 58 90 (trimDigs 9 ns)
      rw [show (34 :: (d4 y ++ 45 :: (d2 m ++ 45 :: (d2 d ++ 84 :: (d2 h ++ 58 :: (d2 mi ++ 58 ::
        (d2 s ++ (46 :: trimDigs 9 ns ++ [90, 34]))))))))
          = (34 :: (d4 y ++ 45 :: (d2 m ++ 45 :: (d2 d ++ 84 :: (d2 h ++ 58 :: (d2 mi ++ 58 ::
            d2 s)))))) ++ 46 :: (trimDigs 9 ns ++ [90, 34]) from e']
      exact containsDot_true _ _
  · intro _
    by_cases hns : ns = 0
    · rw [if_pos ⟨rfl, hns⟩]
      rw [format_RFC3339 r UTC rfl, format_RFC3339Nano r UTC rfl]
      have hf9 : f9 ns = [] := by rw [hns]; rfl
      rw [hf9, List.nil_append]
    · rw [if_neg (fun h => hns h.2)]

end Mft

namespace Mft
open Std

/-! ## Every layout of the registry -/

/-- For a valid UTC time with a four-digit year and each layout of the registry:
the quoted text of the time parses under its own layout, `UnmarshalJSON` stores
that parse result with the layout as tag (`RFC3339` when the layout is
`RFC3339Nano` and there are no nanoseconds), and formatting the result again
gives the same text (for `RFC850` when the century is the one `parse` assumes). -/
theorem roundtrip_all (loc : Location) (mt : MultiFormatTime) (L : GoString) (hL : L ∈ formats)
    {y m d h mi s ns : Nat} (o : Ok y m d h mi s ns) :
    ∃ P, Parse loc (quoted L)
        (quoted ((⟨(y : Int), m, d, h, mi, s, ns, UTC⟩ : Time).Format L)) = .ok P ∧
      UnmarshalJSON loc mt (quoted ((⟨(y : Int), m, d, h, mi, s, ns, UTC⟩ : Time).Format L))
        = (⟨P, if L = RFC3339Nano ∧ ns = 0 then RFC3339 else L⟩, none) ∧
      ((L = RFC850 → 1969 ≤ y ∧ y ≤ 2068) →
        P.Format (if L = RFC3339Nano ∧ ns = 0 then RFC3339 else L)
          = (⟨(y : Int), m, d, h, mi, s, ns, UTC⟩ : Time).Format L) := by
  simp only [formats, List.mem_cons, List.mem_singleton, List.not_mem_nil, or_false] at hL
  rcases hL with rfl | rfl | rfl | rfl | rfl | rfl | rfl | rfl | rfl | rfl | rfl | rfl | rfl
    | rfl | rfl | rfl | rfl | rfl | rfl
  · exact all_Layout o loc mt
  · exact all_ANSIC o loc mt
  · exact all_RubyDate o loc mt
  · exact all_UnixDate o loc mt
  · exact all_RFC822Z o loc mt
  · exact all_RFC822 o loc mt
  · exact all_RFC850 o loc mt
  · exact all_RFC1123Z o loc mt
  · exact all_RFC1123 o loc mt
  · exact all_RFC3339 o loc mt
  · exact all_RFC3339Nano o loc mt
  · exact all_Kitchen o loc mt
  · exact all_StampNano o loc mt
  · exact all_StampMicro o loc mt
  · exact all_StampMilli o loc mt
  · exact all_Stamp o loc mt
  · exact all_DateTime o loc mt
  · exact all_DateOnly o loc mt
  · exact all_TimeOnly o loc mt

/-- The text of a UTC time with a four-digit year needs no escaping, whatever the
layout of the registry. -/
theorem safe_all (L : GoString) (hL : L ∈ formats) {y m d h mi s ns : Nat}
    (r : Rng y m d h mi s ns) :
    Safe ((⟨(y : Int), m, d, h, mi, s, ns, UTC⟩ : Time).Format L) := by
  simp only [formats, List.mem_cons, List.mem_singleton, List.not_mem_nil, or_false] at hL
  rcases hL with rfl | rfl | rfl | rfl | rfl | rfl | rfl | rfl | rfl | rfl | rfl | rfl | rfl
    | rfl | rfl | rfl | rfl | rfl | rfl
  · exact safe_Layout r UTC rfl
  · exact safe_ANSIC r UTC
  · exact safe_RubyDate r UTC rfl
  · exact safe_UnixDate r UTC rfl
  · exact safe_RFC822Z r UTC rfl
  · exact safe_RFC822 r UTC rfl
  · exact safe_RFC850 r UTC rfl
  · exact safe_RFC1123Z r UTC rfl
  · exact safe_RFC1123 r UTC rfl
  · exact safe_RFC3339 r UTC rfl
  · exact safe_RFC3339Nano r UTC rfl
  · exact safe_Kitchen r UTC
  · exact safe_StampNano r UTC
  · exact safe_StampMicro r UTC
  · exact safe_StampMilli r UTC
  · exact safe_Stamp r UTC
  · exact safe_DateTime r UTC
  · exact safe_DateOnly r UTC
  · exact safe_TimeOnly r UTC

theorem formats_ne_nil (L : GoString) (hL : L ∈ formats) : L ≠ [] := by
  intro h
  subst h
  revert hL
  decide

theorem daysIn_le31 (m : Nat) (y : Int) (h1 : 1 ≤ m) (h2 : m ≤ 12) : daysIn m y ≤ 31 := by
  have hall : ∀ k < 12, daysIn (k + 1) 0 ≤ 31 := by decide
  exact le_trans (daysIn_zero m y) (mon3_all (fun m => daysIn m 0 ≤ 31) hall m h1 h2)

/-- A valid UTC time with a year from 0 to 9999, by its fields. -/
theorem time_fields (t : Time) (hv : t.Valid) (hloc : t.loc = UTC) (hy0 : 0 ≤ t.year)
    (hy1 : t.year ≤ 9999) :
    t = ⟨((t.year.toNat : Nat) : Int), t.month, t.day, t.hour, t.min, t.sec, t.nsec, UTC⟩
      ∧ Ok t.year.toNat t.month t.day t.hour t.min t.sec t.nsec := by
  obtain ⟨h1, h2, h3, h4, h5, h6, h7, h8⟩ := hv
  have e : ((t.year.toNat : Nat) : Int) = t.year := Int.toNat_of_nonneg hy0
  constructor
  · cases t
    simp only [Time.mk.injEq, true_and, and_true] at hloc ⊢
    exact ⟨e.symm, hloc⟩
  · refine ⟨⟨by omega, h1, h2, h3, ?_, h5, h6, h7, h8⟩, ?_⟩
    · exact le_trans h4 (daysIn_le31 _ _ h1 h2)
    · rw [e]; exact h4

/-- The bytes `MarshalJSON` returns for a valid UTC time with a year from 0 to
9999 and a layout of the registry: the quoted text of the time, and no error. -/
theorem marshal_formats (L : GoString) (hL : L ∈ formats) {y m d h mi s ns : Nat}
    (r : Rng y m d h mi s ns) :
    MarshalJSON ⟨⟨(y : Int), m, d, h, mi, s, ns, UTC⟩, L⟩
      = (quoted ((⟨(y : Int), m, d, h, mi, s, ns, UTC⟩ : Time).Format L), none) := by
  unfold MarshalJSON
  rw [if_pos (formats_ne_nil L hL)]
  exact jsonMarshal_safe _ (safe_all L hL r)

end Mft

namespace Mft
open Std

/-! # What a successful `UnmarshalJSON` tells

The converse direction of the loop lemmas: from a nil error back to the registry
entry that matched. -/

/-- A nil error of `UnmarshalJSON` comes from the first entry of `formats` that
parses the input: either the receiver holds its result and its layout, or the entry
is `RFC3339`, the input has a period, and the receiver holds the result of the
`RFC3339Nano` parse with that tag. -/
theorem unmarshal_ok_inv (loc : Location) (mt mt2 : MultiFormatTime) (s : GoString)
    (hok : UnmarshalJSON loc mt s = (mt2, none)) :
    ∃ pre f post t, formats = pre ++ f :: post ∧ (∀ g ∈ pre, parses loc g s = false) ∧
      Parse loc (quoted f) s = .ok t ∧
      ((mt2 = ⟨t, f⟩ ∧ ¬ (f = RFC3339 ∧ containsDot s = true)) ∨
       (f = RFC3339 ∧ containsDot s = true ∧
          ∃ t2, Parse loc (quoted RFC3339Nano) s = .ok t2 ∧ mt2 = ⟨t2, RFC3339Nano⟩)) := by
  unfold UnmarshalJSON at hok
  rcases unmarshalLoop_cases loc mt s formats none with hall | ⟨pre, f, post, t, hfs, hpre, hf, hr⟩
  · obtain ⟨-, -, h3⟩ := unmarshalLoop_all_fail loc mt s formats none hall
    obtain ⟨e, -, he⟩ := h3 (by decide)
    rw [hok] at he
    cases he
  · rw [hr] at hok
    refine ⟨pre, f, post, t, hfs, hpre, hf, ?_⟩
    rcases onMatch_cases loc mt s f t with ⟨h1, hn⟩ | ⟨hf3, hdot, h2⟩
    · rw [h1] at hok
      left
      exact ⟨(Prod.mk.inj hok).1.symm, hn⟩
    · rcases h2 with ⟨t2, hp2, h3⟩ | ⟨e, -, h3⟩
      · rw [h3] at hok
        right
        exact ⟨hf3, hdot, t2, hp2, (Prod.mk.inj hok).1.symm⟩
      · rw [h3] at hok
        cases hok

/-- The same, for the receiver alone: when the error is nil the first component of
the result is the receiver that `unmarshal_ok_inv` describes. -/
theorem unmarshal_ok_pair (loc : Location) (mt : MultiFormatTime) (s : GoString)
    (hok : (UnmarshalJSON loc mt s).2 = none) :
    UnmarshalJSON loc mt s = ((UnmarshalJSON loc mt s).1, none) := by
  rw [← hok]

theorem mem_formats_of_split (pre post : List GoString) (f : GoString)
    (h : formats = pre ++ f :: post) : f ∈ formats := by
  rw [h]
  exact List.mem_append.2 (Or.inr (List.mem_cons_self _ _))

/-- In the registry `RFC3339` comes before `RFC3339Nano`. -/
theorem formats_before_Nano (pre post : List GoString)
    (h : formats = pre ++ RFC3339Nano :: post) : RFC3339 ∈ pre := by
  have hlen : pre.length < 19 := by
    have := congrArg List.length h
    simp [formats] at this
    omega
  have h1 : formats.take pre.length = pre := by rw [h]; simp
  have h2 : formats[pre.length]? = some RFC3339Nano := by
    rw [h, List.getElem?_append_right (Nat.le_refl _), Nat.sub_self]
    exact List.getElem?_cons_zero
  have hall : ∀ n < 19, formats[n]? = some RFC3339Nano → RFC3339 ∈ formats.take n := by decide
  rw [← h1]
  exact hall _ hlen h2

end Mft

namespace Mft
open Std

/-! # What a successful `Parse` tells

Inversion of the loop of `parse`, of `skip`, and of each element of the registry
layouts: from a result without error back to the shape of the text that was read
and to the fields that were set. -/

/-- A run of `parse` that succeeds on a chunk with an element: the literal was
skipped, the element was read without error, and the rest of the run succeeds. -/
theorem pc_ok_cons {loc : Location} {A av lit tx : GoString} {std : Std} {rest : List Chunk}
    {v : GoString} {st : PState} {t : Time}
    (h : parseChunks loc A av (⟨lit, some std, tx⟩ :: rest) v st = .ok t) :
    ∃ v1, skip v lit = .ok v1 ∧
      (parseStd std ((rest.head?).bind (·.std)) v1 st).rangeErr = [] ∧
      (parseStd std ((rest.head?).bind (·.std)) v1 st).err = false ∧
      parseChunks loc A av rest (parseStd std ((rest.head?).bind (·.std)) v1 st).value
        (parseStd std ((rest.head?).bind (·.std)) v1 st).st = .ok t := by
  rw [parseChunks_cons] at h
  cases hs : skip v lit with
  | error e => rw [hs] at h; cases h
  | ok v1 =>
    rw [hs] at h
    refine ⟨v1, rfl, ?_⟩
    simp only at h
    by_cases h1 : (parseStd std ((rest.head?).bind (·.std)) v1 st).rangeErr = []
    · by_cases h2 : (parseStd std ((rest.head?).bind (·.std)) v1 st).err = true
      · simp [h1, h2] at h
      · simp only [h1, ne_eq, not_true_eq_false, if_false, h2, Bool.false_eq_true] at h
        exact ⟨h1, by simpa using h2, h⟩
    · simp [h1] at h

/-- A run of `parse` that succeeds on the last chunk: the literal was skipped and
nothing is left of the text. -/
theorem pc_ok_last {loc : Location} {A av lit tx : GoString} {rest : List Chunk}
    {v : GoString} {st : PState} {t : Time}
    (h : parseChunks loc A av (⟨lit, none, tx⟩ :: rest) v st = .ok t) :
    skip v lit = .ok [] ∧ parseFinish loc A av [] st = .ok t := by
  rw [parseChunks_cons] at h
  cases hs : skip v lit with
  | error e => rw [hs] at h; cases h
  | ok v1 =>
    rw [hs] at h
    simp only at h
    by_cases hv : v1 = []
    · subst hv
      simp only [ne_eq, not_true_eq_false, if_false] at h
      exact ⟨rfl, h⟩
    · simp [hv] at h

/-- The end of a successful `parse` without day of year: the day is valid for the
month, and the value is built from the fields. -/
theorem parseFinish_ok_inv {loc : Location} {A av v : GoString} {st : PState} {t : Time}
    (h : parseFinish loc A av v st = .ok t) (hy : st.yday = none) :
    1 ≤ st.day.getD 1 ∧ st.day.getD 1 ≤ daysIn (st.month.getD 1) st.year ∧
    t = finishTime loc st (st.month.getD 1) (st.day.getD 1) := by
  simp only [parseFinish, finishDate, hy] at h
  by_cases hc : st.day.getD 1 < 1 ∨ st.day.getD 1 > daysIn (st.month.getD 1) st.year
  · rw [if_pos hc] at h; cases h
  · rw [if_neg hc] at h
    injection h with h
    refine ⟨by omega, by omega, h.symm⟩

/-! ## `skip` -/

theorem skip_ok_byte {v v1 : GoString} {c : Nat} (hc : c ≠ 32) (h : skip v [c] = .ok v1) :
    v = c :: v1 := by
  cases v with
  | nil => simp [skip, skipAux, hc] at h
  | cons a r =>
    simp only [skip, skipAux, hc, if_false] at h
    by_cases ha : a = c
    · subst ha
      simp only [ne_eq, not_true_eq_false, if_false] at h
      injection h with h
      rw [h]
    · simp [ha] at h

theorem cutspace_head (v : GoString) : (cutspace v).headD 0 ≠ 32 := by
  induction v with
  | nil => simp [cutspace]
  | cons a r ih =>
    simp only [cutspace]
    split
    · exact ih
    · rename_i h
      simpa using h

/-- After a literal space was skipped the text does not start with a space. -/
theorem skip_ok_sp {v v1 : GoString} (h : skip v [32] = .ok v1) :
    v1.headD 0 ≠ 32 ∧ ((v = [] ∧ v1 = []) ∨ ∃ r, v = 32 :: r ∧ v1 = cutspace r) := by
  cases v with
  | nil =>
    simp only [skip, skipAux, if_true] at h
    injection h with h
    subst h
    exact ⟨by decide, Or.inl ⟨rfl, rfl⟩⟩
  | cons a r =>
    simp only [skip, skipAux, if_true, Bool.false_eq_true, if_false] at h
    by_cases ha : a = 32
    · subst ha
      simp only [ne_eq, not_true_eq_false, if_false, cutspace, if_true] at h
      injection h with h
      subst h
      exact ⟨cutspace_head r, Or.inr ⟨r, rfl, rfl⟩⟩
    · simp [ha] at h

theorem skip_ok_comma_sp {v v1 : GoString} (h : skip v [44, 32] = .ok v1) :
    v1.headD 0 ≠ 32 ∧ ∃ r, v = 44 :: r ∧ skip r [32] = .ok v1 := by
  cases v with
  | nil => simp [skip, skipAux] at h
  | cons a r =>
    by_cases ha : a = 44
    · subst ha
      have h2 : skip r [32] = .ok v1 := by
        simpa [skip, skipAux] using h
      exact ⟨(skip_ok_sp h2).1, r, rfl, h2⟩
    · simp [skip, skipAux, ha] at h

/-! ## Numbers of one or two digits -/

theorem isDig_iff (c : Nat) : isDig c = true ↔ 48 ≤ c ∧ c ≤ 57 := by
  simp [isDig]

/-- What `getnum` read: two digits, or (when not `fixed`) one digit followed by
something else. -/
theorem getnum_inv {v r : GoString} {fixed : Bool} {n : Nat}
    (h : getnum v fixed = some (n, r)) :
    (n < 100 ∧ v = d2 n ++ r) ∨
    (fixed = false ∧ n < 10 ∧ v = (48 + n) :: r ∧ isDig (r.headD 0) = false) := by
  match v, h with
  | [], h => simp [getnum] at h
  | [a], h =>
    simp only [getnum] at h
    by_cases ha : isDig a = true
    · rw [if_pos ha] at h
      cases fixed with
      | true => simp at h
      | false =>
        simp only [Bool.false_eq_true, if_false, Option.some.injEq, Prod.mk.injEq] at h
        obtain ⟨h1, h2⟩ := h
        subst h1; subst h2
        have := (isDig_iff a).1 ha
        right
        refine ⟨rfl, by omega, ?_, by decide⟩
        congr 1
        omega
    · rw [if_neg ha] at h; cases h
  | a :: b :: rest, h =>
    simp only [getnum] at h
    by_cases ha : isDig a = true
    · rw [if_pos ha] at h
      have ha2 := (isDig_iff a).1 ha
      by_cases hb : isDig b = true
      · rw [if_pos hb] at h
        have hb2 := (isDig_iff b).1 hb
        simp only [Option.some.injEq, Prod.mk.injEq] at h
        obtain ⟨h1, h2⟩ := h
        subst h1; subst h2
        left
        refine ⟨by omega, ?_⟩
        simp only [d2, List.cons_append, List.nil_append]
        congr 1
        · omega
        · congr 1
          omega
      · rw [if_neg hb] at h
        cases fixed with
        | true => simp at h
        | false =>
          simp only [Bool.false_eq_true, if_false, Option.some.injEq, Prod.mk.injEq] at h
          obtain ⟨h1, h2⟩ := h
          subst h1; subst h2
          right
          refine ⟨rfl, by omega, ?_, by simpa using hb⟩
          congr 1
          omega
    · rw [if_neg ha] at h; cases h

theorem getnum_fixed_inv {v r : GoString} {n : Nat} (h : getnum v true = some (n, r)) :
    n < 100 ∧ v = d2 n ++ r := by
  rcases getnum_inv h with h1 | ⟨h2, -⟩
  · exact h1
  · cases h2

/-- When the two-digit reading succeeds, the free reading gives the same. -/
theorem getnum_fixed_free {v r : GoString} {n : Nat} (h : getnum v true = some (n, r)) :
    getnum v false = some (n, r) := by
  obtain ⟨h1, h2⟩ := getnum_fixed_inv h
  rw [h2]
  exact getnum_d2 n h1 r false

theorem getnum_head {v r : GoString} {fixed : Bool} {n : Nat}
    (h : getnum v fixed = some (n, r)) : HeadIn v 48 57 := by
  rcases getnum_inv h with ⟨h1, h2⟩ | ⟨-, h1, h2, -⟩
  · rw [h2]; exact headIn_d2 n h1 r
  · rw [h2]; exact ⟨48 + n, r, rfl, by omega, by omega⟩

end Mft

namespace Mft
open Std

/-! ## The numeric elements -/

theorem inv_zeroMonth {nx : Option Std} {v : GoString} {st : PState}
    (h1 : (parseStd stdZeroMonth nx v st).rangeErr = [])
    (h2 : (parseStd stdZeroMonth nx v st).err = false) :
    ∃ n, getnum v true = some (n, (parseStd stdZeroMonth nx v st).value) ∧ 1 ≤ n ∧ n ≤ 12 ∧
      (parseStd stdZeroMonth nx v st).st = { st with month := some n } := by
  simp only [parseStd, decide_True] at h1 h2 ⊢
  generalize getnum v true = g at h1 h2 ⊢
  cases g with
  | none => simp at h2
  | some p =>
    obtain ⟨n, r⟩ := p
    simp only at h1 ⊢
    refine ⟨n, rfl, ?_, ?_, rfl⟩
    · by_contra hc
      have : n = 0 ∨ 12 < n := by omega
      rw [if_pos this] at h1
      revert h1
      decide
    · by_contra hc
      have : n = 0 ∨ 12 < n := by omega
      rw [if_pos this] at h1
      revert h1
      decide

theorem inv_zeroDay {nx : Option Std} {v : GoString} {st : PState}
    (h2 : (parseStd stdZeroDay nx v st).err = false) :
    ∃ n, getnum v true = some (n, (parseStd stdZeroDay nx v st).value) ∧
      (parseStd stdZeroDay nx v st).st = { st with day := some n } := by
  have hne : ¬ (stdZeroDay = stdUnderDay ∧ v.headD 0 = 32 ∧ 0 < v.length) := by
    intro h; exact absurd h.1 (by decide)
  simp only [parseStd, if_neg hne, decide_True] at h2 ⊢
  generalize getnum v true = g at h2 ⊢
  cases g with
  | none => simp at h2
  | some p =>
    obtain ⟨n, r⟩ := p
    exact ⟨n, rfl, rfl⟩

theorem inv_underDay {nx : Option Std} {v : GoString} {st : PState} (hv : v.headD 0 ≠ 32)
    (h2 : (parseStd stdUnderDay nx v st).err = false) :
    ∃ n, getnum v false = some (n, (parseStd stdUnderDay nx v st).value) ∧
      (parseStd stdUnderDay nx v st).st = { st with day := some n } := by
  have hne : ¬ (v.headD 0 = 32 ∧ 0 < v.length) := fun h => hv h.1
  have hf : decide (stdUnderDay = stdZeroDay) = false := by decide
  simp only [parseStd, true_and, if_neg hne, hf] at h2 ⊢
  generalize getnum v false = g at h2 ⊢
  cases g with
  | none => simp at h2
  | some p =>
    obtain ⟨n, r⟩ := p
    exact ⟨n, rfl, rfl⟩

theorem inv_hour {nx : Option Std} {v : GoString} {st : PState}
    (h1 : (parseStd stdHour nx v st).rangeErr = [])
    (h2 : (parseStd stdHour nx v st).err = false) :
    ∃ n, getnum v false = some (n, (parseStd stdHour nx v st).value) ∧ n < 24 ∧
      (parseStd stdHour nx v st).st = { st with hour := n } := by
  simp only [parseStd] at h1 h2 ⊢
  generalize getnum v false = g at h1 h2 ⊢
  cases g with
  | none => simp at h2
  | some p =>
    obtain ⟨n, r⟩ := p
    simp only at h1 ⊢
    refine ⟨n, rfl, ?_, rfl⟩
    by_contra hc
    rw [if_pos (by omega)] at h1
    revert h1
    decide

theorem inv_hour12 {nx : Option Std} {v : GoString} {st : PState}
    (h1 : (parseStd stdHour12 nx v st).rangeErr = [])
    (h2 : (parseStd stdHour12 nx v st).err = false) :
    ∃ n, getnum v false = some (n, (parseStd stdHour12 nx v st).value) ∧ n ≤ 12 ∧
      (parseStd stdHour12 nx v st).st = { st with hour := n } := by
  have hf : decide (stdHour12 = stdZeroHour12) = false := by decide
  simp only [parseStd, hf] at h1 h2 ⊢
  generalize getnum v false = g at h1 h2 ⊢
  cases g with
  | none => simp at h2
  | some p =>
    obtain ⟨n, r⟩ := p
    simp only at h1 ⊢
    refine ⟨n, rfl, ?_, rfl⟩
    by_contra hc
    rw [if_pos (by omega)] at h1
    revert h1
    decide

theorem inv_zeroHour12 {nx : Option Std} {v : GoString} {st : PState}
    (h1 : (parseStd stdZeroHour12 nx v st).rangeErr = [])
    (h2 : (parseStd stdZeroHour12 nx v st).err = false) :
    ∃ n, getnum v true = some (n, (parseStd stdZeroHour12 nx v st).value) ∧ n ≤ 12 ∧
      (parseStd stdZeroHour12 nx v st).st = { st with hour := n } := by
  simp only [parseStd, decide_True] at h1 h2 ⊢
  generalize getnum v true = g at h1 h2 ⊢
  cases g with
  | none => simp at h2
  | some p =>
    obtain ⟨n, r⟩ := p
    simp only at h1 ⊢
    refine ⟨n, rfl, ?_, rfl⟩
    by_contra hc
    rw [if_pos (by omega)] at h1
    revert h1
    decide

theorem inv_zeroMinute {nx : Option Std} {v : GoString} {st : PState}
    (h1 : (parseStd stdZeroMinute nx v st).rangeErr = [])
    (h2 : (parseStd stdZeroMinute nx v st).err = false) :
    ∃ n, getnum v true = some (n, (parseStd stdZeroMinute nx v st).value) ∧ n < 60 ∧
      (parseStd stdZeroMinute nx v st).st = { st with min := n } := by
  simp only [parseStd, decide_True] at h1 h2 ⊢
  generalize getnum v true = g at h1 h2 ⊢
  cases g with
  | none => simp at h2
  | some p =>
    obtain ⟨n, r⟩ := p
    simp only at h1 ⊢
    refine ⟨n, rfl, ?_, rfl⟩
    by_contra hc
    rw [if_pos (by omega)] at h1
    revert h1
    decide

end Mft

namespace Mft
open Std

/-! ## Seconds and the AM/PM mark -/

theorem inv_zeroSecond_frac0 {a b : Nat} {v : GoString} {st : PState}
    (h1 : (parseStd stdZeroSecond (some (stdFracSecond0 a b)) v st).rangeErr = [])
    (h2 : (parseStd stdZeroSecond (some (stdFracSecond0 a b)) v st).err = false) :
    ∃ n, getnum v true
        = some (n, (parseStd stdZeroSecond (some (stdFracSecond0 a b)) v st).value) ∧ n < 60 ∧
      (parseStd stdZeroSecond (some (stdFracSecond0 a b)) v st).st = { st with sec := n } := by
  simp only [parseStd, decide_True] at h1 h2 ⊢
  generalize getnum v true = g at h1 h2 ⊢
  cases g with
  | none => simp at h2
  | some p =>
    obtain ⟨n, r⟩ := p
    simp only at h1 h2 ⊢
    by_cases hr : 60 ≤ n
    · rw [if_pos hr] at h1
      exact absurd h1 (show ¬ (B "second" = []) by decide)
    · rw [if_neg hr]
      refine ⟨n, ?_, by omega, ?_⟩ <;> (split <;> rfl)

theorem inv_zeroSecond_frac9 {a b : Nat} {v : GoString} {st : PState}
    (h1 : (parseStd stdZeroSecond (some (stdFracSecond9 a b)) v st).rangeErr = [])
    (h2 : (parseStd stdZeroSecond (some (stdFracSecond9 a b)) v st).err = false) :
    ∃ n, getnum v true
        = some (n, (parseStd stdZeroSecond (some (stdFracSecond9 a b)) v st).value) ∧ n < 60 ∧
      (parseStd stdZeroSecond (some (stdFracSecond9 a b)) v st).st = { st with sec := n } := by
  simp only [parseStd, decide_True] at h1 h2 ⊢
  generalize getnum v true = g at h1 h2 ⊢
  cases g with
  | none => simp at h2
  | some p =>
    obtain ⟨n, r⟩ := p
    simp only at h1 h2 ⊢
    by_cases hr : 60 ≤ n
    · rw [if_pos hr] at h1
      exact absurd h1 (show ¬ (B "second" = []) by decide)
    · rw [if_neg hr]
      refine ⟨n, ?_, by omega, ?_⟩ <;> (split <;> rfl)

/-- The seconds element when the layout goes on without a fractional second: a
fractional second in the text is taken with the seconds. -/
theorem inv_zeroSecond_plain {nx : Option Std} {v : GoString} {st : PState}
    (hnx : isFracStd nx = false)
    (h1 : (parseStd stdZeroSecond nx v st).rangeErr = [])
    (h2 : (parseStd stdZeroSecond nx v st).err = false) :
    ∃ n r ns, getnum v true = some (n, r) ∧ n < 60 ∧
      (parseStd stdZeroSecond nx v st).value = r.drop (fracLen r) ∧
      (parseStd stdZeroSecond nx v st).st = { st with sec := n, nsec := ns } := by
  have key : ∀ nx2 : Option Std, isFracStd nx2 = false →
      (parseStd stdZeroSecond nx2 v st).rangeErr = [] →
      (parseStd stdZeroSecond nx2 v st).err = false →
      ∀ g, getnum v true = g →
      (∀ n r, g = some (n, r) → ¬ 60 ≤ n →
        (2 ≤ r.length ∧ commaOrPeriod (r.headD 0) = true ∧ isDigit r 1 = true) →
        (parseStd stdZeroSecond nx2 v st).value
            = r.drop (2 + ((r.drop 2).takeWhile isDig).length) ∧
          ∃ ns, (parseStd stdZeroSecond nx2 v st).st = { st with sec := n, nsec := ns }) →
      ∃ n r ns, getnum v true = some (n, r) ∧ n < 60 ∧
        (parseStd stdZeroSecond nx2 v st).value = r.drop (fracLen r) ∧
        (parseStd stdZeroSecond nx2 v st).st = { st with sec := n, nsec := ns } := by
    intro nx2 _ k1 k2 g hg hfr
    cases g with
    | none =>
      simp only [parseStd, decide_True, hg] at k2
      cases k2
    | some p =>
      obtain ⟨n, r⟩ := p
      by_cases hr : 60 ≤ n
      · simp only [parseStd, decide_True, hg, if_pos hr] at k1
        exact absurd k1 (show ¬ (B "second" = []) by decide)
      · by_cases hf : 2 ≤ r.length ∧ commaOrPeriod (r.headD 0) = true ∧ isDigit r 1 = true
        · obtain ⟨e1, ns, e2⟩ := hfr n r rfl hr hf
          have hfl : fracLen r = 2 + ((r.drop 2).takeWhile isDig).length := by
            simp only [fracLen, if_pos hf]
          exact ⟨n, r, ns, hg, by omega, by rw [hfl]; exact e1, e2⟩
        · have hfl : fracLen r = 0 := by simp only [fracLen, if_neg hf]
          refine ⟨n, r, st.nsec, hg, by omega, ?_, ?_⟩
          · simp only [parseStd, decide_True, hg, if_neg hr, if_neg hf, hfl, List.drop_zero]
          · simp only [parseStd, decide_True, hg, if_neg hr, if_neg hf]
  refine key nx hnx h1 h2 _ rfl ?_
  intro n r hg hr hf
  cases nx with
  | none =>
    refine ⟨?_, (parseNanoseconds r (2 + ((r.drop 2).takeWhile isDig).length)).1.toNat, ?_⟩ <;>
      simp only [parseStd, decide_True, hg, if_neg hr, if_pos hf]
  | some e =>
    cases e <;> first
      | (refine ⟨?_, (parseNanoseconds r (2 + ((r.drop 2).takeWhile isDig).length)).1.toNat, ?_⟩ <;>
      simp only [parseStd, decide_True, hg, if_neg hr, if_pos hf]; done)
      | cases hnx

theorem inv_PM {nx : Option Std} {v : GoString} {st : PState}
    (h2 : (parseStd stdPM nx v st).err = false) :
    2 ≤ v.length ∧ (parseStd stdPM nx v st).value = v.drop 2 ∧
    ((v.take 2 = [80, 77] ∧ (parseStd stdPM nx v st).st = { st with pmSet := true }) ∨
     (v.take 2 = [65, 77] ∧ (parseStd stdPM nx v st).st = { st with amSet := true })) := by
  simp only [parseStd] at h2 ⊢
  by_cases hl : v.length < 2
  · rw [if_pos hl] at h2; cases h2
  · rw [if_neg hl] at h2 ⊢
    by_cases hp : v.take 2 = B "PM"
    · rw [if_pos hp]
      exact ⟨by omega, rfl, Or.inl ⟨hp, rfl⟩⟩
    · rw [if_neg hp] at h2 ⊢
      by_cases ha : v.take 2 = B "AM"
      · rw [if_pos ha]
        exact ⟨by omega, rfl, Or.inr ⟨ha, rfl⟩⟩
      · rw [if_neg ha] at h2; cases h2

/-! ## Names -/

/-- What `lookup` found: an entry of the table that the text starts with, letter
case apart. -/
theorem lookupFrom_inv : ∀ (tab : List GoString) (i : Nat) (v r : GoString) (j : Nat),
    lookupFrom i tab v = some (j, r) →
    ∃ name, tab[j - i]? = some name ∧ i ≤ j ∧ name.length ≤ v.length ∧
      matchFold (v.take name.length) name = true ∧ r = v.drop name.length := by
  intro tab
  induction tab with
  | nil => intro i v r j h; simp [lookupFrom] at h
  | cons w tab ih =>
    intro i v r j h
    simp only [lookupFrom] at h
    by_cases hc : w.length ≤ v.length ∧ matchFold (v.take w.length) w = true
    · rw [if_pos hc] at h
      simp only [Option.some.injEq, Prod.mk.injEq] at h
      obtain ⟨h1, h2⟩ := h
      subst h1; subst h2
      exact ⟨w, by simp, Nat.le_refl _, hc.1, hc.2, rfl⟩
    · rw [if_neg hc] at h
      obtain ⟨name, h1, h2, h3, h4, h5⟩ := ih (i + 1) v r j h
      refine ⟨name, ?_, by omega, h3, h4, h5⟩
      have e : j - i = (j - (i + 1)) + 1 := by omega
      rw [e, List.getElem?_cons_succ]
      exact h1

theorem lookup_inv {tab : List GoString} {v r : GoString} {j : Nat}
    (h : lookup tab v = some (j, r)) :
    ∃ name, tab[j]? = some name ∧ name.length ≤ v.length ∧
      matchFold (v.take name.length) name = true ∧ r = v.drop name.length := by
  obtain ⟨name, h1, -, h3, h4, h5⟩ := lookupFrom_inv tab 0 v r j h
  exact ⟨name, h1, h3, h4, h5⟩

theorem inv_month {nx : Option Std} {v : GoString} {st : PState}
    (h2 : (parseStd stdMonth nx v st).err = false) :
    ∃ i, lookup shortMonthNames v = some (i, (parseStd stdMonth nx v st).value) ∧
      (parseStd stdMonth nx v st).st = { st with month := some (i + 1) } := by
  simp only [parseStd] at h2 ⊢
  generalize lookup shortMonthNames v = g at h2 ⊢
  cases g with
  | none => simp at h2
  | some p =>
    obtain ⟨i, r⟩ := p
    exact ⟨i, rfl, rfl⟩

theorem inv_weekDay {nx : Option Std} {v : GoString} {st : PState}
    (h2 : (parseStd stdWeekDay nx v st).err = false) :
    ∃ i, lookup shortDayNames v = some (i, (parseStd stdWeekDay nx v st).value) ∧
      (parseStd stdWeekDay nx v st).st = st := by
  simp only [parseStd] at h2 ⊢
  generalize lookup shortDayNames v = g at h2 ⊢
  cases g with
  | none => simp at h2
  | some p =>
    obtain ⟨i, r⟩ := p
    exact ⟨i, rfl, rfl⟩

theorem inv_longWeekDay {nx : Option Std} {v : GoString} {st : PState}
    (h2 : (parseStd stdLongWeekDay nx v st).err = false) :
    ∃ i, lookup longDayNames v = some (i, (parseStd stdLongWeekDay nx v st).value) ∧
      (parseStd stdLongWeekDay nx v st).st = st := by
  simp only [parseStd] at h2 ⊢
  generalize lookup longDayNames v = g at h2 ⊢
  cases g with
  | none => simp at h2
  | some p =>
    obtain ⟨i, r⟩ := p
    exact ⟨i, rfl, rfl⟩

end Mft

namespace Mft
open Std

/-! ## Numbers read by `atoi` -/

/-- When `leadingInt` reads a text to its end, the text is all digits and the
number has as many digits at most. -/
theorem leadingIntAux_nil_inv : ∀ (l : GoString) (x q : Nat),
    leadingIntAux x l = some (q, []) →
    (∀ c ∈ l, isDig c = true) ∧ x * 10 ^ l.length ≤ q ∧ q < (x + 1) * 10 ^ l.length := by
  intro l
  induction l with
  | nil =>
    intro x q h
    simp only [leadingIntAux, Option.some.injEq, Prod.mk.injEq, and_true] at h
    subst h
    simp
  | cons c l ih =>
    intro x q h
    simp only [leadingIntAux] at h
    by_cases hc : c < 48 ∨ c > 57
    · rw [if_pos hc] at h
      simp at h
    · rw [if_neg hc] at h
      by_cases h1 : x > 2 ^ 63 / 10
      · rw [if_pos h1] at h; cases h
      · rw [if_neg h1] at h
        by_cases h2 : x * 10 + c - 48 > 2 ^ 63
        · rw [if_pos h2] at h; cases h
        · rw [if_neg h2] at h
          obtain ⟨k1, k2, k3⟩ := ih _ _ h
          refine ⟨?_, ?_, ?_⟩
          · intro d hd
            rcases List.mem_cons.1 hd with e | e
            · rw [e, isDig_iff]; omega
            · exact k1 d e
          · have : x * 10 ^ (c :: l).length = (x * 10) * 10 ^ l.length := by
              simp only [List.length_cons, pow_succ]; ring
            rw [this]
            exact le_trans (Nat.mul_le_mul_right _ (by omega)) k2
          · have : (x + 1) * 10 ^ (c :: l).length = (x * 10 + 10) * 10 ^ l.length := by
              simp only [List.length_cons, pow_succ]; ring
            rw [this]
            exact lt_of_lt_of_le k3 (Nat.mul_le_mul_right _ (by omega))

/-- A number that `atoi` read from at most 18 bytes and that is not negative has
as many digits at most as the text has bytes. -/
theorem atoi_bound {l : GoString} {y : Int} (h : atoi l = some y) (hy : 0 ≤ y)
    (hl : l.length ≤ 18) : y < 10 ^ l.length := by
  have hp : ∀ k : Nat, k ≤ 18 → (10 : Nat) ^ k < 2 ^ 63 := by decide
  have key : ∀ (s1 : GoString) (neg : Bool), s1.length ≤ l.length →
      (match leadingInt s1 with
        | none => none
        | some (q, rem) =>
          if rem ≠ [] then none
          else some (if neg then -(if q < 2 ^ 63 then (q : Int) else (q : Int) - 2 ^ 64)
                     else (if q < 2 ^ 63 then (q : Int) else (q : Int) - 2 ^ 64))) = some y →
      y < 10 ^ l.length := by
    intro s1 neg hs hm
    cases hq : leadingInt s1 with
    | none => rw [hq] at hm; cases hm
    | some p =>
      obtain ⟨q, rem⟩ := p
      rw [hq] at hm
      simp only at hm
      by_cases hr : rem = []
      · subst hr
        simp only [ne_eq, not_true_eq_false, if_false, Option.some.injEq] at hm
        obtain ⟨-, -, k3⟩ := leadingIntAux_nil_inv s1 0 q hq
        simp only [Nat.zero_add, Nat.one_mul] at k3
        have hle : (10 : Nat) ^ s1.length ≤ 10 ^ l.length :=
          Nat.pow_le_pow_right (by decide) hs
        have hq63 : q < 2 ^ 63 := lt_of_lt_of_le k3 (le_trans hle (le_of_lt (hp _ hl)))
        rw [if_pos hq63] at hm
        have hq2 : ((q : Nat) : Int) < ((10 ^ l.length : Nat) : Int) := by
          exact_mod_cast lt_of_lt_of_le k3 hle
        push_cast at hq2
        cases neg with
        | true =>
          simp only [if_true] at hm
          have h10 : (0 : Int) < 10 ^ l.length := by positivity
          omega
        | false =>
          simp only [Bool.false_eq_true, if_false] at hm
          omega
      · simp [hr] at hm
  cases l with
  | nil =>
    simp [atoi, leadingInt, leadingIntAux] at h
    subst h
    simp
  | cons c r =>
    simp only [atoi] at h
    by_cases hc : c = 45 ∨ c = 43
    · rw [if_pos hc] at h
      exact key r _ (by simp) h
    · rw [if_neg hc] at h
      exact key (c :: r) _ (Nat.le_refl _) h

/-- Four bytes that `atoi` reads and that start with a digit are the four digits
of a number. -/
theorem atoi_four_inv {a b c d : Nat} {y : Int} (ha : isDig a = true)
    (h : atoi [a, b, c, d] = some y) :
    ∃ n : Nat, n < 10000 ∧ y = (n : Int) ∧ [a, b, c, d] = d4 n := by
  have ha2 := (isDig_iff a).1 ha
  have hc : ¬ (a = 45 ∨ a = 43) := by omega
  have e45 : ¬ (a = 45) := by omega
  have e43 : ¬ (a = 43) := by omega
  simp only [atoi, e45, e43, or_self, if_false, decide_False] at h
  cases hq : leadingInt [a, b, c, d] with
  | none => rw [hq] at h; cases h
  | some p =>
    obtain ⟨q, rem⟩ := p
    rw [hq] at h
    simp only at h
    by_cases hr : rem = []
    · subst hr
      simp only [ne_eq, not_true_eq_false, if_false, Option.some.injEq, Bool.false_eq_true] at h
      obtain ⟨k1, -, -⟩ := leadingIntAux_nil_inv _ 0 q hq
      have hb2 := (isDig_iff b).1 (k1 b (by simp))
      have hc2 := (isDig_iff c).1 (k1 c (by simp))
      have hd2 := (isDig_iff d).1 (k1 d (by simp))
      simp only [leadingInt] at hq
      rw [leadingIntAux_digit _ _ _ (by omega) (by omega) (by omega),
          leadingIntAux_digit _ _ _ (by omega) (by omega) (by omega),
          leadingIntAux_digit _ _ _ (by omega) (by omega) (by omega),
          leadingIntAux_digit _ _ _ (by omega) (by omega) (by omega)] at hq
      simp only [leadingIntAux, Option.some.injEq, Prod.mk.injEq, and_true] at hq
      have hq4 : q < 10000 := by omega
      have hq63 : q < 2 ^ 63 := by omega
      rw [if_pos hq63] at h
      refine ⟨q, hq4, h.symm, ?_⟩
      simp only [d4]
      congr 1
      · omega
      · congr 1
        · omega
        · congr 1
          · omega
          · congr 1
            omega
    · simp [hr] at h

theorem inv_longYear {nx : Option Std} {v : GoString} {st : PState}
    (h2 : (parseStd stdLongYear nx v st).err = false) :
    ∃ n : Nat, n < 10000 ∧ v = d4 n ++ (parseStd stdLongYear nx v st).value ∧
      (parseStd stdLongYear nx v st).st = { st with year := (n : Int) } := by
  simp only [parseStd] at h2 ⊢
  by_cases hc : v.length < 4 ∨ (!isDigit v 0) = true
  · rw [if_pos hc] at h2; cases h2
  · rw [if_neg hc] at h2 ⊢
    have hlen : 4 ≤ v.length := by omega
    have hdig : isDigit v 0 = true := by
      cases hd : isDigit v 0
      · exact absurd (Or.inr (by rw [hd]; rfl)) hc
      · rfl
    match v, hlen, hdig with
    | a :: b :: c :: d :: r, _, hdig =>
      have ha : isDig a = true := by simpa [isDigit, isDig] using hdig
      have ht : (a :: b :: c :: d :: r).take 4 = [a, b, c, d] := rfl
      have hdr : (a :: b :: c :: d :: r).drop 4 = r := rfl
      rw [ht, hdr] at h2 ⊢
      cases hy : atoi [a, b, c, d] with
      | none => rw [hy] at h2; cases h2
      | some y =>
        obtain ⟨n, hn, e1, e2⟩ := atoi_four_inv ha hy
        refine ⟨n, hn, ?_, ?_⟩
        · simp only
          rw [← e2]
          rfl
        · simp only
          rw [e1]

end Mft

namespace Mft
open Std

/-! ## Fractional seconds -/

/-- The nanoseconds that `parseNanoseconds` returns without error: a number of
at most `nbytes - 1` digits (9 at most), scaled to nine digits. -/
theorem parseNanoseconds_ok (v : GoString) (nb : Nat) (hnb : 1 ≤ nb)
    (h1 : (parseNanoseconds v nb).2.1 = []) (h2 : (parseNanoseconds v nb).2.2 = false) :
    ∃ x : Nat, x < 10 ^ (min nb 10 - 1) ∧
      (parseNanoseconds v nb).1 = ((x * 10 ^ (10 - min nb 10) : Nat) : Int) := by
  unfold parseNanoseconds at h1 h2 ⊢
  by_cases hc : (!commaOrPeriod (v.headD 0)) = true
  · rw [if_pos hc] at h2; cases h2
  · rw [if_neg hc] at h1 h2 ⊢
    simp only at h1 h2 ⊢
    have hmin : (if nb > 10 then 10 else nb) = min nb 10 := by
      split <;> omega
    rw [hmin] at h1 h2 ⊢
    generalize hl : (List.take (min nb 10) (if nb > 10 then List.take 10 v else v)).drop 1 = l
      at h1 h2 ⊢
    have hlen : l.length ≤ min nb 10 - 1 := by
      rw [← hl, List.length_drop, List.length_take]
      omega
    generalize hy : atoi l = g at h1 h2 ⊢
    cases g with
    | none => cases h2
    | some y =>
      simp only at h1 h2 ⊢
      by_cases hneg : y < 0
      · rw [if_pos hneg] at h1
        exact absurd h1 (show ¬ (B "fractional second" = []) by decide)
      · rw [if_neg hneg]
        have hb := atoi_bound hy (by omega) (by omega)
        have hpow : (10 : Int) ^ l.length ≤ 10 ^ (min nb 10 - 1) :=
          pow_le_pow_right₀ (by norm_num) hlen
        refine ⟨y.toNat, ?_, ?_⟩
        · have : (y.toNat : Int) < ((10 ^ (min nb 10 - 1) : Nat) : Int) := by
            rw [Int.toNat_of_nonneg (by omega)]
            push_cast
            omega
          exact_mod_cast this
        · simp only
          push_cast
          rw [Int.toNat_of_nonneg (by omega)]

theorem inv_frac0 {n sep : Nat} {nx : Option Std} {v : GoString} {st : PState} (hn : n ≤ 9)
    (h1 : (parseStd (stdFracSecond0 n sep) nx v st).rangeErr = [])
    (h2 : (parseStd (stdFracSecond0 n sep) nx v st).err = false) :
    1 + n ≤ v.length ∧ (parseStd (stdFracSecond0 n sep) nx v st).value = v.drop (1 + n) ∧
    ∃ x : Nat, x < 10 ^ n ∧
      (parseStd (stdFracSecond0 n sep) nx v st).st = { st with nsec := x * 10 ^ (9 - n) } := by
  simp only [parseStd] at h1 h2 ⊢
  by_cases hl : v.length < 1 + n
  · rw [if_pos hl] at h2; cases h2
  · rw [if_neg hl] at h1 h2 ⊢
    simp only at h1 h2 ⊢
    obtain ⟨x, hx, e⟩ := parseNanoseconds_ok v (1 + n) (by omega) h1 h2
    have hm : min (1 + n) 10 = 1 + n := by omega
    rw [hm] at hx e
    have e1 : 1 + n - 1 = n := by omega
    have e2 : 10 - (1 + n) = 9 - n := by omega
    rw [e1] at hx
    rw [e2] at e
    refine ⟨by omega, ?_, x, hx, ?_⟩
    · trivial
    · rw [e, Int.toNat_ofNat]

theorem inv_frac9 {a b : Nat} {nx : Option Std} {v : GoString} {st : PState}
    (h1 : (parseStd (stdFracSecond9 a b) nx v st).rangeErr = [])
    (h2 : (parseStd (stdFracSecond9 a b) nx v st).err = false) :
    ∃ ns : Nat, (ns = st.nsec ∨ ns < 1000000000) ∧
      (parseStd (stdFracSecond9 a b) nx v st).st = { st with nsec := ns } := by
  simp only [parseStd] at h1 h2 ⊢
  by_cases hc : v.length < 2 ∨ (!commaOrPeriod (v.headD 0)) = true ∨ (!isDigit v 1) = true
  · rw [if_pos hc]
    exact ⟨st.nsec, Or.inl rfl, rfl⟩
  · rw [if_neg hc] at h1 h2 ⊢
    simp only at h1 h2 ⊢
    obtain ⟨x, hx, e⟩ := parseNanoseconds_ok v
      (1 + ((v.drop 1).takeWhile isDig).length) (by omega) h1 h2
    refine ⟨x * 10 ^ (10 - min (1 + ((v.drop 1).takeWhile isDig).length) 10), Or.inr ?_, ?_⟩
    · have hm10 : min (1 + ((v.drop 1).takeWhile isDig).length) 10 ≤ 10 := Nat.min_le_right _ _
      have hm1 : 1 ≤ min (1 + ((v.drop 1).takeWhile isDig).length) 10 := by omega
      generalize min (1 + ((v.drop 1).takeWhile isDig).length) 10 = m at hx hm10 hm1
      have hp : (10 : Nat) ^ (m - 1) * 10 ^ (10 - m) = 1000000000 := by
        rw [← pow_add, show m - 1 + (10 - m) = 9 by omega]
        norm_num
      rw [← hp]
      exact Nat.mul_lt_mul_of_pos_right hx (Nat.pos_pow_of_pos _ (by decide))
    · rw [e, Int.toNat_ofNat]

end Mft

namespace Mft
open Std

/-! ## Zones -/

/-- The zone element of the RFC 3339 layouts sets nothing but the zone. -/
theorem inv_isoTZ (nx : Option Std) (v : GoString) (st : PState) :
    ∃ z off, (parseStd stdISO8601ColonTZ nx v st).st = { st with z := z, zoneOffset := off } := by
  simp only [parseStd, parseZoneOffset]
  split
  · exact ⟨_, _, rfl⟩
  · split
    · exact ⟨_, _, rfl⟩
    · exact ⟨_, _, rfl⟩

/-- The element `-0700` is read only from a text that starts with a sign. -/
theorem inv_numTZ_head {nx : Option Std} {v : GoString} {st : PState}
    (h2 : (parseStd stdNumTZ nx v st).err = false) : HeadIn v 43 45 := by
  cases v with
  | nil => simp [parseStd, parseZoneOffset] at h2
  | cons c r =>
    by_cases hl : r.length + 1 < 5
    · simp [parseStd, parseZoneOffset, hl] at h2
    · by_cases hc : c = 43 ∨ c = 45
      · exact ⟨c, r, rfl, by omega, by omega⟩
      · have e1 : ¬ c = 43 := fun h => hc (Or.inl h)
        have e2 : ¬ c = 45 := fun h => hc (Or.inr h)
        simp [parseStd, parseZoneOffset, hl, e1, e2] at h2

theorem takeWhile_head_false {p : Nat → Bool} {c : Nat} (r : GoString) (h : p c = false) :
    (c :: r).takeWhile p = [] := by
  simp [List.takeWhile, h]

/-- The element `MST` is not read from a text that starts with a digit. -/
theorem inv_TZ_head {nx : Option Std} {v : GoString} {st : PState}
    (h2 : (parseStd stdTZ nx v st).err = false) : ¬ HeadIn v 48 57 := by
  rintro ⟨c, r, rfl, hc1, hc2⟩
  have n1 : ¬ c = 85 := by omega
  have n2 : ¬ c = 67 := by omega
  have n3 : ¬ c = 77 := by omega
  have n4 : ¬ c = 71 := by omega
  have n5 : ¬ c = 43 := by omega
  have n6 : ¬ c = 45 := by omega
  have s1 : startsWith (B "UTC") (c :: r) = false := by
    simp [startsWith, B, List.isPrefixOf]
    intro h; omega
  have s2 : startsWith (B "ChST") (c :: r) = false := by
    simp [startsWith, B, List.isPrefixOf]
    intro h; omega
  have s3 : startsWith (B "MeST") (c :: r) = false := by
    simp [startsWith, B, List.isPrefixOf]
    intro h; omega
  have s4 : startsWith (B "GMT") (c :: r) = false := by
    simp [startsWith, B, List.isPrefixOf]
    intro h; omega
  have hu : ((c :: r).take 6).takeWhile (fun c => decide (65 ≤ c) && decide (c ≤ 90)) = [] := by
    rw [show (c :: r).take 6 = c :: r.take 5 from rfl]
    apply takeWhile_head_false
    simp only [Bool.and_eq_false_iff, decide_eq_false_iff_not]
    omega
  have hp : (parseTimeZone (c :: r)).2 = false := by
    unfold parseTimeZone
    split
    · rfl
    · simp only [s2, s3, Bool.false_eq_true, or_self, if_false, s4, List.headD_cons, n5, n6, hu,
        List.length_nil]
      rfl
  simp only [parseStd, s1, Bool.false_eq_true, if_false, hp, Bool.not_false, if_true] at h2
  cases h2

end Mft

namespace Mft
open Std

/-! ## One iteration of a successful run

The inversion of the loop and of one element, put together: what the iteration
read, and the run that goes on from the text and the fields it left. -/


theorem run_zeroMonth {loc : Location} {A av lit tx : GoString} {rest : List Chunk}
    {v : GoString} {st : PState} {t : Time}
    (h : parseChunks loc A av (⟨lit, some stdZeroMonth, tx⟩ :: rest) v st = .ok t) :
    ∃ v1 n r, skip v lit = .ok v1 ∧ getnum v1 true = some (n, r) ∧ 1 ≤ n ∧ n ≤ 12 ∧
      parseChunks loc A av rest r { st with month := some n } = .ok t := by
  obtain ⟨v1, hs, h1, h2, h3⟩ := pc_ok_cons h
  obtain ⟨n, hg, hn1, hn2, hst⟩ := inv_zeroMonth h1 h2
  rw [hst] at h3
  exact ⟨v1, n, _, hs, hg, hn1, hn2, h3⟩

theorem run_zeroDay {loc : Location} {A av lit tx : GoString} {rest : List Chunk}
    {v : GoString} {st : PState} {t : Time}
    (h : parseChunks loc A av (⟨lit, some stdZeroDay, tx⟩ :: rest) v st = .ok t) :
    ∃ v1 n r, skip v lit = .ok v1 ∧ getnum v1 true = some (n, r) ∧
      parseChunks loc A av rest r { st with day := some n } = .ok t := by
  obtain ⟨v1, hs, h1, h2, h3⟩ := pc_ok_cons h
  obtain ⟨n, hg, hst⟩ := inv_zeroDay h2
  rw [hst] at h3
  exact ⟨v1, n, _, hs, hg, h3⟩

theorem run_hour {loc : Location} {A av lit tx : GoString} {rest : List Chunk}
    {v : GoString} {st : PState} {t : Time}
    (h : parseChunks loc A av (⟨lit, some stdHour, tx⟩ :: rest) v st = .ok t) :
    ∃ v1 n r, skip v lit = .ok v1 ∧ getnum v1 false = some (n, r) ∧ n < 24 ∧
      parseChunks loc A av rest r { st with hour := n } = .ok t := by
  obtain ⟨v1, hs, h1, h2, h3⟩ := pc_ok_cons h
  obtain ⟨n, hg, hn, hst⟩ := inv_hour h1 h2
  rw [hst] at h3
  exact ⟨v1, n, _, hs, hg, hn, h3⟩

theorem run_hour12 {loc : Location} {A av lit tx : GoString} {rest : List Chunk}
    {v : GoString} {st : PState} {t : Time}
    (h : parseChunks loc A av (⟨lit, some stdHour12, tx⟩ :: rest) v st = .ok t) :
    ∃ v1 n r, skip v lit = .ok v1 ∧ getnum v1 false = some (n, r) ∧ n ≤ 12 ∧
      parseChunks loc A av rest r { st with hour := n } = .ok t := by
  obtain ⟨v1, hs, h1, h2, h3⟩ := pc_ok_cons h
  obtain ⟨n, hg, hn, hst⟩ := inv_hour12 h1 h2
  rw [hst] at h3
  exact ⟨v1, n, _, hs, hg, hn, h3⟩

theorem run_zeroHour12 {loc : Location} {A av lit tx : GoString} {rest : List Chunk}
    {v : GoString} {st : PState} {t : Time}
    (h : parseChunks loc A av (⟨lit, some stdZeroHour12, tx⟩ :: rest) v st = .ok t) :
    ∃ v1 n r, skip v lit = .ok v1 ∧ getnum v1 true = some (n, r) ∧ n ≤ 12 ∧
      parseChunks loc A av rest r { st with hour := n } = .ok t := by
  obtain ⟨v1, hs, h1, h2, h3⟩ := pc_ok_cons h
  obtain ⟨n, hg, hn, hst⟩ := inv_zeroHour12 h1 h2
  rw [hst] at h3
  exact ⟨v1, n, _, hs, hg, hn, h3⟩

theorem run_zeroMinute {loc : Location} {A av lit tx : GoString} {rest : List Chunk}
    {v : GoString} {st : PState} {t : Time}
    (h : parseChunks loc A av (⟨lit, some stdZeroMinute, tx⟩ :: rest) v st = .ok t) :
    ∃ v1 n r, skip v lit = .ok v1 ∧ getnum v1 true = some (n, r) ∧ n < 60 ∧
      parseChunks loc A av rest r { st with min := n } = .ok t := by
  obtain ⟨v1, hs, h1, h2, h3⟩ := pc_ok_cons h
  obtain ⟨n, hg, hn, hst⟩ := inv_zeroMinute h1 h2
  rw [hst] at h3
  exact ⟨v1, n, _, hs, hg, hn, h3⟩

theorem run_underDay {loc : Location} {A av tx : GoString} {rest : List Chunk}
    {v : GoString} {st : PState} {t : Time}
    (h : parseChunks loc A av (⟨[32], some stdUnderDay, tx⟩ :: rest) v st = .ok t) :
    ∃ v1 n r, skip v [32] = .ok v1 ∧ getnum v1 false = some (n, r) ∧
      parseChunks loc A av rest r { st with day := some n } = .ok t := by
  obtain ⟨v1, hs, h1, h2, h3⟩ := pc_ok_cons h
  obtain ⟨n, hg, hst⟩ := inv_underDay (skip_ok_sp hs).1 h2
  rw [hst] at h3
  exact ⟨v1, n, _, hs, hg, h3⟩

theorem run_second_frac0 {loc : Location} {A av lit tx lit2 tx2 : GoString} {a b : Nat}
    {rest : List Chunk} {v : GoString} {st : PState} {t : Time}
    (h : parseChunks loc A av
      (⟨lit, some stdZeroSecond, tx⟩ :: ⟨lit2, some (stdFracSecond0 a b), tx2⟩ :: rest) v st
        = .ok t) :
    ∃ v1 n r, skip v lit = .ok v1 ∧ getnum v1 true = some (n, r) ∧ n < 60 ∧
      parseChunks loc A av (⟨lit2, some (stdFracSecond0 a b), tx2⟩ :: rest) r
        { st with sec := n } = .ok t := by
  obtain ⟨v1, hs, h1, h2, h3⟩ := pc_ok_cons h
  obtain ⟨n, hg, hn, hst⟩ := inv_zeroSecond_frac0 h1 h2
  replace h3 : parseChunks loc A av (⟨lit2, some (stdFracSecond0 a b), tx2⟩ :: rest)
      (parseStd stdZeroSecond (some (stdFracSecond0 a b)) v1 st).value
      (parseStd stdZeroSecond (some (stdFracSecond0 a b)) v1 st).st = .ok t := h3
  rw [hst] at h3
  exact ⟨v1, n, _, hs, hg, hn, h3⟩

theorem run_second_frac9 {loc : Location} {A av lit tx lit2 tx2 : GoString} {a b : Nat}
    {rest : List Chunk} {v : GoString} {st : PState} {t : Time}
    (h : parseChunks loc A av
      (⟨lit, some stdZeroSecond, tx⟩ :: ⟨lit2, some (stdFracSecond9 a b), tx2⟩ :: rest) v st
        = .ok t) :
    ∃ v1 n r, skip v lit = .ok v1 ∧ getnum v1 true = some (n, r) ∧ n < 60 ∧
      parseChunks loc A av (⟨lit2, some (stdFracSecond9 a b), tx2⟩ :: rest) r
        { st with sec := n } = .ok t := by
  obtain ⟨v1, hs, h1, h2, h3⟩ := pc_ok_cons h
  obtain ⟨n, hg, hn, hst⟩ := inv_zeroSecond_frac9 h1 h2
  replace h3 : parseChunks loc A av (⟨lit2, some (stdFracSecond9 a b), tx2⟩ :: rest)
      (parseStd stdZeroSecond (some (stdFracSecond9 a b)) v1 st).value
      (parseStd stdZeroSecond (some (stdFracSecond9 a b)) v1 st).st = .ok t := h3
  rw [hst] at h3
  exact ⟨v1, n, _, hs, hg, hn, h3⟩

theorem run_second_plain {loc : Location} {A av lit tx : GoString} {rest : List Chunk}
    {v : GoString} {st : PState} {t : Time}
    (h : parseChunks loc A av (⟨lit, some stdZeroSecond, tx⟩ :: rest) v st = .ok t)
    (hnx : isFracStd ((rest.head?).bind (·.std)) = false) :
    ∃ v1 n r ns, skip v lit = .ok v1 ∧ getnum v1 true = some (n, r) ∧ n < 60 ∧
      parseChunks loc A av rest (r.drop (fracLen r)) { st with sec := n, nsec := ns } = .ok t := by
  obtain ⟨v1, hs, h1, h2, h3⟩ := pc_ok_cons h
  obtain ⟨n, r, ns, hg, hn, hv, hst⟩ := inv_zeroSecond_plain hnx h1 h2
  rw [hst, hv] at h3
  exact ⟨v1, n, r, ns, hs, hg, hn, h3⟩

theorem run_PM {loc : Location} {A av lit tx : GoString} {rest : List Chunk}
    {v : GoString} {st : PState} {t : Time}
    (h : parseChunks loc A av (⟨lit, some stdPM, tx⟩ :: rest) v st = .ok t) :
    ∃ v1, skip v lit = .ok v1 ∧ 2 ≤ v1.length ∧
      ((v1.take 2 = [80, 77] ∧
          parseChunks loc A av rest (v1.drop 2) { st with pmSet := true } = .ok t) ∨
       (v1.take 2 = [65, 77] ∧
          parseChunks loc A av rest (v1.drop 2) { st with amSet := true } = .ok t)) := by
  obtain ⟨v1, hs, h1, h2, h3⟩ := pc_ok_cons h
  obtain ⟨hl, hv, hc⟩ := inv_PM h2
  rw [hv] at h3
  refine ⟨v1, hs, hl, ?_⟩
  rcases hc with ⟨e, hst⟩ | ⟨e, hst⟩
  · rw [hst] at h3; exact Or.inl ⟨e, h3⟩
  · rw [hst] at h3; exact Or.inr ⟨e, h3⟩

theorem run_longYear {loc : Location} {A av lit tx : GoString} {rest : List Chunk}
    {v : GoString} {st : PState} {t : Time}
    (h : parseChunks loc A av (⟨lit, some stdLongYear, tx⟩ :: rest) v st = .ok t) :
    ∃ v1 n r, skip v lit = .ok v1 ∧ n < 10000 ∧ v1 = d4 n ++ r ∧
      parseChunks loc A av rest r { st with year := ((n : Nat) : Int) } = .ok t := by
  obtain ⟨v1, hs, h1, h2, h3⟩ := pc_ok_cons h
  obtain ⟨n, hn, hv, hst⟩ := inv_longYear h2
  rw [hst] at h3
  exact ⟨v1, n, _, hs, hn, hv, h3⟩

theorem run_month {loc : Location} {A av lit tx : GoString} {rest : List Chunk}
    {v : GoString} {st : PState} {t : Time}
    (h : parseChunks loc A av (⟨lit, some stdMonth, tx⟩ :: rest) v st = .ok t) :
    ∃ v1 i r, skip v lit = .ok v1 ∧ lookup shortMonthNames v1 = some (i, r) ∧
      parseChunks loc A av rest r { st with month := some (i + 1) } = .ok t := by
  obtain ⟨v1, hs, h1, h2, h3⟩ := pc_ok_cons h
  obtain ⟨i, hg, hst⟩ := inv_month h2
  rw [hst] at h3
  exact ⟨v1, i, _, hs, hg, h3⟩

theorem run_weekDay {loc : Location} {A av lit tx : GoString} {rest : List Chunk}
    {v : GoString} {st : PState} {t : Time}
    (h : parseChunks loc A av (⟨lit, some stdWeekDay, tx⟩ :: rest) v st = .ok t) :
    ∃ v1 i r, skip v lit = .ok v1 ∧ lookup shortDayNames v1 = some (i, r) ∧
      parseChunks loc A av rest r st = .ok t := by
  obtain ⟨v1, hs, h1, h2, h3⟩ := pc_ok_cons h
  obtain ⟨i, hg, hst⟩ := inv_weekDay h2
  rw [hst] at h3
  exact ⟨v1, i, _, hs, hg, h3⟩

theorem run_longWeekDay {loc : Location} {A av lit tx : GoString} {rest : List Chunk}
    {v : GoString} {st : PState} {t : Time}
    (h : parseChunks loc A av (⟨lit, some stdLongWeekDay, tx⟩ :: rest) v st = .ok t) :
    ∃ v1 i r, skip v lit = .ok v1 ∧ lookup longDayNames v1 = some (i, r) ∧
      parseChunks loc A av rest r st = .ok t := by
  obtain ⟨v1, hs, h1, h2, h3⟩ := pc_ok_cons h
  obtain ⟨i, hg, hst⟩ := inv_longWeekDay h2
  rw [hst] at h3
  exact ⟨v1, i, _, hs, hg, h3⟩

theorem run_frac0 {loc : Location} {A av lit tx : GoString} {n sep : Nat} {rest : List Chunk}
    {v : GoString} {st : PState} {t : Time} (hn : n ≤ 9)
    (h : parseChunks loc A av (⟨lit, some (stdFracSecond0 n sep), tx⟩ :: rest) v st = .ok t) :
    ∃ v1 x, skip v lit = .ok v1 ∧ 1 + n ≤ v1.length ∧ x < 10 ^ n ∧
      parseChunks loc A av rest (v1.drop (1 + n)) { st with nsec := x * 10 ^ (9 - n) } = .ok t := by
  obtain ⟨v1, hs, h1, h2, h3⟩ := pc_ok_cons h
  obtain ⟨hl, hv, x, hx, hst⟩ := inv_frac0 hn h1 h2
  rw [hst, hv] at h3
  exact ⟨v1, x, hs, hl, hx, h3⟩

theorem run_frac9 {loc : Location} {A av lit tx : GoString} {a b : Nat} {rest : List Chunk}
    {v : GoString} {st : PState} {t : Time}
    (h : parseChunks loc A av (⟨lit, some (stdFracSecond9 a b), tx⟩ :: rest) v st = .ok t) :
    ∃ r ns, (ns = st.nsec ∨ ns < 1000000000) ∧
      parseChunks loc A av rest r { st with nsec := ns } = .ok t := by
  obtain ⟨v1, hs, h1, h2, h3⟩ := pc_ok_cons h
  obtain ⟨ns, hn, hst⟩ := inv_frac9 h1 h2
  rw [hst] at h3
  exact ⟨_, ns, hn, h3⟩

theorem run_isoTZ {loc : Location} {A av lit tx : GoString} {rest : List Chunk}
    {v : GoString} {st : PState} {t : Time}
    (h : parseChunks loc A av (⟨lit, some stdISO8601ColonTZ, tx⟩ :: rest) v st = .ok t) :
    ∃ r z off, parseChunks loc A av rest r { st with z := z, zoneOffset := off } = .ok t := by
  obtain ⟨v1, hs, h1, h2, h3⟩ := pc_ok_cons h
  obtain ⟨z, off, hst⟩ := inv_isoTZ ((rest.head?).bind (·.std)) v1 st
  rw [hst] at h3
  exact ⟨_, z, off, h3⟩

theorem run_numTZ_head {loc : Location} {A av lit tx : GoString} {rest : List Chunk}
    {v : GoString} {st : PState} {t : Time}
    (h : parseChunks loc A av (⟨lit, some stdNumTZ, tx⟩ :: rest) v st = .ok t) :
    ∃ v1, skip v lit = .ok v1 ∧ HeadIn v1 43 45 := by
  obtain ⟨v1, hs, h1, h2, h3⟩ := pc_ok_cons h
  exact ⟨v1, hs, inv_numTZ_head h2⟩

theorem run_TZ_head {loc : Location} {A av lit tx : GoString} {rest : List Chunk}
    {v : GoString} {st : PState} {t : Time}
    (h : parseChunks loc A av (⟨lit, some stdTZ, tx⟩ :: rest) v st = .ok t) :
    ∃ v1, skip v lit = .ok v1 ∧ ¬ HeadIn v1 48 57 := by
  obtain ⟨v1, hs, h1, h2, h3⟩ := pc_ok_cons h
  exact ⟨v1, hs, inv_TZ_head h2⟩

end Mft

namespace Mft
open Std

/-! ## What a layout without date fields decodes to

Every text the `Kitchen` and `TimeOnly` layouts accept, with the value it gives. -/

theorem skip_ok_nil {v v1 : GoString} (h : skip v [] = .ok v1) : v1 = v := by
  rw [skip_nil] at h
  injection h with h
  exact h.symm

theorem skip_quote_end {v : GoString} (h : skip v [34] = .ok []) : v = [34] :=
  skip_ok_byte (by decide) h

theorem take_drop_two {v : GoString} {a b : Nat} {r : GoString} (h1 : v.take 2 = [a, b])
    (h2 : v.drop 2 = r) : v = a :: b :: r := by
  have := List.take_append_drop 2 v
  rw [h1, h2] at this
  exact this.symm

theorem dec_Kitchen {loc : Location} {s : GoString} {t : Time}
    (h : Parse loc (quoted Kitchen) s = .ok t) :
    ∃ h0 mi v1 v2 ap, s = 34 :: v1 ∧ getnum v1 false = some (h0, 58 :: v2) ∧ h0 ≤ 12 ∧
      getnum v2 true = some (mi, ap ++ [34]) ∧ mi < 60 ∧
      ((ap = [80, 77] ∧
          t = ⟨0, 1, 1, if h0 < 12 then h0 + 12 else h0, mi, 0, 0, UTC⟩) ∨
       (ap = [65, 77] ∧
          t = ⟨0, 1, 1, if h0 = 12 then 0 else h0, mi, 0, 0, UTC⟩)) := by
  unfold Parse at h
  rw [qchunks_Kitchen] at h
  obtain ⟨v1, h0, r1, hs1, hg1, hb1, h⟩ := run_hour12 h
  dsimp only at h
  obtain ⟨v2, mi, r2, hs2, hg2, hb2, h⟩ := run_zeroMinute h
  dsimp only at h
  obtain ⟨v3, hs3, hl, hc⟩ := run_PM h
  have e1 := skip_ok_byte (by decide) hs1
  have e2 := skip_ok_byte (by decide) hs2
  have e3 := skip_ok_nil hs3
  subst e3
  rw [e2] at hg1
  rcases hc with ⟨ht, h⟩ | ⟨ht, h⟩
  · obtain ⟨hq, hf⟩ := pc_ok_last h
    have e4 := take_drop_two ht (skip_quote_end hq)
    rw [e4] at hg2
    obtain ⟨-, -, ht⟩ := parseFinish_ok_inv hf rfl
    refine ⟨h0, mi, v1, v2, [80, 77], e1, hg1, hb1, hg2, hb2, Or.inl ⟨rfl, ?_⟩⟩
    rw [ht]
    by_cases hh : h0 < 12 <;> simp [finishTime, Date, hh, UTC]
  · obtain ⟨hq, hf⟩ := pc_ok_last h
    have e4 := take_drop_two ht (skip_quote_end hq)
    rw [e4] at hg2
    obtain ⟨-, -, ht⟩ := parseFinish_ok_inv hf rfl
    refine ⟨h0, mi, v1, v2, [65, 77], e1, hg1, hb1, hg2, hb2, Or.inr ⟨rfl, ?_⟩⟩
    rw [ht]
    by_cases hh : h0 = 12 <;> simp [finishTime, Date, hh, UTC]

theorem dec_TimeOnly {loc : Location} {s : GoString} {t : Time}
    (h : Parse loc (quoted TimeOnly) s = .ok t) :
    ∃ h0 mi sec ns v1 v2 v3 r, s = 34 :: v1 ∧ getnum v1 false = some (h0, 58 :: v2) ∧ h0 < 24 ∧
      getnum v2 true = some (mi, 58 :: v3) ∧ mi < 60 ∧
      getnum v3 true = some (sec, r) ∧ sec < 60 ∧ r.drop (fracLen r) = [34] ∧
      t = ⟨0, 1, 1, h0, mi, sec, ns, UTC⟩ := by
  unfold Parse at h
  rw [qchunks_TimeOnly] at h
  obtain ⟨v1, h0, r1, hs1, hg1, hb1, h⟩ := run_hour h
  dsimp only at h
  obtain ⟨v2, mi, r2, hs2, hg2, hb2, h⟩ := run_zeroMinute h
  dsimp only at h
  obtain ⟨v3, sec, r, ns, hs3, hg3, hb3, h⟩ := run_second_plain h rfl
  dsimp only at h
  have e1 := skip_ok_byte (by decide) hs1
  have e2 := skip_ok_byte (by decide) hs2
  have e3 := skip_ok_byte (by decide) hs3
  rw [e2] at hg1
  rw [e3] at hg2
  obtain ⟨hq, hf⟩ := pc_ok_last h
  obtain ⟨-, -, ht⟩ := parseFinish_ok_inv hf rfl
  refine ⟨h0, mi, sec, ns, v1, v2, v3, r, e1, hg1, hb1, hg2, hb2, hg3, hb3, skip_quote_end hq, ?_⟩
  rw [ht]
  simp [finishTime, Date, UTC]

end Mft

namespace Mft
open Std

/-! ## What the `Stamp` layouts decode to -/

theorem lookup_index_lt {tab : List GoString} {v r : GoString} {j : Nat}
    (h : lookup tab v = some (j, r)) : j < tab.length := by
  obtain ⟨name, hn, -⟩ := lookup_inv h
  by_contra hc
  rw [List.getElem?_eq_none (by omega)] at hn
  cases hn

theorem drop_eq_singleton_length {v : GoString} {k c : Nat} (h : v.drop k = [c]) :
    v.length = k + 1 := by
  have := congrArg List.length h
  simp only [List.length_drop, List.length_singleton] at this
  omega

/-- The run of a layout of the shape of `StampMilli`, with `n` digits of fraction. -/
theorem dec_stampF {loc : Location} {A av t1 t2 t3 t4 t5 t6 t7 : GoString} {n : Nat} (hn : n ≤ 9)
    {s : GoString} {t : Time}
    (h : parseChunks loc A av
      [⟨[34], some stdMonth, t1⟩, ⟨[32], some stdUnderDay, t2⟩, ⟨[32], some stdHour, t3⟩,
       ⟨[58], some stdZeroMinute, t4⟩, ⟨[58], some stdZeroSecond, t5⟩,
       ⟨[], some (stdFracSecond0 n 46), t6⟩, ⟨[34], none, t7⟩] s {} = .ok t) :
    ∃ i d h0 mi sec x v0 r0 v1 r1 v2 v3 v4 r4,
      s = 34 :: v0 ∧ lookup shortMonthNames v0 = some (i, r0) ∧ skip r0 [32] = .ok v1 ∧
      getnum v1 false = some (d, r1) ∧ skip r1 [32] = .ok v2 ∧
      getnum v2 false = some (h0, 58 :: v3) ∧ getnum v3 true = some (mi, 58 :: v4) ∧
      getnum v4 true = some (sec, r4) ∧ r4.length = n + 2 ∧
      i < 12 ∧ 1 ≤ d ∧ d ≤ daysIn (i + 1) 0 ∧ h0 < 24 ∧ mi < 60 ∧ sec < 60 ∧ x < 10 ^ n ∧
      t = ⟨0, i + 1, d, h0, mi, sec, x * 10 ^ (9 - n), UTC⟩ := by
  obtain ⟨v0, i, r0, hs0, hl0, h⟩ := run_month h
  dsimp only at h
  obtain ⟨v1, d, r1, hs1, hg1, h⟩ := run_underDay h
  dsimp only at h
  obtain ⟨v2, h0, r2, hs2, hg2, hb2, h⟩ := run_hour h
  dsimp only at h
  obtain ⟨v3, mi, r3, hs3, hg3, hb3, h⟩ := run_zeroMinute h
  dsimp only at h
  obtain ⟨v4, sec, r4, hs4, hg4, hb4, h⟩ := run_second_frac0 h
  dsimp only at h
  obtain ⟨v5, x, hs5, hl5, hx, h⟩ := run_frac0 hn h
  dsimp only at h
  obtain ⟨hq, hf⟩ := pc_ok_last h
  obtain ⟨hd1, hd2, ht⟩ := parseFinish_ok_inv hf rfl
  have e0 := skip_ok_byte (by decide) hs0
  have e3 := skip_ok_byte (by decide) hs3
  have e4 := skip_ok_byte (by decide) hs4
  have e5 := skip_ok_nil hs5
  rw [e5] at hq
  rw [e3] at hg2
  rw [e4] at hg3
  have hlen := drop_eq_singleton_length (skip_quote_end hq)
  have hi : i < 12 := lookup_index_lt hl0
  refine ⟨i, d, h0, mi, sec, x, v0, r0, v1, r1, v2, v3, v4, r4, e0, hl0, hs1, hg1, hs2, hg2, hg3,
    hg4, by omega, hi, hd1, hd2, hb2, hb3, hb4, hx, ?_⟩
  rw [ht]
  simp [finishTime, Date, UTC]

theorem dec_Stamp {loc : Location} {s : GoString} {t : Time}
    (h : Parse loc (quoted Stamp) s = .ok t) :
    ∃ i d h0 mi sec ns v0 r0 v1 r1 v2 v3 v4 r4,
      s = 34 :: v0 ∧ lookup shortMonthNames v0 = some (i, r0) ∧ skip r0 [32] = .ok v1 ∧
      getnum v1 false = some (d, r1) ∧ skip r1 [32] = .ok v2 ∧
      getnum v2 false = some (h0, 58 :: v3) ∧ getnum v3 true = some (mi, 58 :: v4) ∧
      getnum v4 true = some (sec, r4) ∧ r4.drop (fracLen r4) = [34] ∧
      i < 12 ∧ 1 ≤ d ∧ d ≤ daysIn (i + 1) 0 ∧ h0 < 24 ∧ mi < 60 ∧ sec < 60 ∧
      t = ⟨0, i + 1, d, h0, mi, sec, ns, UTC⟩ := by
  unfold Parse at h
  rw [qchunks_Stamp] at h
  obtain ⟨v0, i, r0, hs0, hl0, h⟩ := run_month h
  dsimp only at h
  obtain ⟨v1, d, r1, hs1, hg1, h⟩ := run_underDay h
  dsimp only at h
  obtain ⟨v2, h0, r2, hs2, hg2, hb2, h⟩ := run_hour h
  dsimp only at h
  obtain ⟨v3, mi, r3, hs3, hg3, hb3, h⟩ := run_zeroMinute h
  dsimp only at h
  obtain ⟨v4, sec, r4, ns, hs4, hg4, hb4, h⟩ := run_second_plain h rfl
  dsimp only at h
  obtain ⟨hq, hf⟩ := pc_ok_last h
  obtain ⟨hd1, hd2, ht⟩ := parseFinish_ok_inv hf rfl
  have e0 := skip_ok_byte (by decide) hs0
  have e3 := skip_ok_byte (by decide) hs3
  have e4 := skip_ok_byte (by decide) hs4
  rw [e3] at hg2
  rw [e4] at hg3
  have hi : i < 12 := lookup_index_lt hl0
  refine ⟨i, d, h0, mi, sec, ns, v0, r0, v1, r1, v2, v3, v4, r4, e0, hl0, hs1, hg1, hs2, hg2, hg3,
    hg4, skip_quote_end hq, hi, hd1, hd2, hb2, hb3, hb4, ?_⟩
  rw [ht]
  simp [finishTime, Date, UTC]

theorem dec_StampMilli {loc : Location} {s : GoString} {t : Time}
    (h : Parse loc (quoted StampMilli) s = .ok t) :
    ∃ i d h0 mi sec x, i < 12 ∧ 1 ≤ d ∧ d ≤ daysIn (i + 1) 0 ∧ h0 < 24 ∧ mi < 60 ∧ sec < 60 ∧
      x < 1000 ∧ t = ⟨0, i + 1, d, h0, mi, sec, x * 1000000, UTC⟩ := by
  unfold Parse at h
  rw [qchunks_StampMilli] at h
  obtain ⟨i, d, h0, mi, sec, x, -, -, -, -, -, -, -, -, -, -, -, -, -, -, -, -, -, a1, a2, a3, a4,
    a5, a6, a7, a8⟩ := dec_stampF (by decide) h
  exact ⟨i, d, h0, mi, sec, x, a1, a2, a3, a4, a5, a6, a7, a8⟩

theorem dec_StampMicro {loc : Location} {s : GoString} {t : Time}
    (h : Parse loc (quoted StampMicro) s = .ok t) :
    ∃ i d h0 mi sec x, i < 12 ∧ 1 ≤ d ∧ d ≤ daysIn (i + 1) 0 ∧ h0 < 24 ∧ mi < 60 ∧ sec < 60 ∧
      x < 1000000 ∧ t = ⟨0, i + 1, d, h0, mi, sec, x * 1000, UTC⟩ := by
  unfold Parse at h
  rw [qchunks_StampMicro] at h
  obtain ⟨i, d, h0, mi, sec, x, -, -, -, -, -, -, -, -, -, -, -, -, -, -, -, -, -, a1, a2, a3, a4,
    a5, a6, a7, a8⟩ := dec_stampF (by decide) h
  exact ⟨i, d, h0, mi, sec, x, a1, a2, a3, a4, a5, a6, a7, a8⟩

theorem dec_StampNano {loc : Location} {s : GoString} {t : Time}
    (h : Parse loc (quoted StampNano) s = .ok t) :
    ∃ i d h0 mi sec x, i < 12 ∧ 1 ≤ d ∧ d ≤ daysIn (i + 1) 0 ∧ h0 < 24 ∧ mi < 60 ∧ sec < 60 ∧
      x < 1000000000 ∧ t = ⟨0, i + 1, d, h0, mi, sec, x, UTC⟩ := by
  unfold Parse at h
  rw [qchunks_StampNano] at h
  obtain ⟨i, d, h0, mi, sec, x, -, -, -, -, -, -, -, -, -, -, -, -, -, -, -, -, -, a1, a2, a3, a4,
    a5, a6, a7, a8⟩ := dec_stampF (by decide) h
  refine ⟨i, d, h0, mi, sec, x, a1, a2, a3, a4, a5, a6, a7, ?_⟩
  rw [a8]
  simp

end Mft

namespace Mft
open Std

/-! ## The value `UnmarshalJSON` stores is the parse under the recorded layout -/

theorem unmarshal_tag_parse (loc : Location) (mt mt2 : MultiFormatTime) (s : GoString)
    (hok : UnmarshalJSON loc mt s = (mt2, none)) :
    Parse loc (quoted mt2.Format) s = .ok mt2.Time := by
  obtain ⟨pre, f, post, t, -, -, hp, h⟩ := unmarshal_ok_inv loc mt mt2 s hok
  rcases h with ⟨h1, -⟩ | ⟨-, -, t2, hp2, h2⟩
  · rw [h1]; exact hp
  · rw [h2]; exact hp2

/-- The text `MarshalJSON` gives for a valid UTC time under a layout of the
registry decodes to the parse of that text with the layout as tag, unless the
layout is `RFC3339Nano` and there are no nanoseconds. -/
theorem unmarshal_canonical (loc : Location) (mt : MultiFormatTime) (L : GoString)
    (hL : L ∈ formats) {y m d h mi s ns : Nat} (o : Ok y m d h mi s ns)
    (hne : ¬ (L = RFC3339Nano ∧ ns = 0)) {P : Time}
    (hP : Parse loc (quoted L)
      (quoted ((⟨(y : Int), m, d, h, mi, s, ns, UTC⟩ : Time).Format L)) = .ok P) :
    UnmarshalJSON loc mt (quoted ((⟨(y : Int), m, d, h, mi, s, ns, UTC⟩ : Time).Format L))
      = (⟨P, L⟩, none) := by
  obtain ⟨P2, hP2, hU, -⟩ := roundtrip_all loc mt L hL o
  rw [hP] at hP2
  cases hP2
  rw [hU, if_neg hne]

theorem ok_midnight : Ok 0 1 1 0 0 0 0 :=
  ⟨⟨by decide, by decide, by decide, by decide, by decide, by decide, by decide, by decide,
    by decide⟩, by decide⟩

theorem ok_newyear_2024 : Ok 2024 1 1 0 0 0 0 :=
  ⟨⟨by decide, by decide, by decide, by decide, by decide, by decide, by decide, by decide,
    by decide⟩, by decide⟩

theorem unmarshal_midnight_kitchen (loc : Location) (mt : MultiFormatTime) :
    UnmarshalJSON loc mt (B "\"12:00AM\"") = (⟨⟨0, 1, 1, 0, 0, 0, 0, UTC⟩, Kitchen⟩, none) := by
  have hp := parse_Kitchen ok_midnight loc
  have e : (34 :: (nd (h12 0) ++ 58 :: (d2 0 ++ (ampm 0 ++ [34])))) =
      quoted ((⟨((0 : Nat) : Int), 1, 1, 0, 0, 0, 0, UTC⟩ : Time).Format Kitchen) := by decide
  rw [e] at hp
  have hu := unmarshal_canonical loc mt Kitchen (by decide) ok_midnight (by decide) hp
  exact hu

theorem unmarshal_newyear_dateonly (loc : Location) (mt : MultiFormatTime) :
    UnmarshalJSON loc mt (B "\"2024-01-01\"")
      = (⟨⟨2024, 1, 1, 0, 0, 0, 0, UTC⟩, DateOnly⟩, none) := by
  have hp := parse_DateOnly ok_newyear_2024 loc
  have e : (34 :: (d4 2024 ++ 45 :: (d2 1 ++ 45 :: (d2 1 ++ [34])))) =
      quoted ((⟨((2024 : Nat) : Int), 1, 1, 0, 0, 0, 0, UTC⟩ : Time).Format DateOnly) := by decide
  rw [e] at hp
  have hu := unmarshal_canonical loc mt DateOnly (by decide) ok_newyear_2024 (by decide) hp
  exact hu

end Mft

namespace Mft
open Std

/-! ## Layouts that start with the date `2006-01-02` -/

/-- The first three elements of `RFC3339`, `RFC3339Nano`, `DateTime` and `DateOnly`:
the text they read and the run that goes on after the day. -/
theorem run_ymd {loc : Location} {A av t1 t2 t3 : GoString} {rest : List Chunk}
    {s : GoString} {st : PState} {t : Time}
    (h : parseChunks loc A av
      (⟨[34], some stdLongYear, t1⟩ :: ⟨[45], some stdZeroMonth, t2⟩ ::
        ⟨[45], some stdZeroDay, t3⟩ :: rest) s st = .ok t) :
    ∃ y m d r, y < 10000 ∧ 1 ≤ m ∧ m ≤ 12 ∧ d < 100 ∧
      s = 34 :: (d4 y ++ 45 :: (d2 m ++ 45 :: (d2 d ++ r))) ∧
      parseChunks loc A av rest r
        { st with year := ((y : Nat) : Int), month := some m, day := some d } = .ok t := by
  obtain ⟨v0, y, r0, hs0, hy, e0, h⟩ := run_longYear h
  obtain ⟨v1, m, r1, hs1, hg1, hm1, hm2, h⟩ := run_zeroMonth h
  dsimp only at h
  obtain ⟨v2, d, r2, hs2, hg2, h⟩ := run_zeroDay h
  dsimp only at h
  have a0 := skip_ok_byte (by decide) hs0
  have a1 := skip_ok_byte (by decide) hs1
  have a2 := skip_ok_byte (by decide) hs2
  obtain ⟨-, b1⟩ := getnum_fixed_inv hg1
  obtain ⟨hd, b2⟩ := getnum_fixed_inv hg2
  refine ⟨y, m, d, r2, hy, hm1, hm2, hd, ?_, h⟩
  rw [a0, e0, a1, b1, a2, b2]

theorem dec_DateOnly {loc : Location} {s : GoString} {t : Time}
    (h : Parse loc (quoted DateOnly) s = .ok t) :
    ∃ y m d, Ok y m d 0 0 0 0 ∧ s = 34 :: (d4 y ++ 45 :: (d2 m ++ 45 :: (d2 d ++ [34]))) ∧
      t = ⟨((y : Nat) : Int), m, d, 0, 0, 0, 0, UTC⟩ := by
  unfold Parse at h
  rw [qchunks_DateOnly] at h
  obtain ⟨y, m, d, r, hy, hm1, hm2, -, e, h⟩ := run_ymd h
  dsimp only at h
  obtain ⟨hq, hf⟩ := pc_ok_last h
  obtain ⟨hd1, hd2, ht⟩ := parseFinish_ok_inv hf rfl
  have hq2 := skip_quote_end hq
  subst hq2
  have hd1 : 1 ≤ d := hd1
  have hd2 : d ≤ daysIn m ((y : Nat) : Int) := hd2
  have hd3 : d ≤ 31 := le_trans hd2 (daysIn_le31 _ _ hm1 hm2)
  refine ⟨y, m, d, ⟨⟨hy, hm1, hm2, hd1, hd3, by decide, by decide, by decide, by decide⟩, hd2⟩,
    e, ?_⟩
  rw [ht]
  simp [finishTime, Date, UTC]

/-- The `DateOnly` layout is strict: a text it accepts is the text of the value
it gives. -/
theorem strict_DateOnly {loc : Location} {s : GoString} {t : Time}
    (h : Parse loc (quoted DateOnly) s = .ok t) :
    s = quoted (t.Format DateOnly) ∧ MarshalJSON ⟨t, DateOnly⟩ = (s, none) := by
  obtain ⟨y, m, d, o, e, ht⟩ := dec_DateOnly h
  have hq := qformat_DateOnly o.rng UTC
  have hm := marshal_formats DateOnly (by decide) o.rng
  rw [← ht] at hq hm
  rw [hm, hq, e]
  exact ⟨rfl, rfl⟩

theorem unmarshal_tag_mem (loc : Location) (mt mt2 : MultiFormatTime) (s : GoString)
    (hok : UnmarshalJSON loc mt s = (mt2, none)) : mt2.Format ∈ formats := by
  obtain ⟨pre, f, post, t, hfs, -, -, h⟩ := unmarshal_ok_inv loc mt mt2 s hok
  rcases h with ⟨h1, -⟩ | ⟨-, -, t2, -, h2⟩
  · rw [h1]
    exact mem_formats_of_split pre post f hfs
  · rw [h2]
    exact (show RFC3339Nano ∈ formats by decide)

/-- A text that `MarshalJSON` produces for a valid UTC time under a layout of the
registry is returned as it is by `MarshalJSON` of what `UnmarshalJSON` decodes
from it. -/
theorem canonical_returned (loc : Location) (mt mt2 : MultiFormatTime) (s : GoString)
    (hok : UnmarshalJSON loc mt s = (mt2, none)) (L : GoString) (hL : L ∈ formats)
    {y m d h mi sec ns : Nat} (o : Ok y m d h mi sec ns)
    (h850 : L = RFC850 → 1969 ≤ y ∧ y ≤ 2068)
    (hs : s = quoted ((⟨(y : Int), m, d, h, mi, sec, ns, UTC⟩ : Time).Format L)) :
    s = quoted (mt2.Time.Format mt2.Format) ∧ MarshalJSON mt2 = (s, none) := by
  obtain ⟨P, -, hu, hf⟩ := roundtrip_all loc mt L hL o
  have hf2 := hf h850
  rw [← hs, hok] at hu
  have e : mt2 = ⟨P, if L = RFC3339Nano ∧ ns = 0 then RFC3339 else L⟩ := by
    injection hu
  have hne : mt2.Format ≠ [] := formats_ne_nil _ (unmarshal_tag_mem loc mt mt2 s hok)
  have hfm : mt2.Time.Format mt2.Format
      = (⟨(y : Int), m, d, h, mi, sec, ns, UTC⟩ : Time).Format L := by
    rw [e]; exact hf2
  refine ⟨by rw [hfm, hs], ?_⟩
  unfold MarshalJSON
  rw [if_pos hne, hfm, hs]
  exact jsonMarshal_safe _ (safe_all L hL o.rng)

end Mft

namespace Mft
open Std

/-! ## Telling layouts apart by the start of the text

Two kinds of start: a number (`NumThen`) and a name of a day or month
(`NameThen`).  A text has one kind only, and within a kind the byte after the
number or the name, or the table the name comes from, tells the layouts apart. -/

theorem headIn_excl {v : GoString} {lo hi lo2 hi2 : Nat} (h1 : HeadIn v lo hi)
    (h2 : HeadIn v lo2 hi2) (hd : hi < lo2 ∨ hi2 < lo) : False := by
  obtain ⟨c, r, e, a, b⟩ := h1
  obtain ⟨c2, r2, e2, a2, b2⟩ := h2
  rw [e] at e2
  injection e2 with e3 _
  omega

theorem numThen_excl {s : GoString} {lo hi lo2 hi2 : Nat} (h1 : NumThen s lo hi)
    (h2 : NumThen s lo2 hi2) (hd : hi < lo2 ∨ hi2 < lo) : False := by
  obtain ⟨v0, n, r, e, g, hh⟩ := h1
  obtain ⟨v1, n1, r1, e1, g1, hh1⟩ := h2
  rw [e] at e1
  injection e1 with _ e3
  subst e3
  rw [g] at g1
  injection g1 with g3
  injection g3 with _ g4
  subst g4
  exact headIn_excl hh hh1 hd

theorem matchFold_map : ∀ (a b : GoString), a.length = b.length → matchFold a b = true →
    a.map (· ||| 32) = b.map (· ||| 32)
  | [], [], _, _ => rfl
  | [], _ :: _, h, _ => by cases h
  | _ :: _, [], h, _ => by cases h
  | c1 :: r1, c2 :: r2, hl, hm => by
    simp only [matchFold] at hm
    have hl2 : r1.length = r2.length := by simpa using hl
    by_cases hc : c1 = c2
    · subst hc
      simp only [ne_eq, not_true_eq_false, if_false] at hm
      simp only [List.map_cons, matchFold_map r1 r2 hl2 hm]
    · simp only [ne_eq, hc, not_false_eq_true, if_true] at hm
      by_cases hx : ¬ (c1 ||| 32) = (c2 ||| 32) ∨ (c1 ||| 32) < 97 ∨ (c1 ||| 32) > 122
      · rw [if_pos hx] at hm; cases hm
      · rw [if_neg hx] at hm
        have e : (c1 ||| 32) = (c2 ||| 32) := by
          by_contra h
          exact hx (Or.inl h)
        simp only [List.map_cons, e, matchFold_map r1 r2 hl2 hm]

/-- What a successful `lookup` says about the start of the text. -/
theorem lookup_key {tab : List GoString} {v r : GoString} {j : Nat}
    (h : lookup tab v = some (j, r)) (h3 : ∀ name ∈ tab, 3 ≤ name.length) :
    ∃ name ∈ tab, name.length ≤ v.length ∧
      (v.take name.length).map (· ||| 32) = name.map (· ||| 32) ∧
      key3 v = key3 name ∧ r = v.drop name.length := by
  obtain ⟨name, hn, hl, hm, hr⟩ := lookup_inv h
  have hmem : name ∈ tab := List.getElem?_mem hn
  have hlen : (v.take name.length).length = name.length := by
    rw [List.length_take]; omega
  have hmap := matchFold_map _ _ hlen hm
  refine ⟨name, hmem, hl, hmap, ?_, hr⟩
  have h3n := h3 name hmem
  have e1 : (v.take name.length).take 3 = v.take 3 := by
    rw [List.take_take]
    congr 1
    omega
  unfold key3
  rw [← e1, List.map_take _ (List.take name.length v) 3, hmap, ← List.map_take]

theorem lor32_digit : ∀ c, c ≤ 57 → 48 ≤ c → c ||| 32 = c := by decide

theorem lor32_letter : ∀ c, c ≤ 122 → 97 ≤ c ||| 32 → 65 ≤ c := by decide

theorem le_lor32 (c : Nat) : c ≤ c ||| 32 :=
  Nat.le_of_testBit (fun i h => by rw [Nat.testBit_or, h]; rfl)

theorem key3_cons (c : Nat) (r : GoString) : (key3 (c :: r)).headD 0 = c ||| 32 := by
  simp [key3]

theorem num_name_excl {s : GoString} {lo hi lo2 hi2 : Nat} {tab : List GoString}
    (h1 : NumThen s lo hi) (h2 : NameThen s tab lo2 hi2)
    (ht : ∀ name ∈ tab, 97 ≤ (key3 name).headD 0) : False := by
  obtain ⟨v0, n, r, e, g, -⟩ := h1
  obtain ⟨v1, name, e1, hm, -, hk, -⟩ := h2
  rw [e] at e1
  injection e1 with _ e3
  subst e3
  obtain ⟨c, r0, ev, c1, c2⟩ := getnum_head g
  subst ev
  have := ht name hm
  rw [← hk, key3_cons, lor32_digit c c2 c1] at this
  omega

theorem nameThen_excl {s : GoString} {lo hi lo2 hi2 : Nat} {tab tab2 : List GoString}
    (h1 : NameThen s tab lo hi) (h2 : NameThen s tab2 lo2 hi2)
    (hd : (∀ a ∈ tab, ∀ b ∈ tab2, key3 a ≠ key3 b) ∨ hi < lo2 ∨ hi2 < lo) : False := by
  obtain ⟨v0, name, e, hm, -, hk, hh⟩ := h1
  obtain ⟨v1, name1, e1, hm1, -, hk1, hh1⟩ := h2
  rw [e] at e1
  injection e1 with _ e3
  subst e3
  rcases hd with hd | hd
  · exact hd name hm name1 hm1 (hk.symm.trans hk1)
  · exact headIn_excl hh hh1 hd

end Mft

namespace Mft
open Std

/-! ## The start of the text of each layout -/

theorem pc_ok_skip {loc : Location} {A av lit tx : GoString} {std : Std} {rest : List Chunk}
    {v : GoString} {st : PState} {t : Time}
    (h : parseChunks loc A av (⟨lit, some std, tx⟩ :: rest) v st = .ok t) :
    ∃ v1, skip v lit = .ok v1 := by
  obtain ⟨v1, hs, -⟩ := pc_ok_cons h
  exact ⟨v1, hs⟩

theorem skip_ok_head {v v1 ps : GoString} {c : Nat} (hc : c ≠ 32)
    (h : skip v (c :: ps) = .ok v1) : HeadIn v c c := by
  cases v with
  | nil => simp [skip, skipAux, hc] at h
  | cons a r =>
    by_cases ha : a = c
    · subst ha
      exact headIn_cons a r
    · simp [skip, skipAux, hc, ha] at h

theorem skip_sp_head_of {v v1 : GoString} (h : skip v [32] = .ok v1) (hne : v1 ≠ []) :
    HeadIn v 32 32 := by
  rcases (skip_ok_sp h).2 with ⟨-, e⟩ | ⟨r, e, -⟩
  · exact absurd e hne
  · rw [e]
    exact headIn_cons 32 r

theorem lookup_ne_nil {tab : List GoString} {v r : GoString} {j : Nat}
    (h : lookup tab v = some (j, r)) (h3 : ∀ name ∈ tab, 3 ≤ name.length) : v ≠ [] := by
  obtain ⟨name, hm, hl, -⟩ := lookup_key h h3
  have := h3 name hm
  intro e
  rw [e, List.length_nil] at hl
  omega

theorem getnum_ne_nil {v r : GoString} {fixed : Bool} {n : Nat}
    (h : getnum v fixed = some (n, r)) : v ≠ [] := by
  intro e
  rw [e] at h
  simp [getnum] at h

theorem len_shortDayNames : ∀ name ∈ shortDayNames, name.length = 3 := by decide

theorem len_shortMonthNames : ∀ name ∈ shortMonthNames, name.length = 3 := by decide

theorem len_longDayNames : ∀ name ∈ longDayNames, 3 ≤ name.length := by decide

theorem nameThen_of_lookup {tab : List GoString} {s v0 r : GoString} {i lo hi : Nat}
    (hs : s = 34 :: v0) (hl : lookup tab v0 = some (i, r))
    (h3 : ∀ name ∈ tab, name.length = 3) (hh : HeadIn r lo hi) : NameThen s tab lo hi := by
  obtain ⟨name, hm, hlen, -, hk, hr⟩ := lookup_key hl (fun n hn => by rw [h3 n hn])
  rw [h3 name hm] at hlen hr
  rw [hr] at hh
  exact ⟨v0, name, hs, hm, hlen, hk, hh⟩

theorem lookup_long_head {v r : GoString} {j : Nat}
    (h : lookup longDayNames v = some (j, r)) : HeadIn (v.drop 3) 65 122 := by
  obtain ⟨name, hm, hl, hmap, -, -⟩ := lookup_key h len_longDayNames
  have h6 : ∀ name ∈ longDayNames, 4 ≤ name.length ∧
      97 ≤ (name.map (· ||| 32)).getD 3 0 ∧ (name.map (· ||| 32)).getD 3 0 ≤ 122 := by decide
  obtain ⟨a1, a2, a3⟩ := h6 name hm
  rcases v with _ | ⟨a, _ | ⟨b, _ | ⟨c, _ | ⟨d, rest⟩⟩⟩⟩
  · simp only [List.length_nil, List.length_cons] at hl; omega
  · simp only [List.length_nil, List.length_cons] at hl; omega
  · simp only [List.length_nil, List.length_cons] at hl; omega
  · simp only [List.length_nil, List.length_cons] at hl; omega
  · have e : ((List.take name.length (a :: b :: c :: d :: rest)).map (· ||| 32)).getD 3 0
        = d ||| 32 := by
      obtain ⟨k, hk⟩ : ∃ k, name.length = k + 4 := ⟨name.length - 4, by omega⟩
      rw [hk]
      simp
    rw [hmap] at e
    have hd : d ≤ 122 := le_trans (le_lor32 d) (by omega)
    exact ⟨d, rest, rfl, lor32_letter d hd (by omega), hd⟩

theorem nameThen_long {s v0 r : GoString} {i : Nat} (hs : s = 34 :: v0)
    (hl : lookup longDayNames v0 = some (i, r)) : NameThen s longDayNames 65 122 := by
  obtain ⟨name, hm, hlen, -, hk, -⟩ := lookup_key hl len_longDayNames
  have := len_longDayNames name hm
  exact ⟨v0, name, hs, hm, by omega, hk, lookup_long_head hl⟩

theorem ymd_numThen {s tl : GoString} {y : Nat} (hy : y < 10000) (hs : s = 34 :: (d4 y ++ tl)) :
    NumThen s 48 57 := by
  refine ⟨d4 y ++ tl, y / 100, d2 (y % 100) ++ tl, hs, ?_, headIn_d2 _ (by omega) _⟩
  rw [d4_split y hy, List.append_assoc]
  exact getnum_d2 _ (by omega) _ _

theorem ymd_drop {s r : GoString} {y m d : Nat}
    (hs : s = 34 :: (d4 y ++ 45 :: (d2 m ++ 45 :: (d2 d ++ r)))) : s.drop 11 = r := by
  rw [hs]
  simp [d4, d2]

end Mft

namespace Mft
open Std

/-! ## The kind of start each layout of the registry asks for -/

theorem le3_shortMonthNames : ∀ name ∈ shortMonthNames, 3 ≤ name.length := by decide

theorem cls_Layout {loc : Location} {s : GoString} (p : parses loc Layout s = true) :
    NumThen s 47 47 := by
  obtain ⟨t, h⟩ := (parses_true_iff loc Layout s).1 p
  unfold Parse at h
  rw [qchunks_Layout] at h
  obtain ⟨v0, n, r, hs, hg, -, -, h⟩ := run_zeroMonth h
  obtain ⟨v1, hs1⟩ := pc_ok_skip h
  exact ⟨v0, n, r, skip_ok_byte (by decide) hs, getnum_fixed_free hg,
    skip_ok_head (by decide) hs1⟩

theorem cls_RFC822Z {loc : Location} {s : GoString} (p : parses loc RFC822Z s = true) :
    NumThen s 32 32 := by
  obtain ⟨t, h⟩ := (parses_true_iff loc RFC822Z s).1 p
  unfold Parse at h
  rw [qchunks_RFC822Z] at h
  obtain ⟨v0, n, r, hs, hg, h⟩ := run_zeroDay h
  obtain ⟨v1, i, r1, hs1, hl, -⟩ := run_month h
  exact ⟨v0, n, r, skip_ok_byte (by decide) hs, getnum_fixed_free hg,
    skip_sp_head_of hs1 (lookup_ne_nil hl le3_shortMonthNames)⟩

theorem cls_RFC822 {loc : Location} {s : GoString} (p : parses loc RFC822 s = true) :
    NumThen s 32 32 := by
  obtain ⟨t, h⟩ := (parses_true_iff loc RFC822 s).1 p
  unfold Parse at h
  rw [qchunks_RFC822] at h
  obtain ⟨v0, n, r, hs, hg, h⟩ := run_zeroDay h
  obtain ⟨v1, i, r1, hs1, hl, -⟩ := run_month h
  exact ⟨v0, n, r, skip_ok_byte (by decide) hs, getnum_fixed_free hg,
    skip_sp_head_of hs1 (lookup_ne_nil hl le3_shortMonthNames)⟩

theorem cls_RFC3339 {loc : Location} {s : GoString} (p : parses loc RFC3339 s = true) :
    NumThen s 48 57 ∧ HeadIn (s.drop 11) 84 84 := by
  obtain ⟨t, h⟩ := (parses_true_iff loc RFC3339 s).1 p
  unfold Parse at h
  rw [qchunks_RFC3339] at h
  obtain ⟨y, m, d, r, hy, -, -, -, e, h⟩ := run_ymd h
  obtain ⟨v1, hs1⟩ := pc_ok_skip h
  refine ⟨ymd_numThen hy e, ?_⟩
  rw [ymd_drop e]
  exact skip_ok_head (by decide) hs1

theorem cls_RFC3339Nano {loc : Location} {s : GoString} (p : parses loc RFC3339Nano s = true) :
    NumThen s 48 57 ∧ HeadIn (s.drop 11) 84 84 := by
  obtain ⟨t, h⟩ := (parses_true_iff loc RFC3339Nano s).1 p
  unfold Parse at h
  rw [qchunks_RFC3339Nano] at h
  obtain ⟨y, m, d, r, hy, -, -, -, e, h⟩ := run_ymd h
  obtain ⟨v1, hs1⟩ := pc_ok_skip h
  refine ⟨ymd_numThen hy e, ?_⟩
  rw [ymd_drop e]
  exact skip_ok_head (by decide) hs1

theorem cls_DateTime {loc : Location} {s : GoString} (p : parses loc DateTime s = true) :
    NumThen s 48 57 ∧ HeadIn (s.drop 11) 32 32 := by
  obtain ⟨t, h⟩ := (parses_true_iff loc DateTime s).1 p
  unfold Parse at h
  rw [qchunks_DateTime] at h
  obtain ⟨y, m, d, r, hy, -, -, -, e, h⟩ := run_ymd h
  obtain ⟨v1, n, r1, hs1, hg1, -, -⟩ := run_hour h
  refine ⟨ymd_numThen hy e, ?_⟩
  rw [ymd_drop e]
  exact skip_sp_head_of hs1 (getnum_ne_nil hg1)

theorem cls_DateOnly {loc : Location} {s : GoString} (p : parses loc DateOnly s = true) :
    NumThen s 48 57 ∧ HeadIn (s.drop 11) 34 34 := by
  obtain ⟨t, h⟩ := (parses_true_iff loc DateOnly s).1 p
  unfold Parse at h
  rw [qchunks_DateOnly] at h
  obtain ⟨y, m, d, r, hy, -, -, -, e, h⟩ := run_ymd h
  obtain ⟨hq, -⟩ := pc_ok_last h
  refine ⟨ymd_numThen hy e, ?_⟩
  rw [ymd_drop e, skip_quote_end hq]
  exact headIn_cons 34 []

theorem cls_Kitchen {loc : Location} {s : GoString} (p : parses loc Kitchen s = true) :
    NumThen s 58 58 := by
  obtain ⟨t, h⟩ := (parses_true_iff loc Kitchen s).1 p
  unfold Parse at h
  rw [qchunks_Kitchen] at h
  obtain ⟨v0, n, r, hs, hg, -, h⟩ := run_hour12 h
  obtain ⟨v1, hs1⟩ := pc_ok_skip h
  exact ⟨v0, n, r, skip_ok_byte (by decide) hs, hg, skip_ok_head (by decide) hs1⟩

theorem cls_TimeOnly {loc : Location} {s : GoString} (p : parses loc TimeOnly s = true) :
    NumThen s 58 58 := by
  obtain ⟨t, h⟩ := (parses_true_iff loc TimeOnly s).1 p
  unfold Parse at h
  rw [qchunks_TimeOnly] at h
  obtain ⟨v0, n, r, hs, hg, -, h⟩ := run_hour h
  obtain ⟨v1, hs1⟩ := pc_ok_skip h
  exact ⟨v0, n, r, skip_ok_byte (by decide) hs, hg, skip_ok_head (by decide) hs1⟩

theorem cls_ANSIC {loc : Location} {s : GoString} (p : parses loc ANSIC s = true) :
    NameThen s shortDayNames 32 32 := by
  obtain ⟨t, h⟩ := (parses_true_iff loc ANSIC s).1 p
  unfold Parse at h
  rw [qchunks_ANSIC] at h
  obtain ⟨v0, i, r, hs, hl, h⟩ := run_weekDay h
  obtain ⟨v1, j, r1, hs1, hl1, -⟩ := run_month h
  exact nameThen_of_lookup (skip_ok_byte (by decide) hs) hl len_shortDayNames
    (skip_sp_head_of hs1 (lookup_ne_nil hl1 le3_shortMonthNames))

theorem cls_RubyDate {loc : Location} {s : GoString} (p : parses loc RubyDate s = true) :
    NameThen s shortDayNames 32 32 := by
  obtain ⟨t, h⟩ := (parses_true_iff loc RubyDate s).1 p
  unfold Parse at h
  rw [qchunks_RubyDate] at h
  obtain ⟨v0, i, r, hs, hl, h⟩ := run_weekDay h
  obtain ⟨v1, j, r1, hs1, hl1, -⟩ := run_month h
  exact nameThen_of_lookup (skip_ok_byte (by decide) hs) hl len_shortDayNames
    (skip_sp_head_of hs1 (lookup_ne_nil hl1 le3_shortMonthNames))

theorem cls_UnixDate {loc : Location} {s : GoString} (p : parses loc UnixDate s = true) :
    NameThen s shortDayNames 32 32 := by
  obtain ⟨t, h⟩ := (parses_true_iff loc UnixDate s).1 p
  unfold Parse at h
  rw [qchunks_UnixDate] at h
  obtain ⟨v0, i, r, hs, hl, h⟩ := run_weekDay h
  obtain ⟨v1, j, r1, hs1, hl1, -⟩ := run_month h
  exact nameThen_of_lookup (skip_ok_byte (by decide) hs) hl len_shortDayNames
    (skip_sp_head_of hs1 (lookup_ne_nil hl1 le3_shortMonthNames))

theorem cls_RFC1123Z {loc : Location} {s : GoString} (p : parses loc RFC1123Z s = true) :
    NameThen s shortDayNames 44 44 := by
  obtain ⟨t, h⟩ := (parses_true_iff loc RFC1123Z s).1 p
  unfold Parse at h
  rw [qchunks_RFC1123Z] at h
  obtain ⟨v0, i, r, hs, hl, h⟩ := run_weekDay h
  obtain ⟨v1, hs1⟩ := pc_ok_skip h
  exact nameThen_of_lookup (skip_ok_byte (by decide) hs) hl len_shortDayNames
    (skip_ok_head (by decide) hs1)

theorem cls_RFC1123 {loc : Location} {s : GoString} (p : parses loc RFC1123 s = true) :
    NameThen s shortDayNames 44 44 := by
  obtain ⟨t, h⟩ := (parses_true_iff loc RFC1123 s).1 p
  unfold Parse at h
  rw [qchunks_RFC1123] at h
  obtain ⟨v0, i, r, hs, hl, h⟩ := run_weekDay h
  obtain ⟨v1, hs1⟩ := pc_ok_skip h
  exact nameThen_of_lookup (skip_ok_byte (by decide) hs) hl len_shortDayNames
    (skip_ok_head (by decide) hs1)

theorem cls_RFC850 {loc : Location} {s : GoString} (p : parses loc RFC850 s = true) :
    NameThen s longDayNames 65 122 := by
  obtain ⟨t, h⟩ := (parses_true_iff loc RFC850 s).1 p
  unfold Parse at h
  rw [qchunks_RFC850] at h
  obtain ⟨v0, i, r, hs, hl, -⟩ := run_longWeekDay h
  exact nameThen_long (skip_ok_byte (by decide) hs) hl

theorem cls_StampNano {loc : Location} {s : GoString} (p : parses loc StampNano s = true) :
    NameThen s shortMonthNames 32 32 := by
  obtain ⟨t, h⟩ := (parses_true_iff loc StampNano s).1 p
  unfold Parse at h
  rw [qchunks_StampNano] at h
  obtain ⟨v0, i, r, hs, hl, h⟩ := run_month h
  obtain ⟨v1, d, r1, hs1, hg1, -⟩ := run_underDay h
  exact nameThen_of_lookup (skip_ok_byte (by decide) hs) hl len_shortMonthNames
    (skip_sp_head_of hs1 (getnum_ne_nil hg1))

theorem cls_StampMicro {loc : Location} {s : GoString} (p : parses loc StampMicro s = true) :
    NameThen s shortMonthNames 32 32 := by
  obtain ⟨t, h⟩ := (parses_true_iff loc StampMicro s).1 p
  unfold Parse at h
  rw [qchunks_StampMicro] at h
  obtain ⟨v0, i, r, hs, hl, h⟩ := run_month h
  obtain ⟨v1, d, r1, hs1, hg1, -⟩ := run_underDay h
  exact nameThen_of_lookup (skip_ok_byte (by decide) hs) hl len_shortMonthNames
    (skip_sp_head_of hs1 (getnum_ne_nil hg1))

theorem cls_StampMilli {loc : Location} {s : GoString} (p : parses loc StampMilli s = true) :
    NameThen s shortMonthNames 32 32 := by
  obtain ⟨t, h⟩ := (parses_true_iff loc StampMilli s).1 p
  unfold Parse at h
  rw [qchunks_StampMilli] at h
  obtain ⟨v0, i, r, hs, hl, h⟩ := run_month h
  obtain ⟨v1, d, r1, hs1, hg1, -⟩ := run_underDay h
  exact nameThen_of_lookup (skip_ok_byte (by decide) hs) hl len_shortMonthNames
    (skip_sp_head_of hs1 (getnum_ne_nil hg1))

theorem cls_Stamp {loc : Location} {s : GoString} (p : parses loc Stamp s = true) :
    NameThen s shortMonthNames 32 32 := by
  obtain ⟨t, h⟩ := (parses_true_iff loc Stamp s).1 p
  unfold Parse at h
  rw [qchunks_Stamp] at h
  obtain ⟨v0, i, r, hs, hl, h⟩ := run_month h
  obtain ⟨v1, d, r1, hs1, hg1, -⟩ := run_underDay h
  exact nameThen_of_lookup (skip_ok_byte (by decide) hs) hl len_shortMonthNames
    (skip_sp_head_of hs1 (getnum_ne_nil hg1))

/-! ## The tables of names, compared -/

theorem key_shortDayNames : ∀ name ∈ shortDayNames, 97 ≤ (key3 name).headD 0 := by decide

theorem key_longDayNames : ∀ name ∈ longDayNames, 97 ≤ (key3 name).headD 0 := by decide

theorem key_shortMonthNames : ∀ name ∈ shortMonthNames, 97 ≤ (key3 name).headD 0 := by decide

theorem key_day_month : ∀ a ∈ shortDayNames, ∀ b ∈ shortMonthNames, key3 a ≠ key3 b := by decide

theorem key_month_day : ∀ a ∈ shortMonthNames, ∀ b ∈ shortDayNames, key3 a ≠ key3 b := by decide

theorem key_long_month : ∀ a ∈ longDayNames, ∀ b ∈ shortMonthNames, key3 a ≠ key3 b := by decide

theorem key_month_long : ∀ a ∈ shortMonthNames, ∀ b ∈ longDayNames, key3 a ≠ key3 b := by decide

end Mft

namespace Mft
open Std

/-! ## Layouts with the same kind of start

Where two layouts start alike, the texts they accept differ further on: after
the date for the layouts that start with `2006-01-02`, after the minutes for
`Kitchen` and `TimeOnly`, after the seconds for the others. -/

theorem clockPos_det {v r r2 : GoString} (h1 : ClockPos v r) (h2 : ClockPos v r2) : r = r2 := by
  obtain ⟨v1, d, r1, v2, h0, v3, mi, v4, sec, a1, a2, a3, a4, a5, a6⟩ := h1
  obtain ⟨w1, e, q1, w2, k0, w3, mj, w4, sed, b1, b2, b3, b4, b5, b6⟩ := h2
  rw [a1] at b1
  injection b1 with b1
  subst b1
  rw [a2] at b2
  injection b2 with b2
  injection b2 with _ b2
  subst b2
  rw [a3] at b3
  injection b3 with b3
  subst b3
  rw [a4] at b4
  injection b4 with b4
  injection b4 with _ b4
  injection b4 with _ b4
  subst b4
  rw [a5] at b5
  injection b5 with b5
  injection b5 with _ b5
  injection b5 with _ b5
  subst b5
  rw [a6] at b6
  injection b6 with b6
  injection b6 with _ b6

theorem stampPos_det {s r r2 : GoString} (h1 : StampPos s r) (h2 : StampPos s r2) : r = r2 := by
  obtain ⟨v0, i, r0, a1, a2, a3⟩ := h1
  obtain ⟨w0, j, q0, b1, b2, b3⟩ := h2
  rw [a1] at b1
  injection b1 with _ b1
  subst b1
  rw [a2] at b2
  injection b2 with b2
  injection b2 with _ b2
  subst b2
  exact clockPos_det a3 b3

theorem weekdayPos_det {s r r2 : GoString} (h1 : WeekdayPos s r) (h2 : WeekdayPos s r2) :
    r = r2 := by
  obtain ⟨v0, i, r0, v1, j, r1, a1, a2, a3, a4, a5⟩ := h1
  obtain ⟨w0, k, q0, w1, l, q1, b1, b2, b3, b4, b5⟩ := h2
  rw [a1] at b1
  injection b1 with _ b1
  subst b1
  rw [a2] at b2
  injection b2 with b2
  injection b2 with _ b2
  subst b2
  rw [a3] at b3
  injection b3 with b3
  subst b3
  rw [a4] at b4
  injection b4 with b4
  injection b4 with _ b4
  subst b4
  exact clockPos_det a5 b5

/-- Hour, minutes and seconds, when the layout has no fraction after the seconds. -/
theorem run_hms_plain {loc : Location} {A av t3 t4 t5 : GoString} {rest : List Chunk}
    {v : GoString} {st : PState} {t : Time}
    (h : parseChunks loc A av
      (⟨[32], some stdHour, t3⟩ :: ⟨[58], some stdZeroMinute, t4⟩ ::
        ⟨[58], some stdZeroSecond, t5⟩ :: rest) v st = .ok t)
    (hnx : isFracStd ((rest.head?).bind (·.std)) = false) :
    ∃ v2 h0 v3 mi v4 sec r st2, skip v [32] = .ok v2 ∧ getnum v2 false = some (h0, 58 :: v3) ∧
      getnum v3 true = some (mi, 58 :: v4) ∧ getnum v4 true = some (sec, r) ∧
      parseChunks loc A av rest (r.drop (fracLen r)) st2 = .ok t := by
  obtain ⟨v2, h0, r2, hs2, hg2, -, h⟩ := run_hour h
  obtain ⟨v3, mi, r3, hs3, hg3, -, h⟩ := run_zeroMinute h
  obtain ⟨v4, sec, r4, ns, hs4, hg4, -, h⟩ := run_second_plain h hnx
  rw [skip_ok_byte (by decide) hs3] at hg2
  rw [skip_ok_byte (by decide) hs4] at hg3
  exact ⟨v2, h0, v3, mi, v4, sec, r4, _, hs2, hg2, hg3, hg4, h⟩

/-- Hour, minutes and seconds, when the layout has a fraction of fixed width after
the seconds. -/
theorem run_hms_frac0 {loc : Location} {A av t3 t4 t5 t6 : GoString} {n sep : Nat}
    {rest : List Chunk} {v : GoString} {st : PState} {t : Time}
    (h : parseChunks loc A av
      (⟨[32], some stdHour, t3⟩ :: ⟨[58], some stdZeroMinute, t4⟩ ::
        ⟨[58], some stdZeroSecond, t5⟩ :: ⟨[], some (stdFracSecond0 n sep), t6⟩ :: rest) v st
          = .ok t) :
    ∃ v2 h0 v3 mi v4 sec r st2, skip v [32] = .ok v2 ∧ getnum v2 false = some (h0, 58 :: v3) ∧
      getnum v3 true = some (mi, 58 :: v4) ∧ getnum v4 true = some (sec, r) ∧
      parseChunks loc A av (⟨[], some (stdFracSecond0 n sep), t6⟩ :: rest) r st2 = .ok t := by
  obtain ⟨v2, h0, r2, hs2, hg2, -, h⟩ := run_hour h
  obtain ⟨v3, mi, r3, hs3, hg3, -, h⟩ := run_zeroMinute h
  obtain ⟨v4, sec, r4, hs4, hg4, -, h⟩ := run_second_frac0 h
  rw [skip_ok_byte (by decide) hs3] at hg2
  rw [skip_ok_byte (by decide) hs4] at hg3
  exact ⟨v2, h0, v3, mi, v4, sec, r4, _, hs2, hg2, hg3, hg4, h⟩

/-- The day, padded either way, then (when hour, minutes and seconds follow) the
clock. -/
theorem run_day {loc : Location} {A av t2 : GoString} {D : Std}
    (hD : D = stdUnderDay ∨ D = stdZeroDay) {rest : List Chunk}
    {v : GoString} {st : PState} {t : Time}
    (h : parseChunks loc A av (⟨[32], some D, t2⟩ :: rest) v st = .ok t) :
    ∃ v1 d r1 st2, skip v [32] = .ok v1 ∧ getnum v1 false = some (d, r1) ∧
      parseChunks loc A av rest r1 st2 = .ok t := by
  rcases hD with rfl | rfl
  · obtain ⟨v1, d, r1, hs1, hg1, h⟩ := run_underDay h
    exact ⟨v1, d, r1, _, hs1, hg1, h⟩
  · obtain ⟨v1, d, r1, hs1, hg1, h⟩ := run_zeroDay h
    exact ⟨v1, d, r1, _, hs1, getnum_fixed_free hg1, h⟩

theorem stampF_pos {loc : Location} {A av t1 t2 t3 t4 t5 t6 t7 : GoString} {n : Nat}
    (hn : n ≤ 9) {s : GoString} {st : PState} {t : Time}
    (h : parseChunks loc A av
      [⟨[34], some stdMonth, t1⟩, ⟨[32], some stdUnderDay, t2⟩, ⟨[32], some stdHour, t3⟩,
       ⟨[58], some stdZeroMinute, t4⟩, ⟨[58], some stdZeroSecond, t5⟩,
       ⟨[], some (stdFracSecond0 n 46), t6⟩, ⟨[34], none, t7⟩] s st = .ok t) :
    ∃ r, StampPos s r ∧ r.length = n + 2 := by
  obtain ⟨v0, i, r0, hs0, hl0, h⟩ := run_month h
  obtain ⟨v1, d, r1, st2, hs1, hg1, h⟩ := run_day (Or.inl rfl) h
  obtain ⟨v2, h0, v3, mi, v4, sec, r, st3, hs2, hg2, hg3, hg4, h⟩ := run_hms_frac0 h
  obtain ⟨v5, x, hs5, hl5, hx, h⟩ := run_frac0 hn h
  obtain ⟨hq, -⟩ := pc_ok_last h
  rw [skip_ok_nil hs5] at hq
  have hlen := drop_eq_singleton_length (skip_quote_end hq)
  exact ⟨r, ⟨v0, i, r0, skip_ok_byte (by decide) hs0, hl0, v1, d, r1, v2, h0, v3, mi, v4, sec,
    hs1, hg1, hs2, hg2, hg3, hg4⟩, by omega⟩

theorem weekday_pos {loc : Location} {A av t0 t1 t2 t3 t4 t5 tX : GoString} {D X : Std}
    (hD : D = stdUnderDay ∨ D = stdZeroDay) {rest : List Chunk}
    {s : GoString} {st : PState} {t : Time}
    (h : parseChunks loc A av
      (⟨[34], some stdWeekDay, t0⟩ :: ⟨[32], some stdMonth, t1⟩ :: ⟨[32], some D, t2⟩ ::
        ⟨[32], some stdHour, t3⟩ :: ⟨[58], some stdZeroMinute, t4⟩ ::
        ⟨[58], some stdZeroSecond, t5⟩ :: ⟨[32], some X, tX⟩ :: rest) s st = .ok t)
    (hX : isFracStd (some X) = false) :
    ∃ r st2, WeekdayPos s r ∧
      parseChunks loc A av (⟨[32], some X, tX⟩ :: rest) (r.drop (fracLen r)) st2 = .ok t := by
  obtain ⟨v0, i, r0, hs0, hl0, h⟩ := run_weekDay h
  obtain ⟨v1, j, r1, hs1, hl1, h⟩ := run_month h
  obtain ⟨v2, d, r2, st2, hs2, hg2, h⟩ := run_day hD h
  obtain ⟨v3, h0, v4, mi, v5, sec, r, st3, hs3, hg3, hg4, hg5, h⟩ := run_hms_plain h hX
  exact ⟨r, st3, ⟨v0, i, r0, v1, j, r1, skip_ok_byte (by decide) hs0, hl0, hs1, hl1, v2, d, r2,
    v3, h0, v4, mi, v5, sec, hs2, hg2, hs3, hg3, hg4, hg5⟩, h⟩

theorem no_Kitchen_TimeOnly {loc : Location} {s : GoString}
    (p1 : parses loc Kitchen s = true) (p2 : parses loc TimeOnly s = true) : False := by
  obtain ⟨t1, h1⟩ := (parses_true_iff loc Kitchen s).1 p1
  obtain ⟨t2, h2⟩ := (parses_true_iff loc TimeOnly s).1 p2
  obtain ⟨h0, mi, v1, v2, ap, e1, hg1, -, hg2, -, hc⟩ := dec_Kitchen h1
  obtain ⟨k0, mj, sec, ns, w1, w2, w3, r, f1, kg1, -, kg2, -, -⟩ := dec_TimeOnly h2
  rw [e1] at f1
  injection f1 with _ f1
  subst f1
  rw [hg1] at kg1
  injection kg1 with kg1
  injection kg1 with _ kg1
  injection kg1 with _ kg1
  subst kg1
  rw [hg2] at kg2
  injection kg2 with kg2
  injection kg2 with _ kg2
  rcases hc with ⟨ha, -⟩ | ⟨ha, -⟩
  · rw [ha] at kg2
    cases kg2
  · rw [ha] at kg2
    cases kg2

theorem no_ANSIC_RubyDate {loc : Location} {s : GoString}
    (p1 : parses loc ANSIC s = true) (p2 : parses loc RubyDate s = true) : False := by
  obtain ⟨t1, h1⟩ := (parses_true_iff loc ANSIC s).1 p1
  obtain ⟨t2, h2⟩ := (parses_true_iff loc RubyDate s).1 p2
  unfold Parse at h1 h2
  rw [qchunks_ANSIC] at h1
  rw [qchunks_RubyDate] at h2
  obtain ⟨r, st2, a, k⟩ := weekday_pos (Or.inl rfl) h1 rfl
  obtain ⟨r2, st3, a2, k2⟩ := weekday_pos (Or.inr rfl) h2 rfl
  have e := weekdayPos_det a a2
  subst e
  obtain ⟨v6, y, r6, hs6, hy, e6, -⟩ := run_longYear k
  obtain ⟨v7, hs7, hh⟩ := run_numTZ_head k2
  rw [hs6] at hs7
  injection hs7 with e7
  subst e7
  rw [e6] at hh
  exact headIn_excl (headIn_d4 y hy r6) hh (Or.inr (by decide))

theorem no_ANSIC_UnixDate {loc : Location} {s : GoString}
    (p1 : parses loc ANSIC s = true) (p2 : parses loc UnixDate s = true) : False := by
  obtain ⟨t1, h1⟩ := (parses_true_iff loc ANSIC s).1 p1
  obtain ⟨t2, h2⟩ := (parses_true_iff loc UnixDate s).1 p2
  unfold Parse at h1 h2
  rw [qchunks_ANSIC] at h1
  rw [qchunks_UnixDate] at h2
  obtain ⟨r, st2, a, k⟩ := weekday_pos (Or.inl rfl) h1 rfl
  obtain ⟨r2, st3, a2, k2⟩ := weekday_pos (Or.inl rfl) h2 rfl
  have e := weekdayPos_det a a2
  subst e
  obtain ⟨v6, y, r6, hs6, hy, e6, -⟩ := run_longYear k
  obtain ⟨v7, hs7, hh⟩ := run_TZ_head k2
  rw [hs6] at hs7
  injection hs7 with e7
  subst e7
  rw [e6] at hh
  exact hh (headIn_d4 y hy r6)

theorem no_StampNano_StampMicro {loc : Location} {s : GoString}
    (p1 : parses loc StampNano s = true) (p2 : parses loc StampMicro s = true) : False := by
  obtain ⟨t1, h1⟩ := (parses_true_iff loc StampNano s).1 p1
  obtain ⟨t2, h2⟩ := (parses_true_iff loc StampMicro s).1 p2
  unfold Parse at h1 h2
  rw [qchunks_StampNano] at h1
  rw [qchunks_StampMicro] at h2
  obtain ⟨r, a, b⟩ := stampF_pos (by decide) h1
  obtain ⟨r2, a2, b2⟩ := stampF_pos (by decide) h2
  have e := stampPos_det a a2
  subst e
  omega

theorem no_StampNano_StampMilli {loc : Location} {s : GoString}
    (p1 : parses loc StampNano s = true) (p2 : parses loc StampMilli s = true) : False := by
  obtain ⟨t1, h1⟩ := (parses_true_iff loc StampNano s).1 p1
  obtain ⟨t2, h2⟩ := (parses_true_iff loc StampMilli s).1 p2
  unfold Parse at h1 h2
  rw [qchunks_StampNano] at h1
  rw [qchunks_StampMilli] at h2
  obtain ⟨r, a, b⟩ := stampF_pos (by decide) h1
  obtain ⟨r2, a2, b2⟩ := stampF_pos (by decide) h2
  have e := stampPos_det a a2
  subst e
  omega

theorem no_StampMicro_StampMilli {loc : Location} {s : GoString}
    (p1 : parses loc StampMicro s = true) (p2 : parses loc StampMilli s = true) : False := by
  obtain ⟨t1, h1⟩ := (parses_true_iff loc StampMicro s).1 p1
  obtain ⟨t2, h2⟩ := (parses_true_iff loc StampMilli s).1 p2
  unfold Parse at h1 h2
  rw [qchunks_StampMicro] at h1
  rw [qchunks_StampMilli] at h2
  obtain ⟨r, a, b⟩ := stampF_pos (by decide) h1
  obtain ⟨r2, a2, b2⟩ := stampF_pos (by decide) h2
  have e := stampPos_det a a2
  subst e
  omega

end Mft

namespace Mft
open Std

/-! ## Every two layouts of the registry, compared

For each layout, what another layout of the registry that parses the same text
can be. -/

theorem pairs_Layout {loc : Location} {s L2 : GoString} (h2 : L2 ∈ formats)
    (hne : Layout ≠ L2) (p1 : parses loc Layout s = true)
    (p2 : parses loc L2 s = true) :
    ∃ A B, (A, B) ∈ ([(RFC3339, RFC3339Nano), (RubyDate, UnixDate), (RFC822Z, RFC822),
        (RFC1123Z, RFC1123), (StampNano, Stamp), (StampMicro, Stamp), (StampMilli, Stamp)] :
          List (GoString × GoString)) ∧
      ((Layout = A ∧ L2 = B) ∨ (Layout = B ∧ L2 = A)) := by
  simp only [formats, List.mem_cons, List.mem_singleton, List.not_mem_nil, or_false] at h2
  rcases h2 with rfl | rfl | rfl | rfl | rfl | rfl | rfl | rfl | rfl | rfl | rfl | rfl | rfl
    | rfl | rfl | rfl | rfl | rfl | rfl
  · exact absurd rfl hne
  · exact (num_name_excl (cls_Layout p1) (cls_ANSIC p2) key_shortDayNames).elim
  · exact (num_name_excl (cls_Layout p1) (cls_RubyDate p2) key_shortDayNames).elim
  · exact (num_name_excl (cls_Layout p1) (cls_UnixDate p2) key_shortDayNames).elim
  · exact (numThen_excl (cls_Layout p1) (cls_RFC822Z p2) (Or.inr (by decide))).elim
  · exact (numThen_excl (cls_Layout p1) (cls_RFC822 p2) (Or.inr (by decide))).elim
  · exact (num_name_excl (cls_Layout p1) (cls_RFC850 p2) key_longDayNames).elim
  · exact (num_name_excl (cls_Layout p1) (cls_RFC1123Z p2) key_shortDayNames).elim
  · exact (num_name_excl (cls_Layout p1) (cls_RFC1123 p2) key_shortDayNames).elim
  · exact (numThen_excl (cls_Layout p1) ((cls_RFC3339 p2).1) (Or.inl (by decide))).elim
  · exact (numThen_excl (cls_Layout p1) ((cls_RFC3339Nano p2).1) (Or.inl (by decide))).elim
  · exact (numThen_excl (cls_Layout p1) (cls_Kitchen p2) (Or.inl (by decide))).elim
  · exact (num_name_excl (cls_Layout p1) (cls_StampNano p2) key_shortMonthNames).elim
  · exact (num_name_excl (cls_Layout p1) (cls_StampMicro p2) key_shortMonthNames).elim
  · exact (num_name_excl (cls_Layout p1) (cls_StampMilli p2) key_shortMonthNames).elim
  · exact (num_name_excl (cls_Layout p1) (cls_Stamp p2) key_shortMonthNames).elim
  · exact (numThen_excl (cls_Layout p1) ((cls_DateTime p2).1) (Or.inl (by decide))).elim
  · exact (numThen_excl (cls_Layout p1) ((cls_DateOnly p2).1) (Or.inl (by decide))).elim
  · exact (numThen_excl (cls_Layout p1) (cls_TimeOnly p2) (Or.inl (by decide))).elim

theorem pairs_ANSIC {loc : Location} {s L2 : GoString} (h2 : L2 ∈ formats)
    (hne : ANSIC ≠ L2) (p1 : parses loc ANSIC s = true)
    (p2 : parses loc L2 s = true) :
    ∃ A B, (A, B) ∈ ([(RFC3339, RFC3339Nano), (RubyDate, UnixDate), (RFC822Z, RFC822),
        (RFC1123Z, RFC1123), (StampNano, Stamp), (StampMicro, Stamp), (StampMilli, Stamp)] :
          List (GoString × GoString)) ∧
      ((ANSIC = A ∧ L2 = B) ∨ (ANSIC = B ∧ L2 = A)) := by
  simp only [formats, List.mem_cons, List.mem_singleton, List.not_mem_nil, or_false] at h2
  rcases h2 with rfl | rfl | rfl | rfl | rfl | rfl | rfl | rfl | rfl | rfl | rfl | rfl | rfl
    | rfl | rfl | rfl | rfl | rfl | rfl
  · exact (num_name_excl (cls_Layout p2) (cls_ANSIC p1) key_shortDayNames).elim
  · exact absurd rfl hne
  · exact (no_ANSIC_RubyDate p1 p2).elim
  · exact (no_ANSIC_UnixDate p1 p2).elim
  · exact (num_name_excl (cls_RFC822Z p2) (cls_ANSIC p1) key_shortDayNames).elim
  · exact (num_name_excl (cls_RFC822 p2) (cls_ANSIC p1) key_shortDayNames).elim
  · exact (nameThen_excl (cls_ANSIC p1) (cls_RFC850 p2) (Or.inr (Or.inl (by decide)))).elim
  · exact (nameThen_excl (cls_ANSIC p1) (cls_RFC1123Z p2) (Or.inr (Or.inl (by decide)))).elim
  · exact (nameThen_excl (cls_ANSIC p1) (cls_RFC1123 p2) (Or.inr (Or.inl (by decide)))).elim
  · exact (num_name_excl ((cls_RFC3339 p2).1) (cls_ANSIC p1) key_shortDayNames).elim
  · exact (num_name_excl ((cls_RFC3339Nano p2).1) (cls_ANSIC p1) key_shortDayNames).elim
  · exact (num_name_excl (cls_Kitchen p2) (cls_ANSIC p1) key_shortDayNames).elim
  · exact (nameThen_excl (cls_ANSIC p1) (cls_StampNano p2) (Or.inl key_day_month)).elim
  · exact (nameThen_excl (cls_ANSIC p1) (cls_StampMicro p2) (Or.inl key_day_month)).elim
  · exact (nameThen_excl (cls_ANSIC p1) (cls_StampMilli p2) (Or.inl key_day_month)).elim
  · exact (nameThen_excl (cls_ANSIC p1) (cls_Stamp p2) (Or.inl key_day_month)).elim
  · exact (num_name_excl ((cls_DateTime p2).1) (cls_ANSIC p1) key_shortDayNames).elim
  · exact (num_name_excl ((cls_DateOnly p2).1) (cls_ANSIC p1) key_shortDayNames).elim
  · exact (num_name_excl (cls_TimeOnly p2) (cls_ANSIC p1) key_shortDayNames).elim

theorem pairs_RubyDate {loc : Location} {s L2 : GoString} (h2 : L2 ∈ formats)
    (hne : RubyDate ≠ L2) (p1 : parses loc RubyDate s = true)
    (p2 : parses loc L2 s = true) :
    ∃ A B, (A, B) ∈ ([(RFC3339, RFC3339Nano), (RubyDate, UnixDate), (RFC822Z, RFC822),
        (RFC1123Z, RFC1123), (StampNano, Stamp), (StampMicro, Stamp), (StampMilli, Stamp)] :
          List (GoString × GoString)) ∧
      ((RubyDate = A ∧ L2 = B) ∨ (RubyDate = B ∧ L2 = A)) := by
  simp only [formats, List.mem_cons, List.mem_singleton, List.not_mem_nil, or_false] at h2
  rcases h2 with rfl | rfl | rfl | rfl | rfl | rfl | rfl | rfl | rfl | rfl | rfl | rfl | rfl
    | rfl | rfl | rfl | rfl | rfl | rfl
  · exact (num_name_excl (cls_Layout p2) (cls_RubyDate p1) key_shortDayNames).elim
  · exact (no_ANSIC_RubyDate p2 p1).elim
  · exact absurd rfl hne
  · exact ⟨RubyDate, UnixDate, by decide, Or.inl ⟨rfl, rfl⟩⟩
  · exact (num_name_excl (cls_RFC822Z p2) (cls_RubyDate p1) key_shortDayNames).elim
  · exact (num_name_excl (cls_RFC822 p2) (cls_RubyDate p1) key_shortDayNames).elim
  · exact (nameThen_excl (cls_RubyDate p1) (cls_RFC850 p2) (Or.inr (Or.inl (by decide)))).elim
  · exact (nameThen_excl (cls_RubyDate p1) (cls_RFC1123Z p2) (Or.inr (Or.inl (by decide)))).elim
  · exact (nameThen_excl (cls_RubyDate p1) (cls_RFC1123 p2) (Or.inr (Or.inl (by decide)))).elim
  · exact (num_name_excl ((cls_RFC3339 p2).1) (cls_RubyDate p1) key_shortDayNames).elim
  · exact (num_name_excl ((cls_RFC3339Nano p2).1) (cls_RubyDate p1) key_shortDayNames).elim
  · exact (num_name_excl (cls_Kitchen p2) (cls_RubyDate p1) key_shortDayNames).elim
  · exact (nameThen_excl (cls_RubyDate p1) (cls_StampNano p2) (Or.inl key_day_month)).elim
  · exact (nameThen_excl (cls_RubyDate p1) (cls_StampMicro p2) (Or.inl key_day_month)).elim
  · exact (nameThen_excl (cls_RubyDate p1) (cls_StampMilli p2) (Or.inl key_day_month)).elim
  · exact (nameThen_excl (cls_RubyDate p1) (cls_Stamp p2) (Or.inl key_day_month)).elim
  · exact (num_name_excl ((cls_DateTime p2).1) (cls_RubyDate p1) key_shortDayNames).elim
  · exact (num_name_excl ((cls_DateOnly p2).1) (cls_RubyDate p1) key_shortDayNames).elim
  · exact (num_name_excl (cls_TimeOnly p2) (cls_RubyDate p1) key_shortDayNames).elim

theorem pairs_UnixDate {loc : Location} {s L2 : GoString} (h2 : L2 ∈ formats)
    (hne : UnixDate ≠ L2) (p1 : parses loc UnixDate s = true)
    (p2 : parses loc L2 s = true) :
    ∃ A B, (A, B) ∈ ([(RFC3339, RFC3339Nano), (RubyDate, UnixDate), (RFC822Z, RFC822),
        (RFC1123Z, RFC1123), (StampNano, Stamp), (StampMicro, Stamp), (StampMilli, Stamp)] :
          List (GoString × GoString)) ∧
      ((UnixDate = A ∧ L2 = B) ∨ (UnixDate = B ∧ L2 = A)) := by
  simp only [formats, List.mem_cons, List.mem_singleton, List.not_mem_nil, or_false] at h2
  rcases h2 with rfl | rfl | rfl | rfl | rfl | rfl | rfl | rfl | rfl | rfl | rfl | rfl | rfl
    | rfl | rfl | rfl | rfl | rfl | rfl
  · exact (num_name_excl (cls_Layout p2) (cls_UnixDate p1) key_shortDayNames).elim
  · exact (no_ANSIC_UnixDate p2 p1).elim
  · exact ⟨RubyDate, UnixDate, by decide, Or.inr ⟨rfl, rfl⟩⟩
  · exact absurd rfl hne
  · exact (num_name_excl (cls_RFC822Z p2) (cls_UnixDate p1) key_shortDayNames).elim
  · exact (num_name_excl (cls_RFC822 p2) (cls_UnixDate p1) key_shortDayNames).elim
  · exact (nameThen_excl (cls_UnixDate p1) (cls_RFC850 p2) (Or.inr (Or.inl (by decide)))).elim
  · exact (nameThen_excl (cls_UnixDate p1) (cls_RFC1123Z p2) (Or.inr (Or.inl (by decide)))).elim
  · exact (nameThen_excl (cls_UnixDate p1) (cls_RFC1123 p2) (Or.inr (Or.inl (by decide)))).elim
  · exact (num_name_excl ((cls_RFC3339 p2).1) (cls_UnixDate p1) key_shortDayNames).elim
  · exact (num_name_excl ((cls_RFC3339Nano p2).1) (cls_UnixDate p1) key_shortDayNames).elim
  · exact (num_name_excl (cls_Kitchen p2) (cls_UnixDate p1) key_shortDayNames).elim
  · exact (nameThen_excl (cls_UnixDate p1) (cls_StampNano p2) (Or.inl key_day_month)).elim
  · exact (nameThen_excl (cls_UnixDate p1) (cls_StampMicro p2) (Or.inl key_day_month)).elim
  · exact (nameThen_excl (cls_UnixDate p1) (cls_StampMilli p2) (Or.inl key_day_month)).elim
  · exact (nameThen_excl (cls_UnixDate p1) (cls_Stamp p2) (Or.inl key_day_month)).elim
  · exact (num_name_excl ((cls_DateTime p2).1) (cls_UnixDate p1) key_shortDayNames).elim
  · exact (num_name_excl ((cls_DateOnly p2).1) (cls_UnixDate p1) key_shortDayNames).elim
  · exact (num_name_excl (cls_TimeOnly p2) (cls_UnixDate p1) key_shortDayNames).elim

theorem pairs_RFC822Z {loc : Location} {s L2 : GoString} (h2 : L2 ∈ formats)
    (hne : RFC822Z ≠ L2) (p1 : parses loc RFC822Z s = true)
    (p2 : parses loc L2 s = true) :
    ∃ A B, (A, B) ∈ ([(RFC3339, RFC3339Nano), (RubyDate, UnixDate), (RFC822Z, RFC822),
        (RFC1123Z, RFC1123), (StampNano, Stamp), (StampMicro, Stamp), (StampMilli, Stamp)] :
          List (GoString × GoString)) ∧
      ((RFC822Z = A ∧ L2 = B) ∨ (RFC822Z = B ∧ L2 = A)) := by
  simp only [formats, List.mem_cons, List.mem_singleton, List.not_mem_nil, or_false] at h2
  rcases h2 with rfl | rfl | rfl | rfl | rfl | rfl | rfl | rfl | rfl | rfl | rfl | rfl | rfl
    | rfl | rfl | rfl | rfl | rfl | rfl
  · exact (numThen_excl (cls_RFC822Z p1) (cls_Layout p2) (Or.inl (by decide))).elim
  · exact (num_name_excl (cls_RFC822Z p1) (cls_ANSIC p2) key_shortDayNames).elim
  · exact (num_name_excl (cls_RFC822Z p1) (cls_RubyDate p2) key_shortDayNames).elim
  · exact (num_name_excl (cls_RFC822Z p1) (cls_UnixDate p2) key_shortDayNames).elim
  · exact absurd rfl hne
  · exact ⟨RFC822Z, RFC822, by decide, Or.inl ⟨rfl, rfl⟩⟩
  · exact (num_name_excl (cls_RFC822Z p1) (cls_RFC850 p2) key_longDayNames).elim
  · exact (num_name_excl (cls_RFC822Z p1) (cls_RFC1123Z p2) key_shortDayNames).elim
  · exact (num_name_excl (cls_RFC822Z p1) (cls_RFC1123 p2) key_shortDayNames).elim
  · exact (numThen_excl (cls_RFC822Z p1) ((cls_RFC3339 p2).1) (Or.inl (by decide))).elim
  · exact (numThen_excl (cls_RFC822Z p1) ((cls_RFC3339Nano p2).1) (Or.inl (by decide))).elim
  · exact (numThen_excl (cls_RFC822Z p1) (cls_Kitchen p2) (Or.inl (by decide))).elim
  · exact (num_name_excl (cls_RFC822Z p1) (cls_StampNano p2) key_shortMonthNames).elim
  · exact (num_name_excl (cls_RFC822Z p1) (cls_StampMicro p2) key_shortMonthNames).elim
  · exact (num_name_excl (cls_RFC822Z p1) (cls_StampMilli p2) key_shortMonthNames).elim
  · exact (num_name_excl (cls_RFC822Z p1) (cls_Stamp p2) key_shortMonthNames).elim
  · exact (numThen_excl (cls_RFC822Z p1) ((cls_DateTime p2).1) (Or.inl (by decide))).elim
  · exact (numThen_excl (cls_RFC822Z p1) ((cls_DateOnly p2).1) (Or.inl (by decide))).elim
  · exact (numThen_excl (cls_RFC822Z p1) (cls_TimeOnly p2) (Or.inl (by decide))).elim

theorem pairs_RFC822 {loc : Location} {s L2 : GoString} (h2 : L2 ∈ formats)
    (hne : RFC822 ≠ L2) (p1 : parses loc RFC822 s = true)
    (p2 : parses loc L2 s = true) :
    ∃ A B, (A, B) ∈ ([(RFC3339, RFC3339Nano), (RubyDate, UnixDate), (RFC822Z, RFC822),
        (RFC1123Z, RFC1123), (StampNano, Stamp), (StampMicro, Stamp), (StampMilli, Stamp)] :
          List (GoString × GoString)) ∧
      ((RFC822 = A ∧ L2 = B) ∨ (RFC822 = B ∧ L2 = A)) := by
  simp only [formats, List.mem_cons, List.mem_singleton, List.not_mem_nil, or_false] at h2
  rcases h2 with rfl | rfl | rfl | rfl | rfl | rfl | rfl | rfl | rfl | rfl | rfl | rfl | rfl
    | rfl | rfl | rfl | rfl | rfl | rfl
  · exact (numThen_excl (cls_RFC822 p1) (cls_Layout p2) (Or.inl (by decide))).elim
  · exact (num_name_excl (cls_RFC822 p1) (cls_ANSIC p2) key_shortDayNames).elim
  · exact (num_name_excl (cls_RFC822 p1) (cls_RubyDate p2) key_shortDayNames).elim
  · exact (num_name_excl (cls_RFC822 p1) (cls_UnixDate p2) key_shortDayNames).elim
  · exact ⟨RFC822Z, RFC822, by decide, Or.inr ⟨rfl, rfl⟩⟩
  · exact absurd rfl hne
  · exact (num_name_excl (cls_RFC822 p1) (cls_RFC850 p2) key_longDayNames).elim
  · exact (num_name_excl (cls_RFC822 p1) (cls_RFC1123Z p2) key_shortDayNames).elim
  · exact (num_name_excl (cls_RFC822 p1) (cls_RFC1123 p2) key_shortDayNames).elim
  · exact (numThen_excl (cls_RFC822 p1) ((cls_RFC3339 p2).1) (Or.inl (by decide))).elim
  · exact (numThen_excl (cls_RFC822 p1) ((cls_RFC3339Nano p2).1) (Or.inl (by decide))).elim
  · exact (numThen_excl (cls_RFC822 p1) (cls_Kitchen p2) (Or.inl (by decide))).elim
  · exact (num_name_excl (cls_RFC822 p1) (cls_StampNano p2) key_shortMonthNames).elim
  · exact (num_name_excl (cls_RFC822 p1) (cls_StampMicro p2) key_shortMonthNames).elim
  · exact (num_name_excl (cls_RFC822 p1) (cls_StampMilli p2) key_shortMonthNames).elim
  · exact (num_name_excl (cls_RFC822 p1) (cls_Stamp p2) key_shortMonthNames).elim
  · exact (numThen_excl (cls_RFC822 p1) ((cls_DateTime p2).1) (Or.inl (by decide))).elim
  · exact (numThen_excl (cls_RFC822 p1) ((cls_DateOnly p2).1) (Or.inl (by decide))).elim
  · exact (numThen_excl (cls_RFC822 p1) (cls_TimeOnly p2) (Or.inl (by decide))).elim

theorem pairs_RFC850 {loc : Location} {s L2 : GoString} (h2 : L2 ∈ formats)
    (hne : RFC850 ≠ L2) (p1 : parses loc RFC850 s = true)
    (p2 : parses loc L2 s = true) :
    ∃ A B, (A, B) ∈ ([(RFC3339, RFC3339Nano), (RubyDate, UnixDate), (RFC822Z, RFC822),
        (RFC1123Z, RFC1123), (StampNano, Stamp), (StampMicro, Stamp), (StampMilli, Stamp)] :
          List (GoString × GoString)) ∧
      ((RFC850 = A ∧ L2 = B) ∨ (RFC850 = B ∧ L2 = A)) := by
  simp only [formats, List.mem_cons, List.mem_singleton, List.not_mem_nil, or_false] at h2
  rcases h2 with rfl | rfl | rfl | rfl | rfl | rfl | rfl | rfl | rfl | rfl | rfl | rfl | rfl
    | rfl | rfl | rfl | rfl | rfl | rfl
  · exact (num_name_excl (cls_Layout p2) (cls_RFC850 p1) key_longDayNames).elim
  · exact (nameThen_excl (cls_RFC850 p1) (cls_ANSIC p2) (Or.inr (Or.inr (by decide)))).elim
  · exact (nameThen_excl (cls_RFC850 p1) (cls_RubyDate p2) (Or.inr (Or.inr (by decide)))).elim
  · exact (nameThen_excl (cls_RFC850 p1) (cls_UnixDate p2) (Or.inr (Or.inr (by decide)))).elim
  · exact (num_name_excl (cls_RFC822Z p2) (cls_RFC850 p1) key_longDayNames).elim
  · exact (num_name_excl (cls_RFC822 p2) (cls_RFC850 p1) key_longDayNames).elim
  · exact absurd rfl hne
  · exact (nameThen_excl (cls_RFC850 p1) (cls_RFC1123Z p2) (Or.inr (Or.inr (by decide)))).elim
  · exact (nameThen_excl (cls_RFC850 p1) (cls_RFC1123 p2) (Or.inr (Or.inr (by decide)))).elim
  · exact (num_name_excl ((cls_RFC3339 p2).1) (cls_RFC850 p1) key_longDayNames).elim
  · exact (num_name_excl ((cls_RFC3339Nano p2).1) (cls_RFC850 p1) key_longDayNames).elim
  · exact (num_name_excl (cls_Kitchen p2) (cls_RFC850 p1) key_longDayNames).elim
  · exact (nameThen_excl (cls_RFC850 p1) (cls_StampNano p2) (Or.inl key_long_month)).elim
  · exact (nameThen_excl (cls_RFC850 p1) (cls_StampMicro p2) (Or.inl key_long_month)).elim
  · exact (nameThen_excl (cls_RFC850 p1) (cls_StampMilli p2) (Or.inl key_long_month)).elim
  · exact (nameThen_excl (cls_RFC850 p1) (cls_Stamp p2) (Or.inl key_long_month)).elim
  · exact (num_name_excl ((cls_DateTime p2).1) (cls_RFC850 p1) key_longDayNames).elim
  · exact (num_name_excl ((cls_DateOnly p2).1) (cls_RFC850 p1) key_longDayNames).elim
  · exact (num_name_excl (cls_TimeOnly p2) (cls_RFC850 p1) key_longDayNames).elim

theorem pairs_RFC1123Z {loc : Location} {s L2 : GoString} (h2 : L2 ∈ formats)
    (hne : RFC1123Z ≠ L2) (p1 : parses loc RFC1123Z s = true)
    (p2 : parses loc L2 s = true) :
    ∃ A B, (A, B) ∈ ([(RFC3339, RFC3339Nano), (RubyDate, UnixDate), (RFC822Z, RFC822),
        (RFC1123Z, RFC1123), (StampNano, Stamp), (StampMicro, Stamp), (StampMilli, Stamp)] :
          List (GoString × GoString)) ∧
      ((RFC1123Z = A ∧ L2 = B) ∨ (RFC1123Z = B ∧ L2 = A)) := by
  simp only [formats, List.mem_cons, List.mem_singleton, List.not_mem_nil, or_false] at h2
  rcases h2 with rfl | rfl | rfl | rfl | rfl | rfl | rfl | rfl | rfl | rfl | rfl | rfl | rfl
    | rfl | rfl | rfl | rfl | rfl | rfl
  · exact (num_name_excl (cls_Layout p2) (cls_RFC1123Z p1) key_shortDayNames).elim
  · exact (nameThen_excl (cls_RFC1123Z p1) (cls_ANSIC p2) (Or.inr (Or.inr (by decide)))).elim
  · exact (nameThen_excl (cls_RFC1123Z p1) (cls_RubyDate p2) (Or.inr (Or.inr (by decide)))).elim
  · exact (nameThen_excl (cls_RFC1123Z p1) (cls_UnixDate p2) (Or.inr (Or.inr (by decide)))).elim
  · exact (num_name_excl (cls_RFC822Z p2) (cls_RFC1123Z p1) key_shortDayNames).elim
  · exact (num_name_excl (cls_RFC822 p2) (cls_RFC1123Z p1) key_shortDayNames).elim
  · exact (nameThen_excl (cls_RFC1123Z p1) (cls_RFC850 p2) (Or.inr (Or.inl (by decide)))).elim
  · exact absurd rfl hne
  · exact ⟨RFC1123Z, RFC1123, by decide, Or.inl ⟨rfl, rfl⟩⟩
  · exact (num_name_excl ((cls_RFC3339 p2).1) (cls_RFC1123Z p1) key_shortDayNames).elim
  · exact (num_name_excl ((cls_RFC3339Nano p2).1) (cls_RFC1123Z p1) key_shortDayNames).elim
  · exact (num_name_excl (cls_Kitchen p2) (cls_RFC1123Z p1) key_shortDayNames).elim
  · exact (nameThen_excl (cls_RFC1123Z p1) (cls_StampNano p2) (Or.inl key_day_month)).elim
  · exact (nameThen_excl (cls_RFC1123Z p1) (cls_StampMicro p2) (Or.inl key_day_month)).elim
  · exact (nameThen_excl (cls_RFC1123Z p1) (cls_StampMilli p2) (Or.inl key_day_month)).elim
  · exact (nameThen_excl (cls_RFC1123Z p1) (cls_Stamp p2) (Or.inl key_day_month)).elim
  · exact (num_name_excl ((cls_DateTime p2).1) (cls_RFC1123Z p1) key_shortDayNames).elim
  · exact (num_name_excl ((cls_DateOnly p2).1) (cls_RFC1123Z p1) key_shortDayNames).elim
  · exact (num_name_excl (cls_TimeOnly p2) (cls_RFC1123Z p1) key_shortDayNames).elim

theorem pairs_RFC1123 {loc : Location} {s L2 : GoString} (h2 : L2 ∈ formats)
    (hne : RFC1123 ≠ L2) (p1 : parses loc RFC1123 s = true)
    (p2 : parses loc L2 s = true) :
    ∃ A B, (A, B) ∈ ([(RFC3339, RFC3339Nano), (RubyDate, UnixDate), (RFC822Z, RFC822),
        (RFC1123Z, RFC1123), (StampNano, Stamp), (StampMicro, Stamp), (StampMilli, Stamp)] :
          List (GoString × GoString)) ∧
      ((RFC1123 = A ∧ L2 = B) ∨ (RFC1123 = B ∧ L2 = A)) := by
  simp only [formats, List.mem_cons, List.mem_singleton, List.not_mem_nil, or_false] at h2
  rcases h2 with rfl | rfl | rfl | rfl | rfl | rfl | rfl | rfl | rfl | rfl | rfl | rfl | rfl
    | rfl | rfl | rfl | rfl | rfl | rfl
  · exact (num_name_excl (cls_Layout p2) (cls_RFC1123 p1) key_shortDayNames).elim
  · exact (nameThen_excl (cls_RFC1123 p1) (cls_ANSIC p2) (Or.inr (Or.inr (by decide)))).elim
  · exact (nameThen_excl (cls_RFC1123 p1) (cls_RubyDate p2) (Or.inr (Or.inr (by decide)))).elim
  · exact (nameThen_excl (cls_RFC1123 p1) (cls_UnixDate p2) (Or.inr (Or.inr (by decide)))).elim
  · exact (num_name_excl (cls_RFC822Z p2) (cls_RFC1123 p1) key_shortDayNames).elim
  · exact (num_name_excl (cls_RFC822 p2) (cls_RFC1123 p1) key_shortDayNames).elim
  · exact (nameThen_excl (cls_RFC1123 p1) (cls_RFC850 p2) (Or.inr (Or.inl (by decide)))).elim
  · exact ⟨RFC1123Z, RFC1123, by decide, Or.inr ⟨rfl, rfl⟩⟩
  · exact absurd rfl hne
  · exact (num_name_excl ((cls_RFC3339 p2).1) (cls_RFC1123 p1) key_shortDayNames).elim
  · exact (num_name_excl ((cls_RFC3339Nano p2).1) (cls_RFC1123 p1) key_shortDayNames).elim
  · exact (num_name_excl (cls_Kitchen p2) (cls_RFC1123 p1) key_shortDayNames).elim
  · exact (nameThen_excl (cls_RFC1123 p1) (cls_StampNano p2) (Or.inl key_day_month)).elim
  · exact (nameThen_excl (cls_RFC1123 p1) (cls_StampMicro p2) (Or.inl key_day_month)).elim
  · exact (nameThen_excl (cls_RFC1123 p1) (cls_StampMilli p2) (Or.inl key_day_month)).elim
  · exact (nameThen_excl (cls_RFC1123 p1) (cls_Stamp p2) (Or.inl key_day_month)).elim
  · exact (num_name_excl ((cls_DateTime p2).1) (cls_RFC1123 p1) key_shortDayNames).elim
  · exact (num_name_excl ((cls_DateOnly p2).1) (cls_RFC1123 p1) key_shortDayNames).elim
  · exact (num_name_excl (cls_TimeOnly p2) (cls_RFC1123 p1) key_shortDayNames).elim

theorem pairs_RFC3339 {loc : Location} {s L2 : GoString} (h2 : L2 ∈ formats)
    (hne : RFC3339 ≠ L2) (p1 : parses loc RFC3339 s = true)
    (p2 : parses loc L2 s = true) :
    ∃ A B, (A, B) ∈ ([(RFC3339, RFC3339Nano), (RubyDate, UnixDate), (RFC822Z, RFC822),
        (RFC1123Z, RFC1123), (StampNano, Stamp), (StampMicro, Stamp), (StampMilli, Stamp)] :
          List (GoString × GoString)) ∧
      ((RFC3339 = A ∧ L2 = B) ∨ (RFC3339 = B ∧ L2 = A)) := by
  simp only [formats, List.mem_cons, List.mem_singleton, List.not_mem_nil, or_false] at h2
  rcases h2 with rfl | rfl | rfl | rfl | rfl | rfl | rfl | rfl | rfl | rfl | rfl | rfl | rfl
    | rfl | rfl | rfl | rfl | rfl | rfl
  · exact (numThen_excl ((cls_RFC3339 p1).1) (cls_Layout p2) (Or.inr (by decide))).elim
  · exact (num_name_excl ((cls_RFC3339 p1).1) (cls_ANSIC p2) key_shortDayNames).elim
  · exact (num_name_excl ((cls_RFC3339 p1).1) (cls_RubyDate p2) key_shortDayNames).elim
  · exact (num_name_excl ((cls_RFC3339 p1).1) (cls_UnixDate p2) key_shortDayNames).elim
  · exact (numThen_excl ((cls_RFC3339 p1).1) (cls_RFC822Z p2) (Or.inr (by decide))).elim
  · exact (numThen_excl ((cls_RFC3339 p1).1) (cls_RFC822 p2) (Or.inr (by decide))).elim
  · exact (num_name_excl ((cls_RFC3339 p1).1) (cls_RFC850 p2) key_longDayNames).elim
  · exact (num_name_excl ((cls_RFC3339 p1).1) (cls_RFC1123Z p2) key_shortDayNames).elim
  · exact (num_name_excl ((cls_RFC3339 p1).1) (cls_RFC1123 p2) key_shortDayNames).elim
  · exact absurd rfl hne
  · exact ⟨RFC3339, RFC3339Nano, by decide, Or.inl ⟨rfl, rfl⟩⟩
  · exact (numThen_excl ((cls_RFC3339 p1).1) (cls_Kitchen p2) (Or.inl (by decide))).elim
  · exact (num_name_excl ((cls_RFC3339 p1).1) (cls_StampNano p2) key_shortMonthNames).elim
  · exact (num_name_excl ((cls_RFC3339 p1).1) (cls_StampMicro p2) key_shortMonthNames).elim
  · exact (num_name_excl ((cls_RFC3339 p1).1) (cls_StampMilli p2) key_shortMonthNames).elim
  · exact (num_name_excl ((cls_RFC3339 p1).1) (cls_Stamp p2) key_shortMonthNames).elim
  · exact (headIn_excl (cls_RFC3339 p1).2 (cls_DateTime p2).2 (Or.inr (by decide))).elim
  · exact (headIn_excl (cls_RFC3339 p1).2 (cls_DateOnly p2).2 (Or.inr (by decide))).elim
  · exact (numThen_excl ((cls_RFC3339 p1).1) (cls_TimeOnly p2) (Or.inl (by decide))).elim

theorem pairs_RFC3339Nano {loc : Location} {s L2 : GoString} (h2 : L2 ∈ formats)
    (hne : RFC3339Nano ≠ L2) (p1 : parses loc RFC3339Nano s = true)
    (p2 : parses loc L2 s = true) :
    ∃ A B, (A, B) ∈ ([(RFC3339, RFC3339Nano), (RubyDate, UnixDate), (RFC822Z, RFC822),
        (RFC1123Z, RFC1123), (StampNano, Stamp), (StampMicro, Stamp), (StampMilli, Stamp)] :
          List (GoString × GoString)) ∧
      ((RFC3339Nano = A ∧ L2 = B) ∨ (RFC3339Nano = B ∧ L2 = A)) := by
  simp only [formats, List.mem_cons, List.mem_singleton, List.not_mem_nil, or_false] at h2
  rcases h2 with rfl | rfl | rfl | rfl | rfl | rfl | rfl | rfl | rfl | rfl | rfl | rfl | rfl
    | rfl | rfl | rfl | rfl | rfl | rfl
  · exact (numThen_excl ((cls_RFC3339Nano p1).1) (cls_Layout p2) (Or.inr (by decide))).elim
  · exact (num_name_excl ((cls_RFC3339Nano p1).1) (cls_ANSIC p2) key_shortDayNames).elim
  · exact (num_name_excl ((cls_RFC3339Nano p1).1) (cls_RubyDate p2) key_shortDayNames).elim
  · exact (num_name_excl ((cls_RFC3339Nano p1).1) (cls_UnixDate p2) key_shortDayNames).elim
  · exact (numThen_excl ((cls_RFC3339Nano p1).1) (cls_RFC822Z p2) (Or.inr (by decide))).elim
  · exact (numThen_excl ((cls_RFC3339Nano p1).1) (cls_RFC822 p2) (Or.inr (by decide))).elim
  · exact (num_name_excl ((cls_RFC3339Nano p1).1) (cls_RFC850 p2) key_longDayNames).elim
  · exact (num_name_excl ((cls_RFC3339Nano p1).1) (cls_RFC1123Z p2) key_shortDayNames).elim
  · exact (num_name_excl ((cls_RFC3339Nano p1).1) (cls_RFC1123 p2) key_shortDayNames).elim
  · exact ⟨RFC3339, RFC3339Nano, by decide, Or.inr ⟨rfl, rfl⟩⟩
  · exact absurd rfl hne
  · exact (numThen_excl ((cls_RFC3339Nano p1).1) (cls_Kitchen p2) (Or.inl (by decide))).elim
  · exact (num_name_excl ((cls_RFC3339Nano p1).1) (cls_StampNano p2) key_shortMonthNames).elim
  · exact (num_name_excl ((cls_RFC3339Nano p1).1) (cls_StampMicro p2) key_shortMonthNames).elim
  · exact (num_name_excl ((cls_RFC3339Nano p1).1) (cls_StampMilli p2) key_shortMonthNames).elim
  · exact (num_name_excl ((cls_RFC3339Nano p1).1) (cls_Stamp p2) key_shortMonthNames).elim
  · exact (headIn_excl (cls_RFC3339Nano p1).2 (cls_DateTime p2).2 (Or.inr (by decide))).elim
  · exact (headIn_excl (cls_RFC3339Nano p1).2 (cls_DateOnly p2).2 (Or.inr (by decide))).elim
  · exact (numThen_excl ((cls_RFC3339Nano p1).1) (cls_TimeOnly p2) (Or.inl (by decide))).elim

theorem pairs_Kitchen {loc : Location} {s L2 : GoString} (h2 : L2 ∈ formats)
    (hne : Kitchen ≠ L2) (p1 : parses loc Kitchen s = true)
    (p2 : parses loc L2 s = true) :
    ∃ A B, (A, B) ∈ ([(RFC3339, RFC3339Nano), (RubyDate, UnixDate), (RFC822Z, RFC822),
        (RFC1123Z, RFC1123), (StampNano, Stamp), (StampMicro, Stamp), (StampMilli, Stamp)] :
          List (GoString × GoString)) ∧
      ((Kitchen = A ∧ L2 = B) ∨ (Kitchen = B ∧ L2 = A)) := by
  simp only [formats, List.mem_cons, List.mem_singleton, List.not_mem_nil, or_false] at h2
  rcases h2 with rfl | rfl | rfl | rfl | rfl | rfl | rfl | rfl | rfl | rfl | rfl | rfl | rfl
    | rfl | rfl | rfl | rfl | rfl | rfl
  · exact (numThen_excl (cls_Kitchen p1) (cls_Layout p2) (Or.inr (by decide))).elim
  · exact (num_name_excl (cls_Kitchen p1) (cls_ANSIC p2) key_shortDayNames).elim
  · exact (num_name_excl (cls_Kitchen p1) (cls_RubyDate p2) key_shortDayNames).elim
  · exact (num_name_excl (cls_Kitchen p1) (cls_UnixDate p2) key_shortDayNames).elim
  · exact (numThen_excl (cls_Kitchen p1) (cls_RFC822Z p2) (Or.inr (by decide))).elim
  · exact (numThen_excl (cls_Kitchen p1) (cls_RFC822 p2) (Or.inr (by decide))).elim
  · exact (num_name_excl (cls_Kitchen p1) (cls_RFC850 p2) key_longDayNames).elim
  · exact (num_name_excl (cls_Kitchen p1) (cls_RFC1123Z p2) key_shortDayNames).elim
  · exact (num_name_excl (cls_Kitchen p1) (cls_RFC1123 p2) key_shortDayNames).elim
  · exact (numThen_excl (cls_Kitchen p1) ((cls_RFC3339 p2).1) (Or.inr (by decide))).elim
  · exact (numThen_excl (cls_Kitchen p1) ((cls_RFC3339Nano p2).1) (Or.inr (by decide))).elim
  · exact absurd rfl hne
  · exact (num_name_excl (cls_Kitchen p1) (cls_StampNano p2) key_shortMonthNames).elim
  · exact (num_name_excl (cls_Kitchen p1) (cls_StampMicro p2) key_shortMonthNames).elim
  · exact (num_name_excl (cls_Kitchen p1) (cls_StampMilli p2) key_shortMonthNames).elim
  · exact (num_name_excl (cls_Kitchen p1) (cls_Stamp p2) key_shortMonthNames).elim
  · exact (numThen_excl (cls_Kitchen p1) ((cls_DateTime p2).1) (Or.inr (by decide))).elim
  · exact (numThen_excl (cls_Kitchen p1) ((cls_DateOnly p2).1) (Or.inr (by decide))).elim
  · exact (no_Kitchen_TimeOnly p1 p2).elim

theorem pairs_StampNano {loc : Location} {s L2 : GoString} (h2 : L2 ∈ formats)
    (hne : StampNano ≠ L2) (p1 : parses loc StampNano s = true)
    (p2 : parses loc L2 s = true) :
    ∃ A B, (A, B) ∈ ([(RFC3339, RFC3339Nano), (RubyDate, UnixDate), (RFC822Z, RFC822),
        (RFC1123Z, RFC1123), (StampNano, Stamp), (StampMicro, Stamp), (StampMilli, Stamp)] :
          List (GoString × GoString)) ∧
      ((StampNano = A ∧ L2 = B) ∨ (StampNano = B ∧ L2 = A)) := by
  simp only [formats, List.mem_cons, List.mem_singleton, List.not_mem_nil, or_false] at h2
  rcases h2 with rfl | rfl | rfl | rfl | rfl | rfl | rfl | rfl | rfl | rfl | rfl | rfl | rfl
    | rfl | rfl | rfl | rfl | rfl | rfl
  · exact (num_name_excl (cls_Layout p2) (cls_StampNano p1) key_shortMonthNames).elim
  · exact (nameThen_excl (cls_StampNano p1) (cls_ANSIC p2) (Or.inl key_month_day)).elim
  · exact (nameThen_excl (cls_StampNano p1) (cls_RubyDate p2) (Or.inl key_month_day)).elim
  · exact (nameThen_excl (cls_StampNano p1) (cls_UnixDate p2) (Or.inl key_month_day)).elim
  · exact (num_name_excl (cls_RFC822Z p2) (cls_StampNano p1) key_shortMonthNames).elim
  · exact (num_name_excl (cls_RFC822 p2) (cls_StampNano p1) key_shortMonthNames).elim
  · exact (nameThen_excl (cls_StampNano p1) (cls_RFC850 p2) (Or.inl key_month_long)).elim
  · exact (nameThen_excl (cls_StampNano p1) (cls_RFC1123Z p2) (Or.inl key_month_day)).elim
  · exact (nameThen_excl (cls_StampNano p1) (cls_RFC1123 p2) (Or.inl key_month_day)).elim
  · exact (num_name_excl ((cls_RFC3339 p2).1) (cls_StampNano p1) key_shortMonthNames).elim
  · exact (num_name_excl ((cls_RFC3339Nano p2).1) (cls_StampNano p1) key_shortMonthNames).elim
  · exact (num_name_excl (cls_Kitchen p2) (cls_StampNano p1) key_shortMonthNames).elim
  · exact absurd rfl hne
  · exact (no_StampNano_StampMicro p1 p2).elim
  · exact (no_StampNano_StampMilli p1 p2).elim
  · exact ⟨StampNano, Stamp, by decide, Or.inl ⟨rfl, rfl⟩⟩
  · exact (num_name_excl ((cls_DateTime p2).1) (cls_StampNano p1) key_shortMonthNames).elim
  · exact (num_name_excl ((cls_DateOnly p2).1) (cls_StampNano p1) key_shortMonthNames).elim
  · exact (num_name_excl (cls_TimeOnly p2) (cls_StampNano p1) key_shortMonthNames).elim

theorem pairs_StampMicro {loc : Location} {s L2 : GoString} (h2 : L2 ∈ formats)
    (hne : StampMicro ≠ L2) (p1 : parses loc StampMicro s = true)
    (p2 : parses loc L2 s = true) :
    ∃ A B, (A, B) ∈ ([(RFC3339, RFC3339Nano), (RubyDate, UnixDate), (RFC822Z, RFC822),
        (RFC1123Z, RFC1123), (StampNano, Stamp), (StampMicro, Stamp), (StampMilli, Stamp)] :
          List (GoString × GoString)) ∧
      ((StampMicro = A ∧ L2 = B) ∨ (StampMicro = B ∧ L2 = A)) := by
  simp only [formats, List.mem_cons, List.mem_singleton, List.not_mem_nil, or_false] at h2
  rcases h2 with rfl | rfl | rfl | rfl | rfl | rfl | rfl | rfl | rfl | rfl | rfl | rfl | rfl
    | rfl | rfl | rfl | rfl | rfl | rfl
  · exact (num_name_excl (cls_Layout p2) (cls_StampMicro p1) key_shortMonthNames).elim
  · exact (nameThen_excl (cls_StampMicro p1) (cls_ANSIC p2) (Or.inl key_month_day)).elim
  · exact (nameThen_excl (cls_StampMicro p1) (cls_RubyDate p2) (Or.inl key_month_day)).elim
  · exact (nameThen_excl (cls_StampMicro p1) (cls_UnixDate p2) (Or.inl key_month_day)).elim
  · exact (num_name_excl (cls_RFC822Z p2) (cls_StampMicro p1) key_shortMonthNames).elim
  · exact (num_name_excl (cls_RFC822 p2) (cls_StampMicro p1) key_shortMonthNames).elim
  · exact (nameThen_excl (cls_StampMicro p1) (cls_RFC850 p2) (Or.inl key_month_long)).elim
  · exact (nameThen_excl (cls_StampMicro p1) (cls_RFC1123Z p2) (Or.inl key_month_day)).elim
  · exact (nameThen_excl (cls_StampMicro p1) (cls_RFC1123 p2) (Or.inl key_month_day)).elim
  · exact (num_name_excl ((cls_RFC3339 p2).1) (cls_StampMicro p1) key_shortMonthNames).elim
  · exact (num_name_excl ((cls_RFC3339Nano p2).1) (cls_StampMicro p1) key_shortMonthNames).elim
  · exact (num_name_excl (cls_Kitchen p2) (cls_StampMicro p1) key_shortMonthNames).elim
  · exact (no_StampNano_StampMicro p2 p1).elim
  · exact absurd rfl hne
  · exact (no_StampMicro_StampMilli p1 p2).elim
  · exact ⟨StampMicro, Stamp, by decide, Or.inl ⟨rfl, rfl⟩⟩
  · exact (num_name_excl ((cls_DateTime p2).1) (cls_StampMicro p1) key_shortMonthNames).elim
  · exact (num_name_excl ((cls_DateOnly p2).1) (cls_StampMicro p1) key_shortMonthNames).elim
  · exact (num_name_excl (cls_TimeOnly p2) (cls_StampMicro p1) key_shortMonthNames).elim

theorem pairs_StampMilli {loc : Location} {s L2 : GoString} (h2 : L2 ∈ formats)
    (hne : StampMilli ≠ L2) (p1 : parses loc StampMilli s = true)
    (p2 : parses loc L2 s = true) :
    ∃ A B, (A, B) ∈ ([(RFC3339, RFC3339Nano), (RubyDate, UnixDate), (RFC822Z, RFC822),
        (RFC1123Z, RFC1123), (StampNano, Stamp), (StampMicro, Stamp), (StampMilli, Stamp)] :
          List (GoString × GoString)) ∧
      ((StampMilli = A ∧ L2 = B) ∨ (StampMilli = B ∧ L2 = A)) := by
  simp only [formats, List.mem_cons, List.mem_singleton, List.not_mem_nil, or_false] at h2
  rcases h2 with rfl | rfl | rfl | rfl | rfl | rfl | rfl | rfl | rfl | rfl | rfl | rfl | rfl
    | rfl | rfl | rfl | rfl | rfl | rfl
  · exact (num_name_excl (cls_Layout p2) (cls_StampMilli p1) key_shortMonthNames).elim
  · exact (nameThen_excl (cls_StampMilli p1) (cls_ANSIC p2) (Or.inl key_month_day)).elim
  · exact (nameThen_excl (cls_StampMilli p1) (cls_RubyDate p2) (Or.inl key_month_day)).elim
  · exact (nameThen_excl (cls_StampMilli p1) (cls_UnixDate p2) (Or.inl key_month_day)).elim
  · exact (num_name_excl (cls_RFC822Z p2) (cls_StampMilli p1) key_shortMonthNames).elim
  · exact (num_name_excl (cls_RFC822 p2) (cls_StampMilli p1) key_shortMonthNames).elim
  · exact (nameThen_excl (cls_StampMilli p1) (cls_RFC850 p2) (Or.inl key_month_long)).elim
  · exact (nameThen_excl (cls_StampMilli p1) (cls_RFC1123Z p2) (Or.inl key_month_day)).elim
  · exact (nameThen_excl (cls_StampMilli p1) (cls_RFC1123 p2) (Or.inl key_month_day)).elim
  · exact (num_name_excl ((cls_RFC3339 p2).1) (cls_StampMilli p1) key_shortMonthNames).elim
  · exact (num_name_excl ((cls_RFC3339Nano p2).1) (cls_StampMilli p1) key_shortMonthNames).elim
  · exact (num_name_excl (cls_Kitchen p2) (cls_StampMilli p1) key_shortMonthNames).elim
  · exact (no_StampNano_StampMilli p2 p1).elim
  · exact (no_StampMicro_StampMilli p2 p1).elim
  · exact absurd rfl hne
  · exact ⟨StampMilli, Stamp, by decide, Or.inl ⟨rfl, rfl⟩⟩
  · exact (num_name_excl ((cls_DateTime p2).1) (cls_StampMilli p1) key_shortMonthNames).elim
  · exact (num_name_excl ((cls_DateOnly p2).1) (cls_StampMilli p1) key_shortMonthNames).elim
  · exact (num_name_excl (cls_TimeOnly p2) (cls_StampMilli p1) key_shortMonthNames).elim

theorem pairs_Stamp {loc : Location} {s L2 : GoString} (h2 : L2 ∈ formats)
    (hne : Stamp ≠ L2) (p1 : parses loc Stamp s = true)
    (p2 : parses loc L2 s = true) :
    ∃ A B, (A, B) ∈ ([(RFC3339, RFC3339Nano), (RubyDate, UnixDate), (RFC822Z, RFC822),
        (RFC1123Z, RFC1123), (StampNano, Stamp), (StampMicro, Stamp), (StampMilli, Stamp)] :
          List (GoString × GoString)) ∧
      ((Stamp = A ∧ L2 = B) ∨ (Stamp = B ∧ L2 = A)) := by
  simp only [formats, List.mem_cons, List.mem_singleton, List.not_mem_nil, or_false] at h2
  rcases h2 with rfl | rfl | rfl | rfl | rfl | rfl | rfl | rfl | rfl | rfl | rfl | rfl | rfl
    | rfl | rfl | rfl | rfl | rfl | rfl
  · exact (num_name_excl (cls_Layout p2) (cls_Stamp p1) key_shortMonthNames).elim
  · exact (nameThen_excl (cls_Stamp p1) (cls_ANSIC p2) (Or.inl key_month_day)).elim
  · exact (nameThen_excl (cls_Stamp p1) (cls_RubyDate p2) (Or.inl key_month_day)).elim
  · exact (nameThen_excl (cls_Stamp p1) (cls_UnixDate p2) (Or.inl key_month_day)).elim
  · exact (num_name_excl (cls_RFC822Z p2) (cls_Stamp p1) key_shortMonthNames).elim
  · exact (num_name_excl (cls_RFC822 p2) (cls_Stamp p1) key_shortMonthNames).elim
  · exact (nameThen_excl (cls_Stamp p1) (cls_RFC850 p2) (Or.inl key_month_long)).elim
  · exact (nameThen_excl (cls_Stamp p1) (cls_RFC1123Z p2) (Or.inl key_month_day)).elim
  · exact (nameThen_excl (cls_Stamp p1) (cls_RFC1123 p2) (Or.inl key_month_day)).elim
  · exact (num_name_excl ((cls_RFC3339 p2).1) (cls_Stamp p1) key_shortMonthNames).elim
  · exact (num_name_excl ((cls_RFC3339Nano p2).1) (cls_Stamp p1) key_shortMonthNames).elim
  · exact (num_name_excl (cls_Kitchen p2) (cls_Stamp p1) key_shortMonthNames).elim
  · exact ⟨StampNano, Stamp, by decide, Or.inr ⟨rfl, rfl⟩⟩
  · exact ⟨StampMicro, Stamp, by decide, Or.inr ⟨rfl, rfl⟩⟩
  · exact ⟨StampMilli, Stamp, by decide, Or.inr ⟨rfl, rfl⟩⟩
  · exact absurd rfl hne
  · exact (num_name_excl ((cls_DateTime p2).1) (cls_Stamp p1) key_shortMonthNames).elim
  · exact (num_name_excl ((cls_DateOnly p2).1) (cls_Stamp p1) key_shortMonthNames).elim
  · exact (num_name_excl (cls_TimeOnly p2) (cls_Stamp p1) key_shortMonthNames).elim

theorem pairs_DateTime {loc : Location} {s L2 : GoString} (h2 : L2 ∈ formats)
    (hne : DateTime ≠ L2) (p1 : parses loc DateTime s = true)
    (p2 : parses loc L2 s = true) :
    ∃ A B, (A, B) ∈ ([(RFC3339, RFC3339Nano), (RubyDate, UnixDate), (RFC822Z, RFC822),
        (RFC1123Z, RFC1123), (StampNano, Stamp), (StampMicro, Stamp), (StampMilli, Stamp)] :
          List (GoString × GoString)) ∧
      ((DateTime = A ∧ L2 = B) ∨ (DateTime = B ∧ L2 = A)) := by
  simp only [formats, List.mem_cons, List.mem_singleton, List.not_mem_nil, or_false] at h2
  rcases h2 with rfl | rfl | rfl | rfl | rfl | rfl | rfl | rfl | rfl | rfl | rfl | rfl | rfl
    | rfl | rfl | rfl | rfl | rfl | rfl
  · exact (numThen_excl ((cls_DateTime p1).1) (cls_Layout p2) (Or.inr (by decide))).elim
  · exact (num_name_excl ((cls_DateTime p1).1) (cls_ANSIC p2) key_shortDayNames).elim
  · exact (num_name_excl ((cls_DateTime p1).1) (cls_RubyDate p2) key_shortDayNames).elim
  · exact (num_name_excl ((cls_DateTime p1).1) (cls_UnixDate p2) key_shortDayNames).elim
  · exact (numThen_excl ((cls_DateTime p1).1) (cls_RFC822Z p2) (Or.inr (by decide))).elim
  · exact (numThen_excl ((cls_DateTime p1).1) (cls_RFC822 p2) (Or.inr (by decide))).elim
  · exact (num_name_excl ((cls_DateTime p1).1) (cls_RFC850 p2) key_longDayNames).elim
  · exact (num_name_excl ((cls_DateTime p1).1) (cls_RFC1123Z p2) key_shortDayNames).elim
  · exact (num_name_excl ((cls_DateTime p1).1) (cls_RFC1123 p2) key_shortDayNames).elim
  · exact (headIn_excl (cls_DateTime p1).2 (cls_RFC3339 p2).2 (Or.inl (by decide))).elim
  · exact (headIn_excl (cls_DateTime p1).2 (cls_RFC3339Nano p2).2 (Or.inl (by decide))).elim
  · exact (numThen_excl ((cls_DateTime p1).1) (cls_Kitchen p2) (Or.inl (by decide))).elim
  · exact (num_name_excl ((cls_DateTime p1).1) (cls_StampNano p2) key_shortMonthNames).elim
  · exact (num_name_excl ((cls_DateTime p1).1) (cls_StampMicro p2) key_shortMonthNames).elim
  · exact (num_name_excl ((cls_DateTime p1).1) (cls_StampMilli p2) key_shortMonthNames).elim
  · exact (num_name_excl ((cls_DateTime p1).1) (cls_Stamp p2) key_shortMonthNames).elim
  · exact absurd rfl hne
  · exact (headIn_excl (cls_DateTime p1).2 (cls_DateOnly p2).2 (Or.inl (by decide))).elim
  · exact (numThen_excl ((cls_DateTime p1).1) (cls_TimeOnly p2) (Or.inl (by decide))).elim

theorem pairs_DateOnly {loc : Location} {s L2 : GoString} (h2 : L2 ∈ formats)
    (hne : DateOnly ≠ L2) (p1 : parses loc DateOnly s = true)
    (p2 : parses loc L2 s = true) :
    ∃ A B, (A, B) ∈ ([(RFC3339, RFC3339Nano), (RubyDate, UnixDate), (RFC822Z, RFC822),
        (RFC1123Z, RFC1123), (StampNano, Stamp), (StampMicro, Stamp), (StampMilli, Stamp)] :
          List (GoString × GoString)) ∧
      ((DateOnly = A ∧ L2 = B) ∨ (DateOnly = B ∧ L2 = A)) := by
  simp only [formats, List.mem_cons, List.mem_singleton, List.not_mem_nil, or_false] at h2
  rcases h2 with rfl | rfl | rfl | rfl | rfl | rfl | rfl | rfl | rfl | rfl | rfl | rfl | rfl
    | rfl | rfl | rfl | rfl | rfl | rfl
  · exact (numThen_excl ((cls_DateOnly p1).1) (cls_Layout p2) (Or.inr (by decide))).elim
  · exact (num_name_excl ((cls_DateOnly p1).1) (cls_ANSIC p2) key_shortDayNames).elim
  · exact (num_name_excl ((cls_DateOnly p1).1) (cls_RubyDate p2) key_shortDayNames).elim
  · exact (num_name_excl ((cls_DateOnly p1).1) (cls_UnixDate p2) key_shortDayNames).elim
  · exact (numThen_excl ((cls_DateOnly p1).1) (cls_RFC822Z p2) (Or.inr (by decide))).elim
  · exact (numThen_excl ((cls_DateOnly p1).1) (cls_RFC822 p2) (Or.inr (by decide))).elim
  · exact (num_name_excl ((cls_DateOnly p1).1) (cls_RFC850 p2) key_longDayNames).elim
  · exact (num_name_excl ((cls_DateOnly p1).1) (cls_RFC1123Z p2) key_shortDayNames).elim
  · exact (num_name_excl ((cls_DateOnly p1).1) (cls_RFC1123 p2) key_shortDayNames).elim
  · exact (headIn_excl (cls_DateOnly p1).2 (cls_RFC3339 p2).2 (Or.inl (by decide))).elim
  · exact (headIn_excl (cls_DateOnly p1).2 (cls_RFC3339Nano p2).2 (Or.inl (by decide))).elim
  · exact (numThen_excl ((cls_DateOnly p1).1) (cls_Kitchen p2) (Or.inl (by decide))).elim
  · exact (num_name_excl ((cls_DateOnly p1).1) (cls_StampNano p2) key_shortMonthNames).elim
  · exact (num_name_excl ((cls_DateOnly p1).1) (cls_StampMicro p2) key_shortMonthNames).elim
  · exact (num_name_excl ((cls_DateOnly p1).1) (cls_StampMilli p2) key_shortMonthNames).elim
  · exact (num_name_excl ((cls_DateOnly p1).1) (cls_Stamp p2) key_shortMonthNames).elim
  · exact (headIn_excl (cls_DateOnly p1).2 (cls_DateTime p2).2 (Or.inr (by decide))).elim
  · exact absurd rfl hne
  · exact (numThen_excl ((cls_DateOnly p1).1) (cls_TimeOnly p2) (Or.inl (by decide))).elim

theorem pairs_TimeOnly {loc : Location} {s L2 : GoString} (h2 : L2 ∈ formats)
    (hne : TimeOnly ≠ L2) (p1 : parses loc TimeOnly s = true)
    (p2 : parses loc L2 s = true) :
    ∃ A B, (A, B) ∈ ([(RFC3339, RFC3339Nano), (RubyDate, UnixDate), (RFC822Z, RFC822),
        (RFC1123Z, RFC1123), (StampNano, Stamp), (StampMicro, Stamp), (StampMilli, Stamp)] :
          List (GoString × GoString)) ∧
      ((TimeOnly = A ∧ L2 = B) ∨ (TimeOnly = B ∧ L2 = A)) := by
  simp only [formats, List.mem_cons, List.mem_singleton, List.not_mem_nil, or_false] at h2
  rcases h2 with rfl | rfl | rfl | rfl | rfl | rfl | rfl | rfl | rfl | rfl | rfl | rfl | rfl
    | rfl | rfl | rfl | rfl | rfl | rfl
  · exact (numThen_excl (cls_TimeOnly p1) (cls_Layout p2) (Or.inr (by decide))).elim
  · exact (num_name_excl (cls_TimeOnly p1) (cls_ANSIC p2) key_shortDayNames).elim
  · exact (num_name_excl (cls_TimeOnly p1) (cls_RubyDate p2) key_shortDayNames).elim
  · exact (num_name_excl (cls_TimeOnly p1) (cls_UnixDate p2) key_shortDayNames).elim
  · exact (numThen_excl (cls_TimeOnly p1) (cls_RFC822Z p2) (Or.inr (by decide))).elim
  · exact (numThen_excl (cls_TimeOnly p1) (cls_RFC822 p2) (Or.inr (by decide))).elim
  · exact (num_name_excl (cls_TimeOnly p1) (cls_RFC850 p2) key_longDayNames).elim
  · exact (num_name_excl (cls_TimeOnly p1) (cls_RFC1123Z p2) key_shortDayNames).elim
  · exact (num_name_excl (cls_TimeOnly p1) (cls_RFC1123 p2) key_shortDayNames).elim
  · exact (numThen_excl (cls_TimeOnly p1) ((cls_RFC3339 p2).1) (Or.inr (by decide))).elim
  · exact (numThen_excl (cls_TimeOnly p1) ((cls_RFC3339Nano p2).1) (Or.inr (by decide))).elim
  · exact (no_Kitchen_TimeOnly p2 p1).elim
  · exact (num_name_excl (cls_TimeOnly p1) (cls_StampNano p2) key_shortMonthNames).elim
  · exact (num_name_excl (cls_TimeOnly p1) (cls_StampMicro p2) key_shortMonthNames).elim
  · exact (num_name_excl (cls_TimeOnly p1) (cls_StampMilli p2) key_shortMonthNames).elim
  · exact (num_name_excl (cls_TimeOnly p1) (cls_Stamp p2) key_shortMonthNames).elim
  · exact (numThen_excl (cls_TimeOnly p1) ((cls_DateTime p2).1) (Or.inr (by decide))).elim
  · exact (numThen_excl (cls_TimeOnly p1) ((cls_DateOnly p2).1) (Or.inr (by decide))).elim
  · exact absurd rfl hne

/-- Two different layouts of the registry that parse the same text form one of
seven pairs. -/
theorem overlap_pairs (loc : Location) (s L1 L2 : GoString) (h1 : L1 ∈ formats)
    (h2 : L2 ∈ formats) (hne : L1 ≠ L2) (p1 : parses loc L1 s = true)
    (p2 : parses loc L2 s = true) :
    ∃ A B, (A, B) ∈ ([(RFC3339, RFC3339Nano), (RubyDate, UnixDate), (RFC822Z, RFC822),
        (RFC1123Z, RFC1123), (StampNano, Stamp), (StampMicro, Stamp), (StampMilli, Stamp)] :
          List (GoString × GoString)) ∧
      ((L1 = A ∧ L2 = B) ∨ (L1 = B ∧ L2 = A)) := by
  simp only [formats, List.mem_cons, List.mem_singleton, List.not_mem_nil, or_false] at h1
  rcases h1 with rfl | rfl | rfl | rfl | rfl | rfl | rfl | rfl | rfl | rfl | rfl | rfl | rfl
    | rfl | rfl | rfl | rfl | rfl | rfl
  · exact pairs_Layout h2 hne p1 p2
  · exact pairs_ANSIC h2 hne p1 p2
  · exact pairs_RubyDate h2 hne p1 p2
  · exact pairs_UnixDate h2 hne p1 p2
  · exact pairs_RFC822Z h2 hne p1 p2
  · exact pairs_RFC822 h2 hne p1 p2
  · exact pairs_RFC850 h2 hne p1 p2
  · exact pairs_RFC1123Z h2 hne p1 p2
  · exact pairs_RFC1123 h2 hne p1 p2
  · exact pairs_RFC3339 h2 hne p1 p2
  · exact pairs_RFC3339Nano h2 hne p1 p2
  · exact pairs_Kitchen h2 hne p1 p2
  · exact pairs_StampNano h2 hne p1 p2
  · exact pairs_StampMicro h2 hne p1 p2
  · exact pairs_StampMilli h2 hne p1 p2
  · exact pairs_Stamp h2 hne p1 p2
  · exact pairs_DateTime h2 hne p1 p2
  · exact pairs_DateOnly h2 hne p1 p2
  · exact pairs_TimeOnly h2 hne p1 p2

end Mft

namespace Mft
open Std

/-! ## The zone of the RFC 3339 layouts, and what `RFC3339Nano` decodes to -/

/-- The value `parse` returns when no zone abbreviation and no AM or PM was read:
the fields read, in the location chosen from `Z` or the numeric offset. -/
theorem finishTime_fields (loc : Location) (st : PState) (m d : Nat)
    (hn : st.zoneName = []) (ha : st.amSet = false) (hp : st.pmSet = false) :
    ∃ L, finishTime loc st m d = ⟨st.year, m, d, st.hour, st.min, st.sec, st.nsec, L⟩ ∧
      (st.z = some L ∨ (st.z = none ∧ st.zoneOffset ≠ -1 ∧ L.offset = st.zoneOffset) ∨
        (st.z = none ∧ st.zoneOffset = -1 ∧ L = UTC)) := by
  cases hz : st.z with
  | some z =>
    refine ⟨z, ?_, Or.inl rfl⟩
    simp [finishTime, ha, hp, hz, Date]
  | none =>
    by_cases ho : st.zoneOffset = -1
    · refine ⟨UTC, ?_, Or.inr (Or.inr ⟨rfl, ho, rfl⟩)⟩
      simp [finishTime, ha, hp, hz, ho, hn, Date]
    · by_cases hl : loc.offset = st.zoneOffset
      · refine ⟨loc, ?_, Or.inr (Or.inl ⟨rfl, ho, hl⟩)⟩
        simp [finishTime, ha, hp, hz, ho, hn, hl, Date]
      · refine ⟨FixedZone [] st.zoneOffset, ?_, Or.inr (Or.inl ⟨rfl, ho, rfl⟩)⟩
        simp [finishTime, ha, hp, hz, ho, hn, hl, Date]

theorem getnum_00 : getnum (B "00") true = some (0, []) := by decide

/-- The zone element of the RFC 3339 layouts, read without error: `Z`, or a sign
with an offset of whole minutes, at most 24 hours and 60 minutes. -/
theorem inv_isoTZ_full {nx : Option Std} {v : GoString} {st : PState}
    (h1 : (parseStd stdISO8601ColonTZ nx v st).rangeErr = [])
    (h2 : (parseStd stdISO8601ColonTZ nx v st).err = false) :
    (parseStd stdISO8601ColonTZ nx v st).st = { st with z := some UTC } ∨
    ∃ z : Nat, z ≤ 1500 ∧
      ((parseStd stdISO8601ColonTZ nx v st).st = { st with zoneOffset := ((z * 60 : Nat) : Int) } ∨
       (parseStd stdISO8601ColonTZ nx v st).st
          = { st with zoneOffset := -((z * 60 : Nat) : Int) }) := by
  by_cases hZ : (List.head? v).getD 0 = 90 ∧ 1 ≤ v.length
  · left
    simp [parseStd, parseZoneOffset, hZ.1, hZ.2]
  · right
    by_cases hl : v.length < 6
    · simp [parseStd, parseZoneOffset, hZ, hl] at h2
    · by_cases h3 : v[3]?.getD 0 = 58
      · simp only [parseStd, parseZoneOffset] at h1 h2 ⊢
        simp [hZ, hl, h3, getnum_00] at h1 h2 ⊢
        generalize getnum (List.take 3 v).tail true = hr at h1 h2 ⊢
        generalize getnum (List.drop 4 (List.take 6 v)) true = mm at h1 h2 ⊢
        cases hr with
        | none => simp at h2
        | some p =>
          cases mm with
          | none => simp at h2
          | some q =>
            simp only [Option.isSome_some, if_true, and_self, Option.getD_some, Option.map_some',
              Nat.not_lt_zero, not_lt_zero', if_false, CharP.cast_eq_zero, neg_zero, zero_add,
              add_zero] at h1 h2 ⊢
            have hq : q.1 ≤ 60 := by
              by_contra hc
              rw [if_pos (by omega)] at h1
              exact absurd h1 (by decide)
            have hp : p.1 ≤ 24 := by
              by_contra hc
              rw [if_neg (by omega), if_pos (by omega)] at h1
              exact absurd h1 (by decide)
            refine ⟨p.1 * 60 + q.1, by omega, ?_⟩
            by_cases hs : (List.take 1 v).head?.getD 0 = 45
            · right
              rw [if_pos hs]
              push_cast
              ring
            · left
              rw [if_neg hs]
              push_cast
              ring
      · simp [parseStd, parseZoneOffset, hZ, hl, h3] at h2

theorem run_isoTZ_full {loc : Location} {A av lit tx : GoString} {rest : List Chunk}
    {v : GoString} {st : PState} {t : Time}
    (h : parseChunks loc A av (⟨lit, some stdISO8601ColonTZ, tx⟩ :: rest) v st = .ok t) :
    ∃ r, parseChunks loc A av rest r { st with z := some UTC } = .ok t ∨
      ∃ z : Nat, z ≤ 1500 ∧
        (parseChunks loc A av rest r { st with zoneOffset := ((z * 60 : Nat) : Int) } = .ok t ∨
         parseChunks loc A av rest r { st with zoneOffset := -((z * 60 : Nat) : Int) }
           = .ok t) := by
  obtain ⟨v1, hs, h1, h2, h3⟩ := pc_ok_cons h
  refine ⟨(parseStd stdISO8601ColonTZ ((rest.head?).bind (·.std)) v1 st).value, ?_⟩
  rcases inv_isoTZ_full h1 h2 with e | ⟨z, hz, e | e⟩
  · rw [e] at h3
    exact Or.inl h3
  · rw [e] at h3
    exact Or.inr ⟨z, hz, Or.inl h3⟩
  · rw [e] at h3
    exact Or.inr ⟨z, hz, Or.inr h3⟩

/-- What the quoted `RFC3339Nano` layout decodes an accepted text to: a valid
date and time with a four-digit year, in a location whose offset is a whole
number of minutes, at most 1500. -/
theorem dec_RFC3339Nano {loc : Location} {s : GoString} {t : Time}
    (h : Parse loc (quoted RFC3339Nano) s = .ok t) :
    ∃ y m d h0 mi sec ns L, Ok y m d h0 mi sec ns ∧
      t = ⟨((y : Nat) : Int), m, d, h0, mi, sec, ns, L⟩ ∧
      ∃ z : Nat, z ≤ 1500 ∧ (L.offset = ((z * 60 : Nat) : Int) ∨
        L.offset = -((z * 60 : Nat) : Int)) := by
  unfold Parse at h
  rw [qchunks_RFC3339Nano] at h
  obtain ⟨y, m, d, r, hy, hm1, hm2, -, -, h⟩ := run_ymd h
  dsimp only at h
  obtain ⟨v1, h0, r1, -, -, hh, h⟩ := run_hour h
  dsimp only at h
  obtain ⟨v2, mi, r2, -, -, hmi, h⟩ := run_zeroMinute h
  dsimp only at h
  obtain ⟨v3, sec, r3, -, -, hsec, h⟩ := run_second_frac9 h
  dsimp only at h
  obtain ⟨r4, ns, hns, h⟩ := run_frac9 h
  dsimp only at h
  have hns2 : ns < 1000000000 := by
    rcases hns with e | e
    · have e0 : ns = 0 := e
      omega
    · exact e
  obtain ⟨r5, h⟩ := run_isoTZ_full h
  have fin : ∀ st : PState, st.zoneName = [] → st.amSet = false → st.pmSet = false →
      st.yday = none → st.year = ((y : Nat) : Int) → st.month = some m → st.day = some d →
      st.hour = h0 → st.min = mi → st.sec = sec → st.nsec = ns →
      parseChunks loc (quoted RFC3339Nano) s [⟨[34], none, []⟩] r5 st = .ok t →
      ∃ L, Ok y m d h0 mi sec ns ∧ t = ⟨((y : Nat) : Int), m, d, h0, mi, sec, ns, L⟩ ∧
        (st.z = some L ∨ (st.z = none ∧ st.zoneOffset ≠ -1 ∧ L.offset = st.zoneOffset) ∨
          (st.z = none ∧ st.zoneOffset = -1 ∧ L = UTC)) := by
    intro st a1 a2 a3 a4 a5 a6 a7 a8 a9 a10 a11 hk
    obtain ⟨-, hf⟩ := pc_ok_last hk
    obtain ⟨hd1, hd2, ht⟩ := parseFinish_ok_inv hf a4
    rw [a7] at hd1
    rw [a6, a7, a5] at hd2
    simp only [Option.getD_some] at hd1 hd2
    obtain ⟨L, e, hL⟩ := finishTime_fields loc st (st.month.getD 1) (st.day.getD 1) a1 a2 a3
    rw [a5, a6, a7, a8, a9, a10, a11] at e
    simp only [Option.getD_some] at e
    refine ⟨L, ⟨⟨hy, hm1, hm2, hd1, le_trans hd2 (daysIn_le31 _ _ hm1 hm2), hh, hmi, hsec,
      hns2⟩, hd2⟩, ?_, hL⟩
    rw [ht, a6, a7]
    exact e
  rcases h with h | ⟨z, hz, h | h⟩
  · obtain ⟨L, o, e, hL⟩ := fin _ rfl rfl rfl rfl rfl rfl rfl rfl rfl rfl rfl h
    refine ⟨y, m, d, h0, mi, sec, ns, L, o, e, 0, by omega, Or.inl ?_⟩
    rcases hL with hL | ⟨hL, -⟩ | ⟨hL, -⟩
    · have : L = UTC := by injection hL with hL; exact hL.symm
      rw [this]; rfl
    · cases hL
    · cases hL
  · obtain ⟨L, o, e, hL⟩ := fin _ rfl rfl rfl rfl rfl rfl rfl rfl rfl rfl rfl h
    refine ⟨y, m, d, h0, mi, sec, ns, L, o, e, z, hz, Or.inl ?_⟩
    rcases hL with hL | ⟨-, -, hL⟩ | ⟨-, hL, -⟩
    · cases hL
    · exact hL
    · exfalso
      have : ((z * 60 : Nat) : Int) = -1 := hL
      omega
  · obtain ⟨L, o, e, hL⟩ := fin _ rfl rfl rfl rfl rfl rfl rfl rfl rfl rfl rfl h
    refine ⟨y, m, d, h0, mi, sec, ns, L, o, e, z, hz, Or.inr ?_⟩
    rcases hL with hL | ⟨-, -, hL⟩ | ⟨-, hL, -⟩
    · cases hL
    · exact hL
    · exfalso
      have : -((z * 60 : Nat) : Int) = -1 := hL
      omega

end Mft

namespace Mft
open Std

/-! ## Decoding again what `RFC3339Nano` parses -/

theorem pairs_of_RFC3339 :
    ∀ p ∈ ([(RFC3339, RFC3339Nano), (RubyDate, UnixDate), (RFC822Z, RFC822),
        (RFC1123Z, RFC1123), (StampNano, Stamp), (StampMicro, Stamp), (StampMilli, Stamp)] :
          List (GoString × GoString)),
      p.2 ≠ RFC3339 ∧ (p.1 = RFC3339 → p.2 = RFC3339Nano) := by
  decide

/-- Whatever the quoted `RFC3339Nano` layout parses, `UnmarshalJSON` decodes to
that value (with the tag `RFC3339` or `RFC3339Nano`). -/
theorem unmarshal_of_nano (loc : Location) (mt : MultiFormatTime) (s : GoString) (P : Time)
    (hp : Parse loc (quoted RFC3339Nano) s = .ok P) :
    ∃ tag, UnmarshalJSON loc mt s = (⟨P, tag⟩, none) := by
  have hp3 : Parse loc (quoted RFC3339) s = .ok P := (parse_RFC3339_iff_Nano loc s P).2 hp
  have p3 : parses loc RFC3339 s = true := (parses_true_iff loc RFC3339 s).2 ⟨P, hp3⟩
  unfold UnmarshalJSON
  rcases unmarshalLoop_cases loc mt s formats none with hall | ⟨pre, f, post, t, e, hpre, hf, hr⟩
  · have := hall RFC3339 (by decide)
    rw [p3] at this
    cases this
  · have hmem : f ∈ formats := mem_formats_of_split pre post f e
    have pf : parses loc f s = true := (parses_true_iff loc f s).2 ⟨t, hf⟩
    have e3 : f = RFC3339 := by
      by_contra hne
      obtain ⟨A, B, hm, hc⟩ := overlap_pairs loc s f RFC3339 hmem (by decide) hne pf p3
      have hN : f = RFC3339Nano := by
        have hk := pairs_of_RFC3339 (A, B) hm
        rcases hc with ⟨-, h2⟩ | ⟨h1, h2⟩
        · exact absurd h2.symm hk.1
        · rw [h1]
          exact hk.2 h2.symm
      rw [hN] at e
      have := hpre RFC3339 (formats_before_Nano pre post e)
      rw [p3] at this
      cases this
    subst e3
    rw [hp3] at hf
    cases hf
    rw [hr]
    by_cases hd : containsDot s = true
    · exact ⟨RFC3339Nano, onMatch_dot loc mt s P P hd hp⟩
    · exact ⟨RFC3339, onMatch_nodot loc mt s P (by simpa using hd)⟩

/-! ## Texts of `RFC3339Nano` with a numeric zone -/

theorem getnum_two (n : Nat) (h : n < 100) :
    getnum [48 + n / 10, 48 + n % 10] true = some (n, []) := by
  have := getnum_d2 n h [] true
  simpa [d2] using this

theorem parseStd_iso_off (sg H M : Nat) (hsg : sg = 43 ∨ sg = 45) (hH : H ≤ 24) (hM : M ≤ 60)
    (rest : GoString) (nx : Option Std) (st : PState) :
    parseStd stdISO8601ColonTZ nx (sg :: (d2 H ++ 58 :: (d2 M ++ rest))) st
      = { st := { st with zoneOffset := if sg = 45 then -(((H * 60 + M) * 60 : Nat) : Int)
                                        else (((H * 60 + M) * 60 : Nat) : Int) },
          value := rest } := by
  have h90 : ¬ sg = 90 := by omega
  have hl : ¬ (rest.length + 1 + 1 + 1 + 1 + 1 + 1 < 6) := by omega
  have hM2 : ¬ 60 < M := by omega
  have hH2 : ¬ 24 < H := by omega
  have hs : ¬ (¬ sg = 43 ∧ ¬ sg = 45) := by omega
  simp only [parseStd, parseZoneOffset, d2, List.cons_append, List.nil_append, List.headD_cons,
    h90, false_and, and_false, if_false, true_or, if_true, List.length_cons, hl,
    List.getD_cons_succ, List.getD_cons_zero, ne_eq, not_true_eq_false, List.take_succ_cons,
    List.take_zero, List.drop_succ_cons, List.drop_zero, getnum_two H (by omega),
    getnum_two M (by omega), getnum_00, Option.isSome_some, and_self, Option.map_some',
    Option.getD_some, Nat.not_lt_zero, hM2, hH2, Bool.and_self, Bool.not_true, Bool.false_or,
    hs, decide_False, add_zero]

theorem parse_RFC3339Nano_off {y m d h mi s ns : Nat} (o : Ok y m d h mi s ns) (loc : Location)
    (sg H M : Nat) (hsg : sg = 43 ∨ sg = 45) (hH : H ≤ 24) (hM : M ≤ 60) :
    ∃ P, Parse loc (quoted RFC3339Nano)
      (34 :: (d4 y ++ 45 :: (d2 m ++ 45 :: (d2 d ++ 84 :: (d2 h ++ 58 :: (d2 mi ++ 58 :: (d2 s ++
          (f9 ns ++ sg :: (d2 H ++ 58 :: (d2 M ++ [34]))))))))))
      = .ok P ∧ P.nsec = ns := by
  have r := o.rng
  have hdig : isDig sg = false := by rcases hsg with e | e <;> rw [e] <;> rfl
  have hcp : commaOrPeriod sg = false := by rcases hsg with e | e <;> rw [e] <;> rfl
  refine ⟨finishTime loc
      { year := (y : Int), month := some m, day := some d, hour := h, min := mi, sec := s,
        nsec := if ns = 0 then 0 else ns,
        zoneOffset := if sg = 45 then -(((H * 60 + M) * 60 : Nat) : Int)
                      else (((H * 60 + M) * 60 : Nat) : Int) } m d, ?_, ?_⟩
  · unfold Parse
    rw [qchunks_RFC3339Nano]
    refine Eq.trans (pstep (skip_byte 34 _ (by decide))
      (parseStd_longYear y r.hy _ _ _)) ?_
    dsimp only
    refine Eq.trans (pstep (skip_byte 45 _ (by decide))
      (parseStd_zeroMonth m r.hm1 r.hm2 _ _ _)) ?_
    dsimp only
    refine Eq.trans (pstep (skip_byte 45 _ (by decide))
      (parseStd_zeroDay d (by have := r.hd3; omega) _ _ _)) ?_
    dsimp only
    refine Eq.trans (pstep (skip_byte 84 _ (by decide))
      (parseStd_hour h r.hh _ _ _)) ?_
    dsimp only
    refine Eq.trans (pstep (skip_byte 58 _ (by decide))
      (parseStd_zeroMinute mi r.hmi _ _ _)) ?_
    dsimp only
    refine Eq.trans (pstep (skip_byte 58 _ (by decide))
      (parseStd_zeroSecond_frac9 s r.hs _ _ _ _)) ?_
    dsimp only
    refine Eq.trans (pstep (skip_nil _)
      (parseStd_f9 ns r.hns sg _ hdig hcp _ _ _ _)) ?_
    dsimp only
    refine Eq.trans (pstep (skip_nil _)
      (parseStd_iso_off sg H M hsg hH hM _ _ _)) ?_
    dsimp only
    refine Eq.trans (plast (skip_byte 34 [] (by decide))) ?_
    exact parseFinish_ok _ _ _ _ _ rfl r.hd1 o.hd2
  · obtain ⟨L, e, -⟩ := finishTime_fields loc
      { year := (y : Int), month := some m, day := some d, hour := h, min := mi, sec := s,
        nsec := if ns = 0 then 0 else ns,
        zoneOffset := if sg = 45 then -(((H * 60 + M) * 60 : Nat) : Int)
                      else (((H * 60 + M) * 60 : Nat) : Int) } m d rfl rfl rfl
    exact (congrArg Time.nsec e).trans (ite_nsec ns)

theorem tdiv_minutes (z : Nat) : Int.tdiv (((z * 60 : Nat) : Int)) 60 = (z : Int) := by
  have : ((60 : Nat) : Int) = 60 := rfl
  rw [← this, ← Int.ofNat_tdiv, Nat.mul_div_cancel z (by decide)]

theorem tdiv_hours (z : Nat) : Int.tdiv (z : Int) 60 = ((z / 60 : Nat) : Int) := by
  have : ((60 : Nat) : Int) = 60 := rfl
  rw [← this, ← Int.ofNat_tdiv]

theorem tmod_hours (z : Nat) : Int.tmod (z : Int) 60 = ((z % 60 : Nat) : Int) := by
  have : ((60 : Nat) : Int) = 60 := rfl
  rw [← this, ← Int.ofNat_tmod]

theorem format_RFC3339Nano_off {y m d h mi s ns : Nat} (r : Rng y m d h mi s ns)
    (L : Location) (z : Nat) (hz0 : 0 < z) (hz : z < 6000)
    (hL : L.offset = ((z * 60 : Nat) : Int) ∨ L.offset = -((z * 60 : Nat) : Int)) :
    (⟨(y : Int), m, d, h, mi, s, ns, L⟩ : Time).Format RFC3339Nano =
      d4 y ++ 45 :: (d2 m ++ 45 :: (d2 d ++ 84 :: (d2 h ++ 58 :: (d2 mi ++ 58 :: (d2 s ++
          (f9 ns ++ (if L.offset < 0 then 45 else 43) ::
            (d2 (z / 60) ++ 58 :: d2 (z % 60)))))))) := by
  have hd : d < 100 := by have := r.hd3; omega
  have hm : m < 100 := by have := r.hm2; omega
  have hh : h < 100 := by have := r.hh; omega
  have hmi : mi < 100 := by have := r.hmi; omega
  have hs : s < 100 := by have := r.hs; omega
  have h1 : RFC3339Nano ≠ RFC3339 := by decide
  have hzh : z / 60 < 100 := by omega
  have hzm : z % 60 < 100 := by omega
  unfold Time.Format
  rw [if_neg h1, if_pos rfl]
  have hc : z * 60 / 60 = z := Nat.mul_div_cancel z (by decide)
  have hz1 : ¬ ((z : Int) < 0) := by omega
  have hz2 : (-(z : Int) < 0) := by omega
  rcases hL with e | e
  · have hne : ¬ (((z * 60 : Nat) : Int) = 0) := by omega
    have hpos : ¬ (((z * 60 : Nat) : Int) < 0) := by omega
    simp only [appendFormatRFC3339, appendInt_four y r.hy, appendInt_two m hm, appendInt_two d hd,
      appendInt_two h hh, appendInt_two mi hmi, appendInt_two s hs, if_false, if_true,
      appendNano_frac9 ns r.hns, ← f9.eq_1, e, hne, hpos, tdiv_minutes, hc, hz1, tdiv_hours,
      tmod_hours, appendInt_two (z / 60) hzh, appendInt_two (z % 60) hzm,
      List.append_nil, List.append_assoc, List.singleton_append, List.cons_append,
      List.nil_append]
  · have hne : ¬ (-((z * 60 : Nat) : Int) = 0) := by omega
    have hneg : (-((z * 60 : Nat) : Int) < 0) := by omega
    simp only [appendFormatRFC3339, appendInt_four y r.hy, appendInt_two m hm, appendInt_two d hd,
      appendInt_two h hh, appendInt_two mi hmi, appendInt_two s hs, if_false, if_true,
      appendNano_frac9 ns r.hns, ← f9.eq_1, e, hne, hneg, Int.neg_tdiv, tdiv_minutes, hc, hz2,
      neg_neg, tdiv_hours, tmod_hours, appendInt_two (z / 60) hzh, appendInt_two (z % 60) hzm,
      List.append_nil, List.append_assoc, List.singleton_append, List.cons_append,
      List.nil_append]

/-- For a valid time with a four-digit year in a zone whose offset is a whole
number of minutes, below 25 hours: `MarshalJSON` under `RFC3339Nano` succeeds and
`UnmarshalJSON` of its text succeeds and gives the same nanoseconds. -/
theorem nano_redecode (loc : Location) (mt : MultiFormatTime) {y m d h mi s ns : Nat}
    (o : Ok y m d h mi s ns) (L : Location) (z : Nat) (hz : z < 1500)
    (hL : L.offset = ((z * 60 : Nat) : Int) ∨ L.offset = -((z * 60 : Nat) : Int)) :
    (MarshalJSON ⟨⟨(y : Int), m, d, h, mi, s, ns, L⟩, RFC3339Nano⟩).2 = none ∧
    ∃ mt3, UnmarshalJSON loc mt
        (MarshalJSON ⟨⟨(y : Int), m, d, h, mi, s, ns, L⟩, RFC3339Nano⟩).1 = (mt3, none) ∧
      mt3.Time.nsec = ns := by
  have r := o.rng
  have hne : RFC3339Nano ≠ [] := by decide
  unfold MarshalJSON
  rw [if_pos hne]
  by_cases hz0 : z = 0
  · have hl : L.offset = 0 := by
      rcases hL with e | e <;> rw [e, hz0] <;> rfl
    rw [jsonMarshal_safe _ (safe_RFC3339Nano r L hl), qformat_RFC3339Nano r L hl]
    obtain ⟨tag, hu⟩ := unmarshal_of_nano loc mt _ _ (parse_RFC3339Nano o loc)
    exact ⟨rfl, _, hu, rfl⟩
  · have hf := format_RFC3339Nano_off r L z (by omega) (by omega) hL
    have hsg : (if L.offset < 0 then 45 else 43) = 43 ∨ (if L.offset < 0 then 45 else 43) = 45 := by
      by_cases hc : L.offset < 0
      · rw [if_pos hc]; exact Or.inr rfl
      · rw [if_neg hc]; exact Or.inl rfl
    generalize (if L.offset < 0 then 45 else 43) = sg at hf hsg
    have hsafe : Safe ((⟨(y : Int), m, d, h, mi, s, ns, L⟩ : Time).Format RFC3339Nano) := by
      rw [hf]
      have hs1 : htmlSafe sg = true := by rcases hsg with e | e <;> rw [e] <;> rfl
      exact safe_append (safe_d4 y r.hy) (safe_cons (by decide) (safe_append (safe_d2 m
        (by have := r.hm2; omega)) (safe_cons (by decide) (safe_append (safe_d2 d
        (by have := r.hd3; omega)) (safe_cons (by decide) (safe_append (safe_d2 h
        (by have := r.hh; omega)) (safe_cons (by decide) (safe_append (safe_d2 mi
        (by have := r.hmi; omega)) (safe_cons (by decide) (safe_append (safe_d2 s
        (by have := r.hs; omega)) (safe_append (safe_f9 ns) (safe_cons hs1
        (safe_append (safe_d2 (z / 60) (by omega)) (safe_cons (by decide)
        (safe_d2 (z % 60) (by omega))))))))))))))))
    rw [jsonMarshal_safe _ hsafe, hf]
    obtain ⟨P, hp, hn⟩ := parse_RFC3339Nano_off o loc sg (z / 60) (z % 60) hsg (by omega) (by omega)
    have hq : quoted (d4 y ++ 45 :: (d2 m ++ 45 :: (d2 d ++ 84 :: (d2 h ++ 58 :: (d2 mi ++ 58 ::
        (d2 s ++ (f9 ns ++ sg :: (d2 (z / 60) ++ 58 :: d2 (z % 60)))))))))
        = 34 :: (d4 y ++ 45 :: (d2 m ++ 45 :: (d2 d ++ 84 :: (d2 h ++ 58 :: (d2 mi ++ 58 :: (d2 s ++
            (f9 ns ++ sg :: (d2 (z / 60) ++ 58 :: (d2 (z % 60) ++ [34]))))))))) := by
      simp only [quoted, List.nil_append, List.append_nil, List.append_assoc,
        List.singleton_append, List.cons_append]
    rw [hq]
    obtain ⟨tag, hu⟩ := unmarshal_of_nano loc mt _ _ hp
    exact ⟨rfl, _, hu, hn⟩

end Mft

namespace Mft
open Std

/-! ## Decoding again what the `Stamp` layouts with a fraction give -/

/-- For a valid UTC time and a layout of the registry other than `RFC3339Nano`:
`MarshalJSON` succeeds and `UnmarshalJSON` of its text gives the parse of the text
under the layout. -/
theorem redecode_canonical (loc : Location) (mt : MultiFormatTime) (L : GoString)
    (hL : L ∈ formats) (hN : L ≠ RFC3339Nano) {y m d h mi s ns : Nat} (o : Ok y m d h mi s ns)
    {P : Time} (hP : Parse loc (quoted L)
      (quoted ((⟨(y : Int), m, d, h, mi, s, ns, UTC⟩ : Time).Format L)) = .ok P) :
    (MarshalJSON ⟨⟨(y : Int), m, d, h, mi, s, ns, UTC⟩, L⟩).2 = none ∧
    UnmarshalJSON loc mt (MarshalJSON ⟨⟨(y : Int), m, d, h, mi, s, ns, UTC⟩, L⟩).1
      = (⟨P, L⟩, none) := by
  rw [marshal_formats L hL o.rng]
  exact ⟨rfl, unmarshal_canonical loc mt L hL o (fun hc => hN hc.1) hP⟩

theorem ok_stamp {i d h0 mi sec : Nat} (ns : Nat) (hi : i < 12) (hd1 : 1 ≤ d)
    (hd2 : d ≤ daysIn (i + 1) 0) (hh : h0 < 24) (hmi : mi < 60) (hsec : sec < 60)
    (hns : ns < 1000000000) : Ok 0 (i + 1) d h0 mi sec ns :=
  ⟨⟨by decide, by omega, by omega, hd1, le_trans hd2 (daysIn_le31 _ _ (by omega) (by omega)),
    hh, hmi, hsec, hns⟩, hd2⟩

theorem stampMilli_redecode (loc : Location) (mt : MultiFormatTime) {i d h0 mi sec x : Nat}
    (hi : i < 12) (hd1 : 1 ≤ d) (hd2 : d ≤ daysIn (i + 1) 0) (hh : h0 < 24) (hmi : mi < 60)
    (hsec : sec < 60) (hx : x < 1000) :
    (MarshalJSON ⟨⟨0, i + 1, d, h0, mi, sec, x * 1000000, UTC⟩, StampMilli⟩).2 = none ∧
    ∃ mt3, UnmarshalJSON loc mt
        (MarshalJSON ⟨⟨0, i + 1, d, h0, mi, sec, x * 1000000, UTC⟩, StampMilli⟩).1 = (mt3, none) ∧
      mt3.Time.nsec = x * 1000000 := by
  have o := ok_stamp (x * 1000000) hi hd1 hd2 hh hmi hsec (by omega)
  have hp := parse_StampMilli o loc
  rw [← qformat_StampMilli o.rng UTC] at hp
  obtain ⟨h1, h2⟩ := redecode_canonical loc mt StampMilli (by decide) (by decide) o hp
  refine ⟨h1, _, h2, ?_⟩
  show x * 1000000 / 1000000 * 1000000 = x * 1000000
  rw [Nat.mul_div_cancel x (by decide)]

theorem stampMicro_redecode (loc : Location) (mt : MultiFormatTime) {i d h0 mi sec x : Nat}
    (hi : i < 12) (hd1 : 1 ≤ d) (hd2 : d ≤ daysIn (i + 1) 0) (hh : h0 < 24) (hmi : mi < 60)
    (hsec : sec < 60) (hx : x < 1000000) :
    (MarshalJSON ⟨⟨0, i + 1, d, h0, mi, sec, x * 1000, UTC⟩, StampMicro⟩).2 = none ∧
    ∃ mt3, UnmarshalJSON loc mt
        (MarshalJSON ⟨⟨0, i + 1, d, h0, mi, sec, x * 1000, UTC⟩, StampMicro⟩).1 = (mt3, none) ∧
      mt3.Time.nsec = x * 1000 := by
  have o := ok_stamp (x * 1000) hi hd1 hd2 hh hmi hsec (by omega)
  have hp := parse_StampMicro o loc
  rw [← qformat_StampMicro o.rng UTC] at hp
  obtain ⟨h1, h2⟩ := redecode_canonical loc mt StampMicro (by decide) (by decide) o hp
  refine ⟨h1, _, h2, ?_⟩
  show x * 1000 / 1000 * 1000 = x * 1000
  rw [Nat.mul_div_cancel x (by decide)]

theorem stampNano_redecode (loc : Location) (mt : MultiFormatTime) {i d h0 mi sec x : Nat}
    (hi : i < 12) (hd1 : 1 ≤ d) (hd2 : d ≤ daysIn (i + 1) 0) (hh : h0 < 24) (hmi : mi < 60)
    (hsec : sec < 60) (hx : x < 1000000000) :
    (MarshalJSON ⟨⟨0, i + 1, d, h0, mi, sec, x, UTC⟩, StampNano⟩).2 = none ∧
    ∃ mt3, UnmarshalJSON loc mt
        (MarshalJSON ⟨⟨0, i + 1, d, h0, mi, sec, x, UTC⟩, StampNano⟩).1 = (mt3, none) ∧
      mt3.Time.nsec = x := by
  have o := ok_stamp x hi hd1 hd2 hh hmi hsec hx
  have hp := parse_StampNano o loc
  rw [← qformat_StampNano o.rng UTC] at hp
  obtain ⟨h1, h2⟩ := redecode_canonical loc mt StampNano (by decide) (by decide) o hp
  exact ⟨h1, _, h2, rfl⟩

end Mft

namespace Mft

/-! ## `json.Marshal` on UTF-8 text without escaped characters -/

theorem asa_copy (k b : Nat) (rest : GoString) :
    appendStringAux (k + 1) true (b :: rest) = b :: appendStringAux k true rest := by
  simp only [appendStringAux, if_true, List.singleton_append]

theorem asa_valid (b n : Nat) (rest : GoString) (hb : 128 ≤ b)
    (hn : runeLen (b :: rest) = n + 1)
    (hx : ¬ (b = 226 ∧ rest.headD 0 = 128 ∧
      ((rest.drop 1).headD 0 = 168 ∨ (rest.drop 1).headD 0 = 169))) :
    appendStringAux 0 true (b :: rest) = b :: appendStringAux n true rest := by
  have hb2 : ¬ b < 128 := by omega
  rw [appendStringAux]
  simp only [hb2, if_false, hn, Nat.add_one_ne_zero, hx, Nat.add_sub_cancel]

theorem runeLen_two (b0 b1 : Nat) (rest : GoString) (h0 : 194 ≤ b0) (h0' : b0 ≤ 223)
    (h1 : 128 ≤ b1) (h1' : b1 ≤ 191) : runeLen (b0 :: b1 :: rest) = 2 := by
  have e1 : ¬ b0 = 224 := by omega
  have e2 : ¬ b0 = 240 := by omega
  have e3 : ¬ b0 = 237 := by omega
  have e4 : ¬ b0 = 244 := by omega
  have e5 : ¬ (b1 < 128 ∨ 191 < b1) := by omega
  simp only [runeLen, e1, e2, e3, e4, if_false, e5, h0, h0', and_self, if_true]

theorem runeLen_three (b0 b1 b2 : Nat) (rest : GoString) (h0 : 224 ≤ b0) (h0' : b0 ≤ 239)
    (h1 : 128 ≤ b1) (h1' : b1 ≤ 191) (hlo : b0 = 224 → 160 ≤ b1) (hhi : b0 = 237 → b1 ≤ 159)
    (h2 : 128 ≤ b2) (h2' : b2 ≤ 191) : runeLen (b0 :: b1 :: b2 :: rest) = 3 := by
  have e2 : ¬ b0 = 240 := by omega
  have e4 : ¬ b0 = 244 := by omega
  have e6 : ¬ (194 ≤ b0 ∧ b0 ≤ 223) := by omega
  have e5 : ¬ ((b1 < if b0 = 224 then 160 else 128) ∨ (if b0 = 237 then 159 else 191) < b1) := by
    split_ifs <;> omega
  simp only [runeLen, e2, e4, if_false, e5, e6, h0, h0', and_self, if_true, List.headD_cons,
    h2, h2', decide_True, Bool.and_self]

theorem runeLen_four (b0 b1 b2 b3 : Nat) (rest : GoString) (h0 : 240 ≤ b0) (h0' : b0 ≤ 244)
    (h1 : 128 ≤ b1) (h1' : b1 ≤ 191) (hlo : b0 = 240 → 144 ≤ b1) (hhi : b0 = 244 → b1 ≤ 143)
    (h2 : 128 ≤ b2) (h2' : b2 ≤ 191) (h3 : 128 ≤ b3) (h3' : b3 ≤ 191) :
    runeLen (b0 :: b1 :: b2 :: b3 :: rest) = 4 := by
  have e1 : ¬ b0 = 224 := by omega
  have e3 : ¬ b0 = 237 := by omega
  have e6 : ¬ (194 ≤ b0 ∧ b0 ≤ 223) := by omega
  have e7 : ¬ (224 ≤ b0 ∧ b0 ≤ 239) := by omega
  have e5 : ¬ ((b1 < if b0 = 240 then 144 else 128) ∨ (if b0 = 244 then 143 else 191) < b1) := by
    split_ifs <;> omega
  simp only [runeLen, e1, e3, if_false, e5, e6, e7, h0, h0', and_self, if_true, List.headD_cons,
    h2, h2', h3, h3', decide_True, Bool.and_self, List.drop_succ_cons, List.drop_zero]

/-- One code point that needs no escape is copied. -/
theorem appendStringAux_rune (r : Nat) (h : plainRune r = true) (rest : GoString) :
    appendStringAux 0 true (encodeRune r ++ rest) = encodeRune r ++ appendStringAux 0 true rest := by
  simp only [plainRune, Bool.and_eq_true, decide_eq_true_eq, Bool.not_eq_true',
    Bool.and_eq_false_iff, decide_eq_false_iff_not, ne_eq] at h
  obtain ⟨⟨⟨⟨⟨⟨⟨⟨⟨h32, h34⟩, h38⟩, h60⟩, h62⟩, h92⟩, h28⟩, h29⟩, hmax⟩, hsur⟩ := h
  by_cases c1 : r < 128
  · have hs : htmlSafe r = true := by
      simp only [htmlSafe, Bool.and_eq_true, decide_eq_true_eq]
      omega
    simp only [encodeRune, c1, if_true, List.singleton_append, appendStringAux, hs]
  · by_cases c2 : r < 2048
    · simp only [encodeRune, c1, c2, if_true, if_false, List.cons_append, List.nil_append]
      rw [asa_valid _ 1 _ (by omega) (runeLen_two _ _ _ (by omega) (by omega) (by omega) (by omega))
        (by omega), asa_copy]
    · by_cases c3 : r < 65536
      · simp only [encodeRune, c1, c2, c3, if_true, if_false, List.cons_append, List.nil_append]
        rw [asa_valid _ 2 _ (by omega) (runeLen_three _ _ _ _ (by omega) (by omega) (by omega)
          (by omega) (by omega) (by omega) (by omega) (by omega)) ?_, asa_copy, asa_copy]
        simp only [List.headD_cons, List.drop_succ_cons, List.drop_zero]
        omega
      · simp only [encodeRune, c1, c2, c3, if_true, if_false, List.cons_append, List.nil_append]
        rw [asa_valid _ 3 _ (by omega) (runeLen_four _ _ _ _ _ (by omega) (by omega) (by omega)
          (by omega) (by omega) (by omega) (by omega) (by omega) (by omega) (by omega)) (by omega),
          asa_copy, asa_copy, asa_copy]

/-- UTF-8 text whose code points need no escape is copied as it is. -/
theorem appendStringAux_plain : ∀ (rs : List Nat), (∀ r ∈ rs, plainRune r = true) →
    appendStringAux 0 true (utf8Text rs) = utf8Text rs := by
  intro rs
  induction rs with
  | nil => intro _; rfl
  | cons r rs ih =>
    intro h
    rw [utf8Text, appendStringAux_rune r (h r (List.mem_cons_self _ _)),
      ih (fun x hx => h x (List.mem_cons_of_mem _ hx))]

/-- Go `json.Marshal` of UTF-8 text whose code points need no escape: the text in
double quotes. -/
theorem jsonMarshal_plain (rs : List Nat) (h : ∀ r ∈ rs, plainRune r = true) :
    jsonMarshal (utf8Text rs) = (quoted (utf8Text rs), none) := by
  simp only [jsonMarshal, quoted, appendStringAux_plain rs h]

end Mft

namespace Mft
open Std

/-! ## The first layout of the registry that parses a text -/

/-- In the registry the first layout of an overlapping pair comes before the
second. -/
theorem formats_before (A B : GoString)
    (hm : (A, B) ∈ ([(RFC3339, RFC3339Nano), (RubyDate, UnixDate), (RFC822Z, RFC822),
        (RFC1123Z, RFC1123), (StampNano, Stamp), (StampMicro, Stamp), (StampMilli, Stamp)] :
          List (GoString × GoString)))
    (pre post : List GoString) (h : formats = pre ++ B :: post) : A ∈ pre := by
  have hlen : pre.length < 19 := by
    have := congrArg List.length h
    simp [formats] at this
    omega
  have h1 : formats.take pre.length = pre := by rw [h]; simp
  have h2 : formats[pre.length]? = some B := by
    rw [h, List.getElem?_append_right (Nat.le_refl _), Nat.sub_self]
    exact List.getElem?_cons_zero
  have hall : ∀ p ∈ ([(RFC3339, RFC3339Nano), (RubyDate, UnixDate), (RFC822Z, RFC822),
        (RFC1123Z, RFC1123), (StampNano, Stamp), (StampMicro, Stamp), (StampMilli, Stamp)] :
          List (GoString × GoString)),
      ∀ n < 19, formats[n]? = some p.2 → p.1 ∈ formats.take n := by decide
  rw [← h1]
  exact hall (A, B) hm _ hlen h2

/-- A layout of the registry that parses the text is the one the loop stops at,
when the layouts it overlaps with that come before it all reject the text. -/
theorem scan_first (loc : Location) (mt : MultiFormatTime) (s L : GoString) (P : Time)
    (hL : L ∈ formats) (hp : Parse loc (quoted L) s = .ok P)
    (hearly : ∀ A, (A, L) ∈ ([(RFC3339, RFC3339Nano), (RubyDate, UnixDate), (RFC822Z, RFC822),
        (RFC1123Z, RFC1123), (StampNano, Stamp), (StampMicro, Stamp), (StampMilli, Stamp)] :
          List (GoString × GoString)) → parses loc A s = false) :
    UnmarshalJSON loc mt s = onMatch loc mt s L P := by
  have pL : parses loc L s = true := (parses_true_iff loc L s).2 ⟨P, hp⟩
  unfold UnmarshalJSON
  rcases unmarshalLoop_cases loc mt s formats none with hall | ⟨pre, f, post, t, e, hpre, hf, hr⟩
  · have := hall L hL
    rw [pL] at this
    cases this
  · have hmem : f ∈ formats := mem_formats_of_split pre post f e
    have pf : parses loc f s = true := (parses_true_iff loc f s).2 ⟨t, hf⟩
    have e3 : f = L := by
      by_contra hne
      obtain ⟨A, B, hm, hc⟩ := overlap_pairs loc s f L hmem hL hne pf pL
      rcases hc with ⟨h1, h2⟩ | ⟨h1, h2⟩
      · have := hearly f (by rw [h1, h2]; exact hm)
        rw [pf] at this
        cases this
      · rw [h1] at e
        have := hpre L (by rw [h2]; exact formats_before A B hm pre post e)
        rw [pL] at this
        cases this
    subst e3
    rw [hp] at hf
    cases hf
    exact hr

/-- A layout of the registry that parses the text and is the second of no
overlapping pair is the one the loop stops at. -/
theorem scan_alone (loc : Location) (mt : MultiFormatTime) (s L : GoString) (P : Time)
    (hL : L ∈ formats) (hp : Parse loc (quoted L) s = .ok P)
    (hno : ∀ p ∈ ([(RFC3339, RFC3339Nano), (RubyDate, UnixDate), (RFC822Z, RFC822),
        (RFC1123Z, RFC1123), (StampNano, Stamp), (StampMicro, Stamp), (StampMilli, Stamp)] :
          List (GoString × GoString)), p.2 ≠ L) :
    UnmarshalJSON loc mt s = onMatch loc mt s L P :=
  scan_first loc mt s L P hL hp (fun A hA => absurd rfl (hno (A, L) hA))

end Mft

namespace Mft
open Std

/-! ## Numeric zones: text and reading -/

theorem parseStd_num_off (sg H M : Nat) (hsg : sg = 43 ∨ sg = 45) (hH : H ≤ 24) (hM : M ≤ 60)
    (rest : GoString) (nx : Option Std) (st : PState) :
    parseStd stdNumTZ nx (sg :: (d2 H ++ (d2 M ++ rest))) st
      = { st := { st with zoneOffset := if sg = 45 then -(((H * 60 + M) * 60 : Nat) : Int)
                                        else (((H * 60 + M) * 60 : Nat) : Int) },
          value := rest } := by
  have hl : ¬ (rest.length + 1 + 1 + 1 + 1 + 1 < 5) := by omega
  have hM2 : ¬ 60 < M := by omega
  have hH2 : ¬ 24 < H := by omega
  have hs : ¬ (¬ sg = 43 ∧ ¬ sg = 45) := by omega
  simp only [parseStd, parseZoneOffset, d2, List.cons_append, List.nil_append, List.headD_cons,
    false_and, and_false, if_false, true_or, if_true, List.length_cons, hl,
    List.getD_cons_succ, List.getD_cons_zero, ne_eq, not_true_eq_false, List.take_succ_cons,
    List.take_zero, List.drop_succ_cons, List.drop_zero, getnum_two H (by omega),
    getnum_two M (by omega), getnum_00, Option.isSome_some, and_self, Option.map_some',
    Option.getD_some, Nat.not_lt_zero, hM2, hH2, Bool.and_self, Bool.not_true, Bool.false_or,
    hs, decide_False, add_zero, reduceCtorEq, or_self, or_false, false_or, decide_False,
    Bool.false_eq_true]

theorem zone_abs (o : Int) :
    (if Int.tdiv o 60 < 0 then -(Int.tdiv o 60) else Int.tdiv o 60) = ((zoneMinutes o : Nat) : Int) := by
  unfold zoneMinutes
  split_ifs with h <;> omega

theorem zoneSign_cases (o : Int) : zoneSign o = 43 ∨ zoneSign o = 45 := by
  unfold zoneSign
  split_ifs
  · exact Or.inr rfl
  · exact Or.inl rfl

theorem appendZone_num (o : Int) (hz : zoneMinutes o < 6000) :
    appendZone o false false false
      = zoneSign o :: (d2 (zoneMinutes o / 60) ++ d2 (zoneMinutes o % 60)) := by
  have h1 : zoneMinutes o / 60 < 100 := by omega
  have h2 : zoneMinutes o % 60 < 100 := by omega
  simp only [appendZone, zone_abs, tdiv_hours, tmod_hours, appendInt_two _ h1, appendInt_two _ h2,
    Bool.false_eq_true, if_false, List.append_nil, zoneSign]
  split_ifs <;> simp

theorem tdiv_zoneRound (o : Int) : Int.tdiv (zoneRound o) 60 = Int.tdiv o 60 := by
  unfold zoneRound
  exact Int.mul_tdiv_cancel _ (by decide)

theorem zoneMinutes_round (o : Int) : zoneMinutes (zoneRound o) = zoneMinutes o := by
  unfold zoneMinutes
  rw [tdiv_zoneRound]

theorem zoneSign_round (o : Int) : zoneSign (zoneRound o) = zoneSign o := by
  unfold zoneSign
  rw [tdiv_zoneRound]

/-- The offset read from the text of a numeric zone. -/
theorem zone_read (o : Int) :
    (if zoneSign o = 45
      then -((((zoneMinutes o / 60) * 60 + zoneMinutes o % 60) * 60 : Nat) : Int)
      else ((((zoneMinutes o / 60) * 60 + zoneMinutes o % 60) * 60 : Nat) : Int)) = zoneRound o := by
  have e : (zoneMinutes o / 60) * 60 + zoneMinutes o % 60 = zoneMinutes o := by omega
  rw [e]
  unfold zoneSign zoneRound zoneMinutes
  split_ifs with h h2 h3 <;> omega

theorem zoneRound_ne (o : Int) : zoneRound o ≠ -1 := by
  unfold zoneRound
  omega

end Mft

namespace Mft
open Std

/-! ## The layouts with a numeric zone, for any offset -/

theorem fmt_numTZ_off {y m d h mi s ns : Nat} (_r : Rng y m d h mi s ns) (Z : Location)
    (hz : zoneMinutes Z.offset < 6000) :
    formatStd ⟨(y : Int), m, d, h, mi, s, ns, Z⟩ stdNumTZ
      = zoneSign Z.offset :: (d2 (zoneMinutes Z.offset / 60) ++ d2 (zoneMinutes Z.offset % 60)) := by
  simp only [formatStd, appendZone_num _ hz]

theorem zo_ne (sg H M : Nat) :
    ¬ (if sg = 45 then -(((H * 60 + M) * 60 : Nat) : Int) else (((H * 60 + M) * 60 : Nat) : Int)) = -1 := by
  intro h
  split_ifs at h
  omega

/-! ### Layout -/

theorem formatN_Layout {y m d h mi s ns : Nat} (r : Rng y m d h mi s ns) (Z : Location)
    (hz : zoneMinutes Z.offset < 6000) :
    (⟨(y : Int), m, d, h, mi, s, ns, Z⟩ : Time).Format Layout =
      d2 m ++ 47 :: (d2 d ++ 32 :: (d2 (h12 h) ++ 58 :: (d2 mi ++ 58 :: (d2 s ++
          (ampm h ++ 32 :: 39 :: (d2 (y % 100) ++ 32 :: (zoneSign Z.offset :: (d2 (zoneMinutes Z.offset / 60) ++ d2 (zoneMinutes Z.offset % 60))))))))) := by
  have h1 : Layout ≠ RFC3339 := by decide
  have h2 : Layout ≠ RFC3339Nano := by decide
  have h3 : Layout ≠ [] := by decide
  unfold Time.Format appendFormat
  rw [if_neg h1, if_neg h2, if_neg h3, uchunks_Layout]
  simp only [formatChunks, fmt_zeroMonth r Z, fmt_zeroDay r Z, fmt_zeroHour12 r Z,
      fmt_zeroMinute r Z, fmt_zeroSecond r Z, fmt_PM r Z, fmt_year r Z, fmt_numTZ_off r Z hz,
    List.nil_append, List.append_nil, List.append_assoc, List.singleton_append, List.cons_append]

theorem qformatN_Layout {y m d h mi s ns : Nat} (r : Rng y m d h mi s ns) (Z : Location)
    (hz : zoneMinutes Z.offset < 6000) :
    quoted ((⟨(y : Int), m, d, h, mi, s, ns, Z⟩ : Time).Format Layout) =
      34 :: (d2 m ++ 47 :: (d2 d ++ 32 :: (d2 (h12 h) ++ 58 :: (d2 mi ++ 58 :: (d2 s ++
          (ampm h ++ 32 :: 39 :: (d2 (y % 100) ++ 32 :: (zoneSign Z.offset :: (d2 (zoneMinutes Z.offset / 60) ++ (d2 (zoneMinutes Z.offset % 60) ++ [34])))))))))) := by
  rw [formatN_Layout r Z hz]
  simp only [quoted, List.nil_append, List.append_nil, List.append_assoc, List.singleton_append,
    List.cons_append]

theorem parseN_Layout {y m d h mi s ns : Nat} (o : Ok y m d h mi s ns) (loc : Location)
    (sg H M : Nat) (hsg : sg = 43 ∨ sg = 45) (hH : H ≤ 24) (hM : M ≤ 60) :
    Parse loc (quoted Layout)
      (34 :: (d2 m ++ 47 :: (d2 d ++ 32 :: (d2 (h12 h) ++ 58 :: (d2 mi ++ 58 :: (d2 s ++
          (ampm h ++ 32 :: 39 :: (d2 (y % 100) ++ 32 :: (sg :: (d2 H ++ (d2 M ++ [34])))))))))))
      = .ok ⟨((y2k (y % 100) : Nat) : Int), m, d, h, mi, s, 0, locOff loc
          (if sg = 45 then -(((H * 60 + M) * 60 : Nat) : Int) else (((H * 60 + M) * 60 : Nat) : Int))⟩ := by
  have r := o.rng
  unfold Parse
  rw [qchunks_Layout]
  refine Eq.trans (pstep (skip_byte 34 _ (by decide))
    (parseStd_zeroMonth m r.hm1 r.hm2 _ _ _)) ?_
  dsimp only
  refine Eq.trans (pstep (skip_byte 47 _ (by decide))
    (parseStd_zeroDay d (by have := r.hd3; omega) _ _ _)) ?_
  dsimp only
  refine Eq.trans (pstep (skip_sp _ (d2_head _ _))
    (parseStd_zeroHour12 (h12 h) (h12_le h) _ _ _)) ?_
  dsimp only
  refine Eq.trans (pstep (skip_byte 58 _ (by decide))
    (parseStd_zeroMinute mi r.hmi _ _ _)) ?_
  dsimp only
  refine Eq.trans (pstep (skip_byte 58 _ (by decide))
    (parseStd_zeroSecond_ampm s r.hs h _ _ _)) ?_
  dsimp only
  refine Eq.trans (pstep (skip_nil _)
    (parseStd_ampm h _ _ _)) ?_
  dsimp only
  refine Eq.trans (pstep (skip_sp_quote _)
    (parseStd_year2 (y % 100) (Nat.mod_lt _ (by decide)) _ _ _)) ?_
  dsimp only
  refine Eq.trans (pstep (skip_sp _ (cons_head sg _ (by omega)))
    (parseStd_num_off sg H M hsg hH hM _ _ _)) ?_
  dsimp only
  refine Eq.trans (plast (skip_byte 34 [] (by decide))) ?_
  refine Eq.trans (parseFinish_ok _ _ _ _ _ rfl ?_ ?_) ?_
  · exact r.hd1
  · exact (le_trans o.hd2 (daysIn_y2k m y))
  have hh := hour_of_h12 h r.hh
  have hzo := zo_ne sg H M
  generalize (if sg = 45 then -(((H * 60 + M) * 60 : Nat) : Int) else (((H * 60 + M) * 60 : Nat) : Int)) = zo at hzo ⊢
  by_cases hl : loc.offset = zo <;> by_cases h12 : 12 ≤ h <;>
    simp [finishTime, Date, locOff, FixedZone, hl, h12, hzo] at hh ⊢ <;> omega

/-! ### RubyDate -/

theorem formatN_RubyDate {y m d h mi s ns : Nat} (r : Rng y m d h mi s ns) (Z : Location)
    (hz : zoneMinutes Z.offset < 6000) :
    (⟨(y : Int), m, d, h, mi, s, ns, Z⟩ : Time).Format RubyDate =
      (weekdayString (wk y m d)).take 3 ++ 32 :: ((monthString m).take 3 ++ 32 :: (d2 d ++ 32 ::
          (d2 h ++ 58 :: (d2 mi ++ 58 :: (d2 s ++ 32 :: (zoneSign Z.offset :: (d2 (zoneMinutes Z.offset / 60) ++ (d2 (zoneMinutes Z.offset % 60) ++ 32 :: (d4 y))))))))) := by
  have h1 : RubyDate ≠ RFC3339 := by decide
  have h2 : RubyDate ≠ RFC3339Nano := by decide
  have h3 : RubyDate ≠ [] := by decide
  unfold Time.Format appendFormat
  rw [if_neg h1, if_neg h2, if_neg h3, uchunks_RubyDate]
  simp only [formatChunks, fmt_weekDay r Z, fmt_month r Z, fmt_zeroDay r Z, fmt_hour r Z,
      fmt_zeroMinute r Z, fmt_zeroSecond r Z, fmt_numTZ_off r Z hz, fmt_longYear r Z,
    List.nil_append, List.append_nil, List.append_assoc, List.singleton_append, List.cons_append]

theorem qformatN_RubyDate {y m d h mi s ns : Nat} (r : Rng y m d h mi s ns) (Z : Location)
    (hz : zoneMinutes Z.offset < 6000) :
    quoted ((⟨(y : Int), m, d, h, mi, s, ns, Z⟩ : Time).Format RubyDate) =
      34 :: ((weekdayString (wk y m d)).take 3 ++ 32 :: ((monthString m).take 3 ++ 32 :: (d2 d ++ 32 ::
          (d2 h ++ 58 :: (d2 mi ++ 58 :: (d2 s ++ 32 :: (zoneSign Z.offset :: (d2 (zoneMinutes Z.offset / 60) ++ (d2 (zoneMinutes Z.offset % 60) ++ 32 :: (d4 y ++ [34])))))))))) := by
  rw [formatN_RubyDate r Z hz]
  simp only [quoted, List.nil_append, List.append_nil, List.append_assoc, List.singleton_append,
    List.cons_append]

theorem parseN_RubyDate {y m d h mi s ns : Nat} (o : Ok y m d h mi s ns) (loc : Location)
    (sg H M : Nat) (hsg : sg = 43 ∨ sg = 45) (hH : H ≤ 24) (hM : M ≤ 60) :
    Parse loc (quoted RubyDate)
      (34 :: ((weekdayString (wk y m d)).take 3 ++ 32 :: ((monthString m).take 3 ++ 32 :: (d2 d ++ 32 ::
          (d2 h ++ 58 :: (d2 mi ++ 58 :: (d2 s ++ 32 :: (sg :: (d2 H ++ (d2 M ++ 32 :: (d4 y ++ [34])))))))))))
      = .ok ⟨(y : Int), m, d, h, mi, s, 0, locOff loc
          (if sg = 45 then -(((H * 60 + M) * 60 : Nat) : Int) else (((H * 60 + M) * 60 : Nat) : Int))⟩ := by
  have r := o.rng
  unfold Parse
  rw [qchunks_RubyDate]
  refine Eq.trans (pstep (skip_byte 34 _ (by decide))
    (parseStd_weekDay (wk y m d) (wk_lt y m d) _ _ _)) ?_
  dsimp only
  refine Eq.trans (pstep (skip_sp _ (mon3_head m r.hm1 r.hm2 _))
    (parseStd_month m r.hm1 r.hm2 _ _ _)) ?_
  dsimp only
  refine Eq.trans (pstep (skip_sp _ (d2_head _ _))
    (parseStd_zeroDay d (by have := r.hd3; omega) _ _ _)) ?_
  dsimp only
  refine Eq.trans (pstep (skip_sp _ (d2_head _ _))
    (parseStd_hour h r.hh _ _ _)) ?_
  dsimp only
  refine Eq.trans (pstep (skip_byte 58 _ (by decide))
    (parseStd_zeroMinute mi r.hmi _ _ _)) ?_
  dsimp only
  refine Eq.trans (pstep (skip_byte 58 _ (by decide))
    (parseStd_zeroSecond_head s r.hs 32 _ rfl _ _)) ?_
  dsimp only
  refine Eq.trans (pstep (skip_sp _ (cons_head sg _ (by omega)))
    (parseStd_num_off sg H M hsg hH hM _ _ _)) ?_
  dsimp only
  refine Eq.trans (pstep (skip_sp _ (d4_head _ _))
    (parseStd_longYear y r.hy _ _ _)) ?_
  dsimp only
  refine Eq.trans (plast (skip_byte 34 [] (by decide))) ?_
  refine Eq.trans (parseFinish_ok _ _ _ _ _ rfl ?_ ?_) ?_
  · exact r.hd1
  · exact o.hd2
  have hzo := zo_ne sg H M
  generalize (if sg = 45 then -(((H * 60 + M) * 60 : Nat) : Int) else (((H * 60 + M) * 60 : Nat) : Int)) = zo at hzo ⊢
  by_cases hl : loc.offset = zo <;>
    simp [finishTime, Date, locOff, FixedZone, hl, hzo]

/-! ### RFC822Z -/

theorem formatN_RFC822Z {y m d h mi s ns : Nat} (r : Rng y m d h mi s ns) (Z : Location)
    (hz : zoneMinutes Z.offset < 6000) :
    (⟨(y : Int), m, d, h, mi, s, ns, Z⟩ : Time).Format RFC822Z =
      d2 d ++ 32 :: ((monthString m).take 3 ++ 32 :: (d2 (y % 100) ++ 32 :: (d2 h ++ 58 ::
          (d2 mi ++ 32 :: (zoneSign Z.offset :: (d2 (zoneMinutes Z.offset / 60) ++ d2 (zoneMinutes Z.offset % 60))))))) := by
  have h1 : RFC822Z ≠ RFC3339 := by decide
  have h2 : RFC822Z ≠ RFC3339Nano := by decide
  have h3 : RFC822Z ≠ [] := by decide
  unfold Time.Format appendFormat
  rw [if_neg h1, if_neg h2, if_neg h3, uchunks_RFC822Z]
  simp only [formatChunks, fmt_zeroDay r Z, fmt_month r Z, fmt_year r Z, fmt_hour r Z,
      fmt_zeroMinute r Z, fmt_numTZ_off r Z hz,
    List.nil_append, List.append_nil, List.append_assoc, List.singleton_append, List.cons_append]

theorem qformatN_RFC822Z {y m d h mi s ns : Nat} (r : Rng y m d h mi s ns) (Z : Location)
    (hz : zoneMinutes Z.offset < 6000) :
    quoted ((⟨(y : Int), m, d, h, mi, s, ns, Z⟩ : Time).Format RFC822Z) =
      34 :: (d2 d ++ 32 :: ((monthString m).take 3 ++ 32 :: (d2 (y % 100) ++ 32 :: (d2 h ++ 58 ::
          (d2 mi ++ 32 :: (zoneSign Z.offset :: (d2 (zoneMinutes Z.offset / 60) ++ (d2 (zoneMinutes Z.offset % 60) ++ [34])))))))) := by
  rw [formatN_RFC822Z r Z hz]
  simp only [quoted, List.nil_append, List.append_nil, List.append_assoc, List.singleton_append,
    List.cons_append]

theorem parseN_RFC822Z {y m d h mi s ns : Nat} (o : Ok y m d h mi s ns) (loc : Location)
    (sg H M : Nat) (hsg : sg = 43 ∨ sg = 45) (hH : H ≤ 24) (hM : M ≤ 60) :
    Parse loc (quoted RFC822Z)
      (34 :: (d2 d ++ 32 :: ((monthString m).take 3 ++ 32 :: (d2 (y % 100) ++ 32 :: (d2 h ++ 58 ::
          (d2 mi ++ 32 :: (sg :: (d2 H ++ (d2 M ++ [34])))))))))
      = .ok ⟨((y2k (y % 100) : Nat) : Int), m, d, h, mi, 0, 0, locOff loc
          (if sg = 45 then -(((H * 60 + M) * 60 : Nat) : Int) else (((H * 60 + M) * 60 : Nat) : Int))⟩ := by
  have r := o.rng
  unfold Parse
  rw [qchunks_RFC822Z]
  refine Eq.trans (pstep (skip_byte 34 _ (by decide))
    (parseStd_zeroDay d (by have := r.hd3; omega) _ _ _)) ?_
  dsimp only
  refine Eq.trans (pstep (skip_sp _ (mon3_head m r.hm1 r.hm2 _))
    (parseStd_month m r.hm1 r.hm2 _ _ _)) ?_
  dsimp only
  refine Eq.trans (pstep (skip_sp _ (d2_head _ _))
    (parseStd_year2 (y % 100) (Nat.mod_lt _ (by decide)) _ _ _)) ?_
  dsimp only
  refine Eq.trans (pstep (skip_sp _ (d2_head _ _))
    (parseStd_hour h r.hh _ _ _)) ?_
  dsimp only
  refine Eq.trans (pstep (skip_byte 58 _ (by decide))
    (parseStd_zeroMinute mi r.hmi _ _ _)) ?_
  dsimp only
  refine Eq.trans (pstep (skip_sp _ (cons_head sg _ (by omega)))
    (parseStd_num_off sg H M hsg hH hM _ _ _)) ?_
  dsimp only
  refine Eq.trans (plast (skip_byte 34 [] (by decide))) ?_
  refine Eq.trans (parseFinish_ok _ _ _ _ _ rfl ?_ ?_) ?_
  · exact r.hd1
  · exact (le_trans o.hd2 (daysIn_y2k m y))
  have hzo := zo_ne sg H M
  generalize (if sg = 45 then -(((H * 60 + M) * 60 : Nat) : Int) else (((H * 60 + M) * 60 : Nat) : Int)) = zo at hzo ⊢
  by_cases hl : loc.offset = zo <;>
    simp [finishTime, Date, locOff, FixedZone, hl, hzo]

/-! ### RFC1123Z -/

theorem formatN_RFC1123Z {y m d h mi s ns : Nat} (r : Rng y m d h mi s ns) (Z : Location)
    (hz : zoneMinutes Z.offset < 6000) :
    (⟨(y : Int), m, d, h, mi, s, ns, Z⟩ : Time).Format RFC1123Z =
      (weekdayString (wk y m d)).take 3 ++ 44 :: 32 :: (d2 d ++ 32 :: ((monthString m).take 3 ++ 32 ::
          (d4 y ++ 32 :: (d2 h ++ 58 :: (d2 mi ++ 58 :: (d2 s ++ 32 :: (zoneSign Z.offset :: (d2 (zoneMinutes Z.offset / 60) ++ d2 (zoneMinutes Z.offset % 60))))))))) := by
  have h1 : RFC1123Z ≠ RFC3339 := by decide
  have h2 : RFC1123Z ≠ RFC3339Nano := by decide
  have h3 : RFC1123Z ≠ [] := by decide
  unfold Time.Format appendFormat
  rw [if_neg h1, if_neg h2, if_neg h3, uchunks_RFC1123Z]
  simp only [formatChunks, fmt_weekDay r Z, fmt_zeroDay r Z, fmt_month r Z, fmt_longYear r
      Z, fmt_hour r Z, fmt_zeroMinute r Z, fmt_zeroSecond r Z, fmt_numTZ_off r Z hz,
    List.nil_append, List.append_nil, List.append_assoc, List.singleton_append, List.cons_append]

theorem qformatN_RFC1123Z {y m d h mi s ns : Nat} (r : Rng y m d h mi s ns) (Z : Location)
    (hz : zoneMinutes Z.offset < 6000) :
    quoted ((⟨(y : Int), m, d, h, mi, s, ns, Z⟩ : Time).Format RFC1123Z) =
      34 :: ((weekdayString (wk y m d)).take 3 ++ 44 :: 32 :: (d2 d ++ 32 :: ((monthString m).take 3 ++ 32 ::
          (d4 y ++ 32 :: (d2 h ++ 58 :: (d2 mi ++ 58 :: (d2 s ++ 32 :: (zoneSign Z.offset :: (d2 (zoneMinutes Z.offset / 60) ++ (d2 (zoneMinutes Z.offset % 60) ++ [34])))))))))) := by
  rw [formatN_RFC1123Z r Z hz]
  simp only [quoted, List.nil_append, List.append_nil, List.append_assoc, List.singleton_append,
    List.cons_append]

theorem parseN_RFC1123Z {y m d h mi s ns : Nat} (o : Ok y m d h mi s ns) (loc : Location)
    (sg H M : Nat) (hsg : sg = 43 ∨ sg = 45) (hH : H ≤ 24) (hM : M ≤ 60) :
    Parse loc (quoted RFC1123Z)
      (34 :: ((weekdayString (wk y m d)).take 3 ++ 44 :: 32 :: (d2 d ++ 32 :: ((monthString m).take 3 ++ 32 ::
          (d4 y ++ 32 :: (d2 h ++ 58 :: (d2 mi ++ 58 :: (d2 s ++ 32 :: (sg :: (d2 H ++ (d2 M ++ [34])))))))))))
      = .ok ⟨(y : Int), m, d, h, mi, s, 0, locOff loc
          (if sg = 45 then -(((H * 60 + M) * 60 : Nat) : Int) else (((H * 60 + M) * 60 : Nat) : Int))⟩ := by
  have r := o.rng
  unfold Parse
  rw [qchunks_RFC1123Z]
  refine Eq.trans (pstep (skip_byte 34 _ (by decide))
    (parseStd_weekDay (wk y m d) (wk_lt y m d) _ _ _)) ?_
  dsimp only
  refine Eq.trans (pstep (skip_comma_sp _ (d2_head _ _))
    (parseStd_zeroDay d (by have := r.hd3; omega) _ _ _)) ?_
  dsimp only
  refine Eq.trans (pstep (skip_sp _ (mon3_head m r.hm1 r.hm2 _))
    (parseStd_month m r.hm1 r.hm2 _ _ _)) ?_
  dsimp only
  refine Eq.trans (pstep (skip_sp _ (d4_head _ _))
    (parseStd_longYear y r.hy _ _ _)) ?_
  dsimp only
  refine Eq.trans (pstep (skip_sp _ (d2_head _ _))
    (parseStd_hour h r.hh _ _ _)) ?_
  dsimp only
  refine Eq.trans (pstep (skip_byte 58 _ (by decide))
    (parseStd_zeroMinute mi r.hmi _ _ _)) ?_
  dsimp only
  refine Eq.trans (pstep (skip_byte 58 _ (by decide))
    (parseStd_zeroSecond_head s r.hs 32 _ rfl _ _)) ?_
  dsimp only
  refine Eq.trans (pstep (skip_sp _ (cons_head sg _ (by omega)))
    (parseStd_num_off sg H M hsg hH hM _ _ _)) ?_
  dsimp only
  refine Eq.trans (plast (skip_byte 34 [] (by decide))) ?_
  refine Eq.trans (parseFinish_ok _ _ _ _ _ rfl ?_ ?_) ?_
  · exact r.hd1
  · exact o.hd2
  have hzo := zo_ne sg H M
  generalize (if sg = 45 then -(((H * 60 + M) * 60 : Nat) : Int) else (((H * 60 + M) * 60 : Nat) : Int)) = zo at hzo ⊢
  by_cases hl : loc.offset = zo <;>
    simp [finishTime, Date, locOff, FixedZone, hl, hzo]

end Mft

namespace Mft
open Std

/-! ## Round trip of the layouts with a numeric zone -/

theorem locOff_offset (loc : Location) (zo : Int) : (locOff loc zo).offset = zo := by
  unfold locOff
  split_ifs with h
  · exact h
  · rfl

theorem safe_sign (o : Int) : htmlSafe (zoneSign o) = true := by
  rcases zoneSign_cases o with e | e <;> rw [e] <;> rfl

theorem safeN_Layout {y m d h mi s ns : Nat} (r : Rng y m d h mi s ns) (Z : Location)
    (hz : zoneMinutes Z.offset < 6000) :
    Safe ((⟨(y : Int), m, d, h, mi, s, ns, Z⟩ : Time).Format Layout) := by
  rw [formatN_Layout r Z hz]
  have hsg := safe_sign Z.offset
  have h1 := r.hm2
  have h2 := r.hd3
  have h3 := r.hh
  have h4 := r.hmi
  have h5 := r.hs
  have h6 := r.hy
  have h7 := h12_le h
  repeat' (first
    | exact safe_nil | exact hsg | exact safe_d2 _ (by omega) | exact safe_d4 _ (by omega)
    | exact safe_mon3 _ r.hm1 r.hm2 | exact safe_wd3 _ (wk_lt _ _ _) | exact safe_ampm _
    | with_reducible apply safe_append | with_reducible apply safe_cons | decide)

/-- The text of a valid time with a four-digit year under `Layout`, in a zone
whose offset is below 25 hours: it needs no escape, `UnmarshalJSON` decodes it
with the tag `Layout` to the fields the layout writes, in the zone `parse`
chooses for the whole minutes of the offset, and that value has the same text. -/
theorem rtN_Layout {y m d h mi s ns : Nat} (o : Ok y m d h mi s ns) (loc : Location)
    (mt : MultiFormatTime) (Z : Location) (hz : zoneMinutes Z.offset < 1500) :
    Safe ((⟨(y : Int), m, d, h, mi, s, ns, Z⟩ : Time).Format Layout) ∧
    UnmarshalJSON loc mt (quoted ((⟨(y : Int), m, d, h, mi, s, ns, Z⟩ : Time).Format Layout))
      = (⟨⟨((y2k (y % 100) : Nat) : Int), m, d, h, mi, s, 0, locOff loc (zoneRound Z.offset)⟩, Layout⟩, none) ∧
    (⟨((y2k (y % 100) : Nat) : Int), m, d, h, mi, s, 0, locOff loc (zoneRound Z.offset)⟩ : Time).Format Layout
      = (⟨(y : Int), m, d, h, mi, s, ns, Z⟩ : Time).Format Layout := by
  have r := o.rng
  have hz6 : zoneMinutes Z.offset < 6000 := by omega
  refine ⟨safeN_Layout r Z hz6, ?_, ?_⟩
  · have hp := parseN_Layout o loc (zoneSign Z.offset) (zoneMinutes Z.offset / 60)
      (zoneMinutes Z.offset % 60) (zoneSign_cases _) (by omega) (by omega)
    rw [zone_read] at hp
    rw [qformatN_Layout r Z hz6, scan_alone loc mt _ Layout _ (by decide) hp (by decide)]
    exact onMatch_ne loc mt _ Layout _ (by decide)
  · have r2 : Rng (y2k (y % 100)) m d h mi s 0 :=
      ⟨y2k_lt _ (Nat.mod_lt _ (by decide)), r.hm1, r.hm2, r.hd1, r.hd3, r.hh, r.hmi, r.hs, by decide⟩
    have hz2 : zoneMinutes (locOff loc (zoneRound Z.offset)).offset < 6000 := by
      rw [locOff_offset, zoneMinutes_round]; exact hz6
    rw [formatN_Layout r2 _ hz2, formatN_Layout r Z hz6]
    simp only [locOff_offset, zoneMinutes_round, zoneSign_round, y2k_mod _ (Nat.mod_lt _
      (show 0 < 100 by decide))]

theorem safeN_RubyDate {y m d h mi s ns : Nat} (r : Rng y m d h mi s ns) (Z : Location)
    (hz : zoneMinutes Z.offset < 6000) :
    Safe ((⟨(y : Int), m, d, h, mi, s, ns, Z⟩ : Time).Format RubyDate) := by
  rw [formatN_RubyDate r Z hz]
  have hsg := safe_sign Z.offset
  have h1 := r.hm2
  have h2 := r.hd3
  have h3 := r.hh
  have h4 := r.hmi
  have h5 := r.hs
  have h6 := r.hy
  have h7 := h12_le h
  repeat' (first
    | exact safe_nil | exact hsg | exact safe_d2 _ (by omega) | exact safe_d4 _ (by omega)
    | exact safe_mon3 _ r.hm1 r.hm2 | exact safe_wd3 _ (wk_lt _ _ _) | exact safe_ampm _
    | with_reducible apply safe_append | with_reducible apply safe_cons | decide)

/-- The text of a valid time with a four-digit year under `RubyDate`, in a zone
whose offset is below 25 hours: it needs no escape, `UnmarshalJSON` decodes it
with the tag `RubyDate` to the fields the layout writes, in the zone `parse`
chooses for the whole minutes of the offset, and that value has the same text. -/
theorem rtN_RubyDate {y m d h mi s ns : Nat} (o : Ok y m d h mi s ns) (loc : Location)
    (mt : MultiFormatTime) (Z : Location) (hz : zoneMinutes Z.offset < 1500) :
    Safe ((⟨(y : Int), m, d, h, mi, s, ns, Z⟩ : Time).Format RubyDate) ∧
    UnmarshalJSON loc mt (quoted ((⟨(y : Int), m, d, h, mi, s, ns, Z⟩ : Time).Format RubyDate))
      = (⟨⟨(y : Int), m, d, h, mi, s, 0, locOff loc (zoneRound Z.offset)⟩, RubyDate⟩, none) ∧
    (⟨(y : Int), m, d, h, mi, s, 0, locOff loc (zoneRound Z.offset)⟩ : Time).Format RubyDate
      = (⟨(y : Int), m, d, h, mi, s, ns, Z⟩ : Time).Format RubyDate := by
  have r := o.rng
  have hz6 : zoneMinutes Z.offset < 6000 := by omega
  refine ⟨safeN_RubyDate r Z hz6, ?_, ?_⟩
  · have hp := parseN_RubyDate o loc (zoneSign Z.offset) (zoneMinutes Z.offset / 60)
      (zoneMinutes Z.offset % 60) (zoneSign_cases _) (by omega) (by omega)
    rw [zone_read] at hp
    rw [qformatN_RubyDate r Z hz6, scan_alone loc mt _ RubyDate _ (by decide) hp (by decide)]
    exact onMatch_ne loc mt _ RubyDate _ (by decide)
  · have r2 : Rng (y) m d h mi s 0 :=
      ⟨r.hy, r.hm1, r.hm2, r.hd1, r.hd3, r.hh, r.hmi, r.hs, by decide⟩
    have hz2 : zoneMinutes (locOff loc (zoneRound Z.offset)).offset < 6000 := by
      rw [locOff_offset, zoneMinutes_round]; exact hz6
    rw [formatN_RubyDate r2 _ hz2, formatN_RubyDate r Z hz6]
    simp only [locOff_offset, zoneMinutes_round, zoneSign_round, y2k_mod _ (Nat.mod_lt _
      (show 0 < 100 by decide))]

theorem safeN_RFC822Z {y m d h mi s ns : Nat} (r : Rng y m d h mi s ns) (Z : Location)
    (hz : zoneMinutes Z.offset < 6000) :
    Safe ((⟨(y : Int), m, d, h, mi, s, ns, Z⟩ : Time).Format RFC822Z) := by
  rw [formatN_RFC822Z r Z hz]
  have hsg := safe_sign Z.offset
  have h1 := r.hm2
  have h2 := r.hd3
  have h3 := r.hh
  have h4 := r.hmi
  have h5 := r.hs
  have h6 := r.hy
  have h7 := h12_le h
  repeat' (first
    | exact safe_nil | exact hsg | exact safe_d2 _ (by omega) | exact safe_d4 _ (by omega)
    | exact safe_mon3 _ r.hm1 r.hm2 | exact safe_wd3 _ (wk_lt _ _ _) | exact safe_ampm _
    | with_reducible apply safe_append | with_reducible apply safe_cons | decide)

/-- The text of a valid time with a four-digit year under `RFC822Z`, in a zone
whose offset is below 25 hours: it needs no escape, `UnmarshalJSON` decodes it
with the tag `RFC822Z` to the fields the layout writes, in the zone `parse`
chooses for the whole minutes of the offset, and that value has the same text. -/
theorem rtN_RFC822Z {y m d h mi s ns : Nat} (o : Ok y m d h mi s ns) (loc : Location)
    (mt : MultiFormatTime) (Z : Location) (hz : zoneMinutes Z.offset < 1500) :
    Safe ((⟨(y : Int), m, d, h, mi, s, ns, Z⟩ : Time).Format RFC822Z) ∧
    UnmarshalJSON loc mt (quoted ((⟨(y : Int), m, d, h, mi, s, ns, Z⟩ : Time).Format RFC822Z))
      = (⟨⟨((y2k (y % 100) : Nat) : Int), m, d, h, mi, 0, 0, locOff loc (zoneRound Z.offset)⟩, RFC822Z⟩, none) ∧
    (⟨((y2k (y % 100) : Nat) : Int), m, d, h, mi, 0, 0, locOff loc (zoneRound Z.offset)⟩ : Time).Format RFC822Z
      = (⟨(y : Int), m, d, h, mi, s, ns, Z⟩ : Time).Format RFC822Z := by
  have r := o.rng
  have hz6 : zoneMinutes Z.offset < 6000 := by omega
  refine ⟨safeN_RFC822Z r Z hz6, ?_, ?_⟩
  · have hp := parseN_RFC822Z o loc (zoneSign Z.offset) (zoneMinutes Z.offset / 60)
      (zoneMinutes Z.offset % 60) (zoneSign_cases _) (by omega) (by omega)
    rw [zone_read] at hp
    rw [qformatN_RFC822Z r Z hz6, scan_alone loc mt _ RFC822Z _ (by decide) hp (by decide)]
    exact onMatch_ne loc mt _ RFC822Z _ (by decide)
  · have r2 : Rng (y2k (y % 100)) m d h mi 0 0 :=
      ⟨y2k_lt _ (Nat.mod_lt _ (by decide)), r.hm1, r.hm2, r.hd1, r.hd3, r.hh, r.hmi, by decide, by decide⟩
    have hz2 : zoneMinutes (locOff loc (zoneRound Z.offset)).offset < 6000 := by
      rw [locOff_offset, zoneMinutes_round]; exact hz6
    rw [formatN_RFC822Z r2 _ hz2, formatN_RFC822Z r Z hz6]
    simp only [locOff_offset, zoneMinutes_round, zoneSign_round, y2k_mod _ (Nat.mod_lt _
      (show 0 < 100 by decide))]

theorem safeN_RFC1123Z {y m d h mi s ns : Nat} (r : Rng y m d h mi s ns) (Z : Location)
    (hz : zoneMinutes Z.offset < 6000) :
    Safe ((⟨(y : Int), m, d, h, mi, s, ns, Z⟩ : Time).Format RFC1123Z) := by
  rw [formatN_RFC1123Z r Z hz]
  have hsg := safe_sign Z.offset
  have h1 := r.hm2
  have h2 := r.hd3
  have h3 := r.hh
  have h4 := r.hmi
  have h5 := r.hs
  have h6 := r.hy
  have h7 := h12_le h
  repeat' (first
    | exact safe_nil | exact hsg | exact safe_d2 _ (by omega) | exact safe_d4 _ (by omega)
    | exact safe_mon3 _ r.hm1 r.hm2 | exact safe_wd3 _ (wk_lt _ _ _) | exact safe_ampm _
    | with_reducible apply safe_append | with_reducible apply safe_cons | decide)

/-- The text of a valid time with a four-digit year under `RFC1123Z`, in a zone
whose offset is below 25 hours: it needs no escape, `UnmarshalJSON` decodes it
with the tag `RFC1123Z` to the fields the layout writes, in the zone `parse`
chooses for the whole minutes of the offset, and that value has the same text. -/
theorem rtN_RFC1123Z {y m d h mi s ns : Nat} (o : Ok y m d h mi s ns) (loc : Location)
    (mt : MultiFormatTime) (Z : Location) (hz : zoneMinutes Z.offset < 1500) :
    Safe ((⟨(y : Int), m, d, h, mi, s, ns, Z⟩ : Time).Format RFC1123Z) ∧
    UnmarshalJSON loc mt (quoted ((⟨(y : Int), m, d, h, mi, s, ns, Z⟩ : Time).Format RFC1123Z))
      = (⟨⟨(y : Int), m, d, h, mi, s, 0, locOff loc (zoneRound Z.offset)⟩, RFC1123Z⟩, none) ∧
    (⟨(y : Int), m, d, h, mi, s, 0, locOff loc (zoneRound Z.offset)⟩ : Time).Format RFC1123Z
      = (⟨(y : Int), m, d, h, mi, s, ns, Z⟩ : Time).Format RFC1123Z := by
  have r := o.rng
  have hz6 : zoneMinutes Z.offset < 6000 := by omega
  refine ⟨safeN_RFC1123Z r Z hz6, ?_, ?_⟩
  · have hp := parseN_RFC1123Z o loc (zoneSign Z.offset) (zoneMinutes Z.offset / 60)
      (zoneMinutes Z.offset % 60) (zoneSign_cases _) (by omega) (by omega)
    rw [zone_read] at hp
    rw [qformatN_RFC1123Z r Z hz6, scan_alone loc mt _ RFC1123Z _ (by decide) hp (by decide)]
    exact onMatch_ne loc mt _ RFC1123Z _ (by decide)
  · have r2 : Rng (y) m d h mi s 0 :=
      ⟨r.hy, r.hm1, r.hm2, r.hd1, r.hd3, r.hh, r.hmi, r.hs, by decide⟩
    have hz2 : zoneMinutes (locOff loc (zoneRound Z.offset)).offset < 6000 := by
      rw [locOff_offset, zoneMinutes_round]; exact hz6
    rw [formatN_RFC1123Z r2 _ hz2, formatN_RFC1123Z r Z hz6]
    simp only [locOff_offset, zoneMinutes_round, zoneSign_round, y2k_mod _ (Nat.mod_lt _
      (show 0 < 100 by decide))]

end Mft

namespace Mft
open Std

/-! ## The RFC 3339 layouts in a zone with a non-zero offset -/

theorem isDig_sign (sg : Nat) (hsg : sg = 43 ∨ sg = 45) : isDig sg = false := by
  rcases hsg with e | e <;> rw [e] <;> rfl

theorem commaOrPeriod_sign (sg : Nat) (hsg : sg = 43 ∨ sg = 45) : commaOrPeriod sg = false := by
  rcases hsg with e | e <;> rw [e] <;> rfl

theorem formatI_RFC3339 {y m d h mi s ns : Nat} (r : Rng y m d h mi s ns) (Z : Location)
    (hne : Z.offset ≠ 0) (hz : zoneMinutes Z.offset < 6000) :
    (⟨(y : Int), m, d, h, mi, s, ns, Z⟩ : Time).Format RFC3339 =
      d4 y ++ 45 :: (d2 m ++ 45 :: (d2 d ++ 84 :: (d2 h ++ 58 :: (d2 mi ++ 58 :: (d2 s ++
          zoneSign Z.offset :: (d2 (zoneMinutes Z.offset / 60) ++ 58 :: d2 (zoneMinutes Z.offset % 60))))))) := by
  have hd : d < 100 := by have := r.hd3; omega
  have hm : m < 100 := by have := r.hm2; omega
  have hh : h < 100 := by have := r.hh; omega
  have hmi : mi < 100 := by have := r.hmi; omega
  have hs : s < 100 := by have := r.hs; omega
  have h1 : zoneMinutes Z.offset / 60 < 100 := by omega
  have h2 : zoneMinutes Z.offset % 60 < 100 := by omega
  unfold Time.Format
  rw [if_pos rfl]
  simp only [appendFormatRFC3339, appendInt_four y r.hy, appendInt_two m hm, appendInt_two d hd,
    appendInt_two h hh, appendInt_two mi hmi, appendInt_two s hs, hne, if_true,
    appendNano_frac9 ns r.hns, ← f9.eq_1, zone_abs, tdiv_hours, tmod_hours, appendInt_two _ h1,
    appendInt_two _ h2, zoneSign,
    Bool.false_eq_true, if_false, List.append_nil, List.append_assoc, List.singleton_append,
    List.cons_append, List.nil_append]
  split_ifs <;> simp

theorem qformatI_RFC3339 {y m d h mi s ns : Nat} (r : Rng y m d h mi s ns) (Z : Location)
    (hne : Z.offset ≠ 0) (hz : zoneMinutes Z.offset < 6000) :
    quoted ((⟨(y : Int), m, d, h, mi, s, ns, Z⟩ : Time).Format RFC3339) =
      34 :: (d4 y ++ 45 :: (d2 m ++ 45 :: (d2 d ++ 84 :: (d2 h ++ 58 :: (d2 mi ++ 58 :: (d2 s ++
          zoneSign Z.offset :: (d2 (zoneMinutes Z.offset / 60) ++ 58 :: (d2 (zoneMinutes Z.offset % 60) ++ [34])))))))) := by
  rw [formatI_RFC3339 r Z hne hz]
  simp only [quoted, List.nil_append, List.append_nil, List.append_assoc, List.singleton_append,
    List.cons_append]

theorem parseI_RFC3339 {y m d h mi s ns : Nat} (o : Ok y m d h mi s ns) (loc : Location)
    (sg H M : Nat) (hsg : sg = 43 ∨ sg = 45) (hH : H ≤ 24) (hM : M ≤ 60) :
    Parse loc (quoted RFC3339)
      (34 :: (d4 y ++ 45 :: (d2 m ++ 45 :: (d2 d ++ 84 :: (d2 h ++ 58 :: (d2 mi ++ 58 :: (d2 s ++
          sg :: (d2 H ++ 58 :: (d2 M ++ [34])))))))))
      = .ok ⟨(y : Int), m, d, h, mi, s, 0, locOff loc
          (if sg = 45 then -(((H * 60 + M) * 60 : Nat) : Int) else (((H * 60 + M) * 60 : Nat) : Int))⟩ := by
  have r := o.rng
  unfold Parse
  rw [qchunks_RFC3339]
  refine Eq.trans (pstep (skip_byte 34 _ (by decide))
    (parseStd_longYear y r.hy _ _ _)) ?_
  dsimp only
  refine Eq.trans (pstep (skip_byte 45 _ (by decide))
    (parseStd_zeroMonth m r.hm1 r.hm2 _ _ _)) ?_
  dsimp only
  refine Eq.trans (pstep (skip_byte 45 _ (by decide))
    (parseStd_zeroDay d (by have := r.hd3; omega) _ _ _)) ?_
  dsimp only
  refine Eq.trans (pstep (skip_byte 84 _ (by decide))
    (parseStd_hour h r.hh _ _ _)) ?_
  dsimp only
  refine Eq.trans (pstep (skip_byte 58 _ (by decide))
    (parseStd_zeroMinute mi r.hmi _ _ _)) ?_
  dsimp only
  refine Eq.trans (pstep (skip_byte 58 _ (by decide))
    (parseStd_zeroSecond_head s r.hs sg _ (commaOrPeriod_sign sg hsg) _ _)) ?_
  dsimp only
  refine Eq.trans (pstep (skip_nil _)
    (parseStd_iso_off sg H M hsg hH hM _ _ _)) ?_
  dsimp only
  refine Eq.trans (plast (skip_byte 34 [] (by decide))) ?_
  refine Eq.trans (parseFinish_ok _ _ _ _ _ rfl ?_ ?_) ?_
  · exact r.hd1
  · exact o.hd2
  have hzo := zo_ne sg H M
  generalize (if sg = 45 then -(((H * 60 + M) * 60 : Nat) : Int) else (((H * 60 + M) * 60 : Nat) : Int)) = zo at hzo ⊢
  by_cases hl : loc.offset = zo <;>
    simp [finishTime, Date, locOff, FixedZone, hl, hzo]

theorem formatI_RFC3339Nano {y m d h mi s ns : Nat} (r : Rng y m d h mi s ns) (Z : Location)
    (hne : Z.offset ≠ 0) (hz : zoneMinutes Z.offset < 6000) :
    (⟨(y : Int), m, d, h, mi, s, ns, Z⟩ : Time).Format RFC3339Nano =
      d4 y ++ 45 :: (d2 m ++ 45 :: (d2 d ++ 84 :: (d2 h ++ 58 :: (d2 mi ++ 58 :: (d2 s ++
          (f9 ns ++ zoneSign Z.offset :: (d2 (zoneMinutes Z.offset / 60) ++ 58 :: d2 (zoneMinutes Z.offset % 60)))))))) := by
  have hd : d < 100 := by have := r.hd3; omega
  have hm : m < 100 := by have := r.hm2; omega
  have hh : h < 100 := by have := r.hh; omega
  have hmi : mi < 100 := by have := r.hmi; omega
  have hs : s < 100 := by have := r.hs; omega
  have h1 : zoneMinutes Z.offset / 60 < 100 := by omega
  have h2 : zoneMinutes Z.offset % 60 < 100 := by omega
  unfold Time.Format
  rw [if_neg (show RFC3339Nano ≠ RFC3339 by decide), if_pos rfl]
  simp only [appendFormatRFC3339, appendInt_four y r.hy, appendInt_two m hm, appendInt_two d hd,
    appendInt_two h hh, appendInt_two mi hmi, appendInt_two s hs, hne, if_true,
    appendNano_frac9 ns r.hns, ← f9.eq_1, zone_abs, tdiv_hours, tmod_hours, appendInt_two _ h1,
    appendInt_two _ h2, zoneSign,
    Bool.false_eq_true, if_false, List.append_nil, List.append_assoc, List.singleton_append,
    List.cons_append, List.nil_append]
  split_ifs <;> simp

theorem qformatI_RFC3339Nano {y m d h mi s ns : Nat} (r : Rng y m d h mi s ns) (Z : Location)
    (hne : Z.offset ≠ 0) (hz : zoneMinutes Z.offset < 6000) :
    quoted ((⟨(y : Int), m, d, h, mi, s, ns, Z⟩ : Time).Format RFC3339Nano) =
      34 :: (d4 y ++ 45 :: (d2 m ++ 45 :: (d2 d ++ 84 :: (d2 h ++ 58 :: (d2 mi ++ 58 :: (d2 s ++
          (f9 ns ++ zoneSign Z.offset :: (d2 (zoneMinutes Z.offset / 60) ++ 58 :: (d2 (zoneMinutes Z.offset % 60) ++ [34]))))))))) := by
  rw [formatI_RFC3339Nano r Z hne hz]
  simp only [quoted, List.nil_append, List.append_nil, List.append_assoc, List.singleton_append,
    List.cons_append]

theorem parseI_RFC3339Nano {y m d h mi s ns : Nat} (o : Ok y m d h mi s ns) (loc : Location)
    (sg H M : Nat) (hsg : sg = 43 ∨ sg = 45) (hH : H ≤ 24) (hM : M ≤ 60) :
    Parse loc (quoted RFC3339Nano)
      (34 :: (d4 y ++ 45 :: (d2 m ++ 45 :: (d2 d ++ 84 :: (d2 h ++ 58 :: (d2 mi ++ 58 :: (d2 s ++
          (f9 ns ++ sg :: (d2 H ++ 58 :: (d2 M ++ [34]))))))))))
      = .ok ⟨(y : Int), m, d, h, mi, s, ns, locOff loc
          (if sg = 45 then -(((H * 60 + M) * 60 : Nat) : Int) else (((H * 60 + M) * 60 : Nat) : Int))⟩ := by
  have r := o.rng
  unfold Parse
  rw [qchunks_RFC3339Nano]
  refine Eq.trans (pstep (skip_byte 34 _ (by decide))
    (parseStd_longYear y r.hy _ _ _)) ?_
  dsimp only
  refine Eq.trans (pstep (skip_byte 45 _ (by decide))
    (parseStd_zeroMonth m r.hm1 r.hm2 _ _ _)) ?_
  dsimp only
  refine Eq.trans (pstep (skip_byte 45 _ (by decide))
    (parseStd_zeroDay d (by have := r.hd3; omega) _ _ _)) ?_
  dsimp only
  refine Eq.trans (pstep (skip_byte 84 _ (by decide))
    (parseStd_hour h r.hh _ _ _)) ?_
  dsimp only
  refine Eq.trans (pstep (skip_byte 58 _ (by decide))
    (parseStd_zeroMinute mi r.hmi _ _ _)) ?_
  dsimp only
  refine Eq.trans (pstep (skip_byte 58 _ (by decide))
    (parseStd_zeroSecond_frac9 s r.hs _ _ _ _)) ?_
  dsimp only
  refine Eq.trans (pstep (skip_nil _)
    (parseStd_f9 ns r.hns sg _ (isDig_sign sg hsg) (commaOrPeriod_sign sg hsg) _ _ _ _)) ?_
  dsimp only
  refine Eq.trans (pstep (skip_nil _)
    (parseStd_iso_off sg H M hsg hH hM _ _ _)) ?_
  dsimp only
  refine Eq.trans (plast (skip_byte 34 [] (by decide))) ?_
  refine Eq.trans (parseFinish_ok _ _ _ _ _ rfl ?_ ?_) ?_
  · exact r.hd1
  · exact o.hd2
  have hzo := zo_ne sg H M
  generalize (if sg = 45 then -(((H * 60 + M) * 60 : Nat) : Int) else (((H * 60 + M) * 60 : Nat) : Int)) = zo at hzo ⊢
  by_cases hl : loc.offset = zo <;>
    simp [finishTime, Date, locOff, FixedZone, hl, hzo, ite_nsec]

end Mft

namespace Mft
open Std

/-! ## Round trip of the RFC 3339 layouts in a zone with a non-zero offset -/

theorem sign_ne_dot (o : Int) : zoneSign o ≠ 46 := by
  rcases zoneSign_cases o with e | e <;> rw [e] <;> decide

theorem containsDot_mem (v : GoString) (h : 46 ∈ v) : containsDot v = true := by
  simpa [containsDot] using h

theorem zoneRound_ne_zero (o : Int) (h : 0 < zoneMinutes o) : zoneRound o ≠ 0 := by
  unfold zoneRound
  unfold zoneMinutes at h
  omega

theorem offset_ne_zero (o : Int) (h : 0 < zoneMinutes o) : o ≠ 0 := by
  intro e
  rw [e] at h
  revert h
  decide

theorem safeI_RFC3339 {y m d h mi s ns : Nat} (r : Rng y m d h mi s ns) (Z : Location)
    (hne : Z.offset ≠ 0) (hz : zoneMinutes Z.offset < 6000) :
    Safe ((⟨(y : Int), m, d, h, mi, s, ns, Z⟩ : Time).Format RFC3339) := by
  rw [formatI_RFC3339 r Z hne hz]
  have hsg := safe_sign Z.offset
  have h1 := r.hm2
  have h2 := r.hd3
  have h3 := r.hh
  have h4 := r.hmi
  have h5 := r.hs
  have h6 := r.hy
  repeat' (first
    | exact safe_nil | exact hsg | exact safe_d2 _ (by omega) | exact safe_d4 _ (by omega)
    | with_reducible apply safe_append | with_reducible apply safe_cons | decide)

theorem safeI_RFC3339Nano {y m d h mi s ns : Nat} (r : Rng y m d h mi s ns) (Z : Location)
    (hne : Z.offset ≠ 0) (hz : zoneMinutes Z.offset < 6000) :
    Safe ((⟨(y : Int), m, d, h, mi, s, ns, Z⟩ : Time).Format RFC3339Nano) := by
  rw [formatI_RFC3339Nano r Z hne hz]
  have hsg := safe_sign Z.offset
  have h1 := r.hm2
  have h2 := r.hd3
  have h3 := r.hh
  have h4 := r.hmi
  have h5 := r.hs
  have h6 := r.hy
  repeat' (first
    | exact safe_nil | exact hsg | exact safe_d2 _ (by omega) | exact safe_d4 _ (by omega)
    | exact safe_f9 _
    | with_reducible apply safe_append | with_reducible apply safe_cons | decide)

theorem nodotI_RFC3339 {y m d h mi s ns : Nat} (r : Rng y m d h mi s ns) (Z : Location)
    (hne : Z.offset ≠ 0) (hz : zoneMinutes Z.offset < 6000) :
    containsDot (quoted ((⟨(y : Int), m, d, h, mi, s, ns, Z⟩ : Time).Format RFC3339)) = false := by
  rw [qformatI_RFC3339 r Z hne hz]
  apply containsDot_false
  have hsg := sign_ne_dot Z.offset
  repeat' (first
    | exact nodot_nil | exact nodot_d2 _ | exact nodot_d4 _
    | with_reducible apply nodot_append | with_reducible apply nodot_cons | exact hsg | decide)

/-- The text of a valid time with a four-digit year under `RFC3339`, in a zone
whose offset is at least a minute and below 25 hours: it needs no escape,
`UnmarshalJSON` decodes it with the tag `RFC3339` to the fields the layout
writes, in the zone `parse` chooses for the whole minutes of the offset, and that
value has the same text. -/
theorem rtI_RFC3339 {y m d h mi s ns : Nat} (o : Ok y m d h mi s ns) (loc : Location)
    (mt : MultiFormatTime) (Z : Location) (hz0 : 0 < zoneMinutes Z.offset)
    (hz : zoneMinutes Z.offset < 1500) :
    Safe ((⟨(y : Int), m, d, h, mi, s, ns, Z⟩ : Time).Format RFC3339) ∧
    UnmarshalJSON loc mt (quoted ((⟨(y : Int), m, d, h, mi, s, ns, Z⟩ : Time).Format RFC3339))
      = (⟨⟨(y : Int), m, d, h, mi, s, 0, locOff loc (zoneRound Z.offset)⟩, RFC3339⟩, none) ∧
    (⟨(y : Int), m, d, h, mi, s, 0, locOff loc (zoneRound Z.offset)⟩ : Time).Format RFC3339
      = (⟨(y : Int), m, d, h, mi, s, ns, Z⟩ : Time).Format RFC3339 := by
  have r := o.rng
  have hz6 : zoneMinutes Z.offset < 6000 := by omega
  have hne := offset_ne_zero _ hz0
  refine ⟨safeI_RFC3339 r Z hne hz6, ?_, ?_⟩
  · have hp := parseI_RFC3339 o loc (zoneSign Z.offset) (zoneMinutes Z.offset / 60)
      (zoneMinutes Z.offset % 60) (zoneSign_cases _) (by omega) (by omega)
    rw [zone_read, ← qformatI_RFC3339 r Z hne hz6] at hp
    rw [scan_alone loc mt _ RFC3339 _ (by decide) hp (by decide)]
    exact onMatch_nodot loc mt _ _ (nodotI_RFC3339 r Z hne hz6)
  · have r2 : Rng y m d h mi s 0 :=
      ⟨r.hy, r.hm1, r.hm2, r.hd1, r.hd3, r.hh, r.hmi, r.hs, by decide⟩
    have hne2 : (locOff loc (zoneRound Z.offset)).offset ≠ 0 := by
      rw [locOff_offset]; exact zoneRound_ne_zero _ hz0
    have hz2 : zoneMinutes (locOff loc (zoneRound Z.offset)).offset < 6000 := by
      rw [locOff_offset, zoneMinutes_round]; exact hz6
    rw [formatI_RFC3339 r2 _ hne2 hz2, formatI_RFC3339 r Z hne hz6]
    simp only [locOff_offset, zoneMinutes_round, zoneSign_round]

/-- The same under `RFC3339Nano`: the tag is `RFC3339` when there are no
nanoseconds, `RFC3339Nano` otherwise. -/
theorem rtI_RFC3339Nano {y m d h mi s ns : Nat} (o : Ok y m d h mi s ns) (loc : Location)
    (mt : MultiFormatTime) (Z : Location) (hz0 : 0 < zoneMinutes Z.offset)
    (hz : zoneMinutes Z.offset < 1500) :
    Safe ((⟨(y : Int), m, d, h, mi, s, ns, Z⟩ : Time).Format RFC3339Nano) ∧
    UnmarshalJSON loc mt (quoted ((⟨(y : Int), m, d, h, mi, s, ns, Z⟩ : Time).Format RFC3339Nano))
      = (⟨⟨(y : Int), m, d, h, mi, s, ns, locOff loc (zoneRound Z.offset)⟩,
          if ns = 0 then RFC3339 else RFC3339Nano⟩, none) ∧
    (⟨(y : Int), m, d, h, mi, s, ns, locOff loc (zoneRound Z.offset)⟩ : Time).Format
        (if ns = 0 then RFC3339 else RFC3339Nano)
      = (⟨(y : Int), m, d, h, mi, s, ns, Z⟩ : Time).Format RFC3339Nano := by
  have r := o.rng
  have hz6 : zoneMinutes Z.offset < 6000 := by omega
  have hne := offset_ne_zero _ hz0
  have hne2 : (locOff loc (zoneRound Z.offset)).offset ≠ 0 := by
    rw [locOff_offset]; exact zoneRound_ne_zero _ hz0
  have hz2 : zoneMinutes (locOff loc (zoneRound Z.offset)).offset < 6000 := by
    rw [locOff_offset, zoneMinutes_round]; exact hz6
  refine ⟨safeI_RFC3339Nano r Z hne hz6, ?_, ?_⟩
  · have hp := parseI_RFC3339Nano o loc (zoneSign Z.offset) (zoneMinutes Z.offset / 60)
      (zoneMinutes Z.offset % 60) (zoneSign_cases _) (by omega) (by omega)
    rw [zone_read, ← qformatI_RFC3339Nano r Z hne hz6] at hp
    have hp3 := (parse_RFC3339_iff_Nano loc _ _).2 hp
    rw [scan_alone loc mt _ RFC3339 _ (by decide) hp3 (by decide)]
    by_cases hns : ns = 0
    · rw [if_pos hns]
      apply onMatch_nodot
      have e : (⟨(y : Int), m, d, h, mi, s, ns, Z⟩ : Time).Format RFC3339Nano
          = (⟨(y : Int), m, d, h, mi, s, ns, Z⟩ : Time).Format RFC3339 := by
        rw [formatI_RFC3339Nano r Z hne hz6, formatI_RFC3339 r Z hne hz6, hns]
        rfl
      rw [e]
      exact nodotI_RFC3339 r Z hne hz6
    · rw [if_neg hns]
      apply onMatch_dot loc mt _ _ _ _ hp
      apply containsDot_mem
      rw [qformatI_RFC3339Nano r Z hne hz6]
      have e9 : f9 ns = 46 :: trimDigs 9 ns := by simp only [f9, if_neg hns]
      simp [e9]
  · by_cases hns : ns = 0
    · rw [if_pos hns, formatI_RFC3339 r _ hne2 hz2, formatI_RFC3339Nano r Z hne hz6, hns]
      simp only [locOff_offset, zoneMinutes_round, zoneSign_round]
      rfl
    · rw [if_neg hns, formatI_RFC3339Nano r _ hne2 hz2, formatI_RFC3339Nano r Z hne hz6]
      simp only [locOff_offset, zoneMinutes_round, zoneSign_round]

end Mft

namespace Mft
open Std

/-! ## Zone abbreviations: reading -/

theorem parseStd_TZ_name (v : GoString) (n : Nat) (nx : Option Std) (st : PState)
    (hu : startsWith (B "UTC") v = false) (hp : parseTimeZone v = (n, true)) :
    parseStd stdTZ nx v st
      = { st := { st with zoneName := v.take n }, value := v.drop n } := by
  simp only [parseStd, hu, hp, Bool.false_eq_true, if_false, Bool.not_true]

theorem parseTimeZone_three (a b c x : Nat) (rest : GoString)
    (ha : isUpper a = true) (hb : isUpper b = true) (hc : isUpper c = true)
    (hx : x = 32 ∨ x = 34) (h2 : [a, b, c] ≠ B "GMT") :
    parseTimeZone (a :: b :: c :: x :: rest) = (3, true) := by
  simp only [isUpper, Bool.and_eq_true, decide_eq_true_eq] at ha hb hc
  have h2' : ¬ (71 = a ∧ 77 = b ∧ 84 = c) := by
    rintro ⟨rfl, rfl, rfl⟩
    exact h2 rfl
  have e1 : ¬ (104 = b) := by omega
  have e2 : ¬ (101 = b) := by omega
  have e3 : ¬ (a = 43 ∨ a = 45) := by omega
  have e4 : (decide (65 ≤ x) && decide (x ≤ 90)) = false := by
    rcases hx with e | e <;> rw [e] <;> rfl
  have e5 : ¬ (rest.length + 1 + 1 + 1 + 1 < 3) := by omega
  simp [parseTimeZone, startsWith, List.isPrefixOf, B, e1, e2, e3, e5, h2', List.takeWhile, ha, hb,
    hc, e4]

theorem parseTimeZone_four (a b c d x : Nat) (rest : GoString)
    (ha : isUpper a = true) (hb : isUpper b = true) (hc : isUpper c = true)
    (hd : isUpper d = true) (hx : x = 32 ∨ x = 34) (h2 : [a, b, c] ≠ B "GMT")
    (hT : d = 84 ∨ [a, b, c, d] = B "WITA") :
    parseTimeZone (a :: b :: c :: d :: x :: rest) = (4, true) := by
  simp only [isUpper, Bool.and_eq_true, decide_eq_true_eq] at ha hb hc hd
  have h2' : ¬ (71 = a ∧ 77 = b ∧ 84 = c) := by
    rintro ⟨rfl, rfl, rfl⟩
    exact h2 rfl
  have hT' : d = 84 ∨ 87 = a ∧ 73 = b ∧ 84 = c ∧ 65 = d := by
    rcases hT with e | e
    · exact Or.inl e
    · right
      simp [B] at e
      omega
  have e1 : ¬ (104 = b) := by omega
  have e2 : ¬ (101 = b) := by omega
  have e3 : ¬ (a = 43 ∨ a = 45) := by omega
  have e4 : (decide (65 ≤ x) && decide (x ≤ 90)) = false := by
    rcases hx with e | e <;> rw [e] <;> rfl
  have e5 : ¬ (rest.length + 1 + 1 + 1 + 1 + 1 < 3) := by omega
  simp [parseTimeZone, startsWith, List.isPrefixOf, B, e1, e2, e3, e5, h2', List.takeWhile, ha, hb,
    hc, hd, e4, hT']

theorem parseTimeZone_five (a b c d e x : Nat) (rest : GoString)
    (ha : isUpper a = true) (hb : isUpper b = true) (hc : isUpper c = true)
    (hd : isUpper d = true) (_he : isUpper e = true) (hx : x = 32 ∨ x = 34)
    (h2 : [a, b, c] ≠ B "GMT") (hT : e = 84) :
    parseTimeZone (a :: b :: c :: d :: e :: x :: rest) = (5, true) := by
  simp only [isUpper, Bool.and_eq_true, decide_eq_true_eq] at ha hb hc hd
  have h2' : ¬ (71 = a ∧ 77 = b ∧ 84 = c) := by
    rintro ⟨rfl, rfl, rfl⟩
    exact h2 rfl
  have e1 : ¬ (104 = b) := by omega
  have e2 : ¬ (101 = b) := by omega
  have e3 : ¬ (a = 43 ∨ a = 45) := by omega
  have e4 : (decide (65 ≤ x) && decide (x ≤ 90)) = false := by
    rcases hx with e | e <;> rw [e] <;> rfl
  have e5 : ¬ (rest.length + 1 + 1 + 1 + 1 + 1 + 1 < 3) := by omega
  simp [parseTimeZone, startsWith, List.isPrefixOf, B, e1, e2, e3, e5, h2', List.takeWhile, ha, hb,
    hc, hd, e4, hT]

theorem parseTimeZone_ChST (x : Nat) (rest : GoString) :
    parseTimeZone (B "ChST" ++ x :: rest) = (4, true) := by
  have e5 : ¬ (rest.length + 1 + 1 + 1 + 1 + 1 < 3) := by omega
  simp [parseTimeZone, startsWith, List.isPrefixOf, B, e5]

theorem parseTimeZone_MeST (x : Nat) (rest : GoString) :
    parseTimeZone (B "MeST" ++ x :: rest) = (4, true) := by
  have e5 : ¬ (rest.length + 1 + 1 + 1 + 1 + 1 < 3) := by omega
  simp [parseTimeZone, startsWith, List.isPrefixOf, B, e5]

theorem parseTimeZone_GMT (x : Nat) (rest : GoString) (hx : x = 32 ∨ x = 34) :
    parseTimeZone (B "GMT" ++ x :: rest) = (3, true) := by
  have e5 : ¬ (rest.length + 1 + 1 + 1 + 1 < 3) := by omega
  have e6 : ¬ x = 45 := by omega
  have e7 : ¬ x = 43 := by omega
  simp [parseTimeZone, startsWith, List.isPrefixOf, B, e5, parseGMT, parseSignedOffset, e6, e7]

theorem startsWith_UTC_three (a b c : Nat) (rest : GoString) (h : [a, b, c] ≠ B "UTC") :
    startsWith (B "UTC") (a :: b :: c :: rest) = false := by
  have h' : 85 = a → 84 = b → ¬ 67 = c := by
    rintro rfl rfl rfl
    exact h rfl
  simpa [startsWith, List.isPrefixOf, B] using h'

/-- A zone abbreviation followed by a space or a double quote is read as it is. -/
theorem tz_reads (N : GoString) (h : zoneAbbr N = true) (x : Nat) (rest : GoString)
    (nx : Option Std) (st : PState) (hx : x = 32 ∨ x = 34) :
    parseStd stdTZ nx (N ++ x :: rest) st
      = { st := { st with zoneName := N }, value := x :: rest } := by
  rcases N with _ | ⟨a, _ | ⟨b, _ | ⟨c, _ | ⟨d, _ | ⟨e, _ | ⟨f, tl⟩⟩⟩⟩⟩⟩
  · exact absurd h (by decide)
  · simp [zoneAbbr, B] at h
  · simp [zoneAbbr, B] at h
  · by_cases hg : [a, b, c] = B "GMT"
    · rw [hg, parseStd_TZ_name _ 3 nx st (by simp [startsWith, List.isPrefixOf, B])
        (parseTimeZone_GMT x rest hx)]
      rfl
    · have hg' : ¬ (a = 71 ∧ b = 77 ∧ c = 84) := by
        rintro ⟨rfl, rfl, rfl⟩
        exact hg rfl
      simp [zoneAbbr, B, startsWith, List.isPrefixOf, hg'] at h
      have hu : [a, b, c] ≠ B "UTC" := by
        intro e
        simp [B] at e
        have := h.1.2
        simp [e.1, e.2.1, e.2.2] at this
      rw [List.cons_append, List.cons_append, List.cons_append, List.nil_append,
        parseStd_TZ_name _ 3 nx st (startsWith_UTC_three a b c _ hu)
        (parseTimeZone_three a b c x rest h.1.1.1 h.1.1.2.1 h.1.1.2.2 hx hg)]
      rfl
  · simp [zoneAbbr, B, startsWith, List.isPrefixOf] at h
    rcases h with (⟨rfl, rfl, rfl, rfl⟩ | ⟨rfl, rfl, rfl, rfl⟩) | ⟨⟨⟨⟨ha, hb, hc, hd⟩, hu⟩, hg⟩, hT⟩
    · exact (parseStd_TZ_name (B "ChST" ++ x :: rest) 4 nx st
        (by simp [startsWith, List.isPrefixOf, B]) (parseTimeZone_ChST x rest)).trans rfl
    · exact (parseStd_TZ_name (B "MeST" ++ x :: rest) 4 nx st
        (by simp [startsWith, List.isPrefixOf, B]) (parseTimeZone_MeST x rest)).trans rfl
    · have hu' : [a, b, c] ≠ B "UTC" := by
        intro e
        simp [B] at e
        omega
      have hg' : [a, b, c] ≠ B "GMT" := by
        intro e
        simp [B] at e
        omega
      have hT' : d = 84 ∨ [a, b, c, d] = B "WITA" := by
        rcases hT with e | ⟨rfl, rfl, rfl, rfl⟩
        · exact Or.inl e
        · exact Or.inr rfl
      rw [List.cons_append, List.cons_append, List.cons_append, List.cons_append, List.nil_append,
        parseStd_TZ_name _ 4 nx st (startsWith_UTC_three a b c _ hu')
        (parseTimeZone_four a b c d x rest ha hb hc hd hx hg' hT')]
      rfl
  · simp [zoneAbbr, B, startsWith, List.isPrefixOf] at h
    obtain ⟨⟨⟨⟨ha, hb, hc, hd, he⟩, hu⟩, hg⟩, hT⟩ := h
    have hu' : [a, b, c] ≠ B "UTC" := by
      intro e
      simp [B] at e
      omega
    have hg' : [a, b, c] ≠ B "GMT" := by
      intro e
      simp [B] at e
      omega
    rw [List.cons_append, List.cons_append, List.cons_append, List.cons_append, List.cons_append,
      List.nil_append, parseStd_TZ_name _ 5 nx st (startsWith_UTC_three a b c _ hu')
      (parseTimeZone_five a b c d e x rest ha hb hc hd he hx hg' hT)]
    rfl
  · simp [zoneAbbr, B] at h

theorem safe_upper (a : Nat) (h : isUpper a = true) : htmlSafe a = true := by
  simp only [isUpper, Bool.and_eq_true, decide_eq_true_eq] at h
  exact htmlSafe_of a (by omega)

/-- What is used of a zone abbreviation: it is not empty, needs no escape, starts
with an upper-case letter, and is no `GMT` with an hour offset. -/
theorem zoneAbbr_shape (N : GoString) (h : zoneAbbr N = true) :
    N ≠ [] ∧ Safe N ∧ HeadIn N 65 90 ∧ ¬ (3 < N.length ∧ N.take 3 = B "GMT") := by
  rcases N with _ | ⟨a, _ | ⟨b, _ | ⟨c, _ | ⟨d, _ | ⟨e, _ | ⟨f, tl⟩⟩⟩⟩⟩⟩
  · exact absurd h (by decide)
  · simp [zoneAbbr, B] at h
  · simp [zoneAbbr, B] at h
  · refine ⟨List.cons_ne_nil _ _, ?_, ?_, by simp⟩
    · by_cases hg : [a, b, c] = B "GMT"
      · rw [hg]
        exact (show ∀ b ∈ B "GMT", htmlSafe b = true by decide)
      · have hg' : ¬ (a = 71 ∧ b = 77 ∧ c = 84) := by
          rintro ⟨rfl, rfl, rfl⟩
          exact hg rfl
        simp [zoneAbbr, B, startsWith, List.isPrefixOf, hg'] at h
        exact safe_cons (safe_upper a h.1.1.1) (safe_cons (safe_upper b h.1.1.2.1)
          (safe_cons (safe_upper c h.1.1.2.2) safe_nil))
    · by_cases hg : [a, b, c] = B "GMT"
      · simp [B] at hg
        exact ⟨a, _, rfl, by omega, by omega⟩
      · have hg' : ¬ (a = 71 ∧ b = 77 ∧ c = 84) := by
          rintro ⟨rfl, rfl, rfl⟩
          exact hg rfl
        simp [zoneAbbr, B, startsWith, List.isPrefixOf, hg', isUpper] at h
        exact ⟨a, _, rfl, h.1.1.1.1, h.1.1.1.2⟩
  · simp [zoneAbbr, B, startsWith, List.isPrefixOf] at h
    rcases h with (⟨rfl, rfl, rfl, rfl⟩ | ⟨rfl, rfl, rfl, rfl⟩) | ⟨⟨⟨⟨ha, hb, hc, hd⟩, hu⟩, hg⟩, hT⟩
    · exact ⟨by decide, (show ∀ b ∈ [67, 104, 83, 84], htmlSafe b = true by decide),
        ⟨67, _, rfl, by decide, by decide⟩, by decide⟩
    · exact ⟨by decide, (show ∀ b ∈ [77, 101, 83, 84], htmlSafe b = true by decide),
        ⟨77, _, rfl, by decide, by decide⟩, by decide⟩
    · refine ⟨List.cons_ne_nil _ _, ?_, ?_, ?_⟩
      · exact safe_cons (safe_upper a ha) (safe_cons (safe_upper b hb)
          (safe_cons (safe_upper c hc) (safe_cons (safe_upper d hd) safe_nil)))
      · simp only [isUpper, Bool.and_eq_true, decide_eq_true_eq] at ha
        exact ⟨a, _, rfl, ha.1, ha.2⟩
      · simp [B]
        omega
  · simp [zoneAbbr, B, startsWith, List.isPrefixOf] at h
    obtain ⟨⟨⟨⟨ha, hb, hc, hd, he⟩, hu⟩, hg⟩, hT⟩ := h
    refine ⟨List.cons_ne_nil _ _, ?_, ?_, ?_⟩
    · exact safe_cons (safe_upper a ha) (safe_cons (safe_upper b hb)
        (safe_cons (safe_upper c hc) (safe_cons (safe_upper d hd)
        (safe_cons (safe_upper e he) safe_nil))))
    · simp only [isUpper, Bool.and_eq_true, decide_eq_true_eq] at ha
      exact ⟨a, _, rfl, ha.1, ha.2⟩
    · simp [B]
      omega
  · simp [zoneAbbr, B] at h

end Mft

namespace Mft
open Std

/-! ## The layouts with a zone abbreviation, for any abbreviation -/

theorem fmt_TZ_name {y m d h mi s ns : Nat} (_r : Rng y m d h mi s ns) (Z : Location)
    (N : GoString) (hn : Z.name = N) (hne : N ≠ []) :
    formatStd ⟨(y : Int), m, d, h, mi, s, ns, Z⟩ stdTZ = N := by
  simp only [formatStd, hn, ne_eq, hne, not_false_eq_true, if_true]

/-! ### UnixDate -/

theorem formatA_UnixDate {y m d h mi s ns : Nat} (r : Rng y m d h mi s ns) (Z : Location)
    (N : GoString) (hn : Z.name = N) (hne : N ≠ []) :
    (⟨(y : Int), m, d, h, mi, s, ns, Z⟩ : Time).Format UnixDate =
      (weekdayString (wk y m d)).take 3 ++ 32 :: ((monthString m).take 3 ++ 32 ::
          (ud d ++ 32 :: (d2 h ++ 58 :: (d2 mi ++ 58 :: (d2 s ++ 32 :: (N ++ 32 :: d4 y)))))) := by
  have h1 : UnixDate ≠ RFC3339 := by decide
  have h2 : UnixDate ≠ RFC3339Nano := by decide
  have h3 : UnixDate ≠ [] := by decide
  unfold Time.Format appendFormat
  rw [if_neg h1, if_neg h2, if_neg h3, uchunks_UnixDate]
  simp only [formatChunks, fmt_weekDay r Z, fmt_month r Z, fmt_underDay r Z, fmt_hour r Z,
      fmt_zeroMinute r Z, fmt_zeroSecond r Z, fmt_TZ_name r Z N hn hne, fmt_longYear r Z,
    List.nil_append, List.append_nil, List.append_assoc, List.singleton_append, List.cons_append]

theorem qformatA_UnixDate {y m d h mi s ns : Nat} (r : Rng y m d h mi s ns) (Z : Location)
    (N : GoString) (hn : Z.name = N) (hne : N ≠ []) :
    quoted ((⟨(y : Int), m, d, h, mi, s, ns, Z⟩ : Time).Format UnixDate) =
      34 :: ((weekdayString (wk y m d)).take 3 ++ 32 :: ((monthString m).take 3 ++ 32 ::
          (ud d ++ 32 :: (d2 h ++ 58 :: (d2 mi ++ 58 :: (d2 s ++ 32 :: (N ++ 32 :: (d4 y ++ [34])))))))) := by
  rw [formatA_UnixDate r Z N hn hne]
  simp only [quoted, List.nil_append, List.append_nil, List.append_assoc, List.singleton_append,
    List.cons_append]

theorem parseA_UnixDate {y m d h mi s ns : Nat} (o : Ok y m d h mi s ns) (loc : Location)
    (N : GoString)
    (hz : ∀ (x : Nat) (rest : GoString) (nx : Option Std) (st : PState), (x = 32 ∨ x = 34) →
      parseStd stdTZ nx (N ++ x :: rest) st
        = { st := { st with zoneName := N }, value := x :: rest })
    (hh : ∀ rest : GoString, (N ++ rest).headD 0 ≠ 32) (hne : N ≠ [])
    (hg : ¬ (3 < N.length ∧ N.take 3 = B "GMT")) :
    Parse loc (quoted UnixDate)
      (34 :: ((weekdayString (wk y m d)).take 3 ++ 32 :: ((monthString m).take 3 ++ 32 ::
          (ud d ++ 32 :: (d2 h ++ 58 :: (d2 mi ++ 58 :: (d2 s ++ 32 :: (N ++ 32 :: (d4 y ++ [34])))))))))
      = .ok ⟨(y : Int), m, d, h, mi, s, 0, locName loc N⟩ := by
  have r := o.rng
  unfold Parse
  rw [qchunks_UnixDate]
  refine Eq.trans (pstep (skip_byte 34 _ (by decide))
    (parseStd_weekDay (wk y m d) (wk_lt y m d) _ _ _)) ?_
  dsimp only
  refine Eq.trans (pstep (skip_sp _ (mon3_head m r.hm1 r.hm2 _))
    (parseStd_month m r.hm1 r.hm2 _ _ _)) ?_
  dsimp only
  refine Eq.trans (pstep (skip_sp_ud d (by have := r.hd3; omega) _)
    (parseStd_underDay d (by have := r.hd3; omega) 32 _ rfl _ _)) ?_
  dsimp only
  refine Eq.trans (pstep (skip_sp _ (d2_head _ _))
    (parseStd_hour h r.hh _ _ _)) ?_
  dsimp only
  refine Eq.trans (pstep (skip_byte 58 _ (by decide))
    (parseStd_zeroMinute mi r.hmi _ _ _)) ?_
  dsimp only
  refine Eq.trans (pstep (skip_byte 58 _ (by decide))
    (parseStd_zeroSecond_head s r.hs 32 _ rfl _ _)) ?_
  dsimp only
  refine Eq.trans (pstep (skip_sp _ (hh _))
    (hz _ _ _ _ (by decide))) ?_
  dsimp only
  refine Eq.trans (pstep (skip_sp _ (d4_head _ _))
    (parseStd_longYear y r.hy _ _ _)) ?_
  dsimp only
  refine Eq.trans (plast (skip_byte 34 [] (by decide))) ?_
  refine Eq.trans (parseFinish_ok _ _ _ _ _ rfl ?_ ?_) ?_
  · exact r.hd1
  · exact o.hd2
  by_cases hl : loc.name = N <;>
    simp [finishTime, Date, locName, FixedZone, hl, hne, hg]

theorem safeA_UnixDate {y m d h mi s ns : Nat} (r : Rng y m d h mi s ns) (Z : Location)
    (N : GoString) (hn : Z.name = N) (hne : N ≠ []) (hs : Safe N) :
    Safe ((⟨(y : Int), m, d, h, mi, s, ns, Z⟩ : Time).Format UnixDate) := by
  rw [formatA_UnixDate r Z N hn hne]
  have h1 := r.hm2
  have h2 := r.hd3
  have h3 := r.hh
  have h4 := r.hmi
  have h5 := r.hs
  have h6 := r.hy
  repeat' (first
    | exact safe_nil | exact hs | exact safe_d2 _ (by omega) | exact safe_d4 _ (by omega)
    | exact safe_ud _ (by omega)
    | exact safe_mon3 _ r.hm1 r.hm2 | exact safe_wd3 _ (wk_lt _ _ _) | exact safe_wdL _ (wk_lt _ _ _)
    | with_reducible apply safe_append | with_reducible apply safe_cons | decide)

/-! ### RFC822 -/

theorem formatA_RFC822 {y m d h mi s ns : Nat} (r : Rng y m d h mi s ns) (Z : Location)
    (N : GoString) (hn : Z.name = N) (hne : N ≠ []) :
    (⟨(y : Int), m, d, h, mi, s, ns, Z⟩ : Time).Format RFC822 =
      d2 d ++ 32 :: ((monthString m).take 3 ++ 32 :: (d2 (y % 100) ++ 32 :: (d2 h ++ 58 ::
          (d2 mi ++ 32 :: (N))))) := by
  have h1 : RFC822 ≠ RFC3339 := by decide
  have h2 : RFC822 ≠ RFC3339Nano := by decide
  have h3 : RFC822 ≠ [] := by decide
  unfold Time.Format appendFormat
  rw [if_neg h1, if_neg h2, if_neg h3, uchunks_RFC822]
  simp only [formatChunks, fmt_zeroDay r Z, fmt_month r Z, fmt_year r Z, fmt_hour r Z,
      fmt_zeroMinute r Z, fmt_TZ_name r Z N hn hne,
    List.nil_append, List.append_nil, List.append_assoc, List.singleton_append, List.cons_append]

theorem qformatA_RFC822 {y m d h mi s ns : Nat} (r : Rng y m d h mi s ns) (Z : Location)
    (N : GoString) (hn : Z.name = N) (hne : N ≠ []) :
    quoted ((⟨(y : Int), m, d, h, mi, s, ns, Z⟩ : Time).Format RFC822) =
      34 :: (d2 d ++ 32 :: ((monthString m).take 3 ++ 32 :: (d2 (y % 100) ++ 32 :: (d2 h ++ 58 ::
          (d2 mi ++ 32 :: (N ++ [34])))))) := by
  rw [formatA_RFC822 r Z N hn hne]
  simp only [quoted, List.nil_append, List.append_nil, List.append_assoc, List.singleton_append,
    List.cons_append]

theorem parseA_RFC822 {y m d h mi s ns : Nat} (o : Ok y m d h mi s ns) (loc : Location)
    (N : GoString)
    (hz : ∀ (x : Nat) (rest : GoString) (nx : Option Std) (st : PState), (x = 32 ∨ x = 34) →
      parseStd stdTZ nx (N ++ x :: rest) st
        = { st := { st with zoneName := N }, value := x :: rest })
    (hh : ∀ rest : GoString, (N ++ rest).headD 0 ≠ 32) (hne : N ≠ [])
    (hg : ¬ (3 < N.length ∧ N.take 3 = B "GMT")) :
    Parse loc (quoted RFC822)
      (34 :: (d2 d ++ 32 :: ((monthString m).take 3 ++ 32 :: (d2 (y % 100) ++ 32 :: (d2 h ++ 58 ::
          (d2 mi ++ 32 :: (N ++ [34])))))))
      = .ok ⟨((y2k (y % 100) : Nat) : Int), m, d, h, mi, 0, 0, locName loc N⟩ := by
  have r := o.rng
  unfold Parse
  rw [qchunks_RFC822]
  refine Eq.trans (pstep (skip_byte 34 _ (by decide))
    (parseStd_zeroDay d (by have := r.hd3; omega) _ _ _)) ?_
  dsimp only
  refine Eq.trans (pstep (skip_sp _ (mon3_head m r.hm1 r.hm2 _))
    (parseStd_month m r.hm1 r.hm2 _ _ _)) ?_
  dsimp only
  refine Eq.trans (pstep (skip_sp _ (d2_head _ _))
    (parseStd_year2 (y % 100) (Nat.mod_lt _ (by decide)) _ _ _)) ?_
  dsimp only
  refine Eq.trans (pstep (skip_sp _ (d2_head _ _))
    (parseStd_hour h r.hh _ _ _)) ?_
  dsimp only
  refine Eq.trans (pstep (skip_byte 58 _ (by decide))
    (parseStd_zeroMinute mi r.hmi _ _ _)) ?_
  dsimp only
  refine Eq.trans (pstep (skip_sp _ (hh _))
    (hz _ _ _ _ (by decide))) ?_
  dsimp only
  refine Eq.trans (plast (skip_byte 34 [] (by decide))) ?_
  refine Eq.trans (parseFinish_ok _ _ _ _ _ rfl ?_ ?_) ?_
  · exact r.hd1
  · exact (le_trans o.hd2 (daysIn_y2k m y))
  by_cases hl : loc.name = N <;>
    simp [finishTime, Date, locName, FixedZone, hl, hne, hg]

theorem safeA_RFC822 {y m d h mi s ns : Nat} (r : Rng y m d h mi s ns) (Z : Location)
    (N : GoString) (hn : Z.name = N) (hne : N ≠ []) (hs : Safe N) :
    Safe ((⟨(y : Int), m, d, h, mi, s, ns, Z⟩ : Time).Format RFC822) := by
  rw [formatA_RFC822 r Z N hn hne]
  have h1 := r.hm2
  have h2 := r.hd3
  have h3 := r.hh
  have h4 := r.hmi
  have h5 := r.hs
  have h6 := r.hy
  repeat' (first
    | exact safe_nil | exact hs | exact safe_d2 _ (by omega) | exact safe_d4 _ (by omega)
    | exact safe_ud _ (by omega)
    | exact safe_mon3 _ r.hm1 r.hm2 | exact safe_wd3 _ (wk_lt _ _ _) | exact safe_wdL _ (wk_lt _ _ _)
    | with_reducible apply safe_append | with_reducible apply safe_cons | decide)

/-! ### RFC850 -/

theorem formatA_RFC850 {y m d h mi s ns : Nat} (r : Rng y m d h mi s ns) (Z : Location)
    (N : GoString) (hn : Z.name = N) (hne : N ≠ []) :
    (⟨(y : Int), m, d, h, mi, s, ns, Z⟩ : Time).Format RFC850 =
      weekdayString (wk y m d) ++ 44 :: 32 :: (d2 d ++ 45 :: ((monthString m).take 3 ++ 45 ::
          (d2 (y % 100) ++ 32 :: (d2 h ++ 58 :: (d2 mi ++ 58 :: (d2 s ++ 32 :: (N))))))) := by
  have h1 : RFC850 ≠ RFC3339 := by decide
  have h2 : RFC850 ≠ RFC3339Nano := by decide
  have h3 : RFC850 ≠ [] := by decide
  unfold Time.Format appendFormat
  rw [if_neg h1, if_neg h2, if_neg h3, uchunks_RFC850]
  simp only [formatChunks, fmt_longWeekDay r Z, fmt_zeroDay r Z, fmt_month r Z, fmt_year r
      Z, fmt_hour r Z, fmt_zeroMinute r Z, fmt_zeroSecond r Z, fmt_TZ_name r Z N hn hne,
    List.nil_append, List.append_nil, List.append_assoc, List.singleton_append, List.cons_append]

theorem qformatA_RFC850 {y m d h mi s ns : Nat} (r : Rng y m d h mi s ns) (Z : Location)
    (N : GoString) (hn : Z.name = N) (hne : N ≠ []) :
    quoted ((⟨(y : Int), m, d, h, mi, s, ns, Z⟩ : Time).Format RFC850) =
      34 :: (weekdayString (wk y m d) ++ 44 :: 32 :: (d2 d ++ 45 :: ((monthString m).take 3 ++ 45 ::
          (d2 (y % 100) ++ 32 :: (d2 h ++ 58 :: (d2 mi ++ 58 :: (d2 s ++ 32 :: (N ++ [34])))))))) := by
  rw [formatA_RFC850 r Z N hn hne]
  simp only [quoted, List.nil_append, List.append_nil, List.append_assoc, List.singleton_append,
    List.cons_append]

theorem parseA_RFC850 {y m d h mi s ns : Nat} (o : Ok y m d h mi s ns) (loc : Location)
    (N : GoString)
    (hz : ∀ (x : Nat) (rest : GoString) (nx : Option Std) (st : PState), (x = 32 ∨ x = 34) →
      parseStd stdTZ nx (N ++ x :: rest) st
        = { st := { st with zoneName := N }, value := x :: rest })
    (hh : ∀ rest : GoString, (N ++ rest).headD 0 ≠ 32) (hne : N ≠ [])
    (hg : ¬ (3 < N.length ∧ N.take 3 = B "GMT")) :
    Parse loc (quoted RFC850)
      (34 :: (weekdayString (wk y m d) ++ 44 :: 32 :: (d2 d ++ 45 :: ((monthString m).take 3 ++ 45 ::
          (d2 (y % 100) ++ 32 :: (d2 h ++ 58 :: (d2 mi ++ 58 :: (d2 s ++ 32 :: (N ++ [34])))))))))
      = .ok ⟨((y2k (y % 100) : Nat) : Int), m, d, h, mi, s, 0, locName loc N⟩ := by
  have r := o.rng
  unfold Parse
  rw [qchunks_RFC850]
  refine Eq.trans (pstep (skip_byte 34 _ (by decide))
    (parseStd_longWeekDay (wk y m d) (wk_lt y m d) _ _ _)) ?_
  dsimp only
  refine Eq.trans (pstep (skip_comma_sp _ (d2_head _ _))
    (parseStd_zeroDay d (by have := r.hd3; omega) _ _ _)) ?_
  dsimp only
  refine Eq.trans (pstep (skip_byte 45 _ (by decide))
    (parseStd_month m r.hm1 r.hm2 _ _ _)) ?_
  dsimp only
  refine Eq.trans (pstep (skip_byte 45 _ (by decide))
    (parseStd_year2 (y % 100) (Nat.mod_lt _ (by decide)) _ _ _)) ?_
  dsimp only
  refine Eq.trans (pstep (skip_sp _ (d2_head _ _))
    (parseStd_hour h r.hh _ _ _)) ?_
  dsimp only
  refine Eq.trans (pstep (skip_byte 58 _ (by decide))
    (parseStd_zeroMinute mi r.hmi _ _ _)) ?_
  dsimp only
  refine Eq.trans (pstep (skip_byte 58 _ (by decide))
    (parseStd_zeroSecond_head s r.hs 32 _ rfl _ _)) ?_
  dsimp only
  refine Eq.trans (pstep (skip_sp _ (hh _))
    (hz _ _ _ _ (by decide))) ?_
  dsimp only
  refine Eq.trans (plast (skip_byte 34 [] (by decide))) ?_
  refine Eq.trans (parseFinish_ok _ _ _ _ _ rfl ?_ ?_) ?_
  · exact r.hd1
  · exact (le_trans o.hd2 (daysIn_y2k m y))
  by_cases hl : loc.name = N <;>
    simp [finishTime, Date, locName, FixedZone, hl, hne, hg]

theorem safeA_RFC850 {y m d h mi s ns : Nat} (r : Rng y m d h mi s ns) (Z : Location)
    (N : GoString) (hn : Z.name = N) (hne : N ≠ []) (hs : Safe N) :
    Safe ((⟨(y : Int), m, d, h, mi, s, ns, Z⟩ : Time).Format RFC850) := by
  rw [formatA_RFC850 r Z N hn hne]
  have h1 := r.hm2
  have h2 := r.hd3
  have h3 := r.hh
  have h4 := r.hmi
  have h5 := r.hs
  have h6 := r.hy
  repeat' (first
    | exact safe_nil | exact hs | exact safe_d2 _ (by omega) | exact safe_d4 _ (by omega)
    | exact safe_ud _ (by omega)
    | exact safe_mon3 _ r.hm1 r.hm2 | exact safe_wd3 _ (wk_lt _ _ _) | exact safe_wdL _ (wk_lt _ _ _)
    | with_reducible apply safe_append | with_reducible apply safe_cons | decide)

/-! ### RFC1123 -/

theorem formatA_RFC1123 {y m d h mi s ns : Nat} (r : Rng y m d h mi s ns) (Z : Location)
    (N : GoString) (hn : Z.name = N) (hne : N ≠ []) :
    (⟨(y : Int), m, d, h, mi, s, ns, Z⟩ : Time).Format RFC1123 =
      (weekdayString (wk y m d)).take 3 ++ 44 :: 32 :: (d2 d ++ 32 ::
          ((monthString m).take 3 ++ 32 :: (d4 y ++ 32 :: (d2 h ++ 58 :: (d2 mi ++ 58 ::
          (d2 s ++ 32 :: (N))))))) := by
  have h1 : RFC1123 ≠ RFC3339 := by decide
  have h2 : RFC1123 ≠ RFC3339Nano := by decide
  have h3 : RFC1123 ≠ [] := by decide
  unfold Time.Format appendFormat
  rw [if_neg h1, if_neg h2, if_neg h3, uchunks_RFC1123]
  simp only [formatChunks, fmt_weekDay r Z, fmt_zeroDay r Z, fmt_month r Z, fmt_longYear r
      Z, fmt_hour r Z, fmt_zeroMinute r Z, fmt_zeroSecond r Z, fmt_TZ_name r Z N hn hne,
    List.nil_append, List.append_nil, List.append_assoc, List.singleton_append, List.cons_append]

theorem qformatA_RFC1123 {y m d h mi s ns : Nat} (r : Rng y m d h mi s ns) (Z : Location)
    (N : GoString) (hn : Z.name = N) (hne : N ≠ []) :
    quoted ((⟨(y : Int), m, d, h, mi, s, ns, Z⟩ : Time).Format RFC1123) =
      34 :: ((weekdayString (wk y m d)).take 3 ++ 44 :: 32 :: (d2 d ++ 32 ::
          ((monthString m).take 3 ++ 32 :: (d4 y ++ 32 :: (d2 h ++ 58 :: (d2 mi ++ 58 ::
          (d2 s ++ 32 :: (N ++ [34])))))))) := by
  rw [formatA_RFC1123 r Z N hn hne]
  simp only [quoted, List.nil_append, List.append_nil, List.append_assoc, List.singleton_append,
    List.cons_append]

theorem parseA_RFC1123 {y m d h mi s ns : Nat} (o : Ok y m d h mi s ns) (loc : Location)
    (N : GoString)
    (hz : ∀ (x : Nat) (rest : GoString) (nx : Option Std) (st : PState), (x = 32 ∨ x = 34) →
      parseStd stdTZ nx (N ++ x :: rest) st
        = { st := { st with zoneName := N }, value := x :: rest })
    (hh : ∀ rest : GoString, (N ++ rest).headD 0 ≠ 32) (hne : N ≠ [])
    (hg : ¬ (3 < N.length ∧ N.take 3 = B "GMT")) :
    Parse loc (quoted RFC1123)
      (34 :: ((weekdayString (wk y m d)).take 3 ++ 44 :: 32 :: (d2 d ++ 32 ::
          ((monthString m).take 3 ++ 32 :: (d4 y ++ 32 :: (d2 h ++ 58 :: (d2 mi ++ 58 ::
          (d2 s ++ 32 :: (N ++ [34])))))))))
      = .ok ⟨(y : Int), m, d, h, mi, s, 0, locName loc N⟩ := by
  have r := o.rng
  unfold Parse
  rw [qchunks_RFC1123]
  refine Eq.trans (pstep (skip_byte 34 _ (by decide))
    (parseStd_weekDay (wk y m d) (wk_lt y m d) _ _ _)) ?_
  dsimp only
  refine Eq.trans (pstep (skip_comma_sp _ (d2_head _ _))
    (parseStd_zeroDay d (by have := r.hd3; omega) _ _ _)) ?_
  dsimp only
  refine Eq.trans (pstep (skip_sp _ (mon3_head m r.hm1 r.hm2 _))
    (parseStd_month m r.hm1 r.hm2 _ _ _)) ?_
  dsimp only
  refine Eq.trans (pstep (skip_sp _ (d4_head _ _))
    (parseStd_longYear y r.hy _ _ _)) ?_
  dsimp only
  refine Eq.trans (pstep (skip_sp _ (d2_head _ _))
    (parseStd_hour h r.hh _ _ _)) ?_
  dsimp only
  refine Eq.trans (pstep (skip_byte 58 _ (by decide))
    (parseStd_zeroMinute mi r.hmi _ _ _)) ?_
  dsimp only
  refine Eq.trans (pstep (skip_byte 58 _ (by decide))
    (parseStd_zeroSecond_head s r.hs 32 _ rfl _ _)) ?_
  dsimp only
  refine Eq.trans (pstep (skip_sp _ (hh _))
    (hz _ _ _ _ (by decide))) ?_
  dsimp only
  refine Eq.trans (plast (skip_byte 34 [] (by decide))) ?_
  refine Eq.trans (parseFinish_ok _ _ _ _ _ rfl ?_ ?_) ?_
  · exact r.hd1
  · exact o.hd2
  by_cases hl : loc.name = N <;>
    simp [finishTime, Date, locName, FixedZone, hl, hne, hg]

theorem safeA_RFC1123 {y m d h mi s ns : Nat} (r : Rng y m d h mi s ns) (Z : Location)
    (N : GoString) (hn : Z.name = N) (hne : N ≠ []) (hs : Safe N) :
    Safe ((⟨(y : Int), m, d, h, mi, s, ns, Z⟩ : Time).Format RFC1123) := by
  rw [formatA_RFC1123 r Z N hn hne]
  have h1 := r.hm2
  have h2 := r.hd3
  have h3 := r.hh
  have h4 := r.hmi
  have h5 := r.hs
  have h6 := r.hy
  repeat' (first
    | exact safe_nil | exact hs | exact safe_d2 _ (by omega) | exact safe_d4 _ (by omega)
    | exact safe_ud _ (by omega)
    | exact safe_mon3 _ r.hm1 r.hm2 | exact safe_wd3 _ (wk_lt _ _ _) | exact safe_wdL _ (wk_lt _ _ _)
    | with_reducible apply safe_append | with_reducible apply safe_cons | decide)

end Mft

namespace Mft
open Std

/-! ## Round trip of the layouts with a zone abbreviation -/

theorem headIn_append {v : GoString} {lo hi : Nat} (h : HeadIn v lo hi) (rest : GoString) :
    HeadIn (v ++ rest) lo hi := by
  obtain ⟨c, r, rfl, h1, h2⟩ := h
  exact ⟨c, r ++ rest, rfl, h1, h2⟩

theorem locName_name (loc : Location) (N : GoString) : (locName loc N).name = N := by
  unfold locName
  split_ifs with h
  · exact h
  · rfl

theorem pairs_second :
    ∀ p ∈ ([(RFC3339, RFC3339Nano), (RubyDate, UnixDate), (RFC822Z, RFC822),
        (RFC1123Z, RFC1123), (StampNano, Stamp), (StampMicro, Stamp), (StampMilli, Stamp)] :
          List (GoString × GoString)),
      (p.2 = UnixDate → p.1 = RubyDate) ∧ (p.2 = RFC822 → p.1 = RFC822Z) ∧
      (p.2 = RFC1123 → p.1 = RFC1123Z) ∧ (p.2 = RFC3339Nano → p.1 = RFC3339) := by
  decide

theorem rejA_UnixDate {y m d h mi s ns : Nat} (r : Rng y m d h mi s ns) (loc : Location)
    (N : GoString) (hN : ∀ rest : GoString, HeadIn (N ++ rest) 65 90) :
    parses loc RubyDate
      (34 :: ((weekdayString (wk y m d)).take 3 ++ 32 :: ((monthString m).take 3 ++ 32 ::
          (ud d ++ 32 :: (d2 h ++ 58 :: (d2 mi ++ 58 :: (d2 s ++ 32 :: (N ++ 32 :: (d4 y ++ [34]))))))))) = false := by
  apply parses_false_of_isErr
  rw [qchunks_RubyDate]
  refine (?_ : ∀ st, IsErr (parseChunks loc _ _ _ _ st)) _
  refine rj_eat (skip_byte 34 _ (by decide))
    (eats_of_eq (fun st => ⟨_, parseStd_weekDay (wk y m d) (wk_lt y m d) _ _ st⟩)) ?_
  refine rj_eat (skip_sp _ (headD_of_headIn (headIn_mon3 m r.hm1 r.hm2 _) (by decide)))
    (eats_of_eq (fun st => ⟨_, parseStd_month m r.hm1 r.hm2 _ _ st⟩)) ?_
  refine rj_eat (skip_sp_ud d (by have := r.hd3; omega) _)
    (eats_ZD_nd (d) (by have := r.hd3; omega) 32 _ rfl _) ?_
  refine rj_eat (skip_sp _ (headD_of_headIn (headIn_d2 (h) (by have := r.hh; omega) _) (by decide)))
    (eats_H_d2 (h) (by have := r.hh; omega) _ _) ?_
  refine rj_eat (skip_byte 58 _ (by decide))
    (eats_MI_d2 (mi) (by have := r.hmi; omega) _ _) ?_
  refine rj_eat (skip_byte 58 _ (by decide))
    (eats_S_head (s) (by have := r.hs; omega) 32 _ rfl _) ?_
  exact rj_fail (skip_sp _ (headD_of_headIn (hN _) (by decide)))
    (fails_NTZ_head _ _ _ _ (hN _) (by decide))

/-- The text of a valid time with a four-digit year under `UnixDate`, in a zone
with an alphabetic abbreviation: it needs no escape, `UnmarshalJSON` decodes it
with the tag `UnixDate` to the fields the layout writes, in the zone `parse`
chooses for the abbreviation, and that value has the same text. -/
theorem rtA_UnixDate {y m d h mi s ns : Nat} (o : Ok y m d h mi s ns) (loc : Location)
    (mt : MultiFormatTime) (Z : Location) (hN : zoneAbbr Z.name = true) :
    Safe ((⟨(y : Int), m, d, h, mi, s, ns, Z⟩ : Time).Format UnixDate) ∧
    UnmarshalJSON loc mt (quoted ((⟨(y : Int), m, d, h, mi, s, ns, Z⟩ : Time).Format UnixDate))
      = (⟨⟨(y : Int), m, d, h, mi, s, 0, locName loc Z.name⟩, UnixDate⟩, none) ∧
    ((⟨(y : Int), m, d, h, mi, s, 0, locName loc Z.name⟩ : Time).Format UnixDate
      = (⟨(y : Int), m, d, h, mi, s, ns, Z⟩ : Time).Format UnixDate) := by
  have r := o.rng
  obtain ⟨hne, hs, hh, hg⟩ := zoneAbbr_shape _ hN
  have hh2 : ∀ rest : GoString, HeadIn (Z.name ++ rest) 65 90 := fun rest => headIn_append hh rest
  refine ⟨safeA_UnixDate r Z _ rfl hne hs, ?_, ?_⟩
  · have hp := parseA_UnixDate o loc Z.name (fun x rest nx st hx => tz_reads _ hN x rest nx st hx)
      (fun rest => headD_of_headIn (hh2 rest) (by decide)) hne hg
    rw [qformatA_UnixDate r Z _ rfl hne]
    rw [scan_first loc mt _ UnixDate _ (by decide) hp ?_]
    · exact onMatch_ne loc mt _ UnixDate _ (by decide)
    · intro A hA
      have e : A = RubyDate := (pairs_second _ hA).1 rfl
      rw [e]
      exact rejA_UnixDate r loc _ hh2
  · have r2 : Rng (y) m d h mi s 0 :=
      ⟨r.hy, r.hm1, r.hm2, r.hd1, r.hd3, r.hh, r.hmi, r.hs, by decide⟩
    rw [formatA_UnixDate r2 _ _ (locName_name loc Z.name) hne, formatA_UnixDate r Z _ rfl hne]

theorem rejA_RFC822 {y m d h mi s ns : Nat} (r : Rng y m d h mi s ns) (loc : Location)
    (N : GoString) (hN : ∀ rest : GoString, HeadIn (N ++ rest) 65 90) :
    parses loc RFC822Z
      (34 :: (d2 d ++ 32 :: ((monthString m).take 3 ++ 32 :: (d2 (y % 100) ++ 32 :: (d2 h ++ 58 ::
          (d2 mi ++ 32 :: (N ++ [34]))))))) = false := by
  apply parses_false_of_isErr
  rw [qchunks_RFC822Z]
  refine (?_ : ∀ st, IsErr (parseChunks loc _ _ _ _ st)) _
  refine rj_eat (skip_byte 34 _ (by decide))
    (eats_ZD_d2 (d) (by have := r.hd3; omega) _ _) ?_
  refine rj_eat (skip_sp _ (headD_of_headIn (headIn_mon3 m r.hm1 r.hm2 _) (by decide)))
    (eats_of_eq (fun st => ⟨_, parseStd_month m r.hm1 r.hm2 _ _ st⟩)) ?_
  refine rj_eat (skip_sp _ (headD_of_headIn (headIn_d2 (y % 100) (by omega) _) (by decide)))
    (eats_Y2_d2 (y % 100) (by omega) _ _) ?_
  refine rj_eat (skip_sp _ (headD_of_headIn (headIn_d2 (h) (by have := r.hh; omega) _) (by decide)))
    (eats_H_d2 (h) (by have := r.hh; omega) _ _) ?_
  refine rj_eat (skip_byte 58 _ (by decide))
    (eats_MI_d2 (mi) (by have := r.hmi; omega) _ _) ?_
  exact rj_fail (skip_sp _ (headD_of_headIn (hN _) (by decide)))
    (fails_NTZ_head _ _ _ _ (hN _) (by decide))

/-- The text of a valid time with a four-digit year under `RFC822`, in a zone
with an alphabetic abbreviation: it needs no escape, `UnmarshalJSON` decodes it
with the tag `RFC822` to the fields the layout writes, in the zone `parse`
chooses for the abbreviation, and that value has the same text. -/
theorem rtA_RFC822 {y m d h mi s ns : Nat} (o : Ok y m d h mi s ns) (loc : Location)
    (mt : MultiFormatTime) (Z : Location) (hN : zoneAbbr Z.name = true) :
    Safe ((⟨(y : Int), m, d, h, mi, s, ns, Z⟩ : Time).Format RFC822) ∧
    UnmarshalJSON loc mt (quoted ((⟨(y : Int), m, d, h, mi, s, ns, Z⟩ : Time).Format RFC822))
      = (⟨⟨((y2k (y % 100) : Nat) : Int), m, d, h, mi, 0, 0, locName loc Z.name⟩, RFC822⟩, none) ∧
    ((⟨((y2k (y % 100) : Nat) : Int), m, d, h, mi, 0, 0, locName loc Z.name⟩ : Time).Format RFC822
      = (⟨(y : Int), m, d, h, mi, s, ns, Z⟩ : Time).Format RFC822) := by
  have r := o.rng
  obtain ⟨hne, hs, hh, hg⟩ := zoneAbbr_shape _ hN
  have hh2 : ∀ rest : GoString, HeadIn (Z.name ++ rest) 65 90 := fun rest => headIn_append hh rest
  refine ⟨safeA_RFC822 r Z _ rfl hne hs, ?_, ?_⟩
  · have hp := parseA_RFC822 o loc Z.name (fun x rest nx st hx => tz_reads _ hN x rest nx st hx)
      (fun rest => headD_of_headIn (hh2 rest) (by decide)) hne hg
    rw [qformatA_RFC822 r Z _ rfl hne]
    rw [scan_first loc mt _ RFC822 _ (by decide) hp ?_]
    · exact onMatch_ne loc mt _ RFC822 _ (by decide)
    · intro A hA
      have e : A = RFC822Z := (pairs_second _ hA).2.1 rfl
      rw [e]
      exact rejA_RFC822 r loc _ hh2
  · have r2 : Rng (y2k (y % 100)) m d h mi 0 0 :=
      ⟨y2k_lt _ (Nat.mod_lt _ (by decide)), r.hm1, r.hm2, r.hd1, r.hd3, r.hh, r.hmi, by decide, by decide⟩
    rw [formatA_RFC822 r2 _ _ (locName_name loc Z.name) hne, formatA_RFC822 r Z _ rfl hne]
    rw [y2k_mod _ (Nat.mod_lt _ (show 0 < 100 by decide))]

/-- The text of a valid time with a four-digit year under `RFC850`, in a zone
with an alphabetic abbreviation: it needs no escape, `UnmarshalJSON` decodes it
with the tag `RFC850` to the fields the layout writes, in the zone `parse`
chooses for the abbreviation, and that value has the same text when the year
is in the century `parse` assumes. -/
theorem rtA_RFC850 {y m d h mi s ns : Nat} (o : Ok y m d h mi s ns) (loc : Location)
    (mt : MultiFormatTime) (Z : Location) (hN : zoneAbbr Z.name = true) :
    Safe ((⟨(y : Int), m, d, h, mi, s, ns, Z⟩ : Time).Format RFC850) ∧
    UnmarshalJSON loc mt (quoted ((⟨(y : Int), m, d, h, mi, s, ns, Z⟩ : Time).Format RFC850))
      = (⟨⟨((y2k (y % 100) : Nat) : Int), m, d, h, mi, s, 0, locName loc Z.name⟩, RFC850⟩, none) ∧
    (1969 ≤ y ∧ y ≤ 2068 →
      (⟨((y2k (y % 100) : Nat) : Int), m, d, h, mi, s, 0, locName loc Z.name⟩ : Time).Format RFC850
      = (⟨(y : Int), m, d, h, mi, s, ns, Z⟩ : Time).Format RFC850) := by
  have r := o.rng
  obtain ⟨hne, hs, hh, hg⟩ := zoneAbbr_shape _ hN
  have hh2 : ∀ rest : GoString, HeadIn (Z.name ++ rest) 65 90 := fun rest => headIn_append hh rest
  refine ⟨safeA_RFC850 r Z _ rfl hne hs, ?_, ?_⟩
  · have hp := parseA_RFC850 o loc Z.name (fun x rest nx st hx => tz_reads _ hN x rest nx st hx)
      (fun rest => headD_of_headIn (hh2 rest) (by decide)) hne hg
    rw [qformatA_RFC850 r Z _ rfl hne]
    rw [scan_alone loc mt _ RFC850 _ (by decide) hp (by decide)]
    exact onMatch_ne loc mt _ RFC850 _ (by decide)
  · intro h850
    have r2 : Rng (y2k (y % 100)) m d h mi s 0 :=
      ⟨y2k_lt _ (Nat.mod_lt _ (by decide)), r.hm1, r.hm2, r.hd1, r.hd3, r.hh, r.hmi, r.hs, by decide⟩
    rw [formatA_RFC850 r2 _ _ (locName_name loc Z.name) hne, formatA_RFC850 r Z _ rfl hne]
    rw [y2k_id y h850.1 h850.2]

theorem rejA_RFC1123 {y m d h mi s ns : Nat} (r : Rng y m d h mi s ns) (loc : Location)
    (N : GoString) (hN : ∀ rest : GoString, HeadIn (N ++ rest) 65 90) :
    parses loc RFC1123Z
      (34 :: ((weekdayString (wk y m d)).take 3 ++ 44 :: 32 :: (d2 d ++ 32 ::
          ((monthString m).take 3 ++ 32 :: (d4 y ++ 32 :: (d2 h ++ 58 :: (d2 mi ++ 58 ::
          (d2 s ++ 32 :: (N ++ [34]))))))))) = false := by
  apply parses_false_of_isErr
  rw [qchunks_RFC1123Z]
  refine (?_ : ∀ st, IsErr (parseChunks loc _ _ _ _ st)) _
  refine rj_eat (skip_byte 34 _ (by decide))
    (eats_of_eq (fun st => ⟨_, parseStd_weekDay (wk y m d) (wk_lt y m d) _ _ st⟩)) ?_
  refine rj_eat (skip_comma_sp _ (headD_of_headIn (headIn_d2 (d) (by have := r.hd3; omega) _)
      (by decide)))
    (eats_ZD_d2 (d) (by have := r.hd3; omega) _ _) ?_
  refine rj_eat (skip_sp _ (headD_of_headIn (headIn_mon3 m r.hm1 r.hm2 _) (by decide)))
    (eats_of_eq (fun st => ⟨_, parseStd_month m r.hm1 r.hm2 _ _ st⟩)) ?_
  refine rj_eat (skip_sp _ (headD_of_headIn (headIn_d4 y r.hy _) (by decide)))
    (eats_of_eq (fun st => ⟨_, parseStd_longYear y r.hy _ _ st⟩)) ?_
  refine rj_eat (skip_sp _ (headD_of_headIn (headIn_d2 (h) (by have := r.hh; omega) _) (by decide)))
    (eats_H_d2 (h) (by have := r.hh; omega) _ _) ?_
  refine rj_eat (skip_byte 58 _ (by decide))
    (eats_MI_d2 (mi) (by have := r.hmi; omega) _ _) ?_
  refine rj_eat (skip_byte 58 _ (by decide))
    (eats_S_head (s) (by have := r.hs; omega) 32 _ rfl _) ?_
  exact rj_fail (skip_sp _ (headD_of_headIn (hN _) (by decide)))
    (fails_NTZ_head _ _ _ _ (hN _) (by decide))

/-- The text of a valid time with a four-digit year under `RFC1123`, in a zone
with an alphabetic abbreviation: it needs no escape, `UnmarshalJSON` decodes it
with the tag `RFC1123` to the fields the layout writes, in the zone `parse`
chooses for the abbreviation, and that value has the same text. -/
theorem rtA_RFC1123 {y m d h mi s ns : Nat} (o : Ok y m d h mi s ns) (loc : Location)
    (mt : MultiFormatTime) (Z : Location) (hN : zoneAbbr Z.name = true) :
    Safe ((⟨(y : Int), m, d, h, mi, s, ns, Z⟩ : Time).Format RFC1123) ∧
    UnmarshalJSON loc mt (quoted ((⟨(y : Int), m, d, h, mi, s, ns, Z⟩ : Time).Format RFC1123))
      = (⟨⟨(y : Int), m, d, h, mi, s, 0, locName loc Z.name⟩, RFC1123⟩, none) ∧
    ((⟨(y : Int), m, d, h, mi, s, 0, locName loc Z.name⟩ : Time).Format RFC1123
      = (⟨(y : Int), m, d, h, mi, s, ns, Z⟩ : Time).Format RFC1123) := by
  have r := o.rng
  obtain ⟨hne, hs, hh, hg⟩ := zoneAbbr_shape _ hN
  have hh2 : ∀ rest : GoString, HeadIn (Z.name ++ rest) 65 90 := fun rest => headIn_append hh rest
  refine ⟨safeA_RFC1123 r Z _ rfl hne hs, ?_, ?_⟩
  · have hp := parseA_RFC1123 o loc Z.name (fun x rest nx st hx => tz_reads _ hN x rest nx st hx)
      (fun rest => headD_of_headIn (hh2 rest) (by decide)) hne hg
    rw [qformatA_RFC1123 r Z _ rfl hne]
    rw [scan_first loc mt _ RFC1123 _ (by decide) hp ?_]
    · exact onMatch_ne loc mt _ RFC1123 _ (by decide)
    · intro A hA
      have e : A = RFC1123Z := (pairs_second _ hA).2.2.1 rfl
      rw [e]
      exact rejA_RFC1123 r loc _ hh2
  · have r2 : Rng (y) m d h mi s 0 :=
      ⟨r.hy, r.hm1, r.hm2, r.hd1, r.hd3, r.hh, r.hmi, r.hs, by decide⟩
    rw [formatA_RFC1123 r2 _ _ (locName_name loc Z.name) hne, formatA_RFC1123 r Z _ rfl hne]

end Mft

namespace Mft
open Std

/-! ## The layouts with a zone abbreviation, in a zone without abbreviation -/

/-- For a zone without abbreviation `Format` writes the numeric zone instead. -/
theorem fmt_TZ_unnamed {y m d h mi s ns : Nat} (_r : Rng y m d h mi s ns) (Z : Location)
    (hn : Z.name = []) (hz : zoneMinutes Z.offset < 6000) :
    formatStd ⟨(y : Int), m, d, h, mi, s, ns, Z⟩ stdTZ
      = zoneSign Z.offset :: (d2 (zoneMinutes Z.offset / 60) ++ d2 (zoneMinutes Z.offset % 60)) := by
  simp only [formatStd, hn, ne_eq, not_true_eq_false, if_false, appendZone_num _ hz]

theorem formatG_UnixDate {y m d h mi s ns : Nat} (r : Rng y m d h mi s ns) (Z : Location)
    (N : GoString) (hN : formatStd ⟨(y : Int), m, d, h, mi, s, ns, Z⟩ stdTZ = N) :
    (⟨(y : Int), m, d, h, mi, s, ns, Z⟩ : Time).Format UnixDate =
      (weekdayString (wk y m d)).take 3 ++ 32 :: ((monthString m).take 3 ++ 32 ::
          (ud d ++ 32 :: (d2 h ++ 58 :: (d2 mi ++ 58 :: (d2 s ++ 32 :: (N ++ 32 :: d4 y)))))) := by
  have h1 : UnixDate ≠ RFC3339 := by decide
  have h2 : UnixDate ≠ RFC3339Nano := by decide
  have h3 : UnixDate ≠ [] := by decide
  unfold Time.Format appendFormat
  rw [if_neg h1, if_neg h2, if_neg h3, uchunks_UnixDate]
  simp only [formatChunks, fmt_weekDay r Z, fmt_month r Z, fmt_underDay r Z, fmt_hour r Z,
      fmt_zeroMinute r Z, fmt_zeroSecond r Z, hN, fmt_longYear r Z,
    List.nil_append, List.append_nil, List.append_assoc, List.singleton_append, List.cons_append]

theorem formatG_RFC822 {y m d h mi s ns : Nat} (r : Rng y m d h mi s ns) (Z : Location)
    (N : GoString) (hN : formatStd ⟨(y : Int), m, d, h, mi, s, ns, Z⟩ stdTZ = N) :
    (⟨(y : Int), m, d, h, mi, s, ns, Z⟩ : Time).Format RFC822 =
      d2 d ++ 32 :: ((monthString m).take 3 ++ 32 :: (d2 (y % 100) ++ 32 :: (d2 h ++ 58 ::
          (d2 mi ++ 32 :: (N))))) := by
  have h1 : RFC822 ≠ RFC3339 := by decide
  have h2 : RFC822 ≠ RFC3339Nano := by decide
  have h3 : RFC822 ≠ [] := by decide
  unfold Time.Format appendFormat
  rw [if_neg h1, if_neg h2, if_neg h3, uchunks_RFC822]
  simp only [formatChunks, fmt_zeroDay r Z, fmt_month r Z, fmt_year r Z, fmt_hour r Z,
      fmt_zeroMinute r Z, hN,
    List.nil_append, List.append_nil, List.append_assoc, List.singleton_append, List.cons_append]

theorem formatG_RFC850 {y m d h mi s ns : Nat} (r : Rng y m d h mi s ns) (Z : Location)
    (N : GoString) (hN : formatStd ⟨(y : Int), m, d, h, mi, s, ns, Z⟩ stdTZ = N) :
    (⟨(y : Int), m, d, h, mi, s, ns, Z⟩ : Time).Format RFC850 =
      weekdayString (wk y m d) ++ 44 :: 32 :: (d2 d ++ 45 :: ((monthString m).take 3 ++ 45 ::
          (d2 (y % 100) ++ 32 :: (d2 h ++ 58 :: (d2 mi ++ 58 :: (d2 s ++ 32 :: (N))))))) := by
  have h1 : RFC850 ≠ RFC3339 := by decide
  have h2 : RFC850 ≠ RFC3339Nano := by decide
  have h3 : RFC850 ≠ [] := by decide
  unfold Time.Format appendFormat
  rw [if_neg h1, if_neg h2, if_neg h3, uchunks_RFC850]
  simp only [formatChunks, fmt_longWeekDay r Z, fmt_zeroDay r Z, fmt_month r Z, fmt_year r
      Z, fmt_hour r Z, fmt_zeroMinute r Z, fmt_zeroSecond r Z, hN,
    List.nil_append, List.append_nil, List.append_assoc, List.singleton_append, List.cons_append]

theorem formatG_RFC1123 {y m d h mi s ns : Nat} (r : Rng y m d h mi s ns) (Z : Location)
    (N : GoString) (hN : formatStd ⟨(y : Int), m, d, h, mi, s, ns, Z⟩ stdTZ = N) :
    (⟨(y : Int), m, d, h, mi, s, ns, Z⟩ : Time).Format RFC1123 =
      (weekdayString (wk y m d)).take 3 ++ 44 :: 32 :: (d2 d ++ 32 ::
          ((monthString m).take 3 ++ 32 :: (d4 y ++ 32 :: (d2 h ++ 58 :: (d2 mi ++ 58 ::
          (d2 s ++ 32 :: (N))))))) := by
  have h1 : RFC1123 ≠ RFC3339 := by decide
  have h2 : RFC1123 ≠ RFC3339Nano := by decide
  have h3 : RFC1123 ≠ [] := by decide
  unfold Time.Format appendFormat
  rw [if_neg h1, if_neg h2, if_neg h3, uchunks_RFC1123]
  simp only [formatChunks, fmt_weekDay r Z, fmt_zeroDay r Z, fmt_month r Z, fmt_longYear r
      Z, fmt_hour r Z, fmt_zeroMinute r Z, fmt_zeroSecond r Z, hN,
    List.nil_append, List.append_nil, List.append_assoc, List.singleton_append, List.cons_append]

/-- In a zone without abbreviation the text under `UnixDate` is the text under
`RubyDate`, from the tenth day of the month on. -/
theorem format_UnixDate_unnamed {y m d h mi s ns : Nat} (r : Rng y m d h mi s ns)
    (Z : Location) (hn : Z.name = []) (hz : zoneMinutes Z.offset < 6000) (hd : 10 ≤ d) :
    (⟨(y : Int), m, d, h, mi, s, ns, Z⟩ : Time).Format UnixDate
      = (⟨(y : Int), m, d, h, mi, s, ns, Z⟩ : Time).Format RubyDate := by
  rw [formatG_UnixDate r Z _ (fmt_TZ_unnamed r Z hn hz), formatN_RubyDate r Z hz]
  have e : ud d = d2 d := by
    have h1 : ¬ d < 10 := by omega
    simp only [ud, nd, h1, if_false, List.nil_append]
  rw [e]
  simp only [List.append_assoc, List.cons_append, List.nil_append]

/-- In a zone without abbreviation the text under `RFC822` is the text under
`RFC822Z`. -/
theorem format_RFC822_unnamed {y m d h mi s ns : Nat} (r : Rng y m d h mi s ns)
    (Z : Location) (hn : Z.name = []) (hz : zoneMinutes Z.offset < 6000) :
    (⟨(y : Int), m, d, h, mi, s, ns, Z⟩ : Time).Format RFC822
      = (⟨(y : Int), m, d, h, mi, s, ns, Z⟩ : Time).Format RFC822Z := by
  rw [formatG_RFC822 r Z _ (fmt_TZ_unnamed r Z hn hz), formatN_RFC822Z r Z hz]

/-- In a zone without abbreviation the text under `RFC1123` is the text under
`RFC1123Z`. -/
theorem format_RFC1123_unnamed {y m d h mi s ns : Nat} (r : Rng y m d h mi s ns)
    (Z : Location) (hn : Z.name = []) (hz : zoneMinutes Z.offset < 6000) :
    (⟨(y : Int), m, d, h, mi, s, ns, Z⟩ : Time).Format RFC1123
      = (⟨(y : Int), m, d, h, mi, s, ns, Z⟩ : Time).Format RFC1123Z := by
  rw [formatG_RFC1123 r Z _ (fmt_TZ_unnamed r Z hn hz), formatN_RFC1123Z r Z hz]

end Mft

namespace Mft
open Std

/-! ## The numeric zone read as a zone abbreviation -/

theorem leadingInt_00 (mm x : Nat) (rest : GoString) (hmm : mm < 100) (hx : isDig x = false) :
    leadingInt (48 :: 48 :: (48 + mm / 10) :: (48 + mm % 10) :: x :: rest)
      = some (mm, x :: rest) := by
  unfold leadingInt
  rw [leadingIntAux_digit 0 48 _ (by decide) (by decide) (by decide),
    leadingIntAux_digit _ 48 _ (by decide) (by decide) (by decide),
    leadingIntAux_digit _ _ _ (by omega) (by omega) (by decide),
    leadingIntAux_digit _ _ _ (by omega) (by omega) (by omega),
    leadingIntAux_stop _ x rest hx]
  congr 2
  omega

theorem parseTimeZone_signed (sg mm x : Nat) (rest : GoString) (hsg : sg = 43 ∨ sg = 45)
    (hmm : mm < 24) (hx : x = 32 ∨ x = 34) :
    parseTimeZone (sg :: 48 :: 48 :: (48 + mm / 10) :: (48 + mm % 10) :: x :: rest) = (5, true) := by
  have hd : isDig x = false := by rcases hx with e | e <;> rw [e] <;> rfl
  have e1 : ¬ (67 = sg) := by omega
  have e2 : ¬ (77 = sg) := by omega
  have e3 : ¬ (71 = sg) := by omega
  have e5 : ¬ (rest.length + 1 + 1 + 1 + 1 + 1 + 1 < 3) := by omega
  have e6 : ¬ (¬ sg = 45 ∧ ¬ sg = 43) := by omega
  have e7 : ¬ (mm > 23) := by omega
  have e8 : sg = 43 ∨ sg = 45 := hsg
  have e9 : ¬ (48 = x) := by omega
  simp [parseTimeZone, startsWith, List.isPrefixOf, B, e1, e2, e3, e5, e8, parseSignedOffset,
    e6, leadingInt_00 mm x rest (by omega) hd, e7, e9]

/-- The text `+00mm` or `-00mm` of a numeric zone below 24 minutes, followed by a
space or a double quote, is read by the element `MST` as a zone abbreviation. -/
theorem tz_reads_signed (sg mm x : Nat) (rest : GoString) (nx : Option Std) (st : PState)
    (hsg : sg = 43 ∨ sg = 45) (hmm : mm < 24) (hx : x = 32 ∨ x = 34) :
    parseStd stdTZ nx ((sg :: (d2 0 ++ d2 mm)) ++ x :: rest) st
      = { st := { st with zoneName := sg :: (d2 0 ++ d2 mm) }, value := x :: rest } := by
  have hu : startsWith (B "UTC") (sg :: 48 :: 48 :: (48 + mm / 10) :: (48 + mm % 10) :: x :: rest)
      = false := by
    have e : ¬ (85 = sg) := by omega
    simp [startsWith, List.isPrefixOf, B, e]
  exact (parseStd_TZ_name _ 5 nx st hu (parseTimeZone_signed sg mm x rest hsg hmm hx)).trans rfl

end Mft

namespace Mft
open Std

/-! ## `UnixDate` and `RFC850` in a zone without abbreviation -/

theorem fails_ZD_one (n : Nat) (h : n < 10) (c : Nat) (rest : GoString)
    (hc : isDig c = false) (nx : Option Std) :
    Fails stdZeroDay nx (nd n ++ c :: rest) := by
  intro st; right
  have hne : ¬ (stdZeroDay = stdUnderDay ∧ (nd n ++ c :: rest).headD 0 = 32
      ∧ 0 < (nd n ++ c :: rest).length) := by
    intro h; exact absurd h.1 (by decide)
  have h1 : isDig (48 + n) = true := isDig_digit _ (by omega)
  have e : getnum (nd n ++ c :: rest) true = none := by
    unfold nd
    rw [if_pos h]
    simp [getnum, h1, hc]
  simp only [parseStd, if_neg hne, decide_True, e]

/-- Before the tenth day of the month `RubyDate` rejects the text of `UnixDate`,
whatever the zone. -/
theorem rejS_UnixDate {y m d h mi s ns : Nat} (r : Rng y m d h mi s ns) (loc : Location)
    (N : GoString) (hd : d < 10) :
    parses loc RubyDate
      (34 :: ((weekdayString (wk y m d)).take 3 ++ 32 :: ((monthString m).take 3 ++ 32 ::
          (ud d ++ 32 :: (d2 h ++ 58 :: (d2 mi ++ 58 :: (d2 s ++ 32 :: (N ++ 32 :: (d4 y ++ [34]))))))))) = false := by
  apply parses_false_of_isErr
  rw [qchunks_RubyDate]
  refine (?_ : ∀ st, IsErr (parseChunks loc _ _ _ _ st)) _
  refine rj_eat (skip_byte 34 _ (by decide))
    (eats_of_eq (fun st => ⟨_, parseStd_weekDay (wk y m d) (wk_lt y m d) _ _ st⟩)) ?_
  refine rj_eat (skip_sp _ (headD_of_headIn (headIn_mon3 m r.hm1 r.hm2 _) (by decide)))
    (eats_of_eq (fun st => ⟨_, parseStd_month m r.hm1 r.hm2 _ _ st⟩)) ?_
  exact rj_fail (skip_sp_ud d (by omega) _) (fails_ZD_one d hd 32 _ rfl _)

theorem fmt_TZ_small {y m d h mi s ns : Nat} (r : Rng y m d h mi s ns) (Z : Location)
    (hn : Z.name = []) (hz : zoneMinutes Z.offset < 24) :
    formatStd ⟨(y : Int), m, d, h, mi, s, ns, Z⟩ stdTZ
      = zoneSign Z.offset :: (d2 0 ++ d2 (zoneMinutes Z.offset)) := by
  rw [fmt_TZ_unnamed r Z hn (by omega)]
  have e1 : zoneMinutes Z.offset / 60 = 0 := by omega
  have e2 : zoneMinutes Z.offset % 60 = zoneMinutes Z.offset := by omega
  rw [e1, e2]

theorem small_shape (sg mm : Nat) (hsg : sg = 43 ∨ sg = 45) :
    (∀ rest : GoString, ((sg :: (d2 0 ++ d2 mm)) ++ rest).headD 0 ≠ 32) ∧
    (sg :: (d2 0 ++ d2 mm)) ≠ [] ∧
    ¬ (3 < (sg :: (d2 0 ++ d2 mm)).length ∧ (sg :: (d2 0 ++ d2 mm)).take 3 = B "GMT") := by
  refine ⟨fun rest => ?_, List.cons_ne_nil _ _, ?_⟩
  · simp only [List.cons_append, List.headD_cons]
    omega
  · simp [d2, B]

/-- The text of a valid time with a four-digit year under `UnixDate`, in a zone
without abbreviation whose offset is below 24 minutes, before the tenth day
of the month:
it needs no escape, `UnmarshalJSON` decodes it with the tag `UnixDate`, reading
the numeric zone as an abbreviation, and that value has the same text. -/
theorem rtS_UnixDate {y m d h mi s ns : Nat} (o : Ok y m d h mi s ns) (loc : Location)
    (mt : MultiFormatTime) (Z : Location) (hn : Z.name = [])
    (hz : zoneMinutes Z.offset < 24) (hd : d < 10) :
    Safe ((⟨(y : Int), m, d, h, mi, s, ns, Z⟩ : Time).Format UnixDate) ∧
    UnmarshalJSON loc mt (quoted ((⟨(y : Int), m, d, h, mi, s, ns, Z⟩ : Time).Format UnixDate))
      = (⟨⟨(y : Int), m, d, h, mi, s, 0, locName loc
        (zoneSign Z.offset :: (d2 0 ++ d2 (zoneMinutes Z.offset)))⟩, UnixDate⟩, none) ∧
    ((⟨(y : Int), m, d, h, mi, s, 0, locName loc
        (zoneSign Z.offset :: (d2 0 ++ d2 (zoneMinutes Z.offset)))⟩ : Time).Format UnixDate
      = (⟨(y : Int), m, d, h, mi, s, ns, Z⟩ : Time).Format UnixDate) := by
  have r := o.rng
  have hsg := zoneSign_cases Z.offset
  have hf := formatG_UnixDate r Z _ (fmt_TZ_small r Z hn hz)
  obtain ⟨hh, hne, hg⟩ := small_shape (zoneSign Z.offset) (zoneMinutes Z.offset) hsg
  have hs : Safe (zoneSign Z.offset :: (d2 0 ++ d2 (zoneMinutes Z.offset))) :=
    safe_cons (safe_sign _) (safe_append (safe_d2 0 (by decide)) (safe_d2 _ (by omega)))
  refine ⟨?_, ?_, ?_⟩
  · rw [hf]
    have h1 := r.hm2
    have h2 := r.hd3
    have h3 := r.hh
    have h4 := r.hmi
    have h5 := r.hs
    have h6 := r.hy
    repeat' (first
      | exact safe_nil | exact hs | exact safe_d2 _ (by omega) | exact safe_d4 _ (by omega)
      | exact safe_ud _ (by omega)
      | exact safe_mon3 _ r.hm1 r.hm2 | exact safe_wd3 _ (wk_lt _ _ _) | exact safe_wdL _ (wk_lt _ _ _)
      | with_reducible apply safe_append | with_reducible apply safe_cons | decide)
  · have hp := parseA_UnixDate o loc (zoneSign Z.offset :: (d2 0 ++ d2 (zoneMinutes Z.offset)))
      (fun x rest nx st hx => tz_reads_signed _ _ x rest nx st hsg hz hx) hh hne hg
    have hq : quoted ((⟨(y : Int), m, d, h, mi, s, ns, Z⟩ : Time).Format UnixDate) =
        34 :: ((weekdayString (wk y m d)).take 3 ++ 32 :: ((monthString m).take 3 ++ 32 ::
          (ud d ++ 32 :: (d2 h ++ 58 :: (d2 mi ++ 58 :: (d2 s ++ 32 :: ((zoneSign Z.offset :: (d2 0 ++ d2 (zoneMinutes Z.offset))) ++ 32 :: (d4 y ++ [34])))))))) := by
      rw [hf]
      simp only [quoted, List.nil_append, List.append_nil, List.append_assoc,
        List.singleton_append, List.cons_append]
    rw [hq]
    rw [scan_first loc mt _ UnixDate _ (by decide) hp ?_]
    · exact onMatch_ne loc mt _ UnixDate _ (by decide)
    · intro A hA
      have e : A = RubyDate := (pairs_second _ hA).1 rfl
      rw [e]
      exact rejS_UnixDate r loc _ hd
  · have r2 : Rng (y) m d h mi s 0 :=
      ⟨r.hy, r.hm1, r.hm2, r.hd1, r.hd3, r.hh, r.hmi, r.hs, by decide⟩
    rw [formatA_UnixDate r2 _ _ (locName_name loc _) hne, hf]

/-- The text of a valid time with a four-digit year under `RFC850`, in a zone
without abbreviation whose offset is below 24 minutes:
it needs no escape, `UnmarshalJSON` decodes it with the tag `RFC850`, reading
the numeric zone as an abbreviation, and that value has the same text when
the year is in the century `parse` assumes. -/
theorem rtS_RFC850 {y m d h mi s ns : Nat} (o : Ok y m d h mi s ns) (loc : Location)
    (mt : MultiFormatTime) (Z : Location) (hn : Z.name = [])
    (hz : zoneMinutes Z.offset < 24) :
    Safe ((⟨(y : Int), m, d, h, mi, s, ns, Z⟩ : Time).Format RFC850) ∧
    UnmarshalJSON loc mt (quoted ((⟨(y : Int), m, d, h, mi, s, ns, Z⟩ : Time).Format RFC850))
      = (⟨⟨((y2k (y % 100) : Nat) : Int), m, d, h, mi, s, 0, locName loc
        (zoneSign Z.offset :: (d2 0 ++ d2 (zoneMinutes Z.offset)))⟩, RFC850⟩, none) ∧
    (1969 ≤ y ∧ y ≤ 2068 →
      (⟨((y2k (y % 100) : Nat) : Int), m, d, h, mi, s, 0, locName loc
        (zoneSign Z.offset :: (d2 0 ++ d2 (zoneMinutes Z.offset)))⟩ : Time).Format RFC850
      = (⟨(y : Int), m, d, h, mi, s, ns, Z⟩ : Time).Format RFC850) := by
  have r := o.rng
  have hsg := zoneSign_cases Z.offset
  have hf := formatG_RFC850 r Z _ (fmt_TZ_small r Z hn hz)
  obtain ⟨hh, hne, hg⟩ := small_shape (zoneSign Z.offset) (zoneMinutes Z.offset) hsg
  have hs : Safe (zoneSign Z.offset :: (d2 0 ++ d2 (zoneMinutes Z.offset))) :=
    safe_cons (safe_sign _) (safe_append (safe_d2 0 (by decide)) (safe_d2 _ (by omega)))
  refine ⟨?_, ?_, ?_⟩
  · rw [hf]
    have h1 := r.hm2
    have h2 := r.hd3
    have h3 := r.hh
    have h4 := r.hmi
    have h5 := r.hs
    have h6 := r.hy
    repeat' (first
      | exact safe_nil | exact hs | exact safe_d2 _ (by omega) | exact safe_d4 _ (by omega)
      | exact safe_ud _ (by omega)
      | exact safe_mon3 _ r.hm1 r.hm2 | exact safe_wd3 _ (wk_lt _ _ _) | exact safe_wdL _ (wk_lt _ _ _)
      | with_reducible apply safe_append | with_reducible apply safe_cons | decide)
  · have hp := parseA_RFC850 o loc (zoneSign Z.offset :: (d2 0 ++ d2 (zoneMinutes Z.offset)))
      (fun x rest nx st hx => tz_reads_signed _ _ x rest nx st hsg hz hx) hh hne hg
    have hq : quoted ((⟨(y : Int), m, d, h, mi, s, ns, Z⟩ : Time).Format RFC850) =
        34 :: (weekdayString (wk y m d) ++ 44 :: 32 :: (d2 d ++ 45 :: ((monthString m).take 3 ++ 45 ::
          (d2 (y % 100) ++ 32 :: (d2 h ++ 58 :: (d2 mi ++ 58 :: (d2 s ++ 32 :: ((zoneSign Z.offset :: (d2 0 ++ d2 (zoneMinutes Z.offset))) ++ [34])))))))) := by
      rw [hf]
      simp only [quoted, List.nil_append, List.append_nil, List.append_assoc,
        List.singleton_append, List.cons_append]
    rw [hq]
    rw [scan_alone loc mt _ RFC850 _ (by decide) hp (by decide)]
    exact onMatch_ne loc mt _ RFC850 _ (by decide)
  · intro h850
    have r2 : Rng (y2k (y % 100)) m d h mi s 0 :=
      ⟨y2k_lt _ (Nat.mod_lt _ (by decide)), r.hm1, r.hm2, r.hd1, r.hd3, r.hh, r.hmi, r.hs, by decide⟩
    rw [formatA_RFC850 r2 _ _ (locName_name loc _) hne, hf]
    rw [y2k_id y h850.1 h850.2]

end Mft

namespace Mft
open Std

/-! ## Zone abbreviations made of a sign and two digits -/

/-- The shape of an abbreviation with `zoneSigned`. -/
theorem zoneSigned_shape (N : GoString) (h : zoneSigned N = true) :
    ∃ sg a b, N = [sg, a, b] ∧ (sg = 43 ∨ sg = 45) ∧ (48 ≤ a ∧ a ≤ 57) ∧ (48 ≤ b ∧ b ≤ 57) ∧
      (a - 48) * 10 + (b - 48) ≤ 23 := by
  rcases N with _ | ⟨sg, _ | ⟨a, _ | ⟨b, _ | ⟨c, tl⟩⟩⟩⟩
  · simp [zoneSigned] at h
  · simp [zoneSigned] at h
  · simp [zoneSigned] at h
  · simp only [zoneSigned, isDig, List.length_cons, List.length_nil, List.getD_cons_zero,
      List.getD_cons_succ, Bool.and_eq_true, Bool.or_eq_true, decide_eq_true_eq] at h
    exact ⟨sg, a, b, rfl, h.1.1.1.2, h.1.1.2, h.1.2, h.2⟩
  · simp [zoneSigned] at h

theorem leadingInt_two (a b x : Nat) (rest : GoString) (ha : 48 ≤ a ∧ a ≤ 57)
    (hb : 48 ≤ b ∧ b ≤ 57) (hx : isDig x = false) :
    leadingInt (a :: b :: x :: rest) = some ((a - 48) * 10 + (b - 48), x :: rest) := by
  unfold leadingInt
  rw [leadingIntAux_digit 0 a _ ha.1 ha.2 (by decide),
    leadingIntAux_digit _ b _ hb.1 hb.2 (by omega),
    leadingIntAux_stop _ x rest hx]
  congr 2
  omega

theorem parseTimeZone_signed2 (sg a b x : Nat) (rest : GoString) (hsg : sg = 43 ∨ sg = 45)
    (ha : 48 ≤ a ∧ a ≤ 57) (hb : 48 ≤ b ∧ b ≤ 57) (hv : (a - 48) * 10 + (b - 48) ≤ 23)
    (hx : x = 32 ∨ x = 34) :
    parseTimeZone (sg :: a :: b :: x :: rest) = (3, true) := by
  have hd : isDig x = false := by rcases hx with e | e <;> rw [e] <;> rfl
  have e1 : ¬ (67 = sg) := by omega
  have e2 : ¬ (77 = sg) := by omega
  have e3 : ¬ (71 = sg) := by omega
  have e5 : ¬ (rest.length + 1 + 1 + 1 + 1 < 3) := by omega
  have e6 : ¬ (¬ sg = 45 ∧ ¬ sg = 43) := by omega
  have e7 : ¬ ((a - 48) * 10 + (b - 48) > 23) := by omega
  have e8 : sg = 43 ∨ sg = 45 := hsg
  have e9 : ¬ (a = x) := by omega
  simp [parseTimeZone, startsWith, List.isPrefixOf, B, e1, e2, e3, e5, e8, parseSignedOffset,
    e6, leadingInt_two a b x rest ha hb hd, e7, e9]

/-- An abbreviation made of a sign and two digits up to 23, followed by a space
or a double quote, is read by the element `MST` as it is. -/
theorem tz_reads_signed2 (N : GoString) (h : zoneSigned N = true) (x : Nat) (rest : GoString)
    (nx : Option Std) (st : PState) (hx : x = 32 ∨ x = 34) :
    parseStd stdTZ nx (N ++ x :: rest) st
      = { st := { st with zoneName := N }, value := x :: rest } := by
  obtain ⟨sg, a, b, rfl, hsg, ha, hb, hv⟩ := zoneSigned_shape N h
  have hu : startsWith (B "UTC") (sg :: a :: b :: x :: rest) = false := by
    have e : ¬ (85 = sg) := by omega
    simp [startsWith, List.isPrefixOf, B, e]
  exact (parseStd_TZ_name _ 3 nx st hu (parseTimeZone_signed2 sg a b x rest hsg ha hb hv hx)).trans rfl

/-- What is used of an abbreviation made of a sign and two digits: it is not
empty, needs no escape, does not start with a space, and is no `GMT` with an
hour offset. -/
theorem zoneSigned_props (N : GoString) (h : zoneSigned N = true) :
    N ≠ [] ∧ Safe N ∧ (∀ rest : GoString, (N ++ rest).headD 0 ≠ 32) ∧
      ¬ (3 < N.length ∧ N.take 3 = B "GMT") := by
  obtain ⟨sg, a, b, rfl, hsg, ha, hb, hv⟩ := zoneSigned_shape N h
  refine ⟨List.cons_ne_nil _ _, ?_, fun rest => ?_, by simp⟩
  · exact safe_cons (htmlSafe_of _ (by omega)) (safe_cons (htmlSafe_of _ (by omega))
      (safe_cons (htmlSafe_of _ (by omega)) safe_nil))
  · simp only [List.cons_append, List.headD_cons]
    omega

/-- The numeric zone `-0700` is refused on a sign and two characters followed by
a character that is no digit. -/
theorem fails_NTZ_short (sg a b x : Nat) (rest : GoString) (hx : isDig x = false)
    (nx : Option Std) : Fails stdNumTZ nx (sg :: a :: b :: x :: rest) := by
  intro st; right
  rcases rest with _ | ⟨r0, rest⟩
  · simp [parseStd, parseZoneOffset]
  · have hl : ¬ (rest.length + 1 + 1 + 1 + 1 + 1 < 5) := by omega
    by_cases h1 : isDig a = true <;> by_cases h2 : isDig b = true <;>
      simp [parseStd, parseZoneOffset, getnum, hx, h1, h2, hl]

end Mft

namespace Mft
open Std

/-! ## Round trip of the layouts with a zone abbreviation: a sign and two digits -/

theorem rejB_UnixDate {y m d h mi s ns : Nat} (r : Rng y m d h mi s ns) (loc : Location)
    (N : GoString) (hN : zoneSigned N = true) :
    parses loc RubyDate
      (34 :: ((weekdayString (wk y m d)).take 3 ++ 32 :: ((monthString m).take 3 ++ 32 ::
          (ud d ++ 32 :: (d2 h ++ 58 :: (d2 mi ++ 58 :: (d2 s ++ 32 :: (N ++ 32 :: (d4 y ++ [34]))))))))) = false := by
  obtain ⟨sg, a, b, rfl, hsg, ha, hb, hv⟩ := zoneSigned_shape N hN
  apply parses_false_of_isErr
  rw [qchunks_RubyDate]
  refine (?_ : ∀ st, IsErr (parseChunks loc _ _ _ _ st)) _
  refine rj_eat (skip_byte 34 _ (by decide))
    (eats_of_eq (fun st => ⟨_, parseStd_weekDay (wk y m d) (wk_lt y m d) _ _ st⟩)) ?_
  refine rj_eat (skip_sp _ (headD_of_headIn (headIn_mon3 m r.hm1 r.hm2 _) (by decide)))
    (eats_of_eq (fun st => ⟨_, parseStd_month m r.hm1 r.hm2 _ _ st⟩)) ?_
  refine rj_eat (skip_sp_ud d (by have := r.hd3; omega) _)
    (eats_ZD_nd (d) (by have := r.hd3; omega) 32 _ rfl _) ?_
  refine rj_eat (skip_sp _ (headD_of_headIn (headIn_d2 (h) (by have := r.hh; omega) _) (by decide)))
    (eats_H_d2 (h) (by have := r.hh; omega) _ _) ?_
  refine rj_eat (skip_byte 58 _ (by decide))
    (eats_MI_d2 (mi) (by have := r.hmi; omega) _ _) ?_
  refine rj_eat (skip_byte 58 _ (by decide))
    (eats_S_head (s) (by have := r.hs; omega) 32 _ rfl _) ?_
  exact rj_fail (skip_sp _ (by simp only [List.cons_append, List.headD_cons]; omega))
    (fails_NTZ_short sg a b 32 _ rfl _)

/-- The text of a valid time with a four-digit year under `UnixDate`, in a zone
whose abbreviation is a sign and two digits: it needs no escape, `UnmarshalJSON`
decodes it with the tag `UnixDate` to the fields the layout writes, in the zone
`parse` chooses for the abbreviation, and that value has the same text. -/
theorem rtB_UnixDate {y m d h mi s ns : Nat} (o : Ok y m d h mi s ns) (loc : Location)
    (mt : MultiFormatTime) (Z : Location) (hN : zoneSigned Z.name = true) :
    Safe ((⟨(y : Int), m, d, h, mi, s, ns, Z⟩ : Time).Format UnixDate) ∧
    UnmarshalJSON loc mt (quoted ((⟨(y : Int), m, d, h, mi, s, ns, Z⟩ : Time).Format UnixDate))
      = (⟨⟨(y : Int), m, d, h, mi, s, 0, locName loc Z.name⟩, UnixDate⟩, none) ∧
    ((⟨(y : Int), m, d, h, mi, s, 0, locName loc Z.name⟩ : Time).Format UnixDate
      = (⟨(y : Int), m, d, h, mi, s, ns, Z⟩ : Time).Format UnixDate) := by
  have r := o.rng
  obtain ⟨hne, hs, hh, hg⟩ := zoneSigned_props _ hN
  refine ⟨safeA_UnixDate r Z _ rfl hne hs, ?_, ?_⟩
  · have hp := parseA_UnixDate o loc Z.name
      (fun x rest nx st hx => tz_reads_signed2 _ hN x rest nx st hx) hh hne hg
    rw [qformatA_UnixDate r Z _ rfl hne]
    rw [scan_first loc mt _ UnixDate _ (by decide) hp ?_]
    · exact onMatch_ne loc mt _ UnixDate _ (by decide)
    · intro A hA
      have e : A = RubyDate := (pairs_second _ hA).1 rfl
      rw [e]
      exact rejB_UnixDate r loc _ hN
  · have r2 : Rng (y) m d h mi s 0 :=
      ⟨r.hy, r.hm1, r.hm2, r.hd1, r.hd3, r.hh, r.hmi, r.hs, by decide⟩
    rw [formatA_UnixDate r2 _ _ (locName_name loc Z.name) hne, formatA_UnixDate r Z _ rfl hne]

theorem rejB_RFC822 {y m d h mi s ns : Nat} (r : Rng y m d h mi s ns) (loc : Location)
    (N : GoString) (hN : zoneSigned N = true) :
    parses loc RFC822Z
      (34 :: (d2 d ++ 32 :: ((monthString m).take 3 ++ 32 :: (d2 (y % 100) ++ 32 :: (d2 h ++ 58 ::
          (d2 mi ++ 32 :: (N ++ [34]))))))) = false := by
  obtain ⟨sg, a, b, rfl, hsg, ha, hb, hv⟩ := zoneSigned_shape N hN
  apply parses_false_of_isErr
  rw [qchunks_RFC822Z]
  refine (?_ : ∀ st, IsErr (parseChunks loc _ _ _ _ st)) _
  refine rj_eat (skip_byte 34 _ (by decide))
    (eats_ZD_d2 (d) (by have := r.hd3; omega) _ _) ?_
  refine rj_eat (skip_sp _ (headD_of_headIn (headIn_mon3 m r.hm1 r.hm2 _) (by decide)))
    (eats_of_eq (fun st => ⟨_, parseStd_month m r.hm1 r.hm2 _ _ st⟩)) ?_
  refine rj_eat (skip_sp _ (headD_of_headIn (headIn_d2 (y % 100) (by omega) _) (by decide)))
    (eats_Y2_d2 (y % 100) (by omega) _ _) ?_
  refine rj_eat (skip_sp _ (headD_of_headIn (headIn_d2 (h) (by have := r.hh; omega) _) (by decide)))
    (eats_H_d2 (h) (by have := r.hh; omega) _ _) ?_
  refine rj_eat (skip_byte 58 _ (by decide))
    (eats_MI_d2 (mi) (by have := r.hmi; omega) _ _) ?_
  exact rj_fail (skip_sp _ (by simp only [List.cons_append, List.headD_cons]; omega))
    (fails_NTZ_short sg a b 34 _ rfl _)

/-- The text of a valid time with a four-digit year under `RFC822`, in a zone
whose abbreviation is a sign and two digits: it needs no escape, `UnmarshalJSON`
decodes it with the tag `RFC822` to the fields the layout writes, in the zone
`parse` chooses for the abbreviation, and that value has the same text. -/
theorem rtB_RFC822 {y m d h mi s ns : Nat} (o : Ok y m d h mi s ns) (loc : Location)
    (mt : MultiFormatTime) (Z : Location) (hN : zoneSigned Z.name = true) :
    Safe ((⟨(y : Int), m, d, h, mi, s, ns, Z⟩ : Time).Format RFC822) ∧
    UnmarshalJSON loc mt (quoted ((⟨(y : Int), m, d, h, mi, s, ns, Z⟩ : Time).Format RFC822))
      = (⟨⟨((y2k (y % 100) : Nat) : Int), m, d, h, mi, 0, 0, locName loc Z.name⟩, RFC822⟩, none) ∧
    ((⟨((y2k (y % 100) : Nat) : Int), m, d, h, mi, 0, 0, locName loc Z.name⟩ : Time).Format RFC822
      = (⟨(y : Int), m, d, h, mi, s, ns, Z⟩ : Time).Format RFC822) := by
  have r := o.rng
  obtain ⟨hne, hs, hh, hg⟩ := zoneSigned_props _ hN
  refine ⟨safeA_RFC822 r Z _ rfl hne hs, ?_, ?_⟩
  · have hp := parseA_RFC822 o loc Z.name
      (fun x rest nx st hx => tz_reads_signed2 _ hN x rest nx st hx) hh hne hg
    rw [qformatA_RFC822 r Z _ rfl hne]
    rw [scan_first loc mt _ RFC822 _ (by decide) hp ?_]
    · exact onMatch_ne loc mt _ RFC822 _ (by decide)
    · intro A hA
      have e : A = RFC822Z := (pairs_second _ hA).2.1 rfl
      rw [e]
      exact rejB_RFC822 r loc _ hN
  · have r2 : Rng (y2k (y % 100)) m d h mi 0 0 :=
      ⟨y2k_lt _ (Nat.mod_lt _ (by decide)), r.hm1, r.hm2, r.hd1, r.hd3, r.hh, r.hmi, by decide, by decide⟩
    rw [formatA_RFC822 r2 _ _ (locName_name loc Z.name) hne, formatA_RFC822 r Z _ rfl hne]
    rw [y2k_mod _ (Nat.mod_lt _ (show 0 < 100 by decide))]

/-- The text of a valid time with a four-digit year under `RFC850`, in a zone
whose abbreviation is a sign and two digits: it needs no escape, `UnmarshalJSON`
decodes it with the tag `RFC850` to the fields the layout writes, in the zone
`parse` chooses for the abbreviation, and that value has the same text when the
year is in the century `parse` assumes. -/
theorem rtB_RFC850 {y m d h mi s ns : Nat} (o : Ok y m d h mi s ns) (loc : Location)
    (mt : MultiFormatTime) (Z : Location) (hN : zoneSigned Z.name = true) :
    Safe ((⟨(y : Int), m, d, h, mi, s, ns, Z⟩ : Time).Format RFC850) ∧
    UnmarshalJSON loc mt (quoted ((⟨(y : Int), m, d, h, mi, s, ns, Z⟩ : Time).Format RFC850))
      = (⟨⟨((y2k (y % 100) : Nat) : Int), m, d, h, mi, s, 0, locName loc Z.name⟩, RFC850⟩, none) ∧
    (1969 ≤ y ∧ y ≤ 2068 →
      (⟨((y2k (y % 100) : Nat) : Int), m, d, h, mi, s, 0, locName loc Z.name⟩ : Time).Format RFC850
      = (⟨(y : Int), m, d, h, mi, s, ns, Z⟩ : Time).Format RFC850) := by
  have r := o.rng
  obtain ⟨hne, hs, hh, hg⟩ := zoneSigned_props _ hN
  refine ⟨safeA_RFC850 r Z _ rfl hne hs, ?_, ?_⟩
  · have hp := parseA_RFC850 o loc Z.name
      (fun x rest nx st hx => tz_reads_signed2 _ hN x rest nx st hx) hh hne hg
    rw [qformatA_RFC850 r Z _ rfl hne]
    rw [scan_alone loc mt _ RFC850 _ (by decide) hp (by decide)]
    exact onMatch_ne loc mt _ RFC850 _ (by decide)
  · intro h850
    have r2 : Rng (y2k (y % 100)) m d h mi s 0 :=
      ⟨y2k_lt _ (Nat.mod_lt _ (by decide)), r.hm1, r.hm2, r.hd1, r.hd3, r.hh, r.hmi, r.hs, by decide⟩
    rw [formatA_RFC850 r2 _ _ (locName_name loc Z.name) hne, formatA_RFC850 r Z _ rfl hne]
    rw [y2k_id y h850.1 h850.2]

theorem rejB_RFC1123 {y m d h mi s ns : Nat} (r : Rng y m d h mi s ns) (loc : Location)
    (N : GoString) (hN : zoneSigned N = true) :
    parses loc RFC1123Z
      (34 :: ((weekdayString (wk y m d)).take 3 ++ 44 :: 32 :: (d2 d ++ 32 ::
          ((monthString m).take 3 ++ 32 :: (d4 y ++ 32 :: (d2 h ++ 58 :: (d2 mi ++ 58 ::
          (d2 s ++ 32 :: (N ++ [34]))))))))) = false := by
  obtain ⟨sg, a, b, rfl, hsg, ha, hb, hv⟩ := zoneSigned_shape N hN
  apply parses_false_of_isErr
  rw [qchunks_RFC1123Z]
  refine (?_ : ∀ st, IsErr (parseChunks loc _ _ _ _ st)) _
  refine rj_eat (skip_byte 34 _ (by decide))
    (eats_of_eq (fun st => ⟨_, parseStd_weekDay (wk y m d) (wk_lt y m d) _ _ st⟩)) ?_
  refine rj_eat (skip_comma_sp _ (headD_of_headIn (headIn_d2 (d) (by have := r.hd3; omega) _)
      (by decide)))
    (eats_ZD_d2 (d) (by have := r.hd3; omega) _ _) ?_
  refine rj_eat (skip_sp _ (headD_of_headIn (headIn_mon3 m r.hm1 r.hm2 _) (by decide)))
    (eats_of_eq (fun st => ⟨_, parseStd_month m r.hm1 r.hm2 _ _ st⟩)) ?_
  refine rj_eat (skip_sp _ (headD_of_headIn (headIn_d4 y r.hy _) (by decide)))
    (eats_of_eq (fun st => ⟨_, parseStd_longYear y r.hy _ _ st⟩)) ?_
  refine rj_eat (skip_sp _ (headD_of_headIn (headIn_d2 (h) (by have := r.hh; omega) _) (by decide)))
    (eats_H_d2 (h) (by have := r.hh; omega) _ _) ?_
  refine rj_eat (skip_byte 58 _ (by decide))
    (eats_MI_d2 (mi) (by have := r.hmi; omega) _ _) ?_
  refine rj_eat (skip_byte 58 _ (by decide))
    (eats_S_head (s) (by have := r.hs; omega) 32 _ rfl _) ?_
  exact rj_fail (skip_sp _ (by simp only [List.cons_append, List.headD_cons]; omega))
    (fails_NTZ_short sg a b 34 _ rfl _)

/-- The text of a valid time with a four-digit year under `RFC1123`, in a zone
whose abbreviation is a sign and two digits: it needs no escape, `UnmarshalJSON`
decodes it with the tag `RFC1123` to the fields the layout writes, in the zone
`parse` chooses for the abbreviation, and that value has the same text. -/
theorem rtB_RFC1123 {y m d h mi s ns : Nat} (o : Ok y m d h mi s ns) (loc : Location)
    (mt : MultiFormatTime) (Z : Location) (hN : zoneSigned Z.name = true) :
    Safe ((⟨(y : Int), m, d, h, mi, s, ns, Z⟩ : Time).Format RFC1123) ∧
    UnmarshalJSON loc mt (quoted ((⟨(y : Int), m, d, h, mi, s, ns, Z⟩ : Time).Format RFC1123))
      = (⟨⟨(y : Int), m, d, h, mi, s, 0, locName loc Z.name⟩, RFC1123⟩, none) ∧
    ((⟨(y : Int), m, d, h, mi, s, 0, locName loc Z.name⟩ : Time).Format RFC1123
      = (⟨(y : Int), m, d, h, mi, s, ns, Z⟩ : Time).Format RFC1123) := by
  have r := o.rng
  obtain ⟨hne, hs, hh, hg⟩ := zoneSigned_props _ hN
  refine ⟨safeA_RFC1123 r Z _ rfl hne hs, ?_, ?_⟩
  · have hp := parseA_RFC1123 o loc Z.name
      (fun x rest nx st hx => tz_reads_signed2 _ hN x rest nx st hx) hh hne hg
    rw [qformatA_RFC1123 r Z _ rfl hne]
    rw [scan_first loc mt _ RFC1123 _ (by decide) hp ?_]
    · exact onMatch_ne loc mt _ RFC1123 _ (by decide)
    · intro A hA
      have e : A = RFC1123Z := (pairs_second _ hA).2.2.1 rfl
      rw [e]
      exact rejB_RFC1123 r loc _ hN
  · have r2 : Rng (y) m d h mi s 0 :=
      ⟨r.hy, r.hm1, r.hm2, r.hd1, r.hd3, r.hh, r.hmi, r.hs, by decide⟩
    rw [formatA_RFC1123 r2 _ _ (locName_name loc Z.name) hne, formatA_RFC1123 r Z _ rfl hne]

end Mft

namespace Mft
open Std

/-! ## Texts that do not depend on the zone -/

theorem format_free (L : GoString)
    (hL : L ∈ [ANSIC, Kitchen, StampNano, StampMicro, StampMilli, Stamp, DateTime, DateOnly,
      TimeOnly]) {y m d h mi s ns : Nat} (r : Rng y m d h mi s ns) (Z : Location) :
    (⟨(y : Int), m, d, h, mi, s, ns, Z⟩ : Time).Format L
      = (⟨(y : Int), m, d, h, mi, s, ns, UTC⟩ : Time).Format L := by
  simp only [List.mem_cons, List.mem_singleton, List.not_mem_nil, or_false] at hL
  rcases hL with rfl | rfl | rfl | rfl | rfl | rfl | rfl | rfl | rfl
  · rw [format_ANSIC r Z, format_ANSIC r UTC]
  · rw [format_Kitchen r Z, format_Kitchen r UTC]
  · rw [format_StampNano r Z, format_StampNano r UTC]
  · rw [format_StampMicro r Z, format_StampMicro r UTC]
  · rw [format_StampMilli r Z, format_StampMilli r UTC]
  · rw [format_Stamp r Z, format_Stamp r UTC]
  · rw [format_DateTime r Z, format_DateTime r UTC]
  · rw [format_DateOnly r Z, format_DateOnly r UTC]
  · rw [format_TimeOnly r Z, format_TimeOnly r UTC]

theorem format_utcname (L : GoString) (hL : L ∈ abbrZoneLayouts) {y m d h mi s ns : Nat}
    (r : Rng y m d h mi s ns) (Z : Location) (hn : Z.name = B "UTC") :
    (⟨(y : Int), m, d, h, mi, s, ns, Z⟩ : Time).Format L
      = (⟨(y : Int), m, d, h, mi, s, ns, UTC⟩ : Time).Format L := by
  simp only [abbrZoneLayouts, List.mem_cons, List.mem_singleton, List.not_mem_nil, or_false] at hL
  rcases hL with rfl | rfl | rfl | rfl
  · rw [format_UnixDate r Z hn, format_UnixDate r UTC rfl]
  · rw [format_RFC822 r Z hn, format_RFC822 r UTC rfl]
  · rw [format_RFC850 r Z hn, format_RFC850 r UTC rfl]
  · rw [format_RFC1123 r Z hn, format_RFC1123 r UTC rfl]

theorem format_iso0 (L : GoString) (hL : L ∈ isoZoneLayouts) {y m d h mi s ns : Nat}
    (r : Rng y m d h mi s ns) (Z : Location) (h0 : Z.offset = 0) :
    (⟨(y : Int), m, d, h, mi, s, ns, Z⟩ : Time).Format L
      = (⟨(y : Int), m, d, h, mi, s, ns, UTC⟩ : Time).Format L := by
  simp only [isoZoneLayouts, List.mem_cons, List.mem_singleton, List.not_mem_nil, or_false] at hL
  rcases hL with rfl | rfl
  · rw [format_RFC3339 r Z h0, format_RFC3339 r UTC rfl]
  · rw [format_RFC3339Nano r Z h0, format_RFC3339Nano r UTC rfl]

/-! ## Every layout, every zone that is read back -/

/-- What `returns_all` states of a text: it needs no escape, and `UnmarshalJSON`
decodes it to a value, tagged with a layout of the registry, that has the same
text. -/
theorem ret_utc (loc : Location) (mt : MultiFormatTime) (L : GoString) (hL : L ∈ formats)
    {y m d h mi s ns : Nat} (o : Ok y m d h mi s ns) (Z : Location)
    (he : (⟨(y : Int), m, d, h, mi, s, ns, Z⟩ : Time).Format L
      = (⟨(y : Int), m, d, h, mi, s, ns, UTC⟩ : Time).Format L)
    (h850 : L = RFC850 → 1969 ≤ y ∧ y ≤ 2068) :
    Safe ((⟨(y : Int), m, d, h, mi, s, ns, Z⟩ : Time).Format L) ∧
    ∃ P tag, tag ∈ formats ∧
      UnmarshalJSON loc mt (quoted ((⟨(y : Int), m, d, h, mi, s, ns, Z⟩ : Time).Format L))
        = (⟨P, tag⟩, none) ∧
      P.Format tag = (⟨(y : Int), m, d, h, mi, s, ns, Z⟩ : Time).Format L := by
  obtain ⟨P, -, hu, hf⟩ := roundtrip_all loc mt L hL o
  rw [he]
  refine ⟨safe_all L hL o.rng, P, _, ?_, hu, hf h850⟩
  split
  · decide
  · exact hL

theorem ret_num (loc : Location) (mt : MultiFormatTime) (L : GoString)
    (hL : L ∈ numZoneLayouts) {y m d h mi s ns : Nat} (o : Ok y m d h mi s ns) (Z : Location)
    (hz : zoneMinutes Z.offset < 1500) :
    Safe ((⟨(y : Int), m, d, h, mi, s, ns, Z⟩ : Time).Format L) ∧
    ∃ P tag, tag ∈ formats ∧
      UnmarshalJSON loc mt (quoted ((⟨(y : Int), m, d, h, mi, s, ns, Z⟩ : Time).Format L))
        = (⟨P, tag⟩, none) ∧
      P.Format tag = (⟨(y : Int), m, d, h, mi, s, ns, Z⟩ : Time).Format L := by
  simp only [numZoneLayouts, List.mem_cons, List.mem_singleton, List.not_mem_nil, or_false] at hL
  rcases hL with rfl | rfl | rfl | rfl
  · obtain ⟨h1, h2, h3⟩ := rtN_Layout o loc mt Z hz
    exact ⟨h1, _, _, by decide, h2, h3⟩
  · obtain ⟨h1, h2, h3⟩ := rtN_RubyDate o loc mt Z hz
    exact ⟨h1, _, _, by decide, h2, h3⟩
  · obtain ⟨h1, h2, h3⟩ := rtN_RFC822Z o loc mt Z hz
    exact ⟨h1, _, _, by decide, h2, h3⟩
  · obtain ⟨h1, h2, h3⟩ := rtN_RFC1123Z o loc mt Z hz
    exact ⟨h1, _, _, by decide, h2, h3⟩

theorem mem_formats_of_iso (L : GoString) (hL : L ∈ isoZoneLayouts) : L ∈ formats := by
  revert L
  decide

theorem mem_formats_of_abbr (L : GoString) (hL : L ∈ abbrZoneLayouts) : L ∈ formats := by
  revert L
  decide

theorem ret_iso (loc : Location) (mt : MultiFormatTime) (L : GoString)
    (hL : L ∈ isoZoneLayouts) {y m d h mi s ns : Nat} (o : Ok y m d h mi s ns) (Z : Location)
    (hz : Z.offset = 0 ∨ (0 < zoneMinutes Z.offset ∧ zoneMinutes Z.offset < 1500)) :
    Safe ((⟨(y : Int), m, d, h, mi, s, ns, Z⟩ : Time).Format L) ∧
    ∃ P tag, tag ∈ formats ∧
      UnmarshalJSON loc mt (quoted ((⟨(y : Int), m, d, h, mi, s, ns, Z⟩ : Time).Format L))
        = (⟨P, tag⟩, none) ∧
      P.Format tag = (⟨(y : Int), m, d, h, mi, s, ns, Z⟩ : Time).Format L := by
  rcases hz with h0 | ⟨hz0, hz⟩
  · refine ret_utc loc mt L (mem_formats_of_iso L hL) o Z (format_iso0 L hL o.rng Z h0) ?_
    intro e
    rw [e] at hL
    exact absurd hL (by decide)
  · simp only [isoZoneLayouts, List.mem_cons, List.mem_singleton, List.not_mem_nil,
      or_false] at hL
    rcases hL with rfl | rfl
    · obtain ⟨h1, h2, h3⟩ := rtI_RFC3339 o loc mt Z hz0 hz
      exact ⟨h1, _, _, by decide, h2, h3⟩
    · obtain ⟨h1, h2, h3⟩ := rtI_RFC3339Nano o loc mt Z hz0 hz
      refine ⟨h1, _, _, ?_, h2, h3⟩
      split <;> decide

theorem ret_abbr0 (loc : Location) (mt : MultiFormatTime) (L : GoString)
    (hL : L ∈ abbrZoneLayouts) {y m d h mi s ns : Nat} (o : Ok y m d h mi s ns) (Z : Location)
    (hz : Z.name = B "UTC" ∨ zoneAbbr Z.name = true ∨
      (Z.name = [] ∧ if L = RFC822 ∨ L = RFC1123 ∨ (L = UnixDate ∧ 10 ≤ d)
        then zoneMinutes Z.offset < 1500 else zoneMinutes Z.offset < 24))
    (h850 : L = RFC850 → 1969 ≤ y ∧ y ≤ 2068) :
    Safe ((⟨(y : Int), m, d, h, mi, s, ns, Z⟩ : Time).Format L) ∧
    ∃ P tag, tag ∈ formats ∧
      UnmarshalJSON loc mt (quoted ((⟨(y : Int), m, d, h, mi, s, ns, Z⟩ : Time).Format L))
        = (⟨P, tag⟩, none) ∧
      P.Format tag = (⟨(y : Int), m, d, h, mi, s, ns, Z⟩ : Time).Format L := by
  have r := o.rng
  rcases hz with hn | hN | ⟨hn, hz⟩
  · exact ret_utc loc mt L (mem_formats_of_abbr L hL) o Z (format_utcname L hL o.rng Z hn) h850
  · simp only [abbrZoneLayouts, List.mem_cons, List.mem_singleton, List.not_mem_nil,
      or_false] at hL
    rcases hL with rfl | rfl | rfl | rfl
    · obtain ⟨h1, h2, h3⟩ := rtA_UnixDate o loc mt Z hN
      exact ⟨h1, _, _, by decide, h2, h3⟩
    · obtain ⟨h1, h2, h3⟩ := rtA_RFC822 o loc mt Z hN
      exact ⟨h1, _, _, by decide, h2, h3⟩
    · obtain ⟨h1, h2, h3⟩ := rtA_RFC850 o loc mt Z hN
      exact ⟨h1, _, _, by decide, h2, h3 (h850 rfl)⟩
    · obtain ⟨h1, h2, h3⟩ := rtA_RFC1123 o loc mt Z hN
      exact ⟨h1, _, _, by decide, h2, h3⟩
  · simp only [abbrZoneLayouts, List.mem_cons, List.mem_singleton, List.not_mem_nil,
      or_false] at hL
    rcases hL with rfl | rfl | rfl | rfl
    · by_cases hd : 10 ≤ d
      · rw [if_pos (Or.inr (Or.inr ⟨rfl, hd⟩))] at hz
        rw [format_UnixDate_unnamed r Z hn (by omega) hd]
        obtain ⟨h1, h2, h3⟩ := rtN_RubyDate o loc mt Z hz
        exact ⟨h1, _, _, by decide, h2, h3⟩
      · have hc : ¬ (UnixDate = RFC822 ∨ UnixDate = RFC1123 ∨ (UnixDate = UnixDate ∧ 10 ≤ d)) := by
          rintro (e | e | ⟨-, e⟩)
          · exact absurd e (by decide)
          · exact absurd e (by decide)
          · exact hd e
        rw [if_neg hc] at hz
        obtain ⟨h1, h2, h3⟩ := rtS_UnixDate o loc mt Z hn hz (by omega)
        exact ⟨h1, _, _, by decide, h2, h3⟩
    · rw [if_pos (Or.inl rfl)] at hz
      rw [format_RFC822_unnamed r Z hn (by omega)]
      obtain ⟨h1, h2, h3⟩ := rtN_RFC822Z o loc mt Z hz
      exact ⟨h1, _, _, by decide, h2, h3⟩
    · have hc : ¬ (RFC850 = RFC822 ∨ RFC850 = RFC1123 ∨ (RFC850 = UnixDate ∧ 10 ≤ d)) := by
        rintro (e | e | ⟨e, -⟩) <;> exact absurd e (by decide)
      rw [if_neg hc] at hz
      obtain ⟨h1, h2, h3⟩ := rtS_RFC850 o loc mt Z hn hz
      exact ⟨h1, _, _, by decide, h2, h3 (h850 rfl)⟩
    · rw [if_pos (Or.inr (Or.inl rfl))] at hz
      rw [format_RFC1123_unnamed r Z hn (by omega)]
      obtain ⟨h1, h2, h3⟩ := rtN_RFC1123Z o loc mt Z hz
      exact ⟨h1, _, _, by decide, h2, h3⟩

/-- An abbreviation that spells a numeric offset is written as the offset of a
zone without abbreviation. -/
theorem format_spelled (L : GoString) (hL : L ∈ abbrZoneLayouts) {y m d h mi s ns : Nat}
    (r : Rng y m d h mi s ns) (Z : Location) (hne : Z.name ≠ []) (o2 : Int)
    (hN : Z.name = zoneText o2) (hz : zoneMinutes o2 < 6000) :
    (⟨(y : Int), m, d, h, mi, s, ns, Z⟩ : Time).Format L
      = (⟨(y : Int), m, d, h, mi, s, ns, FixedZone [] o2⟩ : Time).Format L := by
  have e : formatStd ⟨(y : Int), m, d, h, mi, s, ns, FixedZone [] o2⟩ stdTZ = Z.name := by
    rw [fmt_TZ_unnamed r (FixedZone [] o2) rfl hz, hN]
    rfl
  simp only [abbrZoneLayouts, List.mem_cons, List.mem_singleton, List.not_mem_nil, or_false] at hL
  rcases hL with rfl | rfl | rfl | rfl
  · rw [formatG_UnixDate r Z _ (fmt_TZ_name r Z _ rfl hne), formatG_UnixDate r _ _ e]
  · rw [formatG_RFC822 r Z _ (fmt_TZ_name r Z _ rfl hne), formatG_RFC822 r _ _ e]
  · rw [formatG_RFC850 r Z _ (fmt_TZ_name r Z _ rfl hne), formatG_RFC850 r _ _ e]
  · rw [formatG_RFC1123 r Z _ (fmt_TZ_name r Z _ rfl hne), formatG_RFC1123 r _ _ e]

theorem ret_signed (loc : Location) (mt : MultiFormatTime) (L : GoString)
    (hL : L ∈ abbrZoneLayouts) {y m d h mi s ns : Nat} (o : Ok y m d h mi s ns) (Z : Location)
    (hN : zoneSigned Z.name = true) (h850 : L = RFC850 → 1969 ≤ y ∧ y ≤ 2068) :
    Safe ((⟨(y : Int), m, d, h, mi, s, ns, Z⟩ : Time).Format L) ∧
    ∃ P tag, tag ∈ formats ∧
      UnmarshalJSON loc mt (quoted ((⟨(y : Int), m, d, h, mi, s, ns, Z⟩ : Time).Format L))
        = (⟨P, tag⟩, none) ∧
      P.Format tag = (⟨(y : Int), m, d, h, mi, s, ns, Z⟩ : Time).Format L := by
  simp only [abbrZoneLayouts, List.mem_cons, List.mem_singleton, List.not_mem_nil,
    or_false] at hL
  rcases hL with rfl | rfl | rfl | rfl
  · obtain ⟨h1, h2, h3⟩ := rtB_UnixDate o loc mt Z hN
    exact ⟨h1, _, _, by decide, h2, h3⟩
  · obtain ⟨h1, h2, h3⟩ := rtB_RFC822 o loc mt Z hN
    exact ⟨h1, _, _, by decide, h2, h3⟩
  · obtain ⟨h1, h2, h3⟩ := rtB_RFC850 o loc mt Z hN
    exact ⟨h1, _, _, by decide, h2, h3 (h850 rfl)⟩
  · obtain ⟨h1, h2, h3⟩ := rtB_RFC1123 o loc mt Z hN
    exact ⟨h1, _, _, by decide, h2, h3⟩

theorem ret_abbr (loc : Location) (mt : MultiFormatTime) (L : GoString)
    (hL : L ∈ abbrZoneLayouts) {y m d h mi s ns : Nat} (o : Ok y m d h mi s ns) (Z : Location)
    (hz : Z.name = B "UTC" ∨ zoneAbbr Z.name = true ∨ zoneSigned Z.name = true ∨
      (zoneNumeric Z = true ∧ if L = RFC822 ∨ L = RFC1123 ∨ (L = UnixDate ∧ 10 ≤ d)
        then zoneMinutes (zoneWritten Z) < 1500 else zoneMinutes (zoneWritten Z) < 24))
    (h850 : L = RFC850 → 1969 ≤ y ∧ y ≤ 2068) :
    Safe ((⟨(y : Int), m, d, h, mi, s, ns, Z⟩ : Time).Format L) ∧
    ∃ P tag, tag ∈ formats ∧
      UnmarshalJSON loc mt (quoted ((⟨(y : Int), m, d, h, mi, s, ns, Z⟩ : Time).Format L))
        = (⟨P, tag⟩, none) ∧
      P.Format tag = (⟨(y : Int), m, d, h, mi, s, ns, Z⟩ : Time).Format L := by
  rcases hz with hn | hN | hS | ⟨hnum, hz⟩
  · exact ret_abbr0 loc mt L hL o Z (Or.inl hn) h850
  · exact ret_abbr0 loc mt L hL o Z (Or.inr (Or.inl hN)) h850
  · exact ret_signed loc mt L hL o Z hS h850
  · by_cases hn : Z.name = []
    · have hw : zoneWritten Z = Z.offset := by rw [zoneWritten, if_pos hn]
      rw [hw] at hz
      exact ret_abbr0 loc mt L hL o Z (Or.inr (Or.inr ⟨hn, hz⟩)) h850
    · have hw : zoneWritten Z = zoneValue Z.name := by rw [zoneWritten, if_neg hn]
      rw [hw] at hz
      have hsp : Z.name = zoneText (zoneValue Z.name) := by
        simpa [zoneNumeric, hn] using hnum
      have hb : zoneMinutes (zoneValue Z.name) < 6000 := by
        split_ifs at hz <;> omega
      rw [format_spelled L hL o.rng Z hn _ hsp hb]
      exact ret_abbr0 loc mt L hL o (FixedZone [] (zoneValue Z.name)) (Or.inr (Or.inr ⟨rfl, hz⟩)) h850

theorem formats_classes (L : GoString) (hL : L ∈ formats) :
    L ∈ numZoneLayouts ∨ L ∈ isoZoneLayouts ∨ L ∈ abbrZoneLayouts ∨
    ((L ∉ numZoneLayouts ∧ L ∉ isoZoneLayouts ∧ L ∉ abbrZoneLayouts) ∧
      L ∈ [ANSIC, Kitchen, StampNano, StampMicro, StampMilli, Stamp, DateTime, DateOnly,
        TimeOnly]) := by
  revert L
  decide

theorem classes_disjoint (L : GoString) :
    (L ∈ isoZoneLayouts → L ∉ numZoneLayouts) ∧
    (L ∈ abbrZoneLayouts → L ∉ numZoneLayouts ∧ L ∉ isoZoneLayouts) := by
  constructor
  · intro h
    revert L
    decide
  · intro h
    revert L
    decide

/-- For a valid time with a four-digit year and a layout of the registry, in a
zone that is read back: the text of the time under the layout needs no escape,
and `UnmarshalJSON` decodes it to a value, tagged with a layout of the registry,
that has the same text (under `RFC850` when the year is in the century `parse`
assumes). -/
theorem returns_all (loc : Location) (mt : MultiFormatTime) (L : GoString) (hL : L ∈ formats)
    {y m d h mi s ns : Nat} (o : Ok y m d h mi s ns) (Z : Location)
    (hz : zoneReturns L ⟨(y : Int), m, d, h, mi, s, ns, Z⟩ = true)
    (h850 : L = RFC850 → 1969 ≤ y ∧ y ≤ 2068) :
    Safe ((⟨(y : Int), m, d, h, mi, s, ns, Z⟩ : Time).Format L) ∧
    ∃ P tag, tag ∈ formats ∧
      UnmarshalJSON loc mt (quoted ((⟨(y : Int), m, d, h, mi, s, ns, Z⟩ : Time).Format L))
        = (⟨P, tag⟩, none) ∧
      P.Format tag = (⟨(y : Int), m, d, h, mi, s, ns, Z⟩ : Time).Format L := by
  rcases formats_classes L hL with hc | hc | hc | ⟨⟨n1, n2, n3⟩, hc⟩
  · rw [zoneReturns, if_pos hc] at hz
    exact ret_num loc mt L hc o Z (of_decide_eq_true hz)
  · rw [zoneReturns, if_neg ((classes_disjoint L).1 hc), if_pos hc] at hz
    refine ret_iso loc mt L hc o Z ?_
    simpa using hz
  · obtain ⟨n1, n2⟩ := (classes_disjoint L).2 hc
    rw [zoneReturns, if_neg n1, if_neg n2, if_pos hc] at hz
    refine ret_abbr loc mt L hc o Z ?_ h850
    simp only [Bool.or_eq_true, decide_eq_true_eq, Bool.and_eq_true] at hz
    rcases hz with ((h | h) | h) | ⟨h1, h2⟩
    · exact Or.inl h
    · exact Or.inr (Or.inl h)
    · exact Or.inr (Or.inr (Or.inl h))
    · refine Or.inr (Or.inr (Or.inr ⟨h1, ?_⟩))
      split_ifs at h2 ⊢ with hc2
      · exact of_decide_eq_true h2
      · exact of_decide_eq_true h2
  · refine ret_utc loc mt L hL o Z (format_free L hc o.rng Z) ?_
    intro e
    rw [e] at n3
    exact absurd (show RFC850 ∈ abbrZoneLayouts by decide) n3

end Mft

namespace Mft
open Std

/-! ## From valid times to their fields -/

/-- A valid time with a year from 0 to 9999, by its fields, in its own zone. -/
theorem time_fields_loc (t : Time) (hv : t.Valid) (hy0 : 0 ≤ t.year) (hy1 : t.year ≤ 9999) :
    t = ⟨((t.year.toNat : Nat) : Int), t.month, t.day, t.hour, t.min, t.sec, t.nsec, t.loc⟩
      ∧ Ok t.year.toNat t.month t.day t.hour t.min t.sec t.nsec := by
  obtain ⟨h1, h2, h3, h4, h5, h6, h7, h8⟩ := hv
  have e : ((t.year.toNat : Nat) : Int) = t.year := Int.toNat_of_nonneg hy0
  constructor
  · cases t
    simp only [Time.mk.injEq, true_and, and_true]
    exact e.symm
  · refine ⟨⟨by omega, h1, h2, h3, ?_, h5, h6, h7, h8⟩, ?_⟩
    · exact le_trans h4 (daysIn_le31 _ _ h1 h2)
    · rw [e]; exact h4

/-- The bytes `MarshalJSON` returns for a text that needs no escape. -/
theorem marshal_safe (t : Time) (L : GoString) (hne : L ≠ []) (hs : Safe (t.Format L)) :
    MarshalJSON ⟨t, L⟩ = (quoted (t.Format L), none) := by
  unfold MarshalJSON
  rw [if_pos hne]
  exact jsonMarshal_safe _ hs

/-- The text of a valid time with a year from 0 to 9999 under a layout of the
registry, in a zone that is read back: `MarshalJSON` returns it in quotes, and
`UnmarshalJSON` decodes these bytes to a value of which `MarshalJSON` returns the
same bytes. -/
theorem returns_time (loc : Location) (mt : MultiFormatTime) (L : GoString) (hL : L ∈ formats)
    (t : Time) (hv : t.Valid) (hy0 : 0 ≤ t.year) (hy1 : t.year ≤ 9999)
    (h850 : L = RFC850 → 1969 ≤ t.year ∧ t.year ≤ 2068) (hz : zoneReturns L t = true) :
    MarshalJSON ⟨t, L⟩ = (quoted (t.Format L), none) ∧
    ∃ mt2, UnmarshalJSON loc mt (quoted (t.Format L)) = (mt2, none)
      ∧ MarshalJSON mt2 = (quoted (t.Format L), none) := by
  obtain ⟨ht, o⟩ := time_fields_loc t hv hy0 hy1
  rw [ht] at hz
  obtain ⟨hs, P, tag, htag, hu, hf⟩ := returns_all loc mt L hL o t.loc hz
    (fun h => by have := h850 h; omega)
  rw [← ht] at hs hu hf
  refine ⟨marshal_safe t L (formats_ne_nil L hL) hs, ⟨P, tag⟩, hu, ?_⟩
  rw [← hf] at hs ⊢
  exact marshal_safe P tag (formats_ne_nil tag htag) hs

end Mft

namespace Mft
open Std

/-! ## A numeric offset read as a zone abbreviation -/

theorem zoneText_below (o : Int) (h : zoneMinutes o < 24) :
    zoneText o = zoneSign o :: (d2 0 ++ d2 (zoneMinutes o)) := by
  have e1 : zoneMinutes o / 60 = 0 := by omega
  have e2 : zoneMinutes o % 60 = zoneMinutes o := by omega
  rw [zoneText, e1, e2]

/-- The zone for which the element `MST` writes a numeric offset, as a zone
without abbreviation: the text under a layout with a zone abbreviation is the
same. -/
theorem format_written (L : GoString) (hL : L ∈ abbrZoneLayouts) {y m d h mi s ns : Nat}
    (r : Rng y m d h mi s ns) (Z : Location) (hn : zoneNumeric Z = true)
    (hz : zoneMinutes (zoneWritten Z) < 6000) :
    (⟨(y : Int), m, d, h, mi, s, ns, Z⟩ : Time).Format L
      = (⟨(y : Int), m, d, h, mi, s, ns, FixedZone [] (zoneWritten Z)⟩ : Time).Format L := by
  by_cases h0 : Z.name = []
  · have hw : zoneWritten Z = Z.offset := by rw [zoneWritten, if_pos h0]
    have e1 : formatStd ⟨(y : Int), m, d, h, mi, s, ns, Z⟩ stdTZ = zoneText Z.offset :=
      fmt_TZ_unnamed r Z h0 (by rw [← hw]; exact hz)
    have e2 : formatStd ⟨(y : Int), m, d, h, mi, s, ns, FixedZone [] (zoneWritten Z)⟩ stdTZ
        = zoneText Z.offset := by
      rw [fmt_TZ_unnamed r (FixedZone [] (zoneWritten Z)) rfl hz, hw]
      rfl
    simp only [abbrZoneLayouts, List.mem_cons, List.mem_singleton, List.not_mem_nil,
      or_false] at hL
    rcases hL with rfl | rfl | rfl | rfl
    · rw [formatG_UnixDate r Z _ e1, formatG_UnixDate r _ _ e2]
    · rw [formatG_RFC822 r Z _ e1, formatG_RFC822 r _ _ e2]
    · rw [formatG_RFC850 r Z _ e1, formatG_RFC850 r _ _ e2]
    · rw [formatG_RFC1123 r Z _ e1, formatG_RFC1123 r _ _ e2]
  · have hw : zoneWritten Z = zoneValue Z.name := by rw [zoneWritten, if_neg h0]
    have hsp : Z.name = zoneText (zoneValue Z.name) := by
      simpa [zoneNumeric, h0] using hn
    rw [hw] at hz ⊢
    exact format_spelled L hL r Z h0 _ hsp hz

/-- The text of a valid time with a four-digit year under `UnixDate`, before the
tenth day of the month, in a zone for which a numeric offset below 24 minutes is
written: it needs no escape, and `UnmarshalJSON` decodes it with the tag
`UnixDate`, reading the numeric text as an abbreviation. -/
theorem rtT_UnixDate {y m d h mi s ns : Nat} (o : Ok y m d h mi s ns) (loc : Location)
    (mt : MultiFormatTime) (Z : Location) (hn : zoneNumeric Z = true)
    (hz : zoneMinutes (zoneWritten Z) < 24) (hd : d < 10) :
    Safe ((⟨(y : Int), m, d, h, mi, s, ns, Z⟩ : Time).Format UnixDate) ∧
    UnmarshalJSON loc mt (quoted ((⟨(y : Int), m, d, h, mi, s, ns, Z⟩ : Time).Format UnixDate))
      = (⟨⟨(y : Int), m, d, h, mi, s, 0, locName loc (zoneText (zoneWritten Z))⟩, UnixDate⟩,
          none) := by
  rw [format_written UnixDate (by decide) o.rng Z hn (by omega), zoneText_below _ hz]
  obtain ⟨h1, h2, -⟩ := rtS_UnixDate o loc mt (FixedZone [] (zoneWritten Z)) rfl hz hd
  exact ⟨h1, h2⟩

/-- The text of a valid time with a four-digit year under `RFC850`, in a zone for
which a numeric offset below 24 minutes is written: it needs no escape, and
`UnmarshalJSON` decodes it with the tag `RFC850`, reading the numeric text as an
abbreviation. -/
theorem rtT_RFC850 {y m d h mi s ns : Nat} (o : Ok y m d h mi s ns) (loc : Location)
    (mt : MultiFormatTime) (Z : Location) (hn : zoneNumeric Z = true)
    (hz : zoneMinutes (zoneWritten Z) < 24) :
    Safe ((⟨(y : Int), m, d, h, mi, s, ns, Z⟩ : Time).Format RFC850) ∧
    UnmarshalJSON loc mt (quoted ((⟨(y : Int), m, d, h, mi, s, ns, Z⟩ : Time).Format RFC850))
      = (⟨⟨((y2k (y % 100) : Nat) : Int), m, d, h, mi, s, 0,
            locName loc (zoneText (zoneWritten Z))⟩, RFC850⟩, none) := by
  rw [format_written RFC850 (by decide) o.rng Z hn (by omega), zoneText_below _ hz]
  obtain ⟨h1, h2, -⟩ := rtS_RFC850 o loc mt (FixedZone [] (zoneWritten Z)) rfl hz
  exact ⟨h1, h2⟩

end Mft

namespace Mft
open Std

/-! ## The decoded instant, layout by layout -/

theorem zoneRound_exact (o : Int) (h : o % 60 = 0) : zoneRound o = o := by
  unfold zoneRound
  exact Int.tdiv_mul_cancel (Int.dvd_of_emod_eq_zero h)

theorem zoneMinutes_pos (o : Int) (h0 : o ≠ 0) (h : o % 60 = 0) : 0 < zoneMinutes o := by
  have e := zoneRound_exact o h
  unfold zoneRound at e
  unfold zoneMinutes
  omega

/-- Two times with the same fields in zones with the same offset are the same
instant. -/
theorem equal_fields (y : Int) (m d h mi s ns : Nat) (Z1 Z2 : Location)
    (hz : Z1.offset = Z2.offset) :
    (⟨y, m, d, h, mi, s, ns, Z1⟩ : Time).Equal ⟨y, m, d, h, mi, s, ns, Z2⟩ := by
  simp only [Time.Equal, Time.Unix, hz, and_self]

theorem ex_Layout {y m d h mi s ns : Nat} (o : Ok y m d h mi s ns) (loc : Location)
    (mt : MultiFormatTime) (Z : Location)
    (hex : exactUnder loc Layout ⟨(y : Int), m, d, h, mi, s, ns, Z⟩ = true) :
    Safe ((⟨(y : Int), m, d, h, mi, s, ns, Z⟩ : Time).Format Layout) ∧
    ∃ t2, UnmarshalJSON loc mt (quoted ((⟨(y : Int), m, d, h, mi, s, ns, Z⟩ : Time).Format Layout))
        = (⟨t2, if Layout = RFC3339Nano ∧ ns = 0 then RFC3339 else Layout⟩, none) ∧
      t2.Equal (⟨(y : Int), m, d, h, mi, s, ns, Z⟩ : Time) := by
  have r := o.rng
  have c1 : (Layout = RFC3339Nano ∨ Layout = StampNano) = False := eq_false (by decide)
  have c2 : (Layout = StampMicro) = False := eq_false (by decide)
  have c3 : (Layout = StampMilli) = False := eq_false (by decide)
  have c4 : (Layout ∈ [Kitchen, RFC822Z, RFC822, DateOnly]) = False := eq_false (by decide)
  have c5 : (Layout = DateOnly) = False := eq_false (by decide)
  have c6 : (Layout ∈ [Kitchen, TimeOnly]) = False := eq_false (by decide)
  have c7 : (Layout ∈ yearlessLayouts) = False := eq_false (by decide)
  have c8 : (Layout ∈ shortYearLayouts) = True := eq_true (by decide)
  have z1 : (Layout ∈ numZoneLayouts ∨ Layout ∈ isoZoneLayouts) = True := eq_true (by decide)
  have z2 : (Layout ∈ abbrZoneLayouts) = False := eq_false (by decide)
  have z3 : (Layout = RFC850) = False := eq_false (by decide)
  have z4 : (Layout = UnixDate) = False := eq_false (by decide)
  simp only [exactUnder, Bool.and_eq_true] at hex
  obtain ⟨hf, hzx⟩ := hex
  simp only [fieldsExact, c1, c2, c3, c4, c5, c6, c7, c8, if_true, if_false, Bool.and_eq_true,
    decide_eq_true_eq, Bool.true_and, Bool.and_true, true_and, and_true, and_assoc] at hf
  simp only [zoneExact, z1, z2, z3, z4, if_true, if_false, Bool.and_eq_true, Bool.or_eq_true,
    decide_eq_true_eq, true_and, and_true, false_and, and_false, or_false, false_or, true_or,
    decide_False, decide_True, Bool.false_eq_true, Bool.and_false, Bool.false_and,
    Bool.or_false, Bool.true_and, Bool.and_true] at hzx
  obtain ⟨hns, hya, hyb⟩ := hf
  have hyk : y2k (y % 100) = y := y2k_id y (by omega) (by omega)
  obtain ⟨hzm, hzb⟩ := hzx
  rw [if_neg (fun hc => absurd hc.1 (show ¬ Layout = RFC3339Nano by decide))]
  obtain ⟨h1, h2, -⟩ := rtN_Layout o loc mt Z hzb
  refine ⟨h1, _, h2, ?_⟩
  rw [hyk]
  subst hns
  exact equal_fields _ _ _ _ _ _ _ _ _ (by rw [locOff_offset, zoneRound_exact _ hzm])

theorem ex_ANSIC {y m d h mi s ns : Nat} (o : Ok y m d h mi s ns) (loc : Location)
    (mt : MultiFormatTime) (Z : Location)
    (hex : exactUnder loc ANSIC ⟨(y : Int), m, d, h, mi, s, ns, Z⟩ = true) :
    Safe ((⟨(y : Int), m, d, h, mi, s, ns, Z⟩ : Time).Format ANSIC) ∧
    ∃ t2, UnmarshalJSON loc mt (quoted ((⟨(y : Int), m, d, h, mi, s, ns, Z⟩ : Time).Format ANSIC))
        = (⟨t2, if ANSIC = RFC3339Nano ∧ ns = 0 then RFC3339 else ANSIC⟩, none) ∧
      t2.Equal (⟨(y : Int), m, d, h, mi, s, ns, Z⟩ : Time) := by
  have r := o.rng
  have c1 : (ANSIC = RFC3339Nano ∨ ANSIC = StampNano) = False := eq_false (by decide)
  have c2 : (ANSIC = StampMicro) = False := eq_false (by decide)
  have c3 : (ANSIC = StampMilli) = False := eq_false (by decide)
  have c4 : (ANSIC ∈ [Kitchen, RFC822Z, RFC822, DateOnly]) = False := eq_false (by decide)
  have c5 : (ANSIC = DateOnly) = False := eq_false (by decide)
  have c6 : (ANSIC ∈ [Kitchen, TimeOnly]) = False := eq_false (by decide)
  have c7 : (ANSIC ∈ yearlessLayouts) = False := eq_false (by decide)
  have c8 : (ANSIC ∈ shortYearLayouts) = False := eq_false (by decide)
  have z1 : (ANSIC ∈ numZoneLayouts ∨ ANSIC ∈ isoZoneLayouts) = False := eq_false (by decide)
  have z2 : (ANSIC ∈ abbrZoneLayouts) = False := eq_false (by decide)
  have z3 : (ANSIC = RFC850) = False := eq_false (by decide)
  have z4 : (ANSIC = UnixDate) = False := eq_false (by decide)
  simp only [exactUnder, Bool.and_eq_true] at hex
  obtain ⟨hf, hzx⟩ := hex
  simp only [fieldsExact, c1, c2, c3, c4, c5, c6, c7, c8, if_true, if_false, Bool.and_eq_true,
    decide_eq_true_eq, Bool.true_and, Bool.and_true, true_and, and_true, and_assoc] at hf
  simp only [zoneExact, z1, z2, z3, z4, if_true, if_false, Bool.and_eq_true, Bool.or_eq_true,
    decide_eq_true_eq, true_and, and_true, false_and, and_false, or_false, false_or, true_or,
    decide_False, decide_True, Bool.false_eq_true, Bool.and_false, Bool.false_and,
    Bool.or_false, Bool.true_and, Bool.and_true] at hzx
  obtain ⟨hns, hya, hyb⟩ := hf
  rw [if_neg (fun hc => absurd hc.1 (show ¬ ANSIC = RFC3339Nano by decide))]
  have he := format_free ANSIC (by decide) r Z
  have hp0 : Parse loc (quoted ANSIC) (quoted ((⟨(y : Int), m, d, h, mi, s, ns, UTC⟩ : Time).Format ANSIC))
      = .ok ⟨(y : Int), m, d, h, mi, s, 0, UTC⟩ := by
    rw [qformat_ANSIC r UTC]
    exact parse_ANSIC o loc
  obtain ⟨P, hp, hu, -⟩ := roundtrip_all loc mt ANSIC (by decide) o
  rw [hp0] at hp
  cases hp
  rw [he]
  refine ⟨safe_all ANSIC (by decide) r, _, hu, ?_⟩
  subst hns
  exact equal_fields _ _ _ _ _ _ _ _ _ (by rw [hzx]; rfl)

theorem ex_RubyDate {y m d h mi s ns : Nat} (o : Ok y m d h mi s ns) (loc : Location)
    (mt : MultiFormatTime) (Z : Location)
    (hex : exactUnder loc RubyDate ⟨(y : Int), m, d, h, mi, s, ns, Z⟩ = true) :
    Safe ((⟨(y : Int), m, d, h, mi, s, ns, Z⟩ : Time).Format RubyDate) ∧
    ∃ t2, UnmarshalJSON loc mt (quoted ((⟨(y : Int), m, d, h, mi, s, ns, Z⟩ : Time).Format RubyDate))
        = (⟨t2, if RubyDate = RFC3339Nano ∧ ns = 0 then RFC3339 else RubyDate⟩, none) ∧
      t2.Equal (⟨(y : Int), m, d, h, mi, s, ns, Z⟩ : Time) := by
  have r := o.rng
  have c1 : (RubyDate = RFC3339Nano ∨ RubyDate = StampNano) = False := eq_false (by decide)
  have c2 : (RubyDate = StampMicro) = False := eq_false (by decide)
  have c3 : (RubyDate = StampMilli) = False := eq_false (by decide)
  have c4 : (RubyDate ∈ [Kitchen, RFC822Z, RFC822, DateOnly]) = False := eq_false (by decide)
  have c5 : (RubyDate = DateOnly) = False := eq_false (by decide)
  have c6 : (RubyDate ∈ [Kitchen, TimeOnly]) = False := eq_false (by decide)
  have c7 : (RubyDate ∈ yearlessLayouts) = False := eq_false (by decide)
  have c8 : (RubyDate ∈ shortYearLayouts) = False := eq_false (by decide)
  have z1 : (RubyDate ∈ numZoneLayouts ∨ RubyDate ∈ isoZoneLayouts) = True := eq_true (by decide)
  have z2 : (RubyDate ∈ abbrZoneLayouts) = False := eq_false (by decide)
  have z3 : (RubyDate = RFC850) = False := eq_false (by decide)
  have z4 : (RubyDate = UnixDate) = False := eq_false (by decide)
  simp only [exactUnder, Bool.and_eq_true] at hex
  obtain ⟨hf, hzx⟩ := hex
  simp only [fieldsExact, c1, c2, c3, c4, c5, c6, c7, c8, if_true, if_false, Bool.and_eq_true,
    decide_eq_true_eq, Bool.true_and, Bool.and_true, true_and, and_true, and_assoc] at hf
  simp only [zoneExact, z1, z2, z3, z4, if_true, if_false, Bool.and_eq_true, Bool.or_eq_true,
    decide_eq_true_eq, true_and, and_true, false_and, and_false, or_false, false_or, true_or,
    decide_False, decide_True, Bool.false_eq_true, Bool.and_false, Bool.false_and,
    Bool.or_false, Bool.true_and, Bool.and_true] at hzx
  obtain ⟨hns, hya, hyb⟩ := hf
  obtain ⟨hzm, hzb⟩ := hzx
  rw [if_neg (fun hc => absurd hc.1 (show ¬ RubyDate = RFC3339Nano by decide))]
  obtain ⟨h1, h2, -⟩ := rtN_RubyDate o loc mt Z hzb
  refine ⟨h1, _, h2, ?_⟩
  subst hns
  exact equal_fields _ _ _ _ _ _ _ _ _ (by rw [locOff_offset, zoneRound_exact _ hzm])

theorem ex_UnixDate {y m d h mi s ns : Nat} (o : Ok y m d h mi s ns) (loc : Location)
    (mt : MultiFormatTime) (Z : Location)
    (hex : exactUnder loc UnixDate ⟨(y : Int), m, d, h, mi, s, ns, Z⟩ = true) :
    Safe ((⟨(y : Int), m, d, h, mi, s, ns, Z⟩ : Time).Format UnixDate) ∧
    ∃ t2, UnmarshalJSON loc mt (quoted ((⟨(y : Int), m, d, h, mi, s, ns, Z⟩ : Time).Format UnixDate))
        = (⟨t2, if UnixDate = RFC3339Nano ∧ ns = 0 then RFC3339 else UnixDate⟩, none) ∧
      t2.Equal (⟨(y : Int), m, d, h, mi, s, ns, Z⟩ : Time) := by
  have r := o.rng
  have c1 : (UnixDate = RFC3339Nano ∨ UnixDate = StampNano) = False := eq_false (by decide)
  have c2 : (UnixDate = StampMicro) = False := eq_false (by decide)
  have c3 : (UnixDate = StampMilli) = False := eq_false (by decide)
  have c4 : (UnixDate ∈ [Kitchen, RFC822Z, RFC822, DateOnly]) = False := eq_false (by decide)
  have c5 : (UnixDate = DateOnly) = False := eq_false (by decide)
  have c6 : (UnixDate ∈ [Kitchen, TimeOnly]) = False := eq_false (by decide)
  have c7 : (UnixDate ∈ yearlessLayouts) = False := eq_false (by decide)
  have c8 : (UnixDate ∈ shortYearLayouts) = False := eq_false (by decide)
  have z1 : (UnixDate ∈ numZoneLayouts ∨ UnixDate ∈ isoZoneLayouts) = False := eq_false (by decide)
  have z2 : (UnixDate ∈ abbrZoneLayouts) = True := eq_true (by decide)
  have z3 : (UnixDate = RFC850) = False := eq_false (by decide)
  have z4 : (UnixDate = UnixDate) = True := eq_true (by decide)
  simp only [exactUnder, Bool.and_eq_true] at hex
  obtain ⟨hf, hzx⟩ := hex
  simp only [fieldsExact, c1, c2, c3, c4, c5, c6, c7, c8, if_true, if_false, Bool.and_eq_true,
    decide_eq_true_eq, Bool.true_and, Bool.and_true, true_and, and_true, and_assoc] at hf
  simp only [zoneExact, z1, z2, z3, z4, if_true, if_false, Bool.and_eq_true, Bool.or_eq_true,
    decide_eq_true_eq, true_and, and_true, false_and, and_false, or_false, false_or, true_or,
    decide_False, decide_True, Bool.false_eq_true, Bool.and_false, Bool.false_and,
    Bool.or_false, Bool.true_and, Bool.and_true] at hzx
  obtain ⟨hns, hya, hyb⟩ := hf
  rw [if_neg (fun hc => absurd hc.1 (show ¬ UnixDate = RFC3339Nano by decide))]
  rcases hzx with (⟨hn, h0⟩ | ⟨hN | hN, ho⟩) | hun
  · have he := format_utcname UnixDate (by decide) r Z hn
    have hp0 : Parse loc (quoted UnixDate) (quoted ((⟨(y : Int), m, d, h, mi, s, ns, UTC⟩ : Time).Format UnixDate))
        = .ok ⟨(y : Int), m, d, h, mi, s, 0, UTC⟩ := by
      rw [qformat_UnixDate r UTC rfl]
      exact parse_UnixDate o loc
    obtain ⟨P, hp, hu, -⟩ := roundtrip_all loc mt UnixDate (by decide) o
    rw [hp0] at hp
    cases hp
    rw [he]
    refine ⟨safe_all UnixDate (by decide) r, _, hu, ?_⟩
    subst hns
    exact equal_fields _ _ _ _ _ _ _ _ _ (by rw [h0]; rfl)
  · obtain ⟨h1, h2, -⟩ := rtA_UnixDate o loc mt Z hN
    refine ⟨h1, _, h2, ?_⟩
    subst hns
    exact equal_fields _ _ _ _ _ _ _ _ _ ho.symm
  · obtain ⟨h1, h2, -⟩ := rtB_UnixDate o loc mt Z hN
    refine ⟨h1, _, h2, ?_⟩
    subst hns
    exact equal_fields _ _ _ _ _ _ _ _ _ ho.symm
  · obtain ⟨⟨⟨hn, hd⟩, hzs⟩, ho⟩ := hun
    obtain ⟨h1, h2⟩ := rtT_UnixDate o loc mt Z hn hzs hd
    refine ⟨h1, _, h2, ?_⟩
    subst hns
    exact equal_fields _ _ _ _ _ _ _ _ _ ho.symm

theorem ex_RFC822Z {y m d h mi s ns : Nat} (o : Ok y m d h mi s ns) (loc : Location)
    (mt : MultiFormatTime) (Z : Location)
    (hex : exactUnder loc RFC822Z ⟨(y : Int), m, d, h, mi, s, ns, Z⟩ = true) :
    Safe ((⟨(y : Int), m, d, h, mi, s, ns, Z⟩ : Time).Format RFC822Z) ∧
    ∃ t2, UnmarshalJSON loc mt (quoted ((⟨(y : Int), m, d, h, mi, s, ns, Z⟩ : Time).Format RFC822Z))
        = (⟨t2, if RFC822Z = RFC3339Nano ∧ ns = 0 then RFC3339 else RFC822Z⟩, none) ∧
      t2.Equal (⟨(y : Int), m, d, h, mi, s, ns, Z⟩ : Time) := by
  have r := o.rng
  have c1 : (RFC822Z = RFC3339Nano ∨ RFC822Z = StampNano) = False := eq_false (by decide)
  have c2 : (RFC822Z = StampMicro) = False := eq_false (by decide)
  have c3 : (RFC822Z = StampMilli) = False := eq_false (by decide)
  have c4 : (RFC822Z ∈ [Kitchen, RFC822Z, RFC822, DateOnly]) = True := eq_true (by decide)
  have c5 : (RFC822Z = DateOnly) = False := eq_false (by decide)
  have c6 : (RFC822Z ∈ [Kitchen, TimeOnly]) = False := eq_false (by decide)
  have c7 : (RFC822Z ∈ yearlessLayouts) = False := eq_false (by decide)
  have c8 : (RFC822Z ∈ shortYearLayouts) = True := eq_true (by decide)
  have z1 : (RFC822Z ∈ numZoneLayouts ∨ RFC822Z ∈ isoZoneLayouts) = True := eq_true (by decide)
  have z2 : (RFC822Z ∈ abbrZoneLayouts) = False := eq_false (by decide)
  have z3 : (RFC822Z = RFC850) = False := eq_false (by decide)
  have z4 : (RFC822Z = UnixDate) = False := eq_false (by decide)
  simp only [exactUnder, Bool.and_eq_true] at hex
  obtain ⟨hf, hzx⟩ := hex
  simp only [fieldsExact, c1, c2, c3, c4, c5, c6, c7, c8, if_true, if_false, Bool.and_eq_true,
    decide_eq_true_eq, Bool.true_and, Bool.and_true, true_and, and_true, and_assoc] at hf
  simp only [zoneExact, z1, z2, z3, z4, if_true, if_false, Bool.and_eq_true, Bool.or_eq_true,
    decide_eq_true_eq, true_and, and_true, false_and, and_false, or_false, false_or, true_or,
    decide_False, decide_True, Bool.false_eq_true, Bool.and_false, Bool.false_and,
    Bool.or_false, Bool.true_and, Bool.and_true] at hzx
  obtain ⟨hns, hs0, hya, hyb⟩ := hf
  have hyk : y2k (y % 100) = y := y2k_id y (by omega) (by omega)
  obtain ⟨hzm, hzb⟩ := hzx
  rw [if_neg (fun hc => absurd hc.1 (show ¬ RFC822Z = RFC3339Nano by decide))]
  obtain ⟨h1, h2, -⟩ := rtN_RFC822Z o loc mt Z hzb
  refine ⟨h1, _, h2, ?_⟩
  rw [hyk]
  subst hns
  subst hs0
  exact equal_fields _ _ _ _ _ _ _ _ _ (by rw [locOff_offset, zoneRound_exact _ hzm])

theorem ex_RFC822 {y m d h mi s ns : Nat} (o : Ok y m d h mi s ns) (loc : Location)
    (mt : MultiFormatTime) (Z : Location)
    (hex : exactUnder loc RFC822 ⟨(y : Int), m, d, h, mi, s, ns, Z⟩ = true) :
    Safe ((⟨(y : Int), m, d, h, mi, s, ns, Z⟩ : Time).Format RFC822) ∧
    ∃ t2, UnmarshalJSON loc mt (quoted ((⟨(y : Int), m, d, h, mi, s, ns, Z⟩ : Time).Format RFC822))
        = (⟨t2, if RFC822 = RFC3339Nano ∧ ns = 0 then RFC3339 else RFC822⟩, none) ∧
      t2.Equal (⟨(y : Int), m, d, h, mi, s, ns, Z⟩ : Time) := by
  have r := o.rng
  have c1 : (RFC822 = RFC3339Nano ∨ RFC822 = StampNano) = False := eq_false (by decide)
  have c2 : (RFC822 = StampMicro) = False := eq_false (by decide)
  have c3 : (RFC822 = StampMilli) = False := eq_false (by decide)
  have c4 : (RFC822 ∈ [Kitchen, RFC822Z, RFC822, DateOnly]) = True := eq_true (by decide)
  have c5 : (RFC822 = DateOnly) = False := eq_false (by decide)
  have c6 : (RFC822 ∈ [Kitchen, TimeOnly]) = False := eq_false (by decide)
  have c7 : (RFC822 ∈ yearlessLayouts) = False := eq_false (by decide)
  have c8 : (RFC822 ∈ shortYearLayouts) = True := eq_true (by decide)
  have z1 : (RFC822 ∈ numZoneLayouts ∨ RFC822 ∈ isoZoneLayouts) = False := eq_false (by decide)
  have z2 : (RFC822 ∈ abbrZoneLayouts) = True := eq_true (by decide)
  have z3 : (RFC822 = RFC850) = False := eq_false (by decide)
  have z4 : (RFC822 = UnixDate) = False := eq_false (by decide)
  simp only [exactUnder, Bool.and_eq_true] at hex
  obtain ⟨hf, hzx⟩ := hex
  simp only [fieldsExact, c1, c2, c3, c4, c5, c6, c7, c8, if_true, if_false, Bool.and_eq_true,
    decide_eq_true_eq, Bool.true_and, Bool.and_true, true_and, and_true, and_assoc] at hf
  simp only [zoneExact, z1, z2, z3, z4, if_true, if_false, Bool.and_eq_true, Bool.or_eq_true,
    decide_eq_true_eq, true_and, and_true, false_and, and_false, or_false, false_or, true_or,
    decide_False, decide_True, Bool.false_eq_true, Bool.and_false, Bool.false_and,
    Bool.or_false, Bool.true_and, Bool.and_true] at hzx
  obtain ⟨hns, hs0, hya, hyb⟩ := hf
  have hyk : y2k (y % 100) = y := y2k_id y (by omega) (by omega)
  rw [if_neg (fun hc => absurd hc.1 (show ¬ RFC822 = RFC3339Nano by decide))]
  rcases hzx with ⟨hn, h0⟩ | ⟨hN | hN, ho⟩
  · have he := format_utcname RFC822 (by decide) r Z hn
    have hp0 : Parse loc (quoted RFC822) (quoted ((⟨(y : Int), m, d, h, mi, s, ns, UTC⟩ : Time).Format RFC822))
        = .ok ⟨((y2k (y % 100) : Nat) : Int), m, d, h, mi, 0, 0, UTC⟩ := by
      rw [qformat_RFC822 r UTC rfl]
      exact parse_RFC822 o loc
    obtain ⟨P, hp, hu, -⟩ := roundtrip_all loc mt RFC822 (by decide) o
    rw [hp0] at hp
    cases hp
    rw [he]
    refine ⟨safe_all RFC822 (by decide) r, _, hu, ?_⟩
    rw [hyk]
    subst hns
    subst hs0
    exact equal_fields _ _ _ _ _ _ _ _ _ (by rw [h0]; rfl)
  · obtain ⟨h1, h2, -⟩ := rtA_RFC822 o loc mt Z hN
    refine ⟨h1, _, h2, ?_⟩
    rw [hyk]
    subst hns
    subst hs0
    exact equal_fields _ _ _ _ _ _ _ _ _ ho.symm
  · obtain ⟨h1, h2, -⟩ := rtB_RFC822 o loc mt Z hN
    refine ⟨h1, _, h2, ?_⟩
    rw [hyk]
    subst hns
    subst hs0
    exact equal_fields _ _ _ _ _ _ _ _ _ ho.symm

theorem ex_RFC850 {y m d h mi s ns : Nat} (o : Ok y m d h mi s ns) (loc : Location)
    (mt : MultiFormatTime) (Z : Location)
    (hex : exactUnder loc RFC850 ⟨(y : Int), m, d, h, mi, s, ns, Z⟩ = true) :
    Safe ((⟨(y : Int), m, d, h, mi, s, ns, Z⟩ : Time).Format RFC850) ∧
    ∃ t2, UnmarshalJSON loc mt (quoted ((⟨(y : Int), m, d, h, mi, s, ns, Z⟩ : Time).Format RFC850))
        = (⟨t2, if RFC850 = RFC3339Nano ∧ ns = 0 then RFC3339 else RFC850⟩, none) ∧
      t2.Equal (⟨(y : Int), m, d, h, mi, s, ns, Z⟩ : Time) := by
  have r := o.rng
  have c1 : (RFC850 = RFC3339Nano ∨ RFC850 = StampNano) = False := eq_false (by decide)
  have c2 : (RFC850 = StampMicro) = False := eq_false (by decide)
  have c3 : (RFC850 = StampMilli) = False := eq_false (by decide)
  have c4 : (RFC850 ∈ [Kitchen, RFC822Z, RFC822, DateOnly]) = False := eq_false (by decide)
  have c5 : (RFC850 = DateOnly) = False := eq_false (by decide)
  have c6 : (RFC850 ∈ [Kitchen, TimeOnly]) = False := eq_false (by decide)
  have c7 : (RFC850 ∈ yearlessLayouts) = False := eq_false (by decide)
  have c8 : (RFC850 ∈ shortYearLayouts) = True := eq_true (by decide)
  have z1 : (RFC850 ∈ numZoneLayouts ∨ RFC850 ∈ isoZoneLayouts) = False := eq_false (by decide)
  have z2 : (RFC850 ∈ abbrZoneLayouts) = True := eq_true (by decide)
  have z3 : (RFC850 = RFC850) = True := eq_true (by decide)
  have z4 : (RFC850 = UnixDate) = False := eq_false (by decide)
  simp only [exactUnder, Bool.and_eq_true] at hex
  obtain ⟨hf, hzx⟩ := hex
  simp only [fieldsExact, c1, c2, c3, c4, c5, c6, c7, c8, if_true, if_false, Bool.and_eq_true,
    decide_eq_true_eq, Bool.true_and, Bool.and_true, true_and, and_true, and_assoc] at hf
  simp only [zoneExact, z1, z2, z3, z4, if_true, if_false, Bool.and_eq_true, Bool.or_eq_true,
    decide_eq_true_eq, true_and, and_true, false_and, and_false, or_false, false_or, true_or,
    decide_False, decide_True, Bool.false_eq_true, Bool.and_false, Bool.false_and,
    Bool.or_false, Bool.true_and, Bool.and_true] at hzx
  obtain ⟨hns, hya, hyb⟩ := hf
  have hyk : y2k (y % 100) = y := y2k_id y (by omega) (by omega)
  rw [if_neg (fun hc => absurd hc.1 (show ¬ RFC850 = RFC3339Nano by decide))]
  rcases hzx with (⟨hn, h0⟩ | ⟨hN | hN, ho⟩) | hun
  · have he := format_utcname RFC850 (by decide) r Z hn
    have hp0 : Parse loc (quoted RFC850) (quoted ((⟨(y : Int), m, d, h, mi, s, ns, UTC⟩ : Time).Format RFC850))
        = .ok ⟨((y2k (y % 100) : Nat) : Int), m, d, h, mi, s, 0, UTC⟩ := by
      rw [qformat_RFC850 r UTC rfl]
      exact parse_RFC850 o loc
    obtain ⟨P, hp, hu, -⟩ := roundtrip_all loc mt RFC850 (by decide) o
    rw [hp0] at hp
    cases hp
    rw [he]
    refine ⟨safe_all RFC850 (by decide) r, _, hu, ?_⟩
    rw [hyk]
    subst hns
    exact equal_fields _ _ _ _ _ _ _ _ _ (by rw [h0]; rfl)
  · obtain ⟨h1, h2, -⟩ := rtA_RFC850 o loc mt Z hN
    refine ⟨h1, _, h2, ?_⟩
    rw [hyk]
    subst hns
    exact equal_fields _ _ _ _ _ _ _ _ _ ho.symm
  · obtain ⟨h1, h2, -⟩ := rtB_RFC850 o loc mt Z hN
    refine ⟨h1, _, h2, ?_⟩
    rw [hyk]
    subst hns
    exact equal_fields _ _ _ _ _ _ _ _ _ ho.symm
  · obtain ⟨⟨hn, hzs⟩, ho⟩ := hun
    obtain ⟨h1, h2⟩ := rtT_RFC850 o loc mt Z hn hzs
    refine ⟨h1, _, h2, ?_⟩
    rw [hyk]
    subst hns
    exact equal_fields _ _ _ _ _ _ _ _ _ ho.symm

theorem ex_RFC1123Z {y m d h mi s ns : Nat} (o : Ok y m d h mi s ns) (loc : Location)
    (mt : MultiFormatTime) (Z : Location)
    (hex : exactUnder loc RFC1123Z ⟨(y : Int), m, d, h, mi, s, ns, Z⟩ = true) :
    Safe ((⟨(y : Int), m, d, h, mi, s, ns, Z⟩ : Time).Format RFC1123Z) ∧
    ∃ t2, UnmarshalJSON loc mt (quoted ((⟨(y : Int), m, d, h, mi, s, ns, Z⟩ : Time).Format RFC1123Z))
        = (⟨t2, if RFC1123Z = RFC3339Nano ∧ ns = 0 then RFC3339 else RFC1123Z⟩, none) ∧
      t2.Equal (⟨(y : Int), m, d, h, mi, s, ns, Z⟩ : Time) := by
  have r := o.rng
  have c1 : (RFC1123Z = RFC3339Nano ∨ RFC1123Z = StampNano) = False := eq_false (by decide)
  have c2 : (RFC1123Z = StampMicro) = False := eq_false (by decide)
  have c3 : (RFC1123Z = StampMilli) = False := eq_false (by decide)
  have c4 : (RFC1123Z ∈ [Kitchen, RFC822Z, RFC822, DateOnly]) = False := eq_false (by decide)
  have c5 : (RFC1123Z = DateOnly) = False := eq_false (by decide)
  have c6 : (RFC1123Z ∈ [Kitchen, TimeOnly]) = False := eq_false (by decide)
  have c7 : (RFC1123Z ∈ yearlessLayouts) = False := eq_false (by decide)
  have c8 : (RFC1123Z ∈ shortYearLayouts) = False := eq_false (by decide)
  have z1 : (RFC1123Z ∈ numZoneLayouts ∨ RFC1123Z ∈ isoZoneLayouts) = True := eq_true (by decide)
  have z2 : (RFC1123Z ∈ abbrZoneLayouts) = False := eq_false (by decide)
  have z3 : (RFC1123Z = RFC850) = False := eq_false (by decide)
  have z4 : (RFC1123Z = UnixDate) = False := eq_false (by decide)
  simp only [exactUnder, Bool.and_eq_true] at hex
  obtain ⟨hf, hzx⟩ := hex
  simp only [fieldsExact, c1, c2, c3, c4, c5, c6, c7, c8, if_true, if_false, Bool.and_eq_true,
    decide_eq_true_eq, Bool.true_and, Bool.and_true, true_and, and_true, and_assoc] at hf
  simp only [zoneExact, z1, z2, z3, z4, if_true, if_false, Bool.and_eq_true, Bool.or_eq_true,
    decide_eq_true_eq, true_and, and_true, false_and, and_false, or_false, false_or, true_or,
    decide_False, decide_True, Bool.false_eq_true, Bool.and_false, Bool.false_and,
    Bool.or_false, Bool.true_and, Bool.and_true] at hzx
  obtain ⟨hns, hya, hyb⟩ := hf
  obtain ⟨hzm, hzb⟩ := hzx
  rw [if_neg (fun hc => absurd hc.1 (show ¬ RFC1123Z = RFC3339Nano by decide))]
  obtain ⟨h1, h2, -⟩ := rtN_RFC1123Z o loc mt Z hzb
  refine ⟨h1, _, h2, ?_⟩
  subst hns
  exact equal_fields _ _ _ _ _ _ _ _ _ (by rw [locOff_offset, zoneRound_exact _ hzm])

theorem ex_RFC1123 {y m d h mi s ns : Nat} (o : Ok y m d h mi s ns) (loc : Location)
    (mt : MultiFormatTime) (Z : Location)
    (hex : exactUnder loc RFC1123 ⟨(y : Int), m, d, h, mi, s, ns, Z⟩ = true) :
    Safe ((⟨(y : Int), m, d, h, mi, s, ns, Z⟩ : Time).Format RFC1123) ∧
    ∃ t2, UnmarshalJSON loc mt (quoted ((⟨(y : Int), m, d, h, mi, s, ns, Z⟩ : Time).Format RFC1123))
        = (⟨t2, if RFC1123 = RFC3339Nano ∧ ns = 0 then RFC3339 else RFC1123⟩, none) ∧
      t2.Equal (⟨(y : Int), m, d, h, mi, s, ns, Z⟩ : Time) := by
  have r := o.rng
  have c1 : (RFC1123 = RFC3339Nano ∨ RFC1123 = StampNano) = False := eq_false (by decide)
  have c2 : (RFC1123 = StampMicro) = False := eq_false (by decide)
  have c3 : (RFC1123 = StampMilli) = False := eq_false (by decide)
  have c4 : (RFC1123 ∈ [Kitchen, RFC822Z, RFC822, DateOnly]) = False := eq_false (by decide)
  have c5 : (RFC1123 = DateOnly) = False := eq_false (by decide)
  have c6 : (RFC1123 ∈ [Kitchen, TimeOnly]) = False := eq_false (by decide)
  have c7 : (RFC1123 ∈ yearlessLayouts) = False := eq_false (by decide)
  have c8 : (RFC1123 ∈ shortYearLayouts) = False := eq_false (by decide)
  have z1 : (RFC1123 ∈ numZoneLayouts ∨ RFC1123 ∈ isoZoneLayouts) = False := eq_false (by decide)
  have z2 : (RFC1123 ∈ abbrZoneLayouts) = True := eq_true (by decide)
  have z3 : (RFC1123 = RFC850) = False := eq_false (by decide)
  have z4 : (RFC1123 = UnixDate) = False := eq_false (by decide)
  simp only [exactUnder, Bool.and_eq_true] at hex
  obtain ⟨hf, hzx⟩ := hex
  simp only [fieldsExact, c1, c2, c3, c4, c5, c6, c7, c8, if_true, if_false, Bool.and_eq_true,
    decide_eq_true_eq, Bool.true_and, Bool.and_true, true_and, and_true, and_assoc] at hf
  simp only [zoneExact, z1, z2, z3, z4, if_true, if_false, Bool.and_eq_true, Bool.or_eq_true,
    decide_eq_true_eq, true_and, and_true, false_and, and_false, or_false, false_or, true_or,
    decide_False, decide_True, Bool.false_eq_true, Bool.and_false, Bool.false_and,
    Bool.or_false, Bool.true_and, Bool.and_true] at hzx
  obtain ⟨hns, hya, hyb⟩ := hf
  rw [if_neg (fun hc => absurd hc.1 (show ¬ RFC1123 = RFC3339Nano by decide))]
  rcases hzx with ⟨hn, h0⟩ | ⟨hN | hN, ho⟩
  · have he := format_utcname RFC1123 (by decide) r Z hn
    have hp0 : Parse loc (quoted RFC1123) (quoted ((⟨(y : Int), m, d, h, mi, s, ns, UTC⟩ : Time).Format RFC1123))
        = .ok ⟨(y : Int), m, d, h, mi, s, 0, UTC⟩ := by
      rw [qformat_RFC1123 r UTC rfl]
      exact parse_RFC1123 o loc
    obtain ⟨P, hp, hu, -⟩ := roundtrip_all loc mt RFC1123 (by decide) o
    rw [hp0] at hp
    cases hp
    rw [he]
    refine ⟨safe_all RFC1123 (by decide) r, _, hu, ?_⟩
    subst hns
    exact equal_fields _ _ _ _ _ _ _ _ _ (by rw [h0]; rfl)
  · obtain ⟨h1, h2, -⟩ := rtA_RFC1123 o loc mt Z hN
    refine ⟨h1, _, h2, ?_⟩
    subst hns
    exact equal_fields _ _ _ _ _ _ _ _ _ ho.symm
  · obtain ⟨h1, h2, -⟩ := rtB_RFC1123 o loc mt Z hN
    refine ⟨h1, _, h2, ?_⟩
    subst hns
    exact equal_fields _ _ _ _ _ _ _ _ _ ho.symm

theorem ex_RFC3339 {y m d h mi s ns : Nat} (o : Ok y m d h mi s ns) (loc : Location)
    (mt : MultiFormatTime) (Z : Location)
    (hex : exactUnder loc RFC3339 ⟨(y : Int), m, d, h, mi, s, ns, Z⟩ = true) :
    Safe ((⟨(y : Int), m, d, h, mi, s, ns, Z⟩ : Time).Format RFC3339) ∧
    ∃ t2, UnmarshalJSON loc mt (quoted ((⟨(y : Int), m, d, h, mi, s, ns, Z⟩ : Time).Format RFC3339))
        = (⟨t2, if RFC3339 = RFC3339Nano ∧ ns = 0 then RFC3339 else RFC3339⟩, none) ∧
      t2.Equal (⟨(y : Int), m, d, h, mi, s, ns, Z⟩ : Time) := by
  have r := o.rng
  have c1 : (RFC3339 = RFC3339Nano ∨ RFC3339 = StampNano) = False := eq_false (by decide)
  have c2 : (RFC3339 = StampMicro) = False := eq_false (by decide)
  have c3 : (RFC3339 = StampMilli) = False := eq_false (by decide)
  have c4 : (RFC3339 ∈ [Kitchen, RFC822Z, RFC822, DateOnly]) = False := eq_false (by decide)
  have c5 : (RFC3339 = DateOnly) = False := eq_false (by decide)
  have c6 : (RFC3339 ∈ [Kitchen, TimeOnly]) = False := eq_false (by decide)
  have c7 : (RFC3339 ∈ yearlessLayouts) = False := eq_false (by decide)
  have c8 : (RFC3339 ∈ shortYearLayouts) = False := eq_false (by decide)
  have z1 : (RFC3339 ∈ numZoneLayouts ∨ RFC3339 ∈ isoZoneLayouts) = True := eq_true (by decide)
  have z2 : (RFC3339 ∈ abbrZoneLayouts) = False := eq_false (by decide)
  have z3 : (RFC3339 = RFC850) = False := eq_false (by decide)
  have z4 : (RFC3339 = UnixDate) = False := eq_false (by decide)
  simp only [exactUnder, Bool.and_eq_true] at hex
  obtain ⟨hf, hzx⟩ := hex
  simp only [fieldsExact, c1, c2, c3, c4, c5, c6, c7, c8, if_true, if_false, Bool.and_eq_true,
    decide_eq_true_eq, Bool.true_and, Bool.and_true, true_and, and_true, and_assoc] at hf
  simp only [zoneExact, z1, z2, z3, z4, if_true, if_false, Bool.and_eq_true, Bool.or_eq_true,
    decide_eq_true_eq, true_and, and_true, false_and, and_false, or_false, false_or, true_or,
    decide_False, decide_True, Bool.false_eq_true, Bool.and_false, Bool.false_and,
    Bool.or_false, Bool.true_and, Bool.and_true] at hzx
  obtain ⟨hns, hya, hyb⟩ := hf
  obtain ⟨hzm, hzb⟩ := hzx
  by_cases h0 : Z.offset = 0
  · rw [if_neg (fun hc => absurd hc.1 (show ¬ RFC3339 = RFC3339Nano by decide))]
    have he := format_iso0 RFC3339 (by decide) r Z h0
    have hp0 : Parse loc (quoted RFC3339) (quoted ((⟨(y : Int), m, d, h, mi, s, ns, UTC⟩ : Time).Format RFC3339))
        = .ok ⟨(y : Int), m, d, h, mi, s, 0, UTC⟩ := by
      rw [qformat_RFC3339 r UTC rfl]
      exact parse_RFC3339 o loc
    obtain ⟨P, hp, hu, -⟩ := roundtrip_all loc mt RFC3339 (by decide) o
    rw [hp0] at hp
    cases hp
    rw [he]
    refine ⟨safe_all RFC3339 (by decide) r, _, hu, ?_⟩
    subst hns
    exact equal_fields _ _ _ _ _ _ _ _ _ (by rw [h0]; rfl)
  · rw [if_neg (fun hc => absurd hc.1 (show ¬ RFC3339 = RFC3339Nano by decide))]
    obtain ⟨h1, h2, -⟩ := rtI_RFC3339 o loc mt Z (zoneMinutes_pos _ h0 hzm) hzb
    refine ⟨h1, _, h2, ?_⟩
    subst hns
    exact equal_fields _ _ _ _ _ _ _ _ _ (by rw [locOff_offset, zoneRound_exact _ hzm])

theorem ex_RFC3339Nano {y m d h mi s ns : Nat} (o : Ok y m d h mi s ns) (loc : Location)
    (mt : MultiFormatTime) (Z : Location)
    (hex : exactUnder loc RFC3339Nano ⟨(y : Int), m, d, h, mi, s, ns, Z⟩ = true) :
    Safe ((⟨(y : Int), m, d, h, mi, s, ns, Z⟩ : Time).Format RFC3339Nano) ∧
    ∃ t2, UnmarshalJSON loc mt (quoted ((⟨(y : Int), m, d, h, mi, s, ns, Z⟩ : Time).Format RFC3339Nano))
        = (⟨t2, if RFC3339Nano = RFC3339Nano ∧ ns = 0 then RFC3339 else RFC3339Nano⟩, none) ∧
      t2.Equal (⟨(y : Int), m, d, h, mi, s, ns, Z⟩ : Time) := by
  have r := o.rng
  have c1 : (RFC3339Nano = RFC3339Nano ∨ RFC3339Nano = StampNano) = True := eq_true (by decide)
  have c2 : (RFC3339Nano = StampMicro) = False := eq_false (by decide)
  have c3 : (RFC3339Nano = StampMilli) = False := eq_false (by decide)
  have c4 : (RFC3339Nano ∈ [Kitchen, RFC822Z, RFC822, DateOnly]) = False := eq_false (by decide)
  have c5 : (RFC3339Nano = DateOnly) = False := eq_false (by decide)
  have c6 : (RFC3339Nano ∈ [Kitchen, TimeOnly]) = False := eq_false (by decide)
  have c7 : (RFC3339Nano ∈ yearlessLayouts) = False := eq_false (by decide)
  have c8 : (RFC3339Nano ∈ shortYearLayouts) = False := eq_false (by decide)
  have z1 : (RFC3339Nano ∈ numZoneLayouts ∨ RFC3339Nano ∈ isoZoneLayouts) = True := eq_true (by decide)
  have z2 : (RFC3339Nano ∈ abbrZoneLayouts) = False := eq_false (by decide)
  have z3 : (RFC3339Nano = RFC850) = False := eq_false (by decide)
  have z4 : (RFC3339Nano = UnixDate) = False := eq_false (by decide)
  simp only [exactUnder, Bool.and_eq_true] at hex
  obtain ⟨hf, hzx⟩ := hex
  simp only [fieldsExact, c1, c2, c3, c4, c5, c6, c7, c8, if_true, if_false, Bool.and_eq_true,
    decide_eq_true_eq, Bool.true_and, Bool.and_true, true_and, and_true, and_assoc] at hf
  simp only [zoneExact, z1, z2, z3, z4, if_true, if_false, Bool.and_eq_true, Bool.or_eq_true,
    decide_eq_true_eq, true_and, and_true, false_and, and_false, or_false, false_or, true_or,
    decide_False, decide_True, Bool.false_eq_true, Bool.and_false, Bool.false_and,
    Bool.or_false, Bool.true_and, Bool.and_true] at hzx
  obtain ⟨hya, hyb⟩ := hf
  obtain ⟨hzm, hzb⟩ := hzx
  by_cases h0 : Z.offset = 0
  · have he := format_iso0 RFC3339Nano (by decide) r Z h0
    have hp0 : Parse loc (quoted RFC3339Nano) (quoted ((⟨(y : Int), m, d, h, mi, s, ns, UTC⟩ : Time).Format RFC3339Nano))
        = .ok ⟨(y : Int), m, d, h, mi, s, ns, UTC⟩ := by
      rw [qformat_RFC3339Nano r UTC rfl]
      exact parse_RFC3339Nano o loc
    obtain ⟨P, hp, hu, -⟩ := roundtrip_all loc mt RFC3339Nano (by decide) o
    rw [hp0] at hp
    cases hp
    rw [he]
    refine ⟨safe_all RFC3339Nano (by decide) r, _, hu, ?_⟩
    exact equal_fields _ _ _ _ _ _ _ _ _ (by rw [h0]; rfl)
  · simp only [true_and]
    obtain ⟨h1, h2, -⟩ := rtI_RFC3339Nano o loc mt Z (zoneMinutes_pos _ h0 hzm) hzb
    refine ⟨h1, _, h2, ?_⟩
    exact equal_fields _ _ _ _ _ _ _ _ _ (by rw [locOff_offset, zoneRound_exact _ hzm])

theorem ex_Kitchen {y m d h mi s ns : Nat} (o : Ok y m d h mi s ns) (loc : Location)
    (mt : MultiFormatTime) (Z : Location)
    (hex : exactUnder loc Kitchen ⟨(y : Int), m, d, h, mi, s, ns, Z⟩ = true) :
    Safe ((⟨(y : Int), m, d, h, mi, s, ns, Z⟩ : Time).Format Kitchen) ∧
    ∃ t2, UnmarshalJSON loc mt (quoted ((⟨(y : Int), m, d, h, mi, s, ns, Z⟩ : Time).Format Kitchen))
        = (⟨t2, if Kitchen = RFC3339Nano ∧ ns = 0 then RFC3339 else Kitchen⟩, none) ∧
      t2.Equal (⟨(y : Int), m, d, h, mi, s, ns, Z⟩ : Time) := by
  have r := o.rng
  have c1 : (Kitchen = RFC3339Nano ∨ Kitchen = StampNano) = False := eq_false (by decide)
  have c2 : (Kitchen = StampMicro) = False := eq_false (by decide)
  have c3 : (Kitchen = StampMilli) = False := eq_false (by decide)
  have c4 : (Kitchen ∈ [Kitchen, RFC822Z, RFC822, DateOnly]) = True := eq_true (by decide)
  have c5 : (Kitchen = DateOnly) = False := eq_false (by decide)
  have c6 : (Kitchen ∈ [Kitchen, TimeOnly]) = True := eq_true (by decide)
  have c7 : (Kitchen ∈ yearlessLayouts) = True := eq_true (by decide)
  have c8 : (Kitchen ∈ shortYearLayouts) = False := eq_false (by decide)
  have z1 : (Kitchen ∈ numZoneLayouts ∨ Kitchen ∈ isoZoneLayouts) = False := eq_false (by decide)
  have z2 : (Kitchen ∈ abbrZoneLayouts) = False := eq_false (by decide)
  have z3 : (Kitchen = RFC850) = False := eq_false (by decide)
  have z4 : (Kitchen = UnixDate) = False := eq_false (by decide)
  simp only [exactUnder, Bool.and_eq_true] at hex
  obtain ⟨hf, hzx⟩ := hex
  simp only [fieldsExact, c1, c2, c3, c4, c5, c6, c7, c8, if_true, if_false, Bool.and_eq_true,
    decide_eq_true_eq, Bool.true_and, Bool.and_true, true_and, and_true, and_assoc] at hf
  simp only [zoneExact, z1, z2, z3, z4, if_true, if_false, Bool.and_eq_true, Bool.or_eq_true,
    decide_eq_true_eq, true_and, and_true, false_and, and_false, or_false, false_or, true_or,
    decide_False, decide_True, Bool.false_eq_true, Bool.and_false, Bool.false_and,
    Bool.or_false, Bool.true_and, Bool.and_true] at hzx
  obtain ⟨hns, hs0, hm1, hd1, hy⟩ := hf
  have hy0 : y = 0 := by omega
  rw [if_neg (fun hc => absurd hc.1 (show ¬ Kitchen = RFC3339Nano by decide))]
  have he := format_free Kitchen (by decide) r Z
  have hp0 : Parse loc (quoted Kitchen) (quoted ((⟨(y : Int), m, d, h, mi, s, ns, UTC⟩ : Time).Format Kitchen))
      = .ok ⟨((0 : Nat) : Int), 1, 1, h, mi, 0, 0, UTC⟩ := by
    rw [qformat_Kitchen r UTC]
    exact parse_Kitchen o loc
  obtain ⟨P, hp, hu, -⟩ := roundtrip_all loc mt Kitchen (by decide) o
  rw [hp0] at hp
  cases hp
  rw [he]
  refine ⟨safe_all Kitchen (by decide) r, _, hu, ?_⟩
  subst hns
  subst hs0
  subst hm1
  subst hd1
  subst hy0
  exact equal_fields _ _ _ _ _ _ _ _ _ (by rw [hzx]; rfl)

theorem ex_StampNano {y m d h mi s ns : Nat} (o : Ok y m d h mi s ns) (loc : Location)
    (mt : MultiFormatTime) (Z : Location)
    (hex : exactUnder loc StampNano ⟨(y : Int), m, d, h, mi, s, ns, Z⟩ = true) :
    Safe ((⟨(y : Int), m, d, h, mi, s, ns, Z⟩ : Time).Format StampNano) ∧
    ∃ t2, UnmarshalJSON loc mt (quoted ((⟨(y : Int), m, d, h, mi, s, ns, Z⟩ : Time).Format StampNano))
        = (⟨t2, if StampNano = RFC3339Nano ∧ ns = 0 then RFC3339 else StampNano⟩, none) ∧
      t2.Equal (⟨(y : Int), m, d, h, mi, s, ns, Z⟩ : Time) := by
  have r := o.rng
  have c1 : (StampNano = RFC3339Nano ∨ StampNano = StampNano) = True := eq_true (by decide)
  have c2 : (StampNano = StampMicro) = False := eq_false (by decide)
  have c3 : (StampNano = StampMilli) = False := eq_false (by decide)
  have c4 : (StampNano ∈ [Kitchen, RFC822Z, RFC822, DateOnly]) = False := eq_false (by decide)
  have c5 : (StampNano = DateOnly) = False := eq_false (by decide)
  have c6 : (StampNano ∈ [Kitchen, TimeOnly]) = False := eq_false (by decide)
  have c7 : (StampNano ∈ yearlessLayouts) = True := eq_true (by decide)
  have c8 : (StampNano ∈ shortYearLayouts) = False := eq_false (by decide)
  have z1 : (StampNano ∈ numZoneLayouts ∨ StampNano ∈ isoZoneLayouts) = False := eq_false (by decide)
  have z2 : (StampNano ∈ abbrZoneLayouts) = False := eq_false (by decide)
  have z3 : (StampNano = RFC850) = False := eq_false (by decide)
  have z4 : (StampNano = UnixDate) = False := eq_false (by decide)
  simp only [exactUnder, Bool.and_eq_true] at hex
  obtain ⟨hf, hzx⟩ := hex
  simp only [fieldsExact, c1, c2, c3, c4, c5, c6, c7, c8, if_true, if_false, Bool.and_eq_true,
    decide_eq_true_eq, Bool.true_and, Bool.and_true, true_and, and_true, and_assoc] at hf
  simp only [zoneExact, z1, z2, z3, z4, if_true, if_false, Bool.and_eq_true, Bool.or_eq_true,
    decide_eq_true_eq, true_and, and_true, false_and, and_false, or_false, false_or, true_or,
    decide_False, decide_True, Bool.false_eq_true, Bool.and_false, Bool.false_and,
    Bool.or_false, Bool.true_and, Bool.and_true] at hzx
  have hy := hf
  have hy0 : y = 0 := by omega
  rw [if_neg (fun hc => absurd hc.1 (show ¬ StampNano = RFC3339Nano by decide))]
  have he := format_free StampNano (by decide) r Z
  have hp0 : Parse loc (quoted StampNano) (quoted ((⟨(y : Int), m, d, h, mi, s, ns, UTC⟩ : Time).Format StampNano))
      = .ok ⟨((0 : Nat) : Int), m, d, h, mi, s, ns, UTC⟩ := by
    rw [qformat_StampNano r UTC]
    exact parse_StampNano o loc
  obtain ⟨P, hp, hu, -⟩ := roundtrip_all loc mt StampNano (by decide) o
  rw [hp0] at hp
  cases hp
  rw [he]
  refine ⟨safe_all StampNano (by decide) r, _, hu, ?_⟩
  subst hy0
  exact equal_fields _ _ _ _ _ _ _ _ _ (by rw [hzx]; rfl)

theorem ex_StampMicro {y m d h mi s ns : Nat} (o : Ok y m d h mi s ns) (loc : Location)
    (mt : MultiFormatTime) (Z : Location)
    (hex : exactUnder loc StampMicro ⟨(y : Int), m, d, h, mi, s, ns, Z⟩ = true) :
    Safe ((⟨(y : Int), m, d, h, mi, s, ns, Z⟩ : Time).Format StampMicro) ∧
    ∃ t2, UnmarshalJSON loc mt (quoted ((⟨(y : Int), m, d, h, mi, s, ns, Z⟩ : Time).Format StampMicro))
        = (⟨t2, if StampMicro = RFC3339Nano ∧ ns = 0 then RFC3339 else StampMicro⟩, none) ∧
      t2.Equal (⟨(y : Int), m, d, h, mi, s, ns, Z⟩ : Time) := by
  have r := o.rng
  have c1 : (StampMicro = RFC3339Nano ∨ StampMicro = StampNano) = False := eq_false (by decide)
  have c2 : (StampMicro = StampMicro) = True := eq_true (by decide)
  have c3 : (StampMicro = StampMilli) = False := eq_false (by decide)
  have c4 : (StampMicro ∈ [Kitchen, RFC822Z, RFC822, DateOnly]) = False := eq_false (by decide)
  have c5 : (StampMicro = DateOnly) = False := eq_false (by decide)
  have c6 : (StampMicro ∈ [Kitchen, TimeOnly]) = False := eq_false (by decide)
  have c7 : (StampMicro ∈ yearlessLayouts) = True := eq_true (by decide)
  have c8 : (StampMicro ∈ shortYearLayouts) = False := eq_false (by decide)
  have z1 : (StampMicro ∈ numZoneLayouts ∨ StampMicro ∈ isoZoneLayouts) = False := eq_false (by decide)
  have z2 : (StampMicro ∈ abbrZoneLayouts) = False := eq_false (by decide)
  have z3 : (StampMicro = RFC850) = False := eq_false (by decide)
  have z4 : (StampMicro = UnixDate) = False := eq_false (by decide)
  simp only [exactUnder, Bool.and_eq_true] at hex
  obtain ⟨hf, hzx⟩ := hex
  simp only [fieldsExact, c1, c2, c3, c4, c5, c6, c7, c8, if_true, if_false, Bool.and_eq_true,
    decide_eq_true_eq, Bool.true_and, Bool.and_true, true_and, and_true, and_assoc] at hf
  simp only [zoneExact, z1, z2, z3, z4, if_true, if_false, Bool.and_eq_true, Bool.or_eq_true,
    decide_eq_true_eq, true_and, and_true, false_and, and_false, or_false, false_or, true_or,
    decide_False, decide_True, Bool.false_eq_true, Bool.and_false, Bool.false_and,
    Bool.or_false, Bool.true_and, Bool.and_true] at hzx
  obtain ⟨hfr, hy⟩ := hf
  have hy0 : y = 0 := by omega
  rw [if_neg (fun hc => absurd hc.1 (show ¬ StampMicro = RFC3339Nano by decide))]
  have he := format_free StampMicro (by decide) r Z
  have hp0 : Parse loc (quoted StampMicro) (quoted ((⟨(y : Int), m, d, h, mi, s, ns, UTC⟩ : Time).Format StampMicro))
      = .ok ⟨((0 : Nat) : Int), m, d, h, mi, s, ns / 1000 * 1000, UTC⟩ := by
    rw [qformat_StampMicro r UTC]
    exact parse_StampMicro o loc
  obtain ⟨P, hp, hu, -⟩ := roundtrip_all loc mt StampMicro (by decide) o
  rw [hp0] at hp
  cases hp
  rw [he]
  refine ⟨safe_all StampMicro (by decide) r, _, hu, ?_⟩
  have e : ns / 1000 * 1000 = ns := by omega
  rw [e]
  subst hy0
  exact equal_fields _ _ _ _ _ _ _ _ _ (by rw [hzx]; rfl)

theorem ex_StampMilli {y m d h mi s ns : Nat} (o : Ok y m d h mi s ns) (loc : Location)
    (mt : MultiFormatTime) (Z : Location)
    (hex : exactUnder loc StampMilli ⟨(y : Int), m, d, h, mi, s, ns, Z⟩ = true) :
    Safe ((⟨(y : Int), m, d, h, mi, s, ns, Z⟩ : Time).Format StampMilli) ∧
    ∃ t2, UnmarshalJSON loc mt (quoted ((⟨(y : Int), m, d, h, mi, s, ns, Z⟩ : Time).Format StampMilli))
        = (⟨t2, if StampMilli = RFC3339Nano ∧ ns = 0 then RFC3339 else StampMilli⟩, none) ∧
      t2.Equal (⟨(y : Int), m, d, h, mi, s, ns, Z⟩ : Time) := by
  have r := o.rng
  have c1 : (StampMilli = RFC3339Nano ∨ StampMilli = StampNano) = False := eq_false (by decide)
  have c2 : (StampMilli = StampMicro) = False := eq_false (by decide)
  have c3 : (StampMilli = StampMilli) = True := eq_true (by decide)
  have c4 : (StampMilli ∈ [Kitchen, RFC822Z, RFC822, DateOnly]) = False := eq_false (by decide)
  have c5 : (StampMilli = DateOnly) = False := eq_false (by decide)
  have c6 : (StampMilli ∈ [Kitchen, TimeOnly]) = False := eq_false (by decide)
  have c7 : (StampMilli ∈ yearlessLayouts) = True := eq_true (by decide)
  have c8 : (StampMilli ∈ shortYearLayouts) = False := eq_false (by decide)
  have z1 : (StampMilli ∈ numZoneLayouts ∨ StampMilli ∈ isoZoneLayouts) = False := eq_false (by decide)
  have z2 : (StampMilli ∈ abbrZoneLayouts) = False := eq_false (by decide)
  have z3 : (StampMilli = RFC850) = False := eq_false (by decide)
  have z4 : (StampMilli = UnixDate) = False := eq_false (by decide)
  simp only [exactUnder, Bool.and_eq_true] at hex
  obtain ⟨hf, hzx⟩ := hex
  simp only [fieldsExact, c1, c2, c3, c4, c5, c6, c7, c8, if_true, if_false, Bool.and_eq_true,
    decide_eq_true_eq, Bool.true_and, Bool.and_true, true_and, and_true, and_assoc] at hf
  simp only [zoneExact, z1, z2, z3, z4, if_true, if_false, Bool.and_eq_true, Bool.or_eq_true,
    decide_eq_true_eq, true_and, and_true, false_and, and_false, or_false, false_or, true_or,
    decide_False, decide_True, Bool.false_eq_true, Bool.and_false, Bool.false_and,
    Bool.or_false, Bool.true_and, Bool.and_true] at hzx
  obtain ⟨hfr, hy⟩ := hf
  have hy0 : y = 0 := by omega
  rw [if_neg (fun hc => absurd hc.1 (show ¬ StampMilli = RFC3339Nano by decide))]
  have he := format_free StampMilli (by decide) r Z
  have hp0 : Parse loc (quoted StampMilli) (quoted ((⟨(y : Int), m, d, h, mi, s, ns, UTC⟩ : Time).Format StampMilli))
      = .ok ⟨((0 : Nat) : Int), m, d, h, mi, s, ns / 1000000 * 1000000, UTC⟩ := by
    rw [qformat_StampMilli r UTC]
    exact parse_StampMilli o loc
  obtain ⟨P, hp, hu, -⟩ := roundtrip_all loc mt StampMilli (by decide) o
  rw [hp0] at hp
  cases hp
  rw [he]
  refine ⟨safe_all StampMilli (by decide) r, _, hu, ?_⟩
  have e : ns / 1000000 * 1000000 = ns := by omega
  rw [e]
  subst hy0
  exact equal_fields _ _ _ _ _ _ _ _ _ (by rw [hzx]; rfl)

theorem ex_Stamp {y m d h mi s ns : Nat} (o : Ok y m d h mi s ns) (loc : Location)
    (mt : MultiFormatTime) (Z : Location)
    (hex : exactUnder loc Stamp ⟨(y : Int), m, d, h, mi, s, ns, Z⟩ = true) :
    Safe ((⟨(y : Int), m, d, h, mi, s, ns, Z⟩ : Time).Format Stamp) ∧
    ∃ t2, UnmarshalJSON loc mt (quoted ((⟨(y : Int), m, d, h, mi, s, ns, Z⟩ : Time).Format Stamp))
        = (⟨t2, if Stamp = RFC3339Nano ∧ ns = 0 then RFC3339 else Stamp⟩, none) ∧
      t2.Equal (⟨(y : Int), m, d, h, mi, s, ns, Z⟩ : Time) := by
  have r := o.rng
  have c1 : (Stamp = RFC3339Nano ∨ Stamp = StampNano) = False := eq_false (by decide)
  have c2 : (Stamp = StampMicro) = False := eq_false (by decide)
  have c3 : (Stamp = StampMilli) = False := eq_false (by decide)
  have c4 : (Stamp ∈ [Kitchen, RFC822Z, RFC822, DateOnly]) = False := eq_false (by decide)
  have c5 : (Stamp = DateOnly) = False := eq_false (by decide)
  have c6 : (Stamp ∈ [Kitchen, TimeOnly]) = False := eq_false (by decide)
  have c7 : (Stamp ∈ yearlessLayouts) = True := eq_true (by decide)
  have c8 : (Stamp ∈ shortYearLayouts) = False := eq_false (by decide)
  have z1 : (Stamp ∈ numZoneLayouts ∨ Stamp ∈ isoZoneLayouts) = False := eq_false (by decide)
  have z2 : (Stamp ∈ abbrZoneLayouts) = False := eq_false (by decide)
  have z3 : (Stamp = RFC850) = False := eq_false (by decide)
  have z4 : (Stamp = UnixDate) = False := eq_false (by decide)
  simp only [exactUnder, Bool.and_eq_true] at hex
  obtain ⟨hf, hzx⟩ := hex
  simp only [fieldsExact, c1, c2, c3, c4, c5, c6, c7, c8, if_true, if_false, Bool.and_eq_true,
    decide_eq_true_eq, Bool.true_and, Bool.and_true, true_and, and_true, and_assoc] at hf
  simp only [zoneExact, z1, z2, z3, z4, if_true, if_false, Bool.and_eq_true, Bool.or_eq_true,
    decide_eq_true_eq, true_and, and_true, false_and, and_false, or_false, false_or, true_or,
    decide_False, decide_True, Bool.false_eq_true, Bool.and_false, Bool.false_and,
    Bool.or_false, Bool.true_and, Bool.and_true] at hzx
  obtain ⟨hns, hy⟩ := hf
  have hy0 : y = 0 := by omega
  rw [if_neg (fun hc => absurd hc.1 (show ¬ Stamp = RFC3339Nano by decide))]
  have he := format_free Stamp (by decide) r Z
  have hp0 : Parse loc (quoted Stamp) (quoted ((⟨(y : Int), m, d, h, mi, s, ns, UTC⟩ : Time).Format Stamp))
      = .ok ⟨((0 : Nat) : Int), m, d, h, mi, s, 0, UTC⟩ := by
    rw [qformat_Stamp r UTC]
    exact parse_Stamp o loc
  obtain ⟨P, hp, hu, -⟩ := roundtrip_all loc mt Stamp (by decide) o
  rw [hp0] at hp
  cases hp
  rw [he]
  refine ⟨safe_all Stamp (by decide) r, _, hu, ?_⟩
  subst hns
  subst hy0
  exact equal_fields _ _ _ _ _ _ _ _ _ (by rw [hzx]; rfl)

theorem ex_DateTime {y m d h mi s ns : Nat} (o : Ok y m d h mi s ns) (loc : Location)
    (mt : MultiFormatTime) (Z : Location)
    (hex : exactUnder loc DateTime ⟨(y : Int), m, d, h, mi, s, ns, Z⟩ = true) :
    Safe ((⟨(y : Int), m, d, h, mi, s, ns, Z⟩ : Time).Format DateTime) ∧
    ∃ t2, UnmarshalJSON loc mt (quoted ((⟨(y : Int), m, d, h, mi, s, ns, Z⟩ : Time).Format DateTime))
        = (⟨t2, if DateTime = RFC3339Nano ∧ ns = 0 then RFC3339 else DateTime⟩, none) ∧
      t2.Equal (⟨(y : Int), m, d, h, mi, s, ns, Z⟩ : Time) := by
  have r := o.rng
  have c1 : (DateTime = RFC3339Nano ∨ DateTime = StampNano) = False := eq_false (by decide)
  have c2 : (DateTime = StampMicro) = False := eq_false (by decide)
  have c3 : (DateTime = StampMilli) = False := eq_false (by decide)
  have c4 : (DateTime ∈ [Kitchen, RFC822Z, RFC822, DateOnly]) = False := eq_false (by decide)
  have c5 : (DateTime = DateOnly) = False := eq_false (by decide)
  have c6 : (DateTime ∈ [Kitchen, TimeOnly]) = False := eq_false (by decide)
  have c7 : (DateTime ∈ yearlessLayouts) = False := eq_false (by decide)
  have c8 : (DateTime ∈ shortYearLayouts) = False := eq_false (by decide)
  have z1 : (DateTime ∈ numZoneLayouts ∨ DateTime ∈ isoZoneLayouts) = False := eq_false (by decide)
  have z2 : (DateTime ∈ abbrZoneLayouts) = False := eq_false (by decide)
  have z3 : (DateTime = RFC850) = False := eq_false (by decide)
  have z4 : (DateTime = UnixDate) = False := eq_false (by decide)
  simp only [exactUnder, Bool.and_eq_true] at hex
  obtain ⟨hf, hzx⟩ := hex
  simp only [fieldsExact, c1, c2, c3, c4, c5, c6, c7, c8, if_true, if_false, Bool.and_eq_true,
    decide_eq_true_eq, Bool.true_and, Bool.and_true, true_and, and_true, and_assoc] at hf
  simp only [zoneExact, z1, z2, z3, z4, if_true, if_false, Bool.and_eq_true, Bool.or_eq_true,
    decide_eq_true_eq, true_and, and_true, false_and, and_false, or_false, false_or, true_or,
    decide_False, decide_True, Bool.false_eq_true, Bool.and_false, Bool.false_and,
    Bool.or_false, Bool.true_and, Bool.and_true] at hzx
  obtain ⟨hns, hya, hyb⟩ := hf
  rw [if_neg (fun hc => absurd hc.1 (show ¬ DateTime = RFC3339Nano by decide))]
  have he := format_free DateTime (by decide) r Z
  have hp0 : Parse loc (quoted DateTime) (quoted ((⟨(y : Int), m, d, h, mi, s, ns, UTC⟩ : Time).Format DateTime))
      = .ok ⟨(y : Int), m, d, h, mi, s, 0, UTC⟩ := by
    rw [qformat_DateTime r UTC]
    exact parse_DateTime o loc
  obtain ⟨P, hp, hu, -⟩ := roundtrip_all loc mt DateTime (by decide) o
  rw [hp0] at hp
  cases hp
  rw [he]
  refine ⟨safe_all DateTime (by decide) r, _, hu, ?_⟩
  subst hns
  exact equal_fields _ _ _ _ _ _ _ _ _ (by rw [hzx]; rfl)

theorem ex_DateOnly {y m d h mi s ns : Nat} (o : Ok y m d h mi s ns) (loc : Location)
    (mt : MultiFormatTime) (Z : Location)
    (hex : exactUnder loc DateOnly ⟨(y : Int), m, d, h, mi, s, ns, Z⟩ = true) :
    Safe ((⟨(y : Int), m, d, h, mi, s, ns, Z⟩ : Time).Format DateOnly) ∧
    ∃ t2, UnmarshalJSON loc mt (quoted ((⟨(y : Int), m, d, h, mi, s, ns, Z⟩ : Time).Format DateOnly))
        = (⟨t2, if DateOnly = RFC3339Nano ∧ ns = 0 then RFC3339 else DateOnly⟩, none) ∧
      t2.Equal (⟨(y : Int), m, d, h, mi, s, ns, Z⟩ : Time) := by
  have r := o.rng
  have c1 : (DateOnly = RFC3339Nano ∨ DateOnly = StampNano) = False := eq_false (by decide)
  have c2 : (DateOnly = StampMicro) = False := eq_false (by decide)
  have c3 : (DateOnly = StampMilli) = False := eq_false (by decide)
  have c4 : (DateOnly ∈ [Kitchen, RFC822Z, RFC822, DateOnly]) = True := eq_true (by decide)
  have c5 : (DateOnly = DateOnly) = True := eq_true (by decide)
  have c6 : (DateOnly ∈ [Kitchen, TimeOnly]) = False := eq_false (by decide)
  have c7 : (DateOnly ∈ yearlessLayouts) = False := eq_false (by decide)
  have c8 : (DateOnly ∈ shortYearLayouts) = False := eq_false (by decide)
  have z1 : (DateOnly ∈ numZoneLayouts ∨ DateOnly ∈ isoZoneLayouts) = False := eq_false (by decide)
  have z2 : (DateOnly ∈ abbrZoneLayouts) = False := eq_false (by decide)
  have z3 : (DateOnly = RFC850) = False := eq_false (by decide)
  have z4 : (DateOnly = UnixDate) = False := eq_false (by decide)
  simp only [exactUnder, Bool.and_eq_true] at hex
  obtain ⟨hf, hzx⟩ := hex
  simp only [fieldsExact, c1, c2, c3, c4, c5, c6, c7, c8, if_true, if_false, Bool.and_eq_true,
    decide_eq_true_eq, Bool.true_and, Bool.and_true, true_and, and_true, and_assoc] at hf
  simp only [zoneExact, z1, z2, z3, z4, if_true, if_false, Bool.and_eq_true, Bool.or_eq_true,
    decide_eq_true_eq, true_and, and_true, false_and, and_false, or_false, false_or, true_or,
    decide_False, decide_True, Bool.false_eq_true, Bool.and_false, Bool.false_and,
    Bool.or_false, Bool.true_and, Bool.and_true] at hzx
  obtain ⟨hns, hs0, hh0, hmi0, hya, hyb⟩ := hf
  rw [if_neg (fun hc => absurd hc.1 (show ¬ DateOnly = RFC3339Nano by decide))]
  have he := format_free DateOnly (by decide) r Z
  have hp0 : Parse loc (quoted DateOnly) (quoted ((⟨(y : Int), m, d, h, mi, s, ns, UTC⟩ : Time).Format DateOnly))
      = .ok ⟨(y : Int), m, d, 0, 0, 0, 0, UTC⟩ := by
    rw [qformat_DateOnly r UTC]
    exact parse_DateOnly o loc
  obtain ⟨P, hp, hu, -⟩ := roundtrip_all loc mt DateOnly (by decide) o
  rw [hp0] at hp
  cases hp
  rw [he]
  refine ⟨safe_all DateOnly (by decide) r, _, hu, ?_⟩
  subst hns
  subst hs0
  subst hh0
  subst hmi0
  exact equal_fields _ _ _ _ _ _ _ _ _ (by rw [hzx]; rfl)

theorem ex_TimeOnly {y m d h mi s ns : Nat} (o : Ok y m d h mi s ns) (loc : Location)
    (mt : MultiFormatTime) (Z : Location)
    (hex : exactUnder loc TimeOnly ⟨(y : Int), m, d, h, mi, s, ns, Z⟩ = true) :
    Safe ((⟨(y : Int), m, d, h, mi, s, ns, Z⟩ : Time).Format TimeOnly) ∧
    ∃ t2, UnmarshalJSON loc mt (quoted ((⟨(y : Int), m, d, h, mi, s, ns, Z⟩ : Time).Format TimeOnly))
        = (⟨t2, if TimeOnly = RFC3339Nano ∧ ns = 0 then RFC3339 else TimeOnly⟩, none) ∧
      t2.Equal (⟨(y : Int), m, d, h, mi, s, ns, Z⟩ : Time) := by
  have r := o.rng
  have c1 : (TimeOnly = RFC3339Nano ∨ TimeOnly = StampNano) = False := eq_false (by decide)
  have c2 : (TimeOnly = StampMicro) = False := eq_false (by decide)
  have c3 : (TimeOnly = StampMilli) = False := eq_false (by decide)
  have c4 : (TimeOnly ∈ [Kitchen, RFC822Z, RFC822, DateOnly]) = False := eq_false (by decide)
  have c5 : (TimeOnly = DateOnly) = False := eq_false (by decide)
  have c6 : (TimeOnly ∈ [Kitchen, TimeOnly]) = True := eq_true (by decide)
  have c7 : (TimeOnly ∈ yearlessLayouts) = True := eq_true (by decide)
  have c8 : (TimeOnly ∈ shortYearLayouts) = False := eq_false (by decide)
  have z1 : (TimeOnly ∈ numZoneLayouts ∨ TimeOnly ∈ isoZoneLayouts) = False := eq_false (by decide)
  have z2 : (TimeOnly ∈ abbrZoneLayouts) = False := eq_false (by decide)
  have z3 : (TimeOnly = RFC850) = False := eq_false (by decide)
  have z4 : (TimeOnly = UnixDate) = False := eq_false (by decide)
  simp only [exactUnder, Bool.and_eq_true] at hex
  obtain ⟨hf, hzx⟩ := hex
  simp only [fieldsExact, c1, c2, c3, c4, c5, c6, c7, c8, if_true, if_false, Bool.and_eq_true,
    decide_eq_true_eq, Bool.true_and, Bool.and_true, true_and, and_true, and_assoc] at hf
  simp only [zoneExact, z1, z2, z3, z4, if_true, if_false, Bool.and_eq_true, Bool.or_eq_true,
    decide_eq_true_eq, true_and, and_true, false_and, and_false, or_false, false_or, true_or,
    decide_False, decide_True, Bool.false_eq_true, Bool.and_false, Bool.false_and,
    Bool.or_false, Bool.true_and, Bool.and_true] at hzx
  obtain ⟨hns, hm1, hd1, hy⟩ := hf
  have hy0 : y = 0 := by omega
  rw [if_neg (fun hc => absurd hc.1 (show ¬ TimeOnly = RFC3339Nano by decide))]
  have he := format_free TimeOnly (by decide) r Z
  have hp0 : Parse loc (quoted TimeOnly) (quoted ((⟨(y : Int), m, d, h, mi, s, ns, UTC⟩ : Time).Format TimeOnly))
      = .ok ⟨((0 : Nat) : Int), 1, 1, h, mi, s, 0, UTC⟩ := by
    rw [qformat_TimeOnly r UTC]
    exact parse_TimeOnly o loc
  obtain ⟨P, hp, hu, -⟩ := roundtrip_all loc mt TimeOnly (by decide) o
  rw [hp0] at hp
  cases hp
  rw [he]
  refine ⟨safe_all TimeOnly (by decide) r, _, hu, ?_⟩
  subst hns
  subst hm1
  subst hd1
  subst hy0
  exact equal_fields _ _ _ _ _ _ _ _ _ (by rw [hzx]; rfl)

/-- For a valid time with a four-digit year that is exactly representable under
a layout of the registry: the text of the time under the layout needs no escape,
and `UnmarshalJSON` decodes it to the same instant, tagged with the layout
(`RFC3339` when the layout is `RFC3339Nano` and there are no nanoseconds). -/
theorem exact_all (loc : Location) (mt : MultiFormatTime) (L : GoString) (hL : L ∈ formats)
    {y m d h mi s ns : Nat} (o : Ok y m d h mi s ns) (Z : Location)
    (hex : exactUnder loc L ⟨(y : Int), m, d, h, mi, s, ns, Z⟩ = true) :
    Safe ((⟨(y : Int), m, d, h, mi, s, ns, Z⟩ : Time).Format L) ∧
    ∃ t2, UnmarshalJSON loc mt (quoted ((⟨(y : Int), m, d, h, mi, s, ns, Z⟩ : Time).Format L))
        = (⟨t2, if L = RFC3339Nano ∧ ns = 0 then RFC3339 else L⟩, none) ∧
      t2.Equal (⟨(y : Int), m, d, h, mi, s, ns, Z⟩ : Time) := by
  simp only [formats, List.mem_cons, List.mem_singleton, List.not_mem_nil, or_false] at hL
  rcases hL with rfl | rfl | rfl | rfl | rfl | rfl | rfl | rfl | rfl | rfl | rfl | rfl | rfl
    | rfl | rfl | rfl | rfl | rfl | rfl
  · exact ex_Layout o loc mt Z hex
  · exact ex_ANSIC o loc mt Z hex
  · exact ex_RubyDate o loc mt Z hex
  · exact ex_UnixDate o loc mt Z hex
  · exact ex_RFC822Z o loc mt Z hex
  · exact ex_RFC822 o loc mt Z hex
  · exact ex_RFC850 o loc mt Z hex
  · exact ex_RFC1123Z o loc mt Z hex
  · exact ex_RFC1123 o loc mt Z hex
  · exact ex_RFC3339 o loc mt Z hex
  · exact ex_RFC3339Nano o loc mt Z hex
  · exact ex_Kitchen o loc mt Z hex
  · exact ex_StampNano o loc mt Z hex
  · exact ex_StampMicro o loc mt Z hex
  · exact ex_StampMilli o loc mt Z hex
  · exact ex_Stamp o loc mt Z hex
  · exact ex_DateTime o loc mt Z hex
  · exact ex_DateOnly o loc mt Z hex
  · exact ex_TimeOnly o loc mt Z hex

end Mft

namespace Mft
open Std

/-! ## Years that a layout does not write, or writes with two digits -/

theorem format_yearless (L : GoString) (hL : L ∈ yearlessLayouts) (Y : Int)
    (m d h mi s ns : Nat) (Z : Location) :
    (⟨Y, m, d, h, mi, s, ns, Z⟩ : Time).Format L
      = (⟨((0 : Nat) : Int), m, d, h, mi, s, ns, Z⟩ : Time).Format L := by
  simp only [yearlessLayouts, List.mem_cons, List.mem_singleton, List.not_mem_nil, or_false] at hL
  rcases hL with rfl | rfl | rfl | rfl | rfl | rfl
  · unfold Time.Format appendFormat
    rw [if_neg (by decide), if_neg (by decide), if_neg (by decide), uchunks_Kitchen]
    rfl
  · unfold Time.Format appendFormat
    rw [if_neg (by decide), if_neg (by decide), if_neg (by decide), uchunks_StampNano]
    rfl
  · unfold Time.Format appendFormat
    rw [if_neg (by decide), if_neg (by decide), if_neg (by decide), uchunks_StampMicro]
    rfl
  · unfold Time.Format appendFormat
    rw [if_neg (by decide), if_neg (by decide), if_neg (by decide), uchunks_StampMilli]
    rfl
  · unfold Time.Format appendFormat
    rw [if_neg (by decide), if_neg (by decide), if_neg (by decide), uchunks_Stamp]
    rfl
  · unfold Time.Format appendFormat
    rw [if_neg (by decide), if_neg (by decide), if_neg (by decide), uchunks_TimeOnly]
    rfl

/-- The two digits `Format` writes for a year are those of the year of the window
1969 to 2068 that `parse` reads them as. -/
theorem year2_eq (Y : Int) :
    (if Y < 0 then -Y else Y) % 100
      = (if ((y2k (Y.natAbs % 100) : Nat) : Int) < 0 then -((y2k (Y.natAbs % 100) : Nat) : Int)
          else ((y2k (Y.natAbs % 100) : Nat) : Int)) % 100 := by
  unfold y2k
  split_ifs <;> omega

theorem format_shortyear (L : GoString) (hL : L ∈ [Layout, RFC822Z, RFC822]) (Y : Int)
    (m d h mi s ns : Nat) (Z : Location) :
    (⟨Y, m, d, h, mi, s, ns, Z⟩ : Time).Format L
      = (⟨((y2k (Y.natAbs % 100) : Nat) : Int), m, d, h, mi, s, ns, Z⟩ : Time).Format L := by
  simp only [List.mem_cons, List.mem_singleton, List.not_mem_nil, or_false] at hL
  rcases hL with rfl | rfl | rfl
  · unfold Time.Format appendFormat
    rw [if_neg (by decide), if_neg (by decide), if_neg (by decide), if_neg (by decide),
      if_neg (by decide), if_neg (by decide), uchunks_Layout]
    simp only [formatChunks, formatStd, year2_eq Y]
  · unfold Time.Format appendFormat
    rw [if_neg (by decide), if_neg (by decide), if_neg (by decide), if_neg (by decide),
      if_neg (by decide), if_neg (by decide), uchunks_RFC822Z]
    simp only [formatChunks, formatStd, year2_eq Y]
  · unfold Time.Format appendFormat
    rw [if_neg (by decide), if_neg (by decide), if_neg (by decide), if_neg (by decide),
      if_neg (by decide), if_neg (by decide), uchunks_RFC822]
    simp only [formatChunks, formatStd, year2_eq Y]

/-- A leap year is written with the two digits of a leap year of the window. -/
theorem isLeap_y2k (Y : Int) (h : isLeap Y = true) :
    isLeap ((y2k (Y.natAbs % 100) : Nat) : Int) = true := by
  rw [isLeap_iff] at h ⊢
  unfold y2k
  split_ifs <;> omega

theorem daysIn_y2k_int (m : Nat) (Y : Int) :
    daysIn m Y ≤ daysIn m ((y2k (Y.natAbs % 100) : Nat) : Int) :=
  daysIn_mono m Y _ (isLeap_y2k Y)

/-- The calendar repeats every 400 years: the same leap years. -/
theorem isLeap_mod400 (Y Y2 : Int) (h : (Y - Y2) % 400 = 0) : isLeap Y = isLeap Y2 := by
  rw [Bool.eq_iff_iff, isLeap_iff, isLeap_iff]
  omega

/-- The calendar repeats every 400 years: the same weekdays. -/
theorem weekday_mod400 (Y Y2 : Int) (h : (Y - Y2) % 400 = 0) (m d h1 mi s ns : Nat)
    (Z : Location) :
    (⟨Y, m, d, h1, mi, s, ns, Z⟩ : Time).Weekday = (⟨Y2, m, d, h1, mi, s, ns, Z⟩ : Time).Weekday := by
  unfold Time.Weekday dateToDays daysSinceEpoch
  simp only
  rw [isLeap_mod400 Y Y2 h]
  generalize (if isLeap Y2 = true ∧ 3 ≤ m then (1 : Int) else 0) = c
  congr 1
  omega

theorem format_RFC850_window (Y : Int)
    (hY : (Y - ((y2k (Y.natAbs % 100) : Nat) : Int)) % 400 = 0) (m d h mi s ns : Nat)
    (Z : Location) :
    (⟨Y, m, d, h, mi, s, ns, Z⟩ : Time).Format RFC850
      = (⟨((y2k (Y.natAbs % 100) : Nat) : Int), m, d, h, mi, s, ns, Z⟩ : Time).Format RFC850 := by
  unfold Time.Format appendFormat
  rw [if_neg (by decide), if_neg (by decide), if_neg (by decide), if_neg (by decide),
      if_neg (by decide), if_neg (by decide), uchunks_RFC850]
  simp only [formatChunks, formatStd, year2_eq Y, weekday_mod400 Y _ hY]

/-- The window year of a year in the window is the year itself. -/
theorem y2k_window (y : Nat) (h1 : 1969 ≤ y) (h2 : y ≤ 2068) : y2k (y % 100) = y := by
  unfold y2k
  split_ifs <;> omega

theorem y2k_range (n : Nat) (h : n < 100) : 1969 ≤ y2k n ∧ y2k n ≤ 2068 := by
  unfold y2k
  split_ifs <;> omega

end Mft

namespace Mft
open Std

/-! ## Valid times of any year -/

/-- The text of a valid time `t` under a layout of the registry, when it is also
the text of the same fields in the year `y` from 0 to 9999 and the zone is read
back: `MarshalJSON` returns it in quotes, and `UnmarshalJSON` decodes these bytes
to a value of which `MarshalJSON` returns the same bytes. -/
theorem returns_shift (loc : Location) (mt : MultiFormatTime) (L : GoString) (hL : L ∈ formats)
    (t : Time) (hv : t.Valid) (y : Nat) (hy : y < 10000)
    (hd : daysIn t.month t.year ≤ daysIn t.month (y : Int))
    (hf : t.Format L
      = (⟨(y : Int), t.month, t.day, t.hour, t.min, t.sec, t.nsec, t.loc⟩ : Time).Format L)
    (h850 : L = RFC850 → 1969 ≤ y ∧ y ≤ 2068) (hz : zoneReturns L t = true) :
    MarshalJSON ⟨t, L⟩ = (quoted (t.Format L), none) ∧
    ∃ mt2, UnmarshalJSON loc mt (quoted (t.Format L)) = (mt2, none)
      ∧ MarshalJSON mt2 = (quoted (t.Format L), none) := by
  obtain ⟨h1, h2, h3, h4, h5, h6, h7, h8⟩ := hv
  have o : Ok y t.month t.day t.hour t.min t.sec t.nsec :=
    ⟨⟨hy, h1, h2, h3, le_trans h4 (daysIn_le31 _ _ h1 h2), h5, h6, h7, h8⟩, le_trans h4 hd⟩
  obtain ⟨hs, P, tag, htag, hu, hf2⟩ := returns_all loc mt L hL o t.loc hz h850
  rw [← hf] at hs hu hf2
  refine ⟨marshal_safe t L (formats_ne_nil L hL) hs, ⟨P, tag⟩, hu, ?_⟩
  rw [← hf2] at hs ⊢
  exact marshal_safe P tag (formats_ne_nil tag htag) hs

/-- The text of a valid time under a layout of the registry, with a year and a
zone that are read back: `MarshalJSON` returns it in quotes, and `UnmarshalJSON`
decodes these bytes to a value of which `MarshalJSON` returns the same bytes. -/
theorem returns_year (loc : Location) (mt : MultiFormatTime) (L : GoString) (hL : L ∈ formats)
    (t : Time) (hv : t.Valid) (hy : yearReturns L t = true) (hz : zoneReturns L t = true) :
    MarshalJSON ⟨t, L⟩ = (quoted (t.Format L), none) ∧
    ∃ mt2, UnmarshalJSON loc mt (quoted (t.Format L)) = (mt2, none)
      ∧ MarshalJSON mt2 = (quoted (t.Format L), none) := by
  unfold yearReturns at hy
  by_cases c1 : L ∈ yearlessLayouts
  · refine returns_shift loc mt L hL t hv 0 (by omega) (daysIn_zero _ _) ?_ ?_ hz
    · exact format_yearless L c1 t.year t.month t.day t.hour t.min t.sec t.nsec t.loc
    · intro h
      rw [h] at c1
      exact absurd c1 (by decide)
  by_cases c2 : L ∈ [Layout, RFC822Z, RFC822]
  · have hn : t.year.natAbs % 100 < 100 := Nat.mod_lt _ (by omega)
    refine returns_shift loc mt L hL t hv (y2k (t.year.natAbs % 100))
      (by have := y2k_range _ hn; omega) (daysIn_y2k_int _ _) ?_ ?_ hz
    · exact format_shortyear L c2 t.year t.month t.day t.hour t.min t.sec t.nsec t.loc
    · intro _
      exact y2k_range _ hn
  rw [if_neg (by tauto)] at hy
  by_cases c3 : L = RFC850
  · rw [if_pos c3] at hy
    have hm := of_decide_eq_true hy
    have hn : t.year.natAbs % 100 < 100 := Nat.mod_lt _ (by omega)
    subst c3
    refine returns_shift loc mt RFC850 hL t hv (y2k (t.year.natAbs % 100))
      (by have := y2k_range _ hn; omega) (daysIn_y2k_int _ _) ?_ ?_ hz
    · exact format_RFC850_window t.year hm t.month t.day t.hour t.min t.sec t.nsec t.loc
    · intro _
      exact y2k_range _ hn
  · rw [if_neg c3] at hy
    simp only [Bool.and_eq_true, decide_eq_true_eq] at hy
    exact returns_time loc mt L hL t hv hy.1 hy.2 (fun h => absurd h c3) hz

end Mft

namespace Mft
open Std

/-! ## Claims C3 to C10 -/

/-- C3 (RFC 3339 disambiguation).  Whenever the quoted `RFC3339` layout is the first
entry of `formats` that parses `s`: if `s` contains `.` the `RFC3339Nano` re-parse
succeeds and the receiver gets its result with tag `RFC3339Nano`, and if `s` has no
`.` the receiver gets the `RFC3339` result with tag `RFC3339`.  The two inputs of
the specification decode to tag `RFC3339` with 0 ns and to tag `RFC3339Nano` with
123456789 ns. -/
theorem c3_rfc3339_disambiguation (loc : Location) (mt : MultiFormatTime) (s : GoString)
    (t : Time)
    (hfirst : ∀ g ∈ formats.takeWhile (fun g => decide (g ≠ RFC3339)), parses loc g s = false)
    (hparse : Parse loc (quoted RFC3339) s = .ok t) :
    (containsDot s = true →
      ∃ t2, Parse loc (quoted RFC3339Nano) s = .ok t2 ∧
        UnmarshalJSON loc mt s = (⟨t2, RFC3339Nano⟩, none)) ∧
    (containsDot s = false → UnmarshalJSON loc mt s = (⟨t, RFC3339⟩, none)) ∧
    UnmarshalJSON loc mt (B "\"2024-01-01T00:00:00Z\"")
      = (⟨⟨2024, 1, 1, 0, 0, 0, 0, UTC⟩, RFC3339⟩, none) ∧
    UnmarshalJSON loc mt (B "\"2024-01-01T00:00:00.123456789Z\"")
      = (⟨⟨2024, 1, 1, 0, 0, 0, 123456789, UTC⟩, RFC3339Nano⟩, none) := by
  have hrun : UnmarshalJSON loc mt s = onMatch loc mt s RFC3339 t := by
    unfold UnmarshalJSON
    rw [formats_split_RFC3339]
    exact unmarshalLoop_hit loc mt s RFC3339 _ t _ none hfirst hparse
  refine ⟨?_, ?_, ?_, ?_⟩
  · intro hdot
    have hnano := (parse_RFC3339_iff_Nano loc s t).1 hparse
    refine ⟨t, hnano, ?_⟩
    rw [hrun]
    simp only [onMatch, if_true, hdot, hnano]
  · intro hdot
    rw [hrun]
    simp only [onMatch, if_true, hdot, Bool.false_eq_true, if_false]
  · rfl
  · rfl

/-- Witness of C3 at the input `"2024-01-01T00:00:00Z"`. -/
theorem c3_rfc3339_disambiguation_witness :
    (∀ g ∈ formats.takeWhile (fun g => decide (g ≠ RFC3339)),
        parses UTC g (B "\"2024-01-01T00:00:00Z\"") = false) ∧
    Parse UTC (quoted RFC3339) (B "\"2024-01-01T00:00:00Z\"")
      = .ok ⟨2024, 1, 1, 0, 0, 0, 0, UTC⟩ ∧
    containsDot (B "\"2024-01-01T00:00:00Z\"") = false ∧
    UnmarshalJSON UTC zeroValue (B "\"2024-01-01T00:00:00Z\"")
      = (⟨⟨2024, 1, 1, 0, 0, 0, 0, UTC⟩, RFC3339⟩, none) :=
  ⟨by decide, rfl, by decide,
   (c3_rfc3339_disambiguation UTC zeroValue (B "\"2024-01-01T00:00:00Z\"")
      ⟨2024, 1, 1, 0, 0, 0, 0, UTC⟩ (by decide) rfl).2.1 (by decide)⟩

/-- C4 (first match wins).  When `UnmarshalJSON` succeeds and the recorded tag is
not `RFC3339Nano`, the tag is an entry of `formats` whose quoted layout parses `s`,
every entry before it fails on `s`, and the recorded time is the result of parsing
`s` with that layout; this for any prior content of the receiver. -/
theorem c4_first_match_wins (loc : Location) (mt mt' : MultiFormatTime) (s : GoString)
    (hok : UnmarshalJSON loc mt s = (mt', none)) (htag : mt'.Format ≠ RFC3339Nano) :
    ∃ pre post, formats = pre ++ mt'.Format :: post ∧
      (∀ g ∈ pre, parses loc g s = false) ∧
      Parse loc (quoted mt'.Format) s = .ok mt'.Time := by
  unfold UnmarshalJSON at hok
  rcases unmarshalLoop_cases loc mt s formats none with hall | ⟨pre, f, post, t, hfs, hpre, hf, hr⟩
  · obtain ⟨-, -, h3⟩ := unmarshalLoop_all_fail loc mt s formats none hall
    obtain ⟨e, -, he⟩ := h3 (by decide)
    rw [hok] at he
    cases he
  · rw [hr] at hok
    rcases onMatch_cases loc mt s f t with ⟨h1, -⟩ | ⟨-, -, h2⟩
    · rw [h1] at hok
      cases hok
      exact ⟨pre, post, hfs, hpre, hf⟩
    · rcases h2 with ⟨t2, -, h3⟩ | ⟨e, -, h3⟩
      · rw [h3] at hok
        cases hok
        exact absurd rfl htag
      · rw [h3] at hok
        cases hok

/-- Witness of C4 at the input `"2024-01-01"`, decoded with tag `DateOnly`. -/
theorem c4_first_match_wins_witness :
    ∃ pre post, formats = pre ++ DateOnly :: post ∧
      (∀ g ∈ pre, parses UTC g (B "\"2024-01-01\"") = false) ∧
      Parse UTC (quoted DateOnly) (B "\"2024-01-01\"") = .ok ⟨2024, 1, 1, 0, 0, 0, 0, UTC⟩ :=
  c4_first_match_wins UTC zeroValue ⟨⟨2024, 1, 1, 0, 0, 0, 0, UTC⟩, DateOnly⟩
    (B "\"2024-01-01\"") (by decide) (by decide)

/-- C5 (rejection).  When no layout of `formats` parses `s`, `UnmarshalJSON` returns a
non-nil error; and it returns an error for the input `"2023:01:01"`. -/
theorem c5_rejection (loc : Location) (mt : MultiFormatTime) (s : GoString)
    (hnone : ∀ f ∈ formats, parses loc f s = false) :
    (∃ e, (UnmarshalJSON loc mt s).2 = some e) ∧
    (∃ e, (UnmarshalJSON loc mt (B "\"2023:01:01\"")).2 = some e) := by
  refine ⟨?_, ⟨_, rfl⟩⟩
  obtain ⟨-, -, h3⟩ := unmarshalLoop_all_fail loc mt s formats none hnone
  obtain ⟨e, -, he⟩ := h3 (by decide)
  exact ⟨e, he⟩

/-- Witness of C5 at the input `"2023:01:01"`. -/
theorem c5_rejection_witness :
    (∀ f ∈ formats, parses UTC f (B "\"2023:01:01\"") = false) ∧
    ∃ e, (UnmarshalJSON UTC zeroValue (B "\"2023:01:01\"")).2 = some e :=
  ⟨by decide, (c5_rejection UTC zeroValue (B "\"2023:01:01\"") (by decide)).1⟩

/-- C6 (success on any match).  When some layout of `formats` parses `s`,
`UnmarshalJSON` returns a nil error and the receiver holds a time and a tag of
the registry whose quoted layout parses `s` to that time; and the `RFC3339Nano`
re-parse of the disambiguation branch cannot fail, as every input the quoted
`RFC3339` layout parses is parsed by the quoted `RFC3339Nano` layout. -/
theorem c6_success_on_any_match (loc : Location) (mt : MultiFormatTime) (s : GoString)
    (hsome : ∃ f ∈ formats, parses loc f s = true) :
    (∃ t f, f ∈ formats ∧ Parse loc (quoted f) s = .ok t ∧
        UnmarshalJSON loc mt s = (⟨t, f⟩, none)) ∧
    (∀ t, Parse loc (quoted RFC3339) s = .ok t →
        Parse loc (quoted RFC3339Nano) s = .ok t) := by
  refine ⟨?_, fun t h => (parse_RFC3339_iff_Nano loc s t).1 h⟩
  unfold UnmarshalJSON
  rcases unmarshalLoop_cases loc mt s formats none with hall | ⟨pre, f, post, t, hfs, hpre, hf, hr⟩
  · obtain ⟨f, hf, hp⟩ := hsome
    rw [hall f hf] at hp
    cases hp
  · have hmem : f ∈ formats := by rw [hfs]; simp
    rcases onMatch_cases loc mt s f t with ⟨h1, -⟩ | ⟨hR, -, h2⟩
    · exact ⟨t, f, hmem, hf, by rw [hr, h1]⟩
    · subst hR
      have hnano := (parse_RFC3339_iff_Nano loc s t).1 hf
      rcases h2 with ⟨t2, h3, h4⟩ | ⟨e, h3, -⟩
      · exact ⟨t2, RFC3339Nano, by decide, h3, by rw [hr, h4]⟩
      · rw [hnano] at h3
        cases h3

/-- Witness of C6 at the input `"2024-01-01T00:00:00.5Z"`, which goes through the
disambiguation branch. -/
theorem c6_success_on_any_match_witness :
    (∃ f ∈ formats, parses UTC f (B "\"2024-01-01T00:00:00.5Z\"") = true) ∧
    ∃ t f, f ∈ formats ∧ Parse UTC (quoted f) (B "\"2024-01-01T00:00:00.5Z\"") = .ok t ∧
      UnmarshalJSON UTC zeroValue (B "\"2024-01-01T00:00:00.5Z\"") = (⟨t, f⟩, none) :=
  ⟨⟨RFC3339, by decide, by decide⟩,
   (c6_success_on_any_match UTC zeroValue (B "\"2024-01-01T00:00:00.5Z\"")
      ⟨RFC3339, by decide, by decide⟩).1⟩

/-- C7, as stated, fails: with the tag `<` the formatted text is `<`, and
`MarshalJSON` returns the six-byte escape of it between the quotes, not the text
wrapped in double quotes.  The same holds for every ASCII byte outside
`htmlSafeSet` (the control characters, `"`, `&`, `<`, `>`, `\`), for U+2028 and
U+2029, and for a byte that is not valid UTF-8. -/
theorem c7_counterexample :
    (⟨2024, 1, 1, 0, 0, 0, 0, UTC⟩ : Time).Format (B "<") = B "<" ∧
    (MarshalJSON ⟨⟨2024, 1, 1, 0, 0, 0, 0, UTC⟩, B "<"⟩).1 = B "\"\\u003c\"" ∧
    (MarshalJSON ⟨⟨2024, 1, 1, 0, 0, 0, 0, UTC⟩, B "<"⟩).1
      ≠ quoted ((⟨2024, 1, 1, 0, 0, 0, 0, UTC⟩ : Time).Format (B "<")) ∧
    (∀ b < 128, htmlSafe b = false →
      (⟨2024, 1, 1, 0, 0, 0, 0, UTC⟩ : Time).Format [b] = [b] ∧
      (MarshalJSON ⟨⟨2024, 1, 1, 0, 0, 0, 0, UTC⟩, [b]⟩).1 ≠ quoted [b]) ∧
    (⟨2024, 1, 1, 0, 0, 0, 0, UTC⟩ : Time).Format [226, 128, 168] = [226, 128, 168] ∧
    (MarshalJSON ⟨⟨2024, 1, 1, 0, 0, 0, 0, UTC⟩, [226, 128, 168]⟩).1 = B "\"\\u2028\"" ∧
    (⟨2024, 1, 1, 0, 0, 0, 0, UTC⟩ : Time).Format [226, 128, 169] = [226, 128, 169] ∧
    (MarshalJSON ⟨⟨2024, 1, 1, 0, 0, 0, 0, UTC⟩, [226, 128, 169]⟩).1 = B "\"\\u2029\"" ∧
    (⟨2024, 1, 1, 0, 0, 0, 0, UTC⟩ : Time).Format [255] = [255] ∧
    (MarshalJSON ⟨⟨2024, 1, 1, 0, 0, 0, 0, UTC⟩, [255]⟩).1 ≠ quoted [255] := by
  decide

/-- C7 (encode with a tag), amended.  For every time and every non-empty tag such
that the text of the time formatted with the tag is UTF-8 text whose code points
`json.Marshal` does not escape (no control character below U+0020, no `"`, `&`,
`<`, `>`, `\`, U+2028 or U+2029), `MarshalJSON` returns, with a nil error,
exactly that text wrapped in double quotes; so `{2024-01-01T00:00:00Z, DateTime}`
encodes to `"2024-01-01 00:00:00"`. -/
theorem c7_encode_with_tag (t : Time) (L : GoString) (hL : L ≠ []) (rs : List Nat)
    (hrs : ∀ r ∈ rs, plainRune r = true) (htext : t.Format L = utf8Text rs) :
    MarshalJSON ⟨t, L⟩ = (quoted (t.Format L), none) ∧
    MarshalJSON ⟨⟨2024, 1, 1, 0, 0, 0, 0, UTC⟩, DateTime⟩
      = (B "\"2024-01-01 00:00:00\"", none) := by
  refine ⟨?_, by decide⟩
  unfold MarshalJSON
  rw [if_pos hL, htext]
  exact jsonMarshal_plain rs hrs

/-- Witness of C7 at `{2024-01-01T00:00:00Z, DateTime}`, whose text
`2024-01-01 00:00:00` is ASCII without escaped characters. -/
theorem c7_encode_with_tag_witness :
    DateTime ≠ [] ∧
    (∀ r ∈ B "2024-01-01 00:00:00", plainRune r = true) ∧
    (⟨2024, 1, 1, 0, 0, 0, 0, UTC⟩ : Time).Format DateTime = utf8Text (B "2024-01-01 00:00:00") ∧
    MarshalJSON ⟨⟨2024, 1, 1, 0, 0, 0, 0, UTC⟩, DateTime⟩
      = (quoted ((⟨2024, 1, 1, 0, 0, 0, 0, UTC⟩ : Time).Format DateTime), none) :=
  ⟨by decide, by decide, by decide,
   (c7_encode_with_tag ⟨2024, 1, 1, 0, 0, 0, 0, UTC⟩ DateTime (by decide)
      (B "2024-01-01 00:00:00") (by decide) (by decide)).1⟩

/-- C8 (unset-tag default encode).  For every time, whatever its sub-second part,
`MarshalJSON` with the empty tag returns, with a nil error, the double-quoted
text of the time in the `RFC3339` layout: year, month, day, `T`, hour, minute,
second and zone, without fractional second.  The text does not depend on the
nanoseconds, and the untagged 2024-01-01T00:00:00Z encodes to
`"2024-01-01T00:00:00Z"`. -/
theorem c8_default_encode (t : Time) :
    MarshalJSON ⟨t, []⟩ = (quoted (t.Format RFC3339), none) ∧
    t.Format RFC3339 =
      appendInt t.year 4 ++ [45] ++ appendInt t.month 2 ++ [45] ++ appendInt t.day 2 ++ [84]
        ++ appendInt t.hour 2 ++ [58] ++ appendInt t.min 2 ++ [58] ++ appendInt t.sec 2
        ++ formatStd t stdISO8601ColonTZ ∧
    (∀ n, MarshalJSON ⟨{ t with nsec := n }, []⟩ = MarshalJSON ⟨t, []⟩) ∧
    MarshalJSON ⟨⟨2024, 1, 1, 0, 0, 0, 0, UTC⟩, []⟩ = (B "\"2024-01-01T00:00:00Z\"", none) := by
  have hfmt : ∀ u : Time, u.Format RFC3339 = appendFormatRFC3339 u false := by
    intro u; simp only [Time.Format, if_true]
  have hm : ∀ u : Time, MarshalJSON ⟨u, []⟩ = (quoted (u.Format RFC3339), none) := by
    intro u
    simp only [MarshalJSON, ne_eq, not_true_eq_false, if_false, DEFAULT_FORMAT]
    rw [hfmt]
    exact jsonMarshal_safe _ (appendFormatRFC3339_false_safe u)
  refine ⟨hm t, ?_, ?_, by decide⟩
  · rw [hfmt]
    simp only [appendFormatRFC3339, Bool.false_eq_true, if_false, List.append_nil, formatStd,
      appendZone, List.append_assoc]
    split <;> rfl
  · intro n
    rw [hm, hm, hfmt, hfmt]
    rfl

/-- C9 (encoding never fails).  For every value, whatever the time and the tag,
`MarshalJSON` returns a text and a nil error; the loop of `appendFormat` over the
tag always reaches its end, as no amount of fuel beyond the length of the tag
changes its chunks. -/
theorem c9_encoding_never_fails (mt : MultiFormatTime) :
    (∃ text, MarshalJSON mt = (text, none)) ∧
    (∀ n, mt.Format.length < n → chunksFuel n mt.Format = layoutChunks mt.Format) := by
  refine ⟨?_, fun n h => chunksFuel_eq_layoutChunks n mt.Format h⟩
  unfold MarshalJSON jsonMarshal
  split <;> exact ⟨_, rfl⟩

/-- C10 (no partial result).  When `UnmarshalJSON` returns a non-nil error the
receiver is unchanged, whatever the input and the prior value; this includes the
`return err` after a failed `RFC3339Nano` re-parse, which leaves the receiver
as it was. -/
theorem c10_no_partial_result (loc : Location) (mt : MultiFormatTime) (s : GoString)
    (herr : (UnmarshalJSON loc mt s).2 ≠ none) :
    (UnmarshalJSON loc mt s).1 = mt ∧
    (∀ t e, containsDot s = true → Parse loc (quoted RFC3339Nano) s = .error e →
      onMatch loc mt s RFC3339 t = (mt, some e)) := by
  constructor
  · unfold UnmarshalJSON at herr ⊢
    rcases unmarshalLoop_cases loc mt s formats none with
      hall | ⟨pre, f, post, t, hfs, hpre, hf, hr⟩
    · exact (unmarshalLoop_all_fail loc mt s formats none hall).1
    · rw [hr] at herr ⊢
      rcases onMatch_cases loc mt s f t with ⟨h1, -⟩ | ⟨-, -, h2⟩
      · rw [h1] at herr
        exact absurd rfl herr
      · rcases h2 with ⟨t2, -, h3⟩ | ⟨e, -, h3⟩
        · rw [h3] at herr
          exact absurd rfl herr
        · rw [h3]
  · intro t e hdot hp
    simp only [onMatch, if_true, hdot, hp]

/-- Witness of C10 at the input `"2023:01:01"` and a receiver that holds a value. -/
theorem c10_no_partial_result_witness :
    (UnmarshalJSON UTC ⟨⟨2024, 1, 1, 0, 0, 0, 0, UTC⟩, DateOnly⟩ (B "\"2023:01:01\"")).2 ≠ none ∧
    (UnmarshalJSON UTC ⟨⟨2024, 1, 1, 0, 0, 0, 0, UTC⟩, DateOnly⟩ (B "\"2023:01:01\"")).1
      = ⟨⟨2024, 1, 1, 0, 0, 0, 0, UTC⟩, DateOnly⟩ :=
  ⟨by decide,
   (c10_no_partial_result UTC ⟨⟨2024, 1, 1, 0, 0, 0, 0, UTC⟩, DateOnly⟩ (B "\"2023:01:01\"")
      (by decide)).1⟩

end Mft

namespace Mft
open Std

/-! ## C1 and C2: the round trip through `MarshalJSON` and `UnmarshalJSON` -/

theorem exact_year (L : GoString) (t : Time) (h : fieldsExact L t = true) :
    0 ≤ t.year ∧ t.year ≤ 9999 := by
  simp only [fieldsExact, Bool.and_eq_true] at h
  have hy := h.2
  split_ifs at hy
  · have := of_decide_eq_true hy
    omega
  · simp only [Bool.and_eq_true, decide_eq_true_eq] at hy
    omega
  · simp only [Bool.and_eq_true, decide_eq_true_eq] at hy
    omega

end Mft

namespace Mft
open Std

/-! ## Claims C11, C16 and C17: the tag and the error of `UnmarshalJSON` -/

/-- C11 (tag membership invariant).  Whenever `UnmarshalJSON` returns a nil error,
the `Format` it recorded is not empty and is an entry of `formats`; so
`MarshalJSON` of the decoded value takes the branch `mt.Format != ""` and formats
the time with the recorded layout, never with `DEFAULT_FORMAT`. -/
theorem c11_tag_membership (loc : Location) (mt : MultiFormatTime) (s : GoString)
    (hok : (UnmarshalJSON loc mt s).2 = none) :
    (UnmarshalJSON loc mt s).1.Format ≠ [] ∧
    (UnmarshalJSON loc mt s).1.Format ∈ formats ∧
    MarshalJSON (UnmarshalJSON loc mt s).1
      = jsonMarshal ((UnmarshalJSON loc mt s).1.Time.Format (UnmarshalJSON loc mt s).1.Format) := by
  obtain ⟨pre, f, post, t, hfs, -, -, h⟩ :=
    unmarshal_ok_inv loc mt _ s (unmarshal_ok_pair loc mt s hok)
  have hmem : (UnmarshalJSON loc mt s).1.Format ∈ formats := by
    rcases h with ⟨h1, -⟩ | ⟨-, -, t2, -, h2⟩
    · rw [h1]
      exact mem_formats_of_split pre post f hfs
    · rw [h2]
      exact (show RFC3339Nano ∈ formats by decide)
  have hne := formats_ne_nil _ hmem
  refine ⟨hne, hmem, ?_⟩
  unfold MarshalJSON
  rw [if_pos hne]

/-- Witness of C11 at the input `"2024-01-01"`, decoded with tag `DateOnly`. -/
theorem c11_tag_membership_witness :
    (UnmarshalJSON UTC zeroValue (B "\"2024-01-01\"")).2 = none ∧
    (UnmarshalJSON UTC zeroValue (B "\"2024-01-01\"")).1.Format = DateOnly ∧
    ((UnmarshalJSON UTC zeroValue (B "\"2024-01-01\"")).1.Format ≠ [] ∧
    (UnmarshalJSON UTC zeroValue (B "\"2024-01-01\"")).1.Format ∈ formats ∧
    MarshalJSON (UnmarshalJSON UTC zeroValue (B "\"2024-01-01\"")).1
      = jsonMarshal ((UnmarshalJSON UTC zeroValue (B "\"2024-01-01\"")).1.Time.Format
          (UnmarshalJSON UTC zeroValue (B "\"2024-01-01\"")).1.Format)) :=
  ⟨by decide, by decide, c11_tag_membership UTC zeroValue (B "\"2024-01-01\"") (by decide)⟩

/-- C16 (surfaced error on total mismatch).  When no layout of `formats` parses `s`,
`UnmarshalJSON` returns the `*time.ParseError` that `time.Parse` gave for the last
entry of the registry, `TimeOnly`, as it is; the receiver is untouched, and the
result is the same whatever error an earlier candidate had left in `err`. -/
theorem c16_surfaced_error (loc : Location) (mt : MultiFormatTime) (s : GoString)
    (hnone : ∀ f ∈ formats, parses loc f s = false) :
    formats.getLast? = some TimeOnly ∧
    ∃ e, Parse loc (quoted TimeOnly) s = .error e ∧
      UnmarshalJSON loc mt s = (mt, some e) ∧
      ∀ err0, unmarshalLoop loc mt s formats err0 = (mt, some e) := by
  refine ⟨by decide, ?_⟩
  have hne : formats ≠ [] := by decide
  have hlast : formats.getLast hne = TimeOnly := rfl
  obtain ⟨h1, -, h3⟩ := unmarshalLoop_all_fail loc mt s formats none hnone
  obtain ⟨e, hp, he⟩ := h3 hne
  rw [hlast] at hp
  refine ⟨e, hp, ?_, ?_⟩
  · unfold UnmarshalJSON
    exact Prod.ext h1 he
  · intro err0
    obtain ⟨k1, -, k3⟩ := unmarshalLoop_all_fail loc mt s formats err0 hnone
    obtain ⟨e2, hp2, he2⟩ := k3 hne
    rw [hlast, hp] at hp2
    cases hp2
    exact Prod.ext k1 he2

/-- Witness of C16 at the input `"2023:01:01"`. -/
theorem c16_surfaced_error_witness :
    (∀ f ∈ formats, parses UTC f (B "\"2023:01:01\"") = false) ∧
    ∃ e, Parse UTC (quoted TimeOnly) (B "\"2023:01:01\"") = .error e ∧
      UnmarshalJSON UTC zeroValue (B "\"2023:01:01\"") = (zeroValue, some e) :=
  ⟨by decide,
   let ⟨e, h1, h2, _⟩ := (c16_surfaced_error UTC zeroValue (B "\"2023:01:01\"") (by decide)).2
   ⟨e, h1, h2⟩⟩

/-- C17 (the `RFC3339Nano` entry is never the first match).  Whatever the quoted
`RFC3339Nano` layout parses, the quoted `RFC3339` layout parses too, and `RFC3339`
stands right before `RFC3339Nano` in `formats`.  So when `UnmarshalJSON` returns a
nil error the first entry of the scan that parsed `s` is not `RFC3339Nano`; if the
recorded tag is `RFC3339Nano`, that first entry was `RFC3339` and `s` contains a
period (the disambiguation branch); if the recorded tag is `RFC3339`, `s` contains
no period. -/
theorem c17_nano_never_first_match (loc : Location) (mt mt2 : MultiFormatTime) (s : GoString)
    (hok : UnmarshalJSON loc mt s = (mt2, none)) :
    (∀ t, Parse loc (quoted RFC3339Nano) s = .ok t → Parse loc (quoted RFC3339) s = .ok t) ∧
    (∃ pre post, formats = pre ++ RFC3339 :: RFC3339Nano :: post) ∧
    (∃ pre f post, formats = pre ++ f :: post ∧ (∀ g ∈ pre, parses loc g s = false) ∧
      parses loc f s = true ∧ f ≠ RFC3339Nano ∧
      (mt2.Format = RFC3339Nano → f = RFC3339 ∧ containsDot s = true)) ∧
    (mt2.Format = RFC3339 → containsDot s = false) := by
  have hiff := fun t => (parse_RFC3339_iff_Nano loc s t).2
  refine ⟨hiff, ⟨_, _, formats_split_RFC3339⟩, ?_, ?_⟩
  · obtain ⟨pre, f, post, t, hfs, hpre, hp, h⟩ := unmarshal_ok_inv loc mt mt2 s hok
    have hnn : f ≠ RFC3339Nano := by
      intro hf
      subst hf
      have h3 := formats_before_Nano pre post hfs
      have := hpre _ h3
      rw [(parses_true_iff loc RFC3339 s).2 ⟨t, hiff t hp⟩] at this
      cases this
    refine ⟨pre, f, post, hfs, hpre, (parses_true_iff loc f s).2 ⟨t, hp⟩, hnn, ?_⟩
    intro htag
    rcases h with ⟨h1, -⟩ | ⟨hf3, hdot, -⟩
    · rw [h1] at htag
      exact absurd htag hnn
    · exact ⟨hf3, hdot⟩
  · intro htag
    obtain ⟨pre, f, post, t, hfs, hpre, hp, h⟩ := unmarshal_ok_inv loc mt mt2 s hok
    rcases h with ⟨h1, hn⟩ | ⟨-, -, t2, -, h2⟩
    · rw [h1] at htag
      cases hd : containsDot s
      · rfl
      · exact absurd ⟨htag, hd⟩ hn
    · rw [h2] at htag
      exact absurd htag (show RFC3339Nano ≠ RFC3339 by decide)

/-- Witness of C17 at the input `"2024-01-01T00:00:00.123456789Z"`, decoded with tag
`RFC3339Nano` through the disambiguation branch. -/
theorem c17_nano_never_first_match_witness :
    UnmarshalJSON UTC zeroValue (B "\"2024-01-01T00:00:00.123456789Z\"")
      = (⟨⟨2024, 1, 1, 0, 0, 0, 123456789, UTC⟩, RFC3339Nano⟩, none) ∧
    ∃ pre f post, formats = pre ++ f :: post ∧
      (∀ g ∈ pre, parses UTC g (B "\"2024-01-01T00:00:00.123456789Z\"") = false) ∧
      parses UTC f (B "\"2024-01-01T00:00:00.123456789Z\"") = true ∧ f ≠ RFC3339Nano ∧
      ((⟨⟨2024, 1, 1, 0, 0, 0, 123456789, UTC⟩, RFC3339Nano⟩ : MultiFormatTime).Format
          = RFC3339Nano →
        f = RFC3339 ∧ containsDot (B "\"2024-01-01T00:00:00.123456789Z\"") = true) :=
  ⟨rfl,
   (c17_nano_never_first_match UTC zeroValue ⟨⟨2024, 1, 1, 0, 0, 0, 123456789, UTC⟩, RFC3339Nano⟩
      (B "\"2024-01-01T00:00:00.123456789Z\"") rfl).2.2.1⟩

end Mft

namespace Mft
open Std

/-! ## Claim C13: the date fields a layout does not carry -/

/-- C13 (defaulted date fields).  For every input `UnmarshalJSON` accepts with the
tag `Kitchen` or `TimeOnly`, the decoded time has year 0, month 1 (January), day 1
and location UTC, and its time of day is the one read from the input: the hour
and minute numbers (and for `TimeOnly` the seconds) that `getnum` reads after the
opening quote and the colons, the hour moved by `PM` / `AM` for `Kitchen`, whose
seconds and nanoseconds are 0.  For every input accepted with the tag `Stamp`,
`StampMilli`, `StampMicro` or `StampNano` the decoded time has year 0 and location
UTC.  In particular `"12:00AM"` decodes to 0000-01-01T00:00:00Z with tag `Kitchen`
and `"2024-01-01"` to 2024-01-01T00:00:00Z with tag `DateOnly`. -/
theorem c13_defaulted_date_fields (loc : Location) (mt mt2 : MultiFormatTime) (s : GoString)
    (hok : UnmarshalJSON loc mt s = (mt2, none)) :
    (mt2.Format = Kitchen →
      mt2.Time.year = 0 ∧ mt2.Time.month = 1 ∧ mt2.Time.day = 1 ∧ mt2.Time.loc = UTC ∧
      ∃ h0 mi v1 v2 ap, s = 34 :: v1 ∧ getnum v1 false = some (h0, 58 :: v2) ∧
        getnum v2 true = some (mi, ap ++ [34]) ∧ (ap = B "PM" ∨ ap = B "AM") ∧
        mt2.Time.hour = (if ap = B "PM" then (if h0 < 12 then h0 + 12 else h0)
          else if h0 = 12 then 0 else h0) ∧
        mt2.Time.min = mi ∧ mt2.Time.sec = 0 ∧ mt2.Time.nsec = 0) ∧
    (mt2.Format = TimeOnly →
      mt2.Time.year = 0 ∧ mt2.Time.month = 1 ∧ mt2.Time.day = 1 ∧ mt2.Time.loc = UTC ∧
      ∃ h0 mi sec v1 v2 v3 r, s = 34 :: v1 ∧ getnum v1 false = some (h0, 58 :: v2) ∧
        getnum v2 true = some (mi, 58 :: v3) ∧ getnum v3 true = some (sec, r) ∧
        mt2.Time.hour = h0 ∧ mt2.Time.min = mi ∧ mt2.Time.sec = sec) ∧
    (mt2.Format = Stamp ∨ mt2.Format = StampMilli ∨ mt2.Format = StampMicro ∨
        mt2.Format = StampNano →
      mt2.Time.year = 0 ∧ mt2.Time.loc = UTC) ∧
    UnmarshalJSON loc mt (B "\"12:00AM\"") = (⟨⟨0, 1, 1, 0, 0, 0, 0, UTC⟩, Kitchen⟩, none) ∧
    UnmarshalJSON loc mt (B "\"2024-01-01\"")
      = (⟨⟨2024, 1, 1, 0, 0, 0, 0, UTC⟩, DateOnly⟩, none) := by
  have hp := unmarshal_tag_parse loc mt mt2 s hok
  refine ⟨?_, ?_, ?_, unmarshal_midnight_kitchen loc mt, unmarshal_newyear_dateonly loc mt⟩
  · intro hf
    rw [hf] at hp
    obtain ⟨h0, mi, v1, v2, ap, e1, hg1, -, hg2, -, hc⟩ := dec_Kitchen hp
    rcases hc with ⟨ha, ht⟩ | ⟨ha, ht⟩
    · rw [ht]
      refine ⟨rfl, rfl, rfl, rfl, h0, mi, v1, v2, ap, e1, hg1, hg2, Or.inl ha, ?_, rfl, rfl, rfl⟩
      subst ha
      exact (if_pos (show ([80, 77] : GoString) = B "PM" by decide)).symm
    · rw [ht]
      refine ⟨rfl, rfl, rfl, rfl, h0, mi, v1, v2, ap, e1, hg1, hg2, Or.inr ha, ?_, rfl, rfl, rfl⟩
      subst ha
      exact (if_neg (show ¬ ([65, 77] : GoString) = B "PM" by decide)).symm
  · intro hf
    rw [hf] at hp
    obtain ⟨h0, mi, sec, ns, v1, v2, v3, r, e1, hg1, -, hg2, -, hg3, -, -, ht⟩ := dec_TimeOnly hp
    rw [ht]
    exact ⟨rfl, rfl, rfl, rfl, h0, mi, sec, v1, v2, v3, r, e1, hg1, hg2, hg3, rfl, rfl, rfl⟩
  · intro hf
    rcases hf with hf | hf | hf | hf
    · rw [hf] at hp
      obtain ⟨i, d, h0, mi, sec, ns, -, -, -, -, -, -, -, -, -, -, -, -, -, -, -, -, -, -, -, -, -,
        -, -, ht⟩ := dec_Stamp hp
      rw [ht]
      exact ⟨rfl, rfl⟩
    · rw [hf] at hp
      obtain ⟨i, d, h0, mi, sec, x, -, -, -, -, -, -, -, ht⟩ := dec_StampMilli hp
      rw [ht]
      exact ⟨rfl, rfl⟩
    · rw [hf] at hp
      obtain ⟨i, d, h0, mi, sec, x, -, -, -, -, -, -, -, ht⟩ := dec_StampMicro hp
      rw [ht]
      exact ⟨rfl, rfl⟩
    · rw [hf] at hp
      obtain ⟨i, d, h0, mi, sec, x, -, -, -, -, -, -, -, ht⟩ := dec_StampNano hp
      rw [ht]
      exact ⟨rfl, rfl⟩

/-- Witness of C13 at the input `"3:04PM"`, decoded with tag `Kitchen` to 15:04 on
day 1 of month 1 of year 0. -/
theorem c13_defaulted_date_fields_witness :
    UnmarshalJSON UTC zeroValue (B "\"3:04PM\"")
      = (⟨⟨0, 1, 1, 15, 4, 0, 0, UTC⟩, Kitchen⟩, none) ∧
    ((⟨⟨0, 1, 1, 15, 4, 0, 0, UTC⟩, Kitchen⟩ : MultiFormatTime).Format = Kitchen →
      (0 : Int) = 0 ∧ 1 = 1 ∧ 1 = 1 ∧ UTC = UTC ∧
      ∃ h0 mi v1 v2 ap, B "\"3:04PM\"" = 34 :: v1 ∧ getnum v1 false = some (h0, 58 :: v2) ∧
        getnum v2 true = some (mi, ap ++ [34]) ∧ (ap = B "PM" ∨ ap = B "AM") ∧
        15 = (if ap = B "PM" then (if h0 < 12 then h0 + 12 else h0)
          else if h0 = 12 then 0 else h0) ∧
        4 = mi ∧ 0 = 0 ∧ 0 = 0) :=
  ⟨by decide, (c13_defaulted_date_fields UTC zeroValue _ (B "\"3:04PM\"") (by decide)).1⟩

/-! ## Claim C14: how strict the parse is -/

/-- C14, as stated, fails.  The input `"Mon Jan 01 00:00:00 2024"` of the test of the
repository is accepted with the tag `ANSIC`, whose day field is padded with a
space: `MarshalJSON` of the decoded value returns `"Mon Jan  1 00:00:00 2024"`, not
the input.  The input `"2024-01-01 00:00:00.5"` is accepted with the tag `DateTime`,
which describes no fraction: `MarshalJSON` returns `"2024-01-01 00:00:00"`. -/
theorem c14_counterexample :
    (UnmarshalJSON UTC zeroValue (B "\"Mon Jan 01 00:00:00 2024\"")
        = (⟨⟨2024, 1, 1, 0, 0, 0, 0, UTC⟩, ANSIC⟩, none) ∧
      MarshalJSON ⟨⟨2024, 1, 1, 0, 0, 0, 0, UTC⟩, ANSIC⟩
        = (B "\"Mon Jan  1 00:00:00 2024\"", none) ∧
      B "\"Mon Jan  1 00:00:00 2024\"" ≠ B "\"Mon Jan 01 00:00:00 2024\"") ∧
    (UnmarshalJSON UTC zeroValue (B "\"2024-01-01 00:00:00.5\"")
        = (⟨⟨2024, 1, 1, 0, 0, 0, 500000000, UTC⟩, DateTime⟩, none) ∧
      MarshalJSON ⟨⟨2024, 1, 1, 0, 0, 0, 500000000, UTC⟩, DateTime⟩
        = (B "\"2024-01-01 00:00:00\"", none) ∧
      B "\"2024-01-01 00:00:00\"" ≠ B "\"2024-01-01 00:00:00.5\"") := by
  refine ⟨⟨by decide, by decide, by decide⟩, ⟨by decide, by decide, by decide⟩⟩

/-- C14, amended: for every input `s` that `UnmarshalJSON` accepts, the recorded
layout is an entry of `formats` and `time.Parse` accepts `s` under the recorded
layout in double quotes, with the decoded time as result.  When the recorded layout
is `DateOnly`, `s` is byte for byte the quoted text of the decoded time under that
layout and `MarshalJSON` of the decoded value returns `s`.  The same holds, for
every layout, when `s` is the quoted text of a valid UTC time with a four-digit
year under a layout of the registry (years 1969 to 2068 for `RFC850`). -/
theorem c14_strict_parse (loc : Location) (mt mt2 : MultiFormatTime) (s : GoString)
    (hok : UnmarshalJSON loc mt s = (mt2, none)) :
    mt2.Format ∈ formats ∧
    Parse loc (quoted mt2.Format) s = .ok mt2.Time ∧
    (mt2.Format = DateOnly →
      s = quoted (mt2.Time.Format mt2.Format) ∧ MarshalJSON mt2 = (s, none)) ∧
    (∀ L ∈ formats, ∀ y m d h mi sec ns : Nat, Ok y m d h mi sec ns →
      (L = RFC850 → 1969 ≤ y ∧ y ≤ 2068) →
      s = quoted ((⟨(y : Int), m, d, h, mi, sec, ns, UTC⟩ : Time).Format L) →
      s = quoted (mt2.Time.Format mt2.Format) ∧ MarshalJSON mt2 = (s, none)) := by
  have hp := unmarshal_tag_parse loc mt mt2 s hok
  refine ⟨unmarshal_tag_mem loc mt mt2 s hok, hp, ?_, ?_⟩
  · intro hf
    rw [hf] at hp
    obtain ⟨h1, h2⟩ := strict_DateOnly hp
    have e : mt2 = ⟨mt2.Time, DateOnly⟩ := by
      cases mt2
      simp only [MultiFormatTime.mk.injEq, true_and]
      exact hf
    rw [hf]
    refine ⟨h1, ?_⟩
    rw [e]
    exact h2
  · intro L hL y m d h mi sec ns o h850 hs
    exact canonical_returned loc mt mt2 s hok L hL o h850 hs

/-- Witness of C14 amended at the input `"2024-01-01"`, recorded as `DateOnly`. -/
theorem c14_strict_parse_witness :
    UnmarshalJSON UTC zeroValue (B "\"2024-01-01\"")
      = (⟨⟨2024, 1, 1, 0, 0, 0, 0, UTC⟩, DateOnly⟩, none) ∧
    Parse UTC (quoted DateOnly) (B "\"2024-01-01\"") = .ok ⟨2024, 1, 1, 0, 0, 0, 0, UTC⟩ ∧
    MarshalJSON ⟨⟨2024, 1, 1, 0, 0, 0, 0, UTC⟩, DateOnly⟩ = (B "\"2024-01-01\"", none) :=
  ⟨by decide,
   (c14_strict_parse UTC zeroValue ⟨⟨2024, 1, 1, 0, 0, 0, 0, UTC⟩, DateOnly⟩
      (B "\"2024-01-01\"") (by decide)).2.1,
   ((c14_strict_parse UTC zeroValue ⟨⟨2024, 1, 1, 0, 0, 0, 0, UTC⟩, DateOnly⟩
      (B "\"2024-01-01\"") (by decide)).2.2.1 rfl).2⟩

end Mft

namespace Mft
open Std

/-! ## Claim C12: which layouts of the registry overlap -/

/-- When at most one layout of the registry parses `s`, and one does, the loop of
`UnmarshalJSON` gives the same result over every list with the same entries as
`formats`, in any order. -/
theorem loop_order_free (loc : Location) (mt : MultiFormatTime) (s : GoString)
    (huniq : ∀ L1 ∈ formats, ∀ L2 ∈ formats, parses loc L1 s = true → parses loc L2 s = true →
      L1 = L2)
    (hsome : ∃ f ∈ formats, parses loc f s = true)
    (fs : List GoString) (hfs : ∀ L, L ∈ fs ↔ L ∈ formats) :
    unmarshalLoop loc mt s fs none = UnmarshalJSON loc mt s := by
  obtain ⟨f, hf, hpf⟩ := hsome
  have key : ∀ gs : List GoString, (∀ L, L ∈ gs ↔ L ∈ formats) →
      ∃ t, Parse loc (quoted f) s = .ok t ∧
        unmarshalLoop loc mt s gs none = onMatch loc mt s f t := by
    intro gs hgs
    rcases unmarshalLoop_cases loc mt s gs none with hall | ⟨pre, g, post, t, e, -, hp, hr⟩
    · have := hall f ((hgs f).2 hf)
      rw [hpf] at this
      cases this
    · have hg : g ∈ formats := (hgs g).1 (by rw [e]; simp)
      have hpg : parses loc g s = true := (parses_true_iff loc g s).2 ⟨t, hp⟩
      have e2 := huniq g hg f hf hpg hpf
      subst e2
      exact ⟨t, hp, hr⟩
  obtain ⟨t, hp, hr⟩ := key fs hfs
  obtain ⟨t2, hp2, hr2⟩ := key formats (fun _ => Iff.rfl)
  rw [hp] at hp2
  cases hp2
  unfold UnmarshalJSON
  rw [hr, hr2]

/-- C12, as stated, fails: `StampMilli` and `Stamp` are two distinct entries of
`formats` that both parse `"Jan  2 15:04:05.123"`, and they are not the RFC 3339
pair.  Neither layout of the RFC 3339 pair parses this input, yet two layouts of
the registry do, and the tag depends on the order: `UnmarshalJSON` records
`StampMilli`, the same loop over the registry in reverse order records `Stamp`. -/
theorem c12_counterexample :
    StampMilli ∈ formats ∧ Stamp ∈ formats ∧ StampMilli ≠ Stamp ∧
    parses UTC StampMilli (B "\"Jan  2 15:04:05.123\"") = true ∧
    parses UTC Stamp (B "\"Jan  2 15:04:05.123\"") = true ∧
    ¬ ((StampMilli = RFC3339 ∧ Stamp = RFC3339Nano) ∨
       (StampMilli = RFC3339Nano ∧ Stamp = RFC3339)) ∧
    parses UTC RFC3339 (B "\"Jan  2 15:04:05.123\"") = false ∧
    parses UTC RFC3339Nano (B "\"Jan  2 15:04:05.123\"") = false ∧
    UnmarshalJSON UTC zeroValue (B "\"Jan  2 15:04:05.123\"")
      = (⟨⟨0, 1, 2, 15, 4, 5, 123000000, UTC⟩, StampMilli⟩, none) ∧
    unmarshalLoop UTC zeroValue (B "\"Jan  2 15:04:05.123\"") formats.reverse none
      = (⟨⟨0, 1, 2, 15, 4, 5, 123000000, UTC⟩, Stamp⟩, none) := by
  refine ⟨by decide, by decide, by decide, by decide, by decide, by decide, by decide,
    by decide, by decide, by decide⟩

/-- C12, amended: for every input `s`, two distinct layouts of `formats` that both
parse `s` are the two layouts of one of seven pairs: `RFC3339` and `RFC3339Nano`,
`RubyDate` and `UnixDate`, `RFC822Z` and `RFC822`, `RFC1123Z` and `RFC1123`, or
`Stamp` and one of `StampNano`, `StampMicro`, `StampMilli`.  Hence for every input
that is not parsed by both layouts of one of these pairs at most one layout of the
registry parses it, and when one does the result of the loop of `UnmarshalJSON`,
tag included, is the same for every order of the registry. -/
theorem c12_overlapping_layouts (loc : Location) (mt : MultiFormatTime) (s : GoString) :
    (∀ L1 ∈ formats, ∀ L2 ∈ formats, L1 ≠ L2 →
      parses loc L1 s = true → parses loc L2 s = true →
      ∃ A B, (A, B) ∈ ([(RFC3339, RFC3339Nano), (RubyDate, UnixDate), (RFC822Z, RFC822),
          (RFC1123Z, RFC1123), (StampNano, Stamp), (StampMicro, Stamp), (StampMilli, Stamp)] :
            List (GoString × GoString)) ∧
        ((L1 = A ∧ L2 = B) ∨ (L1 = B ∧ L2 = A))) ∧
    ((∀ p ∈ ([(RFC3339, RFC3339Nano), (RubyDate, UnixDate), (RFC822Z, RFC822),
          (RFC1123Z, RFC1123), (StampNano, Stamp), (StampMicro, Stamp), (StampMilli, Stamp)] :
            List (GoString × GoString)),
        ¬ (parses loc p.1 s = true ∧ parses loc p.2 s = true)) →
      (∀ L1 ∈ formats, ∀ L2 ∈ formats, parses loc L1 s = true → parses loc L2 s = true →
        L1 = L2) ∧
      ((∃ f ∈ formats, parses loc f s = true) →
        ∀ fs : List GoString, (∀ L, L ∈ fs ↔ L ∈ formats) →
          unmarshalLoop loc mt s fs none = UnmarshalJSON loc mt s)) := by
  refine ⟨fun L1 h1 L2 h2 hne p1 p2 => overlap_pairs loc s L1 L2 h1 h2 hne p1 p2, ?_⟩
  intro hno
  have huniq : ∀ L1 ∈ formats, ∀ L2 ∈ formats, parses loc L1 s = true →
      parses loc L2 s = true → L1 = L2 := by
    intro L1 h1 L2 h2 p1 p2
    by_contra hne
    obtain ⟨A, B, hm, hc⟩ := overlap_pairs loc s L1 L2 h1 h2 hne p1 p2
    rcases hc with ⟨rfl, rfl⟩ | ⟨rfl, rfl⟩
    · exact hno (L1, L2) hm ⟨p1, p2⟩
    · exact hno (L2, L1) hm ⟨p2, p1⟩
  exact ⟨huniq, fun hsome fs hfs => loop_order_free loc mt s huniq hsome fs hfs⟩

/-- Witness of C12 amended at the input `"2024-01-01"`, which `DateOnly` alone
parses: the loop over the registry in reverse order gives what `UnmarshalJSON`
gives. -/
theorem c12_overlapping_layouts_witness :
    (∀ p ∈ ([(RFC3339, RFC3339Nano), (RubyDate, UnixDate), (RFC822Z, RFC822),
          (RFC1123Z, RFC1123), (StampNano, Stamp), (StampMicro, Stamp), (StampMilli, Stamp)] :
            List (GoString × GoString)),
        ¬ (parses UTC p.1 (B "\"2024-01-01\"") = true ∧
           parses UTC p.2 (B "\"2024-01-01\"") = true)) ∧
    (∃ f ∈ formats, parses UTC f (B "\"2024-01-01\"") = true) ∧
    unmarshalLoop UTC zeroValue (B "\"2024-01-01\"") formats.reverse none
      = UnmarshalJSON UTC zeroValue (B "\"2024-01-01\"") :=
  ⟨by decide, ⟨DateOnly, by decide, by decide⟩,
   ((c12_overlapping_layouts UTC zeroValue (B "\"2024-01-01\"")).2 (by decide)).2
     ⟨DateOnly, by decide, by decide⟩ formats.reverse (fun _ => List.mem_reverse)⟩

end Mft

namespace Mft
open Std

/-! ## Claim C15: fractional seconds through a decode, encode, decode cycle -/

/-- C15, as stated, fails, in both parts.  The input `"2024-01-01 00:00:00.5"` is
accepted with a sub-second part of 500000000 ns and the tag `DateTime`, which is
none of `RFC3339Nano`, `StampMilli`, `StampMicro`, `StampNano`; `MarshalJSON` of the
decoded value returns `"2024-01-01 00:00:00"`, which decodes with a sub-second part
of 0.  The input `"2024-01-01T00:00:00.5+24:60"` is accepted with the tag
`RFC3339Nano` and a zone of 25 hours; `MarshalJSON` returns
`"2024-01-01T00:00:00.5+25:00"`, which `UnmarshalJSON` refuses. -/
theorem c15_counterexample :
    (UnmarshalJSON UTC zeroValue (B "\"2024-01-01 00:00:00.5\"")
        = (⟨⟨2024, 1, 1, 0, 0, 0, 500000000, UTC⟩, DateTime⟩, none) ∧
      DateTime ∉ [RFC3339Nano, StampMilli, StampMicro, StampNano] ∧
      MarshalJSON ⟨⟨2024, 1, 1, 0, 0, 0, 500000000, UTC⟩, DateTime⟩
        = (B "\"2024-01-01 00:00:00\"", none) ∧
      UnmarshalJSON UTC zeroValue (B "\"2024-01-01 00:00:00\"")
        = (⟨⟨2024, 1, 1, 0, 0, 0, 0, UTC⟩, DateTime⟩, none)) ∧
    (UnmarshalJSON UTC zeroValue (B "\"2024-01-01T00:00:00.5+24:60\"")
        = (⟨⟨2024, 1, 1, 0, 0, 0, 500000000, FixedZone [] 90000⟩, RFC3339Nano⟩, none) ∧
      MarshalJSON ⟨⟨2024, 1, 1, 0, 0, 0, 500000000, FixedZone [] 90000⟩, RFC3339Nano⟩
        = (B "\"2024-01-01T00:00:00.5+25:00\"", none) ∧
      (UnmarshalJSON UTC zeroValue (B "\"2024-01-01T00:00:00.5+25:00\"")).2 ≠ none) := by
  refine ⟨⟨by decide, by decide, by decide, by decide⟩, ⟨by decide, by decide, by decide⟩⟩

/-- C15, amended: for every input `s` that `UnmarshalJSON` accepts, a recorded
layout `RFC3339` means that `s` has no `.`; and when the recorded layout is
`StampMilli`, `StampMicro` or `StampNano`, or is `RFC3339Nano` with a decoded zone
offset of less than 25 hours either way, `MarshalJSON` of the decoded value
succeeds and decoding its text (with any receiver) succeeds and yields an instant
with the same sub-second part. -/
theorem c15_fraction_kept (loc : Location) (mt mt' mt2 : MultiFormatTime) (s : GoString)
    (hok : UnmarshalJSON loc mt s = (mt2, none)) :
    (mt2.Format = RFC3339 → containsDot s = false) ∧
    (mt2.Format = StampMilli ∨ mt2.Format = StampMicro ∨ mt2.Format = StampNano ∨
        (mt2.Format = RFC3339Nano ∧ -90000 < mt2.Time.loc.offset ∧
          mt2.Time.loc.offset < 90000) →
      (MarshalJSON mt2).2 = none ∧
      ∃ mt3, UnmarshalJSON loc mt' (MarshalJSON mt2).1 = (mt3, none) ∧
        mt3.Time.nsec = mt2.Time.nsec) := by
  have hp := unmarshal_tag_parse loc mt mt2 s hok
  refine ⟨?_, ?_⟩
  · intro hf
    obtain ⟨pre, f, post, t, -, -, -, h⟩ := unmarshal_ok_inv loc mt mt2 s hok
    rcases h with ⟨h1, h2⟩ | ⟨-, -, t2, -, h2⟩
    · rw [h1] at hf
      have e : f = RFC3339 := hf
      by_contra hc
      exact h2 ⟨e, by simpa using hc⟩
    · rw [h2] at hf
      exact absurd hf (show ¬ RFC3339Nano = RFC3339 by decide)
  · intro hfrac
    obtain ⟨T, F⟩ := mt2
    dsimp only at hp hfrac ⊢
    rcases hfrac with rfl | rfl | rfl | ⟨rfl, hlo, hhi⟩
    · obtain ⟨i, d, h0, mi, sec, x, a1, a2, a3, a4, a5, a6, a7, rfl⟩ := dec_StampMilli hp
      exact stampMilli_redecode loc mt' a1 a2 a3 a4 a5 a6 a7
    · obtain ⟨i, d, h0, mi, sec, x, a1, a2, a3, a4, a5, a6, a7, rfl⟩ := dec_StampMicro hp
      exact stampMicro_redecode loc mt' a1 a2 a3 a4 a5 a6 a7
    · obtain ⟨i, d, h0, mi, sec, x, a1, a2, a3, a4, a5, a6, a7, rfl⟩ := dec_StampNano hp
      exact stampNano_redecode loc mt' a1 a2 a3 a4 a5 a6 a7
    · obtain ⟨y, m, d, h0, mi, sec, ns, L, o, rfl, z, hz, hL⟩ := dec_RFC3339Nano hp
      dsimp only at hlo hhi
      have hz2 : z < 1500 := by
        rcases hL with e | e <;> rw [e] at hlo hhi <;> omega
      exact nano_redecode loc mt' o L z hz2 hL

/-- Witness of C15 amended at the input `"2024-01-01T00:00:00.5+09:00"`, recorded
as `RFC3339Nano`. -/
theorem c15_fraction_kept_witness :
    UnmarshalJSON UTC zeroValue (B "\"2024-01-01T00:00:00.5+09:00\"")
      = (⟨⟨2024, 1, 1, 0, 0, 0, 500000000, FixedZone [] 32400⟩, RFC3339Nano⟩, none) ∧
    ((MarshalJSON ⟨⟨2024, 1, 1, 0, 0, 0, 500000000, FixedZone [] 32400⟩, RFC3339Nano⟩).2 = none ∧
      ∃ mt3, UnmarshalJSON UTC zeroValue
          (MarshalJSON ⟨⟨2024, 1, 1, 0, 0, 0, 500000000, FixedZone [] 32400⟩, RFC3339Nano⟩).1
            = (mt3, none) ∧
        mt3.Time.nsec = 500000000) :=
  ⟨by decide,
   (c15_fraction_kept UTC zeroValue zeroValue
      ⟨⟨2024, 1, 1, 0, 0, 0, 500000000, FixedZone [] 32400⟩, RFC3339Nano⟩
      (B "\"2024-01-01T00:00:00.5+09:00\"") (by decide)).2
     (Or.inr (Or.inr (Or.inr ⟨rfl, by decide, by decide⟩)))⟩

end Mft
